import Mathlib

/-!
# Verification development for the TVM code-generation backend

Shallow embedding of parts of `libsolidity/codegen/TVMPusher.cpp` and
`libsolidity/codegen/TVMOptimizations.cpp`.

Conventions of the embedding:

* a C++ `std::string` is a Lean `String`, a `std::vector<std::string>` a `List String`;
* a C++ `int` is a Lean `Int` (no wrap-around is modelled: every quantity below is a
  stack depth, a line index or an operand of an instruction);
* a failed `solAssert` / `solUnimplemented` / thrown exception is `none`.
-/

namespace TVM

/-! ## CodeLines and TVMStack (TVMPusher.cpp) -/

/-- The instruction log `CodeLines`: the lines emitted so far and the nesting depth. -/
structure CodeLines where
  lines : List String
  tabQty : Int
  deriving DecidableEq, Repr

/-- The string `std::string(n, '\t')`. -/
def tabs (n : Int) : String := String.mk (List.replicate n.toNat '\t')

/-- `CodeLines::push`. -/
def CodeLines.push (c : CodeLines) (cmd : String) : Option CodeLines :=
  if cmd = "" ∨ cmd = "\n" then some c
  else if cmd = " " then some { c with lines := c.lines ++ [""] }
  else if c.tabQty < 0 then none
  else some { c with lines := c.lines ++ [tabs c.tabQty ++ cmd] }

/-- `CodeLines::addTabs`. -/
def CodeLines.addTabs (c : CodeLines) (qty : Int) : CodeLines :=
  { c with tabQty := c.tabQty + qty }

/-- `CodeLines::subTabs`. -/
def CodeLines.subTabs (c : CodeLines) (qty : Int) : CodeLines :=
  { c with tabQty := c.tabQty - qty }

/-- `CodeLines::startCallRef`. -/
def CodeLines.startCallRef (c : CodeLines) : Option CodeLines :=
  (c.push "CALLREF \x7b").map (fun c1 => { c1 with tabQty := c1.tabQty + 1 })

/-- `CodeLines::endContinuation`. -/
def CodeLines.endContinuation (c : CodeLines) : Option CodeLines :=
  (({ c with tabQty := c.tabQty - 1 } : CodeLines).push "\x7d").bind
    (fun c1 => if c1.tabQty < 0 then none else some c1)

/-- The symbolic stack `TVMStack`: the recorded size and, per slot, the declaration bound to
it (`none` is the null pointer). Declarations are identified by numbers. -/
structure TVMStack where
  m_size : Int
  m_stackSize : List (Option Nat)
  deriving DecidableEq, Repr

/-- `TVMStack::change`. -/
def TVMStack.change (s : TVMStack) (diff : Int) : Option TVMStack :=
  if diff ≠ 0 then
    if s.m_size + diff < 0 then none else some { s with m_size := s.m_size + diff }
  else some s

/-- The emitter `StackPusherHelper`, reduced to its log and its stack model. -/
structure StackPusherHelper where
  m_code : CodeLines
  m_stack : TVMStack
  deriving DecidableEq, Repr

/-- `StackPusherHelper::push(int stackDiff, const string& cmd)`. -/
def StackPusherHelper.push (p : StackPusherHelper) (stackDiff : Int) (cmd : String) :
    Option StackPusherHelper :=
  (p.m_code.push cmd).bind fun c =>
    (p.m_stack.change stackDiff).map fun s => { m_code := c, m_stack := s }

/-- A finite sequence of `push` calls, run in order. -/
def StackPusherHelper.pushAll (p : StackPusherHelper) :
    List (Int × String) → Option StackPusherHelper
  | [] => some p
  | (d, c) :: rest => (p.push d c).bind fun p1 => p1.pushAll rest

/-- The running totals `s + d1 + ... + dk` of a call sequence are all non-negative. -/
def runningTotalsNonneg (s : Int) : List (Int × String) → Prop
  | [] => True
  | (d, _) :: rest => 0 ≤ s + d ∧ runningTotalsNonneg (s + d) rest

/-- The sum `d1 + ... + dn` of the declared deltas. -/
def sumDeltas (calls : List (Int × String)) : Int := (calls.map Prod.fst).sum

/-- What the log gains according to the specification: every command that is neither empty
nor a lone newline, prefixed by `depth` tabs. -/
def specLoggedLines (depth : Int) (calls : List (Int × String)) : List String :=
  ((calls.map Prod.snd).filter fun c => decide (c ≠ "" ∧ c ≠ "\n")).map fun c => tabs depth ++ c

/-- What `CodeLines::push` stores for one command that is neither empty nor a lone newline. -/
def loggedLine (depth : Int) (c : String) : String :=
  if c = " " then "" else tabs depth ++ c

/-- What the log gains in the code: as `specLoggedLines`, a single space giving an empty
line. -/
def codeLoggedLines (depth : Int) (calls : List (Int × String)) : List String :=
  ((calls.map Prod.snd).filter fun c => decide (c ≠ "" ∧ c ≠ "\n")).map (loggedLine depth)

/-! ## The call graph of TVMCompilerContext (TVMPusher.cpp)

A `std::map` is an association list in increasing key order, a `std::set` an increasing
list. Functions (`FunctionDefinition const*`) are identified by numbers. -/

/-- The colours of the depth-first search. -/
inductive Color where
  | White
  | Red
  | Black
  deriving DecidableEq, Repr

/-- `m.find(k)`: the value stored under `k`, if any. -/
def mapLookup {α : Type} : List (Nat × α) → Nat → Option α
  | [], _ => none
  | (k1, v1) :: rest, k => if k = k1 then some v1 else mapLookup rest k

/-- `m[k] = v`: replaces the value under `k`, or inserts the key in order. -/
def mapSet {α : Type} : List (Nat × α) → Nat → α → List (Nat × α)
  | [], k, v => [(k, v)]
  | (k1, v1) :: rest, k, v =>
    if k = k1 then (k, v) :: rest
    else if k < k1 then (k, v) :: (k1, v1) :: rest
    else (k1, v1) :: mapSet rest k v

/-- `m.at(k) = v` for a key that is present: replaces the value under `k`. -/
def mapAssign {α : Type} : List (Nat × α) → Nat → α → List (Nat × α)
  | [], _, _ => []
  | (k1, v1) :: rest, k, v =>
    if k = k1 then (k, v) :: rest else (k1, v1) :: mapAssign rest k v

/-- `s.insert(x)` on a `std::set`. -/
def setInsert : List Nat → Nat → List Nat
  | [], x => [x]
  | y :: rest, x =>
    if x = y then y :: rest
    else if x < y then x :: y :: rest
    else y :: setInsert rest x

/-- `s.erase(x)` on a `std::set`. -/
def setErase (s : List Nat) (x : Nat) : List Nat := s.filter fun y => decide (y ≠ x)

/-- The members `graph` and `color` of `TVMCompilerContext`. -/
structure TVMCompilerContext where
  graph : List (Nat × List Nat)
  color : List (Nat × Color)
  deriving DecidableEq, Repr

/-- The context before any call is registered. -/
def TVMCompilerContext.empty : TVMCompilerContext := ⟨[], []⟩

/-- The loop `for (x : xs) if (f(x)) return true;` over a colour map, `f` failing with
`none`. -/
def forLoop (f : List (Nat × Color) → Nat → Option (Bool × List (Nat × Color))) :
    List (Nat × Color) → List Nat → Option (Bool × List (Nat × Color))
  | c, [] => some (false, c)
  | c, x :: rest =>
    match f c x with
    | none => none
    | some (true, c1) => some (true, c1)
    | some (false, c1) => forLoop f c1 rest

/-- `TVMCompilerContext::dfs`, with a bound on the recursion depth; the result is the
returned flag and the colour map afterwards. `none` is a thrown `at()` or an exhausted
bound. -/
def dfs (graph : List (Nat × List Nat)) :
    Nat → List (Nat × Color) → Nat → Option (Bool × List (Nat × Color))
  | 0 => fun _ _ => none
  | fuel + 1 => fun color v =>
    match mapLookup color v with
    | none => none
    | some Color.Black => some (false, color)
    | some Color.Red => some (true, color)
    | some Color.White =>
      match mapLookup graph v with
      | none => none
      | some succs =>
        match forLoop (dfs graph fuel) (mapAssign color v Color.Red) succs with
        | none => none
        | some (true, c1) => some (true, c1)
        | some (false, c1) => some (false, mapAssign c1 v Color.Black)

/-- The statement `graph[_v].insert(_to); graph[_to];`. -/
def addEdge (graph : List (Nat × List Nat)) (v to_ : Nat) : List (Nat × List Nat) :=
  let g1 := mapSet graph v (setInsert ((mapLookup graph v).getD []) to_)
  match mapLookup g1 to_ with
  | some _ => g1
  | none => mapSet g1 to_ []

/-- The statement `graph[_v].erase(_to)`. -/
def eraseEdge (graph : List (Nat × List Nat)) (v to_ : Nat) : List (Nat × List Nat) :=
  mapSet graph v (setErase ((mapLookup graph v).getD []) to_)

/-- The loop `for (k : keys) color[k] = Color::White`. -/
def resetColors (color : List (Nat × Color)) (keys : List Nat) : List (Nat × Color) :=
  keys.foldl (fun c k => mapSet c k Color.White) color

/-- `TVMCompilerContext::addAndDoesHaveLoop`: the returned flag and the context afterwards.
The recursion bound handed to `dfs` is one more than the number of coloured functions. -/
def TVMCompilerContext.addAndDoesHaveLoop (ctx : TVMCompilerContext) (v to_ : Nat) :
    Option (Bool × TVMCompilerContext) :=
  let g1 := addEdge ctx.graph v to_
  let keys := g1.map Prod.fst
  let c0 := resetColors ctx.color keys
  match forLoop (dfs g1 (c0.length + 1)) c0 keys with
  | none => none
  | some (true, c1) => some (true, ⟨eraseEdge g1 v to_, c1⟩)
  | some (false, c1) => some (false, ⟨g1, c1⟩)

/-- The call-graph edge `a -> b` is stored in `graph`. -/
def Edge (graph : List (Nat × List Nat)) (a b : Nat) : Prop :=
  ∃ s, mapLookup graph a = some s ∧ b ∈ s

/-- The graph has a directed cycle (a self-loop included). -/
def HasCycle (graph : List (Nat × List Nat)) : Prop :=
  ∃ a, Relation.TransGen (Edge graph) a a

/-- The contexts reachable from the empty one by `addAndDoesHaveLoop` calls. -/
inductive Reachable : TVMCompilerContext → Prop where
  | empty : Reachable TVMCompilerContext.empty
  | step (ctx ctx1 : TVMCompilerContext) (v to_ : Nat) (b : Bool) :
      Reachable ctx → ctx.addAndDoesHaveLoop v to_ = some (b, ctx1) → Reachable ctx1

/-- Every successor stored in the graph is itself a key of the graph. -/
def GraphClosed (graph : List (Nat × List Nat)) : Prop :=
  ∀ u s, mapLookup graph u = some s → ∀ w ∈ s, (mapLookup graph w).isSome = true

/-- Every key of the graph has a colour. -/
def ColorCovers (graph : List (Nat × List Nat)) (color : List (Nat × Color)) : Prop :=
  ∀ u, (mapLookup graph u).isSome = true → (mapLookup color u).isSome = true

/-- The black functions are closed under calls and lie on no cycle. -/
def BlackInv (graph : List (Nat × List Nat)) (color : List (Nat × Color)) : Prop :=
  ∀ u, mapLookup color u = some Color.Black →
    (∀ w, Edge graph u w → mapLookup color w = some Color.Black) ∧
      ¬ Relation.TransGen (Edge graph) u u

/-- Between two colour maps, a colour is unchanged or has gone from white to black. -/
def Frame (c c1 : List (Nat × Color)) : Prop :=
  ∀ u, mapLookup c1 u = mapLookup c u ∨
    (mapLookup c u = some Color.White ∧ mapLookup c1 u = some Color.Black)

/-- The number of white entries of a colour map. -/
def whiteCount (c : List (Nat × Color)) : Nat :=
  (c.filter fun e => decide (e.2 = Color.White)).length

/-- The contract of a search started on the functions `xs` from the colour map `c`: it
returns; a `false` answer leaves every function of `xs` black and keeps the invariants; a
`true` answer comes from a cycle or from a path into a function that was red in `c`. -/
def DfsPost (graph : List (Nat × List Nat)) (c : List (Nat × Color)) (xs : List Nat)
    (r : Option (Bool × List (Nat × Color))) : Prop :=
  ∃ b c1, r = some (b, c1) ∧
    (b = false → ColorCovers graph c1 ∧ whiteCount c1 ≤ whiteCount c ∧ BlackInv graph c1 ∧
      (∀ x ∈ xs, mapLookup c1 x = some Color.Black) ∧ Frame c c1) ∧
    (b = true → HasCycle graph ∨
      ∃ x ∈ xs, ∃ t, mapLookup c t = some Color.Red ∧ Relation.ReflTransGen (Edge graph) x t)

/-- `Type::Category`. -/
inductive Category where
  | Address | Integer | RationalNumber | StringLiteral | Bool | FixedPoint | Array
  | FixedBytes | Contract | Struct | Function | Enum | Tuple | Mapping | TypeType
  | Modifier | Magic | Module | InaccessibleDynamic | TvmCell | TvmSlice | TvmBuilder
  | ExtraCurrencyCollection | VarInteger | Optional
  deriving DecidableEq, Repr

mutual
/-- A type: its category with the attributes read by the code generator. `Other` stands
for a type of one of the remaining categories. -/
inductive SolType where
  | Integer (numBits : Nat) (isSigned : Bool)
  | FixedPoint (numBits : Nat) (fractionalDigits : Nat) (isSigned : Bool)
  | RationalNumber (mobileType : SolType)
  | FixedBytes (numBytes : Nat)
  | StringLiteral (value : List Int)
  | Array (isByteArray : Bool) (baseType : SolType)
  | Optional (valueType : SolType)
  | Mapping (keyType : SolType) (valueType : SolType)
  | Struct (members : SolTypeList)
  | Tuple (components : SolTypeList)
  | VarInteger (number : Nat)
  | Enum (numberOfMembers : Nat)
  | Address
  | Bool
  | Contract
  | ExtraCurrencyCollection
  | Function
  | TvmBuilder
  | TvmCell
  | TvmSlice
  | Other (category : Category)
  deriving Repr
/-- A list of types (the members of a struct, the components of a tuple). -/
inductive SolTypeList where
  | nil
  | cons (head : SolType) (tail : SolTypeList)
  deriving Repr
end

/-! Equality of types (`operator==` on `Type`) is decided on a tree of numbers that
determines the type: `SolType.code` builds the tree and `TypeCode.type` reads the type
back. -/

/-- The tree of numbers of a type: the tag of its constructor and its attributes. -/
inductive TypeCode where
  | leaf (tag : Nat) (numbers : List Int) (category : Category)
  | node (tag : Nat) (flag : Bool) (left : TypeCode) (right : TypeCode)
  deriving DecidableEq, Repr

mutual
/-- The tree of a type: one tag for each constructor, and its attributes. -/
def SolType.code : SolType → TypeCode
  | .Integer numBits isSigned => .leaf 0 [numBits, if isSigned then 1 else 0] .Integer
  | .FixedPoint numBits fractionalDigits isSigned =>
    .leaf 1 [numBits, fractionalDigits, if isSigned then 1 else 0] .Integer
  | .RationalNumber mobileType => .node 2 false mobileType.code (.leaf 0 [] .Integer)
  | .FixedBytes numBytes => .leaf 3 [numBytes] .Integer
  | .StringLiteral value => .leaf 4 value .Integer
  | .Array isByteArray baseType => .node 5 isByteArray baseType.code (.leaf 0 [] .Integer)
  | .Optional valueType => .node 6 false valueType.code (.leaf 0 [] .Integer)
  | .Mapping keyType valueType => .node 7 false keyType.code valueType.code
  | .Struct members => .node 8 false members.code (.leaf 0 [] .Integer)
  | .Tuple components => .node 9 false components.code (.leaf 0 [] .Integer)
  | .VarInteger number => .leaf 10 [number] .Integer
  | .Enum numberOfMembers => .leaf 11 [numberOfMembers] .Integer
  | .Address => .leaf 12 [] .Integer
  | .Bool => .leaf 13 [] .Integer
  | .Contract => .leaf 14 [] .Integer
  | .ExtraCurrencyCollection => .leaf 15 [] .Integer
  | .Function => .leaf 16 [] .Integer
  | .TvmBuilder => .leaf 17 [] .Integer
  | .TvmCell => .leaf 18 [] .Integer
  | .TvmSlice => .leaf 19 [] .Integer
  | .Other category => .leaf 20 [] category
/-- The tree of a list of types. -/
def SolTypeList.code : SolTypeList → TypeCode
  | .nil => .leaf 0 [] .Integer
  | .cons head tail => .node 1 false head.code tail.code
end

mutual
/-- The type with a given tree. -/
def TypeCode.type : TypeCode → Option SolType
  | .leaf tag numbers category =>
    if tag = 0 then some (.Integer (numbers.getD 0 0).toNat (numbers.getD 1 0 = 1))
    else if tag = 1 then
      some (.FixedPoint (numbers.getD 0 0).toNat (numbers.getD 1 0).toNat (numbers.getD 2 0 = 1))
    else if tag = 3 then some (.FixedBytes (numbers.getD 0 0).toNat)
    else if tag = 4 then some (.StringLiteral numbers)
    else if tag = 10 then some (.VarInteger (numbers.getD 0 0).toNat)
    else if tag = 11 then some (.Enum (numbers.getD 0 0).toNat)
    else if tag = 12 then some .Address
    else if tag = 13 then some .Bool
    else if tag = 14 then some .Contract
    else if tag = 15 then some .ExtraCurrencyCollection
    else if tag = 16 then some .Function
    else if tag = 17 then some .TvmBuilder
    else if tag = 18 then some .TvmCell
    else if tag = 19 then some .TvmSlice
    else some (.Other category)
  | .node tag flag left right =>
    if tag = 2 then left.type.map .RationalNumber
    else if tag = 5 then left.type.map (.Array flag)
    else if tag = 6 then left.type.map .Optional
    else if tag = 7 then
      match left.type, right.type with
      | some k, some v => some (.Mapping k v)
      | _, _ => none
    else if tag = 8 then left.types.map .Struct
    else left.types.map .Tuple
/-- The list of types with a given tree. -/
def TypeCode.types : TypeCode → Option SolTypeList
  | .leaf _ _ _ => some .nil
  | .node _ _ left right =>
    match left.type, right.types with
    | some h, some t => some (.cons h t)
    | _, _ => none
end

instance : DecidableEq SolType := fun a b =>
  decidable_of_iff (a.code = b.code)
    ⟨fun h => by
      have key : ∀ t : SolType, t.code.type = some t := fun t =>
        @SolType.rec (fun t => t.code.type = some t) (fun l => l.code.types = some l)
          (fun numBits isSigned => by cases isSigned <;> simp [SolType.code, TypeCode.type])
          (fun numBits fractionalDigits isSigned => by
            cases isSigned <;> simp [SolType.code, TypeCode.type])
          (fun mobileType ih => by simp [SolType.code, TypeCode.type, ih])
          (fun numBytes => by simp [SolType.code, TypeCode.type])
          (fun value => by simp [SolType.code, TypeCode.type])
          (fun isByteArray baseType ih => by simp [SolType.code, TypeCode.type, ih])
          (fun valueType ih => by simp [SolType.code, TypeCode.type, ih])
          (fun keyType valueType ih1 ih2 => by simp [SolType.code, TypeCode.type, ih1, ih2])
          (fun members ih => by simp [SolType.code, TypeCode.type, ih])
          (fun components ih => by simp [SolType.code, TypeCode.type, ih])
          (fun number => by simp [SolType.code, TypeCode.type])
          (fun numberOfMembers => by simp [SolType.code, TypeCode.type])
          (by simp [SolType.code, TypeCode.type])
          (by simp [SolType.code, TypeCode.type])
          (by simp [SolType.code, TypeCode.type])
          (by simp [SolType.code, TypeCode.type])
          (by simp [SolType.code, TypeCode.type])
          (by simp [SolType.code, TypeCode.type])
          (by simp [SolType.code, TypeCode.type])
          (by simp [SolType.code, TypeCode.type])
          (fun category => by simp [SolType.code, TypeCode.type])
          (by simp [SolTypeList.code, TypeCode.types])
          (fun head tail ih1 ih2 => by simp [SolTypeList.code, TypeCode.types, ih1, ih2])
          t
      exact Option.some.inj (by rw [← key a, ← key b, h]),
      fun h => by rw [h]⟩

instance : DecidableEq SolTypeList := fun a b =>
  decidable_of_iff (SolType.Struct a = SolType.Struct b)
    ⟨fun h => SolType.Struct.inj h, fun h => by rw [h]⟩

/-- `Type::category()`. -/
def SolType.category : SolType → Category
  | .Integer _ _ => .Integer
  | .FixedPoint _ _ _ => .FixedPoint
  | .RationalNumber _ => .RationalNumber
  | .FixedBytes _ => .FixedBytes
  | .StringLiteral _ => .StringLiteral
  | .Array _ _ => .Array
  | .Optional _ => .Optional
  | .Mapping _ _ => .Mapping
  | .Struct _ => .Struct
  | .Tuple _ => .Tuple
  | .VarInteger _ => .VarInteger
  | .Enum _ => .Enum
  | .Address => .Address
  | .Bool => .Bool
  | .Contract => .Contract
  | .ExtraCurrencyCollection => .ExtraCurrencyCollection
  | .Function => .Function
  | .TvmBuilder => .TvmBuilder
  | .TvmCell => .TvmCell
  | .TvmSlice => .TvmSlice
  | .Other c => c

/-! ## Conversions (TVMPusher.cpp) -/

/-- `StackPusherHelper::pushInt`. -/
def StackPusherHelper.pushInt (p : StackPusherHelper) (i : Int) : Option StackPusherHelper :=
  p.push 1 ("PUSHINT " ++ toString i)

/-- The loop `for (i = 1; i <= power; ++i) r *= 10` of `pow10`, for the remaining number
of iterations. -/
def pow10Loop : Nat → Int → Int
  | 0, r => r
  | n + 1, r => pow10Loop n (r * 10)

/-- `StackPusherHelper::pow10`. -/
def pow10 (power : Int) : Int := pow10Loop power.toNat 1

/-- `StackPusherHelper::drop`. -/
def StackPusherHelper.drop (p : StackPusherHelper) (cnt : Int) : Option StackPusherHelper :=
  if cnt < 0 then none
  else if cnt = 0 then some p
  else if cnt = 1 then p.push (-1) "DROP"
  else if cnt = 2 then p.push (-2) "DROP2"
  else if cnt > 15 then (p.pushInt cnt).bind fun p1 => p1.push (-(cnt + 1)) "DROPX"
  else p.push (-cnt) ("BLKDROP " ++ toString cnt)

/-- `StackPusherHelper::tuple`. -/
def StackPusherHelper.tuple (p : StackPusherHelper) (qty : Int) : Option StackPusherHelper :=
  if qty < 0 then none
  else if qty ≤ 15 then p.push (-qty + 1) ("TUPLE " ++ toString qty)
  else if ¬ qty ≤ 255 then none
  else (p.pushInt qty).bind fun p1 => p1.push (-1 - qty + 1) "TUPLEVAR"

/-- `StackPusherHelper::checkFit`. -/
def StackPusherHelper.checkFit (p : StackPusherHelper) : SolType → Option StackPusherHelper
  | .Integer numBits isSigned =>
    if isSigned then p.push 0 ("FITS " ++ toString numBits)
    else p.push 0 ("UFITS " ++ toString numBits)
  | .FixedPoint numBits _ isSigned =>
    if isSigned then p.push 0 ("FITS " ++ toString numBits)
    else p.push 0 ("UFITS " ++ toString numBits)
  | _ => none

/-- The lambda `fixedPointFromFixedPoint` of `hardConvert`; `l` is the target and `lFrac`,
`rFrac` are the fractional digits of target and source. -/
def fixedPointFromFixedPoint (impl : Bool) (l : SolType) (lFrac rFrac : Nat)
    (p : StackPusherHelper) : Option StackPusherHelper :=
  let powerDiff : Int := (lFrac : Int) - (rFrac : Int)
  let scaled : Option StackPusherHelper :=
    if powerDiff ≠ 0 then
      if powerDiff > 0 then (p.pushInt (pow10 powerDiff)).bind fun p1 => p1.push (-2 + 1) "MUL"
      else (p.pushInt (pow10 (-powerDiff))).bind fun p1 => p1.push (-2 + 1) "DIV"
    else some p
  scaled.bind fun p1 => if ¬ impl then p1.checkFit l else some p1

/-- The lambda `integerFromFixedPoint` of `hardConvert`. -/
def integerFromFixedPoint (impl : Bool) (l : SolType) (rFrac : Nat)
    (p : StackPusherHelper) : Option StackPusherHelper :=
  let powerDiff : Int := (rFrac : Int)
  let scaled : Option StackPusherHelper :=
    if powerDiff > 0 then (p.pushInt (pow10 powerDiff)).bind fun p1 => p1.push (-2 + 1) "DIV"
    else some p
  scaled.bind fun p1 => if ¬ impl then p1.checkFit l else some p1

/-- The lambda `integerFromInteger` of `hardConvert`. -/
def integerFromInteger (impl : Bool) (l : SolType)
    (p : StackPusherHelper) : Option StackPusherHelper :=
  if ¬ impl then p.checkFit l else some p

/-- The lambda `fixedPointFromInteger` of `hardConvert`. -/
def fixedPointFromInteger (impl : Bool) (l : SolType) (lFrac : Nat)
    (p : StackPusherHelper) : Option StackPusherHelper :=
  let powerDiff : Int := (lFrac : Int)
  let scaled : Option StackPusherHelper :=
    if powerDiff > 0 then (p.pushInt (pow10 powerDiff)).bind fun p1 => p1.push (-2 + 1) "MUL"
    else some p
  scaled.bind fun p1 => if ¬ impl then p1.checkFit l else some p1

/-- The lambda `fixedBytesFromFixedBytes` of `hardConvert`. -/
def fixedBytesFromFixedBytes (lBytes rBytes : Nat)
    (p : StackPusherHelper) : Option StackPusherHelper :=
  let diff : Int := 8 * ((lBytes : Int) - (rBytes : Int))
  if diff > 0 then p.push 0 ("LSHIFT " ++ toString diff)
  else if diff < 0 then p.push 0 ("RSHIFT " ++ toString (-diff))
  else some p

/-- The two loops of `fixedBytesFromStringLiteral`, in `u256` arithmetic. -/
def stringLiteralValue (lBytes : Nat) (value : List Int) : Int :=
  let v := value.foldl (fun acc c => (acc * 256 + c) % 2 ^ 256) 0
  (v * 256 ^ (lBytes - value.length)) % 2 ^ 256

/-- The lambda `fixedBytesFromStringLiteral` of `hardConvert`. -/
def fixedBytesFromStringLiteral (lBytes : Nat) (value : List Int)
    (p : StackPusherHelper) : Option StackPusherHelper :=
  (p.drop 1).bind fun p1 => p1.push 1 ("PUSHINT " ++ toString (stringLiteralValue lBytes value))

/-- The lambda `fromFixedPoint` of `hardConvert`; `rFrac` are the fractional digits of the
source. -/
def fromFixedPoint (impl : Bool) (leftType : SolType) (rFrac : Nat)
    (p : StackPusherHelper) : Option StackPusherHelper :=
  match leftType with
  | .FixedPoint _ lFrac _ => fixedPointFromFixedPoint impl leftType lFrac rFrac p
  | .Integer _ _ => integerFromFixedPoint impl leftType rFrac p
  | _ => none

/-- The lambda `fromInteger` of `hardConvert`. -/
def fromInteger (impl : Bool) (leftType : SolType)
    (p : StackPusherHelper) : Option StackPusherHelper :=
  match leftType with
  | .FixedPoint _ lFrac _ => fixedPointFromInteger impl leftType lFrac p
  | .Integer _ _ => integerFromInteger impl leftType p
  | .FixedBytes _ => some p
  | _ => none

/-- The part of `hardConvert` after the `opt(T) = T` case: the switch on the category of
the source type. -/
def hardConvertSwitch (impl : Bool) (leftType rightType : SolType)
    (p : StackPusherHelper) : Option StackPusherHelper :=
  match rightType with
  | .RationalNumber mt =>
    match mt with
    | .Integer _ _ => fromInteger impl leftType p
    | .FixedPoint _ rFrac _ => fromFixedPoint impl leftType rFrac p
    | _ => none
  | .FixedPoint _ rFrac _ => fromFixedPoint impl leftType rFrac p
  | .Integer _ _ => fromInteger impl leftType p
  | .FixedBytes rBytes =>
    match leftType with
    | .FixedBytes lBytes => fixedBytesFromFixedBytes lBytes rBytes p
    | _ => none
  | .Array isByteArray _ =>
    if ¬ isByteArray then some p
    else
      match leftType.category with
      | .Array => some p
      | _ => none
  | .Address => some p
  | .Bool => some p
  | .Contract => some p
  | .Enum _ => some p
  | .ExtraCurrencyCollection => some p
  | .Function => some p
  | .Mapping _ _ => some p
  | .Optional _ => some p
  | .Struct _ => some p
  | .TvmBuilder => some p
  | .TvmCell => some p
  | .TvmSlice => some p
  | .Tuple _ => some p
  | .StringLiteral value =>
    match leftType with
    | .FixedBytes lBytes => fixedBytesFromStringLiteral lBytes value p
    | _ => if leftType.category = .Array then some p else none
  | .VarInteger _ => none
  | .Other _ => none

/-- `StackPusherHelper::hardConvert(leftType, rightType)`; the front end's
`isImplicitlyConvertibleTo` is the parameter `implicitly`, called as
`implicitly rightType leftType`. -/
def hardConvert (implicitly : SolType → SolType → Bool) :
    SolType → SolType → StackPusherHelper → Option StackPusherHelper
  | .Optional valueType, rightType, p =>
    if SolType.Optional valueType ≠ rightType then
      (hardConvert implicitly valueType rightType p).bind fun p1 =>
        if valueType.category = .Mapping ∨ valueType.category = .Optional then p1.tuple 1
        else some p1
    else hardConvertSwitch (implicitly rightType (.Optional valueType)) (.Optional valueType)
      rightType p
  | leftType, rightType, p =>
    hardConvertSwitch (implicitly rightType leftType) leftType rightType p

/-- The range check `checkFit` emits for an integer or fixed-point type. -/
def fitsCommand : SolType → Option String
  | .Integer numBits isSigned =>
    some ((if isSigned then "FITS " else "UFITS ") ++ toString numBits)
  | .FixedPoint numBits _ isSigned =>
    some ((if isSigned then "FITS " else "UFITS ") ++ toString numBits)
  | _ => none

/-- The emitter `p1` has the nesting depth of `p` and its log extends the log of `p`. -/
def Extends (p p1 : StackPusherHelper) : Prop :=
  p1.m_code.tabQty = p.m_code.tabQty ∧ ∃ suf, p1.m_code.lines = p.m_code.lines ++ suf

/-- `DictValueType`. -/
inductive DictValueType where
  | Address | Array | Bool | Contract | Enum | ExtraCurrencyCollection | FixedBytes
  | FixedPoint | Function | Integer | Mapping | Optional | Struct | TvmCell | TvmSlice
  | VarInteger
  deriving DecidableEq, Repr

/-- The constants and helpers used by the dictionary code; a helper that can abort returns
an `Option`. -/
structure DictEnv where
  /-- `TvmConst::CellBitLength`. -/
  CellBitLength : Int
  /-- `TvmConst::MAX_HASH_MAP_INFO_ABOUT_KEY`. -/
  MAX_HASH_MAP_INFO_ABOUT_KEY : Int
  /-- `AddressInfo::maxBitLength()`. -/
  addressMaxBitLength : Int
  /-- `toDictValueType(category)`. -/
  toDictValueType : Category → Option DictValueType
  /-- `lengthOfDictKey(key)`. -/
  lengthOfDictKey : SolType → Option Int
  /-- `TypeInfo{type}.numBits`. -/
  typeInfoNumBits : SolType → Int
  /-- `integerLog2(n)`. -/
  integerLog2 : Nat → Int
  /-- `isByteArrayOrString(type)`. -/
  isByteArrayOrString : SolType → Bool
  /-- `isStringOrStringLiteralOrBytes(type)`. -/
  isStringOrStringLiteralOrBytes : SolType → Bool

/-- The switch of `maxBitLengthOfDictValue`; `structSum` is the result of the loop over the
members in the case of a struct. -/
def maxBitLengthSwitch (env : DictEnv) (type : SolType) (structSum : Option Int) :
    Option Int :=
  match env.toDictValueType type.category with
  | some .Enum => some (env.typeInfoNumBits type)
  | some .Integer => some (env.typeInfoNumBits type)
  | some .Bool => some (env.typeInfoNumBits type)
  | some .FixedBytes => some (env.typeInfoNumBits type)
  | some .FixedPoint => some (env.typeInfoNumBits type)
  | some .Address => some env.addressMaxBitLength
  | some .Contract => some env.addressMaxBitLength
  | some .Array => if env.isStringOrStringLiteralOrBytes type then some 0 else some (32 + 1)
  | some .Mapping => some 1
  | some .ExtraCurrencyCollection => some 1
  | some .Optional => some 1
  | some .VarInteger =>
    match type with
    | .VarInteger number => some (env.integerLog2 number + 8 * (number : Int))
    | _ => none
  | some .TvmCell => some 0
  | some .TvmSlice => none
  | some .Struct => structSum
  | some .Function => some 32
  | none => none

mutual
/-- `StackPusherHelper::maxBitLengthOfDictValue`. -/
def maxBitLengthOfDictValue (env : DictEnv) : SolType → Option Int
  | .Struct members => maxBitLengthSwitch env (.Struct members) (sumMaxBitLength env 0 members)
  | type => maxBitLengthSwitch env type none
/-- The loop over the members of a struct in `maxBitLengthOfDictValue`, from the running
sum `sum`. -/
def sumMaxBitLength (env : DictEnv) (sum : Int) : SolTypeList → Option Int
  | .nil => some sum
  | .cons m rest =>
    match maxBitLengthOfDictValue env m with
    | none => none
    | some cur => sumMaxBitLength env (sum + cur) rest
end

/-- `StackPusherHelper::doesFitInOneCellAndHaveNoStruct`. -/
def doesFitInOneCellAndHaveNoStruct (env : DictEnv) (key value : SolType) : Option Bool :=
  match env.lengthOfDictKey key with
  | none => none
  | some keyLength =>
    match maxBitLengthOfDictValue env value with
    | none => none
    | some valueLength =>
      some (decide (env.MAX_HASH_MAP_INFO_ABOUT_KEY + keyLength + valueLength
        < env.CellBitLength))

/-- `StackPusherHelper::doesDictStoreValueInRef`. -/
def doesDictStoreValueInRef (env : DictEnv) (keyType valueType : SolType) : Option Bool :=
  match env.toDictValueType valueType.category with
  | some .TvmCell => some true
  | some .TvmSlice => some false
  | some .Array =>
    if env.isByteArrayOrString valueType then some true
    else (doesFitInOneCellAndHaveNoStruct env keyType valueType).map not
  | some _ => (doesFitInOneCellAndHaveNoStruct env keyType valueType).map not
  | none => none

/-- The worst-case lengths of the types of a list, when all of them are defined. -/
def memberLengths (env : DictEnv) : SolTypeList → Option (List Int)
  | .nil => some []
  | .cons m rest =>
    match maxBitLengthOfDictValue env m, memberLengths env rest with
    | some cur, some ns => some (cur :: ns)
    | _, _ => none

/-- An environment on which the dictionary functions are evaluated: a cell of 1023 bits,
12 bits of key metadata, addresses of at most 591 bits, every category classified by its
name, keys of the bit width of their integer type. -/
def sampleDictEnv : DictEnv where
  CellBitLength := 1023
  MAX_HASH_MAP_INFO_ABOUT_KEY := 12
  addressMaxBitLength := 591
  toDictValueType := fun c =>
    match c with
    | .Address => some .Address
    | .Array => some .Array
    | .Bool => some .Bool
    | .Contract => some .Contract
    | .Enum => some .Enum
    | .ExtraCurrencyCollection => some .ExtraCurrencyCollection
    | .FixedBytes => some .FixedBytes
    | .FixedPoint => some .FixedPoint
    | .Function => some .Function
    | .Integer => some .Integer
    | .Mapping => some .Mapping
    | .Optional => some .Optional
    | .Struct => some .Struct
    | .TvmCell => some .TvmCell
    | .TvmSlice => some .TvmSlice
    | .VarInteger => some .VarInteger
    | _ => none
  lengthOfDictKey := fun t =>
    match t with
    | .Integer n _ => some n
    | .Address => some 267
    | _ => none
  typeInfoNumBits := fun t =>
    match t with
    | .Integer n _ => n
    | .FixedPoint n _ _ => n
    | .Bool => 1
    | .FixedBytes n => 8 * n
    | _ => 0
  integerLog2 := fun n => Nat.log2 n
  isByteArrayOrString := fun t =>
    match t with
    | .Array b _ => b
    | _ => false
  isStringOrStringLiteralOrBytes := fun t =>
    match t with
    | .Array b _ => b
    | .StringLiteral _ => true
    | _ => false

/-! ## The peephole optimizer (TVMOptimizations.cpp)

A thrown exception (a failed `solAssert`, `boost::bad_lexical_cast`, `std::out_of_range`,
...) is `none`. Library functions are modelled by their documented behaviour. -/

namespace TVMOptimizer

/-- `TVMOptimizer::is_space`. -/
def is_space (ch : Char) : Bool := ch = ' ' || ch = '\t'

/-- `TVMOptimizer::is_comment_or_empty_line`. -/
def is_comment_or_empty_line (str : String) : Bool :=
  match str.data.dropWhile is_space with
  | [] => true
  | ch :: _ => ch = ';'

/-- `std::isspace` in the C locale, as used by `boost::algorithm::trim_copy`. -/
def isspace (ch : Char) : Bool :=
  ch = ' ' || ch = '\t' || ch = '\n' || ch = '\x0b' || ch = '\x0c' || ch = '\r'

/-- `std::isdigit`. -/
def isdigit (ch : Char) : Bool := decide ('0'.toNat ≤ ch.toNat) && decide (ch.toNat ≤ '9'.toNat)

/-- `boost::algorithm::trim_copy`. -/
def trim_copy (s : List Char) : List Char :=
  ((s.dropWhile isspace).reverse.dropWhile isspace).reverse

/-- The value of a string of decimal digits, most significant first. -/
def digitsValue (acc : Nat) : List Char → Nat
  | [] => acc
  | ch :: rest => digitsValue (acc * 10 + (ch.toNat - '0'.toNat)) rest

/-- `boost::lexical_cast<int>`: an optional sign and at least one decimal digit, nothing
else, the value in the range of `int`. -/
def lexical_cast_int (s : List Char) : Option Int :=
  let body : List Char := match s with
    | '-' :: r => r
    | '+' :: r => r
    | _ => s
  let neg : Bool := match s with
    | '-' :: _ => true
    | _ => false
  if body = [] ∨ ¬ body.all isdigit then none
  else
    let v : Int := if neg then -(digitsValue 0 body : Int) else (digitsValue 0 body : Int)
    if v < -2147483648 ∨ 2147483647 < v then none else some v

/-- `TVMOptimizer::strToInt`. -/
def strToInt (str : String) : Option Int := lexical_cast_int (trim_copy str.data)

/-- The value of a digit in the given radix, if it is one. -/
def radixDigit (radix : Nat) (ch : Char) : Option Nat :=
  let v : Nat :=
    if isdigit ch then ch.toNat - '0'.toNat
    else if 'a'.toNat ≤ ch.toNat ∧ ch.toNat ≤ 'f'.toNat then 10 + (ch.toNat - 'a'.toNat)
    else if 'A'.toNat ≤ ch.toNat ∧ ch.toNat ≤ 'F'.toNat then 10 + (ch.toNat - 'A'.toNat)
    else radix
  if v < radix then some v else none

/-- The value of a string of digits in the given radix; `none` on any other character. -/
def radixValue (radix : Nat) (acc : Nat) : List Char → Option Nat
  | [] => some acc
  | ch :: rest =>
    match radixDigit radix ch with
    | none => none
    | some v => radixValue radix (acc * radix + v) rest

/-- The constructor of `bigint` (`boost::multiprecision::cpp_int`) from a string: an
optional minus sign, then hexadecimal digits after `0x`, octal digits after a leading `0`,
decimal digits otherwise. -/
def bigint_of_string (s : List Char) : Option Int :=
  let neg : Bool := match s with
    | '-' :: _ => true
    | _ => false
  let body : List Char := match s with
    | '-' :: r => r
    | _ => s
  let magnitude : Option Nat :=
    match body with
    | '0' :: 'x' :: r => radixValue 16 0 r
    | '0' :: 'X' :: r => radixValue 16 0 r
    | '0' :: r => radixValue 8 0 r
    | _ => radixValue 10 0 body
  magnitude.map fun m => if neg then -(m : Int) else (m : Int)

/-- `rest_.find(',')`: the characters before the first comma and those after it. -/
def splitAtComma : List Char → Option (List Char × List Char)
  | [] => none
  | ch :: rest =>
    if ch = ',' then some ([], rest)
    else (splitAtComma rest).map fun r => (ch :: r.1, r.2)

/-- `TVMOptimizer::Cmd`. -/
structure Cmd where
  prefix_ : String
  cmd_ : String
  rest_ : String
  comment_ : String
  is_simple_command_ : Bool
  inputs_count_ : Int
  outputs_count_ : Int
  deriving DecidableEq, Repr

namespace Cmd

/-- `Cmd::is`. -/
def is (c : Cmd) (cmd : String) : Bool := c.cmd_ = cmd

/-- `Cmd::rest`. -/
def rest (c : Cmd) : String := c.rest_

/-- `Cmd::without_prefix`. -/
def without_prefix (c : Cmd) : String :=
  if c.rest_ = "" then c.cmd_ else c.cmd_ ++ " " ++ c.rest_

/-- `Cmd::fetch_bigint`. -/
def fetch_bigint (c : Cmd) : Option Int := bigint_of_string (trim_copy c.rest_.data)

/-- `Cmd::fetch_int`. -/
def fetch_int (c : Cmd) : Option Int := strToInt c.rest_

/-- `Cmd::fetch_first_int`. -/
def fetch_first_int (c : Cmd) : Option Int :=
  match splitAtComma c.rest_.data with
  | none => none
  | some (before, _) => strToInt (String.mk before)

/-- `Cmd::fetch_second_int`. -/
def fetch_second_int (c : Cmd) : Option Int :=
  match splitAtComma c.rest_.data with
  | none => none
  | some (_, after) =>
    match after.dropWhile is_space with
    | [] => none
    | r => strToInt (String.mk r)

def is_ADD (c : Cmd) : Bool := c.is "ADD"
def is_MUL (c : Cmd) : Bool := c.is "MUL"
def is_DIV (c : Cmd) : Bool := c.is "DIV"
def is_SUB (c : Cmd) : Bool := c.is "SUB"
def is_DROP (c : Cmd) : Bool := c.is "DROP"
def is_NIP (c : Cmd) : Bool := c.is "NIP"
def is_SWAP (c : Cmd) : Bool := c.is "SWAP"
def is_DUP (c : Cmd) : Bool := c.is "DUP"
def is_POP (c : Cmd) : Bool := c.is "POP"

/-- `Cmd::is_PUSH`. -/
def is_PUSH (c : Cmd) : Bool :=
  (c.is "PUSH" && (("S".data.isPrefixOf c.rest_.data) || ("s".data.isPrefixOf c.rest_.data)))
    || c.is "DUP"

/-- `Cmd::is_PUSHINT`. -/
def is_PUSHINT (c : Cmd) : Bool :=
  let ok : Bool := match trim_copy c.rest_.data with
    | [] => true
    | ch :: r => (isdigit ch || ch = '-') && r.all isdigit
  ok && c.is "PUSHINT"

/-- `Cmd::isBLKSWAP`. -/
def isBLKSWAP (c : Cmd) : Bool := c.is "ROT" || c.is "ROTREV" || c.is "SWAP2" || c.is "BLKSWAP"

/-- `Cmd::is_const_add`. -/
def is_const_add (c : Cmd) : Bool := c.is "INC" || c.is "DEC" || c.is "ADDCONST"

/-- `Cmd::is_commutative`. -/
def is_commutative (c : Cmd) : Bool :=
  c.is_ADD || c.is_MUL || c.is "AND" || c.is "OR" || c.is "XOR" || c.is "EQUAL" || c.is "NEQ"

/-- `Cmd::is_add_or_sub`. -/
def is_add_or_sub (c : Cmd) : Bool := c.is_ADD || c.is_SUB

/-- `Cmd::get_drop_index`. -/
def get_drop_index (c : Cmd) : Option Int :=
  if c.is_DROP then some 1
  else if c.is "DROP2" then some 2
  else if c.is "BLKDROP" then c.fetch_int
  else some 0

/-- `Cmd::is_drop_kind`. -/
def is_drop_kind (c : Cmd) : Option Bool := c.get_drop_index.map fun n => decide (n > 0)

/-- `Cmd::sumBLKSWAP`. -/
def sumBLKSWAP (c : Cmd) : Option Int :=
  if c.is "ROT" || c.is "ROTREV" then some 3
  else if c.is "SWAP2" then some 4
  else if c.is "BLKSWAP" then
    match c.fetch_first_int, c.fetch_second_int with
    | some a, some b => some (a + b)
    | _, _ => none
  else none

/-- `Cmd::fetchStackIndex`. -/
def fetchStackIndex (c : Cmd) : Option Int :=
  if c.cmd_ = "DUP" then some 0
  else
    match c.rest.data with
    | [] => none
    | ch :: s => if ch = 's' ∨ ch = 'S' then strToInt (String.mk s) else none

/-- `Cmd::get_push_index`. -/
def get_push_index (c : Cmd) : Option Int :=
  if ¬ c.is_PUSH then none
  else if c.is_DUP then some 0
  else c.fetchStackIndex

/-- `Cmd::get_pop_index`. -/
def get_pop_index (c : Cmd) : Option Int :=
  if ¬ c.is_POP then none
  else
    match c.rest.data with
    | [] => none
    | _ :: s => strToInt (String.mk s)

/-- `Cmd::get_add_num`. -/
def get_add_num (c : Cmd) : Option Int :=
  if ¬ c.is_const_add then none
  else if c.is "INC" then some 1
  else if c.is "DEC" then some (-1)
  else if c.is "ADDCONST" then c.fetch_int
  else none

/-- `Cmd::is_simple_command(inp, outp)`. -/
def is_simple_command (c : Cmd) (inp outp : Int) : Bool :=
  c.is_simple_command_ && decide (inp = c.inputs_count_) && decide (outp = c.outputs_count_)

end Cmd
/-- The set `s01` of `Cmd::analyze`. -/
def s01 : List String :=
  ["GETGLOB", "NEWC", "NEWDICT", "NOW", "PUSHINT", "PUSHSLICE", "TRUE", "FALSE", "ZERO"]

/-- The set `s10` of `Cmd::analyze`. -/
def s10 : List String := ["DROP", "ENDS", "SETGLOB", "THROWANY", "THROWIF", "THROWIFNOT"]

/-- The set `s11` of `Cmd::analyze`. -/
def s11 : List String :=
  ["CTOS", "DEC", "ENDC", "EQINT", "FIRST", "FITS", "HASHCU", "HASHSU", "VERGRTH16", "INC",
   "INDEX", "NOT", "PARSEMSGADDR", "SBITS", "SECOND", "SHA256U", "STSLICECONST", "THIRD",
   "UFITS"]

/-- The set `s21` of `Cmd::analyze`. -/
def s21 : List String :=
  ["ADD", "AND", "EQ", "GREATER", "INDEXVAR", "LESS", "MUL", "NEQ", "OR", "PAIR", "PLDUX",
   "SETINDEX", "STI", "STSLICE", "STU", "SUB", "DIV", "MOD", "SUBR"]

/-- The set `s32` of `Cmd::analyze`. -/
def s32 : List String := ["DICTDEL", "DICTIDEL", "DICTUDEL"]

/-- `Cmd::set_simple_command`. -/
def Cmd.set_simple_command (c : Cmd) (inp outp : Int) : Cmd :=
  { c with is_simple_command_ := true, inputs_count_ := inp, outputs_count_ := outp }

/-- `Cmd::analyze`. -/
def Cmd.analyze (c : Cmd) : Option Cmd :=
  if s01.contains c.cmd_ then some (c.set_simple_command 0 1)
  else if s10.contains c.cmd_ then some (c.set_simple_command 1 0)
  else if s11.contains c.cmd_ then some (c.set_simple_command 1 1)
  else if s21.contains c.cmd_ then some (c.set_simple_command 2 1)
  else if s32.contains c.cmd_ then some (c.set_simple_command 3 2)
  else if c.is "SWAP" then some (c.set_simple_command 2 2)
  else if c.is "ROT" || c.is "ROTREV" then some (c.set_simple_command 3 3)
  else if c.is "TUPLE" then c.fetch_int.map fun n => c.set_simple_command n 1
  else if c.is "UNTUPLE" then c.fetch_int.map fun n => c.set_simple_command 1 n
  else if c.is "UNPAIR" then some (c.set_simple_command 1 2)
  else if c.is "SETINDEXVAR" then some (c.set_simple_command 3 1)
  else some c

/-- The constructor `Cmd(const string& str)`. -/
def Cmd.ofString (str : String) : Option Cmd :=
  let s0 := str.data
  let s1 := s0.dropWhile is_space
  let notEnd : Char → Bool := fun ch => !is_space ch && ch ≠ ';'
  let s2 := s1.dropWhile notEnd
  let s3 := s2.dropWhile is_space
  Cmd.analyze
    { prefix_ := String.mk (s0.takeWhile is_space)
      cmd_ := String.mk (s1.takeWhile notEnd)
      rest_ := String.mk (s3.takeWhile fun ch => ch ≠ ';')
      comment_ := ""
      is_simple_command_ := false
      inputs_count_ := 0
      outputs_count_ := 0 }

/-- `TVMOptimizer::valid`. -/
def valid (lines_ : List String) (idx : Int) : Bool :=
  decide (idx ≥ 0) && decide (idx < lines_.length)

/-- The line `lines_[idx]` at a valid index. -/
def lineAt (lines_ : List String) (idx : Int) : String := lines_.getD idx.toNat ""

/-- `TVMOptimizer::cmd`. -/
def cmd (lines_ : List String) (idx : Int) : Option Cmd :=
  if valid lines_ idx then Cmd.ofString (lineAt lines_ idx) else Cmd.ofString ""

/-- The loop of `next_command_line`: the index of the first line of `ls` that is not a
comment or empty, `idx` being the index of its first line. -/
def firstCommandFrom : List String → Int → Int
  | [], _ => -1
  | l :: ls, idx => if ¬ is_comment_or_empty_line l then idx else firstCommandFrom ls (idx + 1)

/-- `TVMOptimizer::next_command_line`. -/
def next_command_line (lines_ : List String) (idx : Int) : Int :=
  if ¬ valid lines_ idx then -1
  else firstCommandFrom (lines_.drop (idx + 1).toNat) (idx + 1)

/-- `TVMOptimizer::Result`. -/
structure Result where
  continue_ : Bool
  remove_ : Int
  commands_ : List String
  deriving DecidableEq, Repr

/-- `Result::Replace`. -/
def Result.Replace (remove : Int) (cmds : List String) : Result := ⟨true, remove, cmds⟩

/-- `TVMOptimizer::make_DROP`. -/
def make_DROP (n : Int) : Option (List String) :=
  if ¬ n > 0 then none
  else if n = 1 then some ["DROP"]
  else if n = 2 then some ["DROP2"]
  else if n ≤ 15 then some ["BLKDROP " ++ toString n]
  else some ["PUSHINT " ++ toString n, "DROPX"]

/-- `TVMOptimizer::make_PUSH`. -/
def make_PUSH (n : Int) : Option String :=
  if ¬ n ≥ 0 then none
  else if n = 0 then some "DUP"
  else some ("PUSH S" ++ toString n)

/-- `TVMOptimizer::make_POP`. -/
def make_POP (n : Int) : Option String :=
  if ¬ n ≥ 0 then none
  else if n = 0 then some "DROP"
  else if n = 1 then some "NIP"
  else some ("POP S" ++ toString n)

/-- `TVMOptimizer::make_BLKPUSH`. -/
def make_BLKPUSH (n m : Int) : Option String :=
  if ¬ n > 0 then none
  else if ¬ (m ≥ 0 ∧ m ≤ 15) then none
  else if n = 1 then make_PUSH m
  else some ("BLKPUSH " ++ toString n ++ ", " ++ toString m)
/-- The constants of `TvmConst` read by the optimizer (`TVMConstants.hpp` is not among the
sources). -/
structure TvmConst where
  MaxPushSliceBitLength : Int
  MaxSTSLICECONST : Int
  deriving DecidableEq, Repr

/-- The bits of `value`, least significant first, `bitlen` of them. -/
def lowBits : Nat → Nat → List Char
  | 0, _ => []
  | bitlen + 1, value => (if value % 2 = 0 then '0' else '1') :: lowBits bitlen (value / 2)

/-- `StackPusherHelper::addBinaryNumberToString`. -/
def addBinaryNumberToString (s : List Char) (value : Int) (bitlen : Int) :
    Option (List Char) :=
  if ¬ value ≥ 0 then none
  else if bitlen < 0 then none
  else some (s ++ (lowBits bitlen.toNat value.toNat).reverse)

/-- `std::stoi(s, nullptr, 2)` on a string of binary digits. -/
def stoi2 (acc : Nat) : List Char → Option Nat
  | [] => some acc
  | ch :: rest =>
    if ch = '0' then stoi2 (acc * 2) rest
    else if ch = '1' then stoi2 (acc * 2 + 1) rest
    else none

/-- The hexadecimal digit written by `sstream << std::hex << x` for `x < 16`. -/
def hexChar (x : Nat) : Char :=
  if x < 10 then Char.ofNat ('0'.toNat + x) else Char.ofNat ('a'.toNat + (x - 10))

/-- The loop of `binaryStringToSlice` over groups of four binary digits; `fuel` bounds the
number of groups. -/
def hexGroups : Nat → List Char → Option (List Char)
  | 0, _ => some []
  | fuel + 1, s =>
    if s = [] then some []
    else
      match stoi2 0 (s.take 4), hexGroups fuel (s.drop 4) with
      | some x, some r => if x < 16 then some (hexChar x :: r) else none
      | _, _ => none

/-- `StackPusherHelper::binaryStringToSlice`. -/
def binaryStringToSlice (_s : List Char) : Option (List Char) :=
  let haveCompletionTag : Bool := decide (_s.length % 4 ≠ 0)
  let s1 : List Char := if haveCompletionTag then _s ++ ['1'] else _s
  let s : List Char :=
    if haveCompletionTag then s1 ++ List.replicate ((4 - s1.length % 4) % 4) '0' else s1
  (hexGroups (s.length + 1) s).map fun ans => if haveCompletionTag then ans ++ ['_'] else ans

/-- `std::stoi(s, &pos, 16)` on a string of one character, with `pos == 1`. -/
def stoi16 (ch : Char) : Option Nat := radixDigit 16 ch

/-- The loop `while (true) { isOne = value % 2 == 1; --bitLen; value /= 2; if (isOne)
break; }` of `toBitString`; it does not end when `value` is 0. -/
def stripCompletionTag : Nat → Nat → Int → Option (Nat × Int)
  | 0, _, _ => none
  | fuel + 1, value, bitLen =>
    if value % 2 = 1 then some (value / 2, bitLen - 1)
    else if value = 0 then none
    else stripCompletionTag fuel (value / 2) (bitLen - 1)

/-- The loop over the hexadecimal digits of `toBitString`; `size` is the length of the
whole slice and `i` the index of the first character of the list. -/
def toBitStringLoop (size : Nat) : List Char → Nat → List Char → Option (List Char)
  | [], _, bitString => some bitString
  | ch :: rest, i, bitString =>
    if i + 2 = size ∧ rest.head? = some '_' then
      match stoi16 ch with
      | none => none
      | some value =>
        match stripCompletionTag 5 value 4 with
        | none => none
        | some (v, bitLen) => addBinaryNumberToString bitString v bitLen
    else
      match stoi16 ch with
      | none => none
      | some value =>
        match addBinaryNumberToString bitString value 4 with
        | none => none
        | some b => toBitStringLoop size rest (i + 1) b

/-- `TVMOptimizer::toBitString`. -/
def toBitString (slice : String) : Option (List Char) :=
  match slice.data with
  | [] => none
  | ch :: rest =>
    if ch = 'x' then toBitStringLoop slice.data.length rest 1 []
    else if slice = "0" ∨ slice = "1" then some slice.data
    else none

/-- The first loop of `unitBitString`: the pieces of `step` characters of the bit string;
`fuel` bounds their number. -/
def chunks (step : Nat) : Nat → List Char → List (List Char)
  | 0, _ => []
  | fuel + 1, s => if s = [] then [] else s.take step :: chunks step fuel (s.drop step)

/-- The second loop of `unitBitString`. -/
def slicesOf : List (List Char) → Option (List String)
  | [] => some []
  | o :: rest =>
    match binaryStringToSlice o, slicesOf rest with
    | some h, some r => some (String.mk ('x' :: h) :: r)
    | _, _ => none

/-- `TVMOptimizer::unitBitString`. -/
def unitBitString (tc : TvmConst) (bitStringA bitStringB : List Char) : Option (List String) :=
  let bitString := bitStringA ++ bitStringB
  if 4 * tc.MaxPushSliceBitLength ≤ 0 then
    (if bitString = [] then some [] else none)
  else
    slicesOf (chunks (4 * tc.MaxPushSliceBitLength).toNat (bitString.length + 1) bitString)

/-- `TVMOptimizer::unitSlices`. -/
def unitSlices (tc : TvmConst) (sliceA sliceB : String) : Option (List String) :=
  match toBitString sliceA with
  | none => none
  | some a =>
    match toBitString sliceB with
    | none => none
    | some b => unitBitString tc a b

/-- The loop of `try_simulate`; `first_time` is its flag, `fuel` bounds the number of
iterations. The result is `some none` for `false` and `some (some (remove_count,
commands))` for `true`. -/
def try_simulate_loop (lines_ : List String) :
    Nat → Bool → Int → Int → Int → List String → Option (Option (Int × List String))
  | 0, _, _, _, _, _ => none
  | fuel + 1, first_time, i0, stack_size, remove_count0, commands =>
    let remove_count : Int := if first_time then remove_count0 else remove_count0 + 1
    let i : Int := if first_time then i0 else next_command_line lines_ i0
    if ¬ valid lines_ i then some none
    else
      match cmd lines_ i with
      | none => none
      | some c =>
        if c.is_PUSH then
          match c.get_push_index with
          | none => none
          | some pi =>
            if pi + 1 = stack_size then some none
            else if pi + 1 < stack_size then
              try_simulate_loop lines_ fuel false i (stack_size + 1) remove_count
                (commands ++ [c.without_prefix])
            else if pi = 0 then some none
            else
              match make_PUSH (pi - 1) with
              | none => none
              | some s =>
                try_simulate_loop lines_ fuel false i (stack_size + 1) remove_count
                  (commands ++ [s])
        else if c.is_POP then
          if stack_size = 1 then some none
          else
            match c.get_pop_index with
            | none => none
            | some pi =>
              if pi + 1 = stack_size then some none
              else if pi + 1 < stack_size then
                try_simulate_loop lines_ fuel false i (stack_size - 1) remove_count
                  (commands ++ [c.without_prefix])
              else
                match make_POP (pi - 1) with
                | none => none
                | some s =>
                  try_simulate_loop lines_ fuel false i (stack_size - 1) remove_count
                    (commands ++ [s])
        else if c.is "BLKPUSH" then
          match c.fetch_second_int with
          | none => none
          | some sec =>
            if sec + 1 < stack_size then
              match c.fetch_first_int with
              | none => none
              | some fst =>
                try_simulate_loop lines_ fuel false i (stack_size + fst) remove_count
                  (commands ++ [c.without_prefix])
            else some none
        else if c.is_NIP then
          if stack_size = 2 then some (some (remove_count + 1, commands))
          else if stack_size > 2 then
            try_simulate_loop lines_ fuel false i (stack_size - 1) remove_count
              (commands ++ [c.without_prefix])
          else some none
        else
          match c.get_drop_index with
          | none => none
          | some n =>
            if n > 0 then
              if stack_size ≤ n then
                if n > 1 then
                  match make_DROP (n - 1) with
                  | none => none
                  | some dropOpcodes => some (some (remove_count + 1, commands ++ dropOpcodes))
                else some (some (remove_count + 1, commands))
              else
                try_simulate_loop lines_ fuel false i (stack_size - n) remove_count
                  (commands ++ [c.without_prefix])
            else if c.is_simple_command_ then
              if stack_size ≤ c.inputs_count_ then some none
              else
                try_simulate_loop lines_ fuel false i
                  (stack_size + (c.outputs_count_ - c.inputs_count_)) remove_count
                  (commands ++ [c.without_prefix])
            else some none

/-- `TVMOptimizer::try_simulate`. -/
def try_simulate (lines_ : List String) (i : Int) (stack_size : Int) (remove_count : Int)
    (commands : List String) : Option (Option (Int × List String)) :=
  if ¬ valid lines_ i then some none
  else try_simulate_loop lines_ (lines_.length + 1) true i stack_size remove_count commands
/-- The local variables at the head of `optimize_at`, `squash_push` and `unsquash_push`:
the lines, the indices of the next six command lines and their commands. -/
structure Window where
  lines_ : List String
  idx1 : Int
  idx2 : Int
  idx3 : Int
  idx4 : Int
  idx5 : Int
  idx6 : Int
  cmd1 : Cmd
  cmd2 : Cmd
  cmd3 : Cmd
  cmd4 : Cmd
  cmd5 : Cmd
  cmd6 : Cmd

/-- The declarations at the head of `optimize_at`. -/
def Window.at (lines_ : List String) (idx1 : Int) : Option Window :=
  let idx2 := next_command_line lines_ idx1
  let idx3 := next_command_line lines_ idx2
  let idx4 := next_command_line lines_ idx3
  let idx5 := next_command_line lines_ idx4
  let idx6 := next_command_line lines_ idx5
  match cmd lines_ idx1, cmd lines_ idx2, cmd lines_ idx3, cmd lines_ idx4, cmd lines_ idx5,
      cmd lines_ idx6 with
  | some c1, some c2, some c3, some c4, some c5, some c6 =>
    some ⟨lines_, idx1, idx2, idx3, idx4, idx5, idx6, c1, c2, c3, c4, c5, c6⟩
  | _, _, _, _, _, _ => none

/-- A rule returns: `none` when it throws, `some none` when it does not apply, and
`some (some r)` when it returns the result `r`. -/
abbrev RuleResult := Option (Option Result)

/-- The rule returns `Result(true, remove, commands)`. -/
def hit (remove : Int) (commands : List String) : RuleResult :=
  some (some ⟨true, remove, commands⟩)

/-- The rule does not apply. -/
def miss : RuleResult := some none

/-- Counts the commands from index `i` on that satisfy `p`, following
`next_command_line`: the loop `while (p(cmd(i))) { n++; i = next_command_line(i); }`. -/
def countWhile (lines_ : List String) (p : Cmd → Option Bool) : Nat → Int → Option Int
  | 0, _ => none
  | fuel + 1, i =>
    match cmd lines_ i with
    | none => none
    | some c =>
      match p c with
      | none => none
      | some false => some 0
      | some true =>
        (countWhile lines_ p fuel (next_command_line lines_ i)).map fun n => n + 1

/-- Lines 396-402 of `optimize_at`. -/
def rule396 (w : Window) : RuleResult :=
  if w.cmd1.is_SWAP then
    if w.cmd2.is_SUB then hit 2 ["SUBR"]
    else if w.cmd2.is "SUBR" then hit 2 ["SUB"]
    else if w.cmd2.is_SWAP then hit 2 []
    else if w.cmd2.is_NIP then hit 2 ["DROP"]
    else if w.cmd2.is_commutative then hit 1 []
    else miss
  else miss

/-- Lines 403-411. -/
def rule403 (w : Window) : RuleResult :=
  if w.cmd1.is_PUSHINT && w.cmd3.is_PUSHINT then
    if w.cmd2.is_add_or_sub && w.cmd4.is_add_or_sub then
      match w.cmd1.fetch_bigint, w.cmd3.fetch_bigint with
      | some a, some b =>
        hit 4 ["PUSHINT " ++ toString
          ((if w.cmd2.is_ADD then 1 else -1) * a + (if w.cmd4.is_ADD then 1 else -1) * b), "ADD"]
      | _, _ => none
    else miss
  else miss

/-- Lines 412-425. -/
def rule412 (w : Window) : RuleResult :=
  if w.cmd1.is_PUSHINT then
    if w.cmd1.rest = "1" ∧ w.cmd2.is_ADD = true then hit 2 ["INC"]
    else if w.cmd1.rest = "1" ∧ w.cmd2.is_SUB = true then hit 2 ["DEC"]
    else
      match w.cmd1.fetch_bigint with
      | none => none
      | some value =>
        if (-128 ≤ value ∧ value ≤ 127) ∧ w.cmd2.is_ADD = true then
          hit 2 ["ADDCONST " ++ toString value]
        else if (-128 ≤ value ∧ value ≤ 127) ∧ w.cmd2.is_MUL = true then
          hit 2 ["MULCONST " ++ toString value]
        else if (-128 ≤ -value ∧ -value ≤ 127) ∧ w.cmd2.is_SUB = true then
          hit 2 ["ADDCONST " ++ toString (-value)]
        else miss
  else miss

/-- Lines 426-430. -/
def rule426 (w : Window) : RuleResult :=
  if w.cmd1.is "RET" || w.cmd1.is "THROWANY" || w.cmd1.is "THROW" then
    if w.cmd2.prefix_.length ≥ w.cmd1.prefix_.length ∧ w.cmd2.cmd_ ≠ "" then
      hit 2 [w.cmd1.without_prefix]
    else miss
  else miss

/-- Lines 431-433. -/
def rule431 (w : Window) : RuleResult :=
  if w.cmd1.is "RET" && w.cmd2.is "\x7d" then hit 2 ["\x7d"] else miss

/-- Lines 434-442. -/
def rule434 (w : Window) : RuleResult :=
  if w.cmd2.is_NIP && w.cmd3.is_NIP then
    if w.cmd1.is_PUSHINT || w.cmd1.is "GETGLOB" then hit 3 ["DROP2", w.cmd1.without_prefix]
    else miss
  else miss

/-- Lines 443-451. -/
def rule443 (w : Window) : RuleResult :=
  if w.cmd1.is_NIP && w.cmd2.is_NIP && w.cmd3.is_NIP then
    match countWhile w.lines_ (fun c => some c.is_NIP) (w.lines_.length + 1) w.idx1 with
    | none => none
    | some n0 =>
      let n : Int := if n0 > 15 then 15 else n0
      hit n ["BLKSWAP " ++ toString n ++ ", 1", "BLKDROP " ++ toString n]
  else miss

/-- Lines 452-458. -/
def rule452 (w : Window) : RuleResult :=
  if w.cmd1.is_POP then
    match w.cmd1.get_pop_index with
    | none => none
    | some pi =>
      if pi = 2 ∧ w.cmd2.is_SWAP = true then
        if w.cmd3.is_simple_command 1 0 then hit 3 [w.cmd3.without_prefix, "NIP"]
        else if w.cmd3.is_simple_command 1 1 && w.cmd4.is_simple_command 1 0 then
          hit 4 [w.cmd3.without_prefix, w.cmd4.without_prefix, "NIP"]
        else miss
      else miss
  else miss

/-- The loop `while (n > 0) { nn = min(15, n); push_back(make_BLKPUSH(nn, 0)); n -= nn; }`
of lines 468-472. -/
def blkpushZeros : Nat → Int → Option (List String)
  | 0, _ => none
  | fuel + 1, n =>
    if n > 0 then
      match make_BLKPUSH (min 15 n) 0, blkpushZeros fuel (n - min 15 n) with
      | some s, some r => some (s :: r)
      | _, _ => none
    else some []

/-- Lines 459-475. -/
def rule459 (w : Window) : RuleResult :=
  if w.cmd1.is_PUSHINT && w.cmd2.is_PUSHINT && w.cmd3.is_PUSHINT then
    match countWhile w.lines_
        (fun c => if c.is_PUSHINT then c.fetch_bigint.map fun v => decide (v = 0) else some false)
        (w.lines_.length + 1) w.idx1 with
    | none => none
    | some n =>
      if n ≥ 3 then
        match blkpushZeros (n.toNat + 1) (n - 1) with
        | none => none
        | some r => hit n ("PUSHINT 0" :: r)
      else miss
  else miss

/-- Lines 476-478. -/
def rule476 (w : Window) : RuleResult :=
  if w.cmd1.is_PUSH then
    match w.cmd1.get_push_index with
    | none => none
    | some pi => if pi = 0 ∧ w.cmd2.is_SWAP = true then hit 2 [w.cmd1.without_prefix] else miss
  else miss

/-- Lines 479-489. -/
def rule479 (w : Window) : RuleResult :=
  if w.cmd3.is_SWAP then
    let ok1 := w.cmd1.is_simple_command 0 1 || w.cmd1.is_PUSH
    let ok2 := w.cmd2.is_simple_command 0 1 || w.cmd2.is_PUSH
    if ok1 && ok2 then
      let zeroPush : Option Bool :=
        if w.cmd2.is_PUSH then w.cmd2.get_push_index.map fun pi => decide (pi = 0)
        else some false
      match zeroPush with
      | none => none
      | some true => hit 3 [w.cmd1.without_prefix, w.cmd2.without_prefix]
      | some false =>
        let s1 : Option String :=
          if w.cmd2.is_PUSH then w.cmd2.get_push_index.bind fun pi => make_PUSH (pi - 1)
          else some w.cmd2.without_prefix
        match s1 with
        | none => none
        | some s1 =>
          let s2 : Option String :=
            if w.cmd1.is_PUSH then w.cmd1.get_push_index.bind fun pi => make_PUSH (pi + 1)
            else some w.cmd1.without_prefix
          match s2 with
          | none => none
          | some s2 => hit 3 [s1, s2]
    else miss
  else miss

/-- Lines 490-500. -/
def rule490 (w : Window) : RuleResult :=
  if w.cmd1.is_PUSH && w.cmd2.is_PUSH then
    match countWhile w.lines_
        (fun c =>
          if c.is_PUSH then
            match c.get_push_index, w.cmd1.get_push_index with
            | some a, some b => some (decide (a = b))
            | _, _ => none
          else some false)
        (w.lines_.length + 1) w.idx1 with
    | none => none
    | some n0 =>
      if n0 ≥ 2 then
        match w.cmd1.get_push_index with
        | none => none
        | some pi =>
          if pi ≤ 15 then
            match make_BLKPUSH (if n0 > 15 then 15 else n0) pi with
            | none => none
            | some s => hit (if n0 > 15 then 15 else n0) [s]
          else miss
      else miss
  else miss

/-- Lines 501-507. -/
def rule501 (w : Window) : RuleResult :=
  if w.cmd1.is_PUSH || w.cmd1.is_PUSHINT then
    match w.cmd2.get_drop_index with
    | none => none
    | some n =>
      if n > 0 then
        if w.cmd2.is_DROP then hit 2 []
        else
          match make_DROP (n - 1) with
          | none => none
          | some d => hit 2 d
      else miss
  else miss

/-- Lines 508-516. -/
def rule508 (w : Window) : RuleResult :=
  if w.cmd1.is "BLKPUSH" then
    match w.cmd2.get_drop_index with
    | none => none
    | some n =>
      if n > 0 then
        match w.cmd1.fetch_first_int with
        | none => none
        | some f =>
          let diff := f - n
          if diff = 0 then hit 2 []
          else if diff < 0 then
            match make_DROP (-diff) with
            | none => none
            | some d => hit 2 d
          else
            match w.cmd1.fetch_second_int with
            | none => none
            | some s =>
              match make_BLKPUSH diff s with
              | none => none
              | some b => hit 2 [b]
      else miss
  else miss

/-- Lines 517-522. -/
def rule517 (w : Window) : RuleResult :=
  if w.cmd1.is_simple_command_ && decide (w.cmd1.outputs_count_ = 1) then
    match w.cmd2.get_drop_index with
    | none => none
    | some n =>
      if n > 0 then
        let q := w.cmd1.inputs_count_ + n - 1
        if ¬ q ≥ 0 then none
        else if q = 0 then hit 2 []
        else
          match make_DROP q with
          | none => none
          | some d => hit 2 d
      else miss
  else miss

/-- Lines 523-527. -/
def rule523 (w : Window) : RuleResult :=
  if w.cmd1.is_simple_command_ && decide (w.cmd1.inputs_count_ = 0)
      && decide (w.cmd1.outputs_count_ = 1) && w.cmd2.is_NIP then
    match make_DROP 1 with
    | none => none
    | some d => hit 2 (d ++ [w.cmd1.without_prefix])
  else miss

/-- Lines 528-530. -/
def rule528 (w : Window) : RuleResult :=
  if w.cmd1.is_NIP then
    match w.cmd2.get_drop_index with
    | none => none
    | some n =>
      if n > 0 then
        match make_DROP (1 + n) with
        | none => none
        | some d => hit 2 d
      else miss
  else miss

/-- Lines 531-536. -/
def rule531 (w : Window) : RuleResult :=
  if w.cmd1.isBLKSWAP then
    match w.cmd2.get_drop_index with
    | none => none
    | some n2 =>
      if n2 > 0 then
        match w.cmd1.sumBLKSWAP with
        | none => none
        | some n1 => if n2 ≥ n1 then hit 2 [w.cmd2.without_prefix] else miss
      else miss
  else miss

/-- The loop of lines 539-543: the number of consecutive drop commands from index `i` and
the total they drop. -/
def countDrops (lines_ : List String) : Nat → Int → Option (Int × Int)
  | 0, _ => none
  | fuel + 1, i =>
    match cmd lines_ i with
    | none => none
    | some c =>
      match c.get_drop_index with
      | none => none
      | some d =>
        if d > 0 then
          (countDrops lines_ fuel (next_command_line lines_ i)).map fun r => (r.1 + 1, r.2 + d)
        else some (0, 0)

/-- Lines 537-547. -/
def rule537 (w : Window) : RuleResult :=
  match w.cmd1.get_drop_index with
  | none => none
  | some d1 =>
    if d1 > 0 then
      match w.cmd2.get_drop_index with
      | none => none
      | some d2 =>
        if d2 > 0 then
          match countDrops w.lines_ (w.lines_.length + 1) w.idx1 with
          | none => none
          | some (n, total) =>
            if total > 1 then
              match make_DROP total with
              | none => none
              | some d => hit n d
            else miss
        else miss
    else miss

/-- The statement `if (try_simulate(i, stack_size, lines_to_remove, commands)) return
Result{true, lines_to_remove, commands};`. -/
def simulateRule (w : Window) (i stack_size lines_to_remove : Int) (commands : List String) :
    RuleResult :=
  match try_simulate w.lines_ i stack_size lines_to_remove commands with
  | none => none
  | some none => miss
  | some (some (n, cs)) => hit n cs

/-- Lines 548-554. -/
def rule548 (w : Window) : RuleResult :=
  if w.cmd1.is_PUSH then
    match w.cmd1.get_push_index with
    | none => none
    | some pi => if pi = 0 then simulateRule w w.idx2 2 1 [] else miss
  else miss

/-- Lines 555-561. -/
def rule555 (w : Window) : RuleResult :=
  if w.cmd1.is_PUSH then
    match w.cmd1.get_push_index with
    | none => none
    | some pi => if pi = 1 then simulateRule w w.idx2 3 1 ["SWAP"] else miss
  else miss

/-- Lines 562-568. -/
def rule562 (w : Window) : RuleResult :=
  if w.cmd1.is_simple_command 0 1 then simulateRule w w.idx2 1 1 [] else miss

/-- Lines 569-575. -/
def rule569 (w : Window) : RuleResult :=
  if w.cmd1.is_SWAP then simulateRule w w.idx2 2 1 ["DROP"] else miss

/-- Lines 576-582. -/
def rule576 (w : Window) : RuleResult :=
  match w.cmd1.get_drop_index with
  | none => none
  | some d => if ¬ d > 0 then simulateRule w w.idx1 1 0 ["DROP"] else miss
/-- Lines 590-596. -/
def rule590 (w : Window) : RuleResult :=
  if w.cmd1.is "NEWC" && w.cmd2.is_simple_command 0 1 &&
      ["STUR", "STIR", "STBR", "STBREFR", "STSLICER", "STREFR"].contains w.cmd3.cmd_ then
    hit 3 [w.cmd2.without_prefix, "NEWC",
      String.mk (w.cmd3.cmd_.data.take (w.cmd3.cmd_.length - 1)) ++ " " ++ w.cmd3.rest]
  else miss

/-- Lines 597-599. -/
def rule597 (w : Window) : RuleResult :=
  if w.cmd1.is "PUSHCONT" && w.cmd2.is "\x7d" && (w.cmd3.is "IF" || w.cmd3.is "IFNOT") then
    hit 3 ["DROP"]
  else miss

/-- Lines 600-602. -/
def rule600 (w : Window) : RuleResult :=
  if w.cmd1.is "PUSHCONT" && w.cmd2.is "\x7d" && w.cmd3.is "IFJMP" then hit 3 ["IFRET"]
  else miss

/-- Lines 603-605. -/
def rule603 (w : Window) : RuleResult :=
  if w.cmd1.is "PUSHCONT" && w.cmd2.is "\x7d" && w.cmd3.is "IFNOTJMP" then hit 3 ["IFNOTRET"]
  else miss

/-- Lines 606-611. -/
def rule606 (w : Window) : RuleResult :=
  if w.cmd1.is "PUSHCONT" && w.cmd2.is "THROW" && w.cmd3.is "\x7d" &&
      (w.cmd4.is "IF" || w.cmd4.is "IFJMP") then
    hit 4 ["THROWIF " ++ w.cmd2.rest]
  else miss

/-- Lines 612-617. -/
def rule612 (w : Window) : RuleResult :=
  if w.cmd1.is "PUSHCONT" && w.cmd2.is "THROW" && w.cmd3.is "\x7d" &&
      (w.cmd4.is "IFNOT" || w.cmd4.is "IFNOTJMP") then
    hit 4 ["THROWIFNOT " ++ w.cmd2.rest]
  else miss

/-- Lines 618-622. -/
def rule618 (w : Window) : RuleResult :=
  if w.cmd1.is "PUSHCONT" && w.cmd2.is "\x7d" && (w.cmd3.is "IF" || w.cmd3.is "IFNOT") then
    hit 3 ["DROP"]
  else miss

/-- Lines 623-627. -/
def rule623 (w : Window) : RuleResult :=
  if w.cmd1.is "GETGLOB" && w.cmd2.is "ISNULL" && w.cmd3.is "DROP" then hit 3 [""] else miss

/-- Lines 628-631. -/
def rule628 (w : Window) : RuleResult :=
  let first : Option Bool :=
    if w.cmd1.is "NOT" then some true
    else if w.cmd1.is "EQINT" then w.cmd1.fetch_int.map fun v => decide (v = 0)
    else some false
  match first with
  | none => none
  | some b => if b && w.cmd2.is "THROWIFNOT" then hit 2 ["THROWIF " ++ w.cmd2.rest] else miss

/-- Lines 632-635. -/
def rule632 (w : Window) : RuleResult :=
  if w.cmd1.is "NEQINT" then
    match w.cmd1.fetch_int with
    | none => none
    | some v =>
      if v = 0 ∧ w.cmd2.is "THROWIFNOT" = true then hit 2 ["THROWIFNOT " ++ w.cmd2.rest]
      else miss
  else miss

/-- Lines 636-639. -/
def rule636 (w : Window) : RuleResult :=
  if w.cmd1.is "NOT" && w.cmd2.is "THROWIF" then hit 2 ["THROWIFNOT " ++ w.cmd2.rest]
  else miss

/-- Lines 640-665. -/
def rule640 (w : Window) : RuleResult :=
  if w.cmd1.is_PUSH then
    match w.cmd1.fetchStackIndex with
    | none => none
    | some pushIndex =>
      if w.cmd2.is "XCHG" then
        match w.cmd2.fetchStackIndex with
        | none => none
        | some xghIndex =>
          match w.cmd3.get_drop_index with
          | none => none
          | some dropedQty =>
            if dropedQty > 0 then
              if xghIndex = dropedQty ∧ dropedQty ≤ 15 then
                let i := min pushIndex (xghIndex - 1)
                let j := max pushIndex (xghIndex - 1)
                if i ≠ j then
                  if pushIndex + 1 < dropedQty then
                    match make_DROP (dropedQty - 1) with
                    | none => none
                    | some d => hit 3 (("XCHG S" ++ toString i ++ ", S" ++ toString j) :: d)
                  else miss
                else
                  match make_DROP (dropedQty - 1) with
                  | none => none
                  | some d => hit 3 d
              else miss
            else miss
      else miss
  else miss

/-- Lines 666-668. -/
def rule666 (w : Window) : RuleResult :=
  if w.cmd1.is "ROT" && w.cmd2.is "ROTREV" then hit 2 [] else miss

/-- Lines 669-671. -/
def rule669 (w : Window) : RuleResult :=
  if w.cmd1.is "ROTREV" && w.cmd2.is "ROT" then hit 2 [] else miss

/-- Lines 672-674. -/
def rule672 (w : Window) : RuleResult :=
  if w.cmd1.is_PUSHINT && w.cmd2.is "STZEROES" && w.cmd3.is "STSLICECONST" &&
      decide (w.cmd3.rest = "0") then
    match w.cmd1.fetch_bigint with
    | none => none
    | some v => hit 3 ["PUSHINT " ++ toString (v + 1), "STZEROES"]
  else miss

/-- The statement `if (opcodes.size() == 1) return Result(true, remove, {head + opcodes[0],
tail...})`. -/
def oneSlice (opcodes : Option (List String)) (remove : Int) (head : String)
    (tail : List String) : RuleResult :=
  match opcodes with
  | none => none
  | some [o] => hit remove ((head ++ o) :: tail)
  | some _ => miss

/-- Lines 676-687. -/
def rule676 (tc : TvmConst) (w : Window) : RuleResult :=
  if w.cmd1.is "PUSHSLICE" && w.cmd2.is "NEWC" && w.cmd3.is "STSLICE" &&
      w.cmd4.is "STSLICECONST" then
    oneSlice (unitSlices tc w.cmd1.rest w.cmd4.rest) 4 "PUSHSLICE " ["NEWC", "STSLICE"]
  else miss

/-- Lines 688-697. -/
def rule688 (tc : TvmConst) (w : Window) : RuleResult :=
  if w.cmd1.is "PUSHSLICE" && w.cmd2.is "STSLICER" && w.cmd3.is "STSLICECONST" then
    oneSlice (unitSlices tc w.cmd1.rest w.cmd3.rest) 3 "PUSHSLICE " ["STSLICER"]
  else miss

/-- Lines 698-708. -/
def rule698 (tc : TvmConst) (w : Window) : RuleResult :=
  if w.cmd1.is_PUSHINT && w.cmd2.is "STZEROES" && w.cmd3.is "STSLICECONST" &&
      decide (w.cmd3.rest.length > 1) then
    match w.cmd1.fetch_int with
    | none => none
    | some integer =>
      if integer < 0 then none
      else
        match toBitString w.cmd3.rest with
        | none => none
        | some b =>
          oneSlice (unitBitString tc (List.replicate integer.toNat '0') b) 3 "PUSHSLICE "
            ["STSLICER"]
  else miss

/-- Lines 709-715. -/
def rule709 (tc : TvmConst) (w : Window) : RuleResult :=
  if w.cmd1.is "STSLICECONST" && w.cmd2.is "STSLICECONST" then
    match unitSlices tc w.cmd1.rest w.cmd2.rest with
    | none => none
    | some [o] =>
      match toBitString o with
      | none => none
      | some bits =>
        if (bits.length : Int) ≤ tc.MaxSTSLICECONST then hit 2 ["STSLICECONST " ++ o] else miss
    | some _ => miss
  else miss

/-- Lines 716-724. -/
def rule716 (tc : TvmConst) (w : Window) : RuleResult :=
  if w.cmd1.is "PUSHSLICE" && w.cmd2.is "NEWC" && w.cmd3.is "STSLICECONST" &&
      w.cmd4.is "STSLICE" then
    oneSlice (unitSlices tc w.cmd3.rest w.cmd1.rest) 4 "PUSHSLICE " ["NEWC", "STSLICE"]
  else miss

/-- Lines 725-734. -/
def rule725 (tc : TvmConst) (w : Window) : RuleResult :=
  if w.cmd1.is "PUSHSLICE" && w.cmd2.is "NEWC" && w.cmd3.is "STSLICE" &&
      w.cmd4.is "PUSHSLICE" && w.cmd5.is "STSLICER" then
    oneSlice (unitSlices tc w.cmd1.rest w.cmd4.rest) 5 "PUSHSLICE " ["NEWC", "STSLICE"]
  else miss

/-- Lines 735-739. -/
def rule735 (w : Window) : RuleResult :=
  if w.cmd1.is "TUPLE" && w.cmd2.is "UNTUPLE" then
    match w.cmd1.fetch_int, w.cmd2.fetch_int with
    | some a, some b => if a = b then hit 2 [] else miss
    | _, _ => none
  else miss

/-- Lines 740-743. -/
def rule740 (w : Window) : RuleResult :=
  if w.cmd1.is "PAIR" && w.cmd2.is "UNPAIR" then hit 2 [] else miss

/-- Lines 744-748. -/
def rule744 (w : Window) : RuleResult :=
  if w.cmd1.is "ROT" then
    let second : Option Bool :=
      if w.cmd2.is "SETGLOB" then some true
      else if w.cmd2.is "POP" then w.cmd2.fetchStackIndex.map fun v => decide (v ≥ 3)
      else some false
    match second with
    | none => none
    | some b => if b && w.cmd3.is "SWAP" then hit 3 ["XCHG s2", w.cmd2.without_prefix] else miss
  else miss

/-- Lines 749-751. -/
def rule749 (w : Window) : RuleResult :=
  if w.cmd1.is "SETGLOB" && w.cmd2.is "GETGLOB" && decide (w.cmd1.rest = w.cmd2.rest) then
    hit 2 ["DUP", "SETGLOB " ++ w.cmd2.rest]
  else miss

/-- Lines 752-756. -/
def rule752 (w : Window) : RuleResult :=
  if w.cmd1.is_const_add && w.cmd2.is_const_add then
    match w.cmd1.get_add_num, w.cmd2.get_add_num with
    | some a, some b =>
      if -128 ≤ a + b ∧ a + b ≤ 127 then hit 2 ["ADDCONST " ++ toString (a + b)] else miss
    | _, _ => none
  else miss

/-- Lines 757-763. -/
def rule757 (w : Window) : RuleResult :=
  if w.cmd1.is_const_add && w.cmd3.is_const_add then
    if w.cmd2.is "UFITS" && w.cmd4.is "UFITS" && decide (w.cmd2.rest = w.cmd4.rest) then
      match w.cmd1.get_add_num, w.cmd3.get_add_num with
      | some a, some b =>
        if -128 ≤ a + b ∧ a + b ≤ 127 then
          hit 4 ["ADDCONST " ++ toString (a + b), "UFITS " ++ w.cmd2.rest]
        else miss
      | _, _ => none
    else miss
  else miss

/-- The condition `c.is("INDEX") && 0 <= strToInt(c.rest()) && strToInt(c.rest()) <= 3`. -/
def isSmallIndex (c : Cmd) : Option Bool :=
  if c.is "INDEX" then (strToInt c.rest).map fun v => decide (0 ≤ v ∧ v ≤ 3) else some false

/-- Lines 764-768. -/
def rule764 (w : Window) : RuleResult :=
  match isSmallIndex w.cmd1 with
  | none => none
  | some false => miss
  | some true =>
    match isSmallIndex w.cmd2 with
    | none => none
    | some false => miss
    | some true =>
      match isSmallIndex w.cmd3 with
      | none => none
      | some false => miss
      | some true =>
        hit 3 ["INDEX3 " ++ w.cmd1.rest ++ ", " ++ w.cmd2.rest ++ ", " ++ w.cmd3.rest]

/-- Lines 769-772. -/
def rule769 (w : Window) : RuleResult :=
  match isSmallIndex w.cmd1 with
  | none => none
  | some false => miss
  | some true =>
    match isSmallIndex w.cmd2 with
    | none => none
    | some false => miss
    | some true => hit 2 ["INDEX2 " ++ w.cmd1.rest ++ ", " ++ w.cmd2.rest]

/-- Lines 773-776. -/
def rule773 (w : Window) : RuleResult :=
  if w.cmd1.is_PUSHINT then
    match w.cmd1.fetch_bigint with
    | none => none
    | some v =>
      if (0 ≤ v ∧ v < 2048) ∧ w.cmd2.is "THROWANY" = true then hit 2 ["THROW " ++ w.cmd1.rest]
      else miss
  else miss

/-- Lines 777-780. -/
def rule777 (w : Window) : RuleResult :=
  if w.cmd1.is_PUSHINT then
    match w.cmd1.fetch_bigint with
    | none => none
    | some v =>
      if (1 ≤ v ∧ v ≤ 256) ∧ (w.cmd2.is "RSHIFT" || w.cmd2.is "LSHIFT") = true then
        hit 2 [w.cmd2.cmd_ ++ " " ++ w.cmd1.rest]
      else miss
  else miss

/-- The `std::map` of lines 782-785: the exponent `p` with `2 ^ p = val`, for `p` from 1
to 8. -/
def powerOfTwo (val : Int) : Option Int :=
  if val = 2 then some 1 else if val = 4 then some 2 else if val = 8 then some 3
  else if val = 16 then some 4 else if val = 32 then some 5 else if val = 64 then some 6
  else if val = 128 then some 7 else if val = 256 then some 8 else none

/-- Lines 787-794. -/
def rule787 (w : Window) : RuleResult :=
  if w.cmd1.is_PUSHINT && (w.cmd2.is "DIV" || w.cmd2.is "MUL") then
    match w.cmd1.fetch_bigint with
    | none => none
    | some val =>
      match powerOfTwo val with
      | some p => hit 2 [(if w.cmd2.is "DIV" then "RSHIFT" else "LSHIFT") ++ " " ++ toString p]
      | none => miss
  else miss

/-- Lines 795-801. -/
def rule795 (w : Window) : RuleResult :=
  if w.cmd1.is_PUSHINT && w.cmd2.is "MOD" then
    match w.cmd1.fetch_bigint with
    | none => none
    | some val =>
      match powerOfTwo val with
      | some p => hit 2 ["MODPOW2 " ++ toString p]
      | none => miss
  else miss

/-- Lines 803-815. -/
def rule803 (w : Window) : RuleResult :=
  if w.cmd1.is_PUSHINT then
    match w.cmd1.fetch_bigint with
    | none => none
    | some val =>
      if -128 ≤ val ∧ val < 128 then
        if w.cmd2.is "NEQ" then hit 2 ["NEQINT " ++ toString val]
        else if w.cmd2.is "EQUAL" then hit 2 ["EQINT " ++ toString val]
        else if w.cmd2.is "GREATER" then hit 2 ["GTINT " ++ toString val]
        else if w.cmd2.is "LESS" then hit 2 ["LESSINT " ++ toString val]
        else miss
      else miss
  else miss

/-- Lines 817-819. -/
def rule817 (w : Window) : RuleResult :=
  if w.cmd1.is "ROTREV" && w.cmd2.is "ROTREV" && w.cmd3.is "ROTREV" then hit 3 [] else miss

/-- The loop of lines 824-827: `ok` after the iterations `iter`, ..., `n`. -/
def blkswapRun (lines_ : List String) (idx1 n : Int) : Nat → Int → Bool → Option Bool
  | 0, _, ok => some ok
  | fuel + 1, iter, ok =>
    match cmd lines_ (idx1 + iter) with
    | none => none
    | some c =>
      let cond : Option Bool :=
        if c.is "BLKSWAP" then
          match c.fetch_first_int with
          | none => none
          | some f =>
            if f = n then c.fetch_second_int.map fun s => decide (s = 1) else some false
        else some false
      match cond with
      | none => none
      | some b => blkswapRun lines_ idx1 n fuel (iter + 1) (ok && b)

/-- Lines 821-831. -/
def rule821 (w : Window) : RuleResult :=
  if w.cmd1.is "BLKSWAP" then
    match w.cmd1.fetch_first_int with
    | none => none
    | some n =>
      match blkswapRun w.lines_ w.idx1 n (n + 1).toNat 0 true with
      | none => none
      | some ok => if ok then hit (n + 1) [] else miss
  else miss

/-- Lines 833-841. -/
def rule833 (w : Window) : RuleResult :=
  if w.cmd1.is_PUSHINT && w.cmd2.is_PUSHINT && w.cmd3.is_MUL then
    match w.cmd1.fetch_bigint, w.cmd2.fetch_bigint with
    | some a, some b => hit 3 ["PUSHINT " ++ toString (a * b)]
    | _, _ => none
  else miss

/-- Lines 843-853. -/
def rule843 (w : Window) : RuleResult :=
  if w.cmd1.is_PUSHINT && w.cmd2.is_PUSHINT && w.cmd3.is_DIV then
    match w.cmd1.fetch_bigint, w.cmd2.fetch_bigint with
    | some a, some b => if a ≥ 0 ∧ b > 0 then hit 3 ["PUSHINT " ++ toString (a / b)] else miss
    | _, _ => none
  else miss

/-- Lines 855-862. -/
def rule855 (w : Window) : RuleResult :=
  if w.cmd1.is "PUSHSLICE" && w.cmd2.is "NEWC" && w.cmd3.is "STSLICE" && w.cmd4.is "ENDC" &&
      w.cmd5.is "DROP" then hit 5 []
  else miss

/-- Lines 864-872. -/
def rule864 (w : Window) : RuleResult :=
  if w.cmd1.is "XCHG" && !(w.cmd1.rest.data.contains ',') && w.cmd2.is "BLKDROP" &&
      w.cmd3.is "NIP" then
    match w.cmd1.fetchStackIndex with
    | none => none
    | some x =>
      match w.cmd2.get_drop_index with
      | none => none
      | some d =>
        if d = x then
          hit 3 ["XCHG s" ++ toString (x + 1), "BLKDROP " ++ toString (x + 1)]
        else miss
  else miss

/-- Lines 874-884. -/
def rule874 (w : Window) : RuleResult :=
  if w.cmd1.is "BLKDROP2" && w.cmd2.is "BLKDROP2" then
    match w.cmd1.fetch_first_int, w.cmd2.fetch_first_int, w.cmd1.fetch_second_int,
        w.cmd2.fetch_second_int with
    | some f1, some f2, some s1, some s2 =>
      if s1 = s2 then hit 2 ["BLKDROP2 " ++ toString (f1 + f2) ++ ", " ++ toString s2] else miss
    | _, _, _, _ => none
  else miss

/-- Lines 886-895. -/
def rule886 (w : Window) : RuleResult :=
  if w.cmd1.is "BLKSWAP" && w.cmd2.is "BLKDROP" then
    match w.cmd1.fetch_first_int, w.cmd1.fetch_second_int, w.cmd2.fetch_int with
    | some a1, some b1, some a2 =>
      if a1 = a2 then hit 2 ["BLKDROP2 " ++ toString a1 ++ ", " ++ toString b1] else miss
    | _, _, _ => none
  else miss

/-- Lines 897-907. -/
def rule897 (w : Window) : RuleResult :=
  if w.cmd1.is "BLKDROP2" && w.cmd2.is "BLKDROP2" then
    match w.cmd1.fetch_first_int, w.cmd1.fetch_second_int, w.cmd2.fetch_first_int,
        w.cmd2.fetch_second_int with
    | some i1, some j1, some i2, some j2 =>
      if j1 = i2 + j2 then hit 2 ["BLKDROP2 " ++ toString (i1 + i2) ++ ", " ++ toString j2]
      else miss
    | _, _, _, _ => none
  else miss

/-- Lines 909-912. -/
def rule909 (w : Window) : RuleResult :=
  if w.cmd1.is "MUL" && w.cmd2.is "RSHIFT" then hit 2 ["MULRSHIFT " ++ w.cmd2.rest_] else miss

/-- Lines 914-916. -/
def rule914 (w : Window) : RuleResult :=
  if w.cmd1.is "NEWC" && w.cmd2.is "ENDC" then hit 2 ["PUSHREF \x7b", "\x7d"] else miss

/-- Lines 918-926. -/
def rule918 (w : Window) : RuleResult :=
  if w.cmd1.is "POP" && w.cmd2.is "POP" && w.cmd3.is "POP" then
    match w.cmd1.get_pop_index with
    | none => none
    | some a =>
      if a = 3 then
        match w.cmd2.get_pop_index with
        | none => none
        | some b =>
          if b = 3 then
            match w.cmd3.get_pop_index with
            | none => none
            | some c => if c = 3 then hit 3 ["BLKDROP2 3, 3"] else miss
          else miss
      else miss
  else miss

/-- Lines 928-933. -/
def rule928 (w : Window) : RuleResult :=
  if w.cmd1.is "ISNULL" && w.cmd2.is "NOT" && w.cmd3.is "NOT" then hit 3 ["ISNULL"] else miss
/-- The condition `c.is_PUSHINT() && c.fetch_bigint() == v`. -/
def isPushintOf (c : Cmd) (v : Int) : Option Bool :=
  if c.is_PUSHINT then c.fetch_bigint.map fun x => decide (x = v) else some false

/-- Lines 935-943. -/
def rule935 (w : Window) : RuleResult :=
  match isPushintOf w.cmd1 0 with
  | none => none
  | some false => miss
  | some true =>
    if w.cmd2.is "STUR" then
      match isPushintOf w.cmd3 0 with
      | none => none
      | some false => miss
      | some true =>
        if w.cmd4.is "STUR" then
          match w.cmd2.fetch_int, w.cmd4.fetch_int with
          | some a, some b =>
            if a + b ≤ 256 then hit 4 ["PUSHINT 0", "STUR " ++ toString (a + b)] else miss
          | _, _ => none
        else miss
    else miss

/-- Lines 945-948. -/
def rule945 (w : Window) : RuleResult :=
  if (w.cmd1.is "UFITS" && w.cmd2.is "UFITS") || (w.cmd1.is "FITS" && w.cmd2.is "FITS") then
    match w.cmd1.fetch_int, w.cmd2.fetch_int with
    | some a, some b => hit 2 [w.cmd1.cmd_ ++ " " ++ toString (min a b)]
    | _, _ => none
  else miss

/-- The statements `slices = unitBitString(bitStr, ""); if (slices.size() == 1) return
Result(true, remove, {"PUSHSLICE " + slices.at(0), "NEWC", "STSLICE"});`. -/
def pushSliceResult (tc : TvmConst) (bitStr : Option (List Char)) (remove : Int) :
    RuleResult :=
  match bitStr with
  | none => none
  | some b => oneSlice (unitBitString tc b []) remove "PUSHSLICE " ["NEWC", "STSLICE"]

/-- Lines 950-964. -/
def rule950 (tc : TvmConst) (w : Window) : RuleResult :=
  if w.cmd1.is_PUSHINT && w.cmd2.is "NEWC" && w.cmd3.is "STSLICECONST" && w.cmd4.is "STU" then
    match toBitString w.cmd3.rest, w.cmd1.fetch_bigint, w.cmd4.fetch_int with
    | some bitStr, some v, some len => pushSliceResult tc (addBinaryNumberToString bitStr v len) 4
    | _, _, _ => none
  else miss

/-- Lines 966-982. -/
def rule966 (tc : TvmConst) (w : Window) : RuleResult :=
  if w.cmd1.is_PUSHINT && w.cmd2.is "PUSHSLICE" && w.cmd3.is "NEWC" && w.cmd4.is "STSLICE" &&
      w.cmd5.is "STU" then
    match toBitString w.cmd2.rest, w.cmd1.fetch_bigint, w.cmd5.fetch_int with
    | some bitStr, some v, some len => pushSliceResult tc (addBinaryNumberToString bitStr v len) 5
    | _, _, _ => none
  else miss

/-- Lines 984-999. -/
def rule984 (tc : TvmConst) (w : Window) : RuleResult :=
  if w.cmd1.is "PUSHSLICE" && w.cmd2.is "NEWC" && w.cmd3.is "STSLICE" &&
      (w.cmd4.is "STONE" || w.cmd4.is "STZERO") then
    match toBitString w.cmd1.rest with
    | none => none
    | some bitStr =>
      pushSliceResult tc (some (bitStr ++ [if w.cmd4.is "STONE" then '1' else '0'])) 4
  else miss

/-- Lines 1001-1011. -/
def rule1001 (w : Window) : RuleResult :=
  if w.cmd1.is_PUSHINT && w.cmd2.is "STZEROES" && w.cmd3.is_PUSHINT && w.cmd4.is "STZEROES" then
    match w.cmd1.fetch_int, w.cmd3.fetch_int with
    | some a, some b => hit 4 ["PUSHINT " ++ toString (a + b), "STZEROES"]
    | _, _ => none
  else miss

/-- Lines 1013-1029. -/
def rule1013 (w : Window) : RuleResult :=
  if w.cmd1.is_PUSHINT && w.cmd2.is "STUR" && w.cmd3.is_PUSHINT && w.cmd4.is "STUR" then
    match w.cmd1.fetch_bigint, w.cmd2.fetch_int, w.cmd3.fetch_bigint, w.cmd4.fetch_int with
    | some a, some lenA, some b, some lenB =>
      if lenA + lenB ≤ 256 then
        if lenB < 0 then none
        else hit 4 ["PUSHINT " ++ toString (a * 2 ^ lenB.toNat + b), "STUR " ++ toString (lenA + lenB)]
      else miss
    | _, _, _, _ => none
  else miss

/-- Lines 1031-1042. -/
def rule1031 (w : Window) : RuleResult :=
  if w.cmd1.is_PUSHINT && w.cmd2.is "STZEROES" && w.cmd3.is "STSLICECONST" &&
      decide (w.cmd3.rest = "1") then
    match w.cmd1.fetch_int with
    | none => none
    | some lenA => if lenA ≤ 256 then hit 3 ["PUSHINT 1", "STUR " ++ toString (lenA + 1)] else miss
  else miss

/-- Lines 1044-1050. -/
def rule1044 (w : Window) : RuleResult :=
  if (w.cmd1.is "TRUE" || w.cmd1.is "FALSE") && w.cmd2.is "STIR" then
    match w.cmd2.fetch_int with
    | none => none
    | some v =>
      if v = 1 then (if w.cmd1.is "FALSE" then hit 2 ["STZERO"] else hit 2 ["STONE"]) else miss
  else miss

/-- The loop of lines 1056-1064: the number of `STONE` / `STZERO` commands taken and their
bits. -/
def storeBitsRun (tc : TvmConst) (lines_ : List String) :
    Nat → Int → Int → List Char → Option (Int × List Char)
  | 0, _, _, _ => none
  | fuel + 1, i, qty, bits =>
    if i ≠ -1 ∧ qty < tc.MaxSTSLICECONST then
      match cmd lines_ i with
      | none => none
      | some c =>
        if c.is "STONE" || c.is "STZERO" then
          storeBitsRun tc lines_ fuel (next_command_line lines_ i) (qty + 1)
            (bits ++ [if c.is "STONE" then '1' else '0'])
        else some (qty, bits)
    else some (qty, bits)

/-- Lines 1052-1071. -/
def rule1052 (tc : TvmConst) (w : Window) : RuleResult :=
  if w.cmd1.is "STONE" || w.cmd1.is "STZERO" then
    match storeBitsRun tc w.lines_ (w.lines_.length + 1) w.idx1 0 [] with
    | none => none
    | some (qty, bits) =>
      if qty ≥ 2 then
        match unitBitString tc bits [] with
        | some [s] => hit qty ["STSLICECONST " ++ s]
        | _ => none
      else miss
  else miss

/-- Lines 1073-1091. -/
def rule1073 (tc : TvmConst) (w : Window) : RuleResult :=
  if w.cmd1.is "PUSHSLICE" && w.cmd2.is "NEWC" && w.cmd3.is "STSLICE" && w.cmd4.is "NEWC" &&
      w.cmd5.is "STSLICECONST" && w.cmd6.is "STB" then
    match toBitString w.cmd1.rest, toBitString w.cmd5.rest with
    | some str1, some str5 =>
      oneSlice (unitBitString tc str5 str1) 6 "PUSHSLICE " ["NEWC", "STSLICE"]
    | _, _ => none
  else miss

/-- Lines 1093-1103. -/
def rule1093 (w : Window) : RuleResult :=
  if w.cmd1.is "STSLICECONST" && decide (w.cmd1.rest_ = "0") then
    match isPushintOf w.cmd2 0 with
    | none => none
    | some false => miss
    | some true =>
      if w.cmd3.is "STUR" then
        match w.cmd3.fetch_int with
        | none => none
        | some bitQty => hit 3 ["PUSHINT 0", "STUR " ++ toString (bitQty + 1)]
      else miss
  else miss

/-- Lines 1105-1118. -/
def rule1105 (w : Window) : RuleResult :=
  if w.cmd1.is_PUSHINT && w.cmd2.is "STZEROES" && w.cmd3.is_PUSHINT && w.cmd4.is "STUR" then
    match w.cmd1.fetch_bigint, w.cmd4.fetch_bigint with
    | some a, some b =>
      if a + b ≤ 256 then hit 4 ["PUSHINT " ++ w.cmd3.rest_, "STUR " ++ toString (a + b)]
      else miss
    | _, _ => none
  else miss

/-- Lines 1120-1128. -/
def rule1120 (w : Window) : RuleResult :=
  match isPushintOf w.cmd1 0 with
  | none => none
  | some false => miss
  | some true =>
    if w.cmd2.is "STUR" then hit 2 ["PUSHINT " ++ w.cmd2.rest_, "STZEROES"] else miss

/-- Lines 1130-1135. -/
def rule1130 (w : Window) : RuleResult :=
  if w.cmd1.is "ABS" && w.cmd2.is "UFITS" then
    match w.cmd2.fetch_int with
    | none => none
    | some v => if v = 256 then hit 2 ["ABS"] else miss
  else miss

/-- Lines 1137-1142. -/
def rule1137 (w : Window) : RuleResult :=
  match isPushintOf w.cmd1 1 with
  | none => none
  | some false => miss
  | some true => if w.cmd2.is "STZEROES" then hit 2 ["STZERO"] else miss

/-- The rules of `optimize_at`, in the order of the source. -/
def rules (tc : TvmConst) : List (Window → RuleResult) :=
  [rule396, rule403, rule412, rule426, rule431, rule434, rule443, rule452, rule459, rule476,
   rule479, rule490, rule501, rule508, rule517, rule523, rule528, rule531, rule537, rule548,
   rule555, rule562, rule569, rule576, rule590, rule597, rule600, rule603, rule606, rule612,
   rule618, rule623, rule628, rule632, rule636, rule640, rule666, rule669, rule672,
   rule676 tc, rule688 tc, rule698 tc, rule709 tc, rule716 tc, rule725 tc, rule735, rule740,
   rule744, rule749, rule752, rule757, rule764, rule769, rule773, rule777, rule787, rule795,
   rule803, rule817, rule821, rule833, rule843, rule855, rule864, rule874, rule886, rule897,
   rule909, rule914, rule918, rule928, rule935, rule945, rule950 tc, rule966 tc, rule984 tc,
   rule1001, rule1013, rule1031, rule1044, rule1052 tc, rule1073 tc, rule1093, rule1105,
   rule1120, rule1130, rule1137]

/-- Runs the rules in order up to the first that returns a result or throws; the final
`return Result(false)` when none applies. -/
def firstRule : List (Window → RuleResult) → Window → Option Result
  | [], _ => some ⟨false, 0, []⟩
  | r :: rs, w =>
    match r w with
    | none => none
    | some (some res) => some res
    | some none => firstRule rs w

/-- `TVMOptimizer::optimize_at`. -/
def optimize_at (tc : TvmConst) (lines_ : List String) (idx1 : Int) : Option Result :=
  match Window.at lines_ idx1 with
  | none => none
  | some w => firstRule (rules tc) w
/-- The characters matched by `[S|s]` in the regular expression of `get_push2_indexes`. -/
def isStackLetter (ch : Char) : Bool := ch = 'S' || ch = '|' || ch = 's'

/-- A match of `[S|s](\d+),\s*[S|s](\d+)` at the start of the string: its two groups. -/
def matchPush2Here (s : List Char) : Option (List Char × List Char) :=
  match s with
  | [] => none
  | c :: r =>
    if isStackLetter c ∧ r.takeWhile isdigit ≠ [] then
      match r.dropWhile isdigit with
      | ',' :: r2 =>
        match r2.dropWhile isspace with
        | [] => none
        | c2 :: r4 =>
          if isStackLetter c2 ∧ r4.takeWhile isdigit ≠ [] then
            some (r.takeWhile isdigit, r4.takeWhile isdigit)
          else none
      | _ => none
    else none

/-- `std::regex_search` with the regular expression of `get_push2_indexes`: the groups of
the leftmost match. -/
def searchPush2 : List Char → Option (List Char × List Char)
  | [] => none
  | c :: r =>
    match matchPush2Here (c :: r) with
    | some m => some m
    | none => searchPush2 r

/-- `Cmd::get_push2_indexes`. -/
def Cmd.get_push2_indexes (c : Cmd) : Option (Int × Int) :=
  if ¬ c.is "PUSH2" then none
  else
    match searchPush2 c.rest.data with
    | none => none
    | some (g1, g2) =>
      match strToInt (String.mk g1), strToInt (String.mk g2) with
      | some si, some sj => some (si, sj)
      | _, _ => none

/-- `TVMOptimizer::unsquash_push`. -/
def unsquash_push (lines_ : List String) (idx1 : Int) : Option Result :=
  match cmd lines_ idx1 with
  | none => none
  | some cmd1 =>
    if cmd1.is "PUSH2" then
      match cmd1.get_push2_indexes with
      | none => none
      | some (si, sj) =>
        match make_PUSH si, make_PUSH (sj + 1) with
        | some a, some b => some (Result.Replace 1 [a, b])
        | _, _ => none
    else some ⟨false, 0, []⟩

/-- Lines 1303-1313 of `squash_push`. -/
def squash3 (cmd1 cmd2 cmd3 : Cmd) : RuleResult :=
  if cmd1.is_PUSH && cmd2.is_PUSH && cmd3.is_PUSH then
    match cmd1.get_push_index, cmd2.get_push_index, cmd3.get_push_index with
    | some p1, some p2, some p3 =>
      let si := p1
      let sj := if p2 - 1 = -1 then si else p2 - 1
      let sk := if p3 - 2 = -1 then si else (if p3 - 2 = -2 then sj else p3 - 2)
      if si ≤ 15 ∧ sj ≤ 15 ∧ sk ≤ 15 then
        hit 3 ["PUSH3 S" ++ toString si ++ ", S" ++ toString sj ++ ", S" ++ toString sk]
      else miss
    | _, _, _ => none
  else miss

/-- Lines 1314-1324 of `squash_push`. -/
def squash2 (cmd1 cmd2 : Cmd) : RuleResult :=
  if cmd1.is_PUSH && cmd2.is_PUSH then
    match cmd1.get_push_index, cmd2.get_push_index with
    | some p1, some p2 =>
      if p1 = 1 ∧ p2 = 1 then hit 2 ["DUP2"]
      else
        let si := p1
        let sj := if p2 - 1 = -1 then si else p2 - 1
        if si ≤ 15 ∧ sj ≤ 15 then hit 2 ["PUSH2 S" ++ toString si ++ ", S" ++ toString sj]
        else miss
    | _, _ => none
  else miss

/-- Lines 1325-1334 of `squash_push`. -/
def squashBlkpush (cmd1 : Cmd) : RuleResult :=
  if cmd1.is "BLKPUSH" then
    match cmd1.fetch_first_int with
    | none => none
    | some f =>
      if f = 2 then
        match cmd1.fetch_second_int with
        | none => none
        | some s =>
          if s = 1 then hit 1 ["DUP2"]
          else if s = 3 then hit 1 ["OVER2"]
          else miss
      else miss
  else miss

/-- `TVMOptimizer::squash_push`. -/
def squash_push (lines_ : List String) (idx1 : Int) : Option Result :=
  let idx2 := next_command_line lines_ idx1
  let idx3 := next_command_line lines_ idx2
  match cmd lines_ idx1, cmd lines_ idx2, cmd lines_ idx3 with
  | some cmd1, some cmd2, some cmd3 =>
    match squash3 cmd1 cmd2 cmd3 with
    | none => none
    | some (some r) => some r
    | some none =>
      match squash2 cmd1 cmd2 with
      | none => none
      | some (some r) => some r
      | some none =>
        match squashBlkpush cmd1 with
        | none => none
        | some (some r) => some r
        | some none => some ⟨false, 0, []⟩
  | _, _, _ => none

/-- The first loop of `updateLines`: the indices `idx1`, `next_command_line(idx1)`, ... of
the lines to remove, `count` of them, in the order visited. -/
def linesToRemove (lines_ : List String) : Nat → Int → List Int
  | 0, _ => []
  | count + 1, i => i :: linesToRemove lines_ count (next_command_line lines_ i)

/-- The loop of lines 1374-1379: the shortest prefix among the lines at `indices`, from
`start`. -/
def shortestPrefix (lines_ : List String) : List Int → String → Option String
  | [], start => some start
  | i :: rest, start =>
    match Cmd.ofString (lineAt lines_ i) with
    | none => none
    | some c =>
      shortestPrefix lines_ rest (if start.length > c.prefix_.length then c.prefix_ else start)

/-- `TVMOptimizer::insert`. -/
def insert (lines_ : List String) (idx : Int) (cmd : String) (pfx : String) : List String :=
  lines_.take idx.toNat ++ (pfx ++ cmd) :: lines_.drop idx.toNat

/-- `TVMOptimizer::remove`. -/
def remove (lines_ : List String) (idx : Int) : List String := lines_.eraseIdx idx.toNat

/-- The loop of lines 1383-1386: inserts the non-empty commands at `idx`, the last one
first. -/
def insertCommands (idx : Int) (pfx : String) : List String → List String → List String
  | [], lines_ => lines_
  | c :: rest, lines_ =>
    let lines1 := insertCommands idx pfx rest lines_
    if c ≠ "" then insert lines1 idx c pfx else lines1

/-- The loop of lines 1415-1421: steps back over `cnt` commands from `i`. -/
def stepBack (lines_ : List String) : Nat → Int → Int → Int → Int
  | 0, _, _, idx1 => idx1
  | fuel + 1, cnt, i, idx1 =>
    if cnt > 0 then
      if ¬ valid lines_ (i - 1) then idx1
      else
        stepBack lines_ fuel (if ¬ is_comment_or_empty_line (lineAt lines_ (i - 1)) then cnt - 1
          else cnt) (i - 1) (i - 1)
    else idx1

/-- `TVMOptimizer::updateLines`: the returned flag, the index `idx1` and the lines
afterwards. Undefined behaviour (an index outside the lines) is `none`. -/
def updateLines (lines_ : List String) (idx1 : Int) (res : Result) :
    Option (Bool × Int × List String) :=
  if res.remove_ < 0 then none
  else
    let toRemove := linesToRemove lines_ res.remove_.toNat idx1
    if toRemove.any (fun i => !valid lines_ i) then none
    else
      let inserted : Option (Int × List String) :=
        if res.commands_ ≠ [] then
          match Cmd.ofString (lineAt lines_ idx1) with
          | none => none
          | some c1 =>
            match shortestPrefix lines_ toRemove c1.prefix_ with
            | none => none
            | some pfx =>
              match toRemove.getLast? with
              | some last => some (idx1, insertCommands (last + 1) pfx res.commands_ lines_)
              | none =>
                match res.commands_ with
                | [c] =>
                  if lineAt lines_ idx1 ≠ pfx ++ c then
                    if ¬ valid lines_ (idx1 - 1) then none
                    else if lineAt lines_ (idx1 - 1) ≠ pfx ++ c then
                      some (idx1 + 1, insert lines_ idx1 c pfx)
                    else some (idx1, lines_)
                  else some (idx1, lines_)
                | _ => none
        else some (idx1, lines_)
      match inserted with
      | none => none
      | some (idx1a, lines1) =>
        let lines2 := toRemove.reverse.foldl remove lines1
        if res.continue_ then
          some (true, stepBack lines2 (idx1a.toNat + 1) 10 idx1a idx1a, lines2)
        else some (false, idx1a, lines2)

/-- The loop of `TVMOptimizer::optimize` from the index `idx1`; `fuel` bounds the number
of iterations, and `none` is returned when it is exhausted as when `f` throws. -/
def optimizeLoop (f : List String → Int → Option Result) :
    Nat → List String → Int → Option (List String)
  | 0, _, _ => none
  | fuel + 1, lines_, idx1 =>
    if valid lines_ idx1 then
      match f lines_ idx1 with
      | none => none
      | some res =>
        match updateLines lines_ idx1 res with
        | none => none
        | some (true, idx1a, lines1) => optimizeLoop f fuel lines1 idx1a
        | some (false, idx1a, lines1) =>
          optimizeLoop f fuel lines1 (next_command_line lines1 idx1a)
    else some lines_

/-- `TVMOptimizer::optimize`. -/
def optimize (f : List String → Int → Option Result) (fuel : Nat) (lines_ : List String) :
    Option (List String) :=
  optimizeLoop f fuel lines_ 0

/-- `optimize_code` on the lines of the code; each of the four passes may take `fuel`
iterations of the driver loop. -/
def optimize_code (tc : TvmConst) (fuel : Nat) (code0 : List String) : Option (List String) :=
  (optimize unsquash_push fuel code0).bind fun l1 =>
    (optimize (optimize_at tc) fuel l1).bind fun l2 =>
      (optimize (optimize_at tc) fuel l2).bind fun l3 =>
        optimize squash_push fuel l3

/-- One iteration of the loop of `TVMOptimizer::optimize` at a valid index `idx1`: the
lines and the index afterwards; `none` when the index is not valid or the iteration
throws. -/
def driverStep (f : List String → Int → Option Result) (lines_ : List String) (idx1 : Int) :
    Option (List String × Int) :=
  if valid lines_ idx1 then
    match f lines_ idx1 with
    | none => none
    | some res =>
      match updateLines lines_ idx1 res with
      | none => none
      | some (true, idx1a, lines1) => some (lines1, idx1a)
      | some (false, idx1a, lines1) => some (lines1, next_command_line lines1 idx1a)
  else none

/-- The first `count` iterations of the loop of `TVMOptimizer::optimize`. -/
def driverSteps (f : List String → Int → Option Result) :
    Nat → List String → Int → Option (List String × Int)
  | 0, lines_, idx1 => some (lines_, idx1)
  | count + 1, lines_, idx1 =>
    match driverStep f lines_ idx1 with
    | none => none
    | some (lines1, idx1a) => driverSteps f count lines1 idx1a

end TVMOptimizer

/-! ## Measures on logs used by the claims about the optimizer -/

/-- The number of instruction lines of a log: the lines that are not blank or whole-line
comments. -/
def instrCount (lines_ : List String) : Nat :=
  (lines_.filter fun s => !TVMOptimizer.is_comment_or_empty_line s).length

/-- The constants of `TvmConst` used to evaluate the optimizer on concrete logs. -/
def sampleTvmConst : TVMOptimizer.TvmConst := ⟨248, 56⟩

/-! ## TVMStack: slots (TVMPusher.cpp) -/

/-- The loop of `TVMStack::getStackSize` over the indices `n - 1`, ..., `0`. -/
def getStackSizeLoop (m_stackSize : List (Option Nat)) (name : Nat) : Nat → Int
  | 0 => -1
  | n + 1 =>
    if n < m_stackSize.length ∧ m_stackSize.get? n = some (some name) then (n : Int)
    else getStackSizeLoop m_stackSize name n

/-- `TVMStack::getStackSize`. -/
def TVMStack.getStackSize (s : TVMStack) (name : Nat) : Int :=
  getStackSizeLoop s.m_stackSize name s.m_size.toNat

/-- `TVMStack::isParam`. -/
def TVMStack.isParam (s : TVMStack) (name : Nat) : Bool := decide (s.getStackSize name ≠ -1)

/-- `TVMStack::getOffset(Declaration const*)`. -/
def TVMStack.getOffset (s : TVMStack) (name : Nat) : Option Int :=
  if ¬ s.isParam name then none else some (s.m_size - 1 - s.getStackSize name)

/-- The slot `i` of the stack is within the recorded size and bound to `d`. -/
def TVMStack.boundAt (s : TVMStack) (d : Nat) (i : Nat) : Prop :=
  (i : Int) < s.m_size ∧ s.m_stackSize.get? i = some (some d)

/-! ## Calls (TVMPusher.cpp) -/

/-- `StackPusherHelper::startCallRef`. -/
def StackPusherHelper.startCallRef (p : StackPusherHelper) (deltaStack : Int) :
    Option StackPusherHelper :=
  p.m_code.startCallRef.bind fun c =>
    (p.m_stack.change deltaStack).map fun s => { m_code := c, m_stack := s }

/-- `StackPusherHelper::endContinuation`. -/
def StackPusherHelper.endContinuation (p : StackPusherHelper) (deltaStack : Int) :
    Option StackPusherHelper :=
  p.m_code.endContinuation.bind fun c =>
    (p.m_stack.change deltaStack).map fun s => { m_code := c, m_stack := s }

/-- A state variable declaration: its identity and whether it is constant. -/
structure VariableDeclaration where
  id : Nat
  isConstant : Bool
  deriving DecidableEq, Repr

/-- `TVMCompilerContext::notConstantStateVariables`; `mainChain` is the result of
`getContractsChain(getContract())`, each contract given by its state variables. -/
def notConstantStateVariables (mainChain : List (List VariableDeclaration)) :
    List VariableDeclaration :=
  mainChain.foldl
    (fun variableDeclarations contract =>
      contract.foldl
        (fun acc variable_ => if ¬ variable_.isConstant then acc ++ [variable_] else acc)
        variableDeclarations)
    []

/-- The last loop of `TVMCompilerContext::initMembers`, on the map `m_stateVarIndex`;
`first` is `TvmConst::C7::FirstIndexForVariables`. -/
def initStateVarIndex (first : Int) (vars : List VariableDeclaration)
    (m_stateVarIndex : List (Nat × Int)) : List (Nat × Int) :=
  vars.foldl (fun m variable_ => mapSet m variable_.id (first + (m.length : Int))) m_stateVarIndex

/-- `TVMCompilerContext::getStateVarIndex`. -/
def getStateVarIndex (m_stateVarIndex : List (Nat × Int)) (variable_ : VariableDeclaration) :
    Option Int :=
  mapLookup m_stateVarIndex variable_.id

/-- A log is left alone by the three rewrite functions of `optimize_code`: at every line
`unsquash_push`, `optimize_at` and `squash_push` return `Result(false)`. -/
def noRewrite (tc : TVMOptimizer.TvmConst) (lines_ : List String) : Bool :=
  (List.range lines_.length).all fun i =>
    decide (TVMOptimizer.unsquash_push lines_ (i : Int) = some ⟨false, 0, []⟩) &&
    decide (TVMOptimizer.optimize_at tc lines_ (i : Int) = some ⟨false, 0, []⟩) &&
    decide (TVMOptimizer.squash_push lines_ (i : Int) = some ⟨false, 0, []⟩)

/-- A log of 30 instructions on which two rewrites enabled from more than ten commands
further right follow one another: `POP S2; SWAP; SETGLOB 3` makes the `SWAP` of line 14
removable, and that makes `PUSHINT 7` removable. -/
def nonIdempotentLog : List String :=
  ["PUSHINT 7", "NOW", "NOT", "NOT", "NOT", "NOT", "NOT", "NOT", "NOT", "NOT", "NOT",
   "SETGLOB 1", "NOW", "SWAP", "NOW", "NOT", "NOT", "NOT", "NOT", "NOT", "NOT", "NOT", "NOT",
   "NOT", "SETGLOB 1", "NOW", "POP S2", "SWAP", "SETGLOB 3", "DROP"]

/-- The pattern rules of `optimize_at` that stand before the stack-simulation rules (lines
396-547), in the order of the source. -/
def TVMOptimizer.patternRulesBefore : List (TVMOptimizer.Window → TVMOptimizer.RuleResult) :=
  [TVMOptimizer.rule396, TVMOptimizer.rule403, TVMOptimizer.rule412, TVMOptimizer.rule426, TVMOptimizer.rule431, TVMOptimizer.rule434, TVMOptimizer.rule443, TVMOptimizer.rule452, TVMOptimizer.rule459, TVMOptimizer.rule476,
   TVMOptimizer.rule479, TVMOptimizer.rule490, TVMOptimizer.rule501, TVMOptimizer.rule508, TVMOptimizer.rule517, TVMOptimizer.rule523, TVMOptimizer.rule528, TVMOptimizer.rule531, TVMOptimizer.rule537]

/-- The rules of `optimize_at` that return what `try_simulate` produced (lines 548-582). -/
def TVMOptimizer.simulationRules : List (TVMOptimizer.Window → TVMOptimizer.RuleResult) :=
  [TVMOptimizer.rule548, TVMOptimizer.rule555, TVMOptimizer.rule562, TVMOptimizer.rule569, TVMOptimizer.rule576]

/-- The pattern rules of `optimize_at` that stand after the stack-simulation rules (lines
590-1144), in the order of the source. -/
def TVMOptimizer.patternRulesAfter (tc : TVMOptimizer.TvmConst) :
    List (TVMOptimizer.Window → TVMOptimizer.RuleResult) :=
  [TVMOptimizer.rule590, TVMOptimizer.rule597, TVMOptimizer.rule600, TVMOptimizer.rule603, TVMOptimizer.rule606, TVMOptimizer.rule612, TVMOptimizer.rule618, TVMOptimizer.rule623, TVMOptimizer.rule628, TVMOptimizer.rule632,
   TVMOptimizer.rule636, TVMOptimizer.rule640, TVMOptimizer.rule666, TVMOptimizer.rule669, TVMOptimizer.rule672, TVMOptimizer.rule676 tc, TVMOptimizer.rule688 tc, TVMOptimizer.rule698 tc,
   TVMOptimizer.rule709 tc, TVMOptimizer.rule716 tc, TVMOptimizer.rule725 tc, TVMOptimizer.rule735, TVMOptimizer.rule740, TVMOptimizer.rule744, TVMOptimizer.rule749, TVMOptimizer.rule752, TVMOptimizer.rule757,
   TVMOptimizer.rule764, TVMOptimizer.rule769, TVMOptimizer.rule773, TVMOptimizer.rule777, TVMOptimizer.rule787, TVMOptimizer.rule795, TVMOptimizer.rule803, TVMOptimizer.rule817, TVMOptimizer.rule821, TVMOptimizer.rule833,
   TVMOptimizer.rule843, TVMOptimizer.rule855, TVMOptimizer.rule864, TVMOptimizer.rule874, TVMOptimizer.rule886, TVMOptimizer.rule897, TVMOptimizer.rule909, TVMOptimizer.rule914, TVMOptimizer.rule918, TVMOptimizer.rule928,
   TVMOptimizer.rule935, TVMOptimizer.rule945, TVMOptimizer.rule950 tc, TVMOptimizer.rule966 tc, TVMOptimizer.rule984 tc, TVMOptimizer.rule1001, TVMOptimizer.rule1013, TVMOptimizer.rule1031,
   TVMOptimizer.rule1044, TVMOptimizer.rule1052 tc, TVMOptimizer.rule1073 tc, TVMOptimizer.rule1093, TVMOptimizer.rule1105, TVMOptimizer.rule1120, TVMOptimizer.rule1130, TVMOptimizer.rule1137]

/-- The fractional digits of a numeric type as the claims count them: those of a fixed-point
type, and 0 for an integer type. -/
def fractionalDigitsOf : SolType → Int
  | .FixedPoint _ fractionalDigits _ => fractionalDigits
  | _ => 0

/-- The rescaling stated for a numeric conversion with digit difference `d`: multiply by
`10^d` when `d > 0`, divide by `10^(-d)` when `d < 0`, nothing when `d = 0`. -/
def specRescale (d : Int) : List String :=
  if d > 0 then ["PUSHINT " ++ toString ((10 : Int) ^ d.toNat), "MUL"]
  else if d < 0 then ["PUSHINT " ++ toString ((10 : Int) ^ (-d).toNat), "DIV"]
  else []

/-- The instructions stated for a numeric conversion: the rescaling, then the range check
`check` unless the source converts implicitly. -/
def specNumericConversion (leftType rightType : SolType) (impl : Bool) (check : String) :
    List String :=
  specRescale (fractionalDigitsOf leftType - fractionalDigitsOf rightType) ++
    (if impl then [] else [check])

/-! ## Stack exchanges (TVMPusher.cpp) -/

/-- `StackPusherHelper::exchange`; the recursion of the three-exchange case is bounded by
`fuel`. -/
def exchangeLoop : Nat → StackPusherHelper → Int → Int → Option StackPusherHelper
  | 0, _, _, _ => none
  | fuel + 1, p, i, j =>
    if ¬ i ≤ j then none
    else if ¬ i ≥ 0 then none
    else if ¬ j ≥ 1 then none
    else if i = 0 ∧ j ≤ 255 then
      if j = 1 then p.push 0 "SWAP"
      else if j ≤ 15 then p.push 0 ("XCHG s" ++ toString j)
      else p.push 0 ("XCHG s0,s" ++ toString j)
    else if i = 1 ∧ 2 ≤ j ∧ j ≤ 15 then p.push 0 ("XCHG s1,s" ++ toString j)
    else if 1 ≤ i ∧ i < j ∧ j ≤ 15 then
      p.push 0 ("XCHG s" ++ toString i ++ ",s" ++ toString j)
    else if j ≤ 255 then
      (exchangeLoop fuel p 0 i).bind fun p1 =>
        (exchangeLoop fuel p1 0 j).bind fun p2 => exchangeLoop fuel p2 0 i
    else none

/-- `StackPusherHelper::exchange(i, j)`: the recursive calls have `i = 0` and do not recurse
further, so two levels are enough. -/
def StackPusherHelper.exchange (p : StackPusherHelper) (i j : Int) : Option StackPusherHelper :=
  exchangeLoop 2 p i j

/-- The single instruction stated for `exchange(0, j)`. -/
def specExchangeTop (j : Int) : String :=
  if j = 1 then "SWAP"
  else if j ≤ 15 then "XCHG s" ++ toString j
  else "XCHG s0,s" ++ toString j

/-- The instructions stated for `exchange(i, j)` with `0 ≤ i ≤ j`, `1 ≤ j ≤ 255`. -/
def specExchange (i j : Int) : List String :=
  if i = 0 then [specExchangeTop j]
  else if i < j ∧ j ≤ 15 then ["XCHG s" ++ toString i ++ ",s" ++ toString j]
  else [specExchangeTop i, specExchangeTop j, specExchangeTop i]

/-! ## CodeLines: the remaining operations (TVMPusher.cpp) -/

/-- `CodeLines::startContinuation`. -/
def CodeLines.startContinuation (c : CodeLines) : Option CodeLines :=
  (c.push "PUSHCONT \x7b").map (fun c1 => { c1 with tabQty := c1.tabQty + 1 })

/-- `CodeLines::startContinuationFromRef`. -/
def CodeLines.startContinuationFromRef (c : CodeLines) : Option CodeLines :=
  (c.push "PUSHREFCONT \x7b").map (fun c1 => { c1 with tabQty := c1.tabQty + 1 })

/-- `CodeLines::startIfRef`. -/
def CodeLines.startIfRef (c : CodeLines) : Option CodeLines :=
  (c.push "IFREF \x7b").map (fun c1 => { c1 with tabQty := c1.tabQty + 1 })

/-- `CodeLines::startIfJmpRef`. -/
def CodeLines.startIfJmpRef (c : CodeLines) : Option CodeLines :=
  (c.push "IFJMPREF \x7b").map (fun c1 => { c1 with tabQty := c1.tabQty + 1 })

/-- `CodeLines::startIfNotRef`. -/
def CodeLines.startIfNotRef (c : CodeLines) : Option CodeLines :=
  (c.push "IFNOTREF \x7b").map (fun c1 => { c1 with tabQty := c1.tabQty + 1 })

/-- `CodeLines::append`: every line of `oth` gets `std::string(tabQty, '\t')` in front,
which throws for a negative `tabQty`. -/
def CodeLines.append (c : CodeLines) (oth : CodeLines) : Option CodeLines :=
  if oth.lines = [] then some c
  else if c.tabQty < 0 then none
  else some { c with lines := c.lines ++ oth.lines.map (fun s => tabs c.tabQty ++ s) }

/-- A call of one of the operations of `CodeLines`. -/
inductive CodeOp where
  | push (cmd : String)
  | append (oth : CodeLines)
  | addTabs (qty : Int)
  | subTabs (qty : Int)
  | startContinuation
  | startContinuationFromRef
  | startIfRef
  | startIfJmpRef
  | startIfNotRef
  | startCallRef
  | endContinuation
  deriving DecidableEq, Repr

/-- Runs one operation. -/
def CodeLines.apply (c : CodeLines) : CodeOp → Option CodeLines
  | .push cmd => c.push cmd
  | .append oth => c.append oth
  | .addTabs qty => some (c.addTabs qty)
  | .subTabs qty => some (c.subTabs qty)
  | .startContinuation => c.startContinuation
  | .startContinuationFromRef => c.startContinuationFromRef
  | .startIfRef => c.startIfRef
  | .startIfJmpRef => c.startIfJmpRef
  | .startIfNotRef => c.startIfNotRef
  | .startCallRef => c.startCallRef
  | .endContinuation => c.endContinuation

/-- Runs a sequence of operations in order. -/
def CodeLines.run (c : CodeLines) : List CodeOp → Option CodeLines
  | [] => some c
  | op :: rest => (c.apply op).bind fun c1 => c1.run rest

/-- The operations that check the nesting depth or need it as a length: a `push` that logs
an indented line, an `append` of at least one line, the block-open operations and
`endContinuation`. -/
def CodeOp.checksDepth : CodeOp → Bool
  | .push cmd => decide (cmd ≠ "" ∧ cmd ≠ "\n" ∧ cmd ≠ " ")
  | .append oth => decide (oth.lines ≠ [])
  | .addTabs _ => false
  | .subTabs _ => false
  | _ => true

/-! ## Function names (AST.h, TVMPusher.cpp) -/

/-- The kinds of a function definition (`Token`, as far as `FunctionDefinition` admits). -/
inductive Token where
  | Constructor
  | Function
  | Fallback
  | Receive
  | onBounce
  | onTickTock
  deriving DecidableEq, Repr

/-- A `FunctionDefinition`: its identity, name, kind, visibility and the name of the
contract that defines it (`annotation().contract->name()`). -/
structure FunctionDefinition where
  id : Nat
  name : String
  m_kind : Token
  isPublic : Bool
  contractName : String
  deriving DecidableEq, Repr

/-- `FunctionDefinition::isConstructor`. -/
def FunctionDefinition.isConstructor (f : FunctionDefinition) : Bool :=
  decide (f.m_kind = Token.Constructor)

/-- `FunctionDefinition::isFallback`. -/
def FunctionDefinition.isFallback (f : FunctionDefinition) : Bool :=
  decide (f.m_kind = Token.Fallback)

/-- `FunctionDefinition::isReceive`. -/
def FunctionDefinition.isReceive (f : FunctionDefinition) : Bool :=
  decide (f.m_kind = Token.Receive)

/-- `FunctionDefinition::isOrdinary`. -/
def FunctionDefinition.isOrdinary (f : FunctionDefinition) : Bool :=
  decide (f.m_kind = Token.Function)

/-- The members of `TVMCompilerContext` read by the naming functions: the name of the
compiled contract and the set `m_baseFunctions`. -/
structure NameContext where
  contractName : String
  m_baseFunctions : List Nat

/-- `TVMCompilerContext::isStdlib`. -/
def NameContext.isStdlib (ctx : NameContext) : Bool := decide (ctx.contractName = "stdlib")

/-- `TVMCompilerContext::isBaseFunction`. -/
def NameContext.isBaseFunction (ctx : NameContext) (f : FunctionDefinition) : Bool :=
  decide (f.id ∈ ctx.m_baseFunctions)

/-- `TVMCompilerContext::getFunctionInternalName`. -/
def NameContext.getFunctionInternalName (ctx : NameContext) (f : FunctionDefinition)
    (calledByPoint : Bool) : String :=
  if ctx.isStdlib then f.name
  else if f.name = "onCodeUpgrade" then ":onCodeUpgrade"
  else if f.isFallback then "fallback"
  else if calledByPoint && ctx.isBaseFunction f then f.contractName ++ "_" ++ f.name
  else f.name ++ "_internal"

/-- `TVMCompilerContext::getLibFunctionName`. -/
def getLibFunctionName (f : FunctionDefinition) (withObject : Bool) : String :=
  f.contractName ++ (if withObject then "_with_obj_" else "_no_obj_") ++ f.name

/-- `TVMCompilerContext::getFunctionExternalName`. -/
def getFunctionExternalName (f : FunctionDefinition) : Option String :=
  if ¬ f.isPublic then none
  else if f.isConstructor then some "constructor"
  else if f.isFallback then some "fallback"
  else some f.name

/-- The duplication instruction of the amount `k`, in the words of the specification: `DUP`
duplicates the top value once, `BLKPUSH k, 0` duplicates it `k` times. -/
def specDuplication (k : Nat) : String :=
  if k = 1 then "DUP" else "BLKPUSH " ++ toString k ++ ", 0"

/-! ## Dead code after an instruction that does not return -/

/-- The first loop of the constructor of `Cmd`: the indentation of a line. -/
def linePrefix (str : String) : String :=
  String.mk (str.data.takeWhile TVMOptimizer.is_space)

/-- The second loop of the constructor of `Cmd`: the name of the command of a line. -/
def lineCmd (str : String) : String :=
  String.mk ((str.data.dropWhile TVMOptimizer.is_space).takeWhile
    fun ch => !TVMOptimizer.is_space ch && ch ≠ ';')

/-- The test `cmd1.is("RET") || cmd1.is("THROWANY") || cmd1.is("THROW")` of line 426, on a
line of the log. -/
def isNoreturnLine (str : String) : Bool :=
  lineCmd str = "RET" || lineCmd str = "THROWANY" || lineCmd str = "THROW"

/-- The instruction lines of a log: the lines that are not blank or whole-line comments. -/
def instrLines (lines_ : List String) : List String :=
  lines_.filter fun s => !TVMOptimizer.is_comment_or_empty_line s

/-- The instruction `b` may stand right after the instruction `a`: when `a` is `RET`,
`THROWANY` or `THROW`, the indentation of `b` is shorter than that of `a`. -/
def keptAfter (a b : String) : Prop :=
  isNoreturnLine a = true → (linePrefix b).length < (linePrefix a).length

/-- No `RET`, `THROWANY` or `THROW` of the log is directly followed, comments and blank
lines apart, by an instruction indented at least as far as itself. -/
def noDeadCode (lines_ : List String) : Prop :=
  List.Chain' keptAfter (instrLines lines_)

/-! ## Encoding and decoding of values (TVMPusher.cpp)

`TypeInfo`, `storeIntegralOrAddress`, `StructCompiler` and the default arguments declared in
`TVMPusher.hpp` are not among the sources; the functions below take them as the parameter
`env`. -/

/-- The code outside the sources that `fastLoad`, `preload` and `store` call. -/
structure CodecEnv where
  /-- `TypeInfo{type}.isNumeric`. -/
  isNumeric : SolType → Bool
  /-- `TypeInfo{type}.isSigned`. -/
  isSigned : SolType → Bool
  /-- `TypeInfo{type}.numBits`. -/
  numBits : SolType → Int
  /-- `storeIntegralOrAddress(type, reverse)`. -/
  storeIntegralOrAddress : SolType → Bool → String
  /-- `StructCompiler{this, type}.convertSliceToTuple()`. -/
  convertSliceToTuple : SolType → StackPusherHelper → Option StackPusherHelper
  /-- `StructCompiler{this, type}.tupleToBuilder()`. -/
  tupleToBuilder : SolType → StackPusherHelper → Option StackPusherHelper
  /-- The default argument of `startContinuation(int deltaStack)`. -/
  startContinuationDefault : Int
  /-- The default argument of `endContinuation(int deltaStack)`. -/
  endContinuationDefault : Int
  /-- The default argument of `drop(int cnt)`. -/
  dropDefault : Int

/-- `TVMStack::ensureSize`: both the reported error and the failed assertion are `none`. -/
def TVMStack.ensureSize (s : TVMStack) (savedStackSize : Int) : Option Unit :=
  if savedStackSize = s.m_size then some () else none

/-- `StackPusherHelper::startContinuation`. -/
def StackPusherHelper.startContinuation (p : StackPusherHelper) (deltaStack : Int) :
    Option StackPusherHelper :=
  p.m_code.startContinuation.bind fun c =>
    (p.m_stack.change deltaStack).map fun s => { m_code := c, m_stack := s }

/-- `StackPusherHelper::untuple`. -/
def StackPusherHelper.untuple (p : StackPusherHelper) (n : Int) : Option StackPusherHelper :=
  if ¬ 0 ≤ n then none
  else if n ≤ 15 then p.push (-1 + n) ("UNTUPLE " ++ toString n)
  else if ¬ n ≤ 255 then none
  else (p.pushInt n).bind fun p1 => p1.push (-2 + n) "UNTUPLEVAR"

/-- `StackPusherHelper::pushS`. -/
def StackPusherHelper.pushS (p : StackPusherHelper) (i : Int) : Option StackPusherHelper :=
  if ¬ i ≥ 0 then none
  else if i = 0 then p.push 1 "DUP"
  else p.push 1 ("PUSH S" ++ toString i)

/-- `StackPusherHelper::blockSwap`. -/
def StackPusherHelper.blockSwap (p : StackPusherHelper) (m n : Int) :
    Option StackPusherHelper :=
  if ¬ 0 ≤ m then none
  else if ¬ 0 ≤ n then none
  else if m = 0 ∨ n = 0 then some p
  else if m = 1 ∧ n = 1 then p.exchange 0 1
  else if m = 1 ∧ n = 2 then p.push 0 "ROT"
  else if m = 2 ∧ n = 1 then p.push 0 "ROTREV"
  else if m = 2 ∧ n = 2 then p.push 0 "SWAP2"
  else if n ≤ 16 ∧ m ≤ 16 then p.push 0 ("BLKSWAP " ++ toString m ++ ", " ++ toString n)
  else (p.pushInt m).bind fun p1 => (p1.pushInt n).bind fun p2 => p2.push (-2) "BLKSWX"

/-- `StackPusherHelper::reverse`. -/
def StackPusherHelper.reverse (p : StackPusherHelper) (i j : Int) : Option StackPusherHelper :=
  if ¬ i ≥ 2 then none
  else if ¬ j ≥ 0 then none
  else if i = 2 ∧ j = 0 then p.push 0 "SWAP"
  else if i = 3 ∧ j = 0 then p.push 0 "XCHG s2"
  else if i - 2 ≤ 15 ∧ j ≤ 15 then p.push 0 ("REVERSE " ++ toString i ++ ", " ++ toString j)
  else (p.pushInt i).bind fun p1 => (p1.pushInt j).bind fun p2 => p2.push (-2) "REVX"

/-- `StackPusherHelper::stzeroes`. -/
def StackPusherHelper.stzeroes (p : StackPusherHelper) (qty : Int) : Option StackPusherHelper :=
  if qty > 0 then
    if qty = 1 then p.push 0 "STSLICECONST 0"
    else (p.pushInt qty).bind fun p1 => p1.push (-1) "STZEROES"
  else some p

/-- `StackPusherHelper::stones`. -/
def StackPusherHelper.stones (p : StackPusherHelper) (qty : Int) : Option StackPusherHelper :=
  if qty > 0 then
    if qty = 1 then p.push 0 "STSLICECONST 1"
    else (p.pushInt qty).bind fun p1 => p1.push (-1) "STONES"
  else some p

/-- The number of entries of a list of types. -/
def SolTypeList.size : SolTypeList → Int
  | .nil => 0
  | .cons _ tail => tail.size + 1

/-- The case `Optional` of the switch of `preload`; `inner` is the recursive call
`preload(opt->valueType())`. -/
def StackPusherHelper.preloadOptional (env : CodecEnv) (valueType : SolType)
    (inner : StackPusherHelper → Option StackPusherHelper) (p : StackPusherHelper) :
    Option StackPusherHelper :=
  (p.pushS 0).bind fun p1 =>
  (p1.push (-1 + 1) "PLDI 1").bind fun p2 =>
  (p2.push (-1) "").bind fun p3 =>
  let savedStake0 := p3.m_stack.m_size
  (p3.startContinuation env.startContinuationDefault).bind fun p4 =>
  (p4.push (-1 + 1) "PLDREF").bind fun p5 =>
  (p5.push (-1 + 1) "CTOS").bind fun p6 =>
  (inner p6).bind fun p7 =>
  (if valueType.category = .Mapping ∨ valueType.category = .Optional then p7.tuple 1
    else some p7).bind fun p8 =>
  (p8.endContinuation env.endContinuationDefault).bind fun p9 =>
  (p9.m_stack.ensureSize savedStake0).bind fun _ =>
  let savedStake1 := p9.m_stack.m_size
  (p9.startContinuation env.startContinuationDefault).bind fun p10 =>
  (p10.drop env.dropDefault).bind fun p11 =>
  (p11.push 1 "NULL").bind fun p12 =>
  (p12.endContinuation env.endContinuationDefault).bind fun p13 =>
  (p13.m_stack.ensureSize savedStake1).bind fun _ =>
  p13.push 0 "IFELSE"

/-- The cases of the switch of `preload` other than `Optional`. A type given as `Other` of
the category `Array` is outside the model (`none`). -/
def StackPusherHelper.preloadSwitch (env : CodecEnv) (type : SolType)
    (p : StackPusherHelper) : Option StackPusherHelper :=
  match type.category with
  | .Address | .Contract =>
    (p.push (-1 + 2) "LDMSGADDR").bind fun p1 => p1.drop 1
  | .TvmCell => p.push 0 "PLDREF"
  | .Struct => env.convertSliceToTuple type p
  | .Integer | .Enum | .Bool | .FixedPoint | .FixedBytes =>
    if ¬ env.isNumeric type then none
    else
      p.push (-1 + 1)
        ((if env.isSigned type then "PLDI " else "PLDU ") ++ toString (env.numBits type))
  | .Function => p.push (-1 + 1) "PLDU 32"
  | .Array =>
    match type with
    | .Array isByteArray _ =>
      if isByteArray then p.push 0 "PLDREF"
      else
        (p.push (-1 + 2) "LDU 32").bind fun p1 =>
        (p1.push (-1 + 1) "PLDDICT").bind fun p2 =>
        p2.push (-2 + 1) "PAIR"
    | _ => none
  | .Mapping | .ExtraCurrencyCollection => p.push (-1 + 1) "PLDDICT"
  | .VarInteger =>
    (p.push 0 "LDVARUINT32").bind fun p1 => p1.push 0 "DROP"
  | .Tuple => env.convertSliceToTuple type p
  | _ => none

/-- `StackPusherHelper::preload`. -/
def StackPusherHelper.preload (env : CodecEnv) :
    SolType → StackPusherHelper → Option StackPusherHelper
  | .Optional valueType, p =>
    (p.preloadOptional env valueType (StackPusherHelper.preload env valueType)).bind fun q =>
      (q.m_stack.ensureSize p.m_stack.m_size).map fun _ => q
  | type, p =>
    (p.preloadSwitch env type).bind fun q =>
      (q.m_stack.ensureSize p.m_stack.m_size).map fun _ => q

/-- `StackPusherHelper::fastLoad`: the emitter after the call and the returned flag. A type
given as `Other` of the category `Optional` or `Array` is outside the model (`none`). -/
def StackPusherHelper.fastLoad (env : CodecEnv) (type : SolType) (p : StackPusherHelper) :
    Option (StackPusherHelper × Bool) :=
  match type.category with
  | .Optional =>
    match type with
    | .Optional valueType =>
      let saveStakeSize := p.m_stack.m_size
      (p.push 1 "LDOPTREF").bind fun p1 =>
      (p1.exchange 0 1).bind fun p2 =>
      (p2.pushS 0).bind fun p3 =>
      (p3.push (-1 + 1) "ISNULL").bind fun p4 =>
      (p4.push (-1) "").bind fun p5 =>
      (p5.startContinuation env.startContinuationDefault).bind fun p6 =>
      (p6.push 0 "CTOS").bind fun p7 =>
      (p7.preload env valueType).bind fun p8 =>
      (if valueType.category = .Mapping ∨ valueType.category = .Optional then p8.tuple 1
        else some p8).bind fun p9 =>
      (p9.endContinuation env.endContinuationDefault).bind fun p10 =>
      (p10.push 0 "IFNOT").bind fun p11 =>
      if ¬ saveStakeSize + 1 = p11.m_stack.m_size then none else some (p11, false)
    | _ => none
  | .TvmCell => (p.push (-1 + 2) "LDREF").map fun q => (q, true)
  | .Struct => none
  | .Address | .Contract => (p.push (-1 + 2) "LDMSGADDR").map fun q => (q, true)
  | .Enum | .Integer | .Bool | .FixedPoint | .FixedBytes =>
    if ¬ env.isNumeric type then none
    else
      (p.push (-1 + 2)
        ((if env.isSigned type then "LDI " else "LDU ") ++ toString (env.numBits type))).map
        fun q => (q, true)
  | .Function => (p.push (-1 + 2) "LDU 32").map fun q => (q, true)
  | .Array =>
    match type with
    | .Array isByteArray _ =>
      if isByteArray then (p.push (-1 + 2) "LDREF").map fun q => (q, true)
      else
        (p.push (-1 + 2) "LDU 32").bind fun p1 =>
        (p1.push (-1 + 2) "LDDICT").bind fun p2 =>
        (p2.push 0 "ROTREV").bind fun p3 =>
        (p3.push (-2 + 1) "PAIR").map fun q => (q, false)
    | _ => none
  | .Mapping => (p.push (-1 + 2) "LDDICT").map fun q => (q, true)
  | _ => none

/-- `StackPusherHelper::load`. -/
def StackPusherHelper.load (env : CodecEnv) (type : SolType) (reverseOrder : Bool)
    (p : StackPusherHelper) : Option StackPusherHelper :=
  (p.fastLoad env type).bind fun r =>
    if r.2 = reverseOrder then r.1.exchange 0 1 else some r.1

/-- The continuation that the case `Optional` of `store` emits for a present value, from
`startContinuation()` to `endContinuation()`; `inner` is the recursive call
`store(optType->valueType(), false)`. -/
def StackPusherHelper.storeOptionalValue (env : CodecEnv) (valueType : SolType)
    (inner : StackPusherHelper → Option StackPusherHelper) (p5 : StackPusherHelper) :
    Option StackPusherHelper :=
  (p5.startContinuation env.startContinuationDefault).bind fun p6 =>
  (if valueType.category = .Optional ∨ valueType.category = .Mapping then p6.untuple 1
    else some p6).bind fun p7 =>
  (if valueType.category = .Struct then env.tupleToBuilder valueType p7
    else (p7.push 1 "NEWC").bind fun p8 => inner p8).bind fun p9 =>
  (p9.exchange 0 1).bind fun p10 =>
  (p10.stones 1).bind fun p11 =>
  (p11.push (-1) "STBREF").bind fun p12 =>
  p12.endContinuation env.endContinuationDefault

/-- The continuation that the case `Optional` of `store` emits for an absent value, from
`startContinuation()` to `endContinuation()`. -/
def StackPusherHelper.storeOptionalNull (env : CodecEnv) (p14 : StackPusherHelper) :
    Option StackPusherHelper :=
  (p14.startContinuation env.startContinuationDefault).bind fun p15 =>
  (p15.drop 1).bind fun p16 =>
  (p16.stzeroes 1).bind fun p17 =>
  p17.endContinuation env.endContinuationDefault

/-- The case `Optional` of the switch of `store`; `inner` is the recursive call
`store(optType->valueType(), false)`. -/
def StackPusherHelper.storeOptional (env : CodecEnv) (valueType : SolType) (reverse : Bool)
    (inner : StackPusherHelper → Option StackPusherHelper) (p : StackPusherHelper) :
    Option StackPusherHelper :=
  let stackSize := p.m_stack.m_size
  (if ¬ reverse then p.exchange 0 1 else some p).bind fun p1 =>
  (p1.pushS 0).bind fun p2 =>
  (p2.push (-1 + 1) "ISNULL").bind fun p3 =>
  (p3.push (-1 + 1) "NOT").bind fun p4 =>
  (p4.push (-1) "").bind fun p5 =>
  (p5.m_stack.ensureSize stackSize).bind fun _ =>
  (p5.storeOptionalValue env valueType inner).bind fun p13 =>
  (p13.push 1 "").bind fun p14 =>
  (p14.m_stack.ensureSize stackSize).bind fun _ =>
  (p14.storeOptionalNull env).bind fun p18 =>
  (p18.push 1 "").bind fun p19 =>
  (p19.push 0 "IFELSE").bind fun p20 =>
  p20.push (-1) ""

/-- The case `Struct` of the switch of `store`; `loop` is the loop over the members. -/
def StackPusherHelper.storeStruct (members : SolTypeList) (reverse : Bool)
    (loop : StackPusherHelper → Option StackPusherHelper) (p : StackPusherHelper) :
    Option StackPusherHelper :=
  (if ¬ reverse then p.push 0 "SWAP" else some p).bind fun p1 =>
  (p1.untuple members.size).bind fun p2 =>
  (p2.reverse members.size 0).bind fun p3 =>
  (p3.blockSwap 1 members.size).bind fun p4 =>
  loop p4

/-- The cases of the switch of `store` other than `Optional` and `Struct`. A type given as
`Other` of the category `Array` is outside the model (`none`). -/
def StackPusherHelper.storeSwitch (env : CodecEnv) (type : SolType) (reverse : Bool)
    (p : StackPusherHelper) : Option StackPusherHelper :=
  match type.category with
  | .TvmCell => p.push (-1) (if reverse then "STREFR" else "STREF")
  | .Address | .Contract | .TvmSlice =>
    p.push (-1) (if reverse then "STSLICER" else "STSLICE")
  | .Integer | .Enum | .Bool | .FixedBytes | .FixedPoint =>
    p.push (-1) (env.storeIntegralOrAddress type reverse)
  | .Function => p.push (-1) (if reverse then "STUR 32" else "STU 32")
  | .Mapping | .ExtraCurrencyCollection =>
    (if reverse then p.push 0 "SWAP" else some p).bind fun p1 => p1.push (-1) "STDICT"
  | .Array =>
    match type with
    | .Array isByteArray _ =>
      if isByteArray then p.push (-1) (if reverse then "STREFR" else "STREF")
      else
        (if ¬ reverse then p.push 0 "SWAP" else some p).bind fun p1 =>
        (p1.push (-1 + 2) "UNPAIR").bind fun p2 =>
        (p2.push 0 "ROTREV").bind fun p3 =>
        (p3.push (-1) "STUR 32").bind fun p4 =>
        p4.push (-1) "STDICT"
    | _ => none
  | .TvmBuilder => p.push (-1) ("STB" ++ (if reverse then "R " else ""))
  | .Tuple =>
    (if ¬ reverse then p.exchange 0 1 else some p).bind fun p1 =>
    (env.tupleToBuilder type p1).bind fun p2 =>
    p2.push (-2 + 1) "STBR"
  | .VarInteger =>
    (if ¬ reverse then p.exchange 0 1 else some p).bind fun p1 =>
      p1.push (-1) "STVARUINT32"
  | _ => none

mutual
/-- `StackPusherHelper::store`, with `deltaStack = 1`. A type given as `Other` of the
category `Optional` or `Struct` is outside the model (`none`). -/
def StackPusherHelper.store (env : CodecEnv) :
    SolType → Bool → StackPusherHelper → Option StackPusherHelper
  | .Optional valueType, reverse, p =>
    (p.storeOptional env valueType reverse
      (StackPusherHelper.store env valueType false)).bind fun q =>
      (q.m_stack.ensureSize (p.m_stack.m_size - 1)).map fun _ => q
  | .Struct members, reverse, p =>
    (p.storeStruct members reverse (StackPusherHelper.storeMembers env members)).bind fun q =>
      (q.m_stack.ensureSize (p.m_stack.m_size - 1)).map fun _ => q
  | type, reverse, p =>
    (p.storeSwitch env type reverse).bind fun q =>
      (q.m_stack.ensureSize (p.m_stack.m_size - 1)).map fun _ => q
/-- The loop `for (const auto& member : members) store(member->type(), false)` of `store`. -/
def StackPusherHelper.storeMembers (env : CodecEnv) :
    SolTypeList → StackPusherHelper → Option StackPusherHelper
  | .nil, p => some p
  | .cons member rest, p =>
    (StackPusherHelper.store env member false p).bind fun p1 =>
      StackPusherHelper.storeMembers env rest p1
end


/-- The value types listed for the balance of `preload`, `store` and `load`: integers,
fixed-point numbers, fixed bytes, booleans, enums, addresses, contracts, cells, functions,
arrays, mappings, variable-length integers, and optionals of these at any depth. -/
def specCodecType : SolType → Bool
  | .Integer _ _ => true
  | .FixedPoint _ _ _ => true
  | .FixedBytes _ => true
  | .Bool => true
  | .Enum _ => true
  | .Address => true
  | .Contract => true
  | .TvmCell => true
  | .Function => true
  | .Array _ _ => true
  | .Mapping _ _ => true
  | .VarInteger _ => true
  | .Optional valueType => specCodecType valueType
  | _ => false

/-- An environment for the examples: every type is a signed number of eight bits, the struct
sub-compiler is absent, the default arguments are those of the calls `startContinuation(0)`,
`endContinuation(0)` and `drop(1)`. -/
def exampleCodecEnv : CodecEnv :=
  { isNumeric := fun _ => true
    isSigned := fun _ => true
    numBits := fun _ => 8
    storeIntegralOrAddress := fun _ reverse => if reverse then "STIR 8" else "STI 8"
    convertSliceToTuple := fun _ _ => none
    tupleToBuilder := fun _ _ => none
    startContinuationDefault := 0
    endContinuationDefault := 0
    dropDefault := 1 }

/-- The entries of a list of types. -/
def SolTypeList.toList : SolTypeList → List SolType
  | .nil => []
  | .cons head tail => head :: tail.toList

/-- Every entry of the list is a fixed-width integer type. -/
def SolTypeList.allIntegers : SolTypeList → Bool
  | .nil => true
  | .cons (.Integer _ _) tail => tail.allIntegers
  | .cons _ _ => false

/-- The instructions that unpack a tuple of `n` entries. -/
def specUntuple (n : Int) : List String :=
  if n ≤ 15 then ["UNTUPLE " ++ toString n] else ["PUSHINT " ++ toString n, "UNTUPLEVAR"]

/-- The reordering between the unpacking of a struct of `n` members and the stores: the
reversal of the `n` members, then the builder brought on top of them. -/
def specReorder (n : Int) : List String :=
  (if n = 2 then ["SWAP"]
    else if n = 3 then ["XCHG s2"]
    else if n ≤ 17 then ["REVERSE " ++ toString n ++ ", " ++ toString (0 : Int)]
    else ["PUSHINT " ++ toString n, "PUSHINT " ++ toString (0 : Int), "REVX"]) ++
  (if n = 2 then ["ROT"]
    else if n ≤ 16 then ["BLKSWAP " ++ toString (1 : Int) ++ ", " ++ toString n]
    else ["PUSHINT " ++ toString (1 : Int), "PUSHINT " ++ toString n, "BLKSWX"])

/-- A command that `CodeLines::push` logs as a line of its own: neither empty, nor a lone
newline, nor a lone space. -/
def isLoggedCommand (cmd : String) : Prop :=
  ¬ (cmd = "" ∨ cmd = "\n") ∧ ¬ cmd = " "

/-- A struct type with `n` members of type `int8`, for the examples. -/
def exampleIntMembers : Nat → SolTypeList
  | 0 => .nil
  | n + 1 => .cons (.Integer 8 true) (exampleIntMembers n)

/-- The line `PUSH2 Si, Sj`. -/
def specPush2 (i j : Int) : String := "PUSH2 S" ++ toString i ++ ", S" ++ toString j

/-- The line `PUSH3 Si, Sj, Sk`. -/
def specPush3 (i j k : Int) : String :=
  "PUSH3 S" ++ toString i ++ ", S" ++ toString j ++ ", S" ++ toString k

/-! ## Default values (TVMPusher.cpp) -/

/-- The code outside the sources that `pushDefaultValue` calls. -/
structure DefaultEnv where
  /-- `storeIntegralOrAddress(type, reverse)`. -/
  storeIntegralOrAddress : SolType → Bool → String
  /-- `StructCompiler{this, type}.createDefaultStruct(isResultBuilder)`. -/
  createDefaultStruct : SolType → Bool → StackPusherHelper → Option StackPusherHelper
  /-- `TvmConst::FunctionId::DefaultValueForFunctionType`. -/
  DefaultValueForFunctionType : Int

/-- `StackPusherHelper::pushZeroAddress`. -/
def StackPusherHelper.pushZeroAddress (p : StackPusherHelper) : Option StackPusherHelper :=
  p.push 1 "PUSHSLICE x8000000000000000000000000000000000000000000000000000000000000000001_"

/-- `StackPusherHelper::pushDefaultValue`. A type given as `Other` of the category `Array`
is outside the model (`none`). -/
def StackPusherHelper.pushDefaultValue (env : DefaultEnv) (type : SolType)
    (isResultBuilder : Bool) (p : StackPusherHelper) : Option StackPusherHelper :=
  match type.category with
  | .Address | .Contract =>
    p.pushZeroAddress.bind fun p1 =>
      if isResultBuilder then (p1.push 1 "NEWC").bind fun p2 => p2.push (-1) "STSLICE"
      else some p1
  | .Bool | .FixedBytes | .Integer | .Enum | .VarInteger =>
    (p.push 1 "PUSHINT 0").bind fun p1 =>
      if isResultBuilder then
        (p1.push 1 "NEWC").bind fun p2 => p2.push (-1) (env.storeIntegralOrAddress type false)
      else some p1
  | .TvmCell =>
    if isResultBuilder then p.push 1 "NEWC"
    else (p.push 1 "PUSHREF \x7b").bind fun p1 => p1.push 0 "\x7d"
  | .Array =>
    match type with
    | .Array isByteArray _ =>
      if isByteArray then
        if isResultBuilder then p.push 1 "NEWC"
        else (p.push 1 "PUSHREF \x7b").bind fun p1 => p1.push 0 "\x7d"
      else if ¬ isResultBuilder then
        (p.pushInt 0).bind fun p1 =>
        (p1.push 1 "NEWDICT").bind fun p2 => p2.push (-2 + 1) "PAIR"
      else
        (p.push 1 "NEWC").bind fun p1 =>
        (p1.pushInt 33).bind fun p2 => p2.push (-1) "STZEROES"
    | _ => none
  | .Mapping | .ExtraCurrencyCollection =>
    if isResultBuilder then (p.push 1 "NEWC").bind fun p1 => p1.stzeroes 1
    else p.push 1 "NEWDICT"
  | .Struct => env.createDefaultStruct type isResultBuilder p
  | .TvmSlice => if isResultBuilder then p.push 1 "NEWC" else p.push 1 "PUSHSLICE x8_"
  | .TvmBuilder => p.push 1 "NEWC"
  | .Function =>
    (p.pushInt env.DefaultValueForFunctionType).bind fun p1 =>
      if isResultBuilder then none else some p1
  | .Optional => p.push 1 "NULL"
  | .FixedPoint => p.pushInt 0
  | _ => none

/-- An environment for the examples: integers are stored with `STI 8` / `STIR 8`, the struct
sub-compiler is absent. -/
def exampleDefaultEnv : DefaultEnv :=
  { storeIntegralOrAddress := fun _ reverse => if reverse then "STIR 8" else "STI 8"
    createDefaultStruct := fun _ _ _ => none
    DefaultValueForFunctionType := 0 }

/-- The categories for which `pushDefaultValue` with `isResultBuilder = true` builds the
default encoding itself; an array type is given with its attributes. -/
def specBuilderDefault (type : SolType) : Prop :=
  (∃ isByteArray baseType, type = .Array isByteArray baseType) ∨
    type.category ∈ [Category.Address, Category.Contract, Category.Bool, Category.FixedBytes,
      Category.Integer, Category.Enum, Category.VarInteger, Category.TvmCell,
      Category.Mapping, Category.ExtraCurrencyCollection, Category.TvmSlice,
      Category.TvmBuilder]

/-! ## The meaning of the exchange instructions -/

/-- The two stack slots named by a `SWAP` / `XCHG` instruction: `SWAP` names 0 and 1,
`XCHG sj` names 0 and `j`, `XCHG si,sj` names `i` and `j`. -/
def slotsOfXchg (instr : String) : Option (Int × Int) :=
  if instr = "SWAP" then some (0, 1)
  else
    match instr.data with
    | 'X' :: 'C' :: 'H' :: 'G' :: ' ' :: 's' :: rest =>
      match rest.span (fun c => c != ',') with
      | (a, []) => (TVMOptimizer.strToInt (String.mk a)).map fun j => (0, j)
      | (a, ',' :: 's' :: b) =>
        match TVMOptimizer.strToInt (String.mk a), TVMOptimizer.strToInt (String.mk b) with
        | some i, some j => some (i, j)
        | _, _ => none
      | _ => none
    | _ => none

/-- The transposition of the slots `a` and `b` of a stack, given by the value of each
slot. -/
def swapSlots {α : Type} (a b : Int) (stack : Int → α) : Int → α :=
  fun k => if k = a then stack b else if k = b then stack a else stack k

/-- The instructions run in order, each as the transposition of the slots it names. -/
def runXchgs {α : Type} : List String → (Int → α) → Option (Int → α)
  | [], stack => some stack
  | instr :: rest, stack =>
    match slotsOfXchg instr with
    | none => none
    | some (a, b) => runXchgs rest (swapSlots a b stack)

namespace TVMOptimizer

/-- A string of binary digits. -/
def isBits (s : List Char) : Prop := ∀ c ∈ s, c = '0' ∨ c = '1'

end TVMOptimizer

/-! ## Values of dictionaries: encoding (TVMPusher.cpp) -/

/-- `DataType`, as far as `prepareValueForDictOperations` returns it. -/
inductive DataType where
  | Builder | Cell | Slice
  deriving DecidableEq, Repr

/-- The statement `if (!isValueBuilder) { push(0, "NEWC"); store(valueType, false);
push(+1, ""); }` of `prepareValueForDictOperations`. -/
def StackPusherHelper.valueToBuilder (cenv : CodecEnv) (valueType : SolType)
    (isValueBuilder : Bool) (p : StackPusherHelper) : Option StackPusherHelper :=
  if ¬ isValueBuilder then
    (p.push 0 "NEWC").bind fun p1 =>
    (p1.store cenv valueType false).bind fun p2 => p2.push 1 ""
  else some p

/-- The statements `push(0, "NEWC"); push(0, "STBREF");` of
`prepareValueForDictOperations`. -/
def StackPusherHelper.wrapInRef (p : StackPusherHelper) : Option StackPusherHelper :=
  (p.push 0 "NEWC").bind fun p1 => p1.push 0 "STBREF"

/-- The case of `prepareValueForDictOperations` shared by the categories from `Bool` to
`Function` and by an array that is not a byte array. -/
def StackPusherHelper.prepareBuilderValue (denv : DictEnv) (cenv : CodecEnv)
    (keyType valueType : SolType) (isValueBuilder : Bool) (p : StackPusherHelper) :
    Option (DataType × StackPusherHelper) :=
  (p.valueToBuilder cenv valueType isValueBuilder).bind fun q =>
    match doesFitInOneCellAndHaveNoStruct denv keyType valueType with
    | none => none
    | some fit =>
      if ¬ fit then q.wrapInRef.map fun r => (DataType.Builder, r)
      else some (DataType.Builder, q)

/-- `StackPusherHelper::prepareValueForDictOperations`: the returned `DataType` and the
emitter after the call. -/
def StackPusherHelper.prepareValueForDictOperations (denv : DictEnv) (cenv : CodecEnv)
    (keyType valueType : SolType) (isValueBuilder : Bool) (p : StackPusherHelper) :
    Option (DataType × StackPusherHelper) :=
  match denv.toDictValueType valueType.category with
  | some .TvmSlice => some (if isValueBuilder then DataType.Builder else DataType.Slice, p)
  | some .Address | some .Contract =>
    match doesFitInOneCellAndHaveNoStruct denv keyType valueType with
    | none => none
    | some fit =>
      if ¬ fit then
        if isValueBuilder then none
        else
          (p.push 1 "NEWC").bind fun p1 =>
          (p1.push (-1) "STSLICE").bind fun p2 =>
          (p2.push 0 "ENDC").map fun p3 => (DataType.Cell, p3)
      else some (if isValueBuilder then DataType.Builder else DataType.Slice, p)
  | some .Array =>
    if denv.isByteArrayOrString valueType then
      (if isValueBuilder then p.push (-1 + 1) "ENDC" else some p).map fun q =>
        (DataType.Cell, q)
    else p.prepareBuilderValue denv cenv keyType valueType isValueBuilder
  | some .Bool | some .Enum | some .ExtraCurrencyCollection | some .FixedBytes
  | some .FixedPoint | some .Integer | some .Mapping | some .Optional | some .VarInteger
  | some .Function => p.prepareBuilderValue denv cenv keyType valueType isValueBuilder
  | some .Struct =>
    (if ¬ isValueBuilder then cenv.tupleToBuilder valueType p else some p).bind fun q =>
      match doesFitInOneCellAndHaveNoStruct denv keyType valueType with
      | none => none
      | some fit =>
        if ¬ fit then (q.push 0 "ENDC").map fun r => (DataType.Cell, r)
        else some (DataType.Builder, q)
  | some .TvmCell =>
    (if isValueBuilder then p.push 0 "ENDC" else some p).map fun q => (DataType.Cell, q)
  | none => none

/-- The value is boxed by `prepareValueForDictOperations`: the call returns
`DataType::Cell`, or (for a value that is not a struct, whose builder comes from the struct
sub-compiler and is never wrapped) it returns the value builder wrapped into a fresh
builder with `NEWC; STBREF`. -/
def specBoxed (denv : DictEnv) (cenv : CodecEnv) (valueType : SolType)
    (isValueBuilder : Bool) (p : StackPusherHelper)
    (result : DataType × StackPusherHelper) : Prop :=
  result.1 = DataType.Cell ∨
    (result.1 = DataType.Builder ∧
      denv.toDictValueType valueType.category ≠ some DictValueType.Struct ∧
      ∃ q, p.valueToBuilder cenv valueType isValueBuilder = some q ∧
        q.wrapInRef = some result.2)

/-! ## String literals (TVMPusher.cpp) -/

/-- The code outside the sources that `pushString` calls. -/
structure StringEnv where
  /-- `stringToBytes(str)`: the hexadecimal encoding of the string. -/
  stringToBytes : String → String
  /-- `TvmConst::MaxPushSliceBitLength`. -/
  MaxPushSliceBitLength : Int
  /-- `TvmConst::CellBitLength`. -/
  CellBitLength : Int
  /-- The default argument of `StackPusherHelper::addTabs(const int qty)`. -/
  addTabsDefault : Int
  /-- The default argument of `CodeLines::addTabs(const int qty)`. -/
  codeLinesAddTabsDefault : Int
  /-- The default argument of `endContinuation(int deltaStack)`. -/
  endContinuationDefault : Int

/-- `std::string::substr(pos, n)`, the arguments converted from `int`: it throws when `pos`
is beyond the end, and a negative `n` is a count larger than any string. -/
def substr (s : String) (pos n : Int) : Option String :=
  if pos < 0 ∨ (s.length : Int) < pos then none
  else if n < 0 then some (String.mk (s.data.drop pos.toNat))
  else some (String.mk ((s.data.drop pos.toNat).take n.toNat))

/-- `StackPusherHelper::addTabs`. -/
def StackPusherHelper.addTabs (p : StackPusherHelper) (qty : Int) : StackPusherHelper :=
  { p with m_code := p.m_code.addTabs qty }

/-- `StackPusherHelper::startCell`. -/
def StackPusherHelper.startCell (env : StringEnv) (p : StackPusherHelper) :
    Option StackPusherHelper :=
  (p.m_code.push ".cell \x7b").map fun c =>
    { p with m_code := c.addTabs env.codeLinesAddTabsDefault }

/-- The `do ... while (start < length)` loop of `pushString`: the emitter and `builderQty`
afterwards; `fuel` bounds the number of iterations. -/
def pushStringLoop (env : StringEnv) (hexStr : String) (symbolQty length : Int) :
    Nat → StackPusherHelper → Int → Int → Option (StackPusherHelper × Int)
  | 0, _, _, _ => none
  | fuel + 1, p, start, builderQty =>
    match substr hexStr start (min symbolQty (length - start)) with
    | none => none
    | some slice =>
      (if start > 0 then p.startCell env else some p).bind fun p1 =>
      (p1.push 0 (".blob x" ++ slice)).bind fun p2 =>
        if start + symbolQty < length then
          pushStringLoop env hexStr symbolQty length fuel p2 (start + symbolQty) (builderQty + 1)
        else some (p2, builderQty + 1)

/-- The loop `for (int i = 0; i < builderQty; ++i) endContinuation();` of `pushString`, for
the remaining number of iterations. -/
def endContinuations (env : StringEnv) : Nat → StackPusherHelper → Option StackPusherHelper
  | 0, p => some p
  | n + 1, p =>
    (p.endContinuation env.endContinuationDefault).bind fun p1 => endContinuations env n p1

/-- `StackPusherHelper::pushString`; `fuel` bounds the number of iterations of its loop. -/
def StackPusherHelper.pushString (env : StringEnv) (fuel : Nat) (_str : String)
    (toSlice : Bool) (p : StackPusherHelper) : Option StackPusherHelper :=
  let hexStr := env.stringToBytes _str
  if 4 * (hexStr.length : Int) ≤ env.MaxPushSliceBitLength ∧ toSlice = true then
    p.push 1 ("PUSHSLICE x" ++ hexStr)
  else
    let saveStackSize := p.m_stack.m_size
    let length : Int := hexStr.length
    let symbolQty : Int := ((env.CellBitLength.tdiv 8) * 8).tdiv 4
    (if toSlice then p.push 1 "PUSHREFSLICE \x7b" else p.push 1 "PUSHREF \x7b").bind fun p1 =>
    (pushStringLoop env hexStr symbolQty length fuel (p1.addTabs env.addTabsDefault) 0 0).bind
      fun r =>
    (endContinuations env r.2.toNat r.1).bind fun p4 =>
    (p4.m_stack.ensureSize (saveStackSize + 1)).map fun _ => p4

/-- An environment for the examples: the encoding doubles every character, cells of 32
bits, slices of at most 8 bits, the default arguments `addTabs(1)` and
`endContinuation(0)`. -/
def exampleStringEnv : StringEnv :=
  { stringToBytes := fun s => String.mk (s.data.flatMap fun c => [c, c])
    MaxPushSliceBitLength := 8
    CellBitLength := 32
    addTabsDefault := 1
    codeLinesAddTabsDefault := 1
    endContinuationDefault := 0 }

/-- The lines of the loop of `pushString` from its second iteration on: per payload a
cell opened at the current depth and the payload one level deeper. -/
def specCellLines (depth : Int) : List (List Char) → List String
  | [] => []
  | payload :: rest =>
    (tabs depth ++ ".cell \x7b") :: (tabs (depth + 1) ++ (".blob x" ++ String.mk payload)) ::
      specCellLines (depth + 1) rest

/-- The closing lines of `n` blocks, the innermost at depth `depth - 1`. -/
def specClosers (depth : Int) : Nat → List String
  | 0 => []
  | n + 1 => (tabs (depth - 1) ++ "\x7d") :: specClosers (depth - 1) n

/-- The boxed form of a string literal at depth `depth`: the opening line, the first
payload, one nested cell per further payload, and the closing lines. -/
def specBoxedString (depth : Int) (opener : String) (first : List Char)
    (more : List (List Char)) : List String :=
  (tabs depth ++ opener) :: (tabs (depth + 1) ++ (".blob x" ++ String.mk first)) ::
    (specCellLines (depth + 1) more ++
      specClosers (depth + 1 + more.length) (more.length + 1))

/-- The effect of one line on the nesting depth of blocks: a line that ends with an opening
brace opens a block, a line that ends with a closing brace closes one, which fails at
depth 0. -/
def blockStep (depth : Nat) (line : String) : Option Nat :=
  if line.data.getLast? = some '\x7b' then some (depth + 1)
  else if line.data.getLast? = some '\x7d' then (if depth = 0 then none else some (depth - 1))
  else some depth

/-- The nesting depth after the lines, from `depth`; `none` when a block is closed that was
not opened. -/
def blockWalk : List String → Nat → Option Nat
  | [], depth => some depth
  | line :: rest, depth =>
    match blockStep depth line with
    | none => none
    | some d => blockWalk rest d

/-- The payload of a `.blob` line. -/
def blobPayload (line : String) : Option (List Char) :=
  match line.data.dropWhile (fun c => c == '\t') with
  | '.' :: 'b' :: 'l' :: 'o' :: 'b' :: ' ' :: 'x' :: payload => some payload
  | _ => none

/-- The payloads of the `.blob` lines among the lines, in order. -/
def blobPayloads (lines : List String) : List (List Char) := lines.filterMap blobPayload

/-! ## Decoding after a dictionary operation (TVMPusher.cpp) -/

/-- `DecodeType`. -/
inductive DecodeType where
  | DecodeValue | DecodeValueOrPushDefault | DecodeValueOrPushNull | PushNullOrDecodeValue
  deriving DecidableEq, Repr

/-- The code outside the sources that `recoverKeyAndValueAfterDictOperation` calls. -/
structure RecoverEnv where
  /-- The helpers of the dictionary code. -/
  dict : DictEnv
  /-- The helpers of `preload`. -/
  codec : CodecEnv
  /-- The helpers of `pushDefaultValue`. -/
  defaults : DefaultEnv
  /-- The default argument of `startCallRef(int deltaStack)`. -/
  startCallRefDefault : Int

/-- `StackPusherHelper::startContinuationFromRef`. -/
def StackPusherHelper.startContinuationFromRef (p : StackPusherHelper) :
    Option StackPusherHelper :=
  p.m_code.startContinuationFromRef.map fun c => { m_code := c, m_stack := p.m_stack }

/-- `StackPusherHelper::cmpLastCmd` for a pattern that denotes one text `cmd` not starting
with a tab (each special character of the pattern is escaped): the line matches when it is
any number of tabs followed by `cmd`. A line index past the end is `none`. -/
def StackPusherHelper.cmpLastCmd (p : StackPusherHelper) (cmd : String) (offset : Int) :
    Option Bool :=
  let n : Int := (p.m_code.lines.length : Int) - 1 - offset
  if ¬ n ≥ 0 then some false
  else
    match p.m_code.lines.get? n.toNat with
    | some line => some (line.data.dropWhile (fun c => c == '\t') == cmd.data)
    | none => none

/-- `StackPusherHelper::tryPollEmptyPushCont`: the emitter after the call and the returned
flag. -/
def StackPusherHelper.tryPollEmptyPushCont (p : StackPusherHelper) :
    Option (StackPusherHelper × Bool) :=
  let n : Int := p.m_code.lines.length
  if ¬ n ≥ 2 then some (p, false)
  else
    (p.cmpLastCmd "PUSHCONT \x7b" 1).bind fun a =>
    (if a then some true else p.cmpLastCmd "PUSHREFCONT \x7b" 1).bind fun b =>
    if ¬ b then some (p, false)
    else
      (p.cmpLastCmd "\x7d" 0).bind fun c =>
      if c then
        some ({ m_code := { p.m_code with lines := p.m_code.lines.dropLast.dropLast },
                m_stack := p.m_stack }, true)
      else some (p, false)

/-- The part of the lambda `preloadValue` of `recoverKeyAndValueAfterDictOperation` that is
run when `haveKey` holds. -/
def StackPusherHelper.preloadValueKey (env : RecoverEnv) (keyType : SolType)
    (saveOrigKeyAndNoTuple : Bool) (p : StackPusherHelper) : Option StackPusherHelper :=
  (if saveOrigKeyAndNoTuple then p.pushS 0 else some p).bind fun p1 =>
  (if keyType.category = .Struct then env.codec.convertSliceToTuple keyType p1
    else some p1).bind fun p2 =>
  if saveOrigKeyAndNoTuple then p2.push 0 "ROT" else p2.exchange 0 1

/-- The case of the switch of the lambda `preloadValue` that calls `preload` (`Bool`, ...,
`Function`, and an `Array` that is not a byte array or string). -/
def StackPusherHelper.preloadValueGeneral (env : RecoverEnv) (keyType valueType : SolType)
    (didUseOpcodeWithRef : Bool) (p : StackPusherHelper) : Option StackPusherHelper :=
  let isValueStruct : Bool := decide (valueType.category = .Struct)
  (if didUseOpcodeWithRef then (p.push 0 "CTOS").map fun q => (q, true)
    else
      (doesDictStoreValueInRef env.dict keyType valueType).bind fun b =>
        if b then
          ((p.push 0 "PLDREF").bind fun q => q.push 0 "CTOS").map fun q => (q, true)
        else some (p, false)).bind fun r =>
  let pushCallRef : Bool := r.2 && isValueStruct
  (if pushCallRef then r.1.startCallRef env.startCallRefDefault else some r.1).bind fun p1 =>
  (p1.preload env.codec valueType).bind fun p2 =>
  if pushCallRef then p2.endContinuation env.codec.endContinuationDefault else some p2

/-- The switch of the lambda `preloadValue`. -/
def StackPusherHelper.preloadValueSwitch (env : RecoverEnv) (keyType valueType : SolType)
    (didUseOpcodeWithRef : Bool) (p : StackPusherHelper) : Option StackPusherHelper :=
  match env.dict.toDictValueType valueType.category with
  | none => none
  | some .Address | some .Contract | some .TvmSlice =>
    if didUseOpcodeWithRef then p.push 0 "CTOS"
    else
      (doesDictStoreValueInRef env.dict keyType valueType).bind fun b =>
        if b then (p.push 0 "PLDREF").bind fun q => q.push 0 "CTOS" else some p
  | some .TvmCell => if ¬ didUseOpcodeWithRef then p.push 0 "PLDREF" else some p
  | some .Array =>
    if env.dict.isByteArrayOrString valueType then
      if ¬ didUseOpcodeWithRef then p.push 0 "PLDREF" else some p
    else p.preloadValueGeneral env keyType valueType didUseOpcodeWithRef
  | some _ => p.preloadValueGeneral env keyType valueType didUseOpcodeWithRef

/-- The lambda `preloadValue` of `recoverKeyAndValueAfterDictOperation`. -/
def StackPusherHelper.preloadValue (env : RecoverEnv) (keyType valueType : SolType)
    (haveKey didUseOpcodeWithRef saveOrigKeyAndNoTuple : Bool) (p : StackPusherHelper) :
    Option StackPusherHelper :=
  (if haveKey then p.preloadValueKey env keyType saveOrigKeyAndNoTuple else some p).bind
    fun p1 => p1.preloadValueSwitch env keyType valueType didUseOpcodeWithRef

/-- The lambda `checkOnMappingOrOptional` of `recoverKeyAndValueAfterDictOperation`. -/
def StackPusherHelper.checkOnMappingOrOptional (valueType : SolType)
    (p : StackPusherHelper) : Option StackPusherHelper :=
  if valueType.category = .Mapping ∨ valueType.category = .Optional then p.tuple 1
  else some p

/-- The first continuation of the case `DecodeValueOrPushDefault`: from the start of the
continuation to its `endContinuation()`. -/
def StackPusherHelper.valueOrDefaultFirst (env : RecoverEnv) (keyType valueType : SolType)
    (haveKey didUseOpcodeWithRef saveOrigKeyAndNoTuple pushRefCont : Bool)
    (p : StackPusherHelper) : Option StackPusherHelper :=
  (if pushRefCont then p.startContinuationFromRef
    else p.startContinuation env.codec.startContinuationDefault).bind fun p1 =>
  (p1.preloadValue env keyType valueType haveKey didUseOpcodeWithRef
    saveOrigKeyAndNoTuple).bind fun p2 =>
  p2.endContinuation env.codec.endContinuationDefault

/-- The second continuation of the case `DecodeValueOrPushDefault`: from the start of the
continuation to its `endContinuation(-1)`. -/
def StackPusherHelper.valueOrDefaultSecond (env : RecoverEnv) (valueType : SolType)
    (pushRefCont : Bool) (p : StackPusherHelper) : Option StackPusherHelper :=
  (if pushRefCont then p.startContinuationFromRef
    else p.startContinuation env.codec.startContinuationDefault).bind fun p1 =>
  (p1.pushDefaultValue env.defaults valueType false).bind fun p2 =>
  p2.endContinuation (-1)

/-- The first continuation of the case `DecodeValueOrPushNull`. -/
def StackPusherHelper.valueOrNullFirst (env : RecoverEnv) (keyType valueType : SolType)
    (haveKey didUseOpcodeWithRef saveOrigKeyAndNoTuple : Bool)
    (p : StackPusherHelper) : Option StackPusherHelper :=
  (if valueType.category = .Struct then p.startContinuationFromRef
    else p.startContinuation env.codec.startContinuationDefault).bind fun p1 =>
  (p1.preloadValue env keyType valueType haveKey didUseOpcodeWithRef
    saveOrigKeyAndNoTuple).bind fun p2 =>
  (if haveKey then (if ¬ saveOrigKeyAndNoTuple then p2.tuple 2 else some p2)
    else p2.checkOnMappingOrOptional valueType).bind fun p3 =>
  p3.endContinuation env.codec.endContinuationDefault

/-- The second continuation of the case `DecodeValueOrPushNull`, emitted when
`saveOrigKeyAndNoTuple` holds. -/
def StackPusherHelper.valueOrNullSecond (env : RecoverEnv) (p : StackPusherHelper) :
    Option StackPusherHelper :=
  (p.startContinuation env.codec.startContinuationDefault).bind fun p1 =>
  (p1.push 0 "NULL").bind fun p2 =>
  (p2.push 0 "NULL").bind fun p3 =>
  (p3.push 0 "NULL").bind fun p4 =>
  p4.endContinuation env.codec.endContinuationDefault

/-- `StackPusherHelper::recoverKeyAndValueAfterDictOperation`. -/
def StackPusherHelper.recoverKeyAndValueAfterDictOperation (env : RecoverEnv)
    (keyType valueType : SolType) (haveKey didUseOpcodeWithRef : Bool)
    (decodeType : DecodeType) (saveOrigKeyAndNoTuple : Bool) (p : StackPusherHelper) :
    Option StackPusherHelper :=
  (if valueType.category = .Struct ∧ ¬ didUseOpcodeWithRef then
      (doesDictStoreValueInRef env.dict keyType valueType).map fun b => !b
    else some false).bind fun pushRefCont =>
  match decodeType with
  | .DecodeValue =>
    (if pushRefCont then p.startCallRef env.startCallRefDefault else some p).bind fun p1 =>
    (p1.preloadValue env keyType valueType haveKey didUseOpcodeWithRef
      saveOrigKeyAndNoTuple).bind fun p2 =>
    if pushRefCont then p2.endContinuation env.codec.endContinuationDefault else some p2
  | .DecodeValueOrPushDefault =>
    (p.valueOrDefaultFirst env keyType valueType haveKey didUseOpcodeWithRef
      saveOrigKeyAndNoTuple pushRefCont).bind fun p1 =>
    p1.tryPollEmptyPushCont.bind fun r =>
    (r.1.valueOrDefaultSecond env valueType pushRefCont).bind fun p2 =>
    if r.2 then p2.push 0 "IFNOT" else p2.push 0 "IFELSE"
  | .DecodeValueOrPushNull =>
    (if ¬ saveOrigKeyAndNoTuple then p.push 0 "NULLSWAPIFNOT" else some p).bind fun p0 =>
    (p0.valueOrNullFirst env keyType valueType haveKey didUseOpcodeWithRef
      saveOrigKeyAndNoTuple).bind fun p1 =>
    if saveOrigKeyAndNoTuple then
      (p1.valueOrNullSecond env).bind fun p2 => p2.push 0 "IFELSE"
    else p1.push 0 "IF"
  | .PushNullOrDecodeValue =>
    (p.push 0 "NULLSWAPIF").bind fun p0 =>
    (p0.startContinuation env.codec.startContinuationDefault).bind fun p1 =>
    (p1.preloadValue env keyType valueType haveKey didUseOpcodeWithRef
      saveOrigKeyAndNoTuple).bind fun p2 =>
    (p2.checkOnMappingOrOptional valueType).bind fun p3 =>
    (p3.endContinuation env.codec.endContinuationDefault).bind fun p4 =>
    p4.push 0 "IFNOT"

/-- An environment for the examples: the dictionary helpers of `sampleDictEnv`, the codec
helpers of `exampleCodecEnv` and the default-value helpers of `exampleDefaultEnv`, with the
default argument of the call `startCallRef(0)`. -/
def exampleRecoverEnv : RecoverEnv :=
  { dict := sampleDictEnv
    codec := exampleCodecEnv
    defaults := exampleDefaultEnv
    startCallRefDefault := 0 }

/-- An emitter with two entries on the model stack (the value and the key) and no line. -/
def exampleRecoverStart : StackPusherHelper := ⟨⟨[], 0⟩, ⟨2, []⟩⟩

/-! ## Message headers (TVMPusher.cpp)

A `std::set<int>` is the list of its elements, a `std::map<int, std::string>` the partial
function it denotes, a `std::function` that may be empty an `Option`. -/

/-- The constants outside the sources that the message code reads. -/
structure MsgEnv where
  /-- `TvmConst::int_msg_info::bounce`. -/
  bounce : Int
  /-- `TvmConst::int_msg_info::dest`. -/
  dest : Int
  /-- `TvmConst::int_msg_info::tons`. -/
  tons : Int
  /-- `TvmConst::int_msg_info::currency`. -/
  currency : Int
  /-- `TvmConst::ext_msg_info::src`. -/
  extSrc : Int
  /-- `TvmConst::ext_msg_info::dest`. -/
  extDest : Int
  /-- `TvmConst::ExtInboundSrcLength`. -/
  ExtInboundSrcLength : Int
  /-- `AddressInfo::maxBitLength()`. -/
  addressMaxBitLength : Int

/-- `MsgType`. -/
inductive MsgType where
  | Internal | ExternalOut | ExternalIn
  deriving DecidableEq, Repr

/-- `StackPusherHelper::appendToBuilder`. -/
def StackPusherHelper.appendToBuilder (p : StackPusherHelper) (bitString : String) :
    Option StackPusherHelper :=
  if bitString.data = [] then some p
  else
    let count : Nat := bitString.data.countP (fun c => c == '0')
    if count = bitString.length then p.stzeroes count
    else
      (TVMOptimizer.binaryStringToSlice bitString.data).bind fun hex =>
        if hex.length * 4 ≤ 8 * 7 + 1 then p.push 0 ("STSLICECONST x" ++ String.mk hex)
        else
          (p.push 1 ("PUSHSLICE x" ++ String.mk hex)).bind fun p1 => p1.push (-1) "STSLICER"

/-- The switch of `int_msg_info` for a parameter taken from the stack: the emitter after
the store and the width added to `maxBitStringSize`. -/
def StackPusherHelper.storeIntMsgParam (env : MsgEnv) (param : Int) (p : StackPusherHelper) :
    Option (StackPusherHelper × Int) :=
  if param = env.bounce then (p.push (-1) "STI 1").map fun q => (q, 1)
  else if param = env.dest then
    (p.push (-1) "STSLICE").map fun q => (q, env.addressMaxBitLength)
  else if param = env.tons then
    ((p.exchange 0 1).bind fun q => q.push (-1) "STGRAMS").map fun q => (q, 4 + 16 * 8)
  else if param = env.currency then (p.push (-1) "STDICT").map fun q => (q, 1)
  else none

/-- The vector `zeroes` of `int_msg_info`. -/
def intMsgZeroes : List Int := [1, 1, 1, 2, 2, 4, 1, 4, 4, 64, 32]

/-- The loop of `int_msg_info` over the parameters from `param` on, whose entries of
`zeroes` are the list: the emitter, `bitString` and `maxBitStringSize` after the loop. -/
def intMsgLoop (env : MsgEnv) (isParamOnStack : List Int)
    (constParams : Int → Option String) :
    List Int → Int → String → Int → StackPusherHelper →
      Option (StackPusherHelper × String × Int)
  | [], _, bitString, maxBitStringSize, p => some (p, bitString, maxBitStringSize)
  | zero :: rest, param, bitString, maxBitStringSize, p =>
    if ¬ ((constParams param).isNone ∨ param ∉ isParamOnStack) then none
    else
      match constParams param with
      | some s =>
        intMsgLoop env isParamOnStack constParams rest (param + 1) (bitString ++ s)
          maxBitStringSize p
      | none =>
        if param ∉ isParamOnStack then
          if ¬ param ≠ env.dest then none
          else
            intMsgLoop env isParamOnStack constParams rest (param + 1)
              (bitString ++ String.mk (List.replicate zero.toNat '0')) maxBitStringSize p
        else
          (p.appendToBuilder bitString).bind fun p1 =>
          (p1.storeIntMsgParam env param).bind fun r =>
          intMsgLoop env isParamOnStack constParams rest (param + 1) ""
            (maxBitStringSize + bitString.length + r.2) r.1

/-- `StackPusherHelper::int_msg_info`: the emitter after the call and the returned size. -/
def StackPusherHelper.int_msg_info (env : MsgEnv) (isParamOnStack : List Int)
    (constParams : Int → Option String) (p : StackPusherHelper) :
    Option (StackPusherHelper × Int) :=
  (p.push 1 "NEWC").bind fun p1 =>
  (intMsgLoop env isParamOnStack constParams intMsgZeroes 0 "0" 0 p1).bind fun r =>
  (r.1.appendToBuilder r.2.1).map fun p2 => (p2, r.2.2 + r.2.1.length)

/-- The loop of `ext_msg_info` over the parameters from `param` on. -/
def extMsgLoop (env : MsgEnv) (isParamOnStack : List Int) :
    List Int → Int → String → Int → StackPusherHelper →
      Option (StackPusherHelper × String × Int)
  | [], _, bitString, maxBitStringSize, p => some (p, bitString, maxBitStringSize)
  | zero :: rest, param, bitString, maxBitStringSize, p =>
    if param ∉ isParamOnStack then
      extMsgLoop env isParamOnStack rest (param + 1)
        (bitString ++ String.mk (List.replicate zero.toNat '0')) maxBitStringSize p
    else
      (p.appendToBuilder bitString).bind fun p1 =>
      (if param = env.extDest then
          (p1.push (-1) "STSLICE").map fun q => (q, env.addressMaxBitLength)
        else if param = env.extSrc then
          (p1.push (-1) "STB").map fun q => (q, env.ExtInboundSrcLength)
        else none).bind fun r =>
      extMsgLoop env isParamOnStack rest (param + 1) ""
        (maxBitStringSize + bitString.length + r.2) r.1

/-- `StackPusherHelper::ext_msg_info`: the emitter after the call and the returned size. -/
def StackPusherHelper.ext_msg_info (env : MsgEnv) (isParamOnStack : List Int)
    (isOut : Bool) (p : StackPusherHelper) : Option (StackPusherHelper × Int) :=
  let zeroes : List Int := [2, 2] ++ (if isOut then [64, 32] else [4])
  (p.push 1 "NEWC").bind fun p1 =>
  (extMsgLoop env isParamOnStack zeroes 0 (if isOut then "11" else "10") 0 p1).bind fun r =>
  (r.1.appendToBuilder r.2.1).map fun p2 => (p2, r.2.2 + r.2.1.length)

/-- `StackPusherHelper::prepareMsg`. -/
def StackPusherHelper.prepareMsg (env : MsgEnv) (isParamOnStack : List Int)
    (constParams : Int → Option String)
    (appendBody : Option (Int → StackPusherHelper → Option StackPusherHelper))
    (appendStateInit : Option (StackPusherHelper → Option StackPusherHelper))
    (messageType : MsgType) (p : StackPusherHelper) : Option StackPusherHelper :=
  (match messageType with
    | .Internal => p.int_msg_info env isParamOnStack constParams
    | .ExternalOut => p.ext_msg_info env isParamOnStack true
    | .ExternalIn => p.ext_msg_info env isParamOnStack false).bind fun r =>
  (match appendStateInit with
    | some stateInit => ((r.1.appendToBuilder "1").bind stateInit).map fun q => (q, r.2 + 1)
    | none => (r.1.appendToBuilder "0").map fun q => (q, r.2)).bind fun r1 =>
  let msgInfoSize : Int := r1.2 + 1
  (match appendBody with
    | some body => body msgInfoSize r1.1
    | none => r1.1.appendToBuilder "0").bind fun q =>
  q.push 0 "ENDC"

/-- The zero-fill widths of the eleven header fields, in field order. -/
def specZeroFill : List Int := [1, 1, 1, 2, 2, 4, 1, 4, 4, 64, 32]

/-- The width of the header field `param` of zero-fill width `zero`: the length of its
constant bit string if it is constant; its maximal encoded width if it is taken from the
stack (bounce 1, destination `AddressInfo::maxBitLength()`, value `4 + 16 * 8`, extra
currencies 1); its zero-fill width otherwise. -/
def specFieldWidth (env : MsgEnv) (isParamOnStack : List Int)
    (constParams : Int → Option String) (param zero : Int) : Int :=
  match constParams param with
  | some s => s.length
  | none =>
    if param ∈ isParamOnStack then
      if param = env.bounce then 1
      else if param = env.dest then env.addressMaxBitLength
      else if param = env.tons then 4 + 16 * 8
      else if param = env.currency then 1
      else 0
    else zero

/-- The sum of the widths of the header fields from `param` on. -/
def specFieldSum (env : MsgEnv) (isParamOnStack : List Int)
    (constParams : Int → Option String) : List Int → Int → Int
  | [], _ => 0
  | zero :: rest, param =>
    specFieldWidth env isParamOnStack constParams param zero +
      specFieldSum env isParamOnStack constParams rest (param + 1)

/-- The header length of the statement: 1 plus the sum over the eleven header fields. -/
def specHeaderLength (env : MsgEnv) (isParamOnStack : List Int)
    (constParams : Int → Option String) : Int :=
  1 + specFieldSum env isParamOnStack constParams specZeroFill 0

/-- The number of header fields from `param` on that are taken from the stack. -/
def onStackCount (isParamOnStack : List Int) : List Int → Int → Int
  | [], _ => 0
  | _ :: rest, param =>
    (if param ∈ isParamOnStack then 1 else 0) + onStackCount isParamOnStack rest (param + 1)

/-- An environment for the examples: the fields bounce, destination, value and extra
currencies are the fields 1, 4, 5 and 6 of the internal header, addresses have at most 591
bits. -/
def exampleMsgEnv : MsgEnv :=
  { bounce := 1, dest := 4, tons := 5, currency := 6, extSrc := 0, extDest := 1,
    ExtInboundSrcLength := 72, addressMaxBitLength := 591 }

/-- The constant fields of the examples: the field 1 (bounce) is the bit 1. -/
def exampleConstParams : Int → Option String :=
  fun i => if i = 1 then some "1" else none

/-! ## Blank and comment lines (TVMOptimizations.cpp) -/

/-- The blank and whole-line comment lines of a log, in order: the lines that are empty or
whose first non-blank character is `;`. -/
def commentLines (lines_ : List String) : List String :=
  lines_.filter TVMOptimizer.is_comment_or_empty_line

/-- The text starts with a character that is neither blank nor `;`. -/
def startsCommand (s : String) : Bool :=
  match s.data with
  | [] => false
  | ch :: _ => !TVMOptimizer.is_space ch && ch ≠ ';'

/-- A replacement command that `updateLines` skips (the empty text) or that starts with a
character that is neither blank nor `;`. -/
def isInsertable (c : String) : Bool := c = "" || startsCommand c

/-- The command is a result of the constructor of `Cmd`. -/
def isParsed (c : TVMOptimizer.Cmd) : Prop := ∃ s, TVMOptimizer.Cmd.ofString s = some c

/-- The six commands of a window are results of the constructor of `Cmd`. -/
def windowParsed (w : TVMOptimizer.Window) : Prop :=
  isParsed w.cmd1 ∧ isParsed w.cmd2 ∧ isParsed w.cmd3 ∧ isParsed w.cmd4 ∧ isParsed w.cmd5 ∧
    isParsed w.cmd6

/-! ## Theorems -/

theorem CodeLines.push_of_skip (c : CodeLines) (cmd : String) (h : cmd = "" ∨ cmd = "\n") :
    c.push cmd = some c := by
  simp [CodeLines.push, h]

theorem CodeLines.push_of_keep (c : CodeLines) (cmd : String) (h : ¬ (cmd = "" ∨ cmd = "\n"))
    (ht : 0 ≤ c.tabQty) :
    c.push cmd = some { c with lines := c.lines ++ [loggedLine c.tabQty cmd] } := by
  unfold CodeLines.push loggedLine
  rw [if_neg h]
  by_cases hs : cmd = " "
  · simp [hs]
  · simp [hs, not_lt.mpr ht]

theorem TVMStack.change_of_nonneg (s : TVMStack) (d : Int) (h : 0 ≤ s.m_size + d) :
    s.change d = some { s with m_size := s.m_size + d } := by
  unfold TVMStack.change
  by_cases hd : d = 0
  · subst hd; simp
  · simp [hd, not_lt.mpr h]

theorem StackPusherHelper.pushAll_spec (calls : List (Int × String)) :
    ∀ p : StackPusherHelper, 0 ≤ p.m_code.tabQty →
      runningTotalsNonneg p.m_stack.m_size calls →
      p.pushAll calls = some
        { m_code := { lines := p.m_code.lines ++ codeLoggedLines p.m_code.tabQty calls,
                      tabQty := p.m_code.tabQty },
          m_stack := { m_size := p.m_stack.m_size + sumDeltas calls,
                       m_stackSize := p.m_stack.m_stackSize } } := by
  induction calls with
  | nil =>
    intro p _ _
    simp [StackPusherHelper.pushAll, codeLoggedLines, sumDeltas]
  | cons dc rest ih =>
    obtain ⟨d, c⟩ := dc
    intro p ht hrun
    obtain ⟨h0, hrest⟩ := hrun
    have hchange := TVMStack.change_of_nonneg p.m_stack d h0
    by_cases hskip : c = "" ∨ c = "\n"
    · have hpush := CodeLines.push_of_skip p.m_code c hskip
      have hstep : p.push d c = some
          { m_code := p.m_code, m_stack := { p.m_stack with m_size := p.m_stack.m_size + d } } := by
        simp [StackPusherHelper.push, hpush, hchange]
      have hfil : codeLoggedLines p.m_code.tabQty ((d, c) :: rest)
          = codeLoggedLines p.m_code.tabQty rest := by
        have : ¬ (¬ c = "" ∧ ¬ c = "\n") := by tauto
        simp [codeLoggedLines, List.filter_cons, this]
      have hih := ih { m_code := p.m_code,
                       m_stack := { p.m_stack with m_size := p.m_stack.m_size + d } } ht hrest
      rw [StackPusherHelper.pushAll, hstep, Option.some_bind, hih, hfil]
      simp [sumDeltas, add_assoc]
    · have hpush := CodeLines.push_of_keep p.m_code c hskip ht
      have hstep : p.push d c = some
          { m_code := { p.m_code with lines := p.m_code.lines ++ [loggedLine p.m_code.tabQty c] },
            m_stack := { p.m_stack with m_size := p.m_stack.m_size + d } } := by
        simp [StackPusherHelper.push, hpush, hchange]
      have hfil : codeLoggedLines p.m_code.tabQty ((d, c) :: rest)
          = loggedLine p.m_code.tabQty c :: codeLoggedLines p.m_code.tabQty rest := by
        have : (¬ c = "" ∧ ¬ c = "\n") := by tauto
        simp [codeLoggedLines, List.filter_cons, this]
      have hih := ih
        { m_code := { p.m_code with lines := p.m_code.lines ++ [loggedLine p.m_code.tabQty c] },
          m_stack := { p.m_stack with m_size := p.m_stack.m_size + d } } ht hrest
      rw [StackPusherHelper.pushAll, hstep, Option.some_bind, hih, hfil]
      simp [sumDeltas, add_assoc]

/-- C2 (as stated, refuted): at nesting depth 1 the call `push(0, " ")` completes, but the
log gains the empty line and not the command prefixed by one tab. -/
theorem C2_counterexample :
    ¬ (∃ p1, (StackPusherHelper.mk ⟨[], 1⟩ ⟨0, []⟩).pushAll [(0, " ")] = some p1 ∧
        p1.m_stack.m_size = 0 + sumDeltas [(0, " ")] ∧
        p1.m_code.lines = [] ++ specLoggedLines 1 [(0, " ")]) := by
  decide

/-- C2 (amended): from a state of non-negative nesting depth, a sequence of `push` calls
whose running totals stay non-negative completes, the final model stack size is the
initial size plus the sum of the deltas, and the log is extended, in call order, by the
commands that are neither empty nor a lone newline, a single space being logged as an
empty line and every other command prefixed by the nesting depth in tabs. -/
theorem C2_push_sequence (p : StackPusherHelper) (calls : List (Int × String))
    (hdepth : 0 ≤ p.m_code.tabQty)
    (hrun : runningTotalsNonneg p.m_stack.m_size calls) :
    ∃ p1, p.pushAll calls = some p1 ∧
      p1.m_stack.m_size = p.m_stack.m_size + sumDeltas calls ∧
      p1.m_code.lines = p.m_code.lines ++ codeLoggedLines p.m_code.tabQty calls ∧
      p1.m_code.tabQty = p.m_code.tabQty ∧
      p1.m_stack.m_stackSize = p.m_stack.m_stackSize :=
  ⟨_, StackPusherHelper.pushAll_spec calls p hdepth hrun, rfl, rfl, rfl, rfl⟩

theorem C2_push_sequence_witness :
    ∃ p1, (StackPusherHelper.mk ⟨["NEWC"], 1⟩ ⟨1, []⟩).pushAll
        [(1, "PUSHINT 5"), (0, ""), (0, " "), (-2, "STU 8")] = some p1 ∧
      p1.m_stack.m_size = 1 + sumDeltas [(1, "PUSHINT 5"), (0, ""), (0, " "), (-2, "STU 8")] ∧
      p1.m_code.lines = ["NEWC"] ++
        codeLoggedLines 1 [(1, "PUSHINT 5"), (0, ""), (0, " "), (-2, "STU 8")] ∧
      p1.m_code.tabQty = 1 ∧
      p1.m_stack.m_stackSize = [] :=
  C2_push_sequence (StackPusherHelper.mk ⟨["NEWC"], 1⟩ ⟨1, []⟩)
    [(1, "PUSHINT 5"), (0, ""), (0, " "), (-2, "STU 8")] (by decide)
    (by simp [runningTotalsNonneg])

/-! ### Association lists -/

theorem mapLookup_mapSet {α : Type} (m : List (Nat × α)) (k : Nat) (x : α) (u : Nat) :
    mapLookup (mapSet m k x) u = if u = k then some x else mapLookup m u := by
  induction m with
  | nil => simp [mapSet, mapLookup]
  | cons e rest ih =>
    obtain ⟨k1, v1⟩ := e
    unfold mapSet
    by_cases h1 : k = k1
    · subst h1
      by_cases h2 : u = k <;> simp [mapLookup, h2]
    · by_cases h3 : k < k1
      · by_cases h2 : u = k
        · simp [mapLookup, h1, h3, h2]
        · simp [mapLookup, h1, h3, h2]
      · by_cases h2 : u = k
        · subst h2
          simp [mapLookup, h1, h3, ih]
        · by_cases h4 : u = k1
          · subst h4
            simp [mapLookup, h1, h3, h2]
          · simp [mapLookup, h1, h3, h2, h4, ih]

theorem mapLookup_mapAssign {α : Type} (m : List (Nat × α)) (k : Nat) (x : α) (u : Nat) :
    mapLookup (mapAssign m k x) u
      = if u = k then (mapLookup m k).map (fun _ => x) else mapLookup m u := by
  induction m with
  | nil => simp [mapAssign, mapLookup]
  | cons e rest ih =>
    obtain ⟨k1, v1⟩ := e
    unfold mapAssign
    by_cases h1 : k = k1
    · subst h1
      by_cases h2 : u = k <;> simp [mapLookup, h2]
    · by_cases h2 : u = k
      · subst h2
        simp [mapLookup, h1, ih]
      · by_cases h4 : u = k1
        · subst h4
          simp [mapLookup, h1, h2]
        · simp [mapLookup, h1, h2, h4, ih]

theorem mapLookup_mapAssign_same {α : Type} (m : List (Nat × α)) (k : Nat) (x y : α)
    (h : mapLookup m k = some y) : mapLookup (mapAssign m k x) k = some x := by
  simp [mapLookup_mapAssign, h]

theorem mapLookup_mapAssign_ne {α : Type} (m : List (Nat × α)) (k : Nat) (x : α) (u : Nat)
    (h : u ≠ k) : mapLookup (mapAssign m k x) u = mapLookup m u := by
  simp [mapLookup_mapAssign, h]

theorem whiteCount_cons (e : Nat × Color) (rest : List (Nat × Color)) :
    whiteCount (e :: rest) = (if e.2 = Color.White then 1 else 0) + whiteCount rest := by
  unfold whiteCount
  by_cases h : e.2 = Color.White
  · simp [List.filter_cons, h, Nat.add_comm]
  · simp [List.filter_cons, h]

theorem whiteCount_mapAssign_le (c : List (Nat × Color)) (k : Nat) (x : Color)
    (hx : x ≠ Color.White) : whiteCount (mapAssign c k x) ≤ whiteCount c := by
  induction c with
  | nil => simp [mapAssign]
  | cons e rest ih =>
    obtain ⟨k1, v1⟩ := e
    unfold mapAssign
    by_cases h1 : k = k1
    · simp only [h1, if_true, whiteCount_cons, hx, if_false]
      omega
    · simp only [h1, if_false, whiteCount_cons]
      omega

theorem whiteCount_mapAssign_lt (c : List (Nat × Color)) (k : Nat) (x : Color)
    (hx : x ≠ Color.White) (hk : mapLookup c k = some Color.White) :
    whiteCount (mapAssign c k x) < whiteCount c := by
  induction c with
  | nil => simp [mapLookup] at hk
  | cons e rest ih =>
    obtain ⟨k1, v1⟩ := e
    unfold mapAssign
    by_cases h1 : k = k1
    · simp only [mapLookup, h1, if_true, Option.some.injEq] at hk
      simp only [h1, if_true, whiteCount_cons, hx, if_false, hk]
      omega
    · simp only [mapLookup, h1, if_false] at hk
      have := ih hk
      simp only [h1, if_false, whiteCount_cons]
      omega

theorem whiteCount_le_length (c : List (Nat × Color)) : whiteCount c ≤ c.length := by
  unfold whiteCount
  exact List.length_filter_le _ _

theorem mem_setInsert (s : List Nat) (x y : Nat) : y ∈ setInsert s x ↔ y ∈ s ∨ y = x := by
  induction s with
  | nil => simp [setInsert]
  | cons z rest ih =>
    unfold setInsert
    by_cases h1 : x = z
    · subst h1
      simp only [if_true, List.mem_cons]
      tauto
    · by_cases h2 : x < z
      · simp only [h1, h2, if_true, if_false, List.mem_cons]
        tauto
      · simp only [h1, h2, if_false, List.mem_cons, ih]
        tauto

theorem mem_setErase (s : List Nat) (x y : Nat) : y ∈ setErase s x ↔ y ∈ s ∧ y ≠ x := by
  simp [setErase]

/-! ### The depth-first search -/

theorem Frame.frame_refl (c : List (Nat × Color)) : Frame c c := fun _ => Or.inl rfl

theorem Frame.frame_trans {c c1 c2 : List (Nat × Color)} (h1 : Frame c c1) (h2 : Frame c1 c2) :
    Frame c c2 := by
  intro u
  rcases h1 u with e1 | ⟨w1, b1⟩ <;> rcases h2 u with e2 | ⟨w2, b2⟩
  · exact Or.inl (e2.trans e1)
  · exact Or.inr ⟨e1 ▸ w2, b2⟩
  · exact Or.inr ⟨w1, e2.trans b1⟩
  · rw [b1] at w2; cases w2

theorem Frame.black {c c1 : List (Nat × Color)} (h : Frame c c1) {u : Nat}
    (hb : mapLookup c u = some Color.Black) : mapLookup c1 u = some Color.Black := by
  rcases h u with e | ⟨w, _⟩
  · exact e.trans hb
  · rw [hb] at w; cases w

theorem Frame.red_back {c c1 : List (Nat × Color)} (h : Frame c c1) {u : Nat}
    (hr : mapLookup c1 u = some Color.Red) : mapLookup c u = some Color.Red := by
  rcases h u with e | ⟨_, b⟩
  · exact e ▸ hr
  · rw [hr] at b; cases b

theorem BlackInv.reach {g : List (Nat × List Nat)} {c : List (Nat × Color)}
    (h : BlackInv g c) {u w : Nat} (hu : mapLookup c u = some Color.Black)
    (hr : Relation.ReflTransGen (Edge g) u w) : mapLookup c w = some Color.Black := by
  induction hr with
  | refl => exact hu
  | tail _ hstep ih => exact (h _ ih).1 _ hstep

theorem forLoop_spec (g : List (Nat × List Nat)) (fuel : Nat)
    (f : List (Nat × Color) → Nat → Option (Bool × List (Nat × Color)))
    (hf : ∀ c x, (mapLookup g x).isSome = true → ColorCovers g c → whiteCount c < fuel →
      BlackInv g c → DfsPost g c [x] (f c x)) :
    ∀ xs c, (∀ x ∈ xs, (mapLookup g x).isSome = true) → ColorCovers g c →
      whiteCount c < fuel → BlackInv g c → DfsPost g c xs (forLoop f c xs) := by
  intro xs
  induction xs with
  | nil =>
    intro c _ hcov _ hbi
    refine ⟨false, c, rfl, fun _ => ⟨hcov, le_refl _, hbi, ?_, Frame.frame_refl c⟩, ?_⟩
    · intro x hx; cases hx
    · intro h; cases h
  | cons x rest ih =>
    intro c hkeys hcov hwc hbi
    obtain ⟨b, c1, hr, hfalse, htrue⟩ :=
      hf c x (hkeys x (List.mem_cons_self _ _)) hcov hwc hbi
    cases b with
    | true =>
      refine ⟨true, c1, (by simp [forLoop, hr]), (fun h => by cases h), fun _ => ?_⟩
      rcases htrue rfl with hc | ⟨y, hy, t, ht, hp⟩
      · exact Or.inl hc
      · refine Or.inr ⟨y, ?_, t, ht, hp⟩
        rw [List.mem_singleton] at hy
        rw [hy]; exact List.mem_cons_self _ _
    | false =>
      obtain ⟨hcov1, hwc1, hbi1, hblk1, hfr1⟩ := hfalse rfl
      obtain ⟨b2, c2, hr2, hfalse2, htrue2⟩ :=
        ih c1 (fun y hy => hkeys y (List.mem_cons_of_mem _ hy)) hcov1
          (lt_of_le_of_lt hwc1 hwc) hbi1
      refine ⟨b2, c2, (by simp [forLoop, hr, hr2]), fun hb => ?_, fun hb => ?_⟩
      · obtain ⟨hcov2, hwc2, hbi2, hblk2, hfr2⟩ := hfalse2 hb
        refine ⟨hcov2, le_trans hwc2 hwc1, hbi2, ?_, hfr1.frame_trans hfr2⟩
        intro y hy
        rcases List.mem_cons.mp hy with rfl | hy
        · exact hfr2.black (hblk1 y (List.mem_singleton_self y))
        · exact hblk2 y hy
      · rcases htrue2 hb with hc | ⟨y, hy, t, ht, hp⟩
        · exact Or.inl hc
        · exact Or.inr ⟨y, List.mem_cons_of_mem _ hy, t, hfr1.red_back ht, hp⟩

theorem ColorCovers.mapAssign {g : List (Nat × List Nat)} {c : List (Nat × Color)}
    (h : ColorCovers g c) (v : Nat) (x : Color) : ColorCovers g (mapAssign c v x) := by
  intro u hu
  have := h u hu
  rw [mapLookup_mapAssign]
  by_cases huv : u = v
  · subst huv
    rw [if_pos rfl]
    cases hc : mapLookup c u with
    | none => rw [hc] at this; cases this
    | some y => rfl
  · rw [if_neg huv]; exact this

theorem BlackInv.mapAssign_red {g : List (Nat × List Nat)} {c : List (Nat × Color)}
    (h : BlackInv g c) (v : Nat) (hv : mapLookup c v = some Color.White) :
    BlackInv g (mapAssign c v Color.Red) := by
  intro u hu
  have huv : u ≠ v := by
    intro e
    rw [e, mapLookup_mapAssign_same c v Color.Red Color.White hv] at hu
    cases hu
  rw [mapLookup_mapAssign_ne c v Color.Red u huv] at hu
  refine ⟨fun w hw => ?_, (h u hu).2⟩
  have hw1 := (h u hu).1 w hw
  have hwv : w ≠ v := by
    intro e
    rw [e, hv] at hw1
    cases hw1
  rw [mapLookup_mapAssign_ne c v Color.Red w hwv]
  exact hw1

theorem BlackInv.mapAssign_black {g : List (Nat × List Nat)} {c : List (Nat × Color)}
    (h : BlackInv g c) (v : Nat) (hv : mapLookup c v = some Color.Red)
    (hsucc : ∀ w, Edge g v w → mapLookup c w = some Color.Black) :
    BlackInv g (mapAssign c v Color.Black) := by
  have keep : ∀ w, mapLookup c w = some Color.Black →
      mapLookup (mapAssign c v Color.Black) w = some Color.Black := by
    intro w hw
    have hwv : w ≠ v := by
      intro e
      rw [e, hv] at hw
      cases hw
    rw [mapLookup_mapAssign_ne c v Color.Black w hwv]
    exact hw
  intro u hu
  by_cases huv : u = v
  · subst huv
    refine ⟨fun w hw => keep w (hsucc w hw), fun hcyc => ?_⟩
    obtain ⟨w, hw, hrest⟩ := Relation.TransGen.head'_iff.mp hcyc
    have := h.reach (hsucc w hw) hrest
    rw [hv] at this
    cases this
  · rw [mapLookup_mapAssign_ne c v Color.Black u huv] at hu
    exact ⟨fun w hw => keep w ((h u hu).1 w hw), (h u hu).2⟩

theorem dfs_spec (g : List (Nat × List Nat)) (hg : GraphClosed g) :
    ∀ fuel c v, (mapLookup g v).isSome = true → ColorCovers g c → whiteCount c < fuel →
      BlackInv g c → DfsPost g c [v] (dfs g fuel c v) := by
  intro fuel
  induction fuel with
  | zero => intro c v _ _ hwc _; omega
  | succ fuel ih =>
    intro c v hkey hcov hwc hbi
    have hcv := hcov v hkey
    cases hc : mapLookup c v with
    | none => rw [hc] at hcv; cases hcv
    | some col =>
      cases col with
      | Black =>
        refine ⟨false, c, (by simp [dfs, hc]), fun _ => ?_, fun h => by cases h⟩
        refine ⟨hcov, le_refl _, hbi, ?_, Frame.frame_refl c⟩
        intro x hx
        rw [List.mem_singleton] at hx
        rw [hx]; exact hc
      | Red =>
        refine ⟨true, c, (by simp [dfs, hc]), (fun h => by cases h), fun _ => ?_⟩
        exact Or.inr ⟨v, List.mem_singleton_self v, v, hc, Relation.ReflTransGen.refl⟩
      | White =>
        cases hs : mapLookup g v with
        | none => rw [hs] at hkey; cases hkey
        | some succs =>
          have hlt : whiteCount (mapAssign c v Color.Red) < fuel :=
            lt_of_lt_of_le
              (whiteCount_mapAssign_lt c v Color.Red (by decide) hc) (Nat.lt_succ_iff.mp hwc)
          obtain ⟨b, c2, hr, hfalse, htrue⟩ :=
            forLoop_spec g fuel (dfs g fuel) ih succs (mapAssign c v Color.Red)
              (fun x hx => hg v succs hs x hx) (hcov.mapAssign v Color.Red) hlt
              (hbi.mapAssign_red v hc)
          cases b with
          | true =>
            refine ⟨true, c2, (by simp [dfs, hc, hs, hr]), (fun h => by cases h), fun _ => ?_⟩
            rcases htrue rfl with hcyc | ⟨x, hx, t, ht, hp⟩
            · exact Or.inl hcyc
            · have hvx : Edge g v x := ⟨succs, hs, hx⟩
              by_cases htv : t = v
              · subst htv
                exact Or.inl ⟨t, Relation.TransGen.head' hvx hp⟩
              · rw [mapLookup_mapAssign_ne c v Color.Red t htv] at ht
                exact Or.inr ⟨v, List.mem_singleton_self v, t, ht,
                  Relation.ReflTransGen.head hvx hp⟩
          | false =>
            obtain ⟨hcov2, hwc2, hbi2, hblk2, hfr2⟩ := hfalse rfl
            have hv2 : mapLookup c2 v = some Color.Red := by
              rcases hfr2 v with e | ⟨w, _⟩
              · rw [e]; exact mapLookup_mapAssign_same c v Color.Red Color.White hc
              · rw [mapLookup_mapAssign_same c v Color.Red Color.White hc] at w; cases w
            have hsucc : ∀ w, Edge g v w → mapLookup c2 w = some Color.Black := by
              intro w hw
              obtain ⟨s, hs1, hw1⟩ := hw
              rw [hs] at hs1
              cases hs1
              exact hblk2 w hw1
            refine ⟨false, mapAssign c2 v Color.Black, (by simp [dfs, hc, hs, hr]),
              fun _ => ?_, fun h => by cases h⟩
            refine ⟨hcov2.mapAssign v Color.Black, ?_, hbi2.mapAssign_black v hv2 hsucc, ?_, ?_⟩
            · exact le_trans (whiteCount_mapAssign_le c2 v Color.Black (by decide))
                (le_trans hwc2 (whiteCount_mapAssign_le c v Color.Red (by decide)))
            · intro x hx
              rw [List.mem_singleton] at hx
              rw [hx]; exact mapLookup_mapAssign_same c2 v Color.Black Color.Red hv2
            · intro u
              by_cases huv : u = v
              · subst huv
                exact Or.inr ⟨hc, mapLookup_mapAssign_same c2 u Color.Black Color.Red hv2⟩
              · rw [mapLookup_mapAssign_ne c2 v Color.Black u huv]
                rcases hfr2 u with e | ⟨w, b⟩
                · left; rw [e]; exact mapLookup_mapAssign_ne c v Color.Red u huv
                · right
                  rw [mapLookup_mapAssign_ne c v Color.Red u huv] at w
                  exact ⟨w, b⟩

/-! ### The call graph -/

theorem mem_keys_iff {α : Type} (m : List (Nat × α)) (u : Nat) :
    u ∈ m.map Prod.fst ↔ (mapLookup m u).isSome = true := by
  induction m with
  | nil => simp [mapLookup]
  | cons e rest ih =>
    obtain ⟨k1, v1⟩ := e
    by_cases h : u = k1
    · simp [mapLookup, h]
    · simp only [List.map_cons, List.mem_cons, h, false_or, mapLookup, if_false]
      exact ih

theorem mapLookup_resetColors (keys : List Nat) :
    ∀ (c : List (Nat × Color)) (u : Nat),
      mapLookup (resetColors c keys) u
        = if u ∈ keys then some Color.White else mapLookup c u := by
  induction keys with
  | nil => intro c u; simp [resetColors]
  | cons k rest ih =>
    intro c u
    have := ih (mapSet c k Color.White) u
    unfold resetColors at this ⊢
    rw [List.foldl_cons, this, mapLookup_mapSet]
    by_cases h1 : u ∈ rest
    · simp [h1]
    · by_cases h2 : u = k
      · simp [h2]
      · simp [h1, h2]

theorem Edge.isKey {g : List (Nat × List Nat)} {a b : Nat} (h : Edge g a b) :
    (mapLookup g a).isSome = true := by
  obtain ⟨s, hs, _⟩ := h
  rw [hs]; rfl

theorem GraphClosed.edge_target {g : List (Nat × List Nat)} (hg : GraphClosed g) {a b : Nat}
    (h : Edge g a b) : (mapLookup g b).isSome = true := by
  obtain ⟨s, hs, hb⟩ := h
  exact hg a s hs b hb

theorem GraphClosed.reach_isKey {g : List (Nat × List Nat)} (hg : GraphClosed g) {a b : Nat}
    (ha : (mapLookup g a).isSome = true) (h : Relation.ReflTransGen (Edge g) a b) :
    (mapLookup g b).isSome = true := by
  induction h with
  | refl => exact ha
  | tail _ hstep _ => exact hg.edge_target hstep

theorem edge_addEdge (g : List (Nat × List Nat)) (v to_ a b : Nat) :
    Edge (addEdge g v to_) a b ↔ Edge g a b ∨ (a = v ∧ b = to_) := by
  have key : ∀ g1 : List (Nat × List Nat),
      Edge (match mapLookup g1 to_ with
        | some _ => g1
        | none => mapSet g1 to_ []) a b ↔ Edge g1 a b := by
    intro g1
    cases h : mapLookup g1 to_ with
    | some s => exact Iff.rfl
    | none =>
      simp only [Edge, mapLookup_mapSet]
      by_cases hat : a = to_
      · subst hat
        simp [h]
      · simp [hat]
  unfold addEdge
  rw [key]
  simp only [Edge, mapLookup_mapSet]
  by_cases hav : a = v
  · subst hav
    cases hl : mapLookup g a with
    | none => simp [setInsert]
    | some s =>
      simp only [if_true, Option.some.injEq, Option.getD_some, exists_eq_left', true_and,
        mem_setInsert]
  · simp [hav]

theorem isKey_addEdge (g : List (Nat × List Nat)) (v to_ u : Nat) :
    (mapLookup (addEdge g v to_) u).isSome = true ↔
      ((mapLookup g u).isSome = true ∨ u = v ∨ u = to_) := by
  have key : ∀ g1 : List (Nat × List Nat),
      (mapLookup (match mapLookup g1 to_ with
        | some _ => g1
        | none => mapSet g1 to_ []) u).isSome = true ↔
        ((mapLookup g1 u).isSome = true ∨ u = to_) := by
    intro g1
    cases h : mapLookup g1 to_ with
    | some s =>
      constructor
      · exact Or.inl
      · rintro (h1 | h1)
        · exact h1
        · rw [h1, h]; rfl
    | none =>
      simp only [mapLookup_mapSet]
      by_cases hut : u = to_
      · simp [hut]
      · simp [hut]
  unfold addEdge
  rw [key, mapLookup_mapSet]
  by_cases huv : u = v
  · simp [huv]
  · simp [huv]

theorem GraphClosed.addEdge {g : List (Nat × List Nat)} (hg : GraphClosed g) (v to_ : Nat) :
    GraphClosed (addEdge g v to_) := by
  intro u s hs w hw
  have he : Edge (TVM.addEdge g v to_) u w := ⟨s, hs, hw⟩
  rw [isKey_addEdge]
  rcases (edge_addEdge g v to_ u w).mp he with h | ⟨_, h⟩
  · exact Or.inl (hg.edge_target h)
  · exact Or.inr (Or.inr h)

theorem edge_eraseEdge (g : List (Nat × List Nat)) (v to_ a b : Nat) :
    Edge (eraseEdge g v to_) a b ↔ Edge g a b ∧ ¬ (a = v ∧ b = to_) := by
  unfold eraseEdge
  simp only [Edge, mapLookup_mapSet]
  by_cases hav : a = v
  · subst hav
    cases hl : mapLookup g a with
    | none => simp [setErase]
    | some s => simp [mem_setErase]
  · simp [hav]

theorem isKey_eraseEdge (g : List (Nat × List Nat)) (v to_ u : Nat) :
    (mapLookup (eraseEdge g v to_) u).isSome = true ↔
      ((mapLookup g u).isSome = true ∨ u = v) := by
  unfold eraseEdge
  simp only [mapLookup_mapSet]
  by_cases huv : u = v
  · simp [huv]
  · simp [huv]

theorem addAndDoesHaveLoop_spec (ctx : TVMCompilerContext) (v to_ : Nat)
    (hg : GraphClosed ctx.graph) :
    ∃ b c1, ctx.addAndDoesHaveLoop v to_
        = some (b, ⟨if b = true then eraseEdge (addEdge ctx.graph v to_) v to_
                    else addEdge ctx.graph v to_, c1⟩) ∧
      (b = true ↔ HasCycle (addEdge ctx.graph v to_)) := by
  have hg1 : GraphClosed (addEdge ctx.graph v to_) := hg.addEdge v to_
  generalize hG : addEdge ctx.graph v to_ = g1 at hg1
  have hwhite : ∀ u, (mapLookup g1 u).isSome = true →
      mapLookup (resetColors ctx.color (g1.map Prod.fst)) u = some Color.White := by
    intro u hu
    rw [mapLookup_resetColors, if_pos ((mem_keys_iff g1 u).mpr hu)]
  have hcov : ColorCovers g1 (resetColors ctx.color (g1.map Prod.fst)) := by
    intro u hu
    rw [hwhite u hu]; rfl
  have hbi : BlackInv g1 (resetColors ctx.color (g1.map Prod.fst)) := by
    intro u hu
    have hnk : ¬ (mapLookup g1 u).isSome = true := by
      intro hk
      rw [hwhite u hk] at hu
      cases hu
    refine ⟨fun w hw => absurd hw.isKey hnk, fun hcyc => ?_⟩
    obtain ⟨w, hw, _⟩ := Relation.TransGen.head'_iff.mp hcyc
    exact hnk hw.isKey
  obtain ⟨b, c1, hr, hfalse, htrue⟩ :=
    forLoop_spec g1 ((resetColors ctx.color (g1.map Prod.fst)).length + 1)
      (dfs g1 ((resetColors ctx.color (g1.map Prod.fst)).length + 1))
      (dfs_spec g1 hg1 _) (g1.map Prod.fst) (resetColors ctx.color (g1.map Prod.fst))
      (fun x hx => (mem_keys_iff g1 x).mp hx) hcov
      (Nat.lt_succ_of_le (whiteCount_le_length _)) hbi
  cases b with
  | true =>
    refine ⟨true, c1, ?_, ?_⟩
    · simp only [TVMCompilerContext.addAndDoesHaveLoop, hG, hr, if_true]
    · refine ⟨fun _ => ?_, fun _ => rfl⟩
      rcases htrue rfl with hc | ⟨x, hx, t, ht, hp⟩
      · exact hc
      · have hxk := (mem_keys_iff g1 x).mp hx
        rw [hwhite t (hg1.reach_isKey hxk hp)] at ht
        cases ht
  | false =>
    refine ⟨false, c1, ?_, ?_⟩
    · simp only [TVMCompilerContext.addAndDoesHaveLoop, hG, hr]
      rfl
    · obtain ⟨_, _, hbi1, hblk, _⟩ := hfalse rfl
      refine ⟨(fun h => by cases h), fun hcyc => ?_⟩
      obtain ⟨a, ha⟩ := hcyc
      obtain ⟨w, hw, _⟩ := Relation.TransGen.head'_iff.mp ha
      exact absurd ha (hbi1 a (hblk a ((mem_keys_iff g1 a).mpr hw.isKey))).2

theorem transGen_addEdge_cases (g : List (Nat × List Nat)) (v to_ : Nat) {a b : Nat}
    (h : Relation.TransGen (Edge (addEdge g v to_)) a b) :
    Relation.TransGen (Edge g) a b ∨ Relation.ReflTransGen (Edge g) to_ v ∨
      (Relation.ReflTransGen (Edge g) a v ∧ Relation.ReflTransGen (Edge g) to_ b) := by
  induction h with
  | single hab =>
    rcases (edge_addEdge g v to_ a _).mp hab with h1 | ⟨h1, h2⟩
    · exact Or.inl (Relation.TransGen.single h1)
    · subst h1; subst h2
      exact Or.inr (Or.inr ⟨Relation.ReflTransGen.refl, Relation.ReflTransGen.refl⟩)
  | tail _ hbc ih =>
    rcases (edge_addEdge g v to_ _ _).mp hbc with h1 | ⟨h1, h2⟩
    · rcases ih with i1 | i2 | ⟨i3, i4⟩
      · exact Or.inl (Relation.TransGen.tail i1 h1)
      · exact Or.inr (Or.inl i2)
      · exact Or.inr (Or.inr ⟨i3, Relation.ReflTransGen.tail i4 h1⟩)
    · subst h1; subst h2
      rcases ih with i1 | i2 | ⟨_, i4⟩
      · exact Or.inr (Or.inr ⟨i1.to_reflTransGen, Relation.ReflTransGen.refl⟩)
      · exact Or.inr (Or.inl i2)
      · exact Or.inr (Or.inl i4)

theorem hasCycle_addEdge_iff (g : List (Nat × List Nat)) (v to_ : Nat) (hac : ¬ HasCycle g) :
    HasCycle (addEdge g v to_) ↔ Relation.ReflTransGen (Edge g) to_ v := by
  constructor
  · rintro ⟨a, ha⟩
    rcases transGen_addEdge_cases g v to_ ha with h1 | h2 | ⟨h3, h4⟩
    · exact absurd ⟨a, h1⟩ hac
    · exact h2
    · exact h4.trans h3
  · intro h
    have hmono : ∀ x y, Edge g x y → Edge (addEdge g v to_) x y :=
      fun x y hxy => (edge_addEdge g v to_ x y).mpr (Or.inl hxy)
    have hnew : Edge (addEdge g v to_) v to_ := (edge_addEdge g v to_ v to_).mpr (Or.inr ⟨rfl, rfl⟩)
    exact ⟨v, Relation.TransGen.head' hnew (Relation.ReflTransGen.mono hmono h)⟩

theorem hasCycle_congr {g g1 : List (Nat × List Nat)} (h : ∀ a b, Edge g1 a b ↔ Edge g a b) :
    HasCycle g1 ↔ HasCycle g := by
  have : Edge g1 = Edge g := by
    funext a b
    exact propext (h a b)
  unfold HasCycle
  rw [this]

/-- What one call does to a closed acyclic call graph. -/
theorem addAndDoesHaveLoop_step (ctx : TVMCompilerContext) (v to_ : Nat)
    (hg : GraphClosed ctx.graph) (hac : ¬ HasCycle ctx.graph) :
    ∃ b ctx1, ctx.addAndDoesHaveLoop v to_ = some (b, ctx1) ∧
      (b = true ↔ Relation.ReflTransGen (Edge ctx.graph) to_ v) ∧
      (b = true ↔ HasCycle (addEdge ctx.graph v to_)) ∧
      (b = true → ∀ x y, Edge ctx1.graph x y ↔ Edge ctx.graph x y) ∧
      (b = false → ∀ x y, Edge ctx1.graph x y ↔ (Edge ctx.graph x y ∨ (x = v ∧ y = to_))) ∧
      GraphClosed ctx1.graph ∧ ¬ HasCycle ctx1.graph := by
  obtain ⟨b, c1, hr, hiff⟩ := addAndDoesHaveLoop_spec ctx v to_ hg
  have hreach := hasCycle_addEdge_iff ctx.graph v to_ hac
  refine ⟨b, _, hr, hiff.trans hreach, hiff, ?_⟩
  cases b with
  | true =>
    have hpath : Relation.ReflTransGen (Edge ctx.graph) to_ v := hreach.mp (hiff.mp rfl)
    have hnot : ¬ Edge ctx.graph v to_ :=
      fun he => hac ⟨v, Relation.TransGen.head' he hpath⟩
    have hedges : ∀ x y, Edge (eraseEdge (addEdge ctx.graph v to_) v to_) x y
        ↔ Edge ctx.graph x y := by
      intro x y
      rw [edge_eraseEdge, edge_addEdge]
      constructor
      · rintro ⟨h1 | h1, h2⟩
        · exact h1
        · exact absurd h1 h2
      · intro h1
        refine ⟨Or.inl h1, ?_⟩
        rintro ⟨rfl, rfl⟩
        exact hnot h1
    simp only [if_true]
    refine ⟨fun _ => hedges, (fun h => by cases h), ?_, ?_⟩
    · intro u s hs w hw
      have he : Edge (eraseEdge (addEdge ctx.graph v to_) v to_) u w := ⟨s, hs, hw⟩
      have he1 := ((edge_eraseEdge (addEdge ctx.graph v to_) v to_ u w).mp he).1
      exact (isKey_eraseEdge _ v to_ w).mpr (Or.inl ((hg.addEdge v to_).edge_target he1))
    · exact fun h => hac ((hasCycle_congr hedges).mp h)
  | false =>
    refine ⟨(fun h => by cases h), fun _ => edge_addEdge ctx.graph v to_, hg.addEdge v to_, ?_⟩
    intro h
    have := hiff.mpr h
    cases this

theorem Reachable.inv {ctx : TVMCompilerContext} (h : Reachable ctx) :
    GraphClosed ctx.graph ∧ ¬ HasCycle ctx.graph := by
  induction h with
  | empty =>
    refine ⟨?_, ?_⟩
    · intro u s hs
      simp [TVMCompilerContext.empty, mapLookup] at hs
    · rintro ⟨a, ha⟩
      obtain ⟨w, hw, _⟩ := Relation.TransGen.head'_iff.mp ha
      obtain ⟨s, hs, _⟩ := hw
      simp [TVMCompilerContext.empty, mapLookup] at hs
  | step ctx ctx1 v to_ b _ hcall ih =>
    obtain ⟨b1, ctx2, hr, _, _, _, _, hcl, hac⟩ := addAndDoesHaveLoop_step ctx v to_ ih.1 ih.2
    rw [hr] at hcall
    cases hcall
    exact ⟨hcl, hac⟩

theorem hasCycle_addEdge_rel (g : List (Nat × List Nat)) (v to_ : Nat) :
    HasCycle (addEdge g v to_) ↔
      ∃ a, Relation.TransGen (fun x y => Edge g x y ∨ (x = v ∧ y = to_)) a a := by
  have : Edge (addEdge g v to_) = fun x y => Edge g x y ∨ (x = v ∧ y = to_) := by
    funext a b
    exact propext (edge_addEdge g v to_ a b)
  unfold HasCycle
  rw [this]

/-! ### The claims -/

/-- C4: in a context reachable from the empty one, `addAndDoesHaveLoop(v, to)` returns, and
it returns `true` exactly when the stored graph together with the edge `v -> to` has a
cycle, which is exactly when `v` is reachable from `to` in the stored graph or `v = to`. -/
theorem C4_addAndDoesHaveLoop_iff_cycle (ctx : TVMCompilerContext) (v to_ : Nat)
    (h : Reachable ctx) :
    ∃ b ctx1, ctx.addAndDoesHaveLoop v to_ = some (b, ctx1) ∧
      (b = true ↔
        ∃ a, Relation.TransGen (fun x y => Edge ctx.graph x y ∨ (x = v ∧ y = to_)) a a) ∧
      (b = true ↔ (Relation.TransGen (Edge ctx.graph) to_ v ∨ v = to_)) := by
  obtain ⟨b, ctx1, hr, hreach, hcyc, _⟩ := addAndDoesHaveLoop_step ctx v to_ h.inv.1 h.inv.2
  refine ⟨b, ctx1, hr, hcyc.trans (hasCycle_addEdge_rel ctx.graph v to_), hreach.trans ?_⟩
  rw [Relation.reflTransGen_iff_eq_or_transGen]
  constructor
  · rintro (h1 | h1)
    · exact Or.inr h1
    · exact Or.inl h1
  · rintro (h1 | h1)
    · exact Or.inr h1
    · exact Or.inl h1

theorem C4_addAndDoesHaveLoop_iff_cycle_witness :
    ∃ b ctx1, TVMCompilerContext.empty.addAndDoesHaveLoop 3 3 = some (b, ctx1) ∧
      (b = true ↔
        ∃ a, Relation.TransGen
          (fun x y => Edge TVMCompilerContext.empty.graph x y ∨ (x = 3 ∧ y = 3)) a a) ∧
      (b = true ↔ (Relation.TransGen (Edge TVMCompilerContext.empty.graph) 3 3 ∨ 3 = 3)) :=
  C4_addAndDoesHaveLoop_iff_cycle TVMCompilerContext.empty 3 3 Reachable.empty

/-- C10: in a context reachable from the empty one, `addAndDoesHaveLoop(v, to)` returns; if
it returns `true` the stored edges are those before the call, if it returns `false` they
are those before the call together with `v -> to`; the stored graph is acyclic afterwards. -/
theorem C10_addAndDoesHaveLoop_edges (ctx : TVMCompilerContext) (v to_ : Nat)
    (h : Reachable ctx) :
    ∃ b ctx1, ctx.addAndDoesHaveLoop v to_ = some (b, ctx1) ∧
      (b = true → ∀ x y, Edge ctx1.graph x y ↔ Edge ctx.graph x y) ∧
      (b = false → ∀ x y, Edge ctx1.graph x y ↔ (Edge ctx.graph x y ∨ (x = v ∧ y = to_))) ∧
      ¬ HasCycle ctx1.graph := by
  obtain ⟨b, ctx1, hr, _, _, htrue, hfalse, _, hac⟩ :=
    addAndDoesHaveLoop_step ctx v to_ h.inv.1 h.inv.2
  exact ⟨b, ctx1, hr, htrue, hfalse, hac⟩

theorem C10_addAndDoesHaveLoop_edges_witness :
    ∃ b ctx1, (TVMCompilerContext.mk [(0, [1]), (1, [])] [(0, Color.Black), (1, Color.Black)]
        ).addAndDoesHaveLoop 1 0 = some (b, ctx1) ∧
      (b = true → ∀ x y, Edge ctx1.graph x y ↔ Edge [(0, [1]), (1, [])] x y) ∧
      (b = false → ∀ x y, Edge ctx1.graph x y ↔
        (Edge [(0, [1]), (1, [])] x y ∨ (x = 1 ∧ y = 0))) ∧
      ¬ HasCycle ctx1.graph :=
  C10_addAndDoesHaveLoop_edges
    (TVMCompilerContext.mk [(0, [1]), (1, [])] [(0, Color.Black), (1, Color.Black)]) 1 0
    (Reachable.step TVMCompilerContext.empty _ 0 1 false Reachable.empty (by decide))

/-! ### hardConvert -/

theorem CodeLines.push_extends_lines {c c1 : CodeLines} {cmd : String} (h : c.push cmd = some c1) :
    c1.tabQty = c.tabQty ∧ ∃ suf, c1.lines = c.lines ++ suf := by
  unfold CodeLines.push at h
  split_ifs at h <;> cases h
  · exact ⟨rfl, [], by simp⟩
  · exact ⟨rfl, _, rfl⟩
  · exact ⟨rfl, _, rfl⟩

theorem StackPusherHelper.push_extends {p p1 : StackPusherHelper} {d : Int} {cmd : String}
    (h : p.push d cmd = some p1) : Extends p p1 := by
  unfold StackPusherHelper.push at h
  cases hc : p.m_code.push cmd with
  | none => rw [hc] at h; cases h
  | some c1 =>
    rw [hc, Option.some_bind] at h
    cases hs : p.m_stack.change d with
    | none => rw [hs] at h; cases h
    | some s1 =>
      rw [hs] at h
      cases h
      exact CodeLines.push_extends_lines hc

theorem hardConvert_of_fits (implicitly : SolType → SolType → Bool) {l : SolType}
    {cmd : String} (hc : fitsCommand l = some cmd) (r : SolType) (p : StackPusherHelper) :
    hardConvert implicitly l r p = hardConvertSwitch (implicitly r l) l r p := by
  cases l <;> simp only [fitsCommand] at hc <;> try cases hc
  all_goals rfl

theorem doesFit_map_not {env : DictEnv} {keyType valueType : SolType} {r : Bool}
    (h : (doesFitInOneCellAndHaveNoStruct env keyType valueType).map not = some r) :
    ∃ k n, env.lengthOfDictKey keyType = some k ∧
      maxBitLengthOfDictValue env valueType = some n ∧
      (r = false ↔ env.MAX_HASH_MAP_INFO_ABOUT_KEY + k + n < env.CellBitLength) := by
  unfold doesFitInOneCellAndHaveNoStruct at h
  cases hk : env.lengthOfDictKey keyType with
  | none => rw [hk] at h; cases h
  | some k =>
    cases hn : maxBitLengthOfDictValue env valueType with
    | none => rw [hk, hn] at h; cases h
    | some n =>
      rw [hk, hn] at h
      simp only [Option.map_some', Option.some.injEq] at h
      refine ⟨k, n, rfl, rfl, ?_⟩
      rw [← h]
      simp

theorem sumMaxBitLength_eq (env : DictEnv) :
    ∀ (members : SolTypeList) (sum : Int) (ns : List Int),
      memberLengths env members = some ns →
      sumMaxBitLength env sum members = some (sum + ns.sum)
  | .nil, sum, ns, h => by
    simp only [memberLengths, Option.some.injEq] at h
    subst h
    simp [sumMaxBitLength]
  | .cons m rest, sum, ns, h => by
    unfold memberLengths at h
    cases hm : maxBitLengthOfDictValue env m with
    | none => rw [hm] at h; simp at h
    | some cur =>
      cases hr : memberLengths env rest with
      | none => rw [hm, hr] at h; simp at h
      | some ms =>
        rw [hm, hr] at h
        simp only [Option.some.injEq] at h
        subst h
        unfold sumMaxBitLength
        rw [hm]
        simp only
        rw [sumMaxBitLength_eq env rest (sum + cur) ms hr, List.sum_cons, add_assoc]

/-- C5 (as stated, refuted): a slice value is stored inline, although the capacity
inequality has no value for it: `maxBitLengthOfDictValue` does not return on a slice. -/
theorem C5_counterexample :
    doesDictStoreValueInRef sampleDictEnv (SolType.Integer 32 false) SolType.TvmSlice
        = some false ∧
      maxBitLengthOfDictValue sampleDictEnv SolType.TvmSlice = none ∧
      ¬ (∃ n, maxBitLengthOfDictValue sampleDictEnv SolType.TvmSlice = some n ∧
          sampleDictEnv.MAX_HASH_MAP_INFO_ABOUT_KEY + 32 + n < sampleDictEnv.CellBitLength) := by
  refine ⟨by decide, by decide, ?_⟩
  rintro ⟨n, hn, _⟩
  have : maxBitLengthOfDictValue sampleDictEnv SolType.TvmSlice = none := by decide
  rw [this] at hn
  cases hn

/-- C5 (amended): when `doesDictStoreValueInRef(K, V)` returns, the result is `true` (boxed)
for a raw cell and for a byte array or string, `false` (inline) for a slice, and for every
other value category the value is inline exactly when
`MAX_HASH_MAP_INFO_ABOUT_KEY + lengthOfDictKey(K) + maxBitLengthOfDictValue(V) <
CellBitLength`; the worst-case length of a struct is the sum of those of its members. -/
theorem C5_doesDictStoreValueInRef (env : DictEnv) (keyType valueType : SolType) (r : Bool)
    (h : doesDictStoreValueInRef env keyType valueType = some r) :
    (env.toDictValueType valueType.category = some DictValueType.TvmCell → r = true) ∧
    (env.toDictValueType valueType.category = some DictValueType.Array →
      env.isByteArrayOrString valueType = true → r = true) ∧
    (env.toDictValueType valueType.category = some DictValueType.TvmSlice → r = false) ∧
    (env.toDictValueType valueType.category ≠ some DictValueType.TvmCell →
      env.toDictValueType valueType.category ≠ some DictValueType.TvmSlice →
      ¬ (env.toDictValueType valueType.category = some DictValueType.Array ∧
          env.isByteArrayOrString valueType = true) →
      ∃ k n, env.lengthOfDictKey keyType = some k ∧
        maxBitLengthOfDictValue env valueType = some n ∧
        (r = false ↔ env.MAX_HASH_MAP_INFO_ABOUT_KEY + k + n < env.CellBitLength)) ∧
    (∀ members ns, valueType = SolType.Struct members →
      env.toDictValueType Category.Struct = some DictValueType.Struct →
      memberLengths env members = some ns →
      maxBitLengthOfDictValue env valueType = some ns.sum) := by
  refine ⟨?_, ?_, ?_, ?_, ?_⟩
  · intro hc
    simp only [doesDictStoreValueInRef, hc, Option.some.injEq] at h
    exact h.symm
  · intro hc hb
    simp only [doesDictStoreValueInRef, hc, hb, if_true, Option.some.injEq] at h
    exact h.symm
  · intro hc
    simp only [doesDictStoreValueInRef, hc, Option.some.injEq] at h
    exact h.symm
  · intro h1 h2 h3
    unfold doesDictStoreValueInRef at h
    cases hc : env.toDictValueType valueType.category with
    | none => rw [hc] at h; cases h
    | some d =>
      rw [hc] at h h1 h2 h3
      cases d
      case TvmCell => exact absurd rfl h1
      case TvmSlice => exact absurd rfl h2
      case Array =>
        have hb : ¬ env.isByteArrayOrString valueType = true := fun hb => h3 ⟨rfl, hb⟩
        simp only [hb, if_false] at h
        exact doesFit_map_not h
      all_goals exact doesFit_map_not h
  · intro members ns hv hs hm
    subst hv
    rw [maxBitLengthOfDictValue, sumMaxBitLength_eq env members 0 ns hm, zero_add]
    simp only [maxBitLengthSwitch, SolType.category, hs]

theorem C5_doesDictStoreValueInRef_witness :
    (sampleDictEnv.toDictValueType (SolType.Struct (.cons (.Integer 256 false)
        (.cons (.Integer 256 false) (.cons (.Integer 256 false) .nil)))).category
        = some DictValueType.TvmCell → true = true) ∧
    (sampleDictEnv.toDictValueType (SolType.Struct (.cons (.Integer 256 false)
        (.cons (.Integer 256 false) (.cons (.Integer 256 false) .nil)))).category
        = some DictValueType.Array →
      sampleDictEnv.isByteArrayOrString (SolType.Struct (.cons (.Integer 256 false)
        (.cons (.Integer 256 false) (.cons (.Integer 256 false) .nil)))) = true → true = true) ∧
    (sampleDictEnv.toDictValueType (SolType.Struct (.cons (.Integer 256 false)
        (.cons (.Integer 256 false) (.cons (.Integer 256 false) .nil)))).category
        = some DictValueType.TvmSlice → true = false) ∧
    (sampleDictEnv.toDictValueType (SolType.Struct (.cons (.Integer 256 false)
        (.cons (.Integer 256 false) (.cons (.Integer 256 false) .nil)))).category
        ≠ some DictValueType.TvmCell →
      sampleDictEnv.toDictValueType (SolType.Struct (.cons (.Integer 256 false)
        (.cons (.Integer 256 false) (.cons (.Integer 256 false) .nil)))).category
        ≠ some DictValueType.TvmSlice →
      ¬ (sampleDictEnv.toDictValueType (SolType.Struct (.cons (.Integer 256 false)
        (.cons (.Integer 256 false) (.cons (.Integer 256 false) .nil)))).category
          = some DictValueType.Array ∧
          sampleDictEnv.isByteArrayOrString (SolType.Struct (.cons (.Integer 256 false)
        (.cons (.Integer 256 false) (.cons (.Integer 256 false) .nil)))) = true) →
      ∃ k n, sampleDictEnv.lengthOfDictKey SolType.Address = some k ∧
        maxBitLengthOfDictValue sampleDictEnv (SolType.Struct (.cons (.Integer 256 false)
        (.cons (.Integer 256 false) (.cons (.Integer 256 false) .nil)))) = some n ∧
        (true = false ↔ sampleDictEnv.MAX_HASH_MAP_INFO_ABOUT_KEY + k + n
          < sampleDictEnv.CellBitLength)) ∧
    (∀ members ns, SolType.Struct (.cons (.Integer 256 false)
        (.cons (.Integer 256 false) (.cons (.Integer 256 false) .nil)))
          = SolType.Struct members →
      sampleDictEnv.toDictValueType Category.Struct = some DictValueType.Struct →
      memberLengths sampleDictEnv members = some ns →
      maxBitLengthOfDictValue sampleDictEnv (SolType.Struct (.cons (.Integer 256 false)
        (.cons (.Integer 256 false) (.cons (.Integer 256 false) .nil)))) = some ns.sum) :=
  C5_doesDictStoreValueInRef sampleDictEnv SolType.Address
    (SolType.Struct (.cons (.Integer 256 false)
      (.cons (.Integer 256 false) (.cons (.Integer 256 false) .nil)))) true (by decide)

/-! ### The optimizer on concrete logs -/

theorem optimizeLoop_of_throw (f : List String → Int → Option TVMOptimizer.Result)
    (lines_ : List String) (idx1 : Int) (hv : TVMOptimizer.valid lines_ idx1 = true)
    (hf : f lines_ idx1 = none) :
    ∀ fuel, TVMOptimizer.optimizeLoop f fuel lines_ idx1 = none := by
  intro fuel
  cases fuel with
  | zero => rfl
  | succ n => simp [TVMOptimizer.optimizeLoop, hv, hf]

/-- C8 (failing input): on the log `PUSH S2`, `XCHG s1,s3` the optimizer does not return,
whatever the number of iterations allowed: the first pass leaves the log as it is, and in
the second pass `optimize_at` throws at index 0 (`fetchStackIndex` on the two-operand
`XCHG`, lines 640-646). -/
theorem C8_optimize_code_not_total :
    (∀ fuel, TVMOptimizer.optimize TVMOptimizer.unsquash_push (fuel + 3)
        ["PUSH S2", "XCHG s1,s3"] = some ["PUSH S2", "XCHG s1,s3"]) ∧
      TVMOptimizer.optimize_at sampleTvmConst ["PUSH S2", "XCHG s1,s3"] 0 = none ∧
      ∀ fuel, TVMOptimizer.optimize_code sampleTvmConst fuel ["PUSH S2", "XCHG s1,s3"] = none := by
  have h1 : ∀ fuel, TVMOptimizer.optimize TVMOptimizer.unsquash_push (fuel + 3)
      ["PUSH S2", "XCHG s1,s3"] = some ["PUSH S2", "XCHG s1,s3"] := by
    intro fuel
    rfl
  have h2 : TVMOptimizer.optimize_at sampleTvmConst ["PUSH S2", "XCHG s1,s3"] 0 = none := by
    decide
  refine ⟨h1, h2, ?_⟩
  intro fuel
  have h3 := optimizeLoop_of_throw (TVMOptimizer.optimize_at sampleTvmConst)
    ["PUSH S2", "XCHG s1,s3"] 0 (by decide) h2
  match fuel with
  | 0 => rfl
  | 1 => rfl
  | 2 => rfl
  | n + 3 =>
    unfold TVMOptimizer.optimize_code
    rw [h1 n, Option.some_bind]
    unfold TVMOptimizer.optimize
    rw [h3 (n + 3)]
    rfl

/-! ### TVMStack -/

/-- C12: on a stack of size `s >= 0`, `change(diff)` aborts exactly when `s + diff < 0`;
otherwise it completes with size `s + diff` and the slot bindings unchanged, so the size
is non-negative after every completed change. -/
theorem C12_change (s : TVMStack) (diff : Int) (h : 0 ≤ s.m_size) :
    (s.change diff = none ↔ s.m_size + diff < 0) ∧
      (¬ s.m_size + diff < 0 →
        s.change diff = some ⟨s.m_size + diff, s.m_stackSize⟩) ∧
      (∀ s1, s.change diff = some s1 → 0 ≤ s1.m_size) := by
  have key : s.change diff
      = if s.m_size + diff < 0 then none else some ⟨s.m_size + diff, s.m_stackSize⟩ := by
    unfold TVMStack.change
    by_cases hd : diff = 0
    · subst hd
      have : ¬ s.m_size + 0 < 0 := by omega
      simp [this, h]
    · by_cases hn : s.m_size + diff < 0
      · simp [hd, hn]
      · simp [hd, hn]
  rw [key]
  by_cases hn : s.m_size + diff < 0
  · simp [hn]
  · simp only [hn, if_false]
    refine ⟨⟨fun e => ?_, fun e => absurd e (not_false)⟩, fun _ => trivial, ?_⟩
    · cases e
    · intro s1 e
      cases e
      exact not_lt.mp hn

theorem C12_change_witness :
    ((TVMStack.mk 2 [some 7, none]).change (-3) = none ↔ (2 : Int) + (-3) < 0) ∧
      (¬ (2 : Int) + (-3) < 0 →
        (TVMStack.mk 2 [some 7, none]).change (-3) = some ⟨2 + (-3), [some 7, none]⟩) ∧
      (∀ s1, (TVMStack.mk 2 [some 7, none]).change (-3) = some s1 → 0 ≤ s1.m_size) :=
  C12_change (TVMStack.mk 2 [some 7, none]) (-3) (by decide)

theorem getStackSizeLoop_spec (v : List (Option Nat)) (d : Nat) :
    ∀ n, (getStackSizeLoop v d n = -1 ∧ ∀ i, i < n → v.get? i ≠ some (some d)) ∨
      (∃ i, i < n ∧ getStackSizeLoop v d n = (i : Int) ∧ v.get? i = some (some d) ∧
        ∀ j, i < j → j < n → v.get? j ≠ some (some d)) := by
  intro n
  induction n with
  | zero =>
    left
    exact ⟨rfl, fun i hi => absurd hi (Nat.not_lt_zero i)⟩
  | succ n ih =>
    unfold getStackSizeLoop
    by_cases hc : n < v.length ∧ v.get? n = some (some d)
    · right
      refine ⟨n, Nat.lt_succ_self n, (by rw [if_pos hc]), hc.2, ?_⟩
      intro j h1 h2
      omega
    · have hne : v.get? n ≠ some (some d) := by
        intro e
        apply hc
        refine ⟨?_, e⟩
        by_contra hlt
        rw [List.get?_eq_none.mpr (not_lt.mp hlt)] at e
        cases e
      rw [if_neg hc]
      rcases ih with ⟨e, hall⟩ | ⟨i, hi, e, hb, hall⟩
      · left
        refine ⟨e, fun i hi => ?_⟩
        rcases Nat.lt_succ_iff_lt_or_eq.mp hi with h1 | h1
        · exact hall i h1
        · rw [h1]; exact hne
      · right
        refine ⟨i, Nat.lt_succ_of_lt hi, e, hb, fun j h1 h2 => ?_⟩
        rcases Nat.lt_succ_iff_lt_or_eq.mp h2 with h3 | h3
        · exact hall j h1 h3
        · rw [h3]; exact hne

theorem lt_toNat_iff (i : Nat) (m : Int) : i < m.toNat ↔ (i : Int) < m := by
  omega

theorem StackPusherHelper.push_keep {p p1 : StackPusherHelper} {d : Int} {cmd : String}
    (h1 : ¬ (cmd = "" ∨ cmd = "\n")) (h2 : ¬ cmd = " ") (h : p.push d cmd = some p1) :
    0 ≤ p.m_code.tabQty ∧ p1.m_code.tabQty = p.m_code.tabQty ∧
      p1.m_code.lines = p.m_code.lines ++ [tabs p.m_code.tabQty ++ cmd] ∧
      p1.m_stack.m_stackSize = p.m_stack.m_stackSize ∧
      p1.m_stack.m_size = p.m_stack.m_size + d := by
  unfold StackPusherHelper.push at h
  unfold CodeLines.push at h
  rw [if_neg h1, if_neg h2] at h
  split_ifs at h with ht
  · cases h
  · rw [Option.some_bind] at h
    unfold TVMStack.change at h
    split_ifs at h with hd hn
    · cases h
    · cases h
      exact ⟨not_lt.mp ht, rfl, rfl, rfl, rfl⟩
    · cases h
      have : d = 0 := not_not.mp hd
      subst this
      exact ⟨not_lt.mp ht, rfl, rfl, rfl, by simp⟩

theorem length_mapSet_absent {α : Type} (m : List (Nat × α)) (k : Nat) (x : α)
    (h : mapLookup m k = none) : (mapSet m k x).length = m.length + 1 := by
  induction m with
  | nil => rfl
  | cons e rest ih =>
    obtain ⟨k1, v1⟩ := e
    unfold mapLookup at h
    by_cases h1 : k = k1
    · rw [if_pos h1] at h; cases h
    · rw [if_neg h1] at h
      unfold mapSet
      rw [if_neg h1]
      by_cases h2 : k < k1
      · rw [if_pos h2]; rfl
      · rw [if_neg h2, List.length_cons, ih h, List.length_cons]

theorem initStateVarIndex_spec (first : Int) :
    ∀ (vars : List VariableDeclaration) (m : List (Nat × Int)),
      (∀ v ∈ vars, mapLookup m v.id = none) → (vars.map VariableDeclaration.id).Nodup →
      (initStateVarIndex first vars m).length = m.length + vars.length ∧
      (∀ k (hk : k < vars.length),
        mapLookup (initStateVarIndex first vars m) (vars.get ⟨k, hk⟩).id
          = some (first + (m.length : Int) + (k : Int))) ∧
      (∀ u, u ∉ vars.map VariableDeclaration.id →
        mapLookup (initStateVarIndex first vars m) u = mapLookup m u) := by
  intro vars
  induction vars with
  | nil =>
    intro m _ _
    refine ⟨?_, fun k hk => absurd hk (Nat.not_lt_zero k), fun u _ => ?_⟩
    · simp [initStateVarIndex]
    · simp [initStateVarIndex]
  | cons v rest ih =>
    intro m habs hnd
    rw [List.map_cons, List.nodup_cons] at hnd
    obtain ⟨hv, hnd1⟩ := hnd
    have hvabs := habs v (List.mem_cons_self _ _)
    have hlen := length_mapSet_absent m v.id (first + (m.length : Int)) hvabs
    have habs1 : ∀ w ∈ rest, mapLookup (mapSet m v.id (first + (m.length : Int))) w.id = none := by
      intro w hw
      rw [mapLookup_mapSet]
      have hne : w.id ≠ v.id := by
        intro e
        exact hv (e ▸ List.mem_map_of_mem VariableDeclaration.id hw)
      rw [if_neg hne]
      exact habs w (List.mem_cons_of_mem _ hw)
    obtain ⟨i1, i2, i3⟩ := ih (mapSet m v.id (first + (m.length : Int))) habs1 hnd1
    have hstep : initStateVarIndex first (v :: rest) m
        = initStateVarIndex first rest (mapSet m v.id (first + (m.length : Int))) := rfl
    rw [hstep]
    refine ⟨?_, ?_, ?_⟩
    · rw [i1, hlen, List.length_cons]; omega
    · intro k hk
      cases k with
      | zero =>
        show mapLookup _ v.id = _
        rw [i3 v.id hv, mapLookup_mapSet, if_pos rfl]
        simp
      | succ j =>
        have hj : j < rest.length := Nat.lt_of_succ_lt_succ hk
        show mapLookup _ (rest.get ⟨j, hj⟩).id = _
        rw [i2 j hj, hlen]
        congr 1
        push_cast
        ring
    · intro u hu
      rw [List.map_cons, List.mem_cons, not_or] at hu
      rw [i3 u hu.2, mapLookup_mapSet, if_neg hu.1]

theorem notConstant_foldl_eq (contract : List VariableDeclaration) :
    ∀ (acc : List VariableDeclaration),
      contract.foldl
          (fun acc variable_ => if ¬ variable_.isConstant then acc ++ [variable_] else acc) acc
        = acc ++ contract.filter (fun v => !v.isConstant) := by
  induction contract with
  | nil => intro acc; simp
  | cons x rest ih =>
    intro acc
    rw [List.foldl_cons, ih]
    cases hx : x.isConstant <;> simp [hx]

theorem mem_notConstant_foldl (contract : List VariableDeclaration)
    (acc : List VariableDeclaration) (v : VariableDeclaration) :
    v ∈ contract.foldl
        (fun acc variable_ => if ¬ variable_.isConstant then acc ++ [variable_] else acc) acc ↔
      v ∈ acc ∨ (v ∈ contract ∧ v.isConstant = false) := by
  rw [notConstant_foldl_eq]
  simp [List.mem_filter]

theorem notConstantStateVariables_eq (mainChain : List (List VariableDeclaration)) :
    notConstantStateVariables mainChain
      = mainChain.flatten.filter (fun v => !v.isConstant) := by
  have key : ∀ (chain : List (List VariableDeclaration)) (acc : List VariableDeclaration),
      chain.foldl
        (fun variableDeclarations contract =>
          contract.foldl
            (fun acc variable_ => if ¬ variable_.isConstant then acc ++ [variable_] else acc)
            variableDeclarations) acc
        = acc ++ chain.flatten.filter (fun v => !v.isConstant) := by
    intro chain
    induction chain with
    | nil => intro acc; simp
    | cons c rest ih =>
      intro acc
      rw [List.foldl_cons, ih, notConstant_foldl_eq, List.flatten_cons, List.filter_append,
        List.append_assoc]
  have h := key mainChain []
  rw [List.nil_append] at h
  exact h

/-- C20: after the last loop of `initMembers` (run on the empty map), the `k`-th element of
`notConstantStateVariables()` has index `FirstIndexForVariables + k`; hence distinct
variables of that list have distinct indices, the order of the indices is the order of the
list, and `getStateVarIndex` throws (`none`) for every constant state variable of the
chain. Declarations are identified by `id`; each declaration occurs once in the chain. -/
theorem C20_getStateVarIndex (first : Int) (mainChain : List (List VariableDeclaration))
    (hall : (mainChain.flatten.map VariableDeclaration.id).Nodup) :
    (∀ k (hk : k < (notConstantStateVariables mainChain).length),
      getStateVarIndex
          (initStateVarIndex first (notConstantStateVariables mainChain) [])
          ((notConstantStateVariables mainChain).get ⟨k, hk⟩) = some (first + (k : Int))) ∧
    (∀ j k (hj : j < (notConstantStateVariables mainChain).length)
        (hk : k < (notConstantStateVariables mainChain).length),
      ∃ a b : Int,
        getStateVarIndex
          (initStateVarIndex first (notConstantStateVariables mainChain) [])
          ((notConstantStateVariables mainChain).get ⟨j, hj⟩) = some a ∧
        getStateVarIndex
          (initStateVarIndex first (notConstantStateVariables mainChain) [])
          ((notConstantStateVariables mainChain).get ⟨k, hk⟩) = some b ∧
        (j ≠ k → a ≠ b) ∧ (j < k ↔ a < b)) ∧
    (∀ v ∈ mainChain.flatten, v.isConstant = true →
      v ∉ notConstantStateVariables mainChain ∧
      getStateVarIndex
          (initStateVarIndex first (notConstantStateVariables mainChain) []) v = none) := by
  have hsub : (notConstantStateVariables mainChain).Sublist mainChain.flatten := by
    rw [notConstantStateVariables_eq]
    exact List.filter_sublist _
  have hnd : ((notConstantStateVariables mainChain).map VariableDeclaration.id).Nodup :=
    List.Nodup.sublist (hsub.map _) hall
  obtain ⟨_, h2, h3⟩ := initStateVarIndex_spec first (notConstantStateVariables mainChain) []
    (fun _ _ => rfl) hnd
  have hidx : ∀ k (hk : k < (notConstantStateVariables mainChain).length),
      getStateVarIndex
          (initStateVarIndex first (notConstantStateVariables mainChain) [])
          ((notConstantStateVariables mainChain).get ⟨k, hk⟩) = some (first + (k : Int)) := by
    intro k hk
    have := h2 k hk
    simpa [getStateVarIndex] using this
  refine ⟨hidx, ?_, ?_⟩
  · intro j k hj hk
    refine ⟨first + (j : Int), first + (k : Int), hidx j hj, hidx k hk, ?_, ?_⟩
    · intro hne e
      apply hne
      omega
    · constructor
      · intro h; omega
      · intro h; omega
  · intro v hv hc
    have hnot : v ∉ notConstantStateVariables mainChain := by
      intro hm
      rw [notConstantStateVariables_eq, List.mem_filter] at hm
      simp [hc] at hm
    refine ⟨hnot, ?_⟩
    have hid : v.id ∉ (notConstantStateVariables mainChain).map VariableDeclaration.id := by
      intro hm
      obtain ⟨w, hw, hwid⟩ := List.mem_map.mp hm
      have hwv : w = v := List.inj_on_of_nodup_map hall (hsub.subset hw) hv hwid
      exact hnot (hwv ▸ hw)
    have := h3 v.id hid
    simpa [getStateVarIndex, mapLookup] using this

/-- C20 at a chain of two contracts with a constant in each. -/
theorem C20_getStateVarIndex_witness :
    ((([[⟨0, false⟩, ⟨1, true⟩], [⟨2, false⟩, ⟨3, true⟩, ⟨4, false⟩]] :
        List (List VariableDeclaration)).flatten.map VariableDeclaration.id).Nodup) ∧
      notConstantStateVariables [[⟨0, false⟩, ⟨1, true⟩], [⟨2, false⟩, ⟨3, true⟩, ⟨4, false⟩]]
        = [⟨0, false⟩, ⟨2, false⟩, ⟨4, false⟩] ∧
      getStateVarIndex
        (initStateVarIndex 10
          (notConstantStateVariables
            [[⟨0, false⟩, ⟨1, true⟩], [⟨2, false⟩, ⟨3, true⟩, ⟨4, false⟩]]) [])
        ⟨4, false⟩ = some 12 ∧
      getStateVarIndex
        (initStateVarIndex 10
          (notConstantStateVariables
            [[⟨0, false⟩, ⟨1, true⟩], [⟨2, false⟩, ⟨3, true⟩, ⟨4, false⟩]]) [])
        ⟨3, true⟩ = none :=
  ⟨by decide, by decide,
    (C20_getStateVarIndex 10 [[⟨0, false⟩, ⟨1, true⟩], [⟨2, false⟩, ⟨3, true⟩, ⟨4, false⟩]]
      (by decide)).1 2 (by decide),
    ((C20_getStateVarIndex 10 [[⟨0, false⟩, ⟨1, true⟩], [⟨2, false⟩, ⟨3, true⟩, ⟨4, false⟩]]
      (by decide)).2.2 ⟨3, true⟩ (by decide) rfl).2⟩

/-! ### The optimizer on indented lines: `PUSHINT 1; ADD` -/

namespace TVMOptimizer

theorem dropWhile_is_space_append (p body : List Char) (hp : ∀ c ∈ p, is_space c = true) :
    (p ++ body).dropWhile is_space = body.dropWhile is_space := by
  induction p with
  | nil => rfl
  | cons a r ih =>
    have ha := hp a (List.mem_cons_self _ _)
    rw [List.cons_append, List.dropWhile_cons, ha]
    exact ih (fun c hc => hp c (List.mem_cons_of_mem _ hc))

theorem takeWhile_is_space_append (p body : List Char) (hp : ∀ c ∈ p, is_space c = true) :
    (p ++ body).takeWhile is_space = p ++ body.takeWhile is_space := by
  induction p with
  | nil => rfl
  | cons a r ih =>
    have ha := hp a (List.mem_cons_self _ _)
    rw [List.cons_append, List.takeWhile_cons, ha]
    simp only [if_true, List.cons_append, List.cons.injEq, true_and]
    exact ih (fun c hc => hp c (List.mem_cons_of_mem _ hc))

theorem is_comment_or_empty_line_indent (p s : String) (hp : ∀ c ∈ p.data, is_space c = true) :
    is_comment_or_empty_line (p ++ s) = is_comment_or_empty_line s := by
  unfold is_comment_or_empty_line
  rw [String.data_append, dropWhile_is_space_append _ _ hp]

theorem analyze_prefix (q q0 cm rs co : String) (b : Bool) (i o : Int) :
    Cmd.analyze ⟨q, cm, rs, co, b, i, o⟩
      = (Cmd.analyze ⟨q0, cm, rs, co, b, i, o⟩).map fun d => { d with prefix_ := q } := by
  unfold Cmd.analyze
  dsimp only [Cmd.is, Cmd.fetch_int]
  simp only [apply_ite (Option.map _), Option.map_some', Option.map_map]
  rfl

theorem ofString_indent (p s : String) (hp : ∀ c ∈ p.data, is_space c = true) :
    Cmd.ofString (p ++ s)
      = (Cmd.ofString s).map fun d =>
          { d with prefix_ := p ++ String.mk (s.data.takeWhile is_space) } := by
  unfold Cmd.ofString
  simp only [String.data_append, dropWhile_is_space_append _ _ hp,
    takeWhile_is_space_append _ _ hp]
  exact analyze_prefix _ _ _ _ _ _ _ _

theorem string_append_empty (p : String) : p ++ "" = p := by
  apply String.ext
  simp

theorem ofString_indent_INC (p : String) (hp : ∀ c ∈ p.data, is_space c = true) :
    Cmd.ofString (p ++ "INC") = some ⟨p, "INC", "", "", true, 1, 1⟩ := by
  rw [ofString_indent p _ hp]
  have h : Cmd.ofString "INC" = some ⟨"", "INC", "", "", true, 1, 1⟩ := by decide
  have h2 : String.mk ("INC".data.takeWhile is_space) = "" := by decide
  rw [h, h2, string_append_empty]
  rfl

theorem ofString_empty : Cmd.ofString "" = some ⟨"", "", "", "", false, 0, 0⟩ := by decide

theorem window_INC (p : String) (hp : ∀ c ∈ p.data, is_space c = true) :
    Window.at [p ++ "INC"] 0 = some ⟨[p ++ "INC"], 0, -1, -1, -1, -1, -1,
      ⟨p, "INC", "", "", true, 1, 1⟩, ⟨"", "", "", "", false, 0, 0⟩,
      ⟨"", "", "", "", false, 0, 0⟩, ⟨"", "", "", "", false, 0, 0⟩,
      ⟨"", "", "", "", false, 0, 0⟩, ⟨"", "", "", "", false, 0, 0⟩⟩ := by
  have n0 : next_command_line [p ++ "INC"] 0 = -1 := by
    simp [next_command_line, valid, firstCommandFrom]
  have n1 : next_command_line [p ++ "INC"] (-1) = -1 := by
    simp [next_command_line, valid]
  have c0 : cmd [p ++ "INC"] 0 = some ⟨p, "INC", "", "", true, 1, 1⟩ := by
    simp [cmd, valid, lineAt, ofString_indent_INC p hp]
  have c1 : cmd [p ++ "INC"] (-1) = some ⟨"", "", "", "", false, 0, 0⟩ := by
    simp [cmd, valid, ofString_empty]
  simp only [Window.at, n0, n1, c0, c1]

theorem firstRule_INC (tc : TvmConst) (p : String) (hp : ∀ c ∈ p.data, is_space c = true) :
    optimize_at tc [p ++ "INC"] 0 = some ⟨false, 0, []⟩ := by
  have c0 : cmd [p ++ "INC"] 0 = some ⟨p, "INC", "", "", true, 1, 1⟩ := by
    simp [cmd, valid, lineAt, ofString_indent_INC p hp]
  have hsim : ∀ w : Window, w.lines_ = [p ++ "INC"] →
      simulateRule w 0 1 0 ["DROP"] = miss := by
    intro w hw
    simp [simulateRule, try_simulate, hw, try_simulate_loop, c0, valid, Cmd.is_PUSH, Cmd.is,
      Cmd.is_POP, Cmd.is_NIP, Cmd.get_drop_index, Cmd.is_DROP, miss]
  unfold optimize_at
  rw [window_INC p hp]
  simp only [rules, firstRule]
  simp [rule396, rule403, rule412, rule426, rule431, rule434, rule443, rule452, rule459, rule476, rule479, rule490, rule501, rule508, rule517, rule523, rule528, rule531, rule537, rule548, rule555, rule562, rule569, rule576, rule590, rule597, rule600, rule603, rule606, rule612, rule618, rule623, rule628, rule632, rule636, rule640, rule666, rule669, rule672, rule676, rule688, rule698, rule709, rule716, rule725, rule735, rule740, rule744, rule749, rule752, rule757, rule764, rule769, rule773, rule777, rule787, rule795, rule803, rule817, rule821, rule833, rule843, rule855, rule864, rule874, rule886, rule897, rule909, rule914, rule918, rule928, rule935, rule945, rule950, rule966, rule984, rule1001, rule1013, rule1031, rule1044, rule1052, rule1073, rule1093, rule1105, rule1120, rule1130, rule1137, miss, hit, Cmd.is, Cmd.is_SWAP, Cmd.is_PUSHINT, Cmd.is_PUSH, Cmd.is_POP,
    Cmd.is_DUP, Cmd.is_NIP, Cmd.is_DROP, Cmd.is_ADD, Cmd.is_SUB, Cmd.is_MUL, Cmd.is_DIV,
    Cmd.isBLKSWAP, Cmd.is_const_add, Cmd.is_commutative, Cmd.is_add_or_sub,
    Cmd.get_drop_index, Cmd.is_drop_kind, Cmd.is_simple_command, Cmd.get_push_index,
    Cmd.get_pop_index, Cmd.get_add_num, isPushintOf, isSmallIndex, oneSlice, hsim]

theorem optimize_at_INC (tc : TvmConst) (lines_ : List String) (idx1 : Int) (w : Window)
    (hw : Window.at lines_ idx1 = some w)
    (h1 : w.cmd1.cmd_ = "PUSHINT") (h1r : w.cmd1.rest_ = "1") (h2 : w.cmd2.cmd_ = "ADD")
    (h34 : ¬ (w.cmd3.is_PUSHINT = true ∧ w.cmd4.is_add_or_sub = true)) :
    optimize_at tc lines_ idx1 = some (Result.Replace 2 ["INC"]) := by
  unfold optimize_at
  rw [hw]
  have e1 : rule396 w = miss := by
    simp [rule396, Cmd.is_SWAP, Cmd.is, h1]
  have hp1 : w.cmd1.is_PUSHINT = true := by
    simp [Cmd.is_PUSHINT, Cmd.is, h1, h1r]
    decide
  have hadd : w.cmd2.is_ADD = true := by simp [Cmd.is_ADD, Cmd.is, h2]
  have e2 : rule403 w = miss := by
    unfold rule403
    by_cases h3 : w.cmd3.is_PUSHINT = true
    · have h4 : w.cmd4.is_add_or_sub = false := by
        cases h : w.cmd4.is_add_or_sub
        · rfl
        · exact absurd ⟨h3, h⟩ h34
      simp [h4]
    · simp [h3]
  have e3 : rule412 w = hit 2 ["INC"] := by
    unfold rule412
    simp [hp1, Cmd.rest, h1r, hadd]
  simp only [rules, firstRule, e1, e2, e3, miss, hit, Result.Replace]

theorem updateLines_false (lines_ : List String) (idx1 : Int) :
    updateLines lines_ idx1 ⟨false, 0, []⟩ = some (false, idx1, lines_) := by
  simp [updateLines, linesToRemove]

theorem ofString_indent_PUSHINT_1 (p : String) (hp : ∀ c ∈ p.data, is_space c = true) :
    Cmd.ofString (p ++ "PUSHINT 1") = some ⟨p, "PUSHINT", "1", "", true, 0, 1⟩ := by
  rw [ofString_indent p _ hp]
  have h : Cmd.ofString "PUSHINT 1" = some ⟨"", "PUSHINT", "1", "", true, 0, 1⟩ := by decide
  have h2 : String.mk ("PUSHINT 1".data.takeWhile is_space) = "" := by decide
  rw [h, h2, string_append_empty]
  rfl

theorem ofString_indent_ADD (p : String) (hp : ∀ c ∈ p.data, is_space c = true) :
    Cmd.ofString (p ++ "ADD") = some ⟨p, "ADD", "", "", true, 2, 1⟩ := by
  rw [ofString_indent p _ hp]
  have h : Cmd.ofString "ADD" = some ⟨"", "ADD", "", "", true, 2, 1⟩ := by decide
  have h2 : String.mk ("ADD".data.takeWhile is_space) = "" := by decide
  rw [h, h2, string_append_empty]
  rfl

theorem optimize_code_PUSHINT_1_ADD (tc : TvmConst) (p : String)
    (hp : ∀ c ∈ p.data, is_space c = true) (fuel : Nat) :
    optimize_code tc (fuel + 3) [p ++ "PUSHINT 1", p ++ "ADD"] = some [p ++ "INC"] := by
  have hcA : is_comment_or_empty_line (p ++ "ADD") = false := by
    rw [is_comment_or_empty_line_indent p _ hp]; decide
  have hcI : is_comment_or_empty_line (p ++ "INC") = false := by
    rw [is_comment_or_empty_line_indent p _ hp]; decide
  have n0 : next_command_line [p ++ "PUSHINT 1", p ++ "ADD"] 0 = 1 := by
    simp [next_command_line, valid, firstCommandFrom, hcA]
  have n1 : next_command_line [p ++ "PUSHINT 1", p ++ "ADD"] 1 = -1 := by
    simp [next_command_line, valid, firstCommandFrom]
  have nm : next_command_line [p ++ "PUSHINT 1", p ++ "ADD"] (-1) = -1 := by
    simp [next_command_line, valid]
  have m0 : next_command_line [p ++ "INC"] 0 = -1 := by
    simp [next_command_line, valid, firstCommandFrom]
  have c0 : cmd [p ++ "PUSHINT 1", p ++ "ADD"] 0 = some ⟨p, "PUSHINT", "1", "", true, 0, 1⟩ := by
    simp [cmd, valid, lineAt, ofString_indent_PUSHINT_1 p hp]
  have c1 : cmd [p ++ "PUSHINT 1", p ++ "ADD"] 1 = some ⟨p, "ADD", "", "", true, 2, 1⟩ := by
    simp [cmd, valid, lineAt, ofString_indent_ADD p hp]
  have cm : cmd [p ++ "PUSHINT 1", p ++ "ADD"] (-1) = some ⟨"", "", "", "", false, 0, 0⟩ := by
    simp [cmd, valid, ofString_empty]
  have d0 : cmd [p ++ "INC"] 0 = some ⟨p, "INC", "", "", true, 1, 1⟩ := by
    simp [cmd, valid, lineAt, ofString_indent_INC p hp]
  have dm : cmd [p ++ "INC"] (-1) = some ⟨"", "", "", "", false, 0, 0⟩ := by
    simp [cmd, valid, ofString_empty]
  have u0 : unsquash_push [p ++ "PUSHINT 1", p ++ "ADD"] 0 = some ⟨false, 0, []⟩ := by
    simp [unsquash_push, c0, Cmd.is]
  have u1 : unsquash_push [p ++ "PUSHINT 1", p ++ "ADD"] 1 = some ⟨false, 0, []⟩ := by
    simp [unsquash_push, c1, Cmd.is]
  have pass1 : optimize unsquash_push (fuel + 3) [p ++ "PUSHINT 1", p ++ "ADD"]
      = some [p ++ "PUSHINT 1", p ++ "ADD"] := by
    simp [optimize, optimizeLoop, u0, u1, updateLines_false, n0, n1, valid]
  have w0 : Window.at [p ++ "PUSHINT 1", p ++ "ADD"] 0
      = some ⟨[p ++ "PUSHINT 1", p ++ "ADD"], 0, 1, -1, -1, -1, -1,
          ⟨p, "PUSHINT", "1", "", true, 0, 1⟩, ⟨p, "ADD", "", "", true, 2, 1⟩,
          ⟨"", "", "", "", false, 0, 0⟩, ⟨"", "", "", "", false, 0, 0⟩,
          ⟨"", "", "", "", false, 0, 0⟩, ⟨"", "", "", "", false, 0, 0⟩⟩ := by
    simp only [Window.at, n0, n1, nm, c0, c1, cm]
  have o0 : optimize_at tc [p ++ "PUSHINT 1", p ++ "ADD"] 0 = some ⟨true, 2, ["INC"]⟩ :=
    optimize_at_INC tc _ 0 _ w0 rfl rfl rfl (by simp [Cmd.is_PUSHINT, Cmd.is])
  have up : updateLines [p ++ "PUSHINT 1", p ++ "ADD"] 0 ⟨true, 2, ["INC"]⟩
      = some (true, 0, [p ++ "INC"]) := by
    simp [updateLines, linesToRemove, n0, valid, lineAt, ofString_indent_PUSHINT_1 p hp,
      ofString_indent_ADD p hp, shortestPrefix, insertCommands, insert, remove, stepBack]
  have o1 : optimize_at tc [p ++ "INC"] 0 = some ⟨false, 0, []⟩ := firstRule_INC tc p hp
  have pass2 : optimize (optimize_at tc) (fuel + 3) [p ++ "PUSHINT 1", p ++ "ADD"]
      = some [p ++ "INC"] := by
    simp [optimize, optimizeLoop, o0, up, o1, updateLines_false, m0, valid]
  have pass3 : optimize (optimize_at tc) (fuel + 3) [p ++ "INC"] = some [p ++ "INC"] := by
    simp [optimize, optimizeLoop, o1, updateLines_false, m0, valid]
  have mm : next_command_line [p ++ "INC"] (-1) = -1 := by
    simp [next_command_line, valid]
  have s0 : squash_push [p ++ "INC"] 0 = some ⟨false, 0, []⟩ := by
    simp [squash_push, m0, mm, d0, dm, squash3, squash2, squashBlkpush, Cmd.is_PUSH, Cmd.is, miss]
  have pass4 : optimize squash_push (fuel + 3) [p ++ "INC"] = some [p ++ "INC"] := by
    simp [optimize, optimizeLoop, s0, updateLines_false, m0, valid]
  simp [optimize_code, pass1, pass2, pass3, pass4]

end TVMOptimizer

/-- C17 (counterexample): at position 0 of the log `PUSHINT 1; ADD; TUPLE x` the command is
`PUSHINT 1`, the next one is `ADD`, the third line is not a `PUSHINT`, and `optimize_at`
throws instead of returning a rewrite: the constructor of `cmd3` fails in `analyze`. -/
theorem C17_counterexample :
    TVMOptimizer.cmd ["PUSHINT 1", "ADD", "TUPLE x"] 0
        = some ⟨"", "PUSHINT", "1", "", true, 0, 1⟩ ∧
      TVMOptimizer.cmd ["PUSHINT 1", "ADD", "TUPLE x"]
          (TVMOptimizer.next_command_line ["PUSHINT 1", "ADD", "TUPLE x"] 0)
        = some ⟨"", "ADD", "", "", true, 2, 1⟩ ∧
      TVMOptimizer.lineAt ["PUSHINT 1", "ADD", "TUPLE x"] 2 = "TUPLE x" ∧
      TVMOptimizer.optimize_at sampleTvmConst ["PUSHINT 1", "ADD", "TUPLE x"] 0 = none := by
  refine ⟨by decide, by decide, by decide, ?_⟩
  have h : TVMOptimizer.Window.at ["PUSHINT 1", "ADD", "TUPLE x"] 0 = none := by rfl
  unfold TVMOptimizer.optimize_at
  rw [h]

/-- C17 (amended): for every prefix `p` of blanks and tabs, `optimize_code` (with fuel for
three iterations of each pass) returns `[p ++ "INC"]` on the log
`[p ++ "PUSHINT 1", p ++ "ADD"]`; and at every position where the six commands read by
`optimize_at` are constructed without error, the first is `PUSHINT 1`, the second `ADD`, and
the third and fourth are not a `PUSHINT` followed by `ADD` or `SUB`, `optimize_at` returns
`Result::Replace(2, "INC")`. -/
theorem C17_pushint_one_add (tc : TVMOptimizer.TvmConst) :
    (∀ p : String, (∀ c ∈ p.data, TVMOptimizer.is_space c = true) → ∀ fuel : Nat,
      TVMOptimizer.optimize_code tc (fuel + 3) [p ++ "PUSHINT 1", p ++ "ADD"]
        = some [p ++ "INC"]) ∧
    (∀ (lines_ : List String) (idx1 : Int) (w : TVMOptimizer.Window),
      TVMOptimizer.Window.at lines_ idx1 = some w →
      w.cmd1.cmd_ = "PUSHINT" → w.cmd1.rest_ = "1" → w.cmd2.cmd_ = "ADD" →
      ¬ (w.cmd3.is_PUSHINT = true ∧ w.cmd4.is_add_or_sub = true) →
      TVMOptimizer.optimize_at tc lines_ idx1
        = some (TVMOptimizer.Result.Replace 2 ["INC"])) :=
  ⟨fun p hp fuel => TVMOptimizer.optimize_code_PUSHINT_1_ADD tc p hp fuel,
    fun lines_ idx1 w hw h1 h1r h2 h34 =>
      TVMOptimizer.optimize_at_INC tc lines_ idx1 w hw h1 h1r h2 h34⟩

/-- C17 at a line indented by two tabs, and at position 1 of a four-line log. -/
theorem C17_pushint_one_add_witness :
    (∀ c ∈ ("\t\t" : String).data, TVMOptimizer.is_space c = true) ∧
      TVMOptimizer.optimize_code sampleTvmConst 3 ["\t\t" ++ "PUSHINT 1", "\t\t" ++ "ADD"]
        = some ["\t\t" ++ "INC"] ∧
      TVMOptimizer.optimize_at sampleTvmConst ["NEWC", "PUSHINT 1", "ADD", "PUSHINT 2"] 1
        = some (TVMOptimizer.Result.Replace 2 ["INC"]) :=
  ⟨by decide,
    (C17_pushint_one_add sampleTvmConst).1 "\t\t" (by decide) 0,
    (C17_pushint_one_add sampleTvmConst).2 ["NEWC", "PUSHINT 1", "ADD", "PUSHINT 2"] 1
      ⟨["NEWC", "PUSHINT 1", "ADD", "PUSHINT 2"], 1, 2, 3, -1, -1, -1,
        ⟨"", "PUSHINT", "1", "", true, 0, 1⟩, ⟨"", "ADD", "", "", true, 2, 1⟩,
        ⟨"", "PUSHINT", "2", "", true, 0, 1⟩, ⟨"", "", "", "", false, 0, 0⟩,
        ⟨"", "", "", "", false, 0, 0⟩, ⟨"", "", "", "", false, 0, 0⟩⟩
      (by rfl) rfl rfl rfl (by decide)⟩

/-! ### The driver: logs without rewrites, and fuel -/

namespace TVMOptimizer

theorem firstCommandFrom_spec (ls : List String) :
    ∀ i : Int, firstCommandFrom ls i = -1 ∨
      (i ≤ firstCommandFrom ls i ∧ firstCommandFrom ls i < i + ls.length) := by
  induction ls with
  | nil => intro i; left; rfl
  | cons l rest ih =>
    intro i
    unfold firstCommandFrom
    by_cases h : is_comment_or_empty_line l = true
    · rw [if_neg (not_not.mpr h)]
      rcases ih (i + 1) with h1 | ⟨h1, h2⟩
      · left; exact h1
      · right
        refine ⟨by omega, ?_⟩
        rw [List.length_cons]
        push_cast
        omega
    · rw [if_pos h]
      right
      refine ⟨le_refl _, ?_⟩
      rw [List.length_cons]
      push_cast
      omega

theorem next_command_line_spec (lines_ : List String) (idx : Int) :
    next_command_line lines_ idx = -1 ∨
      (idx < next_command_line lines_ idx ∧ valid lines_ (next_command_line lines_ idx) = true ∧
        valid lines_ idx = true) := by
  unfold next_command_line
  by_cases hv : valid lines_ idx = true
  · simp only [hv, not_true_eq_false, if_false]
    have hv2 := hv
    simp only [valid, Bool.and_eq_true, decide_eq_true_eq] at hv2
    rcases firstCommandFrom_spec (lines_.drop (idx + 1).toNat) (idx + 1) with h | ⟨h1, h2⟩
    · left; exact h
    · right
      refine ⟨by omega, ?_, trivial⟩
      simp only [valid, Bool.and_eq_true, decide_eq_true_eq]
      rw [List.length_drop] at h2
      omega
  · left
    simp [hv]

theorem optimizeLoop_normal (f : List String → Int → Option Result) (lines_ : List String)
    (hf : ∀ i : Nat, i < lines_.length → f lines_ (i : Int) = some ⟨false, 0, []⟩) :
    ∀ (fuel : Nat) (idx : Int),
      (valid lines_ idx = false ∨ (lines_.length : Int) ≤ fuel + idx) →
      optimizeLoop f (fuel + 1) lines_ idx = some lines_ := by
  intro fuel
  induction fuel with
  | zero =>
    intro idx h
    unfold optimizeLoop
    by_cases hv : valid lines_ idx = true
    · exfalso
      have hv2 := hv
      simp only [valid, Bool.and_eq_true, decide_eq_true_eq] at hv2
      rcases h with h | h
      · rw [hv] at h; cases h
      · push_cast at h; omega
    · simp [hv]
  | succ n ih =>
    intro idx h
    unfold optimizeLoop
    by_cases hv : valid lines_ idx = true
    · have hv2 := hv
      simp only [valid, Bool.and_eq_true, decide_eq_true_eq] at hv2
      have hidx : ((idx.toNat : Nat) : Int) = idx := Int.toNat_of_nonneg hv2.1
      have hfi := hf idx.toNat (by omega)
      rw [hidx] at hfi
      simp only [hv, if_true, hfi, updateLines_false]
      apply ih
      rcases next_command_line_spec lines_ idx with h1 | ⟨h1, h2, _⟩
      · left
        rw [h1]
        simp [valid]
      · right
        rcases h with h | h
        · rw [hv] at h; cases h
        · push_cast at h ⊢; omega
    · simp [hv]

theorem optimize_normal (f : List String → Int → Option Result) (lines_ : List String)
    (hf : ∀ i : Nat, i < lines_.length → f lines_ (i : Int) = some ⟨false, 0, []⟩)
    (fuel : Nat) (hfuel : lines_.length < fuel) :
    optimize f fuel lines_ = some lines_ := by
  unfold optimize
  obtain ⟨n, rfl⟩ : ∃ n, fuel = n + 1 := ⟨fuel - 1, by omega⟩
  apply optimizeLoop_normal f lines_ hf
  right
  omega

theorem optimizeLoop_mono (f : List String → Int → Option Result) :
    ∀ (fuel : Nat) (lines_ : List String) (idx : Int) (r : List String),
      optimizeLoop f fuel lines_ idx = some r →
      ∀ more : Nat, optimizeLoop f (fuel + more) lines_ idx = some r := by
  intro fuel
  induction fuel with
  | zero => intro lines_ idx r h; simp [optimizeLoop] at h
  | succ n ih =>
    intro lines_ idx r h more
    have e : n + 1 + more = (n + more) + 1 := by omega
    rw [e]
    unfold optimizeLoop at h ⊢
    by_cases hv : valid lines_ idx = true
    · simp only [hv, if_true] at h ⊢
      cases hfr : f lines_ idx with
      | none => rw [hfr] at h; cases h
      | some res =>
        rw [hfr] at h
        simp only at h ⊢
        cases hu : updateLines lines_ idx res with
        | none => rw [hu] at h; cases h
        | some t =>
          obtain ⟨b, i2, l2⟩ := t
          rw [hu] at h
          cases b
          · exact ih _ _ _ h more
          · exact ih _ _ _ h more
    · simp only [hv] at h ⊢
      exact h

theorem optimize_code_mono (tc : TvmConst) (fuel : Nat) (code0 r : List String)
    (h : optimize_code tc fuel code0 = some r) (more : Nat) :
    optimize_code tc (fuel + more) code0 = some r := by
  unfold optimize_code optimize at h ⊢
  cases h1 : optimizeLoop unsquash_push fuel code0 0 with
  | none => rw [h1] at h; cases h
  | some l1 =>
    rw [h1] at h
    rw [optimizeLoop_mono _ _ _ _ _ h1 more]
    simp only [Option.some_bind] at h ⊢
    cases h2 : optimizeLoop (optimize_at tc) fuel l1 0 with
    | none => rw [h2] at h; cases h
    | some l2 =>
      rw [h2] at h
      rw [optimizeLoop_mono _ _ _ _ _ h2 more]
      simp only [Option.some_bind] at h ⊢
      cases h3 : optimizeLoop (optimize_at tc) fuel l2 0 with
      | none => rw [h3] at h; cases h
      | some l3 =>
        rw [h3] at h
        rw [optimizeLoop_mono _ _ _ _ _ h3 more]
        simp only [Option.some_bind] at h ⊢
        exact optimizeLoop_mono _ _ _ _ _ h more

end TVMOptimizer

namespace TVMOptimizer

theorem optimizeLoop_step (f : List String → Int → Option Result) (n : Nat)
    (lines_ : List String) (idx1 : Int) (lines1 : List String) (idx1a : Int)
    (h : driverStep f lines_ idx1 = some (lines1, idx1a)) :
    optimizeLoop f (n + 1) lines_ idx1 = optimizeLoop f n lines1 idx1a := by
  unfold driverStep at h
  rw [optimizeLoop]
  by_cases hv : valid lines_ idx1 = true
  · rw [if_pos hv] at h ⊢
    cases hf : f lines_ idx1 with
    | none => rw [hf] at h; cases h
    | some res =>
      rw [hf] at h
      simp only at h ⊢
      cases hu : updateLines lines_ idx1 res with
      | none => rw [hu] at h; cases h
      | some r =>
        obtain ⟨b, ia, l1⟩ := r
        rw [hu] at h
        cases b
        · simp only [Option.some.injEq, Prod.mk.injEq] at h
          obtain ⟨rfl, rfl⟩ := h
          rfl
        · simp only [Option.some.injEq, Prod.mk.injEq] at h
          obtain ⟨rfl, rfl⟩ := h
          rfl
  · rw [if_neg hv] at h; cases h

theorem optimizeLoop_steps (f : List String → Int → Option Result) (n : Nat) :
    ∀ (count : Nat) (lines_ : List String) (idx1 : Int) (lines1 : List String) (idx1a : Int),
      driverSteps f count lines_ idx1 = some (lines1, idx1a) →
      optimizeLoop f (n + count) lines_ idx1 = optimizeLoop f n lines1 idx1a
  | 0, lines_, idx1, lines1, idx1a, h => by
    simp only [driverSteps, Option.some.injEq, Prod.mk.injEq] at h
    obtain ⟨rfl, rfl⟩ := h
    rfl
  | count + 1, lines_, idx1, lines1, idx1a, h => by
    simp only [driverSteps] at h
    cases hs : driverStep f lines_ idx1 with
    | none => rw [hs] at h; cases h
    | some r =>
      obtain ⟨l2, i2⟩ := r
      rw [hs] at h
      simp only at h
      rw [← Nat.add_assoc, optimizeLoop_step f (n + count) lines_ idx1 l2 i2 hs]
      exact optimizeLoop_steps f n count l2 i2 lines1 idx1a h

theorem driverSteps_append (f : List String → Int → Option Result) :
    ∀ (a b : Nat) (lines_ : List String) (idx1 : Int) (lines1 : List String) (idx1a : Int)
      (lines2 : List String) (idx1b : Int),
      driverSteps f a lines_ idx1 = some (lines1, idx1a) →
      driverSteps f b lines1 idx1a = some (lines2, idx1b) →
      driverSteps f (b + a) lines_ idx1 = some (lines2, idx1b)
  | 0, b, lines_, idx1, lines1, idx1a, lines2, idx1b, h1, h2 => by
    simp only [driverSteps, Option.some.injEq, Prod.mk.injEq] at h1
    obtain ⟨rfl, rfl⟩ := h1
    exact h2
  | a + 1, b, lines_, idx1, lines1, idx1a, lines2, idx1b, h1, h2 => by
    simp only [driverSteps] at h1
    rw [← Nat.add_assoc]
    simp only [driverSteps]
    cases hs : driverStep f lines_ idx1 with
    | none => rw [hs] at h1; cases h1
    | some r =>
      obtain ⟨l3, i3⟩ := r
      rw [hs] at h1
      simp only at h1 ⊢
      exact driverSteps_append f a b l3 i3 lines1 idx1a lines2 idx1b h1 h2

theorem optimizeLoop_done (f : List String → Int → Option Result) (n : Nat)
    (lines_ : List String) (idx1 : Int) (hv : valid lines_ idx1 = false) :
    optimizeLoop f (n + 1) lines_ idx1 = some lines_ := by
  rw [optimizeLoop]
  simp [hv]

theorem optimize_of_steps (f : List String → Int → Option Result) (count more : Nat)
    (lines_ lines1 : List String) (idx1a : Int)
    (h : driverSteps f count lines_ 0 = some (lines1, idx1a))
    (hv : valid lines1 idx1a = false) :
    optimize f (more + 1 + count) lines_ = some lines1 := by
  unfold optimize
  rw [optimizeLoop_steps f (more + 1) count lines_ 0 lines1 idx1a h, optimizeLoop]
  simp [hv]

/-! The two runs of the counterexample to idempotence, pass by pass; the parts are runs
of a few iterations of the loop of `optimize`. -/

set_option maxRecDepth 1000000 in
set_option maxHeartbeats 4000000 in
theorem nonIdempotent_first_unsquash_part0 :
    driverSteps unsquash_push 30
      ["PUSHINT 7", "NOW", "NOT", "NOT", "NOT", "NOT", "NOT", "NOT", "NOT", "NOT", "NOT",
       "SETGLOB 1", "NOW", "SWAP", "NOW", "NOT", "NOT", "NOT", "NOT", "NOT", "NOT", "NOT", "NOT",
       "NOT", "SETGLOB 1", "NOW", "POP S2", "SWAP", "SETGLOB 3", "DROP"] 0
      = some (
        ["PUSHINT 7", "NOW", "NOT", "NOT", "NOT", "NOT", "NOT", "NOT", "NOT", "NOT", "NOT",
         "SETGLOB 1", "NOW", "SWAP", "NOW", "NOT", "NOT", "NOT", "NOT", "NOT", "NOT", "NOT", "NOT",
         "NOT", "SETGLOB 1", "NOW", "POP S2", "SWAP", "SETGLOB 3", "DROP"], -1) := by
  decide!

theorem nonIdempotent_first_unsquash :
    optimize unsquash_push 100
      ["PUSHINT 7", "NOW", "NOT", "NOT", "NOT", "NOT", "NOT", "NOT", "NOT", "NOT", "NOT",
       "SETGLOB 1", "NOW", "SWAP", "NOW", "NOT", "NOT", "NOT", "NOT", "NOT", "NOT", "NOT", "NOT",
       "NOT", "SETGLOB 1", "NOW", "POP S2", "SWAP", "SETGLOB 3", "DROP"]
      = some
        ["PUSHINT 7", "NOW", "NOT", "NOT", "NOT", "NOT", "NOT", "NOT", "NOT", "NOT", "NOT",
         "SETGLOB 1", "NOW", "SWAP", "NOW", "NOT", "NOT", "NOT", "NOT", "NOT", "NOT", "NOT", "NOT",
         "NOT", "SETGLOB 1", "NOW", "POP S2", "SWAP", "SETGLOB 3", "DROP"] := by
  unfold optimize
  rw [show (100 : Nat) = 69 + 1 + 30 from rfl,
    optimizeLoop_steps _ _ _ _ _ _ _ nonIdempotent_first_unsquash_part0,
    optimizeLoop_done _ _ _ _ (by decide)]

set_option maxRecDepth 1000000 in
set_option maxHeartbeats 4000000 in
theorem nonIdempotent_first_rewriteA_part0 :
    driverSteps (optimize_at sampleTvmConst) 6
      ["PUSHINT 7", "NOW", "NOT", "NOT", "NOT", "NOT", "NOT", "NOT", "NOT", "NOT", "NOT",
       "SETGLOB 1", "NOW", "SWAP", "NOW", "NOT", "NOT", "NOT", "NOT", "NOT", "NOT", "NOT", "NOT",
       "NOT", "SETGLOB 1", "NOW", "POP S2", "SWAP", "SETGLOB 3", "DROP"] 0
      = some (
        ["PUSHINT 7", "NOW", "NOT", "NOT", "NOT", "NOT", "NOT", "NOT", "NOT", "NOT", "NOT",
         "SETGLOB 1", "NOW", "SWAP", "NOW", "NOT", "NOT", "NOT", "NOT", "NOT", "NOT", "NOT", "NOT",
         "NOT", "SETGLOB 1", "NOW", "POP S2", "SWAP", "SETGLOB 3", "DROP"], 6) := by
  decide!

set_option maxRecDepth 1000000 in
set_option maxHeartbeats 4000000 in
theorem nonIdempotent_first_rewriteA_part1 :
    driverSteps (optimize_at sampleTvmConst) 6
      ["PUSHINT 7", "NOW", "NOT", "NOT", "NOT", "NOT", "NOT", "NOT", "NOT", "NOT", "NOT",
       "SETGLOB 1", "NOW", "SWAP", "NOW", "NOT", "NOT", "NOT", "NOT", "NOT", "NOT", "NOT", "NOT",
       "NOT", "SETGLOB 1", "NOW", "POP S2", "SWAP", "SETGLOB 3", "DROP"] 6
      = some (
        ["PUSHINT 7", "NOW", "NOT", "NOT", "NOT", "NOT", "NOT", "NOT", "NOT", "NOT", "NOT",
         "SETGLOB 1", "NOW", "SWAP", "NOW", "NOT", "NOT", "NOT", "NOT", "NOT", "NOT", "NOT", "NOT",
         "NOT", "SETGLOB 1", "NOW", "POP S2", "SWAP", "SETGLOB 3", "DROP"], 12) := by
  decide!

set_option maxRecDepth 1000000 in
set_option maxHeartbeats 4000000 in
theorem nonIdempotent_first_rewriteA_part2 :
    driverSteps (optimize_at sampleTvmConst) 6
      ["PUSHINT 7", "NOW", "NOT", "NOT", "NOT", "NOT", "NOT", "NOT", "NOT", "NOT", "NOT",
       "SETGLOB 1", "NOW", "SWAP", "NOW", "NOT", "NOT", "NOT", "NOT", "NOT", "NOT", "NOT", "NOT",
       "NOT", "SETGLOB 1", "NOW", "POP S2", "SWAP", "SETGLOB 3", "DROP"] 12
      = some (
        ["PUSHINT 7", "NOW", "NOT", "NOT", "NOT", "NOT", "NOT", "NOT", "NOT", "NOT", "NOT",
         "SETGLOB 1", "NOW", "SWAP", "NOW", "NOT", "NOT", "NOT", "NOT", "NOT", "NOT", "NOT", "NOT",
         "NOT", "SETGLOB 1", "NOW", "POP S2", "SWAP", "SETGLOB 3", "DROP"], 18) := by
  decide!

set_option maxRecDepth 1000000 in
set_option maxHeartbeats 4000000 in
theorem nonIdempotent_first_rewriteA_part3 :
    driverSteps (optimize_at sampleTvmConst) 6
      ["PUSHINT 7", "NOW", "NOT", "NOT", "NOT", "NOT", "NOT", "NOT", "NOT", "NOT", "NOT",
       "SETGLOB 1", "NOW", "SWAP", "NOW", "NOT", "NOT", "NOT", "NOT", "NOT", "NOT", "NOT", "NOT",
       "NOT", "SETGLOB 1", "NOW", "POP S2", "SWAP", "SETGLOB 3", "DROP"] 18
      = some (
        ["PUSHINT 7", "NOW", "NOT", "NOT", "NOT", "NOT", "NOT", "NOT", "NOT", "NOT", "NOT",
         "SETGLOB 1", "NOW", "SWAP", "NOW", "NOT", "NOT", "NOT", "NOT", "NOT", "NOT", "NOT", "NOT",
         "NOT", "SETGLOB 1", "NOW", "POP S2", "SWAP", "SETGLOB 3", "DROP"], 24) := by
  decide!

set_option maxRecDepth 1000000 in
set_option maxHeartbeats 4000000 in
theorem nonIdempotent_first_rewriteA_part4 :
    driverSteps (optimize_at sampleTvmConst) 6
      ["PUSHINT 7", "NOW", "NOT", "NOT", "NOT", "NOT", "NOT", "NOT", "NOT", "NOT", "NOT",
       "SETGLOB 1", "NOW", "SWAP", "NOW", "NOT", "NOT", "NOT", "NOT", "NOT", "NOT", "NOT", "NOT",
       "NOT", "SETGLOB 1", "NOW", "POP S2", "SWAP", "SETGLOB 3", "DROP"] 24
      = some (
        ["PUSHINT 7", "NOW", "NOT", "NOT", "NOT", "NOT", "NOT", "NOT", "NOT", "NOT", "NOT",
         "SETGLOB 1", "NOW", "SWAP", "NOW", "NOT", "NOT", "NOT", "NOT", "NOT", "NOT", "NOT", "NOT",
         "NOT", "SETGLOB 1", "NOW", "SETGLOB 3", "NIP", "DROP"], 19) := by
  decide!

set_option maxRecDepth 1000000 in
set_option maxHeartbeats 4000000 in
theorem nonIdempotent_first_rewriteA_part5 :
    driverSteps (optimize_at sampleTvmConst) 6
      ["PUSHINT 7", "NOW", "NOT", "NOT", "NOT", "NOT", "NOT", "NOT", "NOT", "NOT", "NOT",
       "SETGLOB 1", "NOW", "SWAP", "NOW", "NOT", "NOT", "NOT", "NOT", "NOT", "NOT", "NOT", "NOT",
       "NOT", "SETGLOB 1", "NOW", "SETGLOB 3", "NIP", "DROP"] 19
      = some (
        ["PUSHINT 7", "NOW", "NOT", "NOT", "NOT", "NOT", "NOT", "NOT", "NOT", "NOT", "NOT",
         "SETGLOB 1", "NOW", "SWAP", "NOW", "NOT", "NOT", "NOT", "NOT", "NOT", "NOT", "NOT", "NOT",
         "NOT", "SETGLOB 1", "NOW", "SETGLOB 3", "NIP", "DROP"], 25) := by
  decide!

set_option maxRecDepth 1000000 in
set_option maxHeartbeats 4000000 in
theorem nonIdempotent_first_rewriteA_part6 :
    driverSteps (optimize_at sampleTvmConst) 6
      ["PUSHINT 7", "NOW", "NOT", "NOT", "NOT", "NOT", "NOT", "NOT", "NOT", "NOT", "NOT",
       "SETGLOB 1", "NOW", "SWAP", "NOW", "NOT", "NOT", "NOT", "NOT", "NOT", "NOT", "NOT", "NOT",
       "NOT", "SETGLOB 1", "NOW", "SETGLOB 3", "NIP", "DROP"] 25
      = some (
        ["PUSHINT 7", "NOW", "NOT", "NOT", "NOT", "NOT", "NOT", "NOT", "NOT", "NOT", "NOT",
         "SETGLOB 1", "NOW", "SWAP", "NOW", "NOT", "NOT", "NOT", "NOT", "NOT", "NOT", "NOT", "NOT",
         "NOT", "SETGLOB 1", "NOW", "SETGLOB 3", "DROP2"], 20) := by
  decide!

set_option maxRecDepth 1000000 in
set_option maxHeartbeats 4000000 in
theorem nonIdempotent_first_rewriteA_part7 :
    driverSteps (optimize_at sampleTvmConst) 6
      ["PUSHINT 7", "NOW", "NOT", "NOT", "NOT", "NOT", "NOT", "NOT", "NOT", "NOT", "NOT",
       "SETGLOB 1", "NOW", "SWAP", "NOW", "NOT", "NOT", "NOT", "NOT", "NOT", "NOT", "NOT", "NOT",
       "NOT", "SETGLOB 1", "NOW", "SETGLOB 3", "DROP2"] 20
      = some (
        ["PUSHINT 7", "NOW", "NOT", "NOT", "NOT", "NOT", "NOT", "NOT", "NOT", "NOT", "NOT",
         "SETGLOB 1", "NOW", "SWAP", "NOW", "NOT", "NOT", "NOT", "NOT", "NOT", "NOT", "NOT", "NOT",
         "NOT", "SETGLOB 1", "DROP", "NOW", "SETGLOB 3", "DROP"], 15) := by
  decide!

set_option maxRecDepth 1000000 in
set_option maxHeartbeats 4000000 in
theorem nonIdempotent_first_rewriteA_part8 :
    driverSteps (optimize_at sampleTvmConst) 6
      ["PUSHINT 7", "NOW", "NOT", "NOT", "NOT", "NOT", "NOT", "NOT", "NOT", "NOT", "NOT",
       "SETGLOB 1", "NOW", "SWAP", "NOW", "NOT", "NOT", "NOT", "NOT", "NOT", "NOT", "NOT", "NOT",
       "NOT", "SETGLOB 1", "DROP", "NOW", "SETGLOB 3", "DROP"] 15
      = some (
        ["PUSHINT 7", "NOW", "NOT", "NOT", "NOT", "NOT", "NOT", "NOT", "NOT", "NOT", "NOT",
         "SETGLOB 1", "NOW", "SWAP", "NOW", "NOT", "NOT", "NOT", "NOT", "NOT", "NOT", "NOT", "NOT",
         "NOT", "SETGLOB 1", "DROP", "NOW", "SETGLOB 3", "DROP"], 21) := by
  decide!

set_option maxRecDepth 1000000 in
set_option maxHeartbeats 4000000 in
theorem nonIdempotent_first_rewriteA_part9 :
    driverSteps (optimize_at sampleTvmConst) 6
      ["PUSHINT 7", "NOW", "NOT", "NOT", "NOT", "NOT", "NOT", "NOT", "NOT", "NOT", "NOT",
       "SETGLOB 1", "NOW", "SWAP", "NOW", "NOT", "NOT", "NOT", "NOT", "NOT", "NOT", "NOT", "NOT",
       "NOT", "SETGLOB 1", "DROP", "NOW", "SETGLOB 3", "DROP"] 21
      = some (
        ["PUSHINT 7", "NOW", "NOT", "NOT", "NOT", "NOT", "NOT", "NOT", "NOT", "NOT", "NOT",
         "SETGLOB 1", "NOW", "SWAP", "NOW", "NOT", "NOT", "NOT", "NOT", "NOT", "NOT", "NOT", "NOT",
         "NOT", "SETGLOB 1", "DROP", "DROP", "NOW", "SETGLOB 3"], 16) := by
  decide!

set_option maxRecDepth 1000000 in
set_option maxHeartbeats 4000000 in
theorem nonIdempotent_first_rewriteA_part10 :
    driverSteps (optimize_at sampleTvmConst) 6
      ["PUSHINT 7", "NOW", "NOT", "NOT", "NOT", "NOT", "NOT", "NOT", "NOT", "NOT", "NOT",
       "SETGLOB 1", "NOW", "SWAP", "NOW", "NOT", "NOT", "NOT", "NOT", "NOT", "NOT", "NOT", "NOT",
       "NOT", "SETGLOB 1", "DROP", "DROP", "NOW", "SETGLOB 3"] 16
      = some (
        ["PUSHINT 7", "NOW", "NOT", "NOT", "NOT", "NOT", "NOT", "NOT", "NOT", "NOT", "NOT",
         "SETGLOB 1", "NOW", "SWAP", "NOW", "NOT", "NOT", "NOT", "NOT", "NOT", "NOT", "NOT", "NOT",
         "NOT", "SETGLOB 1", "DROP", "DROP", "NOW", "SETGLOB 3"], 22) := by
  decide!

set_option maxRecDepth 1000000 in
set_option maxHeartbeats 4000000 in
theorem nonIdempotent_first_rewriteA_part11 :
    driverSteps (optimize_at sampleTvmConst) 6
      ["PUSHINT 7", "NOW", "NOT", "NOT", "NOT", "NOT", "NOT", "NOT", "NOT", "NOT", "NOT",
       "SETGLOB 1", "NOW", "SWAP", "NOW", "NOT", "NOT", "NOT", "NOT", "NOT", "NOT", "NOT", "NOT",
       "NOT", "SETGLOB 1", "DROP", "DROP", "NOW", "SETGLOB 3"] 22
      = some (
        ["PUSHINT 7", "NOW", "NOT", "NOT", "NOT", "NOT", "NOT", "NOT", "NOT", "NOT", "NOT",
         "SETGLOB 1", "NOW", "SWAP", "NOW", "NOT", "NOT", "NOT", "NOT", "NOT", "NOT", "NOT", "NOT",
         "NOT", "SETGLOB 1", "DROP2", "NOW", "SETGLOB 3"], 17) := by
  decide!

set_option maxRecDepth 1000000 in
set_option maxHeartbeats 4000000 in
theorem nonIdempotent_first_rewriteA_part12 :
    driverSteps (optimize_at sampleTvmConst) 6
      ["PUSHINT 7", "NOW", "NOT", "NOT", "NOT", "NOT", "NOT", "NOT", "NOT", "NOT", "NOT",
       "SETGLOB 1", "NOW", "SWAP", "NOW", "NOT", "NOT", "NOT", "NOT", "NOT", "NOT", "NOT", "NOT",
       "NOT", "SETGLOB 1", "DROP2", "NOW", "SETGLOB 3"] 17
      = some (
        ["PUSHINT 7", "NOW", "NOT", "NOT", "NOT", "NOT", "NOT", "NOT", "NOT", "NOT", "NOT",
         "SETGLOB 1", "NOW", "SWAP", "NOW", "NOT", "NOT", "NOT", "NOT", "NOT", "NOT", "NOT", "NOT",
         "NOT", "SETGLOB 1", "DROP2", "NOW", "SETGLOB 3"], 23) := by
  decide!

set_option maxRecDepth 1000000 in
set_option maxHeartbeats 4000000 in
theorem nonIdempotent_first_rewriteA_part13 :
    driverSteps (optimize_at sampleTvmConst) 5
      ["PUSHINT 7", "NOW", "NOT", "NOT", "NOT", "NOT", "NOT", "NOT", "NOT", "NOT", "NOT",
       "SETGLOB 1", "NOW", "SWAP", "NOW", "NOT", "NOT", "NOT", "NOT", "NOT", "NOT", "NOT", "NOT",
       "NOT", "SETGLOB 1", "DROP2", "NOW", "SETGLOB 3"] 23
      = some (
        ["PUSHINT 7", "NOW", "NOT", "NOT", "NOT", "NOT", "NOT", "NOT", "NOT", "NOT", "NOT",
         "SETGLOB 1", "NOW", "SWAP", "NOW", "NOT", "NOT", "NOT", "NOT", "NOT", "NOT", "NOT", "NOT",
         "NOT", "SETGLOB 1", "DROP2", "NOW", "SETGLOB 3"], -1) := by
  decide!

theorem nonIdempotent_first_rewriteA :
    optimize (optimize_at sampleTvmConst) 100
      ["PUSHINT 7", "NOW", "NOT", "NOT", "NOT", "NOT", "NOT", "NOT", "NOT", "NOT", "NOT",
       "SETGLOB 1", "NOW", "SWAP", "NOW", "NOT", "NOT", "NOT", "NOT", "NOT", "NOT", "NOT", "NOT",
       "NOT", "SETGLOB 1", "NOW", "POP S2", "SWAP", "SETGLOB 3", "DROP"]
      = some
        ["PUSHINT 7", "NOW", "NOT", "NOT", "NOT", "NOT", "NOT", "NOT", "NOT", "NOT", "NOT",
         "SETGLOB 1", "NOW", "SWAP", "NOW", "NOT", "NOT", "NOT", "NOT", "NOT", "NOT", "NOT", "NOT",
         "NOT", "SETGLOB 1", "DROP2", "NOW", "SETGLOB 3"] := by
  unfold optimize
  rw [show (100 : Nat) = 16 + 1 + 5 + 6 + 6 + 6 + 6 + 6 + 6 + 6 + 6 + 6 + 6 + 6 + 6 + 6 from rfl,
    optimizeLoop_steps _ _ _ _ _ _ _ nonIdempotent_first_rewriteA_part0,
    optimizeLoop_steps _ _ _ _ _ _ _ nonIdempotent_first_rewriteA_part1,
    optimizeLoop_steps _ _ _ _ _ _ _ nonIdempotent_first_rewriteA_part2,
    optimizeLoop_steps _ _ _ _ _ _ _ nonIdempotent_first_rewriteA_part3,
    optimizeLoop_steps _ _ _ _ _ _ _ nonIdempotent_first_rewriteA_part4,
    optimizeLoop_steps _ _ _ _ _ _ _ nonIdempotent_first_rewriteA_part5,
    optimizeLoop_steps _ _ _ _ _ _ _ nonIdempotent_first_rewriteA_part6,
    optimizeLoop_steps _ _ _ _ _ _ _ nonIdempotent_first_rewriteA_part7,
    optimizeLoop_steps _ _ _ _ _ _ _ nonIdempotent_first_rewriteA_part8,
    optimizeLoop_steps _ _ _ _ _ _ _ nonIdempotent_first_rewriteA_part9,
    optimizeLoop_steps _ _ _ _ _ _ _ nonIdempotent_first_rewriteA_part10,
    optimizeLoop_steps _ _ _ _ _ _ _ nonIdempotent_first_rewriteA_part11,
    optimizeLoop_steps _ _ _ _ _ _ _ nonIdempotent_first_rewriteA_part12,
    optimizeLoop_steps _ _ _ _ _ _ _ nonIdempotent_first_rewriteA_part13,
    optimizeLoop_done _ _ _ _ (by decide)]

set_option maxRecDepth 1000000 in
set_option maxHeartbeats 4000000 in
theorem nonIdempotent_first_rewriteB_part0 :
    driverSteps (optimize_at sampleTvmConst) 6
      ["PUSHINT 7", "NOW", "NOT", "NOT", "NOT", "NOT", "NOT", "NOT", "NOT", "NOT", "NOT",
       "SETGLOB 1", "NOW", "SWAP", "NOW", "NOT", "NOT", "NOT", "NOT", "NOT", "NOT", "NOT", "NOT",
       "NOT", "SETGLOB 1", "DROP2", "NOW", "SETGLOB 3"] 0
      = some (
        ["PUSHINT 7", "NOW", "NOT", "NOT", "NOT", "NOT", "NOT", "NOT", "NOT", "NOT", "NOT",
         "SETGLOB 1", "NOW", "SWAP", "NOW", "NOT", "NOT", "NOT", "NOT", "NOT", "NOT", "NOT", "NOT",
         "NOT", "SETGLOB 1", "DROP2", "NOW", "SETGLOB 3"], 6) := by
  decide!

set_option maxRecDepth 1000000 in
set_option maxHeartbeats 4000000 in
theorem nonIdempotent_first_rewriteB_part1 :
    driverSteps (optimize_at sampleTvmConst) 6
      ["PUSHINT 7", "NOW", "NOT", "NOT", "NOT", "NOT", "NOT", "NOT", "NOT", "NOT", "NOT",
       "SETGLOB 1", "NOW", "SWAP", "NOW", "NOT", "NOT", "NOT", "NOT", "NOT", "NOT", "NOT", "NOT",
       "NOT", "SETGLOB 1", "DROP2", "NOW", "SETGLOB 3"] 6
      = some (
        ["PUSHINT 7", "NOW", "NOT", "NOT", "NOT", "NOT", "NOT", "NOT", "NOT", "NOT", "NOT",
         "SETGLOB 1", "NOW", "SWAP", "NOW", "NOT", "NOT", "NOT", "NOT", "NOT", "NOT", "NOT", "NOT",
         "NOT", "SETGLOB 1", "DROP2", "NOW", "SETGLOB 3"], 12) := by
  decide!

set_option maxRecDepth 1000000 in
set_option maxHeartbeats 4000000 in
theorem nonIdempotent_first_rewriteB_part2 :
    driverSteps (optimize_at sampleTvmConst) 6
      ["PUSHINT 7", "NOW", "NOT", "NOT", "NOT", "NOT", "NOT", "NOT", "NOT", "NOT", "NOT",
       "SETGLOB 1", "NOW", "SWAP", "NOW", "NOT", "NOT", "NOT", "NOT", "NOT", "NOT", "NOT", "NOT",
       "NOT", "SETGLOB 1", "DROP2", "NOW", "SETGLOB 3"] 12
      = some (
        ["PUSHINT 7", "NOW", "NOT", "NOT", "NOT", "NOT", "NOT", "NOT", "NOT", "NOT", "NOT",
         "SETGLOB 1", "NOW", "DROP", "NOW", "NOT", "NOT", "NOT", "NOT", "NOT", "NOT", "NOT", "NOT",
         "NOT", "SETGLOB 1", "DROP", "NOW", "SETGLOB 3"], 7) := by
  decide!

set_option maxRecDepth 1000000 in
set_option maxHeartbeats 4000000 in
theorem nonIdempotent_first_rewriteB_part3 :
    driverSteps (optimize_at sampleTvmConst) 6
      ["PUSHINT 7", "NOW", "NOT", "NOT", "NOT", "NOT", "NOT", "NOT", "NOT", "NOT", "NOT",
       "SETGLOB 1", "NOW", "DROP", "NOW", "NOT", "NOT", "NOT", "NOT", "NOT", "NOT", "NOT", "NOT",
       "NOT", "SETGLOB 1", "DROP", "NOW", "SETGLOB 3"] 7
      = some (
        ["PUSHINT 7", "NOW", "NOT", "NOT", "NOT", "NOT", "NOT", "NOT", "NOT", "NOT", "NOT",
         "SETGLOB 1", "NOW", "NOT", "NOT", "NOT", "NOT", "NOT", "NOT", "NOT", "NOT", "NOT",
         "SETGLOB 1", "DROP", "NOW", "SETGLOB 3"], 2) := by
  decide!

set_option maxRecDepth 1000000 in
set_option maxHeartbeats 4000000 in
theorem nonIdempotent_first_rewriteB_part4 :
    driverSteps (optimize_at sampleTvmConst) 6
      ["PUSHINT 7", "NOW", "NOT", "NOT", "NOT", "NOT", "NOT", "NOT", "NOT", "NOT", "NOT",
       "SETGLOB 1", "NOW", "NOT", "NOT", "NOT", "NOT", "NOT", "NOT", "NOT", "NOT", "NOT",
       "SETGLOB 1", "DROP", "NOW", "SETGLOB 3"] 2
      = some (
        ["PUSHINT 7", "NOW", "NOT", "NOT", "NOT", "NOT", "NOT", "NOT", "NOT", "NOT", "NOT",
         "SETGLOB 1", "NOW", "NOT", "NOT", "NOT", "NOT", "NOT", "NOT", "NOT", "NOT", "NOT",
         "SETGLOB 1", "DROP", "NOW", "SETGLOB 3"], 8) := by
  decide!

set_option maxRecDepth 1000000 in
set_option maxHeartbeats 4000000 in
theorem nonIdempotent_first_rewriteB_part5 :
    driverSteps (optimize_at sampleTvmConst) 6
      ["PUSHINT 7", "NOW", "NOT", "NOT", "NOT", "NOT", "NOT", "NOT", "NOT", "NOT", "NOT",
       "SETGLOB 1", "NOW", "NOT", "NOT", "NOT", "NOT", "NOT", "NOT", "NOT", "NOT", "NOT",
       "SETGLOB 1", "DROP", "NOW", "SETGLOB 3"] 8
      = some (
        ["PUSHINT 7", "NOW", "NOT", "NOT", "NOT", "NOT", "NOT", "NOT", "NOT", "NOT", "NOT",
         "SETGLOB 1", "DROP", "NOW", "NOT", "NOT", "NOT", "NOT", "NOT", "NOT", "NOT", "NOT", "NOT",
         "SETGLOB 1", "NOW", "SETGLOB 3"], 3) := by
  decide!

set_option maxRecDepth 1000000 in
set_option maxHeartbeats 4000000 in
theorem nonIdempotent_first_rewriteB_part6 :
    driverSteps (optimize_at sampleTvmConst) 6
      ["PUSHINT 7", "NOW", "NOT", "NOT", "NOT", "NOT", "NOT", "NOT", "NOT", "NOT", "NOT",
       "SETGLOB 1", "DROP", "NOW", "NOT", "NOT", "NOT", "NOT", "NOT", "NOT", "NOT", "NOT", "NOT",
       "SETGLOB 1", "NOW", "SETGLOB 3"] 3
      = some (
        ["PUSHINT 7", "NOW", "NOT", "NOT", "NOT", "NOT", "NOT", "NOT", "NOT", "NOT", "NOT",
         "SETGLOB 1", "DROP", "NOW", "NOT", "NOT", "NOT", "NOT", "NOT", "NOT", "NOT", "NOT", "NOT",
         "SETGLOB 1", "NOW", "SETGLOB 3"], 9) := by
  decide!

set_option maxRecDepth 1000000 in
set_option maxHeartbeats 4000000 in
theorem nonIdempotent_first_rewriteB_part7 :
    driverSteps (optimize_at sampleTvmConst) 6
      ["PUSHINT 7", "NOW", "NOT", "NOT", "NOT", "NOT", "NOT", "NOT", "NOT", "NOT", "NOT",
       "SETGLOB 1", "DROP", "NOW", "NOT", "NOT", "NOT", "NOT", "NOT", "NOT", "NOT", "NOT", "NOT",
       "SETGLOB 1", "NOW", "SETGLOB 3"] 9
      = some (
        ["PUSHINT 7", "NOW", "NOT", "NOT", "NOT", "NOT", "NOT", "NOT", "NOT", "NOT", "NOT",
         "SETGLOB 1", "DROP", "NOW", "NOT", "NOT", "NOT", "NOT", "NOT", "NOT", "NOT", "NOT", "NOT",
         "SETGLOB 1", "NOW", "SETGLOB 3"], 15) := by
  decide!

set_option maxRecDepth 1000000 in
set_option maxHeartbeats 4000000 in
theorem nonIdempotent_first_rewriteB_part8 :
    driverSteps (optimize_at sampleTvmConst) 6
      ["PUSHINT 7", "NOW", "NOT", "NOT", "NOT", "NOT", "NOT", "NOT", "NOT", "NOT", "NOT",
       "SETGLOB 1", "DROP", "NOW", "NOT", "NOT", "NOT", "NOT", "NOT", "NOT", "NOT", "NOT", "NOT",
       "SETGLOB 1", "NOW", "SETGLOB 3"] 15
      = some (
        ["PUSHINT 7", "NOW", "NOT", "NOT", "NOT", "NOT", "NOT", "NOT", "NOT", "NOT", "NOT",
         "SETGLOB 1", "DROP", "NOW", "NOT", "NOT", "NOT", "NOT", "NOT", "NOT", "NOT", "NOT", "NOT",
         "SETGLOB 1", "NOW", "SETGLOB 3"], 21) := by
  decide!

set_option maxRecDepth 1000000 in
set_option maxHeartbeats 4000000 in
theorem nonIdempotent_first_rewriteB_part9 :
    driverSteps (optimize_at sampleTvmConst) 5
      ["PUSHINT 7", "NOW", "NOT", "NOT", "NOT", "NOT", "NOT", "NOT", "NOT", "NOT", "NOT",
       "SETGLOB 1", "DROP", "NOW", "NOT", "NOT", "NOT", "NOT", "NOT", "NOT", "NOT", "NOT", "NOT",
       "SETGLOB 1", "NOW", "SETGLOB 3"] 21
      = some (
        ["PUSHINT 7", "NOW", "NOT", "NOT", "NOT", "NOT", "NOT", "NOT", "NOT", "NOT", "NOT",
         "SETGLOB 1", "DROP", "NOW", "NOT", "NOT", "NOT", "NOT", "NOT", "NOT", "NOT", "NOT", "NOT",
         "SETGLOB 1", "NOW", "SETGLOB 3"], -1) := by
  decide!

theorem nonIdempotent_first_rewriteB :
    optimize (optimize_at sampleTvmConst) 100
      ["PUSHINT 7", "NOW", "NOT", "NOT", "NOT", "NOT", "NOT", "NOT", "NOT", "NOT", "NOT",
       "SETGLOB 1", "NOW", "SWAP", "NOW", "NOT", "NOT", "NOT", "NOT", "NOT", "NOT", "NOT", "NOT",
       "NOT", "SETGLOB 1", "DROP2", "NOW", "SETGLOB 3"]
      = some
        ["PUSHINT 7", "NOW", "NOT", "NOT", "NOT", "NOT", "NOT", "NOT", "NOT", "NOT", "NOT",
         "SETGLOB 1", "DROP", "NOW", "NOT", "NOT", "NOT", "NOT", "NOT", "NOT", "NOT", "NOT", "NOT",
         "SETGLOB 1", "NOW", "SETGLOB 3"] := by
  unfold optimize
  rw [show (100 : Nat) = 40 + 1 + 5 + 6 + 6 + 6 + 6 + 6 + 6 + 6 + 6 + 6 from rfl,
    optimizeLoop_steps _ _ _ _ _ _ _ nonIdempotent_first_rewriteB_part0,
    optimizeLoop_steps _ _ _ _ _ _ _ nonIdempotent_first_rewriteB_part1,
    optimizeLoop_steps _ _ _ _ _ _ _ nonIdempotent_first_rewriteB_part2,
    optimizeLoop_steps _ _ _ _ _ _ _ nonIdempotent_first_rewriteB_part3,
    optimizeLoop_steps _ _ _ _ _ _ _ nonIdempotent_first_rewriteB_part4,
    optimizeLoop_steps _ _ _ _ _ _ _ nonIdempotent_first_rewriteB_part5,
    optimizeLoop_steps _ _ _ _ _ _ _ nonIdempotent_first_rewriteB_part6,
    optimizeLoop_steps _ _ _ _ _ _ _ nonIdempotent_first_rewriteB_part7,
    optimizeLoop_steps _ _ _ _ _ _ _ nonIdempotent_first_rewriteB_part8,
    optimizeLoop_steps _ _ _ _ _ _ _ nonIdempotent_first_rewriteB_part9,
    optimizeLoop_done _ _ _ _ (by decide)]

set_option maxRecDepth 1000000 in
set_option maxHeartbeats 4000000 in
theorem nonIdempotent_first_squash_part0 :
    driverSteps squash_push 13
      ["PUSHINT 7", "NOW", "NOT", "NOT", "NOT", "NOT", "NOT", "NOT", "NOT", "NOT", "NOT",
       "SETGLOB 1", "DROP", "NOW", "NOT", "NOT", "NOT", "NOT", "NOT", "NOT", "NOT", "NOT", "NOT",
       "SETGLOB 1", "NOW", "SETGLOB 3"] 0
      = some (
        ["PUSHINT 7", "NOW", "NOT", "NOT", "NOT", "NOT", "NOT", "NOT", "NOT", "NOT", "NOT",
         "SETGLOB 1", "DROP", "NOW", "NOT", "NOT", "NOT", "NOT", "NOT", "NOT", "NOT", "NOT", "NOT",
         "SETGLOB 1", "NOW", "SETGLOB 3"], 13) := by
  decide!

set_option maxRecDepth 1000000 in
set_option maxHeartbeats 4000000 in
theorem nonIdempotent_first_squash_part1 :
    driverSteps squash_push 13
      ["PUSHINT 7", "NOW", "NOT", "NOT", "NOT", "NOT", "NOT", "NOT", "NOT", "NOT", "NOT",
       "SETGLOB 1", "DROP", "NOW", "NOT", "NOT", "NOT", "NOT", "NOT", "NOT", "NOT", "NOT", "NOT",
       "SETGLOB 1", "NOW", "SETGLOB 3"] 13
      = some (
        ["PUSHINT 7", "NOW", "NOT", "NOT", "NOT", "NOT", "NOT", "NOT", "NOT", "NOT", "NOT",
         "SETGLOB 1", "DROP", "NOW", "NOT", "NOT", "NOT", "NOT", "NOT", "NOT", "NOT", "NOT", "NOT",
         "SETGLOB 1", "NOW", "SETGLOB 3"], -1) := by
  decide!

theorem nonIdempotent_first_squash :
    optimize squash_push 100
      ["PUSHINT 7", "NOW", "NOT", "NOT", "NOT", "NOT", "NOT", "NOT", "NOT", "NOT", "NOT",
       "SETGLOB 1", "DROP", "NOW", "NOT", "NOT", "NOT", "NOT", "NOT", "NOT", "NOT", "NOT", "NOT",
       "SETGLOB 1", "NOW", "SETGLOB 3"]
      = some
        ["PUSHINT 7", "NOW", "NOT", "NOT", "NOT", "NOT", "NOT", "NOT", "NOT", "NOT", "NOT",
         "SETGLOB 1", "DROP", "NOW", "NOT", "NOT", "NOT", "NOT", "NOT", "NOT", "NOT", "NOT", "NOT",
         "SETGLOB 1", "NOW", "SETGLOB 3"] := by
  unfold optimize
  rw [show (100 : Nat) = 73 + 1 + 13 + 13 from rfl,
    optimizeLoop_steps _ _ _ _ _ _ _ nonIdempotent_first_squash_part0,
    optimizeLoop_steps _ _ _ _ _ _ _ nonIdempotent_first_squash_part1,
    optimizeLoop_done _ _ _ _ (by decide)]

set_option maxRecDepth 1000000 in
set_option maxHeartbeats 4000000 in
theorem nonIdempotent_second_unsquash_part0 :
    driverSteps unsquash_push 26
      ["PUSHINT 7", "NOW", "NOT", "NOT", "NOT", "NOT", "NOT", "NOT", "NOT", "NOT", "NOT",
       "SETGLOB 1", "DROP", "NOW", "NOT", "NOT", "NOT", "NOT", "NOT", "NOT", "NOT", "NOT", "NOT",
       "SETGLOB 1", "NOW", "SETGLOB 3"] 0
      = some (
        ["PUSHINT 7", "NOW", "NOT", "NOT", "NOT", "NOT", "NOT", "NOT", "NOT", "NOT", "NOT",
         "SETGLOB 1", "DROP", "NOW", "NOT", "NOT", "NOT", "NOT", "NOT", "NOT", "NOT", "NOT", "NOT",
         "SETGLOB 1", "NOW", "SETGLOB 3"], -1) := by
  decide!

theorem nonIdempotent_second_unsquash :
    optimize unsquash_push 100
      ["PUSHINT 7", "NOW", "NOT", "NOT", "NOT", "NOT", "NOT", "NOT", "NOT", "NOT", "NOT",
       "SETGLOB 1", "DROP", "NOW", "NOT", "NOT", "NOT", "NOT", "NOT", "NOT", "NOT", "NOT", "NOT",
       "SETGLOB 1", "NOW", "SETGLOB 3"]
      = some
        ["PUSHINT 7", "NOW", "NOT", "NOT", "NOT", "NOT", "NOT", "NOT", "NOT", "NOT", "NOT",
         "SETGLOB 1", "DROP", "NOW", "NOT", "NOT", "NOT", "NOT", "NOT", "NOT", "NOT", "NOT", "NOT",
         "SETGLOB 1", "NOW", "SETGLOB 3"] := by
  unfold optimize
  rw [show (100 : Nat) = 73 + 1 + 26 from rfl,
    optimizeLoop_steps _ _ _ _ _ _ _ nonIdempotent_second_unsquash_part0,
    optimizeLoop_done _ _ _ _ (by decide)]

set_option maxRecDepth 1000000 in
set_option maxHeartbeats 4000000 in
theorem nonIdempotent_second_rewriteA_part0 :
    driverSteps (optimize_at sampleTvmConst) 6
      ["PUSHINT 7", "NOW", "NOT", "NOT", "NOT", "NOT", "NOT", "NOT", "NOT", "NOT", "NOT",
       "SETGLOB 1", "DROP", "NOW", "NOT", "NOT", "NOT", "NOT", "NOT", "NOT", "NOT", "NOT", "NOT",
       "SETGLOB 1", "NOW", "SETGLOB 3"] 0
      = some (
        ["NOW", "NOT", "NOT", "NOT", "NOT", "NOT", "NOT", "NOT", "NOT", "NOT", "SETGLOB 1", "NOW",
         "NOT", "NOT", "NOT", "NOT", "NOT", "NOT", "NOT", "NOT", "NOT", "SETGLOB 1", "NOW",
         "SETGLOB 3"], 5) := by
  decide!

set_option maxRecDepth 1000000 in
set_option maxHeartbeats 4000000 in
theorem nonIdempotent_second_rewriteA_part1 :
    driverSteps (optimize_at sampleTvmConst) 6
      ["NOW", "NOT", "NOT", "NOT", "NOT", "NOT", "NOT", "NOT", "NOT", "NOT", "SETGLOB 1", "NOW",
       "NOT", "NOT", "NOT", "NOT", "NOT", "NOT", "NOT", "NOT", "NOT", "SETGLOB 1", "NOW",
       "SETGLOB 3"] 5
      = some (
        ["NOW", "NOT", "NOT", "NOT", "NOT", "NOT", "NOT", "NOT", "NOT", "NOT", "SETGLOB 1", "NOW",
         "NOT", "NOT", "NOT", "NOT", "NOT", "NOT", "NOT", "NOT", "NOT", "SETGLOB 1", "NOW",
         "SETGLOB 3"], 11) := by
  decide!

set_option maxRecDepth 1000000 in
set_option maxHeartbeats 4000000 in
theorem nonIdempotent_second_rewriteA_part2 :
    driverSteps (optimize_at sampleTvmConst) 6
      ["NOW", "NOT", "NOT", "NOT", "NOT", "NOT", "NOT", "NOT", "NOT", "NOT", "SETGLOB 1", "NOW",
       "NOT", "NOT", "NOT", "NOT", "NOT", "NOT", "NOT", "NOT", "NOT", "SETGLOB 1", "NOW",
       "SETGLOB 3"] 11
      = some (
        ["NOW", "NOT", "NOT", "NOT", "NOT", "NOT", "NOT", "NOT", "NOT", "NOT", "SETGLOB 1", "NOW",
         "NOT", "NOT", "NOT", "NOT", "NOT", "NOT", "NOT", "NOT", "NOT", "SETGLOB 1", "NOW",
         "SETGLOB 3"], 17) := by
  decide!

set_option maxRecDepth 1000000 in
set_option maxHeartbeats 4000000 in
theorem nonIdempotent_second_rewriteA_part3 :
    driverSteps (optimize_at sampleTvmConst) 6
      ["NOW", "NOT", "NOT", "NOT", "NOT", "NOT", "NOT", "NOT", "NOT", "NOT", "SETGLOB 1", "NOW",
       "NOT", "NOT", "NOT", "NOT", "NOT", "NOT", "NOT", "NOT", "NOT", "SETGLOB 1", "NOW",
       "SETGLOB 3"] 17
      = some (
        ["NOW", "NOT", "NOT", "NOT", "NOT", "NOT", "NOT", "NOT", "NOT", "NOT", "SETGLOB 1", "NOW",
         "NOT", "NOT", "NOT", "NOT", "NOT", "NOT", "NOT", "NOT", "NOT", "SETGLOB 1", "NOW",
         "SETGLOB 3"], 23) := by
  decide!

set_option maxRecDepth 1000000 in
set_option maxHeartbeats 4000000 in
theorem nonIdempotent_second_rewriteA_part4 :
    driverSteps (optimize_at sampleTvmConst) 1
      ["NOW", "NOT", "NOT", "NOT", "NOT", "NOT", "NOT", "NOT", "NOT", "NOT", "SETGLOB 1", "NOW",
       "NOT", "NOT", "NOT", "NOT", "NOT", "NOT", "NOT", "NOT", "NOT", "SETGLOB 1", "NOW",
       "SETGLOB 3"] 23
      = some (
        ["NOW", "NOT", "NOT", "NOT", "NOT", "NOT", "NOT", "NOT", "NOT", "NOT", "SETGLOB 1", "NOW",
         "NOT", "NOT", "NOT", "NOT", "NOT", "NOT", "NOT", "NOT", "NOT", "SETGLOB 1", "NOW",
         "SETGLOB 3"], -1) := by
  decide!

theorem nonIdempotent_second_rewriteA :
    optimize (optimize_at sampleTvmConst) 100
      ["PUSHINT 7", "NOW", "NOT", "NOT", "NOT", "NOT", "NOT", "NOT", "NOT", "NOT", "NOT",
       "SETGLOB 1", "DROP", "NOW", "NOT", "NOT", "NOT", "NOT", "NOT", "NOT", "NOT", "NOT", "NOT",
       "SETGLOB 1", "NOW", "SETGLOB 3"]
      = some
        ["NOW", "NOT", "NOT", "NOT", "NOT", "NOT", "NOT", "NOT", "NOT", "NOT", "SETGLOB 1", "NOW",
         "NOT", "NOT", "NOT", "NOT", "NOT", "NOT", "NOT", "NOT", "NOT", "SETGLOB 1", "NOW",
         "SETGLOB 3"] := by
  unfold optimize
  rw [show (100 : Nat) = 74 + 1 + 1 + 6 + 6 + 6 + 6 from rfl,
    optimizeLoop_steps _ _ _ _ _ _ _ nonIdempotent_second_rewriteA_part0,
    optimizeLoop_steps _ _ _ _ _ _ _ nonIdempotent_second_rewriteA_part1,
    optimizeLoop_steps _ _ _ _ _ _ _ nonIdempotent_second_rewriteA_part2,
    optimizeLoop_steps _ _ _ _ _ _ _ nonIdempotent_second_rewriteA_part3,
    optimizeLoop_steps _ _ _ _ _ _ _ nonIdempotent_second_rewriteA_part4,
    optimizeLoop_done _ _ _ _ (by decide)]

set_option maxRecDepth 1000000 in
set_option maxHeartbeats 4000000 in
theorem nonIdempotent_second_rewriteB_part0 :
    driverSteps (optimize_at sampleTvmConst) 6
      ["NOW", "NOT", "NOT", "NOT", "NOT", "NOT", "NOT", "NOT", "NOT", "NOT", "SETGLOB 1", "NOW",
       "NOT", "NOT", "NOT", "NOT", "NOT", "NOT", "NOT", "NOT", "NOT", "SETGLOB 1", "NOW",
       "SETGLOB 3"] 0
      = some (
        ["NOW", "NOT", "NOT", "NOT", "NOT", "NOT", "NOT", "NOT", "NOT", "NOT", "SETGLOB 1", "NOW",
         "NOT", "NOT", "NOT", "NOT", "NOT", "NOT", "NOT", "NOT", "NOT", "SETGLOB 1", "NOW",
         "SETGLOB 3"], 6) := by
  decide!

set_option maxRecDepth 1000000 in
set_option maxHeartbeats 4000000 in
theorem nonIdempotent_second_rewriteB_part1 :
    driverSteps (optimize_at sampleTvmConst) 6
      ["NOW", "NOT", "NOT", "NOT", "NOT", "NOT", "NOT", "NOT", "NOT", "NOT", "SETGLOB 1", "NOW",
       "NOT", "NOT", "NOT", "NOT", "NOT", "NOT", "NOT", "NOT", "NOT", "SETGLOB 1", "NOW",
       "SETGLOB 3"] 6
      = some (
        ["NOW", "NOT", "NOT", "NOT", "NOT", "NOT", "NOT", "NOT", "NOT", "NOT", "SETGLOB 1", "NOW",
         "NOT", "NOT", "NOT", "NOT", "NOT", "NOT", "NOT", "NOT", "NOT", "SETGLOB 1", "NOW",
         "SETGLOB 3"], 12) := by
  decide!

set_option maxRecDepth 1000000 in
set_option maxHeartbeats 4000000 in
theorem nonIdempotent_second_rewriteB_part2 :
    driverSteps (optimize_at sampleTvmConst) 6
      ["NOW", "NOT", "NOT", "NOT", "NOT", "NOT", "NOT", "NOT", "NOT", "NOT", "SETGLOB 1", "NOW",
       "NOT", "NOT", "NOT", "NOT", "NOT", "NOT", "NOT", "NOT", "NOT", "SETGLOB 1", "NOW",
       "SETGLOB 3"] 12
      = some (
        ["NOW", "NOT", "NOT", "NOT", "NOT", "NOT", "NOT", "NOT", "NOT", "NOT", "SETGLOB 1", "NOW",
         "NOT", "NOT", "NOT", "NOT", "NOT", "NOT", "NOT", "NOT", "NOT", "SETGLOB 1", "NOW",
         "SETGLOB 3"], 18) := by
  decide!

set_option maxRecDepth 1000000 in
set_option maxHeartbeats 4000000 in
theorem nonIdempotent_second_rewriteB_part3 :
    driverSteps (optimize_at sampleTvmConst) 6
      ["NOW", "NOT", "NOT", "NOT", "NOT", "NOT", "NOT", "NOT", "NOT", "NOT", "SETGLOB 1", "NOW",
       "NOT", "NOT", "NOT", "NOT", "NOT", "NOT", "NOT", "NOT", "NOT", "SETGLOB 1", "NOW",
       "SETGLOB 3"] 18
      = some (
        ["NOW", "NOT", "NOT", "NOT", "NOT", "NOT", "NOT", "NOT", "NOT", "NOT", "SETGLOB 1", "NOW",
         "NOT", "NOT", "NOT", "NOT", "NOT", "NOT", "NOT", "NOT", "NOT", "SETGLOB 1", "NOW",
         "SETGLOB 3"], -1) := by
  decide!

theorem nonIdempotent_second_rewriteB :
    optimize (optimize_at sampleTvmConst) 100
      ["NOW", "NOT", "NOT", "NOT", "NOT", "NOT", "NOT", "NOT", "NOT", "NOT", "SETGLOB 1", "NOW",
       "NOT", "NOT", "NOT", "NOT", "NOT", "NOT", "NOT", "NOT", "NOT", "SETGLOB 1", "NOW",
       "SETGLOB 3"]
      = some
        ["NOW", "NOT", "NOT", "NOT", "NOT", "NOT", "NOT", "NOT", "NOT", "NOT", "SETGLOB 1", "NOW",
         "NOT", "NOT", "NOT", "NOT", "NOT", "NOT", "NOT", "NOT", "NOT", "SETGLOB 1", "NOW",
         "SETGLOB 3"] := by
  unfold optimize
  rw [show (100 : Nat) = 75 + 1 + 6 + 6 + 6 + 6 from rfl,
    optimizeLoop_steps _ _ _ _ _ _ _ nonIdempotent_second_rewriteB_part0,
    optimizeLoop_steps _ _ _ _ _ _ _ nonIdempotent_second_rewriteB_part1,
    optimizeLoop_steps _ _ _ _ _ _ _ nonIdempotent_second_rewriteB_part2,
    optimizeLoop_steps _ _ _ _ _ _ _ nonIdempotent_second_rewriteB_part3,
    optimizeLoop_done _ _ _ _ (by decide)]

set_option maxRecDepth 1000000 in
set_option maxHeartbeats 4000000 in
theorem nonIdempotent_second_squash_part0 :
    driverSteps squash_push 13
      ["NOW", "NOT", "NOT", "NOT", "NOT", "NOT", "NOT", "NOT", "NOT", "NOT", "SETGLOB 1", "NOW",
       "NOT", "NOT", "NOT", "NOT", "NOT", "NOT", "NOT", "NOT", "NOT", "SETGLOB 1", "NOW",
       "SETGLOB 3"] 0
      = some (
        ["NOW", "NOT", "NOT", "NOT", "NOT", "NOT", "NOT", "NOT", "NOT", "NOT", "SETGLOB 1", "NOW",
         "NOT", "NOT", "NOT", "NOT", "NOT", "NOT", "NOT", "NOT", "NOT", "SETGLOB 1", "NOW",
         "SETGLOB 3"], 13) := by
  decide!

set_option maxRecDepth 1000000 in
set_option maxHeartbeats 4000000 in
theorem nonIdempotent_second_squash_part1 :
    driverSteps squash_push 11
      ["NOW", "NOT", "NOT", "NOT", "NOT", "NOT", "NOT", "NOT", "NOT", "NOT", "SETGLOB 1", "NOW",
       "NOT", "NOT", "NOT", "NOT", "NOT", "NOT", "NOT", "NOT", "NOT", "SETGLOB 1", "NOW",
       "SETGLOB 3"] 13
      = some (
        ["NOW", "NOT", "NOT", "NOT", "NOT", "NOT", "NOT", "NOT", "NOT", "NOT", "SETGLOB 1", "NOW",
         "NOT", "NOT", "NOT", "NOT", "NOT", "NOT", "NOT", "NOT", "NOT", "SETGLOB 1", "NOW",
         "SETGLOB 3"], -1) := by
  decide!

theorem nonIdempotent_second_squash :
    optimize squash_push 100
      ["NOW", "NOT", "NOT", "NOT", "NOT", "NOT", "NOT", "NOT", "NOT", "NOT", "SETGLOB 1", "NOW",
       "NOT", "NOT", "NOT", "NOT", "NOT", "NOT", "NOT", "NOT", "NOT", "SETGLOB 1", "NOW",
       "SETGLOB 3"]
      = some
        ["NOW", "NOT", "NOT", "NOT", "NOT", "NOT", "NOT", "NOT", "NOT", "NOT", "SETGLOB 1", "NOW",
         "NOT", "NOT", "NOT", "NOT", "NOT", "NOT", "NOT", "NOT", "NOT", "SETGLOB 1", "NOW",
         "SETGLOB 3"] := by
  unfold optimize
  rw [show (100 : Nat) = 75 + 1 + 11 + 13 from rfl,
    optimizeLoop_steps _ _ _ _ _ _ _ nonIdempotent_second_squash_part0,
    optimizeLoop_steps _ _ _ _ _ _ _ nonIdempotent_second_squash_part1,
    optimizeLoop_done _ _ _ _ (by decide)]

end TVMOptimizer

set_option maxRecDepth 1000000 in
set_option maxHeartbeats 4000000 in
/-- C6 (counterexample): on `nonIdempotentLog` the optimizer returns a log of 26 lines, and
run on that log it returns a different log of 24 lines: the second run removes
`PUSHINT 7` of line 1 together with the `DROP` of line 13. This holds for every fuel from
100 on. -/
theorem C6_counterexample :
    TVMOptimizer.optimize_code sampleTvmConst 100 nonIdempotentLog
        = some ["PUSHINT 7", "NOW", "NOT", "NOT", "NOT", "NOT", "NOT", "NOT", "NOT", "NOT",
            "NOT", "SETGLOB 1", "DROP", "NOW", "NOT", "NOT", "NOT", "NOT", "NOT", "NOT", "NOT",
            "NOT", "NOT", "SETGLOB 1", "NOW", "SETGLOB 3"] ∧
      TVMOptimizer.optimize_code sampleTvmConst 100
          ["PUSHINT 7", "NOW", "NOT", "NOT", "NOT", "NOT", "NOT", "NOT", "NOT", "NOT",
            "NOT", "SETGLOB 1", "DROP", "NOW", "NOT", "NOT", "NOT", "NOT", "NOT", "NOT", "NOT",
            "NOT", "NOT", "SETGLOB 1", "NOW", "SETGLOB 3"]
        = some ["NOW", "NOT", "NOT", "NOT", "NOT", "NOT", "NOT", "NOT", "NOT", "NOT",
            "SETGLOB 1", "NOW", "NOT", "NOT", "NOT", "NOT", "NOT", "NOT", "NOT", "NOT", "NOT",
            "SETGLOB 1", "NOW", "SETGLOB 3"] ∧
      ∀ more : Nat,
        (TVMOptimizer.optimize_code sampleTvmConst (100 + more) nonIdempotentLog).bind
            (TVMOptimizer.optimize_code sampleTvmConst (100 + more))
          ≠ TVMOptimizer.optimize_code sampleTvmConst (100 + more) nonIdempotentLog := by
  have h1 : TVMOptimizer.optimize_code sampleTvmConst 100 nonIdempotentLog
        = some ["PUSHINT 7", "NOW", "NOT", "NOT", "NOT", "NOT", "NOT", "NOT", "NOT", "NOT",
            "NOT", "SETGLOB 1", "DROP", "NOW", "NOT", "NOT", "NOT", "NOT", "NOT", "NOT", "NOT",
            "NOT", "NOT", "SETGLOB 1", "NOW", "SETGLOB 3"] := by
    unfold TVMOptimizer.optimize_code nonIdempotentLog
    rw [TVMOptimizer.nonIdempotent_first_unsquash, Option.some_bind,
      TVMOptimizer.nonIdempotent_first_rewriteA, Option.some_bind,
      TVMOptimizer.nonIdempotent_first_rewriteB, Option.some_bind,
      TVMOptimizer.nonIdempotent_first_squash]
  have h2 : TVMOptimizer.optimize_code sampleTvmConst 100
          ["PUSHINT 7", "NOW", "NOT", "NOT", "NOT", "NOT", "NOT", "NOT", "NOT", "NOT",
            "NOT", "SETGLOB 1", "DROP", "NOW", "NOT", "NOT", "NOT", "NOT", "NOT", "NOT", "NOT",
            "NOT", "NOT", "SETGLOB 1", "NOW", "SETGLOB 3"]
        = some ["NOW", "NOT", "NOT", "NOT", "NOT", "NOT", "NOT", "NOT", "NOT", "NOT",
            "SETGLOB 1", "NOW", "NOT", "NOT", "NOT", "NOT", "NOT", "NOT", "NOT", "NOT", "NOT",
            "SETGLOB 1", "NOW", "SETGLOB 3"] := by
    unfold TVMOptimizer.optimize_code
    rw [TVMOptimizer.nonIdempotent_second_unsquash, Option.some_bind,
      TVMOptimizer.nonIdempotent_second_rewriteA, Option.some_bind,
      TVMOptimizer.nonIdempotent_second_rewriteB, Option.some_bind,
      TVMOptimizer.nonIdempotent_second_squash]
  refine ⟨h1, h2, ?_⟩
  intro more
  rw [TVMOptimizer.optimize_code_mono _ _ _ _ h1 more, Option.some_bind,
    TVMOptimizer.optimize_code_mono _ _ _ _ h2 more]
  decide

/-- C6 (amended): when the optimized log `optimize_code(L)` is one on which none of the
three rewrite functions returns a rewrite at any line, running the optimizer on it returns
it unchanged: `optimize_code(optimize_code(L)) = optimize_code(L)`. -/
theorem C6_idempotent_on_normal_forms (tc : TVMOptimizer.TvmConst) (fuel : Nat)
    (code0 out : List String)
    (h : TVMOptimizer.optimize_code tc fuel code0 = some out)
    (hn : noRewrite tc out = true) (hfuel : out.length < fuel) :
    (TVMOptimizer.optimize_code tc fuel code0).bind (TVMOptimizer.optimize_code tc fuel)
      = TVMOptimizer.optimize_code tc fuel code0 := by
  rw [h, Option.some_bind]
  have hall : ∀ i : Nat, i < out.length →
      TVMOptimizer.unsquash_push out (i : Int) = some ⟨false, 0, []⟩ ∧
      TVMOptimizer.optimize_at tc out (i : Int) = some ⟨false, 0, []⟩ ∧
      TVMOptimizer.squash_push out (i : Int) = some ⟨false, 0, []⟩ := by
    intro i hi
    have := (List.all_eq_true.mp hn) i (List.mem_range.mpr hi)
    simpa [Bool.and_eq_true, and_assoc] using this
  have p1 := TVMOptimizer.optimize_normal TVMOptimizer.unsquash_push out
    (fun i hi => (hall i hi).1) fuel hfuel
  have p2 := TVMOptimizer.optimize_normal (TVMOptimizer.optimize_at tc) out
    (fun i hi => (hall i hi).2.1) fuel hfuel
  have p3 := TVMOptimizer.optimize_normal TVMOptimizer.squash_push out
    (fun i hi => (hall i hi).2.2) fuel hfuel
  simp [TVMOptimizer.optimize_code, p1, p2, p3]

/-- C6 (amended) at the log `PUSHINT 1; ADD`, optimized to `INC`. -/
theorem C6_idempotent_on_normal_forms_witness :
    TVMOptimizer.optimize_code sampleTvmConst 3 ["PUSHINT 1", "ADD"] = some ["INC"] ∧
      noRewrite sampleTvmConst ["INC"] = true ∧
      (TVMOptimizer.optimize_code sampleTvmConst 3 ["PUSHINT 1", "ADD"]).bind
          (TVMOptimizer.optimize_code sampleTvmConst 3)
        = TVMOptimizer.optimize_code sampleTvmConst 3 ["PUSHINT 1", "ADD"] :=
  ⟨by decide, by decide,
    C6_idempotent_on_normal_forms sampleTvmConst 3 ["PUSHINT 1", "ADD"] ["INC"]
      (by decide) (by decide) (by decide)⟩

/-! ### The size of a rewrite of `optimize_at` -/

namespace TVMOptimizer

set_option linter.unusedTactic false
set_option linter.unreachableTactic false

theorem make_DROP_cases (n : Int) (d : List String) (h : make_DROP n = some d) :
    0 < n ∧ ((n ≤ 15 ∧ d.length = 1) ∨ (15 < n ∧ d = ["PUSHINT " ++ toString n, "DROPX"])) := by
  unfold make_DROP at h
  split_ifs at h with h0 h1 h2 h3
  · simp only [Option.some.injEq] at h; subst h
    exact ⟨by omega, Or.inl ⟨by omega, rfl⟩⟩
  · simp only [Option.some.injEq] at h; subst h
    exact ⟨by omega, Or.inl ⟨by omega, rfl⟩⟩
  · simp only [Option.some.injEq] at h; subst h
    exact ⟨by omega, Or.inl ⟨by omega, rfl⟩⟩
  · simp only [Option.some.injEq] at h; subst h
    exact ⟨by omega, Or.inr ⟨by omega, rfl⟩⟩

theorem make_DROP_length (n : Int) (d : List String) (h : make_DROP n = some d) :
    d.length ≤ 2 := by
  rcases (make_DROP_cases n d h).2 with ⟨_, h1⟩ | ⟨_, h1⟩
  · omega
  · rw [h1]; simp

theorem try_simulate_loop_spec (lines_ : List String) :
    ∀ (fuel : Nat) (first : Bool) (i ss rc : Int) (cmds : List String) (rc1 : Int)
      (cmds1 : List String),
      try_simulate_loop lines_ fuel first i ss rc cmds = some (some (rc1, cmds1)) →
      ∃ pre tail, cmds1 = pre ++ tail ∧
        (pre.length : Int) = cmds.length + (rc1 - rc) - (if first then 1 else 2) ∧
        (tail = [] ∨ ∃ n, 0 < n ∧ make_DROP n = some tail) := by
  intro fuel
  induction fuel with
  | zero => intro first i ss rc cmds rc1 cmds1 h; simp [try_simulate_loop] at h
  | succ k ih =>
    intro first i ss rc cmds rc1 cmds1 h
    unfold try_simulate_loop at h
    simp only at h
    generalize hi : (if first = true then i else next_command_line lines_ i) = i1 at h
    generalize hr : (if first = true then rc else rc + 1) = r1 at h
    have hr1 : r1 - rc = if first = true then 0 else 1 := by
      subst hr; cases first <;> simp
    have recur : ∀ (ss1 : Int) (x : String),
        try_simulate_loop lines_ k false i1 ss1 r1 (cmds ++ [x]) = some (some (rc1, cmds1)) →
        ∃ pre tail, cmds1 = pre ++ tail ∧
          (pre.length : Int) = cmds.length + (rc1 - rc) - (if first then 1 else 2) ∧
          (tail = [] ∨ ∃ n, 0 < n ∧ make_DROP n = some tail) := by
      intro ss1 x hh
      obtain ⟨pre, tail, h1, h2, h3⟩ := ih _ _ _ _ _ _ _ hh
      refine ⟨pre, tail, h1, ?_, h3⟩
      simp only [List.length_append, List.length_singleton, Nat.cast_add, Nat.cast_one,
        Bool.false_eq_true, if_false] at h2
      cases first <;> simp at hr1 ⊢ <;> omega
    have final : ∀ tail : List String, (tail = [] ∨ ∃ n, 0 < n ∧ make_DROP n = some tail) →
        some (some (r1 + 1, cmds ++ tail)) = some (some (rc1, cmds1)) →
        ∃ pre tail, cmds1 = pre ++ tail ∧
          (pre.length : Int) = cmds.length + (rc1 - rc) - (if first then 1 else 2) ∧
          (tail = [] ∨ ∃ n, 0 < n ∧ make_DROP n = some tail) := by
      intro tail ht hh
      simp only [Option.some.injEq, Prod.mk.injEq] at hh
      obtain ⟨e1, e2⟩ := hh
      refine ⟨cmds, tail, e2.symm, ?_, ht⟩
      cases first <;> simp at hr1 ⊢ <;> omega
    by_cases hv : valid lines_ i1 = true
    swap
    · rw [if_pos hv] at h; cases h
    rw [if_neg (not_not.mpr hv)] at h
    cases hc : cmd lines_ i1 with
    | none => rw [hc] at h; cases h
    | some c =>
      rw [hc] at h
      simp only at h
      by_cases hpush : c.is_PUSH = true
      · rw [if_pos hpush] at h
        cases hpi : c.get_push_index with
        | none => rw [hpi] at h; cases h
        | some pi =>
          rw [hpi] at h
          simp only at h
          by_cases e1 : pi + 1 = ss
          · rw [if_pos e1] at h; cases h
          rw [if_neg e1] at h
          by_cases e2 : pi + 1 < ss
          · rw [if_pos e2] at h; exact recur _ _ h
          rw [if_neg e2] at h
          by_cases e3 : pi = 0
          · rw [if_pos e3] at h; cases h
          rw [if_neg e3] at h
          cases hm : make_PUSH (pi - 1) with
          | none => rw [hm] at h; cases h
          | some s => rw [hm] at h; exact recur _ _ h
      rw [if_neg hpush] at h
      by_cases hpop : c.is_POP = true
      · rw [if_pos hpop] at h
        by_cases e0 : ss = 1
        · rw [if_pos e0] at h; cases h
        rw [if_neg e0] at h
        cases hpi : c.get_pop_index with
        | none => rw [hpi] at h; cases h
        | some pi =>
          rw [hpi] at h
          simp only at h
          by_cases e1 : pi + 1 = ss
          · rw [if_pos e1] at h; cases h
          rw [if_neg e1] at h
          by_cases e2 : pi + 1 < ss
          · rw [if_pos e2] at h; exact recur _ _ h
          rw [if_neg e2] at h
          cases hm : make_POP (pi - 1) with
          | none => rw [hm] at h; cases h
          | some s => rw [hm] at h; exact recur _ _ h
      rw [if_neg hpop] at h
      by_cases hblk : c.is "BLKPUSH" = true
      · rw [if_pos hblk] at h
        cases hsec : c.fetch_second_int with
        | none => rw [hsec] at h; cases h
        | some sec =>
          rw [hsec] at h
          simp only at h
          by_cases e1 : sec + 1 < ss
          · rw [if_pos e1] at h
            cases hfst : c.fetch_first_int with
            | none => rw [hfst] at h; cases h
            | some fst => rw [hfst] at h; exact recur _ _ h
          · rw [if_neg e1] at h; cases h
      rw [if_neg hblk] at h
      by_cases hnip : c.is_NIP = true
      · rw [if_pos hnip] at h
        by_cases e1 : ss = 2
        · rw [if_pos e1] at h
          exact final [] (Or.inl rfl) (by simpa using h)
        rw [if_neg e1] at h
        by_cases e2 : ss > 2
        · rw [if_pos e2] at h; exact recur _ _ h
        · rw [if_neg e2] at h; cases h
      rw [if_neg hnip] at h
      cases hd : c.get_drop_index with
      | none => rw [hd] at h; cases h
      | some n =>
        rw [hd] at h
        simp only at h
        by_cases e1 : n > 0
        · rw [if_pos e1] at h
          by_cases e2 : ss ≤ n
          · rw [if_pos e2] at h
            by_cases e3 : n > 1
            · rw [if_pos e3] at h
              cases hm : make_DROP (n - 1) with
              | none => rw [hm] at h; cases h
              | some dropOpcodes =>
                rw [hm] at h
                exact final dropOpcodes (Or.inr ⟨n - 1, by omega, hm⟩) h
            · rw [if_neg e3] at h
              exact final [] (Or.inl rfl) (by simpa using h)
          · rw [if_neg e2] at h; exact recur _ _ h
        rw [if_neg e1] at h
        by_cases hs : c.is_simple_command_ = true
        · rw [if_pos hs] at h
          by_cases e2 : ss ≤ c.inputs_count_
          · rw [if_pos e2] at h; cases h
          · rw [if_neg e2] at h; exact recur _ _ h
        · rw [if_neg hs] at h; cases h

theorem try_simulate_spec (lines_ : List String) (i ss rc : Int) (cmds : List String)
    (rc1 : Int) (cmds1 : List String)
    (h : try_simulate lines_ i ss rc cmds = some (some (rc1, cmds1))) :
    ∃ pre tail, cmds1 = pre ++ tail ∧
      (pre.length : Int) = cmds.length + (rc1 - rc) - 1 ∧
      (tail = [] ∨ ∃ n, 0 < n ∧ make_DROP n = some tail) := by
  unfold try_simulate at h
  by_cases hv : valid lines_ i = true
  · rw [if_neg (not_not.mpr hv)] at h
    have := try_simulate_loop_spec lines_ _ _ _ _ _ _ _ _ h
    simpa using this
  · rw [if_pos hv] at h; cases h


theorem countWhile_nonneg (lines_ : List String) (p : Cmd → Option Bool) :
    ∀ (fuel : Nat) (i n : Int), countWhile lines_ p fuel i = some n → 0 ≤ n := by
  intro fuel
  induction fuel with
  | zero => intro i n h; simp [countWhile] at h
  | succ k ih =>
    intro i n h
    unfold countWhile at h
    cases hc : cmd lines_ i with
    | none => rw [hc] at h; cases h
    | some c =>
      rw [hc] at h
      simp only at h
      cases hp : p c with
      | none => rw [hp] at h; cases h
      | some b =>
        rw [hp] at h
        cases b
        · simp only [Option.some.injEq] at h; omega
        · simp only at h
          cases hr : countWhile lines_ p k (next_command_line lines_ i) with
          | none => rw [hr] at h; cases h
          | some m =>
            rw [hr] at h
            simp only [Option.map_some', Option.some.injEq] at h
            have := ih _ _ hr
            omega

theorem countWhile_step (lines_ : List String) (p : Cmd → Option Bool) (fuel : Nat)
    (i n : Int) (c : Cmd) (h : countWhile lines_ p fuel i = some n)
    (hc : cmd lines_ i = some c) (hp : p c = some true) :
    ∃ k m, fuel = k + 1 ∧ countWhile lines_ p k (next_command_line lines_ i) = some m ∧
      n = m + 1 := by
  cases fuel with
  | zero => simp [countWhile] at h
  | succ k =>
    unfold countWhile at h
    rw [hc] at h
    simp only [hp] at h
    cases hr : countWhile lines_ p k (next_command_line lines_ i) with
    | none => rw [hr] at h; cases h
    | some m =>
      rw [hr] at h
      simp only [Option.map_some', Option.some.injEq] at h
      exact ⟨k, m, rfl, hr, h.symm⟩

theorem blkpushZeros_length :
    ∀ (fuel : Nat) (m : Int) (r : List String), blkpushZeros fuel m = some r →
      (r.length : Int) ≤ max m 0 := by
  intro fuel
  induction fuel with
  | zero => intro m r h; simp [blkpushZeros] at h
  | succ k ih =>
    intro m r h
    unfold blkpushZeros at h
    by_cases hm : m > 0
    · rw [if_pos hm] at h
      cases h1 : make_BLKPUSH (min 15 m) 0 with
      | none => rw [h1] at h; simp at h
      | some s =>
        cases h2 : blkpushZeros k (m - min 15 m) with
        | none => rw [h1, h2] at h; simp at h
        | some r1 =>
          rw [h1, h2] at h
          simp only [Option.some.injEq] at h
          subst h
          have := ih _ _ h2
          rw [List.length_cons]
          push_cast
          omega
    · rw [if_neg hm] at h
      simp only [Option.some.injEq] at h
      subst h
      simp

theorem countDrops_nonneg (lines_ : List String) :
    ∀ (fuel : Nat) (i n total : Int), countDrops lines_ fuel i = some (n, total) → 0 ≤ n := by
  intro fuel
  induction fuel with
  | zero => intro i n total h; simp [countDrops] at h
  | succ k ih =>
    intro i n total h
    unfold countDrops at h
    cases hc : cmd lines_ i with
    | none => rw [hc] at h; cases h
    | some c =>
      rw [hc] at h
      simp only at h
      cases hd : c.get_drop_index with
      | none => rw [hd] at h; cases h
      | some d =>
        rw [hd] at h
        simp only at h
        by_cases e : d > 0
        · rw [if_pos e] at h
          cases hr : countDrops lines_ k (next_command_line lines_ i) with
          | none => rw [hr] at h; cases h
          | some r =>
            obtain ⟨a, b⟩ := r
            rw [hr] at h
            simp only [Option.map_some', Option.some.injEq, Prod.mk.injEq] at h
            have := ih _ _ _ hr
            omega
        · rw [if_neg e] at h
          simp only [Option.some.injEq, Prod.mk.injEq] at h
          omega

theorem countDrops_step (lines_ : List String) (fuel : Nat) (i n total : Int) (c : Cmd)
    (d : Int) (h : countDrops lines_ fuel i = some (n, total))
    (hc : cmd lines_ i = some c) (hd : c.get_drop_index = some d) (hpos : d > 0) :
    ∃ k m t, fuel = k + 1 ∧ countDrops lines_ k (next_command_line lines_ i) = some (m, t) ∧
      n = m + 1 := by
  cases fuel with
  | zero => simp [countDrops] at h
  | succ k =>
    unfold countDrops at h
    rw [hc] at h
    simp only [hd, if_pos hpos] at h
    cases hr : countDrops lines_ k (next_command_line lines_ i) with
    | none => rw [hr] at h; cases h
    | some r =>
      obtain ⟨a, b⟩ := r
      rw [hr] at h
      simp only [Option.map_some', Option.some.injEq, Prod.mk.injEq] at h
      exact ⟨k, a, b, rfl, hr, h.1.symm⟩

theorem Window.at_spec (lines_ : List String) (idx1 : Int) (w : Window)
    (h : Window.at lines_ idx1 = some w) :
    w.lines_ = lines_ ∧ w.idx1 = idx1 ∧ w.idx2 = next_command_line lines_ idx1 ∧
      cmd lines_ idx1 = some w.cmd1 ∧
      cmd lines_ (next_command_line lines_ idx1) = some w.cmd2 := by
  unfold Window.at at h
  simp only at h
  split at h
  · rename_i c1 c2 c3 c4 c5 c6 h1 h2 h3 h4 h5 h6
    simp only [Option.some.injEq] at h
    subst h
    exact ⟨rfl, rfl, rfl, h1, h2⟩
  · cases h

theorem simulateRule_spec (w : Window) (i ss rc : Int) (cmds : List String) (res : Result)
    (h : simulateRule w i ss rc cmds = some (some res)) :
    ∃ pre tail, res.commands_ = pre ++ tail ∧
      (pre.length : Int) = cmds.length + (res.remove_ - rc) - 1 ∧
      (tail = [] ∨ ∃ n, 0 < n ∧ make_DROP n = some tail) := by
  unfold simulateRule at h
  cases ht : try_simulate w.lines_ i ss rc cmds with
  | none => rw [ht] at h; cases h
  | some o =>
    cases o with
    | none => rw [ht] at h; simp [miss] at h
    | some pr =>
      obtain ⟨n, cs⟩ := pr
      rw [ht] at h
      simp only [hit, Option.some.injEq] at h
      subst h
      exact try_simulate_spec _ _ _ _ _ _ _ ht

theorem simulate_tail_cases (tail : List String)
    (h : tail = [] ∨ ∃ n, 0 < n ∧ make_DROP n = some tail) :
    tail.length ≤ 1 ∨ ∃ n : Int, 15 < n ∧ tail = ["PUSHINT " ++ toString n, "DROPX"] := by
  rcases h with h | ⟨n, _, hn⟩
  · left; rw [h]; simp
  · rcases (make_DROP_cases n tail hn).2 with ⟨_, h1⟩ | ⟨h1, h2⟩
    · left; omega
    · right; exact ⟨n, h1, h2⟩

theorem rule443_le (w : Window) (res : Result) (lines_ : List String) (idx1 : Int)
    (hw : Window.at lines_ idx1 = some w) (h : rule443 w = some (some res)) :
    res.commands_.length ≤ res.remove_.toNat := by
  obtain ⟨hl, hi1, hi2, hc1, hc2⟩ := Window.at_spec _ _ _ hw
  unfold rule443 at h
  by_cases hn : (w.cmd1.is_NIP && w.cmd2.is_NIP && w.cmd3.is_NIP) = true
  · rw [if_pos hn] at h
    simp only [Bool.and_eq_true] at hn
    cases hcw : countWhile w.lines_ (fun c => some c.is_NIP) (w.lines_.length + 1) w.idx1 with
    | none => rw [hcw] at h; cases h
    | some n0 =>
      rw [hcw] at h
      simp only [hit, Option.some.injEq] at h
      subst h
      rw [hl, hi1] at hcw
      obtain ⟨k, m, _, hk, e1⟩ := countWhile_step _ _ _ _ _ _ hcw hc1 (by simp [hn.1.1])
      obtain ⟨k2, m2, _, hk2, e2⟩ := countWhile_step _ _ _ _ _ _ hk hc2 (by simp [hn.1.2])
      have := countWhile_nonneg _ _ _ _ _ hk2
      simp only [List.length_cons, List.length_nil]
      split_ifs <;> omega
  · rw [if_neg hn] at h; simp [miss] at h

theorem rule459_le (w : Window) (res : Result) (h : rule459 w = some (some res)) :
    res.commands_.length ≤ res.remove_.toNat := by
  unfold rule459 at h
  simp only [hit, miss] at h
  repeat' split at h
  all_goals first
    | (simp at h <;> fail)
    | (simp only [Option.some.injEq] at h
       subst h
       rename_i n _ hn r hr
       have := blkpushZeros_length _ _ _ hr
       simp only [List.length_cons]
       omega)

theorem rule490_le (w : Window) (res : Result) (h : rule490 w = some (some res)) :
    res.commands_.length ≤ res.remove_.toNat := by
  unfold rule490 at h
  simp only [hit, miss] at h
  repeat' split at h
  all_goals first
    | (simp at h <;> fail)
    | (simp only [Option.some.injEq] at h
       subst h
       simp only [List.length_cons, List.length_nil]
       omega)

theorem rule501_le (w : Window) (res : Result) (h : rule501 w = some (some res)) :
    res.commands_.length ≤ res.remove_.toNat := by
  unfold rule501 at h
  simp only [hit, miss] at h
  repeat' split at h
  all_goals first
    | (simp at h <;> fail)
    | (simp at h; subst h; simp; done)
    | (simp only [Option.some.injEq] at h
       subst h
       have := make_DROP_length _ _ (by assumption)
       simpa using this)

theorem rule508_le (w : Window) (res : Result) (h : rule508 w = some (some res)) :
    res.commands_.length ≤ res.remove_.toNat := by
  unfold rule508 at h
  simp only [hit, miss] at h
  repeat' split at h
  all_goals first
    | (simp at h <;> fail)
    | (simp at h; subst h; simp; done)
    | (simp only [Option.some.injEq] at h
       subst h
       have := make_DROP_length _ _ (by assumption)
       simpa using this)

theorem rule517_le (w : Window) (res : Result) (h : rule517 w = some (some res)) :
    res.commands_.length ≤ res.remove_.toNat := by
  unfold rule517 at h
  simp only [hit, miss] at h
  repeat' split at h
  all_goals first
    | (simp at h <;> fail)
    | (simp at h; subst h; simp; done)
    | (simp only [Option.some.injEq] at h
       subst h
       have := make_DROP_length _ _ (by assumption)
       simpa using this)

theorem rule523_le (w : Window) (res : Result) (h : rule523 w = some (some res)) :
    res.commands_.length ≤ res.remove_.toNat := by
  unfold rule523 at h
  simp only [hit, miss] at h
  repeat' split at h
  all_goals first
    | (simp at h <;> fail)
    | (simp only [Option.some.injEq] at h
       subst h
       rename_i d hd
       have : d = ["DROP"] := by
         have e : make_DROP 1 = some ["DROP"] := by decide
         rw [e] at hd
         exact (Option.some.inj hd).symm
       subst this
       simp)

theorem rule528_le (w : Window) (res : Result) (h : rule528 w = some (some res)) :
    res.commands_.length ≤ res.remove_.toNat := by
  unfold rule528 at h
  simp only [hit, miss] at h
  repeat' split at h
  all_goals first
    | (simp at h <;> fail)
    | (simp only [Option.some.injEq] at h
       subst h
       have := make_DROP_length _ _ (by assumption)
       simpa using this)

theorem rule537_le (w : Window) (res : Result) (lines_ : List String) (idx1 : Int)
    (hw : Window.at lines_ idx1 = some w) (h : rule537 w = some (some res)) :
    res.commands_.length ≤ res.remove_.toNat := by
  obtain ⟨hl, hi1, hi2, hc1, hc2⟩ := Window.at_spec _ _ _ hw
  unfold rule537 at h
  simp only [hit, miss] at h
  cases hd1 : w.cmd1.get_drop_index with
  | none => rw [hd1] at h; cases h
  | some d1 =>
    rw [hd1] at h
    simp only at h
    by_cases e1 : d1 > 0
    swap
    · rw [if_neg e1] at h; simp at h
    rw [if_pos e1] at h
    cases hd2 : w.cmd2.get_drop_index with
    | none => rw [hd2] at h; cases h
    | some d2 =>
      rw [hd2] at h
      simp only at h
      by_cases e2 : d2 > 0
      swap
      · rw [if_neg e2] at h; simp at h
      rw [if_pos e2] at h
      cases hcd : countDrops w.lines_ (w.lines_.length + 1) w.idx1 with
      | none => rw [hcd] at h; cases h
      | some r =>
        obtain ⟨n, total⟩ := r
        rw [hcd] at h
        simp only at h
        by_cases e3 : total > 1
        swap
        · rw [if_neg e3] at h; simp at h
        rw [if_pos e3] at h
        cases hm : make_DROP total with
        | none => rw [hm] at h; cases h
        | some d =>
          rw [hm] at h
          simp only [Option.some.injEq] at h
          subst h
          rw [hl, hi1] at hcd
          obtain ⟨k, m, t, _, hk, en⟩ := countDrops_step _ _ _ _ _ _ _ hcd hc1 hd1 e1
          obtain ⟨k2, m2, t2, _, hk2, en2⟩ := countDrops_step _ _ _ _ _ _ _ hk hc2 hd2 e2
          have := countDrops_nonneg _ _ _ _ _ hk2
          have := make_DROP_length _ _ hm
          simp only
          omega

theorem rule640_le (w : Window) (res : Result) (h : rule640 w = some (some res)) :
    res.commands_.length ≤ res.remove_.toNat := by
  unfold rule640 at h
  simp only [hit, miss] at h
  repeat' split at h
  all_goals first
    | (simp at h <;> fail)
    | (simp only [Option.some.injEq] at h
       subst h
       have := make_DROP_length _ _ (by assumption)
       simp only [List.length_cons]
       simp
       omega)

theorem oneSlice_le (opcodes : Option (List String)) (remove : Int) (head : String)
    (tail : List String) (res : Result) (h : oneSlice opcodes remove head tail = some (some res)) :
    res.remove_ = remove ∧ res.commands_.length = tail.length + 1 := by
  unfold oneSlice at h
  split at h
  · cases h
  · simp only [hit, Option.some.injEq] at h
    subst h
    simp
  · simp [miss] at h

theorem rule676_le (tc : TvmConst) (w : Window) (res : Result) (h : rule676 tc w = some (some res)) :
    res.commands_.length ≤ res.remove_.toNat := by
  unfold rule676 at h
  split at h
  · obtain ⟨h1, h2⟩ := oneSlice_le _ _ _ _ _ h
    rw [h1, h2]
    decide
  · simp [miss] at h

theorem rule688_le (tc : TvmConst) (w : Window) (res : Result) (h : rule688 tc w = some (some res)) :
    res.commands_.length ≤ res.remove_.toNat := by
  unfold rule688 at h
  split at h
  · obtain ⟨h1, h2⟩ := oneSlice_le _ _ _ _ _ h
    rw [h1, h2]
    decide
  · simp [miss] at h

theorem rule716_le (tc : TvmConst) (w : Window) (res : Result) (h : rule716 tc w = some (some res)) :
    res.commands_.length ≤ res.remove_.toNat := by
  unfold rule716 at h
  split at h
  · obtain ⟨h1, h2⟩ := oneSlice_le _ _ _ _ _ h
    rw [h1, h2]
    decide
  · simp [miss] at h

theorem rule725_le (tc : TvmConst) (w : Window) (res : Result) (h : rule725 tc w = some (some res)) :
    res.commands_.length ≤ res.remove_.toNat := by
  unfold rule725 at h
  split at h
  · obtain ⟨h1, h2⟩ := oneSlice_le _ _ _ _ _ h
    rw [h1, h2]
    decide
  · simp [miss] at h

theorem rule698_le (tc : TvmConst) (w : Window) (res : Result)
    (h : rule698 tc w = some (some res)) :
    res.commands_.length ≤ res.remove_.toNat := by
  unfold rule698 at h
  simp only [miss] at h
  repeat' split at h
  all_goals first
    | (simp at h <;> fail)
    | (obtain ⟨h1, h2⟩ := oneSlice_le _ _ _ _ _ h
       rw [h1, h2]
       decide)

theorem rule548_le (w : Window) (res : Result) (h : rule548 w = some (some res)) :
    res.commands_.length ≤ res.remove_.toNat := by
  unfold rule548 at h
  simp only [miss] at h
  repeat' split at h
  all_goals first
    | (simp at h <;> fail)
    | (obtain ⟨pre, tail, h1, h2, h3⟩ := simulateRule_spec _ _ _ _ _ _ h
       have ht := make_DROP_length
       rcases h3 with h3 | ⟨n, _, hn⟩
       · rw [h1, h3]; simp at h2 ⊢; omega
       · have := make_DROP_length _ _ hn
         rw [h1]; simp at h2 ⊢; omega)

theorem rule562_le (w : Window) (res : Result) (h : rule562 w = some (some res)) :
    res.commands_.length ≤ res.remove_.toNat := by
  unfold rule562 at h
  simp only [miss] at h
  repeat' split at h
  all_goals first
    | (simp at h <;> fail)
    | (obtain ⟨pre, tail, h1, h2, h3⟩ := simulateRule_spec _ _ _ _ _ _ h
       rcases h3 with h3 | ⟨n, _, hn⟩
       · rw [h1, h3]; simp at h2 ⊢; omega
       · have := make_DROP_length _ _ hn
         rw [h1]; simp at h2 ⊢; omega)

theorem rule555_le (w : Window) (res : Result) (h : rule555 w = some (some res)) :
    res.commands_.length ≤ res.remove_.toNat ∨
      ∃ (n : Int) (pre : List String), 15 < n ∧
        res.commands_ = pre ++ ["PUSHINT " ++ toString n, "DROPX"] ∧
        pre.length ≤ res.remove_.toNat := by
  unfold rule555 at h
  simp only [miss] at h
  repeat' split at h
  all_goals first
    | (simp at h <;> fail)
    | (obtain ⟨pre, tail, h1, h2, h3⟩ := simulateRule_spec _ _ _ _ _ _ h
       rcases simulate_tail_cases _ h3 with h4 | ⟨n, hn, h4⟩
       · left; rw [h1]; simp at h2 ⊢; omega
       · right
         refine ⟨n, pre, hn, by rw [h1, h4], ?_⟩
         simp at h2; omega)

theorem rule569_le (w : Window) (res : Result) (h : rule569 w = some (some res)) :
    res.commands_.length ≤ res.remove_.toNat ∨
      ∃ (n : Int) (pre : List String), 15 < n ∧
        res.commands_ = pre ++ ["PUSHINT " ++ toString n, "DROPX"] ∧
        pre.length ≤ res.remove_.toNat := by
  unfold rule569 at h
  simp only [miss] at h
  repeat' split at h
  all_goals first
    | (simp at h <;> fail)
    | (obtain ⟨pre, tail, h1, h2, h3⟩ := simulateRule_spec _ _ _ _ _ _ h
       rcases simulate_tail_cases _ h3 with h4 | ⟨n, hn, h4⟩
       · left; rw [h1]; simp at h2 ⊢; omega
       · right
         refine ⟨n, pre, hn, by rw [h1, h4], ?_⟩
         simp at h2; omega)

theorem rule576_le (w : Window) (res : Result) (h : rule576 w = some (some res)) :
    res.commands_.length ≤ res.remove_.toNat ∨
      (∃ (n : Int) (pre : List String), 15 < n ∧
        res.commands_ = pre ++ ["PUSHINT " ++ toString n, "DROPX"] ∧
        pre.length ≤ res.remove_.toNat) ∨
      (∃ (k : Int) (pre : List String) (d : String), 0 < k ∧ k ≤ 15 ∧
        make_DROP k = some [d] ∧ res.commands_ = pre ++ [d] ∧
        pre.length = res.remove_.toNat) := by
  unfold rule576 at h
  simp only [miss] at h
  repeat' split at h
  all_goals first
    | (simp at h <;> fail)
    | (obtain ⟨pre, tail, h1, h2, h3⟩ := simulateRule_spec _ _ _ _ _ _ h
       rcases h3 with h3 | ⟨n, hpos, hn⟩
       · left; rw [h1, h3]; simp at h2 ⊢; omega
       · rcases (make_DROP_cases n tail hn).2 with ⟨hle, hlen⟩ | ⟨hgt, htail⟩
         · right; right
           obtain ⟨d, hd⟩ : ∃ d, tail = [d] := by
             match tail, hlen with
             | [d], _ => exact ⟨d, rfl⟩
           subst hd
           refine ⟨n, pre, d, hpos, hle, hn, h1, ?_⟩
           simp at h2; omega
         · right; left
           refine ⟨n, pre, hgt, by rw [h1, htail], ?_⟩
           simp at h2; omega)

theorem pushSliceResult_le (tc : TvmConst) (bitStr : Option (List Char)) (remove : Int)
    (res : Result) (h : pushSliceResult tc bitStr remove = some (some res)) :
    res.remove_ = remove ∧ res.commands_.length = 3 := by
  unfold pushSliceResult at h
  split at h
  · cases h
  · exact oneSlice_le _ _ _ _ _ h

theorem rule950_le (tc : TvmConst) (w : Window) (res : Result)
    (h : rule950 tc w = some (some res)) :
    res.commands_.length ≤ res.remove_.toNat := by
  unfold rule950 at h
  simp only [miss] at h
  repeat' split at h
  all_goals first
    | (simp at h <;> fail)
    | (obtain ⟨h1, h2⟩ := pushSliceResult_le _ _ _ _ h
       rw [h1, h2]
       decide)

theorem rule966_le (tc : TvmConst) (w : Window) (res : Result)
    (h : rule966 tc w = some (some res)) :
    res.commands_.length ≤ res.remove_.toNat := by
  unfold rule966 at h
  simp only [miss] at h
  repeat' split at h
  all_goals first
    | (simp at h <;> fail)
    | (obtain ⟨h1, h2⟩ := pushSliceResult_le _ _ _ _ h
       rw [h1, h2]
       decide)

theorem rule984_le (tc : TvmConst) (w : Window) (res : Result)
    (h : rule984 tc w = some (some res)) :
    res.commands_.length ≤ res.remove_.toNat := by
  unfold rule984 at h
  simp only [miss] at h
  repeat' split at h
  all_goals first
    | (simp at h <;> fail)
    | (obtain ⟨h1, h2⟩ := pushSliceResult_le _ _ _ _ h
       rw [h1, h2]
       decide)

theorem rule1073_le (tc : TvmConst) (w : Window) (res : Result)
    (h : rule1073 tc w = some (some res)) :
    res.commands_.length ≤ res.remove_.toNat := by
  unfold rule1073 at h
  simp only [miss] at h
  repeat' split at h
  all_goals first
    | (simp at h <;> fail)
    | (obtain ⟨h1, h2⟩ := oneSlice_le _ _ _ _ _ h
       rw [h1, h2]
       decide)

theorem rule1052_le (tc : TvmConst) (w : Window) (res : Result)
    (h : rule1052 tc w = some (some res)) :
    res.commands_.length ≤ res.remove_.toNat := by
  unfold rule1052 at h
  simp only [hit, miss] at h
  repeat' split at h
  all_goals first
    | (simp at h <;> fail)
    | (simp only [Option.some.injEq] at h
       subst h
       simp only [List.length_cons, List.length_nil]
       omega)

theorem rule396_le (w : Window) (res : Result) (h : rule396 w = some (some res)) :
    res.commands_.length ≤ res.remove_.toNat := by
  unfold rule396 at h
  simp only [hit, miss] at h
  repeat' split at h
  all_goals first
    | (simp at h <;> fail)
    | (simp at h; subst h; simp; done)
    | (simp at h; subst h; decide)

theorem rule403_le (w : Window) (res : Result) (h : rule403 w = some (some res)) :
    res.commands_.length ≤ res.remove_.toNat := by
  unfold rule403 at h
  simp only [hit, miss] at h
  repeat' split at h
  all_goals first
    | (simp at h <;> fail)
    | (simp at h; subst h; simp; done)
    | (simp at h; subst h; decide)

theorem rule412_le (w : Window) (res : Result) (h : rule412 w = some (some res)) :
    res.commands_.length ≤ res.remove_.toNat := by
  unfold rule412 at h
  simp only [hit, miss] at h
  repeat' split at h
  all_goals first
    | (simp at h <;> fail)
    | (simp at h; subst h; simp; done)
    | (simp at h; subst h; decide)

theorem rule426_le (w : Window) (res : Result) (h : rule426 w = some (some res)) :
    res.commands_.length ≤ res.remove_.toNat := by
  unfold rule426 at h
  simp only [hit, miss] at h
  repeat' split at h
  all_goals first
    | (simp at h <;> fail)
    | (simp at h; subst h; simp; done)
    | (simp at h; subst h; decide)

theorem rule431_le (w : Window) (res : Result) (h : rule431 w = some (some res)) :
    res.commands_.length ≤ res.remove_.toNat := by
  unfold rule431 at h
  simp only [hit, miss] at h
  repeat' split at h
  all_goals first
    | (simp at h <;> fail)
    | (simp at h; subst h; simp; done)
    | (simp at h; subst h; decide)

theorem rule434_le (w : Window) (res : Result) (h : rule434 w = some (some res)) :
    res.commands_.length ≤ res.remove_.toNat := by
  unfold rule434 at h
  simp only [hit, miss] at h
  repeat' split at h
  all_goals first
    | (simp at h <;> fail)
    | (simp at h; subst h; simp; done)
    | (simp at h; subst h; decide)

theorem rule452_le (w : Window) (res : Result) (h : rule452 w = some (some res)) :
    res.commands_.length ≤ res.remove_.toNat := by
  unfold rule452 at h
  simp only [hit, miss] at h
  repeat' split at h
  all_goals first
    | (simp at h <;> fail)
    | (simp at h; subst h; simp; done)
    | (simp at h; subst h; decide)

theorem rule476_le (w : Window) (res : Result) (h : rule476 w = some (some res)) :
    res.commands_.length ≤ res.remove_.toNat := by
  unfold rule476 at h
  simp only [hit, miss] at h
  repeat' split at h
  all_goals first
    | (simp at h <;> fail)
    | (simp at h; subst h; simp; done)
    | (simp at h; subst h; decide)

theorem rule479_le (w : Window) (res : Result) (h : rule479 w = some (some res)) :
    res.commands_.length ≤ res.remove_.toNat := by
  unfold rule479 at h
  simp only [hit, miss] at h
  repeat' split at h
  all_goals first
    | (simp at h <;> fail)
    | (simp at h; subst h; simp; done)
    | (simp at h; subst h; decide)

theorem rule531_le (w : Window) (res : Result) (h : rule531 w = some (some res)) :
    res.commands_.length ≤ res.remove_.toNat := by
  unfold rule531 at h
  simp only [hit, miss] at h
  repeat' split at h
  all_goals first
    | (simp at h <;> fail)
    | (simp at h; subst h; simp; done)
    | (simp at h; subst h; decide)

theorem rule590_le (w : Window) (res : Result) (h : rule590 w = some (some res)) :
    res.commands_.length ≤ res.remove_.toNat := by
  unfold rule590 at h
  simp only [hit, miss] at h
  repeat' split at h
  all_goals first
    | (simp at h <;> fail)
    | (simp at h; subst h; simp; done)
    | (simp at h; subst h; decide)

theorem rule597_le (w : Window) (res : Result) (h : rule597 w = some (some res)) :
    res.commands_.length ≤ res.remove_.toNat := by
  unfold rule597 at h
  simp only [hit, miss] at h
  repeat' split at h
  all_goals first
    | (simp at h <;> fail)
    | (simp at h; subst h; simp; done)
    | (simp at h; subst h; decide)

theorem rule600_le (w : Window) (res : Result) (h : rule600 w = some (some res)) :
    res.commands_.length ≤ res.remove_.toNat := by
  unfold rule600 at h
  simp only [hit, miss] at h
  repeat' split at h
  all_goals first
    | (simp at h <;> fail)
    | (simp at h; subst h; simp; done)
    | (simp at h; subst h; decide)

theorem rule603_le (w : Window) (res : Result) (h : rule603 w = some (some res)) :
    res.commands_.length ≤ res.remove_.toNat := by
  unfold rule603 at h
  simp only [hit, miss] at h
  repeat' split at h
  all_goals first
    | (simp at h <;> fail)
    | (simp at h; subst h; simp; done)
    | (simp at h; subst h; decide)

theorem rule606_le (w : Window) (res : Result) (h : rule606 w = some (some res)) :
    res.commands_.length ≤ res.remove_.toNat := by
  unfold rule606 at h
  simp only [hit, miss] at h
  repeat' split at h
  all_goals first
    | (simp at h <;> fail)
    | (simp at h; subst h; simp; done)
    | (simp at h; subst h; decide)

theorem rule612_le (w : Window) (res : Result) (h : rule612 w = some (some res)) :
    res.commands_.length ≤ res.remove_.toNat := by
  unfold rule612 at h
  simp only [hit, miss] at h
  repeat' split at h
  all_goals first
    | (simp at h <;> fail)
    | (simp at h; subst h; simp; done)
    | (simp at h; subst h; decide)

theorem rule618_le (w : Window) (res : Result) (h : rule618 w = some (some res)) :
    res.commands_.length ≤ res.remove_.toNat := by
  unfold rule618 at h
  simp only [hit, miss] at h
  repeat' split at h
  all_goals first
    | (simp at h <;> fail)
    | (simp at h; subst h; simp; done)
    | (simp at h; subst h; decide)

theorem rule623_le (w : Window) (res : Result) (h : rule623 w = some (some res)) :
    res.commands_.length ≤ res.remove_.toNat := by
  unfold rule623 at h
  simp only [hit, miss] at h
  repeat' split at h
  all_goals first
    | (simp at h <;> fail)
    | (simp at h; subst h; simp; done)
    | (simp at h; subst h; decide)

theorem rule628_le (w : Window) (res : Result) (h : rule628 w = some (some res)) :
    res.commands_.length ≤ res.remove_.toNat := by
  unfold rule628 at h
  simp only [hit, miss] at h
  repeat' split at h
  all_goals first
    | (simp at h <;> fail)
    | (simp at h; subst h; simp; done)
    | (simp at h; subst h; decide)

theorem rule632_le (w : Window) (res : Result) (h : rule632 w = some (some res)) :
    res.commands_.length ≤ res.remove_.toNat := by
  unfold rule632 at h
  simp only [hit, miss] at h
  repeat' split at h
  all_goals first
    | (simp at h <;> fail)
    | (simp at h; subst h; simp; done)
    | (simp at h; subst h; decide)

theorem rule636_le (w : Window) (res : Result) (h : rule636 w = some (some res)) :
    res.commands_.length ≤ res.remove_.toNat := by
  unfold rule636 at h
  simp only [hit, miss] at h
  repeat' split at h
  all_goals first
    | (simp at h <;> fail)
    | (simp at h; subst h; simp; done)
    | (simp at h; subst h; decide)

theorem rule666_le (w : Window) (res : Result) (h : rule666 w = some (some res)) :
    res.commands_.length ≤ res.remove_.toNat := by
  unfold rule666 at h
  simp only [hit, miss] at h
  repeat' split at h
  all_goals first
    | (simp at h <;> fail)
    | (simp at h; subst h; simp; done)
    | (simp at h; subst h; decide)

theorem rule669_le (w : Window) (res : Result) (h : rule669 w = some (some res)) :
    res.commands_.length ≤ res.remove_.toNat := by
  unfold rule669 at h
  simp only [hit, miss] at h
  repeat' split at h
  all_goals first
    | (simp at h <;> fail)
    | (simp at h; subst h; simp; done)
    | (simp at h; subst h; decide)

theorem rule672_le (w : Window) (res : Result) (h : rule672 w = some (some res)) :
    res.commands_.length ≤ res.remove_.toNat := by
  unfold rule672 at h
  simp only [hit, miss] at h
  repeat' split at h
  all_goals first
    | (simp at h <;> fail)
    | (simp at h; subst h; simp; done)
    | (simp at h; subst h; decide)

theorem rule709_le (tc : TvmConst) (w : Window) (res : Result)
    (h : rule709 tc w = some (some res)) :
    res.commands_.length ≤ res.remove_.toNat := by
  unfold rule709 at h
  simp only [hit, miss] at h
  repeat' split at h
  all_goals first
    | (simp at h <;> fail)
    | (simp at h; subst h; simp; done)
    | (simp at h; subst h; decide)

theorem rule735_le (w : Window) (res : Result) (h : rule735 w = some (some res)) :
    res.commands_.length ≤ res.remove_.toNat := by
  unfold rule735 at h
  simp only [hit, miss] at h
  repeat' split at h
  all_goals first
    | (simp at h <;> fail)
    | (simp at h; subst h; simp; done)
    | (simp at h; subst h; decide)

theorem rule740_le (w : Window) (res : Result) (h : rule740 w = some (some res)) :
    res.commands_.length ≤ res.remove_.toNat := by
  unfold rule740 at h
  simp only [hit, miss] at h
  repeat' split at h
  all_goals first
    | (simp at h <;> fail)
    | (simp at h; subst h; simp; done)
    | (simp at h; subst h; decide)

theorem rule744_le (w : Window) (res : Result) (h : rule744 w = some (some res)) :
    res.commands_.length ≤ res.remove_.toNat := by
  unfold rule744 at h
  simp only [hit, miss] at h
  repeat' split at h
  all_goals first
    | (simp at h <;> fail)
    | (simp at h; subst h; simp; done)
    | (simp at h; subst h; decide)

theorem rule749_le (w : Window) (res : Result) (h : rule749 w = some (some res)) :
    res.commands_.length ≤ res.remove_.toNat := by
  unfold rule749 at h
  simp only [hit, miss] at h
  repeat' split at h
  all_goals first
    | (simp at h <;> fail)
    | (simp at h; subst h; simp; done)
    | (simp at h; subst h; decide)

theorem rule752_le (w : Window) (res : Result) (h : rule752 w = some (some res)) :
    res.commands_.length ≤ res.remove_.toNat := by
  unfold rule752 at h
  simp only [hit, miss] at h
  repeat' split at h
  all_goals first
    | (simp at h <;> fail)
    | (simp at h; subst h; simp; done)
    | (simp at h; subst h; decide)

theorem rule757_le (w : Window) (res : Result) (h : rule757 w = some (some res)) :
    res.commands_.length ≤ res.remove_.toNat := by
  unfold rule757 at h
  simp only [hit, miss] at h
  repeat' split at h
  all_goals first
    | (simp at h <;> fail)
    | (simp at h; subst h; simp; done)
    | (simp at h; subst h; decide)

theorem rule764_le (w : Window) (res : Result) (h : rule764 w = some (some res)) :
    res.commands_.length ≤ res.remove_.toNat := by
  unfold rule764 at h
  simp only [hit, miss] at h
  repeat' split at h
  all_goals first
    | (simp at h <;> fail)
    | (simp at h; subst h; simp; done)
    | (simp at h; subst h; decide)

theorem rule769_le (w : Window) (res : Result) (h : rule769 w = some (some res)) :
    res.commands_.length ≤ res.remove_.toNat := by
  unfold rule769 at h
  simp only [hit, miss] at h
  repeat' split at h
  all_goals first
    | (simp at h <;> fail)
    | (simp at h; subst h; simp; done)
    | (simp at h; subst h; decide)

theorem rule773_le (w : Window) (res : Result) (h : rule773 w = some (some res)) :
    res.commands_.length ≤ res.remove_.toNat := by
  unfold rule773 at h
  simp only [hit, miss] at h
  repeat' split at h
  all_goals first
    | (simp at h <;> fail)
    | (simp at h; subst h; simp; done)
    | (simp at h; subst h; decide)

theorem rule777_le (w : Window) (res : Result) (h : rule777 w = some (some res)) :
    res.commands_.length ≤ res.remove_.toNat := by
  unfold rule777 at h
  simp only [hit, miss] at h
  repeat' split at h
  all_goals first
    | (simp at h <;> fail)
    | (simp at h; subst h; simp; done)
    | (simp at h; subst h; decide)

theorem rule787_le (w : Window) (res : Result) (h : rule787 w = some (some res)) :
    res.commands_.length ≤ res.remove_.toNat := by
  unfold rule787 at h
  simp only [hit, miss] at h
  repeat' split at h
  all_goals first
    | (simp at h <;> fail)
    | (simp at h; subst h; simp; done)
    | (simp at h; subst h; decide)

theorem rule795_le (w : Window) (res : Result) (h : rule795 w = some (some res)) :
    res.commands_.length ≤ res.remove_.toNat := by
  unfold rule795 at h
  simp only [hit, miss] at h
  repeat' split at h
  all_goals first
    | (simp at h <;> fail)
    | (simp at h; subst h; simp; done)
    | (simp at h; subst h; decide)

theorem rule803_le (w : Window) (res : Result) (h : rule803 w = some (some res)) :
    res.commands_.length ≤ res.remove_.toNat := by
  unfold rule803 at h
  simp only [hit, miss] at h
  repeat' split at h
  all_goals first
    | (simp at h <;> fail)
    | (simp at h; subst h; simp; done)
    | (simp at h; subst h; decide)

theorem rule817_le (w : Window) (res : Result) (h : rule817 w = some (some res)) :
    res.commands_.length ≤ res.remove_.toNat := by
  unfold rule817 at h
  simp only [hit, miss] at h
  repeat' split at h
  all_goals first
    | (simp at h <;> fail)
    | (simp at h; subst h; simp; done)
    | (simp at h; subst h; decide)

theorem rule821_le (w : Window) (res : Result) (h : rule821 w = some (some res)) :
    res.commands_.length ≤ res.remove_.toNat := by
  unfold rule821 at h
  simp only [hit, miss] at h
  repeat' split at h
  all_goals first
    | (simp at h <;> fail)
    | (simp at h; subst h; simp; done)
    | (simp at h; subst h; decide)

theorem rule833_le (w : Window) (res : Result) (h : rule833 w = some (some res)) :
    res.commands_.length ≤ res.remove_.toNat := by
  unfold rule833 at h
  simp only [hit, miss] at h
  repeat' split at h
  all_goals first
    | (simp at h <;> fail)
    | (simp at h; subst h; simp; done)
    | (simp at h; subst h; decide)

theorem rule843_le (w : Window) (res : Result) (h : rule843 w = some (some res)) :
    res.commands_.length ≤ res.remove_.toNat := by
  unfold rule843 at h
  simp only [hit, miss] at h
  repeat' split at h
  all_goals first
    | (simp at h <;> fail)
    | (simp at h; subst h; simp; done)
    | (simp at h; subst h; decide)

theorem rule855_le (w : Window) (res : Result) (h : rule855 w = some (some res)) :
    res.commands_.length ≤ res.remove_.toNat := by
  unfold rule855 at h
  simp only [hit, miss] at h
  repeat' split at h
  all_goals first
    | (simp at h <;> fail)
    | (simp at h; subst h; simp; done)
    | (simp at h; subst h; decide)

theorem rule864_le (w : Window) (res : Result) (h : rule864 w = some (some res)) :
    res.commands_.length ≤ res.remove_.toNat := by
  unfold rule864 at h
  simp only [hit, miss] at h
  repeat' split at h
  all_goals first
    | (simp at h <;> fail)
    | (simp at h; subst h; simp; done)
    | (simp at h; subst h; decide)

theorem rule874_le (w : Window) (res : Result) (h : rule874 w = some (some res)) :
    res.commands_.length ≤ res.remove_.toNat := by
  unfold rule874 at h
  simp only [hit, miss] at h
  repeat' split at h
  all_goals first
    | (simp at h <;> fail)
    | (simp at h; subst h; simp; done)
    | (simp at h; subst h; decide)

theorem rule886_le (w : Window) (res : Result) (h : rule886 w = some (some res)) :
    res.commands_.length ≤ res.remove_.toNat := by
  unfold rule886 at h
  simp only [hit, miss] at h
  repeat' split at h
  all_goals first
    | (simp at h <;> fail)
    | (simp at h; subst h; simp; done)
    | (simp at h; subst h; decide)

theorem rule897_le (w : Window) (res : Result) (h : rule897 w = some (some res)) :
    res.commands_.length ≤ res.remove_.toNat := by
  unfold rule897 at h
  simp only [hit, miss] at h
  repeat' split at h
  all_goals first
    | (simp at h <;> fail)
    | (simp at h; subst h; simp; done)
    | (simp at h; subst h; decide)

theorem rule909_le (w : Window) (res : Result) (h : rule909 w = some (some res)) :
    res.commands_.length ≤ res.remove_.toNat := by
  unfold rule909 at h
  simp only [hit, miss] at h
  repeat' split at h
  all_goals first
    | (simp at h <;> fail)
    | (simp at h; subst h; simp; done)
    | (simp at h; subst h; decide)

theorem rule914_le (w : Window) (res : Result) (h : rule914 w = some (some res)) :
    res.commands_.length ≤ res.remove_.toNat := by
  unfold rule914 at h
  simp only [hit, miss] at h
  repeat' split at h
  all_goals first
    | (simp at h <;> fail)
    | (simp at h; subst h; simp; done)
    | (simp at h; subst h; decide)

theorem rule918_le (w : Window) (res : Result) (h : rule918 w = some (some res)) :
    res.commands_.length ≤ res.remove_.toNat := by
  unfold rule918 at h
  simp only [hit, miss] at h
  repeat' split at h
  all_goals first
    | (simp at h <;> fail)
    | (simp at h; subst h; simp; done)
    | (simp at h; subst h; decide)

theorem rule928_le (w : Window) (res : Result) (h : rule928 w = some (some res)) :
    res.commands_.length ≤ res.remove_.toNat := by
  unfold rule928 at h
  simp only [hit, miss] at h
  repeat' split at h
  all_goals first
    | (simp at h <;> fail)
    | (simp at h; subst h; simp; done)
    | (simp at h; subst h; decide)

theorem rule935_le (w : Window) (res : Result) (h : rule935 w = some (some res)) :
    res.commands_.length ≤ res.remove_.toNat := by
  unfold rule935 at h
  simp only [hit, miss] at h
  repeat' split at h
  all_goals first
    | (simp at h <;> fail)
    | (simp at h; subst h; simp; done)
    | (simp at h; subst h; decide)

theorem rule945_le (w : Window) (res : Result) (h : rule945 w = some (some res)) :
    res.commands_.length ≤ res.remove_.toNat := by
  unfold rule945 at h
  simp only [hit, miss] at h
  repeat' split at h
  all_goals first
    | (simp at h <;> fail)
    | (simp at h; subst h; simp; done)
    | (simp at h; subst h; decide)




theorem rule1001_le (w : Window) (res : Result) (h : rule1001 w = some (some res)) :
    res.commands_.length ≤ res.remove_.toNat := by
  unfold rule1001 at h
  simp only [hit, miss] at h
  repeat' split at h
  all_goals first
    | (simp at h <;> fail)
    | (simp at h; subst h; simp; done)
    | (simp at h; subst h; decide)

theorem rule1013_le (w : Window) (res : Result) (h : rule1013 w = some (some res)) :
    res.commands_.length ≤ res.remove_.toNat := by
  unfold rule1013 at h
  simp only [hit, miss] at h
  repeat' split at h
  all_goals first
    | (simp at h <;> fail)
    | (simp at h; subst h; simp; done)
    | (simp at h; subst h; decide)

theorem rule1031_le (w : Window) (res : Result) (h : rule1031 w = some (some res)) :
    res.commands_.length ≤ res.remove_.toNat := by
  unfold rule1031 at h
  simp only [hit, miss] at h
  repeat' split at h
  all_goals first
    | (simp at h <;> fail)
    | (simp at h; subst h; simp; done)
    | (simp at h; subst h; decide)

theorem rule1044_le (w : Window) (res : Result) (h : rule1044 w = some (some res)) :
    res.commands_.length ≤ res.remove_.toNat := by
  unfold rule1044 at h
  simp only [hit, miss] at h
  repeat' split at h
  all_goals first
    | (simp at h <;> fail)
    | (simp at h; subst h; simp; done)
    | (simp at h; subst h; decide)



theorem rule1093_le (w : Window) (res : Result) (h : rule1093 w = some (some res)) :
    res.commands_.length ≤ res.remove_.toNat := by
  unfold rule1093 at h
  simp only [hit, miss] at h
  repeat' split at h
  all_goals first
    | (simp at h <;> fail)
    | (simp at h; subst h; simp; done)
    | (simp at h; subst h; decide)

theorem rule1105_le (w : Window) (res : Result) (h : rule1105 w = some (some res)) :
    res.commands_.length ≤ res.remove_.toNat := by
  unfold rule1105 at h
  simp only [hit, miss] at h
  repeat' split at h
  all_goals first
    | (simp at h <;> fail)
    | (simp at h; subst h; simp; done)
    | (simp at h; subst h; decide)

theorem rule1120_le (w : Window) (res : Result) (h : rule1120 w = some (some res)) :
    res.commands_.length ≤ res.remove_.toNat := by
  unfold rule1120 at h
  simp only [hit, miss] at h
  repeat' split at h
  all_goals first
    | (simp at h <;> fail)
    | (simp at h; subst h; simp; done)
    | (simp at h; subst h; decide)

theorem rule1130_le (w : Window) (res : Result) (h : rule1130 w = some (some res)) :
    res.commands_.length ≤ res.remove_.toNat := by
  unfold rule1130 at h
  simp only [hit, miss] at h
  repeat' split at h
  all_goals first
    | (simp at h <;> fail)
    | (simp at h; subst h; simp; done)
    | (simp at h; subst h; decide)

theorem rule1137_le (w : Window) (res : Result) (h : rule1137 w = some (some res)) :
    res.commands_.length ≤ res.remove_.toNat := by
  unfold rule1137 at h
  simp only [hit, miss] at h
  repeat' split at h
  all_goals first
    | (simp at h <;> fail)
    | (simp at h; subst h; simp; done)
    | (simp at h; subst h; decide)

theorem firstRule_mem :
    ∀ (rs : List (Window → RuleResult)) (w : Window) (res : Result),
      firstRule rs w = some res → res.continue_ = true → ∃ r ∈ rs, r w = some (some res) := by
  intro rs
  induction rs with
  | nil =>
    intro w res h hc
    simp only [firstRule, Option.some.injEq] at h
    subst h
    cases hc
  | cons r rest ih =>
    intro w res h hc
    unfold firstRule at h
    cases hr : r w with
    | none => rw [hr] at h; cases h
    | some o =>
      cases o with
      | none =>
        rw [hr] at h
        obtain ⟨r1, hm, h1⟩ := ih w res h hc
        exact ⟨r1, List.mem_cons_of_mem _ hm, h1⟩
      | some res1 =>
        rw [hr] at h
        simp only [Option.some.injEq] at h
        subst h
        exact ⟨r, List.mem_cons_self _ _, hr⟩

theorem optimize_at_rewrite_size (tc : TvmConst) (lines_ : List String) (idx1 : Int)
    (res : Result) (h : optimize_at tc lines_ idx1 = some res) (hc : res.continue_ = true) :
    res.commands_.length ≤ res.remove_.toNat ∨
      (∃ (n : Int) (pre : List String), 15 < n ∧
        res.commands_ = pre ++ ["PUSHINT " ++ toString n, "DROPX"] ∧
        pre.length ≤ res.remove_.toNat) ∨
      (∃ w, Window.at lines_ idx1 = some w ∧ rule576 w = some (some res) ∧
        ∃ (k : Int) (pre : List String) (d : String), 0 < k ∧ k ≤ 15 ∧
          make_DROP k = some [d] ∧ res.commands_ = pre ++ [d] ∧
          pre.length = res.remove_.toNat) := by
  unfold optimize_at at h
  cases hw : Window.at lines_ idx1 with
  | none => rw [hw] at h; cases h
  | some w =>
    rw [hw] at h
    simp only at h
    obtain ⟨r, hr, hrw⟩ := firstRule_mem _ _ _ h hc
    simp only [rules, List.mem_cons, List.mem_singleton, List.not_mem_nil, or_false] at hr
    rcases hr with rfl | rfl | rfl | rfl | rfl | rfl | rfl | rfl | rfl | rfl | rfl | rfl | rfl | rfl | rfl | rfl | rfl | rfl | rfl | rfl | rfl | rfl | rfl | rfl | rfl | rfl | rfl | rfl | rfl | rfl | rfl | rfl | rfl | rfl | rfl | rfl | rfl | rfl | rfl | rfl | rfl | rfl | rfl | rfl | rfl | rfl | rfl | rfl | rfl | rfl | rfl | rfl | rfl | rfl | rfl | rfl | rfl | rfl | rfl | rfl | rfl | rfl | rfl | rfl | rfl | rfl | rfl | rfl | rfl | rfl | rfl | rfl | rfl | rfl | rfl | rfl | rfl | rfl | rfl | rfl | rfl | rfl | rfl | rfl | rfl | rfl | rfl
    · exact Or.inl (rule396_le w res hrw)
    · exact Or.inl (rule403_le w res hrw)
    · exact Or.inl (rule412_le w res hrw)
    · exact Or.inl (rule426_le w res hrw)
    · exact Or.inl (rule431_le w res hrw)
    · exact Or.inl (rule434_le w res hrw)
    · exact Or.inl (rule443_le w res lines_ idx1 hw hrw)
    · exact Or.inl (rule452_le w res hrw)
    · exact Or.inl (rule459_le w res hrw)
    · exact Or.inl (rule476_le w res hrw)
    · exact Or.inl (rule479_le w res hrw)
    · exact Or.inl (rule490_le w res hrw)
    · exact Or.inl (rule501_le w res hrw)
    · exact Or.inl (rule508_le w res hrw)
    · exact Or.inl (rule517_le w res hrw)
    · exact Or.inl (rule523_le w res hrw)
    · exact Or.inl (rule528_le w res hrw)
    · exact Or.inl (rule531_le w res hrw)
    · exact Or.inl (rule537_le w res lines_ idx1 hw hrw)
    · exact Or.inl (rule548_le w res hrw)
    · rcases rule555_le w res hrw with h1 | h1
      · exact Or.inl h1
      · exact Or.inr (Or.inl h1)
    · exact Or.inl (rule562_le w res hrw)
    · rcases rule569_le w res hrw with h1 | h1
      · exact Or.inl h1
      · exact Or.inr (Or.inl h1)
    · rcases rule576_le w res hrw with h1 | h1 | h1
      · exact Or.inl h1
      · exact Or.inr (Or.inl h1)
      · exact Or.inr (Or.inr ⟨w, rfl, hrw, h1⟩)
    · exact Or.inl (rule590_le w res hrw)
    · exact Or.inl (rule597_le w res hrw)
    · exact Or.inl (rule600_le w res hrw)
    · exact Or.inl (rule603_le w res hrw)
    · exact Or.inl (rule606_le w res hrw)
    · exact Or.inl (rule612_le w res hrw)
    · exact Or.inl (rule618_le w res hrw)
    · exact Or.inl (rule623_le w res hrw)
    · exact Or.inl (rule628_le w res hrw)
    · exact Or.inl (rule632_le w res hrw)
    · exact Or.inl (rule636_le w res hrw)
    · exact Or.inl (rule640_le w res hrw)
    · exact Or.inl (rule666_le w res hrw)
    · exact Or.inl (rule669_le w res hrw)
    · exact Or.inl (rule672_le w res hrw)
    · exact Or.inl (rule676_le tc w res hrw)
    · exact Or.inl (rule688_le tc w res hrw)
    · exact Or.inl (rule698_le tc w res hrw)
    · exact Or.inl (rule709_le tc w res hrw)
    · exact Or.inl (rule716_le tc w res hrw)
    · exact Or.inl (rule725_le tc w res hrw)
    · exact Or.inl (rule735_le w res hrw)
    · exact Or.inl (rule740_le w res hrw)
    · exact Or.inl (rule744_le w res hrw)
    · exact Or.inl (rule749_le w res hrw)
    · exact Or.inl (rule752_le w res hrw)
    · exact Or.inl (rule757_le w res hrw)
    · exact Or.inl (rule764_le w res hrw)
    · exact Or.inl (rule769_le w res hrw)
    · exact Or.inl (rule773_le w res hrw)
    · exact Or.inl (rule777_le w res hrw)
    · exact Or.inl (rule787_le w res hrw)
    · exact Or.inl (rule795_le w res hrw)
    · exact Or.inl (rule803_le w res hrw)
    · exact Or.inl (rule817_le w res hrw)
    · exact Or.inl (rule821_le w res hrw)
    · exact Or.inl (rule833_le w res hrw)
    · exact Or.inl (rule843_le w res hrw)
    · exact Or.inl (rule855_le w res hrw)
    · exact Or.inl (rule864_le w res hrw)
    · exact Or.inl (rule874_le w res hrw)
    · exact Or.inl (rule886_le w res hrw)
    · exact Or.inl (rule897_le w res hrw)
    · exact Or.inl (rule909_le w res hrw)
    · exact Or.inl (rule914_le w res hrw)
    · exact Or.inl (rule918_le w res hrw)
    · exact Or.inl (rule928_le w res hrw)
    · exact Or.inl (rule935_le w res hrw)
    · exact Or.inl (rule945_le w res hrw)
    · exact Or.inl (rule950_le tc w res hrw)
    · exact Or.inl (rule966_le tc w res hrw)
    · exact Or.inl (rule984_le tc w res hrw)
    · exact Or.inl (rule1001_le w res hrw)
    · exact Or.inl (rule1013_le w res hrw)
    · exact Or.inl (rule1031_le w res hrw)
    · exact Or.inl (rule1044_le w res hrw)
    · exact Or.inl (rule1052_le tc w res hrw)
    · exact Or.inl (rule1073_le tc w res hrw)
    · exact Or.inl (rule1093_le w res hrw)
    · exact Or.inl (rule1105_le w res hrw)
    · exact Or.inl (rule1120_le w res hrw)
    · exact Or.inl (rule1130_le w res hrw)
    · exact Or.inl (rule1137_le w res hrw)

end TVMOptimizer

/-- C16 (counterexample): at position 0 of the log `GETGLOB 1; UNPAIR; BLKDROP 3`
`optimize_at` returns a rewrite that removes three instructions and puts four in their
place, none of them `DROPX`. -/
theorem C16_counterexample :
    TVMOptimizer.optimize_at sampleTvmConst ["GETGLOB 1", "UNPAIR", "BLKDROP 3"] 0
        = some ⟨true, 3, ["DROP", "GETGLOB 1", "UNPAIR", "DROP2"]⟩ ∧
      ¬ (["DROP", "GETGLOB 1", "UNPAIR", "DROP2"].length ≤ (3 : Int).toNat) ∧
      "DROPX" ∉ ["DROP", "GETGLOB 1", "UNPAIR", "DROP2"] := by
  decide

/-- C16 (amended): a rewrite returned by `optimize_at` has at most as many replacement
commands as it removes lines, except that (a) a replacement ending with the expansion
`PUSHINT n; DROPX` of a drop of `n > 15` values has at most two more, and (b) the rewrite of
lines 576-582, which puts a `DROP` in front of a run of commands ending in a drop of
`k + 1 ≥ 2` values and replaces that drop by one of `k ≤ 15` values, has exactly one
more. -/
theorem C16_rewrite_size (tc : TVMOptimizer.TvmConst) (lines_ : List String) (idx1 : Int)
    (res : TVMOptimizer.Result) (h : TVMOptimizer.optimize_at tc lines_ idx1 = some res)
    (hc : res.continue_ = true) :
    res.commands_.length ≤ res.remove_.toNat ∨
      (∃ (n : Int) (pre : List String), 15 < n ∧
        res.commands_ = pre ++ ["PUSHINT " ++ toString n, "DROPX"] ∧
        pre.length ≤ res.remove_.toNat) ∨
      (∃ w, TVMOptimizer.Window.at lines_ idx1 = some w ∧
        TVMOptimizer.rule576 w = some (some res) ∧
        ∃ (k : Int) (pre : List String) (d : String), 0 < k ∧ k ≤ 15 ∧
          TVMOptimizer.make_DROP k = some [d] ∧ res.commands_ = pre ++ [d] ∧
          pre.length = res.remove_.toNat) :=
  TVMOptimizer.optimize_at_rewrite_size tc lines_ idx1 res h hc

/-- C16 (amended) at the rewrite `SWAP; SUB` to `SUBR` and at the log of the
counterexample. -/
theorem C16_rewrite_size_witness :
    TVMOptimizer.optimize_at sampleTvmConst ["SWAP", "SUB"] 0 = some ⟨true, 2, ["SUBR"]⟩ ∧
      ((["SUBR"] : List String).length ≤ (2 : Int).toNat ∨
        (∃ (n : Int) (pre : List String), 15 < n ∧
          ["SUBR"] = pre ++ ["PUSHINT " ++ toString n, "DROPX"] ∧
          pre.length ≤ (2 : Int).toNat) ∨
        (∃ w, TVMOptimizer.Window.at ["SWAP", "SUB"] 0 = some w ∧
          TVMOptimizer.rule576 w = some (some ⟨true, 2, ["SUBR"]⟩) ∧
          ∃ (k : Int) (pre : List String) (d : String), 0 < k ∧ k ≤ 15 ∧
            TVMOptimizer.make_DROP k = some [d] ∧ ["SUBR"] = pre ++ [d] ∧
            pre.length = (2 : Int).toNat)) :=
  ⟨by decide,
    C16_rewrite_size sampleTvmConst ["SWAP", "SUB"] 0 ⟨true, 2, ["SUBR"]⟩ (by decide) rfl⟩

/-! ### The order of the rules of `optimize_at` -/

namespace TVMOptimizer

theorem rules_eq (tc : TvmConst) :
    rules tc = patternRulesBefore ++ (simulationRules ++ patternRulesAfter tc) := rfl

theorem firstRule_append (a b : List (Window → RuleResult)) (w : Window) :
    firstRule (a ++ b) w =
      if ∀ r ∈ a, r w = some none then firstRule b w else firstRule a w := by
  induction a with
  | nil => simp
  | cons r rest ih =>
    rw [List.cons_append]
    cases hr : r w with
    | none => simp [firstRule, hr]
    | some o =>
      cases o with
      | none => simp only [firstRule, hr, ih, List.mem_cons, forall_eq_or_imp, true_and]
      | some res => simp [firstRule, hr]

end TVMOptimizer

/-- C29 (counterexample): at position 0 of the log `NEWC; ENDC; DROP2` the pattern rule of
lines 913-915 (`NEWC; ENDC` becomes `PUSHREF`) matches, no pattern rule of lines 396-547
matches, and `optimize_at` returns the rewrite of the simulation rule of lines 576-582. -/
theorem C29_counterexample :
    TVMOptimizer.optimize_at sampleTvmConst ["NEWC", "ENDC", "DROP2"] 0
        = some ⟨true, 3, ["DROP", "NEWC", "ENDC", "DROP"]⟩ ∧
      (TVMOptimizer.Window.at ["NEWC", "ENDC", "DROP2"] 0).map TVMOptimizer.rule576
        = some (some (some ⟨true, 3, ["DROP", "NEWC", "ENDC", "DROP"]⟩)) ∧
      (TVMOptimizer.Window.at ["NEWC", "ENDC", "DROP2"] 0).map TVMOptimizer.rule914
        = some (some (some ⟨true, 2, ["PUSHREF \x7b", "\x7d"]⟩)) ∧
      (TVMOptimizer.Window.at ["NEWC", "ENDC", "DROP2"] 0).map
          (TVMOptimizer.firstRule TVMOptimizer.patternRulesBefore)
        = some (some ⟨false, 0, []⟩) := by
  decide

/-- C29 (amended): the rules of `optimize_at` are the pattern rules of lines 396-547, then
the simulation rules, then the pattern rules of lines 590-1144. When a pattern rule of the
first group does not miss, `optimize_at` returns what that group returns; when they all
miss and a simulation rule does not miss, it returns what the simulation rules return,
whatever the pattern rules of the last group would return; the last group is tried only
when all others miss. -/
theorem C29_rule_order (tc : TVMOptimizer.TvmConst) (lines_ : List String) (idx1 : Int)
    (w : TVMOptimizer.Window) (hw : TVMOptimizer.Window.at lines_ idx1 = some w) :
    TVMOptimizer.rules tc = TVMOptimizer.patternRulesBefore ++
        (TVMOptimizer.simulationRules ++ TVMOptimizer.patternRulesAfter tc) ∧
      TVMOptimizer.optimize_at tc lines_ idx1 =
        if ∀ r ∈ TVMOptimizer.patternRulesBefore, r w = some none then
          if ∀ r ∈ TVMOptimizer.simulationRules, r w = some none then
            TVMOptimizer.firstRule (TVMOptimizer.patternRulesAfter tc) w
          else TVMOptimizer.firstRule TVMOptimizer.simulationRules w
        else TVMOptimizer.firstRule TVMOptimizer.patternRulesBefore w := by
  refine ⟨rfl, ?_⟩
  unfold TVMOptimizer.optimize_at
  rw [hw]
  simp only
  rw [TVMOptimizer.rules_eq, TVMOptimizer.firstRule_append, TVMOptimizer.firstRule_append]

/-- C29 (amended) at the log `NEWC; ENDC; DROP2`. -/
theorem C29_rule_order_witness :
    TVMOptimizer.rules sampleTvmConst = TVMOptimizer.patternRulesBefore ++
        (TVMOptimizer.simulationRules ++ TVMOptimizer.patternRulesAfter sampleTvmConst) ∧
      TVMOptimizer.optimize_at sampleTvmConst ["NEWC", "ENDC", "DROP2"] 0 =
        if ∀ r ∈ TVMOptimizer.patternRulesBefore,
            r ⟨["NEWC", "ENDC", "DROP2"], 0, 1, 2, -1, -1, -1,
              ⟨"", "NEWC", "", "", true, 0, 1⟩, ⟨"", "ENDC", "", "", true, 1, 1⟩,
              ⟨"", "DROP2", "", "", false, 0, 0⟩, ⟨"", "", "", "", false, 0, 0⟩,
              ⟨"", "", "", "", false, 0, 0⟩, ⟨"", "", "", "", false, 0, 0⟩⟩ = some none then
          if ∀ r ∈ TVMOptimizer.simulationRules,
              r ⟨["NEWC", "ENDC", "DROP2"], 0, 1, 2, -1, -1, -1,
                ⟨"", "NEWC", "", "", true, 0, 1⟩, ⟨"", "ENDC", "", "", true, 1, 1⟩,
                ⟨"", "DROP2", "", "", false, 0, 0⟩, ⟨"", "", "", "", false, 0, 0⟩,
                ⟨"", "", "", "", false, 0, 0⟩, ⟨"", "", "", "", false, 0, 0⟩⟩ = some none then
            TVMOptimizer.firstRule (TVMOptimizer.patternRulesAfter sampleTvmConst)
              ⟨["NEWC", "ENDC", "DROP2"], 0, 1, 2, -1, -1, -1,
                ⟨"", "NEWC", "", "", true, 0, 1⟩, ⟨"", "ENDC", "", "", true, 1, 1⟩,
                ⟨"", "DROP2", "", "", false, 0, 0⟩, ⟨"", "", "", "", false, 0, 0⟩,
                ⟨"", "", "", "", false, 0, 0⟩, ⟨"", "", "", "", false, 0, 0⟩⟩
          else TVMOptimizer.firstRule TVMOptimizer.simulationRules
            ⟨["NEWC", "ENDC", "DROP2"], 0, 1, 2, -1, -1, -1,
              ⟨"", "NEWC", "", "", true, 0, 1⟩, ⟨"", "ENDC", "", "", true, 1, 1⟩,
              ⟨"", "DROP2", "", "", false, 0, 0⟩, ⟨"", "", "", "", false, 0, 0⟩,
              ⟨"", "", "", "", false, 0, 0⟩, ⟨"", "", "", "", false, 0, 0⟩⟩
        else TVMOptimizer.firstRule TVMOptimizer.patternRulesBefore
          ⟨["NEWC", "ENDC", "DROP2"], 0, 1, 2, -1, -1, -1,
            ⟨"", "NEWC", "", "", true, 0, 1⟩, ⟨"", "ENDC", "", "", true, 1, 1⟩,
            ⟨"", "DROP2", "", "", false, 0, 0⟩, ⟨"", "", "", "", false, 0, 0⟩,
            ⟨"", "", "", "", false, 0, 0⟩, ⟨"", "", "", "", false, 0, 0⟩⟩ :=
  C29_rule_order sampleTvmConst ["NEWC", "ENDC", "DROP2"] 0 _ (by rfl)

/-! ### Numeric conversions -/

theorem pow10Loop_eq : ∀ (n : Nat) (r : Int), pow10Loop n r = r * 10 ^ n := by
  intro n
  induction n with
  | zero => intro r; simp [pow10Loop]
  | succ k ih => intro r; rw [pow10Loop, ih, pow_succ]; ring

theorem pow10_eq (power : Int) : pow10 power = 10 ^ power.toNat := by
  unfold pow10
  rw [pow10Loop_eq, one_mul]

theorem StackPusherHelper.push_run (p : StackPusherHelper) (d : Int) (cmd : String)
    (hlen : 2 ≤ cmd.length) (ht : 0 ≤ p.m_code.tabQty) (hs : 0 ≤ p.m_stack.m_size + d) :
    p.push d cmd = some ⟨⟨p.m_code.lines ++ [tabs p.m_code.tabQty ++ cmd], p.m_code.tabQty⟩,
      ⟨p.m_stack.m_size + d, p.m_stack.m_stackSize⟩⟩ := by
  have h1 : ¬ (cmd = "" ∨ cmd = "\n") := by
    rintro (h | h) <;> (rw [h] at hlen; revert hlen; decide)
  have h2 : ¬ cmd = " " := by
    intro h; rw [h] at hlen; revert hlen; decide
  unfold StackPusherHelper.push
  rw [CodeLines.push_of_keep _ _ h1 ht, Option.some_bind, TVMStack.change_of_nonneg _ _ hs]
  simp [loggedLine, h2]

theorem pushint_length (v : Int) : 2 ≤ ("PUSHINT " ++ toString v).length := by
  have : ("PUSHINT ").length = 8 := by decide
  simp only [String.length_append, this]
  omega

theorem scale_run (p : StackPusherHelper) (v : Int) (op : String) (hop : 2 ≤ op.length)
    (ht : 0 ≤ p.m_code.tabQty) (hs : 0 ≤ p.m_stack.m_size) :
    (p.pushInt v).bind (fun p1 => p1.push (-2 + 1) op)
      = some ⟨⟨p.m_code.lines ++ [tabs p.m_code.tabQty ++ ("PUSHINT " ++ toString v),
          tabs p.m_code.tabQty ++ op], p.m_code.tabQty⟩, p.m_stack⟩ := by
  obtain ⟨⟨lines, q⟩, ⟨sz, ss⟩⟩ := p
  dsimp only at ht hs ⊢
  unfold StackPusherHelper.pushInt
  rw [StackPusherHelper.push_run _ 1 _ (pushint_length v) ht (by dsimp only; omega),
    Option.some_bind,
    StackPusherHelper.push_run ⟨⟨_, q⟩, ⟨sz + 1, ss⟩⟩ (-2 + 1) op hop ht
      (by dsimp only; omega)]
  simp

theorem checkFit_run (p : StackPusherHelper) (l : SolType) (cmd : String)
    (hT : fitsCommand l = some cmd) (ht : 0 ≤ p.m_code.tabQty) (hs : 0 ≤ p.m_stack.m_size) :
    p.checkFit l
      = some ⟨⟨p.m_code.lines ++ [tabs p.m_code.tabQty ++ cmd], p.m_code.tabQty⟩, p.m_stack⟩ := by
  have hlen : 2 ≤ cmd.length := by
    have h5 : ("FITS ").length = 5 := by decide
    have h6 : ("UFITS ").length = 6 := by decide
    cases l <;> simp only [fitsCommand, Option.some.injEq] at hT <;> try cases hT
    all_goals
      split_ifs <;> simp only [String.length_append, h5, h6] <;> omega
  have key : p.checkFit l = p.push 0 cmd := by
    cases l <;> simp only [fitsCommand, Option.some.injEq] at hT <;> try cases hT
    all_goals
      rename_i isSigned
      cases isSigned <;> simp [StackPusherHelper.checkFit]
  rw [key, StackPusherHelper.push_run p 0 cmd hlen ht (by omega)]
  simp

theorem convert_tail (impl : Bool) (l : SolType) (check : String) (p : StackPusherHelper)
    (cmds : List String) (scaled : Option StackPusherHelper)
    (hT : fitsCommand l = some check) (ht : 0 ≤ p.m_code.tabQty) (hs : 0 ≤ p.m_stack.m_size)
    (h : scaled = some ⟨⟨p.m_code.lines ++ cmds.map (fun c => tabs p.m_code.tabQty ++ c),
      p.m_code.tabQty⟩, p.m_stack⟩) :
    (scaled.bind fun p1 => if ¬ impl then p1.checkFit l else some p1)
      = some ⟨⟨p.m_code.lines ++
          (cmds ++ if impl then [] else [check]).map (fun c => tabs p.m_code.tabQty ++ c),
        p.m_code.tabQty⟩, p.m_stack⟩ := by
  rw [h, Option.some_bind]
  cases impl
  · simp only [Bool.false_eq_true, not_false_eq_true, if_true, if_false]
    rw [checkFit_run ⟨⟨p.m_code.lines ++ _, p.m_code.tabQty⟩, p.m_stack⟩ l check hT ht hs]
    simp
  · simp

theorem specRescale_pos (d : Int) (h : d > 0) :
    specRescale d = ["PUSHINT " ++ toString (pow10 d), "MUL"] := by
  unfold specRescale
  rw [if_pos h, pow10_eq]

theorem specRescale_neg (d : Int) (h : d < 0) :
    specRescale d = ["PUSHINT " ++ toString (pow10 (-d)), "DIV"] := by
  unfold specRescale
  rw [if_neg (by omega), if_pos h, pow10_eq]

theorem specRescale_zero : specRescale 0 = [] := by decide

theorem scaled_run (p : StackPusherHelper) (d : Int) (ht : 0 ≤ p.m_code.tabQty)
    (hs : 0 ≤ p.m_stack.m_size) :
    (if d ≠ 0 then
        if d > 0 then (p.pushInt (pow10 d)).bind fun p1 => p1.push (-2 + 1) "MUL"
        else (p.pushInt (pow10 (-d))).bind fun p1 => p1.push (-2 + 1) "DIV"
      else some p)
      = some ⟨⟨p.m_code.lines ++ (specRescale d).map (fun c => tabs p.m_code.tabQty ++ c),
          p.m_code.tabQty⟩, p.m_stack⟩ := by
  have hmul : 2 ≤ ("MUL").length := by decide
  have hdiv : 2 ≤ ("DIV").length := by decide
  by_cases h0 : d = 0
  · subst h0
    rw [if_neg (by simp), specRescale_zero]
    simp
  · rw [if_pos h0]
    by_cases h1 : d > 0
    · rw [if_pos h1, scale_run p _ _ hmul ht hs, specRescale_pos d h1]
      simp
    · rw [if_neg h1, scale_run p _ _ hdiv ht hs, specRescale_neg d (by omega)]
      simp

/-- C30: for integer or fixed-point source and target types, on an emitter with nesting
depth and model stack size at least 0, `hardConvert` completes, appends exactly the stated
instructions (the rescaling by `10^|d|` for the digit difference `d`, then the range check of
the target iff the source is not implicitly convertible to it) and leaves the stack model
unchanged; and `pow10(n) = 10^n` for every `n ≥ 0`. -/
theorem C30_hardConvert_numeric (implicitly : SolType → SolType → Bool)
    (leftType rightType : SolType) (p : StackPusherHelper) (check : String)
    (hT : fitsCommand leftType = some check) (hS : (fitsCommand rightType).isSome = true)
    (ht : 0 ≤ p.m_code.tabQty) (hs : 0 ≤ p.m_stack.m_size) :
    hardConvert implicitly leftType rightType p
        = some ⟨⟨p.m_code.lines ++
            (specNumericConversion leftType rightType (implicitly rightType leftType)
              check).map (fun c => tabs p.m_code.tabQty ++ c), p.m_code.tabQty⟩, p.m_stack⟩ ∧
      ∀ n : Nat, pow10 (n : Int) = 10 ^ n := by
  refine ⟨?_, fun n => by rw [pow10_eq]; simp⟩
  rw [hardConvert_of_fits implicitly hT]
  unfold specNumericConversion
  generalize implicitly rightType leftType = impl
  have hT0 := hT
  cases rightType <;> simp only [fitsCommand, Option.isSome_none, Bool.false_eq_true] at hS <;>
    cases leftType <;> simp only [fitsCommand, reduceCtorEq] at hT
  · -- integer from integer
    simp only [hardConvertSwitch, fromInteger, integerFromInteger, fractionalDigitsOf]
    have := convert_tail impl _ _ p [] (some p) hT0 ht hs (by simp)
    simpa [specRescale_zero] using this
  · -- fixed point from integer
    rename_i rb rs lb lf ls
    simp only [hardConvertSwitch, fromInteger, fixedPointFromInteger, fractionalDigitsOf]
    have hsc := scaled_run p (lf : Int) ht hs
    have e : (if (lf : Int) > 0 then
          (p.pushInt (pow10 lf)).bind fun p1 => p1.push (-2 + 1) "MUL" else some p)
        = (if (lf : Int) ≠ 0 then
            if (lf : Int) > 0 then (p.pushInt (pow10 lf)).bind fun p1 => p1.push (-2 + 1) "MUL"
            else (p.pushInt (pow10 (-(lf : Int)))).bind fun p1 => p1.push (-2 + 1) "DIV"
          else some p) := by
      by_cases h0 : (lf : Int) = 0
      · simp [h0]
      · have : (lf : Int) > 0 := by omega
        simp [h0, this]
    rw [e]
    have := convert_tail impl _ _ p _ _ hT0 ht hs hsc
    simpa using this
  · -- integer from fixed point
    rename_i rb rf rs lb ls
    simp only [hardConvertSwitch, fromFixedPoint, integerFromFixedPoint, fractionalDigitsOf]
    have hsc := scaled_run p (-(rf : Int)) ht hs
    have e : (if (rf : Int) > 0 then
          (p.pushInt (pow10 rf)).bind fun p1 => p1.push (-2 + 1) "DIV" else some p)
        = (if -(rf : Int) ≠ 0 then
            if -(rf : Int) > 0 then
              (p.pushInt (pow10 (-(rf : Int)))).bind fun p1 => p1.push (-2 + 1) "MUL"
            else (p.pushInt (pow10 (- -(rf : Int)))).bind fun p1 => p1.push (-2 + 1) "DIV"
          else some p) := by
      by_cases h0 : (rf : Int) = 0
      · simp [h0]
      · have h1 : (rf : Int) > 0 := by omega
        have h2 : ¬ (-(rf : Int) > 0) := by omega
        have h3 : -(rf : Int) ≠ 0 := by omega
        rw [if_pos h1, if_pos h3, if_neg h2, neg_neg]
    rw [e]
    have := convert_tail impl _ _ p _ _ hT0 ht hs hsc
    simpa using this
  · -- fixed point from fixed point
    rename_i rb rf rs lb lf ls
    simp only [hardConvertSwitch, fromFixedPoint, fixedPointFromFixedPoint, fractionalDigitsOf]
    have hsc := scaled_run p ((lf : Int) - (rf : Int)) ht hs
    have := convert_tail impl _ _ p _ _ hT0 ht hs hsc
    simpa using this

/-- C30 at a conversion from `fixed64x5` to `int16` that is not implicit. -/
theorem C30_hardConvert_numeric_witness :
    hardConvert (fun _ _ => false) (SolType.Integer 16 true) (SolType.FixedPoint 64 5 true)
        ⟨⟨["NEWC"], 1⟩, ⟨1, []⟩⟩
      = some ⟨⟨["NEWC", "\tPUSHINT 100000", "\tDIV", "\tFITS 16"], 1⟩, ⟨1, []⟩⟩ ∧
      ∀ n : Nat, pow10 (n : Int) = 10 ^ n :=
  ⟨by decide,
    (C30_hardConvert_numeric (fun _ _ => false) (SolType.Integer 16 true)
      (SolType.FixedPoint 64 5 true) ⟨⟨["NEWC"], 1⟩, ⟨1, []⟩⟩ "FITS 16" (by decide)
      (by decide) (by decide) (by decide)).2⟩

/-! ### Stack exchanges -/

theorem push_zero_run (p : StackPusherHelper) (cmd : String) (hlen : 2 ≤ cmd.length)
    (ht : 0 ≤ p.m_code.tabQty) :
    p.push 0 cmd
      = some ⟨⟨p.m_code.lines ++ [tabs p.m_code.tabQty ++ cmd], p.m_code.tabQty⟩, p.m_stack⟩ := by
  have h1 : ¬ (cmd = "" ∨ cmd = "\n") := by
    rintro (h | h) <;> (rw [h] at hlen; revert hlen; decide)
  have h2 : ¬ cmd = " " := by
    intro h; rw [h] at hlen; revert hlen; decide
  unfold StackPusherHelper.push
  rw [CodeLines.push_of_keep _ _ h1 ht, Option.some_bind]
  simp [TVMStack.change, loggedLine, h2]

theorem specExchangeTop_length (j : Int) : 2 ≤ (specExchangeTop j).length := by
  have h1 : ("XCHG s").length = 6 := by decide
  have h2 : ("XCHG s0,s").length = 9 := by decide
  unfold specExchangeTop
  split_ifs
  · decide
  · simp only [String.length_append, h1]; omega
  · simp only [String.length_append, h2]; omega

theorem exchangeLoop_top (fuel : Nat) (p : StackPusherHelper) (j : Int) (h1 : 1 ≤ j)
    (h2 : j ≤ 255) (ht : 0 ≤ p.m_code.tabQty) :
    exchangeLoop (fuel + 1) p 0 j
      = some ⟨⟨p.m_code.lines ++ [tabs p.m_code.tabQty ++ specExchangeTop j],
          p.m_code.tabQty⟩, p.m_stack⟩ := by
  have hlen := specExchangeTop_length j
  rw [← push_zero_run p _ hlen ht]
  unfold exchangeLoop specExchangeTop
  rw [if_neg (by omega), if_neg (by omega), if_neg (by omega), if_pos ⟨rfl, h2⟩]
  split_ifs <;> rfl

/-- C21: on an emitter with nesting depth at least 0, for `0 ≤ i ≤ j` and `j ≥ 1`,
`exchange(i, j)` aborts when `j > 255`; otherwise it completes, leaves the stack model
unchanged and appends: the one instruction `SWAP` / `XCHG sj` / `XCHG s0,sj` when `i = 0`,
the one instruction `XCHG si,sj` when `1 ≤ i < j ≤ 15`, and in every remaining case the
three single instructions of `exchange(0, i)`, `exchange(0, j)`, `exchange(0, i)`. -/
theorem C21_exchange (p : StackPusherHelper) (i j : Int) (hi : 0 ≤ i) (hij : i ≤ j)
    (hj : 1 ≤ j) (ht : 0 ≤ p.m_code.tabQty) :
    (255 < j → p.exchange i j = none) ∧
      (j ≤ 255 → p.exchange i j
        = some ⟨⟨p.m_code.lines ++ (specExchange i j).map (fun c => tabs p.m_code.tabQty ++ c),
            p.m_code.tabQty⟩, p.m_stack⟩) ∧
      (specExchange i j).length = (if i = 0 ∨ (i < j ∧ j ≤ 15) then 1 else 3) := by
  refine ⟨?_, ?_, ?_⟩
  · intro h
    unfold StackPusherHelper.exchange exchangeLoop
    rw [if_neg (by omega), if_neg (by omega), if_neg (by omega), if_neg (by omega),
      if_neg (by omega), if_neg (by omega), if_neg (by omega)]
  · intro h
    unfold StackPusherHelper.exchange
    by_cases h0 : i = 0
    · subst h0
      rw [exchangeLoop_top 1 p j hj h ht]
      simp [specExchange]
    by_cases h1 : i < j ∧ j ≤ 15
    · have hlen : 2 ≤ ("XCHG s" ++ toString i ++ ",s" ++ toString j).length := by
        have e : ("XCHG s").length = 6 := by decide
        simp only [String.length_append, e]; omega
      have key : exchangeLoop 2 p i j
          = p.push 0 ("XCHG s" ++ toString i ++ ",s" ++ toString j) := by
        unfold exchangeLoop
        rw [if_neg (by omega), if_neg (by omega), if_neg (by omega),
          if_neg (by omega)]
        by_cases e1 : i = 1
        · subst e1
          rw [if_pos ⟨rfl, by omega, h1.2⟩]
          rfl
        · rw [if_neg (by omega), if_pos ⟨by omega, h1.1, h1.2⟩]
      rw [key, push_zero_run p _ hlen ht]
      simp [specExchange, h0, h1]
    · have hi1 : 1 ≤ i := by omega
      have key : exchangeLoop 2 p i j
          = (exchangeLoop 1 p 0 i).bind fun p1 =>
              (exchangeLoop 1 p1 0 j).bind fun p2 => exchangeLoop 1 p2 0 i := by
        rw [exchangeLoop]
        rw [if_neg (by omega), if_neg (by omega), if_neg (by omega),
          if_neg (by omega), if_neg (by omega), if_neg (by omega), if_pos h]
      have e1 := exchangeLoop_top 0 p i hi1 (by omega) ht
      have e2 := exchangeLoop_top 0
        ⟨⟨p.m_code.lines ++ [tabs p.m_code.tabQty ++ specExchangeTop i], p.m_code.tabQty⟩,
          p.m_stack⟩ j hj h ht
      have e3 := exchangeLoop_top 0
        ⟨⟨p.m_code.lines ++ [tabs p.m_code.tabQty ++ specExchangeTop i] ++
            [tabs p.m_code.tabQty ++ specExchangeTop j], p.m_code.tabQty⟩,
          p.m_stack⟩ i hi1 (by omega) ht
      rw [key, e1, Option.some_bind, e2, Option.some_bind, e3]
      simp [specExchange, h0, h1]
  · unfold specExchange
    by_cases h0 : i = 0
    · simp [h0]
    · by_cases h1 : i < j ∧ j ≤ 15
      · simp [h0, h1]
      · simp [h0, h1]

/-- C21 at `exchange(2, 20)` and at `exchange(1, 300)`. -/
theorem C21_exchange_witness :
    (StackPusherHelper.mk ⟨[], 1⟩ ⟨5, []⟩).exchange 2 20
        = some ⟨⟨["\tXCHG s2", "\tXCHG s0,s20", "\tXCHG s2"], 1⟩, ⟨5, []⟩⟩ ∧
      (StackPusherHelper.mk ⟨[], 1⟩ ⟨5, []⟩).exchange 1 300 = none :=
  ⟨((C21_exchange ⟨⟨[], 1⟩, ⟨5, []⟩⟩ 2 20 (by decide) (by decide) (by decide)
      (by decide)).2.1 (by decide)).trans (by decide),
    (C21_exchange ⟨⟨[], 1⟩, ⟨5, []⟩⟩ 1 300 (by decide) (by decide) (by decide)
      (by decide)).1 (by decide)⟩

/-! ### The nesting depth of CodeLines -/

theorem CodeLines.push_depth (c c1 : CodeLines) (cmd : String) (h : c.push cmd = some c1) :
    c1.tabQty = c.tabQty ∧ (cmd ≠ "" ∧ cmd ≠ "\n" ∧ cmd ≠ " " → 0 ≤ c.tabQty) := by
  unfold CodeLines.push at h
  split_ifs at h with h1 h2 h3
  · cases h; exact ⟨rfl, fun hh => absurd h1 (by tauto)⟩
  · cases h; exact ⟨rfl, fun hh => absurd h2 hh.2.2⟩
  · cases h; exact ⟨rfl, fun _ => not_lt.mp h3⟩

theorem CodeLines.open_depth (c c2 : CodeLines) (cmd : String) (hcmd : 2 ≤ cmd.length)
    (h : (c.push cmd).map (fun c1 => { c1 with tabQty := c1.tabQty + 1 }) = some c2) :
    1 ≤ c2.tabQty := by
  cases hp : c.push cmd with
  | none => rw [hp] at h; cases h
  | some c1 =>
    rw [hp] at h
    simp only [Option.map_some', Option.some.injEq] at h
    subst h
    obtain ⟨e, hge⟩ := CodeLines.push_depth c c1 cmd hp
    have hne : cmd ≠ "" ∧ cmd ≠ "\n" ∧ cmd ≠ " " := by
      refine ⟨?_, ?_, ?_⟩ <;> (intro e1; rw [e1] at hcmd; revert hcmd; decide)
    have := hge hne
    dsimp only
    omega

theorem CodeLines.apply_depth (c c1 : CodeLines) (op : CodeOp) (h : c.apply op = some c1)
    (hop : op.checksDepth = true) : 0 ≤ c1.tabQty := by
  cases op with
  | push cmd =>
    simp only [CodeOp.checksDepth, decide_eq_true_eq] at hop
    obtain ⟨e, hge⟩ := CodeLines.push_depth c c1 cmd h
    rw [e]; exact hge hop
  | append oth =>
    simp only [CodeOp.checksDepth, decide_eq_true_eq] at hop
    simp only [CodeLines.apply, CodeLines.append, if_neg hop] at h
    split_ifs at h with h1
    cases h
    exact not_lt.mp h1
  | addTabs qty => cases hop
  | subTabs qty => cases hop
  | startContinuation =>
    have := CodeLines.open_depth c c1 _ (by decide) h; omega
  | startContinuationFromRef =>
    have := CodeLines.open_depth c c1 _ (by decide) h; omega
  | startIfRef =>
    have := CodeLines.open_depth c c1 _ (by decide) h; omega
  | startIfJmpRef =>
    have := CodeLines.open_depth c c1 _ (by decide) h; omega
  | startIfNotRef =>
    have := CodeLines.open_depth c c1 _ (by decide) h; omega
  | startCallRef =>
    have := CodeLines.open_depth c c1 _ (by decide) h; omega
  | endContinuation =>
    simp only [CodeLines.apply, CodeLines.endContinuation] at h
    cases hp : ({ c with tabQty := c.tabQty - 1 } : CodeLines).push "\x7d" with
    | none => rw [hp] at h; cases h
    | some c2 =>
      rw [hp, Option.some_bind] at h
      split_ifs at h with h1
      cases h
      exact not_lt.mp h1

theorem CodeLines.run_append (c : CodeLines) (ops : List CodeOp) (op : CodeOp) :
    c.run (ops ++ [op]) = (c.run ops).bind fun c1 => c1.apply op := by
  induction ops generalizing c with
  | nil =>
    simp only [List.nil_append, CodeLines.run, Option.some_bind]
    cases c.apply op <;> rfl
  | cons o rest ih =>
    simp only [List.cons_append, CodeLines.run]
    cases c.apply o with
    | none => rfl
    | some c1 => simp only [Option.some_bind]; exact ih c1

/-- C22 (counterexample): from the empty buffer at depth 0 the single operation
`subTabs(1)` completes and leaves the nesting depth -1. -/
theorem C22_counterexample :
    (CodeLines.mk [] 0).run [CodeOp.subTabs 1] = some ⟨[], -1⟩ ∧ ¬ (0 ≤ (-1 : Int)) := by
  decide

/-- C22 (amended): in every sequence of operations from the empty buffer at depth 0, after
each operation that completes and checks the depth (a `push` that logs an indented line, an
`append` of at least one line, a block-open operation, `endContinuation`) the nesting depth
is at least 0. -/
theorem C22_depth_after_checked_operation (ops : List CodeOp) (op : CodeOp) (c1 : CodeLines)
    (h : (CodeLines.mk [] 0).run (ops ++ [op]) = some c1) (hop : op.checksDepth = true) :
    0 ≤ c1.tabQty := by
  rw [CodeLines.run_append] at h
  cases hr : (CodeLines.mk [] 0).run ops with
  | none => rw [hr] at h; cases h
  | some c0 =>
    rw [hr, Option.some_bind] at h
    exact CodeLines.apply_depth c0 c1 op h hop

/-- C22 (amended) at the sequence `startContinuation; push("NOP"); endContinuation`. -/
theorem C22_depth_after_checked_operation_witness :
    (CodeLines.mk [] 0).run
        ([CodeOp.startContinuation, CodeOp.push "NOP"] ++ [CodeOp.endContinuation])
      = some ⟨["PUSHCONT \x7b", "\tNOP", "\x7d"], 0⟩ ∧ 0 ≤ (0 : Int) :=
  ⟨by decide,
    C22_depth_after_checked_operation [CodeOp.startContinuation, CodeOp.push "NOP"]
      CodeOp.endContinuation ⟨["PUSHCONT \x7b", "\tNOP", "\x7d"], 0⟩ (by decide) (by decide)⟩

/-! ### Function names -/

/-- C23 (counterexample): in the contract `stdlib` an ordinary function `f` gets the
internal name `f`, without suffix, and a base function called by qualified name gets no
contract prefix; and two receive functions with different names get different internal and
external names. -/
theorem C23_counterexample :
    NameContext.getFunctionInternalName ⟨"stdlib", []⟩ ⟨1, "f", Token.Function, true, "stdlib"⟩
        false = "f" ∧
      NameContext.getFunctionInternalName ⟨"stdlib", [1]⟩
        ⟨1, "f", Token.Function, true, "Base"⟩ true = "f" ∧
      NameContext.getFunctionInternalName ⟨"C", []⟩ ⟨1, "a", Token.Receive, true, "C"⟩ false
        ≠ NameContext.getFunctionInternalName ⟨"C", []⟩ ⟨2, "b", Token.Receive, true, "C"⟩
          false ∧
      getFunctionExternalName ⟨1, "a", Token.Receive, true, "C"⟩ = some "a" := by
  decide

/-- C23 (amended): outside the contract `stdlib`, the internal name is `:onCodeUpgrade` for
a function named `onCodeUpgrade` and `fallback` for the fallback function; for every other
function it is `<Contract>_<name>` when the function is a base function called by
qualified name and `<name>_internal` otherwise. In the contract `stdlib` it is the name
itself. The external name of a public function is `constructor` for the constructor,
`fallback` for the fallback function and the name of the function otherwise; it is not
defined for a function that is not public. The name of a library function is
`<Contract>_with_obj_<name>` or `<Contract>_no_obj_<name>`. -/
theorem C23_function_names (ctx : NameContext) (f : FunctionDefinition) (calledByPoint : Bool) :
    (ctx.contractName = "stdlib" → ctx.getFunctionInternalName f calledByPoint = f.name) ∧
      (ctx.contractName ≠ "stdlib" →
        (f.name = "onCodeUpgrade" →
          ctx.getFunctionInternalName f calledByPoint = ":onCodeUpgrade") ∧
        (f.name ≠ "onCodeUpgrade" → f.m_kind = Token.Fallback →
          ctx.getFunctionInternalName f calledByPoint = "fallback") ∧
        (f.name ≠ "onCodeUpgrade" → f.m_kind ≠ Token.Fallback →
          calledByPoint = true → f.id ∈ ctx.m_baseFunctions →
          ctx.getFunctionInternalName f calledByPoint = f.contractName ++ "_" ++ f.name) ∧
        (f.name ≠ "onCodeUpgrade" → f.m_kind ≠ Token.Fallback →
          ¬ (calledByPoint = true ∧ f.id ∈ ctx.m_baseFunctions) →
          ctx.getFunctionInternalName f calledByPoint = f.name ++ "_internal")) ∧
      (f.isPublic = false → getFunctionExternalName f = none) ∧
      (f.isPublic = true →
        (f.m_kind = Token.Constructor → getFunctionExternalName f = some "constructor") ∧
        (f.m_kind = Token.Fallback → getFunctionExternalName f = some "fallback") ∧
        (f.m_kind ≠ Token.Constructor → f.m_kind ≠ Token.Fallback →
          getFunctionExternalName f = some f.name)) ∧
      getLibFunctionName f true = f.contractName ++ "_with_obj_" ++ f.name ∧
      getLibFunctionName f false = f.contractName ++ "_no_obj_" ++ f.name := by
  refine ⟨?_, ?_, ?_, ?_, rfl, rfl⟩
  · intro h
    simp [NameContext.getFunctionInternalName, NameContext.isStdlib, h]
  · intro h
    refine ⟨?_, ?_, ?_, ?_⟩
    · intro h1
      simp [NameContext.getFunctionInternalName, NameContext.isStdlib, h, h1]
    · intro h1 h2
      simp [NameContext.getFunctionInternalName, NameContext.isStdlib, h, h1,
        FunctionDefinition.isFallback, h2]
    · intro h1 h2 h3 h4
      simp [NameContext.getFunctionInternalName, NameContext.isStdlib, h, h1,
        FunctionDefinition.isFallback, h2, h3, NameContext.isBaseFunction, h4]
    · intro h1 h2 h3
      have : (calledByPoint && ctx.isBaseFunction f) = false := by
        cases calledByPoint
        · rfl
        · simp only [true_and] at h3
          simp [NameContext.isBaseFunction, h3]
      simp [NameContext.getFunctionInternalName, NameContext.isStdlib, h, h1,
        FunctionDefinition.isFallback, h2, this]
  · intro h
    simp [getFunctionExternalName, h]
  · intro h
    refine ⟨?_, ?_, ?_⟩
    · intro h1
      simp [getFunctionExternalName, h, FunctionDefinition.isConstructor, h1]
    · intro h1
      simp [getFunctionExternalName, h, FunctionDefinition.isConstructor,
        FunctionDefinition.isFallback, h1]
    · intro h1 h2
      simp [getFunctionExternalName, h, FunctionDefinition.isConstructor,
        FunctionDefinition.isFallback, h1, h2]

/-- C23 (amended) at a base function `init` of contract `Base`, called by qualified name
from contract `C`. -/
theorem C23_function_names_witness :
    NameContext.getFunctionInternalName ⟨"C", [7]⟩ ⟨7, "init", Token.Function, true, "Base"⟩
        true = "Base" ++ "_" ++ "init" ∧
      getFunctionExternalName ⟨7, "init", Token.Function, true, "Base"⟩ = some "init" :=
  ⟨((C23_function_names ⟨"C", [7]⟩ ⟨7, "init", Token.Function, true, "Base"⟩ true).2.1
      (by decide)).2.2.1 (by decide) (by decide) rfl (by decide),
    ((C23_function_names ⟨"C", [7]⟩ ⟨7, "init", Token.Function, true, "Base"⟩ true).2.2.2.1
      rfl).2.2 (by decide) (by decide)⟩

namespace TVMOptimizer

theorem analyze_fields (c0 c : Cmd) (h : Cmd.analyze c0 = some c) :
    c.prefix_ = c0.prefix_ ∧ c.cmd_ = c0.cmd_ ∧ c.rest_ = c0.rest_ ∧ c.comment_ = c0.comment_ := by
  unfold Cmd.analyze at h
  have key : ∀ (a b : Int), some (c0.set_simple_command a b) = some c →
      c.prefix_ = c0.prefix_ ∧ c.cmd_ = c0.cmd_ ∧ c.rest_ = c0.rest_ ∧
        c.comment_ = c0.comment_ := by
    intro a b hh
    simp only [Option.some.injEq] at hh
    subst hh
    exact ⟨rfl, rfl, rfl, rfl⟩
  have keym : ∀ (o : Option Int) (f : Int → Int × Int),
      o.map (fun n => c0.set_simple_command (f n).1 (f n).2) = some c →
      c.prefix_ = c0.prefix_ ∧ c.cmd_ = c0.cmd_ ∧ c.rest_ = c0.rest_ ∧
        c.comment_ = c0.comment_ := by
    intro o f hh
    cases o with
    | none => cases hh
    | some n => exact key _ _ hh
  by_cases h1 : s01.contains c0.cmd_ = true
  · rw [if_pos h1] at h; exact key _ _ h
  rw [if_neg h1] at h
  by_cases h2 : s10.contains c0.cmd_ = true
  · rw [if_pos h2] at h; exact key _ _ h
  rw [if_neg h2] at h
  by_cases h3 : s11.contains c0.cmd_ = true
  · rw [if_pos h3] at h; exact key _ _ h
  rw [if_neg h3] at h
  by_cases h4 : s21.contains c0.cmd_ = true
  · rw [if_pos h4] at h; exact key _ _ h
  rw [if_neg h4] at h
  by_cases h5 : s32.contains c0.cmd_ = true
  · rw [if_pos h5] at h; exact key _ _ h
  rw [if_neg h5] at h
  by_cases h6 : c0.is "SWAP" = true
  · rw [if_pos h6] at h; exact key _ _ h
  rw [if_neg h6] at h
  by_cases h7 : (c0.is "ROT" || c0.is "ROTREV") = true
  · rw [if_pos h7] at h; exact key _ _ h
  rw [if_neg h7] at h
  by_cases h8 : c0.is "TUPLE" = true
  · rw [if_pos h8] at h; exact keym _ (fun n => (n, 1)) h
  rw [if_neg h8] at h
  by_cases h9 : c0.is "UNTUPLE" = true
  · rw [if_pos h9] at h; exact keym _ (fun n => (1, n)) h
  rw [if_neg h9] at h
  by_cases h10 : c0.is "UNPAIR" = true
  · rw [if_pos h10] at h; exact key _ _ h
  rw [if_neg h10] at h
  by_cases h11 : c0.is "SETINDEXVAR" = true
  · rw [if_pos h11] at h; exact key _ _ h
  rw [if_neg h11] at h
  simp only [Option.some.injEq] at h
  subst h
  exact ⟨rfl, rfl, rfl, rfl⟩

/-- A command read from a line is what `analyze` makes of its own prefix, name and
operand. -/
theorem ofString_reanalyze (s : String) (c : Cmd) (h : Cmd.ofString s = some c) :
    Cmd.analyze ⟨c.prefix_, c.cmd_, c.rest_, "", false, 0, 0⟩ = some c := by
  unfold Cmd.ofString at h
  simp only at h
  obtain ⟨e1, e2, e3, _⟩ := analyze_fields _ _ h
  dsimp only at e1 e2 e3
  rw [e1, e2, e3]
  exact h

theorem cmd_reanalyze (lines_ : List String) (i : Int) (c : Cmd) (h : cmd lines_ i = some c) :
    Cmd.analyze ⟨c.prefix_, c.cmd_, c.rest_, "", false, 0, 0⟩ = some c := by
  unfold cmd at h
  split_ifs at h
  · exact ofString_reanalyze _ _ h
  · exact ofString_reanalyze _ _ h

theorem cmd_valid_of_name (lines_ : List String) (i : Int) (c : Cmd)
    (h : cmd lines_ i = some c) (hn : c.cmd_ ≠ "") : valid lines_ i = true := by
  by_contra hv
  unfold cmd at h
  rw [if_neg hv] at h
  have e : Cmd.ofString "" = some ⟨"", "", "", "", false, 0, 0⟩ := by decide
  rw [e] at h
  simp only [Option.some.injEq] at h
  subst h
  exact hn rfl


theorem parsed_name (lines_ : List String) (i : Int) (c : Cmd) (h : cmd lines_ i = some c)
    (nm : String) (hn : c.cmd_ = nm) (b : Bool) (x y : Int)
    (ha : ∀ pfx rest, Cmd.analyze ⟨pfx, nm, rest, "", false, 0, 0⟩ =
      some ⟨pfx, nm, rest, "", b, x, y⟩) :
    c.is_simple_command_ = b ∧ c.inputs_count_ = x ∧ c.outputs_count_ = y := by
  have := cmd_reanalyze _ _ _ h
  rw [hn, ha] at this
  simp only [Option.some.injEq] at this
  rw [← this]
  exact ⟨rfl, rfl, rfl⟩

theorem analyze_PUSHINT (pfx rest : String) :
    Cmd.analyze ⟨pfx, "PUSHINT", rest, "", false, 0, 0⟩ =
      some ⟨pfx, "PUSHINT", rest, "", true, 0, 1⟩ := by
  simp [Cmd.analyze, s01, Cmd.set_simple_command]

theorem analyze_DIV (pfx rest : String) :
    Cmd.analyze ⟨pfx, "DIV", rest, "", false, 0, 0⟩ =
      some ⟨pfx, "DIV", rest, "", true, 2, 1⟩ := by
  simp [Cmd.analyze, s01, s10, s11, s21, Cmd.set_simple_command]

theorem analyze_MOD (pfx rest : String) :
    Cmd.analyze ⟨pfx, "MOD", rest, "", false, 0, 0⟩ =
      some ⟨pfx, "MOD", rest, "", true, 2, 1⟩ := by
  simp [Cmd.analyze, s01, s10, s11, s21, Cmd.set_simple_command]

theorem analyze_MUL (pfx rest : String) :
    Cmd.analyze ⟨pfx, "MUL", rest, "", false, 0, 0⟩ =
      some ⟨pfx, "MUL", rest, "", true, 2, 1⟩ := by
  simp [Cmd.analyze, s01, s10, s11, s21, Cmd.set_simple_command]

/-- The two simulation rules do not fire on a constant followed by a command that
takes two values. -/
theorem simulate_const_binary (w : Window) (lines_ : List String) (idx1 : Int)
    (hw : Window.at lines_ idx1 = some w)
    (h1 : w.cmd1.cmd_ = "PUSHINT")
    (h2n : w.cmd2.cmd_ = "DIV" ∨ w.cmd2.cmd_ = "MOD" ∨ w.cmd2.cmd_ = "MUL")
    (h2 : w.cmd2.is_simple_command_ = true ∧ w.cmd2.inputs_count_ = 2 ∧
      w.cmd2.outputs_count_ = 1) :
    simulateRule w w.idx2 1 1 [] = miss ∧ simulateRule w w.idx1 1 0 ["DROP"] = miss := by
  obtain ⟨hl, hi1, hi2, hc1, hc2⟩ := Window.at_spec _ _ _ hw
  have hv1 : valid lines_ idx1 = true :=
    cmd_valid_of_name _ _ _ hc1 (by rw [h1]; decide)
  have hv2 : valid lines_ (next_command_line lines_ idx1) = true :=
    cmd_valid_of_name _ _ _ hc2 (by rcases h2n with h | h | h <;> rw [h] <;> decide)
  obtain ⟨s1, x1, y1⟩ := parsed_name _ _ _ hc1 _ h1 _ _ _ analyze_PUSHINT
  obtain ⟨s2, x2, y2⟩ := h2
  have hlen : ∃ k, lines_.length = k + 1 := by
    unfold valid at hv1
    simp at hv1
    exact ⟨lines_.length - 1, by omega⟩
  obtain ⟨k, hk⟩ := hlen
  have np2 : w.cmd2.is_PUSH = false ∧ w.cmd2.is_POP = false ∧ w.cmd2.is "BLKPUSH" = false ∧
      w.cmd2.is_NIP = false ∧ w.cmd2.get_drop_index = some 0 := by
    rcases h2n with h | h | h <;>
      simp [Cmd.is_PUSH, Cmd.is_POP, Cmd.is_NIP, Cmd.get_drop_index, Cmd.is_DROP, Cmd.is, h]
  have np1 : w.cmd1.is_PUSH = false ∧ w.cmd1.is_POP = false ∧ w.cmd1.is "BLKPUSH" = false ∧
      w.cmd1.is_NIP = false ∧ w.cmd1.get_drop_index = some 0 := by
    simp [Cmd.is_PUSH, Cmd.is_POP, Cmd.is_NIP, Cmd.get_drop_index, Cmd.is_DROP, Cmd.is, h1]
  obtain ⟨a1, a2, a3, a4, a5⟩ := np1
  obtain ⟨b1, b2, b3, b4, b5⟩ := np2
  constructor
  · simp [simulateRule, try_simulate, hl, hi2, hv2, hk, try_simulate_loop, hc2, b1, b2, b3, b4,
      b5, s2, x2, miss]
  · simp [simulateRule, try_simulate, hl, hi1, hv1, hv2, hk, try_simulate_loop, hc1, hc2, a1,
      a2, a3, a4, a5, b1, b2, b3, b4, b5, s1, x1, y1, s2, x2, miss]

theorem firstRule_pow2 (tc : TvmConst) (lines_ : List String) (idx1 : Int) (w : Window)
    (hw : Window.at lines_ idx1 = some w) (h1 : w.cmd1.cmd_ = "PUSHINT")
    (hpi : w.cmd1.is_PUSHINT = true) (v p : Int) (hv : w.cmd1.fetch_bigint = some v)
    (hp : powerOfTwo v = some p) (hv2 : 2 ≤ v) :
    (w.cmd2.cmd_ = "DIV" → firstRule (rules tc) w = some ⟨true, 2, ["RSHIFT " ++ toString p]⟩) ∧
    (w.cmd2.cmd_ = "MOD" → firstRule (rules tc) w = some ⟨true, 2, ["MODPOW2 " ++ toString p]⟩) ∧
    (w.cmd2.cmd_ = "MUL" → firstRule (rules tc) w =
      some ⟨true, 2, [if v ≤ 127 then "MULCONST " ++ toString v else "LSHIFT " ++ toString p]⟩) := by
  obtain ⟨hl, hi1, hi2, hc1, hc2⟩ := Window.at_spec _ _ _ hw
  obtain ⟨s1, x1, y1⟩ := parsed_name _ _ _ hc1 _ h1 _ _ _ analyze_PUSHINT
  refine ⟨fun h2 => ?_, fun h2 => ?_, fun h2 => ?_⟩
  · obtain ⟨s2, x2, y2⟩ := parsed_name _ _ _ hc2 _ h2 _ _ _ analyze_DIV
    have hq : w.cmd2.is_PUSHINT = false := by simp [Cmd.is_PUSHINT, Cmd.is, h2]
    obtain ⟨m1, m2⟩ := simulate_const_binary w lines_ idx1 hw h1 (Or.inl h2) ⟨s2, x2, y2⟩
    simp only [rules, firstRule]
    simp [rule396, rule403, rule412, rule426, rule431, rule434, rule443, rule452, rule459, rule476, rule479, rule490, rule501, rule508, rule517, rule523, rule528, rule531, rule537, rule548, rule555, rule562, rule569, rule576, rule590, rule597, rule600, rule603, rule606, rule612, rule618, rule623, rule628, rule632, rule636, rule640, rule666, rule669, rule672, rule676, rule688, rule698, rule709, rule716, rule725, rule735, rule740, rule744, rule749, rule752, rule757, rule764, rule769, rule773, rule777, rule787, rule795, rule803, rule817, rule821, rule833, rule843, rule855, rule864, rule874, rule886, rule897, rule909, rule914, rule918, rule928, rule935, rule945, rule950, rule966, rule984, rule1001, rule1013, rule1031, rule1044, rule1052, rule1073, rule1093, rule1105, rule1120, rule1130, rule1137, miss, hit, Cmd.is, Cmd.is_SWAP, Cmd.is_PUSH, Cmd.is_POP, Cmd.is_DUP, Cmd.is_NIP, Cmd.is_DROP, Cmd.is_ADD, Cmd.is_SUB, Cmd.is_MUL, Cmd.is_DIV, Cmd.isBLKSWAP, Cmd.is_const_add, Cmd.is_commutative, Cmd.is_add_or_sub, Cmd.get_drop_index, Cmd.is_drop_kind, Cmd.is_simple_command, Cmd.get_push_index, Cmd.get_pop_index, Cmd.get_add_num, isPushintOf, isSmallIndex, oneSlice, h1, h2, hpi, hv, hp, s1, x1, y1, s2, x2, y2, m1, m2, hq]
  · obtain ⟨s2, x2, y2⟩ := parsed_name _ _ _ hc2 _ h2 _ _ _ analyze_MOD
    have hq : w.cmd2.is_PUSHINT = false := by simp [Cmd.is_PUSHINT, Cmd.is, h2]
    obtain ⟨m1, m2⟩ := simulate_const_binary w lines_ idx1 hw h1 (Or.inr (Or.inl h2)) ⟨s2, x2, y2⟩
    simp only [rules, firstRule]
    simp [rule396, rule403, rule412, rule426, rule431, rule434, rule443, rule452, rule459, rule476, rule479, rule490, rule501, rule508, rule517, rule523, rule528, rule531, rule537, rule548, rule555, rule562, rule569, rule576, rule590, rule597, rule600, rule603, rule606, rule612, rule618, rule623, rule628, rule632, rule636, rule640, rule666, rule669, rule672, rule676, rule688, rule698, rule709, rule716, rule725, rule735, rule740, rule744, rule749, rule752, rule757, rule764, rule769, rule773, rule777, rule787, rule795, rule803, rule817, rule821, rule833, rule843, rule855, rule864, rule874, rule886, rule897, rule909, rule914, rule918, rule928, rule935, rule945, rule950, rule966, rule984, rule1001, rule1013, rule1031, rule1044, rule1052, rule1073, rule1093, rule1105, rule1120, rule1130, rule1137, miss, hit, Cmd.is, Cmd.is_SWAP, Cmd.is_PUSH, Cmd.is_POP, Cmd.is_DUP, Cmd.is_NIP, Cmd.is_DROP, Cmd.is_ADD, Cmd.is_SUB, Cmd.is_MUL, Cmd.is_DIV, Cmd.isBLKSWAP, Cmd.is_const_add, Cmd.is_commutative, Cmd.is_add_or_sub, Cmd.get_drop_index, Cmd.is_drop_kind, Cmd.is_simple_command, Cmd.get_push_index, Cmd.get_pop_index, Cmd.get_add_num, isPushintOf, isSmallIndex, oneSlice, h1, h2, hpi, hv, hp, s1, x1, y1, s2, x2, y2, m1, m2, hq]
  · obtain ⟨s2, x2, y2⟩ := parsed_name _ _ _ hc2 _ h2 _ _ _ analyze_MUL
    have hq : w.cmd2.is_PUSHINT = false := by simp [Cmd.is_PUSHINT, Cmd.is, h2]
    obtain ⟨m1, m2⟩ := simulate_const_binary w lines_ idx1 hw h1 (Or.inr (Or.inr h2)) ⟨s2, x2, y2⟩
    simp only [rules, firstRule]
    have hge : -128 ≤ v := by omega
    by_cases hle : v ≤ 127
    · simp [rule396, rule403, rule412, rule426, rule431, rule434, rule443, rule452, rule459, rule476, rule479, rule490, rule501, rule508, rule517, rule523, rule528, rule531, rule537, rule548, rule555, rule562, rule569, rule576, rule590, rule597, rule600, rule603, rule606, rule612, rule618, rule623, rule628, rule632, rule636, rule640, rule666, rule669, rule672, rule676, rule688, rule698, rule709, rule716, rule725, rule735, rule740, rule744, rule749, rule752, rule757, rule764, rule769, rule773, rule777, rule787, rule795, rule803, rule817, rule821, rule833, rule843, rule855, rule864, rule874, rule886, rule897, rule909, rule914, rule918, rule928, rule935, rule945, rule950, rule966, rule984, rule1001, rule1013, rule1031, rule1044, rule1052, rule1073, rule1093, rule1105, rule1120, rule1130, rule1137, miss, hit, Cmd.is, Cmd.is_SWAP, Cmd.is_PUSH, Cmd.is_POP, Cmd.is_DUP, Cmd.is_NIP, Cmd.is_DROP, Cmd.is_ADD, Cmd.is_SUB, Cmd.is_MUL, Cmd.is_DIV, Cmd.isBLKSWAP, Cmd.is_const_add, Cmd.is_commutative, Cmd.is_add_or_sub, Cmd.get_drop_index, Cmd.is_drop_kind, Cmd.is_simple_command, Cmd.get_push_index, Cmd.get_pop_index, Cmd.get_add_num, isPushintOf, isSmallIndex, oneSlice, h1, h2, hpi, hv, hp, s1, x1, y1, s2, x2, y2, m1, m2, hq, hle, hge]
    · simp [rule396, rule403, rule412, rule426, rule431, rule434, rule443, rule452, rule459, rule476, rule479, rule490, rule501, rule508, rule517, rule523, rule528, rule531, rule537, rule548, rule555, rule562, rule569, rule576, rule590, rule597, rule600, rule603, rule606, rule612, rule618, rule623, rule628, rule632, rule636, rule640, rule666, rule669, rule672, rule676, rule688, rule698, rule709, rule716, rule725, rule735, rule740, rule744, rule749, rule752, rule757, rule764, rule769, rule773, rule777, rule787, rule795, rule803, rule817, rule821, rule833, rule843, rule855, rule864, rule874, rule886, rule897, rule909, rule914, rule918, rule928, rule935, rule945, rule950, rule966, rule984, rule1001, rule1013, rule1031, rule1044, rule1052, rule1073, rule1093, rule1105, rule1120, rule1130, rule1137, miss, hit, Cmd.is, Cmd.is_SWAP, Cmd.is_PUSH, Cmd.is_POP, Cmd.is_DUP, Cmd.is_NIP, Cmd.is_DROP, Cmd.is_ADD, Cmd.is_SUB, Cmd.is_MUL, Cmd.is_DIV, Cmd.isBLKSWAP, Cmd.is_const_add, Cmd.is_commutative, Cmd.is_add_or_sub, Cmd.get_drop_index, Cmd.is_drop_kind, Cmd.is_simple_command, Cmd.get_push_index, Cmd.get_pop_index, Cmd.get_add_num, isPushintOf, isSmallIndex, oneSlice, h1, h2, hpi, hv, hp, s1, x1, y1, s2, x2, y2, m1, m2, hq, hle, hge]


theorem pushint_pow2 (c : Cmd) (p : Nat) (hp1 : 1 ≤ p) (hp8 : p ≤ 8) (h1 : c.cmd_ = "PUSHINT")
    (h1r : c.rest_ = toString (2 ^ p)) :
    c.is_PUSHINT = true ∧ c.fetch_bigint = some ((2 : Int) ^ p) ∧
      powerOfTwo ((2 : Int) ^ p) = some (p : Int) := by
  interval_cases p <;>
    refine ⟨?_, ?_, ?_⟩ <;>
    first
      | (simp only [Cmd.is_PUSHINT, Cmd.fetch_bigint, Cmd.is, h1, h1r]; decide)
      | decide

end TVMOptimizer

/-- C27 (counterexample): at `PUSHINT 2` followed by `MUL`, `optimize_at` returns
`MULCONST 2`, not `LSHIFT 1`: the rule of lines 412-425 comes before the power-of-two
rule. And at `PUSHINT 4` followed by `DIV`, with a third line `TUPLE x` whose operand is
not a number, `optimize_at` throws instead of returning a rewrite. -/
theorem C27_counterexample :
    TVMOptimizer.optimize_at sampleTvmConst ["PUSHINT 2", "MUL"] 0
        = some ⟨true, 2, ["MULCONST 2"]⟩ ∧
      TVMOptimizer.optimize_at sampleTvmConst ["PUSHINT 4", "DIV", "TUPLE x"] 0 = none := by
  constructor
  · decide
  · decide

/-- C27 (amended): when `optimize_at` reads its window `w` at a position whose command is
`PUSHINT` with operand `2 ^ p`, `1 ≤ p ≤ 8`, it replaces that command and the next one:
with `DIV` by `RSHIFT p`, with `MOD` by `MODPOW2 p`, and with `MUL` by `MULCONST 2 ^ p`
when `p ≤ 6` and by `LSHIFT p` when `p` is 7 or 8. -/
theorem C27_power_of_two_rules (tc : TVMOptimizer.TvmConst) (lines_ : List String) (idx1 : Int)
    (w : TVMOptimizer.Window) (hw : TVMOptimizer.Window.at lines_ idx1 = some w) (p : Nat)
    (hp1 : 1 ≤ p) (hp8 : p ≤ 8) (h1 : w.cmd1.cmd_ = "PUSHINT")
    (h1r : w.cmd1.rest_ = toString (2 ^ p)) :
    (w.cmd2.cmd_ = "DIV" → TVMOptimizer.optimize_at tc lines_ idx1
        = some ⟨true, 2, ["RSHIFT " ++ toString p]⟩) ∧
      (w.cmd2.cmd_ = "MOD" → TVMOptimizer.optimize_at tc lines_ idx1
        = some ⟨true, 2, ["MODPOW2 " ++ toString p]⟩) ∧
      (w.cmd2.cmd_ = "MUL" → TVMOptimizer.optimize_at tc lines_ idx1
        = some ⟨true, 2, [if p ≤ 6 then "MULCONST " ++ toString (2 ^ p)
            else "LSHIFT " ++ toString p]⟩) := by
  obtain ⟨a, b, c⟩ := TVMOptimizer.pushint_pow2 w.cmd1 p hp1 hp8 h1 h1r
  have hv2 : (2 : Int) ≤ 2 ^ p := by
    have : (2 : Int) ^ 1 ≤ 2 ^ p := pow_le_pow_right₀ (by norm_num) hp1
    simpa using this
  obtain ⟨r1, r2, r3⟩ := TVMOptimizer.firstRule_pow2 tc lines_ idx1 w hw h1 a _ _ b c hv2
  unfold TVMOptimizer.optimize_at
  rw [hw]
  dsimp only
  refine ⟨fun h => ?_, fun h => ?_, fun h => ?_⟩
  · rw [r1 h]
    interval_cases p <;> rfl
  · rw [r2 h]
    interval_cases p <;> rfl
  · rw [r3 h]
    interval_cases p <;> rfl

/-- C27 at the log `PUSHINT 128; MUL`, where `p = 7`. -/
theorem C27_power_of_two_rules_witness :
    TVMOptimizer.optimize_at sampleTvmConst ["PUSHINT 128", "MUL"] 0
      = some ⟨true, 2, ["LSHIFT 7"]⟩ :=
  (C27_power_of_two_rules sampleTvmConst ["PUSHINT 128", "MUL"] 0
    ⟨["PUSHINT 128", "MUL"], 0, 1, -1, -1, -1, -1,
      ⟨"", "PUSHINT", "128", "", true, 0, 1⟩, ⟨"", "MUL", "", "", true, 2, 1⟩,
      ⟨"", "", "", "", false, 0, 0⟩, ⟨"", "", "", "", false, 0, 0⟩,
      ⟨"", "", "", "", false, 0, 0⟩, ⟨"", "", "", "", false, 0, 0⟩⟩
    (by rfl) 7 (by decide) (by decide) rfl (by decide)).2.2 rfl

/-! ### Runs of `PUSHINT 0` -/

namespace TVMOptimizer

/-! ### Logs made of command lines only -/

theorem lineAt_nat (lines_ : List String) (i : Nat) (hi : i < lines_.length) :
    lineAt lines_ (i : Int) = lines_.get ⟨i, hi⟩ := by
  unfold lineAt
  simp [List.getD, List.getElem?_eq_getElem hi]

theorem valid_nat (lines_ : List String) (i : Nat) :
    valid lines_ (i : Int) = decide (i < lines_.length) := by
  unfold valid
  simp

theorem cmd_nat (lines_ : List String) (i : Nat) (hi : i < lines_.length) :
    cmd lines_ (i : Int) = Cmd.ofString (lines_.get ⟨i, hi⟩) := by
  unfold cmd
  rw [valid_nat, lineAt_nat _ _ hi]
  simp [hi]

theorem cmd_invalid (lines_ : List String) (i : Int) (h : valid lines_ i = false) :
    cmd lines_ i = some ⟨"", "", "", "", false, 0, 0⟩ := by
  unfold cmd
  rw [h]
  exact ofString_empty

theorem next_command_line_commands (lines_ : List String)
    (hc : ∀ s ∈ lines_, is_comment_or_empty_line s = false) (i : Nat) (hi : i < lines_.length) :
    next_command_line lines_ (i : Int) =
      if i + 1 < lines_.length then ((i + 1 : Nat) : Int) else -1 := by
  unfold next_command_line
  rw [valid_nat]
  simp only [hi, decide_True, not_true_eq_false, if_false]
  have e : ((i : Int) + 1).toNat = i + 1 := by omega
  rw [e]
  cases hd : lines_.drop (i + 1) with
  | nil =>
    have : lines_.length ≤ i + 1 := by
      have := congrArg List.length hd
      simp at this
      omega
    simp [firstCommandFrom, Nat.not_lt.mpr this]
  | cons l ls =>
    have hl : l ∈ lines_ := by
      have : l ∈ lines_.drop (i + 1) := by rw [hd]; exact List.mem_cons_self _ _
      exact List.mem_of_mem_drop this
    have hlt : i + 1 < lines_.length := by
      have := congrArg List.length hd
      simp at this
      omega
    simp [firstCommandFrom, hc l hl, hlt]

theorem next_command_line_invalid (lines_ : List String) (i : Int)
    (h : valid lines_ i = false) : next_command_line lines_ i = -1 := by
  unfold next_command_line
  simp [h]

theorem valid_neg_one (lines_ : List String) : valid lines_ (-1) = false := by
  unfold valid
  simp


theorem analyze_BLKPUSH (pfx rest : String) :
    Cmd.analyze ⟨pfx, "BLKPUSH", rest, "", false, 0, 0⟩ =
      some ⟨pfx, "BLKPUSH", rest, "", false, 0, 0⟩ := by
  simp [Cmd.analyze, s01, s10, s11, s21, s32, Cmd.is]

theorem analyze_DUP (pfx rest : String) :
    Cmd.analyze ⟨pfx, "DUP", rest, "", false, 0, 0⟩ =
      some ⟨pfx, "DUP", rest, "", false, 0, 0⟩ := by
  simp [Cmd.analyze, s01, s10, s11, s21, s32, Cmd.is]

theorem Window.at_some (lines_ : List String) (idx1 : Int)
    (h : ∀ i, ∃ c, cmd lines_ i = some c) : ∃ w, Window.at lines_ idx1 = some w := by
  unfold Window.at
  simp only
  obtain ⟨c1, h1⟩ := h idx1
  obtain ⟨c2, h2⟩ := h (next_command_line lines_ idx1)
  obtain ⟨c3, h3⟩ := h (next_command_line lines_ (next_command_line lines_ idx1))
  obtain ⟨c4, h4⟩ := h (next_command_line lines_
    (next_command_line lines_ (next_command_line lines_ idx1)))
  obtain ⟨c5, h5⟩ := h (next_command_line lines_ (next_command_line lines_
    (next_command_line lines_ (next_command_line lines_ idx1))))
  obtain ⟨c6, h6⟩ := h (next_command_line lines_ (next_command_line lines_
    (next_command_line lines_ (next_command_line lines_ (next_command_line lines_ idx1)))))
  rw [h1, h2, h3, h4, h5, h6]
  exact ⟨_, rfl⟩

theorem cmd_some_of_lines (lines_ : List String)
    (h : ∀ s ∈ lines_, ∃ c, Cmd.ofString s = some c) (i : Int) : ∃ c, cmd lines_ i = some c := by
  by_cases hv : valid lines_ i = true
  · have hv2 := hv
    simp only [valid, Bool.and_eq_true, decide_eq_true_eq] at hv2
    obtain ⟨k, rfl⟩ : ∃ k : Nat, i = k := ⟨i.toNat, by omega⟩
    have hk : k < lines_.length := by omega
    rw [cmd_nat _ _ hk]
    exact h _ (List.get_mem _ _ _)
  · rw [cmd_invalid _ _ (by simpa using hv)]
    exact ⟨_, rfl⟩

/-- No rule of `optimize_at` applies at a `BLKPUSH k, 0` that is not followed by a drop. -/
theorem firstRule_BLKPUSH (tc : TvmConst) (lines_ : List String) (idx1 : Int) (w : Window)
    (hw : Window.at lines_ idx1 = some w) (h1 : w.cmd1.cmd_ = "BLKPUSH")
    (hs : w.cmd1.fetch_second_int = some 0)
    (h2 : w.cmd2.cmd_ = "BLKPUSH" ∨ w.cmd2.cmd_ = "DUP" ∨ w.cmd2.cmd_ = "") :
    firstRule (rules tc) w = some ⟨false, 0, []⟩ := by
  obtain ⟨hl, hi1, hi2, hc1, hc2⟩ := Window.at_spec _ _ _ hw
  obtain ⟨s1, x1, y1⟩ := parsed_name _ _ _ hc1 _ h1 _ _ _ analyze_BLKPUSH
  have hq : w.cmd1.is_PUSHINT = false := by simp [Cmd.is_PUSHINT, Cmd.is, h1]
  have hv1 : valid lines_ idx1 = true :=
    cmd_valid_of_name _ _ _ hc1 (by rw [h1]; decide)
  have m2 : simulateRule w w.idx1 1 0 ["DROP"] = miss := by
    have hlen : ∃ k, lines_.length = k + 1 := by
      unfold valid at hv1
      simp at hv1
      exact ⟨lines_.length - 1, by omega⟩
    obtain ⟨k, hk⟩ := hlen
    simp [simulateRule, try_simulate, hl, hi1, hv1, hk, try_simulate_loop, hc1, Cmd.is_PUSH,
      Cmd.is_POP, Cmd.is, h1, hs, miss]
  simp only [rules, firstRule]
  rcases h2 with h2 | h2 | h2 <;> simp [h2, rule396, rule403, rule412, rule426, rule431, rule434, rule443, rule452, rule459, rule476, rule479, rule490, rule501, rule508, rule517, rule523, rule528, rule531, rule537, rule548, rule555, rule562, rule569, rule576, rule590, rule597, rule600, rule603, rule606, rule612, rule618, rule623, rule628, rule632, rule636, rule640, rule666, rule669, rule672, rule676, rule688, rule698, rule709, rule716, rule725, rule735, rule740, rule744, rule749, rule752, rule757, rule764, rule769, rule773, rule777, rule787, rule795, rule803, rule817, rule821, rule833, rule843, rule855, rule864, rule874, rule886, rule897, rule909, rule914, rule918, rule928, rule935, rule945, rule950, rule966, rule984, rule1001, rule1013, rule1031, rule1044, rule1052, rule1073, rule1093, rule1105, rule1120, rule1130, rule1137, miss, hit, Cmd.is, Cmd.is_SWAP, Cmd.is_PUSH, Cmd.is_POP, Cmd.is_DUP, Cmd.is_NIP, Cmd.is_DROP, Cmd.is_ADD, Cmd.is_SUB, Cmd.is_MUL, Cmd.is_DIV, Cmd.isBLKSWAP, Cmd.is_const_add, Cmd.is_commutative, Cmd.is_add_or_sub, Cmd.get_drop_index, Cmd.is_drop_kind, Cmd.is_simple_command, Cmd.get_push_index, Cmd.get_pop_index, Cmd.get_add_num, isPushintOf, isSmallIndex, oneSlice, h1, hq, s1, x1, y1, m2]

/-- No rule of `optimize_at` applies at a `DUP` that is the last command. -/
theorem firstRule_DUP_last (tc : TvmConst) (lines_ : List String) (idx1 : Int) (w : Window)
    (hw : Window.at lines_ idx1 = some w) (h1 : w.cmd1.cmd_ = "DUP")
    (h2 : next_command_line lines_ idx1 = -1) :
    firstRule (rules tc) w = some ⟨false, 0, []⟩ := by
  obtain ⟨hl, hi1, hi2, hc1, hc2⟩ := Window.at_spec _ _ _ hw
  obtain ⟨s1, x1, y1⟩ := parsed_name _ _ _ hc1 _ h1 _ _ _ analyze_DUP
  have hq : w.cmd1.is_PUSHINT = false := by simp [Cmd.is_PUSHINT, Cmd.is, h1]
  have hv1 : valid lines_ idx1 = true :=
    cmd_valid_of_name _ _ _ hc1 (by rw [h1]; decide)
  rw [h2] at hi2 hc2
  rw [cmd_invalid _ _ (valid_neg_one _)] at hc2
  simp only [Option.some.injEq] at hc2
  have e2 : w.cmd2.cmd_ = "" := by rw [← hc2]
  have f2 : w.cmd2.is_simple_command_ = false := by rw [← hc2]
  have q2 : w.cmd2.is_PUSHINT = false := by rw [← hc2]; decide
  have m1 : simulateRule w w.idx2 2 1 [] = miss := by
    simp [simulateRule, try_simulate, hl, hi2, valid_neg_one, miss]
  have m2 : simulateRule w w.idx1 1 0 ["DROP"] = miss := by
    have hlen : ∃ k, lines_.length = k + 1 := by
      unfold valid at hv1
      simp at hv1
      exact ⟨lines_.length - 1, by omega⟩
    obtain ⟨k, hk⟩ := hlen
    simp [simulateRule, try_simulate, hl, hi1, hv1, hk, try_simulate_loop, hc1, Cmd.is_PUSH,
      Cmd.is_POP, Cmd.is, h1, Cmd.get_push_index, Cmd.is_DUP, miss]
  simp only [rules, firstRule]
  simp [rule396, rule403, rule412, rule426, rule431, rule434, rule443, rule452, rule459, rule476, rule479, rule490, rule501, rule508, rule517, rule523, rule528, rule531, rule537, rule548, rule555, rule562, rule569, rule576, rule590, rule597, rule600, rule603, rule606, rule612, rule618, rule623, rule628, rule632, rule636, rule640, rule666, rule669, rule672, rule676, rule688, rule698, rule709, rule716, rule725, rule735, rule740, rule744, rule749, rule752, rule757, rule764, rule769, rule773, rule777, rule787, rule795, rule803, rule817, rule821, rule833, rule843, rule855, rule864, rule874, rule886, rule897, rule909, rule914, rule918, rule928, rule935, rule945, rule950, rule966, rule984, rule1001, rule1013, rule1031, rule1044, rule1052, rule1073, rule1093, rule1105, rule1120, rule1130, rule1137, miss, hit, Cmd.is, Cmd.is_SWAP, Cmd.is_PUSH, Cmd.is_POP, Cmd.is_DUP, Cmd.is_NIP, Cmd.is_DROP, Cmd.is_ADD, Cmd.is_SUB, Cmd.is_MUL, Cmd.is_DIV, Cmd.isBLKSWAP, Cmd.is_const_add, Cmd.is_commutative, Cmd.is_add_or_sub, Cmd.get_drop_index, Cmd.is_drop_kind, Cmd.is_simple_command, Cmd.get_push_index, Cmd.get_pop_index, Cmd.get_add_num, isPushintOf, isSmallIndex, oneSlice, h1, hq, s1, x1, y1, m1, m2, e2, f2, q2, Cmd.fetchStackIndex]


/-- No rule of `optimize_at` applies at `PUSHINT 0` followed by `BLKPUSH k, 0`, when the
simulation of lines 576-582 fails. -/
theorem firstRule_zero_BLKPUSH (tc : TvmConst) (lines_ : List String) (idx1 : Int)
    (w : Window) (hw : Window.at lines_ idx1 = some w) (h1 : w.cmd1.cmd_ = "PUSHINT")
    (h1r : w.cmd1.rest_ = "0") (h2 : w.cmd2.cmd_ = "BLKPUSH")
    (hs : w.cmd2.fetch_second_int = some 0)
    (m2 : simulateRule w w.idx1 1 0 ["DROP"] = miss) :
    firstRule (rules tc) w = some ⟨false, 0, []⟩ := by
  obtain ⟨hl, hi1, hi2, hc1, hc2⟩ := Window.at_spec _ _ _ hw
  obtain ⟨s1, x1, y1⟩ := parsed_name _ _ _ hc1 _ h1 _ _ _ analyze_PUSHINT
  obtain ⟨s2, x2, y2⟩ := parsed_name _ _ _ hc2 _ h2 _ _ _ analyze_BLKPUSH
  have hq : w.cmd1.is_PUSHINT = true := by
    simp [Cmd.is_PUSHINT, Cmd.is, h1, h1r]
    decide
  have hf : w.cmd1.fetch_bigint = some 0 := by
    simp [Cmd.fetch_bigint, h1r]
    decide
  have hq2 : w.cmd2.is_PUSHINT = false := by simp [Cmd.is_PUSHINT, Cmd.is, h2]
  have hv2 : valid lines_ (next_command_line lines_ idx1) = true :=
    cmd_valid_of_name _ _ _ hc2 (by rw [h2]; decide)
  have m1 : simulateRule w w.idx2 1 1 [] = miss := by
    have hlen : ∃ k, lines_.length = k + 1 := by
      unfold valid at hv2
      simp at hv2
      exact ⟨lines_.length - 1, by omega⟩
    obtain ⟨k, hk⟩ := hlen
    simp [simulateRule, try_simulate, hl, hi2, hv2, hk, try_simulate_loop, hc2, Cmd.is_PUSH,
      Cmd.is_POP, Cmd.is, h2, hs, miss]
  simp only [rules, firstRule]
  simp [rule396, rule403, rule412, rule426, rule431, rule434, rule443, rule452, rule459, rule476, rule479, rule490, rule501, rule508, rule517, rule523, rule528, rule531, rule537, rule548, rule555, rule562, rule569, rule576, rule590, rule597, rule600, rule603, rule606, rule612, rule618, rule623, rule628, rule632, rule636, rule640, rule666, rule669, rule672, rule676, rule688, rule698, rule709, rule716, rule725, rule735, rule740, rule744, rule749, rule752, rule757, rule764, rule769, rule773, rule777, rule787, rule795, rule803, rule817, rule821, rule833, rule843, rule855, rule864, rule874, rule886, rule897, rule909, rule914, rule918, rule928, rule935, rule945, rule950, rule966, rule984, rule1001, rule1013, rule1031, rule1044, rule1052, rule1073, rule1093, rule1105, rule1120, rule1130, rule1137, miss, hit, Cmd.is, Cmd.is_SWAP, Cmd.is_PUSH, Cmd.is_POP, Cmd.is_DUP, Cmd.is_NIP, Cmd.is_DROP, Cmd.is_ADD, Cmd.is_SUB, Cmd.is_MUL, Cmd.is_DIV, Cmd.isBLKSWAP, Cmd.is_const_add, Cmd.is_commutative, Cmd.is_add_or_sub, Cmd.get_drop_index, Cmd.is_drop_kind, Cmd.is_simple_command, Cmd.get_push_index, Cmd.get_pop_index, Cmd.get_add_num, isPushintOf, isSmallIndex, oneSlice, h1, h1r, h2, hq, hf, hq2, s1, x1, y1, s2, x2, y2, m1, m2, Cmd.rest]

set_option maxRecDepth 100000 in
theorem dup_line (k : Nat) (h1 : 1 ≤ k) (h15 : k ≤ 15) :
    is_comment_or_empty_line (specDuplication k) = false ∧
      Cmd.ofString (specDuplication k) =
        some (if k = 1 then ⟨"", "DUP", "", "", false, 0, 0⟩
          else ⟨"", "BLKPUSH", toString k ++ ", 0", "", false, 0, 0⟩) ∧
      (k ≠ 1 → specDuplication k ≠ "DUP" ∧
        Cmd.fetch_first_int ⟨"", "BLKPUSH", toString k ++ ", 0", "", false, 0, 0⟩
          = some (k : Int) ∧
        Cmd.fetch_second_int ⟨"", "BLKPUSH", toString k ++ ", 0", "", false, 0, 0⟩
          = some 0) := by
  interval_cases k <;> decide


/-- The simulation of `try_simulate` runs to the end of a log whose remaining commands are
`DUP` and `BLKPUSH k, 0`, and fails there. -/
theorem try_simulate_loop_dups (lines_ : List String)
    (hc : ∀ s ∈ lines_, is_comment_or_empty_line s = false)
    (hfam : ∀ j : Nat, 1 ≤ j → j < lines_.length → ∃ c, cmd lines_ (j : Int) = some c ∧
      (c.cmd_ = "DUP" ∨ (c.cmd_ = "BLKPUSH" ∧ c.fetch_second_int = some 0 ∧
        ∃ f, 0 < f ∧ c.fetch_first_int = some f))) :
    ∀ (fuel : Nat) (i : Nat) (ss rc : Int) (cmds : List String), i < lines_.length → 2 ≤ ss →
      lines_.length ≤ fuel + i →
      try_simulate_loop lines_ fuel false (i : Int) ss rc cmds = some none := by
  intro fuel
  induction fuel with
  | zero => intro i ss rc cmds hi _ hf; omega
  | succ n ih =>
    intro i ss rc cmds hi hss hf
    unfold try_simulate_loop
    simp only [Bool.false_eq_true, if_false]
    rw [next_command_line_commands lines_ hc i hi]
    by_cases hlt : i + 1 < lines_.length
    · rw [if_pos hlt, valid_nat]
      simp only [hlt, decide_True, not_true_eq_false, if_false]
      obtain ⟨c, hcm, hcase⟩ := hfam (i + 1) (by omega) hlt
      rw [hcm]
      simp only
      rcases hcase with hd | ⟨hb, hsec, f, hf0, hfirst⟩
      · have e1 : c.is_PUSH = true := by simp [Cmd.is_PUSH, Cmd.is, hd]
        have e2 : c.get_push_index = some 0 := by
          simp [Cmd.get_push_index, Cmd.is_PUSH, Cmd.is_DUP, Cmd.is, hd]
        rw [if_pos e1, e2]
        simp only
        rw [if_neg (by omega), if_pos (by omega)]
        exact ih (i + 1) _ _ _ hlt (by omega) (by omega)
      · have e1 : c.is_PUSH = false := by simp [Cmd.is_PUSH, Cmd.is, hb]
        have e2 : c.is_POP = false := by simp [Cmd.is_POP, Cmd.is, hb]
        have e3 : c.is "BLKPUSH" = true := by simp [Cmd.is, hb]
        rw [if_neg (by simp [e1]), if_neg (by simp [e2]), if_pos e3, hsec]
        simp only
        rw [if_pos (by omega), hfirst]
        exact ih (i + 1) _ _ _ hlt (by omega) (by omega)
    · rw [if_neg hlt]
      simp [valid_neg_one]


theorem ofString_PUSHINT_0 :
    Cmd.ofString "PUSHINT 0" = some ⟨"", "PUSHINT", "0", "", true, 0, 1⟩ := by decide

theorem zeros_commands (ks : List Nat) (hk : ∀ k ∈ ks, 1 ≤ k ∧ k ≤ 15) :
    ∀ s ∈ "PUSHINT 0" :: ks.map specDuplication, is_comment_or_empty_line s = false := by
  intro s hs
  rcases List.mem_cons.mp hs with rfl | hs
  · decide
  · obtain ⟨k, hkm, rfl⟩ := List.mem_map.mp hs
    exact (dup_line k (hk k hkm).1 (hk k hkm).2).1

theorem zeros_parse (ks : List Nat) (hk : ∀ k ∈ ks, 1 ≤ k ∧ k ≤ 15) :
    ∀ s ∈ "PUSHINT 0" :: ks.map specDuplication, ∃ c, Cmd.ofString s = some c := by
  intro s hs
  rcases List.mem_cons.mp hs with rfl | hs
  · exact ⟨_, ofString_PUSHINT_0⟩
  · obtain ⟨k, hkm, rfl⟩ := List.mem_map.mp hs
    exact ⟨_, (dup_line k (hk k hkm).1 (hk k hkm).2).2.1⟩

theorem zeros_cmd_zero (ks : List Nat) :
    cmd ("PUSHINT 0" :: ks.map specDuplication) 0 = some ⟨"", "PUSHINT", "0", "", true, 0, 1⟩ := by
  have := cmd_nat ("PUSHINT 0" :: ks.map specDuplication) 0 (by simp)
  simp only [Nat.cast_zero] at this
  rw [this]
  exact ofString_PUSHINT_0

theorem zeros_cmd_succ (ks : List Nat) (hk : ∀ k ∈ ks, 1 ≤ k ∧ k ≤ 15) (i : Nat)
    (hi : i < ks.length) :
    cmd ("PUSHINT 0" :: ks.map specDuplication) ((i + 1 : Nat) : Int) =
      some (if ks.get ⟨i, hi⟩ = 1 then ⟨"", "DUP", "", "", false, 0, 0⟩
        else ⟨"", "BLKPUSH", toString (ks.get ⟨i, hi⟩) ++ ", 0", "", false, 0, 0⟩) := by
  rw [cmd_nat _ _ (by simp; omega)]
  have hm : ks.get ⟨i, hi⟩ ∈ ks := List.get_mem _ _ _
  simp only [List.get_eq_getElem, List.getElem_cons_succ, List.getElem_map]
  exact (dup_line _ (hk _ hm).1 (hk _ hm).2).2.1

theorem zeros_family (ks : List Nat) (hk : ∀ k ∈ ks, 1 ≤ k ∧ k ≤ 15) :
    ∀ j : Nat, 1 ≤ j → j < ("PUSHINT 0" :: ks.map specDuplication).length →
      ∃ c, cmd ("PUSHINT 0" :: ks.map specDuplication) (j : Int) = some c ∧
        (c.cmd_ = "DUP" ∨ (c.cmd_ = "BLKPUSH" ∧ c.fetch_second_int = some 0 ∧
          ∃ f, 0 < f ∧ c.fetch_first_int = some f)) := by
  intro j h1 hj
  obtain ⟨i, rfl⟩ : ∃ i, j = i + 1 := ⟨j - 1, by omega⟩
  have hi : i < ks.length := by simpa using hj
  refine ⟨_, zeros_cmd_succ ks hk i hi, ?_⟩
  have hm : ks.get ⟨i, hi⟩ ∈ ks := List.get_mem _ _ _
  by_cases h : ks.get ⟨i, hi⟩ = 1
  · left; rw [if_pos h]
  · right
    rw [if_neg h]
    obtain ⟨_, _, h3⟩ := dup_line _ (hk _ hm).1 (hk _ hm).2
    obtain ⟨_, hf, hs⟩ := h3 h
    exact ⟨rfl, hs, _, by have := (hk _ hm).1; omega, hf⟩


/-- After the rewrite of a run of zeros, `optimize_at` finds nothing more to rewrite. -/
theorem optimize_at_zeros (tc : TvmConst) (ks : List Nat) (hk : ∀ k ∈ ks, 1 ≤ k ∧ k ≤ 15)
    (hlast : ∀ (i : Nat) (h : i + 1 < ks.length), ks.get ⟨i, by omega⟩ ≠ 1)
    (h0 : ∃ hpos : 0 < ks.length, ks.get ⟨0, hpos⟩ ≠ 1) :
    ∀ i : Nat, i < ("PUSHINT 0" :: ks.map specDuplication).length →
      optimize_at tc ("PUSHINT 0" :: ks.map specDuplication) (i : Int) = some ⟨false, 0, []⟩ := by
  intro i hi
  obtain ⟨w, hw⟩ := Window.at_some ("PUSHINT 0" :: ks.map specDuplication) (i : Int)
    (cmd_some_of_lines _ (zeros_parse ks hk))
  unfold optimize_at
  rw [hw]
  dsimp only
  obtain ⟨hl, hi1, hi2, hc1, hc2⟩ := Window.at_spec _ _ _ hw
  have hn := next_command_line_commands _ (zeros_commands ks hk) i hi
  have hlen : ("PUSHINT 0" :: ks.map specDuplication).length = ks.length + 1 := by simp
  obtain ⟨hpos, hk0⟩ := h0
  cases i with
  | zero =>
    simp only [Nat.cast_zero] at hc1 hc2 hn hi1 hi2
    rw [zeros_cmd_zero] at hc1
    simp only [Option.some.injEq] at hc1
    rw [if_pos (by rw [hlen]; omega)] at hn
    rw [hn] at hc2
    rw [zeros_cmd_succ ks hk 0 hpos, if_neg hk0] at hc2
    simp only [Option.some.injEq] at hc2
    have hm : ks.get ⟨0, hpos⟩ ∈ ks := List.get_mem _ _ _
    obtain ⟨_, _, h3⟩ := dup_line _ (hk _ hm).1 (hk _ hm).2
    obtain ⟨_, hf, hs⟩ := h3 hk0
    have m2 : simulateRule w w.idx1 1 0 ["DROP"] = miss := by
      unfold simulateRule try_simulate
      rw [hl, hi1]
      have hv : valid ("PUSHINT 0" :: ks.map specDuplication) 0 = true := by
        simp [valid]
      rw [hv]
      simp only [not_true_eq_false, if_false]
      unfold try_simulate_loop
      simp only [if_true, hv, not_true_eq_false, if_false, zeros_cmd_zero]
      have := try_simulate_loop_dups _ (zeros_commands ks hk) (zeros_family ks hk)
        ("PUSHINT 0" :: ks.map specDuplication).length 0 2 0
        (["DROP"] ++ [Cmd.without_prefix ⟨"", "PUSHINT", "0", "", true, 0, 1⟩])
        (by rw [hlen]; omega) (by omega) (by omega)
      simp only [Nat.cast_zero, List.length_cons, List.length_map, List.cons_append,
        List.nil_append, List.singleton_append] at this
      simp [Cmd.is_PUSH, Cmd.is_POP, Cmd.is_NIP, Cmd.is, Cmd.get_drop_index, Cmd.is_DROP, this,
        miss]
    exact firstRule_zero_BLKPUSH tc _ 0 w hw (by rw [← hc1]) (by rw [← hc1]) (by rw [← hc2])
      (by rw [← hc2]; exact hs) m2
  | succ j =>
    have hj : j < ks.length := by rw [hlen] at hi; omega
    rw [zeros_cmd_succ ks hk j hj] at hc1
    simp only [Option.some.injEq] at hc1
    by_cases h1 : ks.get ⟨j, hj⟩ = 1
    · rw [if_pos h1] at hc1
      have hend : ¬ (j + 1 + 1 < ("PUSHINT 0" :: ks.map specDuplication).length) := by
        intro hlt
        rw [hlen] at hlt
        exact hlast j (by omega) h1
      rw [if_neg hend] at hn
      exact firstRule_DUP_last tc _ _ w hw (by rw [← hc1]) hn
    · rw [if_neg h1] at hc1
      have hm : ks.get ⟨j, hj⟩ ∈ ks := List.get_mem _ _ _
      obtain ⟨_, _, h3⟩ := dup_line _ (hk _ hm).1 (hk _ hm).2
      obtain ⟨_, hf, hs⟩ := h3 h1
      have hc2n : w.cmd2.cmd_ = "BLKPUSH" ∨ w.cmd2.cmd_ = "DUP" ∨ w.cmd2.cmd_ = "" := by
        by_cases hlt : j + 1 + 1 < ("PUSHINT 0" :: ks.map specDuplication).length
        · rw [if_pos hlt] at hn
          rw [hn] at hc2
          have hj2 : j + 1 < ks.length := by rw [hlen] at hlt; omega
          rw [zeros_cmd_succ ks hk (j + 1) hj2] at hc2
          simp only [Option.some.injEq] at hc2
          rw [← hc2]
          by_cases h2 : ks.get ⟨j + 1, hj2⟩ = 1
          · rw [if_pos h2]; right; left; rfl
          · rw [if_neg h2]; left; rfl
        · rw [if_neg hlt] at hn
          rw [hn, cmd_invalid _ _ (valid_neg_one _)] at hc2
          simp only [Option.some.injEq] at hc2
          rw [← hc2]
          right; right; rfl
      exact firstRule_BLKPUSH tc _ _ w hw (by rw [← hc1]) (by rw [← hc1]; exact hs) hc2n


/-- On the rewritten log `squash_push` finds nothing to rewrite either. -/
theorem squash_push_zeros (ks : List Nat) (hk : ∀ k ∈ ks, 1 ≤ k ∧ k ≤ 15)
    (hlast : ∀ (i : Nat) (h : i + 1 < ks.length), ks.get ⟨i, by omega⟩ ≠ 1) :
    ∀ i : Nat, i < ("PUSHINT 0" :: ks.map specDuplication).length →
      squash_push ("PUSHINT 0" :: ks.map specDuplication) (i : Int) = some ⟨false, 0, []⟩ := by
  intro i hi
  have hsome := cmd_some_of_lines _ (zeros_parse ks hk)
  have hn := next_command_line_commands _ (zeros_commands ks hk) i hi
  have hlen : ("PUSHINT 0" :: ks.map specDuplication).length = ks.length + 1 := by simp
  unfold squash_push
  dsimp only
  obtain ⟨c2, hc2⟩ := hsome (next_command_line ("PUSHINT 0" :: ks.map specDuplication) (i : Int))
  obtain ⟨c3, hc3⟩ := hsome (next_command_line ("PUSHINT 0" :: ks.map specDuplication)
    (next_command_line ("PUSHINT 0" :: ks.map specDuplication) (i : Int)))
  rw [hc2, hc3]
  cases i with
  | zero =>
    simp only [Nat.cast_zero]
    rw [zeros_cmd_zero]
    simp [squash3, squash2, squashBlkpush, Cmd.is_PUSH, Cmd.is, miss]
  | succ j =>
    have hj : j < ks.length := by rw [hlen] at hi; omega
    rw [zeros_cmd_succ ks hk j hj]
    by_cases h1 : ks.get ⟨j, hj⟩ = 1
    · rw [if_pos h1]
      have hend : ¬ (j + 1 + 1 < ("PUSHINT 0" :: ks.map specDuplication).length) := by
        intro hlt
        rw [hlen] at hlt
        exact hlast j (by omega) h1
      rw [if_neg hend] at hn
      rw [hn, cmd_invalid _ _ (valid_neg_one _)] at hc2
      simp only [Option.some.injEq] at hc2
      subst hc2
      simp [squash3, squash2, squashBlkpush, Cmd.is_PUSH, Cmd.is, miss]
    · rw [if_neg h1]
      have hm : ks.get ⟨j, hj⟩ ∈ ks := List.get_mem _ _ _
      obtain ⟨_, _, h3⟩ := dup_line _ (hk _ hm).1 (hk _ hm).2
      obtain ⟨_, hf, hs⟩ := h3 h1
      simp only [List.get_eq_getElem] at hf hs
      simp [squash3, squash2, squashBlkpush, Cmd.is_PUSH, Cmd.is, miss, hit, hf, hs]

theorem unsquash_push_zeros (n : Nat) :
    ∀ i : Nat, i < (List.replicate n "PUSHINT 0").length →
      unsquash_push (List.replicate n "PUSHINT 0") (i : Int) = some ⟨false, 0, []⟩ := by
  intro i hi
  unfold unsquash_push
  rw [cmd_nat _ _ hi]
  simp only [List.get_eq_getElem, List.getElem_replicate, ofString_PUSHINT_0]
  simp [Cmd.is]


theorem make_BLKPUSH_dup (k : Nat) (h1 : 1 ≤ k) (h15 : k ≤ 15) :
    make_BLKPUSH (k : Int) 0 = some (specDuplication k) := by
  interval_cases k <;> decide

/-- The loop of lines 468-472 splits the amount `m` into duplications of at most 15 values,
all of 15 but the last. -/
theorem blkpushZeros_spec : ∀ (m fuel : Nat), m < fuel →
    ∃ ks : List Nat, blkpushZeros fuel (m : Int) = some (ks.map specDuplication) ∧
      (∀ k ∈ ks, 1 ≤ k ∧ k ≤ 15) ∧ ks.sum = m ∧
      (∀ (i : Nat) (h : i + 1 < ks.length), ks.get ⟨i, by omega⟩ = 15) ∧
      (0 < m → ∃ hpos : 0 < ks.length, ks.get ⟨0, hpos⟩ = min 15 m) := by
  intro m
  induction m using Nat.strong_induction_on with
  | _ m ih =>
    intro fuel hf
    obtain ⟨f, rfl⟩ : ∃ f, fuel = f + 1 := ⟨fuel - 1, by omega⟩
    unfold blkpushZeros
    by_cases hm : m = 0
    · subst hm
      exact ⟨[], by simp, by simp, by simp, by simp, by simp⟩
    · have hpos : (m : Int) > 0 := by omega
      rw [if_pos hpos]
      obtain ⟨k, hk1, hk15, hkm, hkc, hmin, hminN⟩ : ∃ k : Nat, 1 ≤ k ∧ k ≤ 15 ∧ k ≤ m ∧
          (k = 15 ∨ k = m) ∧ min (15 : Int) (m : Int) = (k : Int) ∧ min 15 m = k := by
        by_cases h15 : 15 ≤ m
        · exact ⟨15, by omega, by omega, h15, Or.inl rfl,
            min_eq_left (by exact_mod_cast h15), Nat.min_eq_left h15⟩
        · have hle : m ≤ 15 := by omega
          exact ⟨m, by omega, hle, le_refl _, Or.inr rfl,
            min_eq_right (by exact_mod_cast hle), Nat.min_eq_right hle⟩
      rw [hmin, hminN, make_BLKPUSH_dup _ hk1 hk15]
      have hsub : (m : Int) - (k : Int) = ((m - k : Nat) : Int) := by omega
      rw [hsub]
      obtain ⟨ks, e, hk, hsum, hlast, hfirst⟩ := ih (m - k) (by omega) f (by omega)
      rw [e]
      refine ⟨k :: ks, by simp, ?_, ?_, ?_, ?_⟩
      · intro k2 hkm2
        rcases List.mem_cons.mp hkm2 with rfl | hkm2
        · exact ⟨hk1, hk15⟩
        · exact hk k2 hkm2
      · simp only [List.sum_cons, hsum]
        omega
      · intro i h
        cases i with
        | zero =>
          have hne : ks ≠ [] := by
            intro hnil
            rw [hnil] at h
            simp at h
          have : 0 < m - k := by
            by_contra hz
            have hz0 : ks.sum = 0 := by omega
            cases ks with
            | nil => exact hne rfl
            | cons a t =>
              have := (hk a (List.mem_cons_self _ _)).1
              simp only [List.sum_cons] at hz0
              omega
          simp only [List.get_eq_getElem, List.getElem_cons_zero]
          omega
        | succ j =>
          have := hlast j (by simpa using h)
          simpa using this
      · intro _
        exact ⟨by simp, by simp⟩

theorem countWhile_zeros (n : Nat) : ∀ (k : Nat), k ≤ n →
    countWhile (List.replicate n "PUSHINT 0")
      (fun c => if c.is_PUSHINT then c.fetch_bigint.map fun v => decide (v = 0) else some false)
      (k + 1) (if k = 0 then -1 else ((n - k : Nat) : Int)) = some (k : Int) := by
  intro k
  induction k with
  | zero =>
    intro _
    unfold countWhile
    rw [if_pos rfl, cmd_invalid _ _ (valid_neg_one _)]
    simp [Cmd.is_PUSHINT, Cmd.is]
  | succ j ih =>
    intro hj
    unfold countWhile
    rw [if_neg (by omega)]
    have hi : n - (j + 1) < (List.replicate n "PUSHINT 0").length := by
      simp only [List.length_replicate]
      omega
    rw [cmd_nat _ _ hi]
    simp only [List.get_eq_getElem, List.getElem_replicate, ofString_PUSHINT_0]
    have hp : (if Cmd.is_PUSHINT ⟨"", "PUSHINT", "0", "", true, 0, 1⟩ = true then
        Option.map (fun v => decide (v = 0))
          (Cmd.fetch_bigint ⟨"", "PUSHINT", "0", "", true, 0, 1⟩) else some false)
        = some true := by decide
    rw [hp]
    simp only
    have hc : ∀ s ∈ List.replicate n "PUSHINT 0", is_comment_or_empty_line s = false := by
      intro s hs
      rw [List.eq_of_mem_replicate hs]
      decide
    rw [next_command_line_commands _ hc _ hi]
    have ih2 := ih (by omega)
    by_cases hj0 : j = 0
    · subst hj0
      rw [if_pos rfl] at ih2
      rw [if_neg (by simp only [List.length_replicate]; omega), ih2]
      rfl
    · rw [if_neg hj0] at ih2
      rw [if_pos (by simp only [List.length_replicate]; omega)]
      have e : n - (j + 1) + 1 = n - j := by omega
      rw [e, ih2]
      simp


theorem Window.at_spec3 (lines_ : List String) (idx1 : Int) (w : Window)
    (h : Window.at lines_ idx1 = some w) :
    cmd lines_ (next_command_line lines_ (next_command_line lines_ idx1)) = some w.cmd3 := by
  unfold Window.at at h
  simp only at h
  split at h
  · rename_i c1 c2 c3 c4 c5 c6 h1 h2 h3 h4 h5 h6
    simp only [Option.some.injEq] at h
    subst h
    exact h3
  · cases h

/-- At the head of a run of `n ≥ 3` lines `PUSHINT 0`, `optimize_at` returns the rewrite of
lines 459-475. -/
theorem optimize_at_zero_run (tc : TvmConst) (n : Nat) (hn : 3 ≤ n) (ds : List String)
    (hds : blkpushZeros (n + 1) ((n : Int) - 1) = some ds) :
    optimize_at tc (List.replicate n "PUSHINT 0") 0 = some ⟨true, n, "PUSHINT 0" :: ds⟩ := by
  have hc : ∀ s ∈ List.replicate n "PUSHINT 0", is_comment_or_empty_line s = false := by
    intro s hs
    rw [List.eq_of_mem_replicate hs]
    decide
  have hp : ∀ s ∈ List.replicate n "PUSHINT 0", ∃ c, Cmd.ofString s = some c := by
    intro s hs
    rw [List.eq_of_mem_replicate hs]
    exact ⟨_, ofString_PUSHINT_0⟩
  obtain ⟨w, hw⟩ := Window.at_some (List.replicate n "PUSHINT 0") 0 (cmd_some_of_lines _ hp)
  unfold optimize_at
  rw [hw]
  dsimp only
  obtain ⟨hl, hi1, hi2, hc1, hc2⟩ := Window.at_spec _ _ _ hw
  have hc3 := Window.at_spec3 _ _ _ hw
  have hcmd : ∀ i : Nat, i < n →
      cmd (List.replicate n "PUSHINT 0") (i : Int) = some ⟨"", "PUSHINT", "0", "", true, 0, 1⟩ := by
    intro i hi
    rw [cmd_nat _ _ (by simpa using hi)]
    simp only [List.get_eq_getElem, List.getElem_replicate, ofString_PUSHINT_0]
  have n0 := next_command_line_commands _ hc 0 (by simp only [List.length_replicate]; omega)
  have n1 := next_command_line_commands _ hc 1 (by simp only [List.length_replicate]; omega)
  rw [if_pos (by simp only [List.length_replicate]; omega)] at n0 n1
  simp only [Nat.cast_zero] at n0
  have e1 := hcmd 0 (by omega)
  simp only [Nat.cast_zero] at e1
  rw [e1] at hc1
  rw [n0, hcmd (0 + 1) (by omega)] at hc2
  rw [n0, n1, hcmd (1 + 1) (by omega)] at hc3
  simp only [Option.some.injEq] at hc1 hc2 hc3
  have hcount := countWhile_zeros n n (le_refl _)
  rw [if_neg (by omega)] at hcount
  simp only [Nat.sub_self, Nat.cast_zero] at hcount
  have hr : rule459 w = hit n ("PUSHINT 0" :: ds) := by
    unfold rule459
    rw [← hc1, ← hc2, ← hc3, hl, hi1]
    have hq : Cmd.is_PUSHINT ⟨"", "PUSHINT", "0", "", true, 0, 1⟩ = true := by decide
    simp only [hq, Bool.and_self, if_true, List.length_replicate, hcount]
    rw [if_pos (by omega)]
    have : ((n : Int).toNat + 1) = n + 1 := by omega
    rw [this, hds]
  have hq : Cmd.is_PUSHINT ⟨"", "PUSHINT", "0", "", true, 0, 1⟩ = true := by decide
  have hb : Cmd.fetch_bigint ⟨"", "PUSHINT", "0", "", true, 0, 1⟩ = some 0 := by decide
  simp only [rules, firstRule]
  simp [hq, hb, rule396, rule403, rule412, rule426, rule431, rule434, rule443, rule452, rule476, rule479, rule490, rule501, rule508, rule517, rule523, rule528, rule531, rule537, rule548, rule555, rule562, rule569, rule576, rule590, rule597, rule600, rule603, rule606, rule612, rule618, rule623, rule628, rule632, rule636, rule640, rule666, rule669, rule672, rule676, rule688, rule698, rule709, rule716, rule725, rule735, rule740, rule744, rule749, rule752, rule757, rule764, rule769, rule773, rule777, rule787, rule795, rule803, rule817, rule821, rule833, rule843, rule855, rule864, rule874, rule886, rule897, rule909, rule914, rule918, rule928, rule935, rule945, rule950, rule966, rule984, rule1001, rule1013, rule1031, rule1044, rule1052, rule1073, rule1093, rule1105, rule1120, rule1130, rule1137, miss, hit, Cmd.is, Cmd.is_SWAP, Cmd.is_PUSH, Cmd.is_POP, Cmd.is_DUP, Cmd.is_NIP, Cmd.is_DROP, Cmd.is_ADD, Cmd.is_SUB, Cmd.is_MUL, Cmd.is_DIV, Cmd.isBLKSWAP, Cmd.is_const_add, Cmd.is_commutative, Cmd.is_add_or_sub, Cmd.get_drop_index, Cmd.is_drop_kind, Cmd.is_simple_command, Cmd.get_push_index, Cmd.get_pop_index, Cmd.get_add_num, isPushintOf, isSmallIndex, oneSlice, ← hc1, ← hc2, hr]


theorem linesToRemove_commands (lines_ : List String)
    (hc : ∀ s ∈ lines_, is_comment_or_empty_line s = false) :
    ∀ (k i : Nat), i + k ≤ lines_.length →
      linesToRemove lines_ k (i : Int) = (List.range' i k).map Int.ofNat := by
  intro k
  induction k with
  | zero => intro i _; rfl
  | succ j ih =>
    intro i hi
    unfold linesToRemove
    rw [next_command_line_commands lines_ hc i (by omega)]
    cases j with
    | zero => rfl
    | succ j2 =>
      rw [if_pos (by omega), ih (i + 1) (by omega)]
      rfl

theorem shortestPrefix_empty (lines_ : List String)
    (hp : ∀ s ∈ lines_, ∃ c, Cmd.ofString s = some c ∧ c.prefix_ = "") :
    ∀ (k i : Nat), i + k ≤ lines_.length →
      shortestPrefix lines_ ((List.range' i k).map Int.ofNat) "" = some "" := by
  intro k
  induction k with
  | zero => intro i _; rfl
  | succ j ih =>
    intro i hi
    have hlt : i < lines_.length := by omega
    simp only [List.range'_succ, List.map_cons]
    unfold shortestPrefix
    have e : lineAt lines_ (Int.ofNat i) = lines_.get ⟨i, hlt⟩ := lineAt_nat _ _ hlt
    obtain ⟨c, hc1, hc2⟩ := hp _ (List.get_mem lines_ i hlt)
    rw [e, hc1]
    simp only [hc2]
    rw [if_neg (by decide)]
    exact ih (i + 1) (by omega)

theorem string_empty_append (s : String) : "" ++ s = s := by
  apply String.ext
  simp

theorem insertCommands_end (lines_ : List String) :
    ∀ cmds : List String, (∀ c ∈ cmds, c ≠ "") →
      insertCommands (lines_.length : Int) "" cmds lines_ = lines_ ++ cmds := by
  intro cmds
  induction cmds with
  | nil => intro _; simp [insertCommands]
  | cons c rest ih =>
    intro h
    unfold insertCommands
    simp only
    rw [ih (fun c hc => h c (List.mem_cons_of_mem _ hc))]
    rw [if_pos (h c (List.mem_cons_self _ _))]
    unfold insert
    simp [string_empty_append]

theorem remove_all (tail : List String) :
    ∀ (k : Nat) (front : List String), front.length = k →
      (((List.range' 0 k).map Int.ofNat).reverse.foldl remove (front ++ tail)) = tail := by
  intro k
  induction k with
  | zero =>
    intro front hf
    have : front = [] := List.length_eq_zero.mp hf
    subst this
    rfl
  | succ j ih =>
    intro front hf
    have hne : front ≠ [] := by
      intro h
      rw [h] at hf
      simp at hf
    obtain ⟨init, a, rfl⟩ : ∃ init a, front = init ++ [a] :=
      ⟨front.dropLast, front.getLast hne, (List.dropLast_append_getLast hne).symm⟩
    have hi : init.length = j := by simpa using hf
    rw [List.range'_concat, List.map_append, List.reverse_append]
    simp only [List.map_cons, List.map_nil, List.reverse_cons, List.reverse_nil, List.nil_append,
      List.singleton_append, List.foldl_cons, Nat.zero_add, Nat.one_mul]
    have : remove (init ++ [a] ++ tail) (Int.ofNat j) = init ++ tail := by
      unfold remove
      have e : (Int.ofNat j).toNat = init.length := by rw [hi]; rfl
      rw [e, List.append_assoc, List.eraseIdx_append_of_length_le (le_refl _)]
      simp
    rw [this]
    exact ih init hi


/-- The effect of `updateLines` for a rewrite at index 0 that replaces every line of a log
of unindented commands. -/
theorem updateLines_replace_all (lines_ cmds : List String)
    (hc : ∀ s ∈ lines_, is_comment_or_empty_line s = false)
    (hp : ∀ s ∈ lines_, ∃ c, Cmd.ofString s = some c ∧ c.prefix_ = "")
    (hl : lines_ ≠ []) (hne : cmds ≠ []) (hcmds : ∀ c ∈ cmds, c ≠ "") :
    updateLines lines_ 0 ⟨true, lines_.length, cmds⟩ = some (true, 0, cmds) := by
  have hpos : 0 < lines_.length := List.length_pos.mpr hl
  unfold updateLines
  simp only
  rw [if_neg (by omega)]
  have e0 : ((lines_.length : Int)).toNat = lines_.length := by omega
  rw [e0]
  have hrem := linesToRemove_commands lines_ hc lines_.length 0 (by omega)
  simp only [Nat.cast_zero] at hrem
  rw [hrem]
  have hany : (((List.range' 0 lines_.length).map Int.ofNat).any
      fun i => !valid lines_ i) = false := by
    rw [List.any_eq_false]
    intro i hi
    obtain ⟨k, hk, rfl⟩ := List.mem_map.mp hi
    have := (List.mem_range'_1.mp hk).2
    have hv : valid lines_ (Int.ofNat k) = true := by
      have := valid_nat lines_ k
      simp only [Int.ofNat_eq_coe]
      rw [this]
      simp
      omega
    simp only [Int.ofNat_eq_coe] at hv ⊢
    simp [hv]
  rw [hany]
  simp only [Bool.false_eq_true, if_false, ne_eq, hne, not_false_eq_true, if_true]
  have e1 : lineAt lines_ 0 = lines_.get ⟨0, hpos⟩ := by
    have := lineAt_nat lines_ 0 hpos
    simpa using this
  obtain ⟨c, hc1, hc2⟩ := hp _ (List.get_mem lines_ 0 hpos)
  rw [e1, hc1]
  simp only [hc2]
  have hsp := shortestPrefix_empty lines_ hp lines_.length 0 (by omega)
  rw [hsp]
  simp only
  have hlast : ((List.range' 0 lines_.length).map Int.ofNat).getLast?
      = some ((lines_.length : Int) - 1) := by
    obtain ⟨k, hk⟩ : ∃ k, lines_.length = k + 1 := ⟨lines_.length - 1, by omega⟩
    rw [hk, List.range'_concat, List.map_append]
    simp
  rw [hlast]
  simp only [sub_add_cancel]
  rw [insertCommands_end lines_ cmds hcmds, remove_all cmds lines_.length lines_ rfl]
  simp [stepBack, valid]


theorem length_le_sum (ks : List Nat) (hk : ∀ k ∈ ks, 1 ≤ k) : ks.length ≤ ks.sum := by
  induction ks with
  | nil => simp
  | cons a t ih =>
    have h1 := hk a (List.mem_cons_self _ _)
    have h2 := ih (fun k hkm => hk k (List.mem_cons_of_mem _ hkm))
    simp only [List.length_cons, List.sum_cons]
    omega

/-- The four passes of `optimize_code` on a run of `n ≥ 3` lines `PUSHINT 0`. -/
theorem optimize_code_zero_run (tc : TvmConst) (n : Nat) (hn : 3 ≤ n) :
    ∃ ks : List Nat, (∀ k ∈ ks, 1 ≤ k ∧ k ≤ 15) ∧ ks.sum = n - 1 ∧
      optimize_code tc (n + 2) (List.replicate n "PUSHINT 0")
        = some ("PUSHINT 0" :: ks.map specDuplication) := by
  have hcast : ((n - 1 : Nat) : Int) = (n : Int) - 1 := by omega
  have hn1 : 0 < n - 1 := by omega
  have hn2 : 2 ≤ n - 1 := by omega
  obtain ⟨ks, hds, hk, hsum, hlast15, hfirst⟩ := blkpushZeros_spec (n - 1) (n + 1) (by omega)
  rw [hcast] at hds
  refine ⟨ks, hk, hsum, ?_⟩
  have hlast : ∀ (i : Nat) (h : i + 1 < ks.length), ks.get ⟨i, by omega⟩ ≠ 1 := by
    intro i h
    rw [hlast15 i h]
    decide
  have h0 : ∃ hpos : 0 < ks.length, ks.get ⟨0, hpos⟩ ≠ 1 := by
    obtain ⟨hpos, hget⟩ := hfirst hn1
    refine ⟨hpos, ?_⟩
    rw [hget]
    have h2 : 2 ≤ min 15 (n - 1) := le_min (by decide) hn2
    intro h1
    rw [h1] at h2
    exact absurd h2 (by decide)
  clear hfirst
  have hlen : ("PUSHINT 0" :: ks.map specDuplication).length ≤ n := by
    have := length_le_sum ks (fun k hkm => (hk k hkm).1)
    simp only [List.length_cons, List.length_map]
    omega
  have hc : ∀ s ∈ List.replicate n "PUSHINT 0", is_comment_or_empty_line s = false := by
    intro s hs
    rw [List.eq_of_mem_replicate hs]
    decide
  have hp : ∀ s ∈ List.replicate n "PUSHINT 0", ∃ c, Cmd.ofString s = some c ∧ c.prefix_ = "" := by
    intro s hs
    rw [List.eq_of_mem_replicate hs]
    exact ⟨_, ofString_PUSHINT_0, rfl⟩
  have hne : List.replicate n "PUSHINT 0" ≠ [] := by
    intro h
    have := congrArg List.length h
    simp at this
    omega
  have hcmds : ∀ c ∈ "PUSHINT 0" :: ks.map specDuplication, c ≠ "" := by
    intro c hcm he
    have := zeros_commands ks hk c hcm
    rw [he] at this
    revert this
    decide
  have p1 : optimize unsquash_push (n + 2) (List.replicate n "PUSHINT 0")
      = some (List.replicate n "PUSHINT 0") :=
    optimize_normal _ _ (unsquash_push_zeros n) _ (by simp)
  have hup := updateLines_replace_all (List.replicate n "PUSHINT 0")
    ("PUSHINT 0" :: ks.map specDuplication) hc hp hne (by simp) hcmds
  simp only [List.length_replicate] at hup
  have p2 : optimize (optimize_at tc) (n + 2) (List.replicate n "PUSHINT 0")
      = some ("PUSHINT 0" :: ks.map specDuplication) := by
    unfold optimize
    unfold optimizeLoop
    have hv : valid (List.replicate n "PUSHINT 0") 0 = true := by
      simp [valid]
      omega
    rw [if_pos hv, optimize_at_zero_run tc n hn _ hds]
    simp only [hup]
    exact optimizeLoop_normal _ _ (optimize_at_zeros tc ks hk hlast h0) n 0
      (Or.inr (by
        have h := hlen
        simp only [List.length_cons, List.length_map] at h ⊢
        omega))
  have p3 : optimize (optimize_at tc) (n + 2) ("PUSHINT 0" :: ks.map specDuplication)
      = some ("PUSHINT 0" :: ks.map specDuplication) :=
    optimize_normal _ _ (optimize_at_zeros tc ks hk hlast h0) _ (by omega)
  have p4 : optimize squash_push (n + 2) ("PUSHINT 0" :: ks.map specDuplication)
      = some ("PUSHINT 0" :: ks.map specDuplication) :=
    optimize_normal _ _ (squash_push_zeros ks hk hlast) _ (by omega)
  unfold optimize_code
  rw [p1, Option.some_bind, p2, Option.some_bind, p3, Option.some_bind, p4]

end TVMOptimizer

/-- C18: for every `n ≥ 3`, `optimize_code` on `n` lines `PUSHINT 0` returns one
`PUSHINT 0` followed by duplication instructions only, `DUP` or `BLKPUSH k, 0` with
`2 ≤ k ≤ 15`, whose amounts `ks` sum to `n - 1`; this holds with every fuel from `n + 2`
on. -/
theorem C18_zero_run (tc : TVMOptimizer.TvmConst) (n : Nat) (hn : 3 ≤ n) (fuel : Nat)
    (hfuel : n + 2 ≤ fuel) :
    ∃ ks : List Nat, (∀ k ∈ ks, 1 ≤ k ∧ k ≤ 15) ∧ ks.sum = n - 1 ∧
      TVMOptimizer.optimize_code tc fuel (List.replicate n "PUSHINT 0")
        = some ("PUSHINT 0" :: ks.map specDuplication) := by
  obtain ⟨ks, h1, h2, h3⟩ := TVMOptimizer.optimize_code_zero_run tc n hn
  refine ⟨ks, h1, h2, ?_⟩
  have := TVMOptimizer.optimize_code_mono tc (n + 2) _ _ h3 (fuel - (n + 2))
  have e : n + 2 + (fuel - (n + 2)) = fuel := by omega
  rw [e] at this
  exact this

/-- C18 at `n = 17` with fuel 19. -/
theorem C18_zero_run_witness :
    ∃ ks : List Nat, (∀ k ∈ ks, 1 ≤ k ∧ k ≤ 15) ∧ ks.sum = 17 - 1 ∧
      TVMOptimizer.optimize_code sampleTvmConst 19 (List.replicate 17 "PUSHINT 0")
        = some ("PUSHINT 0" :: ks.map specDuplication) :=
  C18_zero_run sampleTvmConst 17 (by decide) 19 (by decide)

namespace TVMOptimizer

/-! ### The effect of `updateLines` on the lines -/

theorem firstCommandFrom_decomp (ls : List String) : ∀ k0 : Int, 0 ≤ k0 →
    (firstCommandFrom ls k0 = -1 ∧ ∀ s ∈ ls, is_comment_or_empty_line s = true) ∨
    ∃ (C : List String) (l : String) (rest : List String), ls = C ++ l :: rest ∧
      (∀ s ∈ C, is_comment_or_empty_line s = true) ∧ is_comment_or_empty_line l = false ∧
      firstCommandFrom ls k0 = k0 + (C.length : Int) := by
  induction ls with
  | nil => intro k0 _; left; exact ⟨rfl, by simp⟩
  | cons a t ih =>
    intro k0 hk
    unfold firstCommandFrom
    by_cases h : is_comment_or_empty_line a = true
    · rw [if_neg (not_not.mpr h)]
      rcases ih (k0 + 1) (by omega) with ⟨h1, h2⟩ | ⟨C, l, rest, e, hC, hl, hf⟩
      · left
        refine ⟨h1, ?_⟩
        intro s hs
        rcases List.mem_cons.mp hs with rfl | hs
        · exact h
        · exact h2 s hs
      · right
        refine ⟨a :: C, l, rest, by rw [e]; rfl, ?_, hl, ?_⟩
        · intro s hs
          rcases List.mem_cons.mp hs with rfl | hs
          · exact h
          · exact hC s hs
        · rw [hf]
          simp only [List.length_cons, Nat.cast_add, Nat.cast_one]
          omega
    · rw [if_pos h]
      right
      exact ⟨[], a, t, rfl, by simp, by simpa using h, by simp⟩

theorem next_command_line_decomp (lines_ : List String) (i : Nat) (hi : i < lines_.length) :
    (next_command_line lines_ (i : Int) = -1 ∧
      ∀ s ∈ lines_.drop (i + 1), is_comment_or_empty_line s = true) ∨
    ∃ (C : List String) (l : String) (rest : List String),
      lines_.drop (i + 1) = C ++ l :: rest ∧
      (∀ s ∈ C, is_comment_or_empty_line s = true) ∧ is_comment_or_empty_line l = false ∧
      next_command_line lines_ (i : Int) = ((i + 1 + C.length : Nat) : Int) := by
  unfold next_command_line
  rw [valid_nat]
  simp only [hi, decide_True, not_true_eq_false, if_false]
  have e : ((i : Int) + 1).toNat = i + 1 := by omega
  rw [e]
  rcases firstCommandFrom_decomp (lines_.drop (i + 1)) ((i : Int) + 1) (by omega) with
    ⟨h1, h2⟩ | ⟨C, l, rest, e2, hC, hl, hf⟩
  · left; exact ⟨h1, h2⟩
  · right
    refine ⟨C, l, rest, e2, hC, hl, ?_⟩
    rw [hf]
    push_cast
    ring

theorem insertCommands_spec (pfx : String) (lines_ : List String) (k : Nat)
    (hk : k ≤ lines_.length) : ∀ cmds : List String,
    insertCommands (k : Int) pfx cmds lines_ =
      lines_.take k ++ ((cmds.filter fun c => decide (c ≠ "")).map fun c => pfx ++ c)
        ++ lines_.drop k := by
  intro cmds
  induction cmds with
  | nil => simp [insertCommands]
  | cons c rest ih =>
    unfold insertCommands
    simp only
    rw [ih]
    by_cases hc : c = ""
    · simp [hc]
    · rw [if_pos hc]
      unfold insert
      have e : ((k : Int)).toNat = k := by omega
      rw [e]
      have hl : (lines_.take k).length = k := by simp [hk]
      simp only [List.append_assoc]
      rw [List.take_append_of_le_length (by omega), List.take_of_length_le (by omega),
        List.drop_append_of_le_length (by omega), List.drop_of_length_le (by omega)]
      simp [hc]


theorem take_succ_eq (lines_ : List String) (i : Nat) (hi : i < lines_.length) :
    lines_.take (i + 1) = lines_.take i ++ [lines_.get ⟨i, hi⟩] := by
  rw [List.take_succ]
  simp [List.getElem?_eq_getElem hi]

theorem remove_at_length (A : List String) (a : String) (X : List String) :
    remove (A ++ a :: X) (A.length : Int) = A ++ X := by
  unfold remove
  have e : ((A.length : Int)).toNat = A.length := by omega
  rw [e, List.eraseIdx_append_of_length_le (le_refl _)]
  simp

/-- The removal loop of `updateLines`: what is left of the lines up to the last removed one
are the lines before the first removed one and the comment lines in between. -/
theorem foldl_remove_spec (lines_ : List String) : ∀ (r i : Nat) (X : List String),
    i < lines_.length →
    (∀ t ∈ linesToRemove lines_ (r + 1) (i : Int), valid lines_ t = true) →
    ∃ (last : Nat) (K : List String),
      (linesToRemove lines_ (r + 1) (i : Int)).getLast? = some (last : Int) ∧
      i ≤ last ∧ last < lines_.length ∧
      (∀ s ∈ K, is_comment_or_empty_line s = true) ∧
      (linesToRemove lines_ (r + 1) (i : Int)).reverse.foldl remove
          (lines_.take (last + 1) ++ X) = lines_.take i ++ K ++ X ∧
      List.Perm ((lines_.take (last + 1)).drop i)
        ((linesToRemove lines_ (r + 1) (i : Int)).map (lineAt lines_) ++ K) := by
  intro r
  induction r with
  | zero =>
    intro i X hi _
    refine ⟨i, [], rfl, le_refl _, hi, by simp, ?_, ?_⟩
    · simp only [linesToRemove, List.reverse_cons, List.reverse_nil, List.nil_append,
        List.foldl_cons, List.foldl_nil, List.append_nil]
      rw [take_succ_eq _ _ hi, List.append_assoc, List.singleton_append]
      have := remove_at_length (lines_.take i) (lines_.get ⟨i, hi⟩) X
      rw [List.length_take, Nat.min_eq_left (by omega)] at this
      exact this
    · simp only [linesToRemove, List.map_cons, List.map_nil, List.append_nil]
      rw [take_succ_eq _ _ hi, lineAt_nat _ _ hi]
      rw [List.drop_append_of_le_length (by simp; omega)]
      rw [List.drop_of_length_le (by simp)]
      simp
  | succ r ih =>
    intro i X hi hval
    have hT : linesToRemove lines_ (r + 1 + 1) (i : Int) =
        (i : Int) :: linesToRemove lines_ (r + 1) (next_command_line lines_ (i : Int)) := rfl
    rw [hT] at hval ⊢
    have hjv : valid lines_ (next_command_line lines_ (i : Int)) = true := by
      apply hval
      apply List.mem_cons_of_mem
      exact List.mem_cons_self _ _
    rcases next_command_line_decomp lines_ i hi with ⟨h1, _⟩ | ⟨C, l, rest, e, hC, hl, hj⟩
    · rw [h1, valid_neg_one] at hjv
      cases hjv
    · rw [hj] at hjv hval ⊢
      have hjlt : i + 1 + C.length < lines_.length := by
        rw [valid_nat] at hjv
        simpa using hjv
      obtain ⟨last, K', hlast, hle, hlt, hK', hfold, hperm⟩ :=
        ih (i + 1 + C.length) X hjlt (fun t ht => hval t (List.mem_cons_of_mem _ ht))
      have hne : linesToRemove lines_ (r + 1) ((i + 1 + C.length : Nat) : Int) ≠ [] := by
        simp [linesToRemove]
      have htake : lines_.take (i + 1 + C.length) = lines_.take i ++ lines_.get ⟨i, hi⟩ :: C := by
        have h1 : lines_.take (i + 1 + C.length)
            = lines_.take (i + 1) ++ (lines_.drop (i + 1)).take C.length := by
          rw [List.take_add]
        rw [h1, e, take_succ_eq _ _ hi, List.take_left' rfl]
        simp only [List.append_assoc, List.singleton_append]
      refine ⟨last, C ++ K', ?_, by omega, hlt, ?_, ?_, ?_⟩
      · cases hT' : linesToRemove lines_ (r + 1) ((i + 1 + C.length : Nat) : Int) with
        | nil => exact absurd hT' hne
        | cons a t =>
          rw [hT'] at hlast
          rw [List.getLast?_cons_cons]
          exact hlast
      · intro s hs
        rcases List.mem_append.mp hs with h | h
        · exact hC s h
        · exact hK' s h
      · rw [List.reverse_cons, List.foldl_append, hfold]
        simp only [List.foldl_cons, List.foldl_nil]
        rw [htake]
        have := remove_at_length (lines_.take i) (lines_.get ⟨i, hi⟩) (C ++ (K' ++ X))
        rw [List.length_take, Nat.min_eq_left (by omega)] at this
        simp only [List.append_assoc, List.cons_append] at this ⊢
        exact this
      · have hsplit : (lines_.take (last + 1)).drop i =
            lines_.get ⟨i, hi⟩ :: C ++ (lines_.take (last + 1)).drop (i + 1 + C.length) := by
          have h2 : (lines_.take (last + 1)).take (i + 1 + C.length)
              = lines_.take (i + 1 + C.length) := by
            rw [List.take_take, Nat.min_eq_left (by omega)]
          have h3 : lines_.take (last + 1) = lines_.take i ++
              (lines_.get ⟨i, hi⟩ :: C ++ (lines_.take (last + 1)).drop (i + 1 + C.length)) := by
            have h4 := List.take_append_drop (i + 1 + C.length) (lines_.take (last + 1))
            rw [h2, htake] at h4
            rw [← List.append_assoc]
            exact h4.symm
          conv_lhs => rw [h3]
          rw [List.drop_left' (by simp; omega)]
        rw [hsplit, List.map_cons, lineAt_nat _ _ hi]
        simp only [List.cons_append]
        apply List.Perm.cons
        have := hperm.append_left C
        refine this.trans ?_
        rw [← List.append_assoc, ← List.append_assoc]
        exact (List.perm_append_comm).append_right K'


theorem linesToRemove_length (lines_ : List String) : ∀ (r : Nat) (i : Int),
    (linesToRemove lines_ r i).length = r := by
  intro r
  induction r with
  | zero => intro i; rfl
  | succ r ih => intro i; simp [linesToRemove, ih]

theorem linesToRemove_tail_commands (lines_ : List String) : ∀ (r : Nat) (i : Nat),
    i < lines_.length →
    ∀ t ∈ (linesToRemove lines_ (r + 1) (i : Int)).tail, valid lines_ t = true →
      is_comment_or_empty_line (lineAt lines_ t) = false := by
  intro r
  induction r with
  | zero => intro i _ t ht; simp [linesToRemove] at ht
  | succ r ih =>
    intro i hi t ht hv
    have hT : linesToRemove lines_ (r + 1 + 1) (i : Int) =
        (i : Int) :: linesToRemove lines_ (r + 1) (next_command_line lines_ (i : Int)) := rfl
    rw [hT, List.tail_cons] at ht
    have hT2 : linesToRemove lines_ (r + 1) (next_command_line lines_ (i : Int)) =
        next_command_line lines_ (i : Int) ::
          (linesToRemove lines_ (r + 1) (next_command_line lines_ (i : Int))).tail := rfl
    rw [hT2] at ht
    rcases next_command_line_decomp lines_ i hi with ⟨h1, _⟩ | ⟨C, l, rest, e, hC, hl, hj⟩
    · rw [h1] at ht hT2
      rcases List.mem_cons.mp ht with rfl | ht
      · rw [valid_neg_one] at hv; cases hv
      · have hinv : ∀ (k : Nat) (u : Int), u ∈ linesToRemove lines_ k (-1) → u = -1 := by
          intro k
          induction k with
          | zero => intro u hu; simp [linesToRemove] at hu
          | succ k ihk =>
            intro u hu
            have e1 : linesToRemove lines_ (k + 1) (-1) =
                (-1 : Int) :: linesToRemove lines_ k (next_command_line lines_ (-1)) := rfl
            rw [e1, next_command_line_invalid _ _ (valid_neg_one _)] at hu
            rcases List.mem_cons.mp hu with rfl | hu
            · rfl
            · exact ihk u hu
        have := hinv _ t (List.mem_of_mem_tail ht)
        rw [this, valid_neg_one] at hv
        cases hv
    · rw [hj] at ht
      have hjlt_or : i + 1 + C.length < lines_.length := by
        have h1 : (lines_.drop (i + 1)).length = (C ++ l :: rest).length := by rw [e]
        simp at h1
        omega
      rcases List.mem_cons.mp ht with rfl | ht
      · rw [lineAt_nat _ _ hjlt_or]
        have : lines_.get ⟨i + 1 + C.length, hjlt_or⟩ = l := by
          have h2 : (lines_.drop (i + 1))[C.length]? = some l := by
            rw [e]
            rw [List.getElem?_append_right (le_refl _)]
            simp
          rw [List.getElem?_drop] at h2
          simp only [List.get_eq_getElem]
          rw [List.getElem?_eq_getElem (by omega)] at h2
          simpa using h2
        rw [this]
        exact hl
      · exact ih (i + 1 + C.length) hjlt_or t ht hv

theorem shortestPrefix_spec (lines_ : List String) : ∀ (T : List Int) (start pfx : String),
    shortestPrefix lines_ T start = some pfx →
    pfx.length ≤ start.length ∧
      (pfx = start ∨ ∃ t ∈ T, ∃ c, Cmd.ofString (lineAt lines_ t) = some c ∧ pfx = c.prefix_) := by
  intro T
  induction T with
  | nil =>
    intro start pfx h
    simp only [shortestPrefix, Option.some.injEq] at h
    subst h
    exact ⟨le_refl _, Or.inl rfl⟩
  | cons t rest ih =>
    intro start pfx h
    unfold shortestPrefix at h
    cases hc : Cmd.ofString (lineAt lines_ t) with
    | none => rw [hc] at h; cases h
    | some c =>
      rw [hc] at h
      simp only at h
      obtain ⟨h1, h2⟩ := ih _ _ h
      by_cases hlt : start.length > c.prefix_.length
      · rw [if_pos hlt] at h1 h2
        refine ⟨by omega, ?_⟩
        rcases h2 with h2 | ⟨u, hu, c2, hc2, e2⟩
        · right; exact ⟨t, List.mem_cons_self _ _, c, hc, h2⟩
        · right; exact ⟨u, List.mem_cons_of_mem _ hu, c2, hc2, e2⟩
      · rw [if_neg hlt] at h1 h2
        refine ⟨h1, ?_⟩
        rcases h2 with h2 | ⟨u, hu, c2, hc2, e2⟩
        · left; exact h2
        · right; exact ⟨u, List.mem_cons_of_mem _ hu, c2, hc2, e2⟩


/-- The lines after `updateLines` for a result that removes at least one line: the lines
before `idx1`, the comment lines among the removed ones, the replacement commands with the
prefix, and the lines after the last removed one. -/
theorem updateLines_spec (lines_ : List String) (i : Nat) (hi : i < lines_.length)
    (res : Result) (hr : 1 ≤ res.remove_) (b : Bool) (i' : Int) (lines' : List String)
    (h : updateLines lines_ (i : Int) res = some (b, i', lines')) :
    ∃ (last : Nat) (K : List String) (pfx : String),
      i ≤ last ∧ last < lines_.length ∧ (∀ s ∈ K, is_comment_or_empty_line s = true) ∧
      lines' = lines_.take i ++ K ++
        ((res.commands_.filter fun c => decide (c ≠ "")).map fun c => pfx ++ c) ++
        lines_.drop (last + 1) ∧
      List.Perm ((lines_.take (last + 1)).drop i)
        ((linesToRemove lines_ res.remove_.toNat (i : Int)).map (lineAt lines_) ++ K) ∧
      (∀ t ∈ linesToRemove lines_ res.remove_.toNat (i : Int), valid lines_ t = true) ∧
      b = res.continue_ ∧
      i' = (if res.continue_ then stepBack lines' (i + 1) 10 (i : Int) (i : Int) else (i : Int)) ∧
      (res.commands_ ≠ [] → ∃ c1, Cmd.ofString (lineAt lines_ (i : Int)) = some c1 ∧
        pfx.length ≤ c1.prefix_.length ∧
        (pfx = c1.prefix_ ∨ ∃ t ∈ linesToRemove lines_ res.remove_.toNat (i : Int),
          ∃ c, Cmd.ofString (lineAt lines_ t) = some c ∧ pfx = c.prefix_)) := by
  obtain ⟨r, hrr⟩ : ∃ r, res.remove_.toNat = r + 1 := ⟨res.remove_.toNat - 1, by omega⟩
  unfold updateLines at h
  rw [if_neg (by omega)] at h
  simp only at h
  by_cases hany : (linesToRemove lines_ res.remove_.toNat (i : Int)).any
      (fun t => !valid lines_ t) = true
  · rw [if_pos hany] at h; cases h
  rw [if_neg hany] at h
  have hval : ∀ t ∈ linesToRemove lines_ res.remove_.toNat (i : Int), valid lines_ t = true := by
    intro t ht
    by_contra hv
    apply hany
    rw [List.any_eq_true]
    exact ⟨t, ht, by simpa using hv⟩
  rw [hrr] at hval h ⊢
  obtain ⟨last, _, hlast, hile, hlt, _, _, _⟩ := foldl_remove_spec lines_ r i [] hi hval
  have hi0 : ((i : Int)).toNat = i := by omega
  have key : ∀ (pfx : String) (N : List String) (lines1 : List String),
      lines1 = lines_.take (last + 1) ++ (N ++ lines_.drop (last + 1)) →
      (match (some ((i : Int), lines1) : Option (Int × List String)) with
        | none => none
        | some (idx1a, lines1) =>
          if res.continue_ = true then
            some (true, stepBack ((linesToRemove lines_ (r + 1) (i : Int)).reverse.foldl remove lines1)
              (idx1a.toNat + 1) 10 idx1a idx1a,
              (linesToRemove lines_ (r + 1) (i : Int)).reverse.foldl remove lines1)
          else some (false, idx1a,
            (linesToRemove lines_ (r + 1) (i : Int)).reverse.foldl remove lines1))
        = some (b, i', lines') →
      ∃ K : List String, (∀ s ∈ K, is_comment_or_empty_line s = true) ∧
        lines' = lines_.take i ++ K ++ N ++ lines_.drop (last + 1) ∧
        List.Perm ((lines_.take (last + 1)).drop i)
          ((linesToRemove lines_ (r + 1) (i : Int)).map (lineAt lines_) ++ K) ∧
        b = res.continue_ ∧
        i' = (if res.continue_ then stepBack lines' (i + 1) 10 (i : Int) (i : Int)
          else (i : Int)) := by
    intro pfx N lines1 e1 hh
    obtain ⟨last2, K, hlast2, _, _, hK, hfold, hperm⟩ :=
      foldl_remove_spec lines_ r i (N ++ lines_.drop (last + 1)) hi hval
    have : last2 = last := by
      rw [hlast] at hlast2
      simp only [Option.some.injEq, Nat.cast_inj] at hlast2
      exact hlast2.symm
    subst this
    simp only at hh
    rw [e1, hfold, hi0] at hh
    by_cases hc : res.continue_ = true
    · rw [if_pos hc] at hh ⊢
      simp only [Option.some.injEq, Prod.mk.injEq] at hh
      obtain ⟨hb, hi2, hl2⟩ := hh
      refine ⟨K, hK, ?_, hperm, ?_, ?_⟩
      · rw [← hl2]; simp only [List.append_assoc]
      · rw [← hb, hc]
      · rw [← hi2, ← hl2]
    · rw [if_neg hc] at hh ⊢
      simp only [Option.some.injEq, Prod.mk.injEq] at hh
      obtain ⟨hb, hi2, hl2⟩ := hh
      refine ⟨K, hK, ?_, hperm, ?_, hi2.symm⟩
      · rw [← hl2]; simp only [List.append_assoc]
      · rw [← hb]; simpa using hc
  by_cases hne : res.commands_ = []
  · rw [if_neg (by simpa using hne)] at h
    obtain ⟨K, h1, h2, h3, h4, h5⟩ := key "" [] lines_
      (by simp) h
    refine ⟨last, K, "", hile, hlt, h1, ?_, h3, hval, h4, h5, fun hc => absurd hne hc⟩
    rw [h2, hne]
    simp
  · rw [if_pos hne] at h
    cases hc1 : Cmd.ofString (lineAt lines_ (i : Int)) with
    | none => rw [hc1] at h; cases h
    | some c1 =>
      rw [hc1] at h
      simp only at h
      cases hsp : shortestPrefix lines_ (linesToRemove lines_ (r + 1) (i : Int)) c1.prefix_ with
      | none => rw [hsp] at h; cases h
      | some pfx =>
        rw [hsp, hlast] at h
        simp only at h
        have hcast : ((last : Int) + 1) = ((last + 1 : Nat) : Int) := by push_cast; ring
        rw [hcast, insertCommands_spec pfx lines_ (last + 1) (by omega)] at h
        obtain ⟨K, h1, h2, h3, h4, h5⟩ := key pfx
          ((res.commands_.filter fun c => decide (c ≠ "")).map fun c => pfx ++ c) _
          (List.append_assoc _ _ _) h
        obtain ⟨p1, p2⟩ := shortestPrefix_spec _ _ _ _ hsp
        exact ⟨last, K, pfx, hile, hlt, h1, h2, h3, hval, h4, h5, fun _ => ⟨c1, rfl, p1, p2⟩⟩


/-! ### Every rewrite of `optimize_at` continues and removes a line -/

set_option linter.unusedTactic false
set_option linter.unreachableTactic false
set_option linter.unusedVariables false

theorem try_simulate_loop_remove (lines_ : List String) :
    ∀ (fuel : Nat) (first : Bool) (i ss rc : Int) (cmds : List String) (rc1 : Int)
      (cmds1 : List String),
      try_simulate_loop lines_ fuel first i ss rc cmds = some (some (rc1, cmds1)) →
      rc + (if first then 1 else 2) ≤ rc1 := by
  intro fuel
  induction fuel with
  | zero => intro first i ss rc cmds rc1 cmds1 h; simp [try_simulate_loop] at h
  | succ k ih =>
    intro first i ss rc cmds rc1 cmds1 h
    unfold try_simulate_loop at h
    simp only at h
    generalize hi : (if first = true then i else next_command_line lines_ i) = i1 at h
    generalize hr : (if first = true then rc else rc + 1) = r1 at h
    have hr1 : r1 - rc = if first = true then 0 else 1 := by
      subst hr; cases first <;> simp
    have recur : ∀ (ss1 : Int) (x : String),
        try_simulate_loop lines_ k false i1 ss1 r1 (cmds ++ [x]) = some (some (rc1, cmds1)) →
        rc + (if first then 1 else 2) ≤ rc1 := by
      intro ss1 x hh
      have h2 := ih _ _ _ _ _ _ _ hh
      simp only [Bool.false_eq_true, if_false] at h2
      cases first <;> simp at hr1 ⊢ <;> omega
    have final : ∀ tail : List String, (tail = [] ∨ ∃ n, 0 < n ∧ make_DROP n = some tail) →
        some (some (r1 + 1, cmds ++ tail)) = some (some (rc1, cmds1)) →
        rc + (if first then 1 else 2) ≤ rc1 := by
      intro tail _ hh
      simp only [Option.some.injEq, Prod.mk.injEq] at hh
      obtain ⟨e1, e2⟩ := hh
      cases first <;> simp at hr1 ⊢ <;> omega
    by_cases hv : valid lines_ i1 = true
    swap
    · rw [if_pos hv] at h; cases h
    rw [if_neg (not_not.mpr hv)] at h
    cases hc : cmd lines_ i1 with
    | none => rw [hc] at h; cases h
    | some c =>
      rw [hc] at h
      simp only at h
      by_cases hpush : c.is_PUSH = true
      · rw [if_pos hpush] at h
        cases hpi : c.get_push_index with
        | none => rw [hpi] at h; cases h
        | some pi =>
          rw [hpi] at h
          simp only at h
          by_cases e1 : pi + 1 = ss
          · rw [if_pos e1] at h; cases h
          rw [if_neg e1] at h
          by_cases e2 : pi + 1 < ss
          · rw [if_pos e2] at h; exact recur _ _ h
          rw [if_neg e2] at h
          by_cases e3 : pi = 0
          · rw [if_pos e3] at h; cases h
          rw [if_neg e3] at h
          cases hm : make_PUSH (pi - 1) with
          | none => rw [hm] at h; cases h
          | some s => rw [hm] at h; exact recur _ _ h
      rw [if_neg hpush] at h
      by_cases hpop : c.is_POP = true
      · rw [if_pos hpop] at h
        by_cases e0 : ss = 1
        · rw [if_pos e0] at h; cases h
        rw [if_neg e0] at h
        cases hpi : c.get_pop_index with
        | none => rw [hpi] at h; cases h
        | some pi =>
          rw [hpi] at h
          simp only at h
          by_cases e1 : pi + 1 = ss
          · rw [if_pos e1] at h; cases h
          rw [if_neg e1] at h
          by_cases e2 : pi + 1 < ss
          · rw [if_pos e2] at h; exact recur _ _ h
          rw [if_neg e2] at h
          cases hm : make_POP (pi - 1) with
          | none => rw [hm] at h; cases h
          | some s => rw [hm] at h; exact recur _ _ h
      rw [if_neg hpop] at h
      by_cases hblk : c.is "BLKPUSH" = true
      · rw [if_pos hblk] at h
        cases hsec : c.fetch_second_int with
        | none => rw [hsec] at h; cases h
        | some sec =>
          rw [hsec] at h
          simp only at h
          by_cases e1 : sec + 1 < ss
          · rw [if_pos e1] at h
            cases hfst : c.fetch_first_int with
            | none => rw [hfst] at h; cases h
            | some fst => rw [hfst] at h; exact recur _ _ h
          · rw [if_neg e1] at h; cases h
      rw [if_neg hblk] at h
      by_cases hnip : c.is_NIP = true
      · rw [if_pos hnip] at h
        by_cases e1 : ss = 2
        · rw [if_pos e1] at h
          exact final [] (Or.inl rfl) (by simpa using h)
        rw [if_neg e1] at h
        by_cases e2 : ss > 2
        · rw [if_pos e2] at h; exact recur _ _ h
        · rw [if_neg e2] at h; cases h
      rw [if_neg hnip] at h
      cases hd : c.get_drop_index with
      | none => rw [hd] at h; cases h
      | some n =>
        rw [hd] at h
        simp only at h
        by_cases e1 : n > 0
        · rw [if_pos e1] at h
          by_cases e2 : ss ≤ n
          · rw [if_pos e2] at h
            by_cases e3 : n > 1
            · rw [if_pos e3] at h
              cases hm : make_DROP (n - 1) with
              | none => rw [hm] at h; cases h
              | some dropOpcodes =>
                rw [hm] at h
                exact final dropOpcodes (Or.inr ⟨n - 1, by omega, hm⟩) h
            · rw [if_neg e3] at h
              exact final [] (Or.inl rfl) (by simpa using h)
          · rw [if_neg e2] at h; exact recur _ _ h
        rw [if_neg e1] at h
        by_cases hs : c.is_simple_command_ = true
        · rw [if_pos hs] at h
          by_cases e2 : ss ≤ c.inputs_count_
          · rw [if_pos e2] at h; cases h
          · rw [if_neg e2] at h; exact recur _ _ h
        · rw [if_neg hs] at h; cases h


theorem simulateRule_hit (w : Window) (i ss rc : Int) (cmds : List String) (res : Result)
    (h : simulateRule w i ss rc cmds = some (some res)) :
    res.continue_ = true ∧ rc + 1 ≤ res.remove_ := by
  unfold simulateRule at h
  cases ht : try_simulate w.lines_ i ss rc cmds with
  | none => rw [ht] at h; cases h
  | some o =>
    cases o with
    | none => rw [ht] at h; simp [miss] at h
    | some pr =>
      obtain ⟨n, cs⟩ := pr
      rw [ht] at h
      simp only [hit, Option.some.injEq] at h
      subst h
      refine ⟨rfl, ?_⟩
      unfold try_simulate at ht
      by_cases hv : valid w.lines_ i = true
      · rw [if_neg (not_not.mpr hv)] at ht
        have := try_simulate_loop_remove w.lines_ _ _ _ _ _ _ _ _ ht
        simpa using this
      · rw [if_pos hv] at ht; cases ht

theorem oneSlice_hit (opcodes : Option (List String)) (remove : Int) (head : String)
    (tail : List String) (res : Result) (h : oneSlice opcodes remove head tail = some (some res)) :
    res.continue_ = true ∧ res.remove_ = remove := by
  unfold oneSlice at h
  split at h
  · cases h
  · simp only [hit, Option.some.injEq] at h
    subst h
    simp
  · simp [miss] at h

theorem pushSliceResult_hit (tc : TvmConst) (bitStr : Option (List Char)) (remove : Int)
    (res : Result) (h : pushSliceResult tc bitStr remove = some (some res)) :
    res.continue_ = true ∧ res.remove_ = remove := by
  unfold pushSliceResult at h
  split at h
  · cases h
  · exact oneSlice_hit _ _ _ _ _ h


theorem rule396_hit (w : Window) (res : Result) (h : rule396 w = some (some res)) :
    res.continue_ = true ∧ (1 ≤ res.remove_ ∨ res.commands_ = []) := by
  unfold rule396 at h
  simp only [hit, miss] at h
  repeat' split at h
  all_goals first
    | (simp at h <;> fail)
    | (simp at h; subst h; simp; done)
    | (simp at h; subst h; simp; omega)
    | (simp at h; subst h; decide)
    | (have h1 := simulateRule_hit _ _ _ _ _ _ h
       exact ⟨h1.1, Or.inl (by have := h1.2; omega)⟩)
    | (obtain ⟨h1, h2⟩ := oneSlice_hit _ _ _ _ _ h
       rw [h1, h2]; simp; done)
    | (obtain ⟨h1, h2⟩ := pushSliceResult_hit _ _ _ _ h
       rw [h1, h2]; simp; done)

theorem rule403_hit (w : Window) (res : Result) (h : rule403 w = some (some res)) :
    res.continue_ = true ∧ (1 ≤ res.remove_ ∨ res.commands_ = []) := by
  unfold rule403 at h
  simp only [hit, miss] at h
  repeat' split at h
  all_goals first
    | (simp at h <;> fail)
    | (simp at h; subst h; simp; done)
    | (simp at h; subst h; simp; omega)
    | (simp at h; subst h; decide)
    | (have h1 := simulateRule_hit _ _ _ _ _ _ h
       exact ⟨h1.1, Or.inl (by have := h1.2; omega)⟩)
    | (obtain ⟨h1, h2⟩ := oneSlice_hit _ _ _ _ _ h
       rw [h1, h2]; simp; done)
    | (obtain ⟨h1, h2⟩ := pushSliceResult_hit _ _ _ _ h
       rw [h1, h2]; simp; done)

theorem rule412_hit (w : Window) (res : Result) (h : rule412 w = some (some res)) :
    res.continue_ = true ∧ (1 ≤ res.remove_ ∨ res.commands_ = []) := by
  unfold rule412 at h
  simp only [hit, miss] at h
  repeat' split at h
  all_goals first
    | (simp at h <;> fail)
    | (simp at h; subst h; simp; done)
    | (simp at h; subst h; simp; omega)
    | (simp at h; subst h; decide)
    | (have h1 := simulateRule_hit _ _ _ _ _ _ h
       exact ⟨h1.1, Or.inl (by have := h1.2; omega)⟩)
    | (obtain ⟨h1, h2⟩ := oneSlice_hit _ _ _ _ _ h
       rw [h1, h2]; simp; done)
    | (obtain ⟨h1, h2⟩ := pushSliceResult_hit _ _ _ _ h
       rw [h1, h2]; simp; done)

theorem rule426_hit (w : Window) (res : Result) (h : rule426 w = some (some res)) :
    res.continue_ = true ∧ (1 ≤ res.remove_ ∨ res.commands_ = []) := by
  unfold rule426 at h
  simp only [hit, miss] at h
  repeat' split at h
  all_goals first
    | (simp at h <;> fail)
    | (simp at h; subst h; simp; done)
    | (simp at h; subst h; simp; omega)
    | (simp at h; subst h; decide)
    | (have h1 := simulateRule_hit _ _ _ _ _ _ h
       exact ⟨h1.1, Or.inl (by have := h1.2; omega)⟩)
    | (obtain ⟨h1, h2⟩ := oneSlice_hit _ _ _ _ _ h
       rw [h1, h2]; simp; done)
    | (obtain ⟨h1, h2⟩ := pushSliceResult_hit _ _ _ _ h
       rw [h1, h2]; simp; done)

theorem rule431_hit (w : Window) (res : Result) (h : rule431 w = some (some res)) :
    res.continue_ = true ∧ (1 ≤ res.remove_ ∨ res.commands_ = []) := by
  unfold rule431 at h
  simp only [hit, miss] at h
  repeat' split at h
  all_goals first
    | (simp at h <;> fail)
    | (simp at h; subst h; simp; done)
    | (simp at h; subst h; simp; omega)
    | (simp at h; subst h; decide)
    | (have h1 := simulateRule_hit _ _ _ _ _ _ h
       exact ⟨h1.1, Or.inl (by have := h1.2; omega)⟩)
    | (obtain ⟨h1, h2⟩ := oneSlice_hit _ _ _ _ _ h
       rw [h1, h2]; simp; done)
    | (obtain ⟨h1, h2⟩ := pushSliceResult_hit _ _ _ _ h
       rw [h1, h2]; simp; done)

theorem rule434_hit (w : Window) (res : Result) (h : rule434 w = some (some res)) :
    res.continue_ = true ∧ (1 ≤ res.remove_ ∨ res.commands_ = []) := by
  unfold rule434 at h
  simp only [hit, miss] at h
  repeat' split at h
  all_goals first
    | (simp at h <;> fail)
    | (simp at h; subst h; simp; done)
    | (simp at h; subst h; simp; omega)
    | (simp at h; subst h; decide)
    | (have h1 := simulateRule_hit _ _ _ _ _ _ h
       exact ⟨h1.1, Or.inl (by have := h1.2; omega)⟩)
    | (obtain ⟨h1, h2⟩ := oneSlice_hit _ _ _ _ _ h
       rw [h1, h2]; simp; done)
    | (obtain ⟨h1, h2⟩ := pushSliceResult_hit _ _ _ _ h
       rw [h1, h2]; simp; done)

theorem rule443_hit (w : Window) (res : Result) (lines_ : List String) (idx1 : Int)
    (hw : Window.at lines_ idx1 = some w) (h : rule443 w = some (some res)) :
    res.continue_ = true ∧ (1 ≤ res.remove_ ∨ res.commands_ = []) := by
  obtain ⟨hl, hi1, hi2, hc1, hc2⟩ := Window.at_spec _ _ _ hw
  unfold rule443 at h
  by_cases hn : (w.cmd1.is_NIP && w.cmd2.is_NIP && w.cmd3.is_NIP) = true
  · rw [if_pos hn] at h
    simp only [Bool.and_eq_true] at hn
    cases hcw : countWhile w.lines_ (fun c => some c.is_NIP) (w.lines_.length + 1) w.idx1 with
    | none => rw [hcw] at h; cases h
    | some n0 =>
      rw [hcw] at h
      simp only [hit, Option.some.injEq] at h
      subst h
      rw [hl, hi1] at hcw
      obtain ⟨k, m, _, hk, e1⟩ := countWhile_step _ _ _ _ _ _ hcw hc1 (by simp [hn.1.1])
      obtain ⟨k2, m2, _, hk2, e2⟩ := countWhile_step _ _ _ _ _ _ hk hc2 (by simp [hn.1.2])
      have := countWhile_nonneg _ _ _ _ _ hk2
      refine ⟨rfl, Or.inl ?_⟩
      simp only
      split_ifs <;> omega
  · rw [if_neg hn] at h; simp [miss] at h

theorem rule452_hit (w : Window) (res : Result) (h : rule452 w = some (some res)) :
    res.continue_ = true ∧ (1 ≤ res.remove_ ∨ res.commands_ = []) := by
  unfold rule452 at h
  simp only [hit, miss] at h
  repeat' split at h
  all_goals first
    | (simp at h <;> fail)
    | (simp at h; subst h; simp; done)
    | (simp at h; subst h; simp; omega)
    | (simp at h; subst h; decide)
    | (have h1 := simulateRule_hit _ _ _ _ _ _ h
       exact ⟨h1.1, Or.inl (by have := h1.2; omega)⟩)
    | (obtain ⟨h1, h2⟩ := oneSlice_hit _ _ _ _ _ h
       rw [h1, h2]; simp; done)
    | (obtain ⟨h1, h2⟩ := pushSliceResult_hit _ _ _ _ h
       rw [h1, h2]; simp; done)

theorem rule459_hit (w : Window) (res : Result) (h : rule459 w = some (some res)) :
    res.continue_ = true ∧ (1 ≤ res.remove_ ∨ res.commands_ = []) := by
  unfold rule459 at h
  simp only [hit, miss] at h
  repeat' split at h
  all_goals first
    | (simp at h <;> fail)
    | (simp at h; subst h; simp; done)
    | (simp at h; subst h; simp; omega)
    | (simp at h; subst h; decide)
    | (have h1 := simulateRule_hit _ _ _ _ _ _ h
       exact ⟨h1.1, Or.inl (by have := h1.2; omega)⟩)
    | (obtain ⟨h1, h2⟩ := oneSlice_hit _ _ _ _ _ h
       rw [h1, h2]; simp; done)
    | (obtain ⟨h1, h2⟩ := pushSliceResult_hit _ _ _ _ h
       rw [h1, h2]; simp; done)

theorem rule476_hit (w : Window) (res : Result) (h : rule476 w = some (some res)) :
    res.continue_ = true ∧ (1 ≤ res.remove_ ∨ res.commands_ = []) := by
  unfold rule476 at h
  simp only [hit, miss] at h
  repeat' split at h
  all_goals first
    | (simp at h <;> fail)
    | (simp at h; subst h; simp; done)
    | (simp at h; subst h; simp; omega)
    | (simp at h; subst h; decide)
    | (have h1 := simulateRule_hit _ _ _ _ _ _ h
       exact ⟨h1.1, Or.inl (by have := h1.2; omega)⟩)
    | (obtain ⟨h1, h2⟩ := oneSlice_hit _ _ _ _ _ h
       rw [h1, h2]; simp; done)
    | (obtain ⟨h1, h2⟩ := pushSliceResult_hit _ _ _ _ h
       rw [h1, h2]; simp; done)

theorem rule479_hit (w : Window) (res : Result) (h : rule479 w = some (some res)) :
    res.continue_ = true ∧ (1 ≤ res.remove_ ∨ res.commands_ = []) := by
  unfold rule479 at h
  simp only [hit, miss] at h
  repeat' split at h
  all_goals first
    | (simp at h <;> fail)
    | (simp at h; subst h; simp; done)
    | (simp at h; subst h; simp; omega)
    | (simp at h; subst h; decide)
    | (have h1 := simulateRule_hit _ _ _ _ _ _ h
       exact ⟨h1.1, Or.inl (by have := h1.2; omega)⟩)
    | (obtain ⟨h1, h2⟩ := oneSlice_hit _ _ _ _ _ h
       rw [h1, h2]; simp; done)
    | (obtain ⟨h1, h2⟩ := pushSliceResult_hit _ _ _ _ h
       rw [h1, h2]; simp; done)

theorem rule490_hit (w : Window) (res : Result) (h : rule490 w = some (some res)) :
    res.continue_ = true ∧ (1 ≤ res.remove_ ∨ res.commands_ = []) := by
  unfold rule490 at h
  simp only [hit, miss] at h
  repeat' split at h
  all_goals first
    | (simp at h <;> fail)
    | (simp at h; subst h; simp; done)
    | (simp at h; subst h; simp; omega)
    | (simp at h; subst h; decide)
    | (have h1 := simulateRule_hit _ _ _ _ _ _ h
       exact ⟨h1.1, Or.inl (by have := h1.2; omega)⟩)
    | (obtain ⟨h1, h2⟩ := oneSlice_hit _ _ _ _ _ h
       rw [h1, h2]; simp; done)
    | (obtain ⟨h1, h2⟩ := pushSliceResult_hit _ _ _ _ h
       rw [h1, h2]; simp; done)

theorem rule501_hit (w : Window) (res : Result) (h : rule501 w = some (some res)) :
    res.continue_ = true ∧ (1 ≤ res.remove_ ∨ res.commands_ = []) := by
  unfold rule501 at h
  simp only [hit, miss] at h
  repeat' split at h
  all_goals first
    | (simp at h <;> fail)
    | (simp at h; subst h; simp; done)
    | (simp at h; subst h; simp; omega)
    | (simp at h; subst h; decide)
    | (have h1 := simulateRule_hit _ _ _ _ _ _ h
       exact ⟨h1.1, Or.inl (by have := h1.2; omega)⟩)
    | (obtain ⟨h1, h2⟩ := oneSlice_hit _ _ _ _ _ h
       rw [h1, h2]; simp; done)
    | (obtain ⟨h1, h2⟩ := pushSliceResult_hit _ _ _ _ h
       rw [h1, h2]; simp; done)

theorem rule508_hit (w : Window) (res : Result) (h : rule508 w = some (some res)) :
    res.continue_ = true ∧ (1 ≤ res.remove_ ∨ res.commands_ = []) := by
  unfold rule508 at h
  simp only [hit, miss] at h
  repeat' split at h
  all_goals first
    | (simp at h <;> fail)
    | (simp at h; subst h; simp; done)
    | (simp at h; subst h; simp; omega)
    | (simp at h; subst h; decide)
    | (have h1 := simulateRule_hit _ _ _ _ _ _ h
       exact ⟨h1.1, Or.inl (by have := h1.2; omega)⟩)
    | (obtain ⟨h1, h2⟩ := oneSlice_hit _ _ _ _ _ h
       rw [h1, h2]; simp; done)
    | (obtain ⟨h1, h2⟩ := pushSliceResult_hit _ _ _ _ h
       rw [h1, h2]; simp; done)

theorem rule517_hit (w : Window) (res : Result) (h : rule517 w = some (some res)) :
    res.continue_ = true ∧ (1 ≤ res.remove_ ∨ res.commands_ = []) := by
  unfold rule517 at h
  simp only [hit, miss] at h
  repeat' split at h
  all_goals first
    | (simp at h <;> fail)
    | (simp at h; subst h; simp; done)
    | (simp at h; subst h; simp; omega)
    | (simp at h; subst h; decide)
    | (have h1 := simulateRule_hit _ _ _ _ _ _ h
       exact ⟨h1.1, Or.inl (by have := h1.2; omega)⟩)
    | (obtain ⟨h1, h2⟩ := oneSlice_hit _ _ _ _ _ h
       rw [h1, h2]; simp; done)
    | (obtain ⟨h1, h2⟩ := pushSliceResult_hit _ _ _ _ h
       rw [h1, h2]; simp; done)

theorem rule523_hit (w : Window) (res : Result) (h : rule523 w = some (some res)) :
    res.continue_ = true ∧ (1 ≤ res.remove_ ∨ res.commands_ = []) := by
  unfold rule523 at h
  simp only [hit, miss] at h
  repeat' split at h
  all_goals first
    | (simp at h <;> fail)
    | (simp at h; subst h; simp; done)
    | (simp at h; subst h; simp; omega)
    | (simp at h; subst h; decide)
    | (have h1 := simulateRule_hit _ _ _ _ _ _ h
       exact ⟨h1.1, Or.inl (by have := h1.2; omega)⟩)
    | (obtain ⟨h1, h2⟩ := oneSlice_hit _ _ _ _ _ h
       rw [h1, h2]; simp; done)
    | (obtain ⟨h1, h2⟩ := pushSliceResult_hit _ _ _ _ h
       rw [h1, h2]; simp; done)

theorem rule528_hit (w : Window) (res : Result) (h : rule528 w = some (some res)) :
    res.continue_ = true ∧ (1 ≤ res.remove_ ∨ res.commands_ = []) := by
  unfold rule528 at h
  simp only [hit, miss] at h
  repeat' split at h
  all_goals first
    | (simp at h <;> fail)
    | (simp at h; subst h; simp; done)
    | (simp at h; subst h; simp; omega)
    | (simp at h; subst h; decide)
    | (have h1 := simulateRule_hit _ _ _ _ _ _ h
       exact ⟨h1.1, Or.inl (by have := h1.2; omega)⟩)
    | (obtain ⟨h1, h2⟩ := oneSlice_hit _ _ _ _ _ h
       rw [h1, h2]; simp; done)
    | (obtain ⟨h1, h2⟩ := pushSliceResult_hit _ _ _ _ h
       rw [h1, h2]; simp; done)

theorem rule531_hit (w : Window) (res : Result) (h : rule531 w = some (some res)) :
    res.continue_ = true ∧ (1 ≤ res.remove_ ∨ res.commands_ = []) := by
  unfold rule531 at h
  simp only [hit, miss] at h
  repeat' split at h
  all_goals first
    | (simp at h <;> fail)
    | (simp at h; subst h; simp; done)
    | (simp at h; subst h; simp; omega)
    | (simp at h; subst h; decide)
    | (have h1 := simulateRule_hit _ _ _ _ _ _ h
       exact ⟨h1.1, Or.inl (by have := h1.2; omega)⟩)
    | (obtain ⟨h1, h2⟩ := oneSlice_hit _ _ _ _ _ h
       rw [h1, h2]; simp; done)
    | (obtain ⟨h1, h2⟩ := pushSliceResult_hit _ _ _ _ h
       rw [h1, h2]; simp; done)

theorem rule537_hit (w : Window) (res : Result) (lines_ : List String) (idx1 : Int)
    (hw : Window.at lines_ idx1 = some w) (h : rule537 w = some (some res)) :
    res.continue_ = true ∧ (1 ≤ res.remove_ ∨ res.commands_ = []) := by
  obtain ⟨hl, hi1, hi2, hc1, hc2⟩ := Window.at_spec _ _ _ hw
  unfold rule537 at h
  simp only [hit, miss] at h
  cases hd1 : w.cmd1.get_drop_index with
  | none => rw [hd1] at h; cases h
  | some d1 =>
    rw [hd1] at h
    simp only at h
    by_cases e1 : d1 > 0
    swap
    · rw [if_neg e1] at h; simp at h
    rw [if_pos e1] at h
    cases hd2 : w.cmd2.get_drop_index with
    | none => rw [hd2] at h; cases h
    | some d2 =>
      rw [hd2] at h
      simp only at h
      by_cases e2 : d2 > 0
      swap
      · rw [if_neg e2] at h; simp at h
      rw [if_pos e2] at h
      cases hcd : countDrops w.lines_ (w.lines_.length + 1) w.idx1 with
      | none => rw [hcd] at h; cases h
      | some r =>
        obtain ⟨n, total⟩ := r
        rw [hcd] at h
        simp only at h
        by_cases e3 : total > 1
        swap
        · rw [if_neg e3] at h; simp at h
        rw [if_pos e3] at h
        cases hm : make_DROP total with
        | none => rw [hm] at h; cases h
        | some d =>
          rw [hm] at h
          simp only [Option.some.injEq] at h
          subst h
          rw [hl, hi1] at hcd
          obtain ⟨k, m, t, _, hk, en⟩ := countDrops_step _ _ _ _ _ _ _ hcd hc1 hd1 e1
          obtain ⟨k2, m2, t2, _, hk2, en2⟩ := countDrops_step _ _ _ _ _ _ _ hk hc2 hd2 e2
          have := countDrops_nonneg _ _ _ _ _ hk2
          refine ⟨rfl, Or.inl ?_⟩
          simp only
          omega


theorem rule548_hit (w : Window) (res : Result) (h : rule548 w = some (some res)) :
    res.continue_ = true ∧ (1 ≤ res.remove_ ∨ res.commands_ = []) := by
  unfold rule548 at h
  simp only [hit, miss] at h
  repeat' split at h
  all_goals first
    | (simp at h <;> fail)
    | (simp at h; subst h; simp; done)
    | (simp at h; subst h; simp; omega)
    | (simp at h; subst h; decide)
    | (have h1 := simulateRule_hit _ _ _ _ _ _ h
       exact ⟨h1.1, Or.inl (by have := h1.2; omega)⟩)
    | (obtain ⟨h1, h2⟩ := oneSlice_hit _ _ _ _ _ h
       rw [h1, h2]; simp; done)
    | (obtain ⟨h1, h2⟩ := pushSliceResult_hit _ _ _ _ h
       rw [h1, h2]; simp; done)

theorem rule555_hit (w : Window) (res : Result) (h : rule555 w = some (some res)) :
    res.continue_ = true ∧ (1 ≤ res.remove_ ∨ res.commands_ = []) := by
  unfold rule555 at h
  simp only [hit, miss] at h
  repeat' split at h
  all_goals first
    | (simp at h <;> fail)
    | (simp at h; subst h; simp; done)
    | (simp at h; subst h; simp; omega)
    | (simp at h; subst h; decide)
    | (have h1 := simulateRule_hit _ _ _ _ _ _ h
       exact ⟨h1.1, Or.inl (by have := h1.2; omega)⟩)
    | (obtain ⟨h1, h2⟩ := oneSlice_hit _ _ _ _ _ h
       rw [h1, h2]; simp; done)
    | (obtain ⟨h1, h2⟩ := pushSliceResult_hit _ _ _ _ h
       rw [h1, h2]; simp; done)

theorem rule562_hit (w : Window) (res : Result) (h : rule562 w = some (some res)) :
    res.continue_ = true ∧ (1 ≤ res.remove_ ∨ res.commands_ = []) := by
  unfold rule562 at h
  simp only [hit, miss] at h
  repeat' split at h
  all_goals first
    | (simp at h <;> fail)
    | (simp at h; subst h; simp; done)
    | (simp at h; subst h; simp; omega)
    | (simp at h; subst h; decide)
    | (have h1 := simulateRule_hit _ _ _ _ _ _ h
       exact ⟨h1.1, Or.inl (by have := h1.2; omega)⟩)
    | (obtain ⟨h1, h2⟩ := oneSlice_hit _ _ _ _ _ h
       rw [h1, h2]; simp; done)
    | (obtain ⟨h1, h2⟩ := pushSliceResult_hit _ _ _ _ h
       rw [h1, h2]; simp; done)

theorem rule569_hit (w : Window) (res : Result) (h : rule569 w = some (some res)) :
    res.continue_ = true ∧ (1 ≤ res.remove_ ∨ res.commands_ = []) := by
  unfold rule569 at h
  simp only [hit, miss] at h
  repeat' split at h
  all_goals first
    | (simp at h <;> fail)
    | (simp at h; subst h; simp; done)
    | (simp at h; subst h; simp; omega)
    | (simp at h; subst h; decide)
    | (have h1 := simulateRule_hit _ _ _ _ _ _ h
       exact ⟨h1.1, Or.inl (by have := h1.2; omega)⟩)
    | (obtain ⟨h1, h2⟩ := oneSlice_hit _ _ _ _ _ h
       rw [h1, h2]; simp; done)
    | (obtain ⟨h1, h2⟩ := pushSliceResult_hit _ _ _ _ h
       rw [h1, h2]; simp; done)

theorem rule576_hit (w : Window) (res : Result) (h : rule576 w = some (some res)) :
    res.continue_ = true ∧ (1 ≤ res.remove_ ∨ res.commands_ = []) := by
  unfold rule576 at h
  simp only [hit, miss] at h
  repeat' split at h
  all_goals first
    | (simp at h <;> fail)
    | (simp at h; subst h; simp; done)
    | (simp at h; subst h; simp; omega)
    | (simp at h; subst h; decide)
    | (have h1 := simulateRule_hit _ _ _ _ _ _ h
       exact ⟨h1.1, Or.inl (by have := h1.2; omega)⟩)
    | (obtain ⟨h1, h2⟩ := oneSlice_hit _ _ _ _ _ h
       rw [h1, h2]; simp; done)
    | (obtain ⟨h1, h2⟩ := pushSliceResult_hit _ _ _ _ h
       rw [h1, h2]; simp; done)

theorem rule590_hit (w : Window) (res : Result) (h : rule590 w = some (some res)) :
    res.continue_ = true ∧ (1 ≤ res.remove_ ∨ res.commands_ = []) := by
  unfold rule590 at h
  simp only [hit, miss] at h
  repeat' split at h
  all_goals first
    | (simp at h <;> fail)
    | (simp at h; subst h; simp; done)
    | (simp at h; subst h; simp; omega)
    | (simp at h; subst h; decide)
    | (have h1 := simulateRule_hit _ _ _ _ _ _ h
       exact ⟨h1.1, Or.inl (by have := h1.2; omega)⟩)
    | (obtain ⟨h1, h2⟩ := oneSlice_hit _ _ _ _ _ h
       rw [h1, h2]; simp; done)
    | (obtain ⟨h1, h2⟩ := pushSliceResult_hit _ _ _ _ h
       rw [h1, h2]; simp; done)

theorem rule597_hit (w : Window) (res : Result) (h : rule597 w = some (some res)) :
    res.continue_ = true ∧ (1 ≤ res.remove_ ∨ res.commands_ = []) := by
  unfold rule597 at h
  simp only [hit, miss] at h
  repeat' split at h
  all_goals first
    | (simp at h <;> fail)
    | (simp at h; subst h; simp; done)
    | (simp at h; subst h; simp; omega)
    | (simp at h; subst h; decide)
    | (have h1 := simulateRule_hit _ _ _ _ _ _ h
       exact ⟨h1.1, Or.inl (by have := h1.2; omega)⟩)
    | (obtain ⟨h1, h2⟩ := oneSlice_hit _ _ _ _ _ h
       rw [h1, h2]; simp; done)
    | (obtain ⟨h1, h2⟩ := pushSliceResult_hit _ _ _ _ h
       rw [h1, h2]; simp; done)

theorem rule600_hit (w : Window) (res : Result) (h : rule600 w = some (some res)) :
    res.continue_ = true ∧ (1 ≤ res.remove_ ∨ res.commands_ = []) := by
  unfold rule600 at h
  simp only [hit, miss] at h
  repeat' split at h
  all_goals first
    | (simp at h <;> fail)
    | (simp at h; subst h; simp; done)
    | (simp at h; subst h; simp; omega)
    | (simp at h; subst h; decide)
    | (have h1 := simulateRule_hit _ _ _ _ _ _ h
       exact ⟨h1.1, Or.inl (by have := h1.2; omega)⟩)
    | (obtain ⟨h1, h2⟩ := oneSlice_hit _ _ _ _ _ h
       rw [h1, h2]; simp; done)
    | (obtain ⟨h1, h2⟩ := pushSliceResult_hit _ _ _ _ h
       rw [h1, h2]; simp; done)

theorem rule603_hit (w : Window) (res : Result) (h : rule603 w = some (some res)) :
    res.continue_ = true ∧ (1 ≤ res.remove_ ∨ res.commands_ = []) := by
  unfold rule603 at h
  simp only [hit, miss] at h
  repeat' split at h
  all_goals first
    | (simp at h <;> fail)
    | (simp at h; subst h; simp; done)
    | (simp at h; subst h; simp; omega)
    | (simp at h; subst h; decide)
    | (have h1 := simulateRule_hit _ _ _ _ _ _ h
       exact ⟨h1.1, Or.inl (by have := h1.2; omega)⟩)
    | (obtain ⟨h1, h2⟩ := oneSlice_hit _ _ _ _ _ h
       rw [h1, h2]; simp; done)
    | (obtain ⟨h1, h2⟩ := pushSliceResult_hit _ _ _ _ h
       rw [h1, h2]; simp; done)

theorem rule606_hit (w : Window) (res : Result) (h : rule606 w = some (some res)) :
    res.continue_ = true ∧ (1 ≤ res.remove_ ∨ res.commands_ = []) := by
  unfold rule606 at h
  simp only [hit, miss] at h
  repeat' split at h
  all_goals first
    | (simp at h <;> fail)
    | (simp at h; subst h; simp; done)
    | (simp at h; subst h; simp; omega)
    | (simp at h; subst h; decide)
    | (have h1 := simulateRule_hit _ _ _ _ _ _ h
       exact ⟨h1.1, Or.inl (by have := h1.2; omega)⟩)
    | (obtain ⟨h1, h2⟩ := oneSlice_hit _ _ _ _ _ h
       rw [h1, h2]; simp; done)
    | (obtain ⟨h1, h2⟩ := pushSliceResult_hit _ _ _ _ h
       rw [h1, h2]; simp; done)

theorem rule612_hit (w : Window) (res : Result) (h : rule612 w = some (some res)) :
    res.continue_ = true ∧ (1 ≤ res.remove_ ∨ res.commands_ = []) := by
  unfold rule612 at h
  simp only [hit, miss] at h
  repeat' split at h
  all_goals first
    | (simp at h <;> fail)
    | (simp at h; subst h; simp; done)
    | (simp at h; subst h; simp; omega)
    | (simp at h; subst h; decide)
    | (have h1 := simulateRule_hit _ _ _ _ _ _ h
       exact ⟨h1.1, Or.inl (by have := h1.2; omega)⟩)
    | (obtain ⟨h1, h2⟩ := oneSlice_hit _ _ _ _ _ h
       rw [h1, h2]; simp; done)
    | (obtain ⟨h1, h2⟩ := pushSliceResult_hit _ _ _ _ h
       rw [h1, h2]; simp; done)

theorem rule618_hit (w : Window) (res : Result) (h : rule618 w = some (some res)) :
    res.continue_ = true ∧ (1 ≤ res.remove_ ∨ res.commands_ = []) := by
  unfold rule618 at h
  simp only [hit, miss] at h
  repeat' split at h
  all_goals first
    | (simp at h <;> fail)
    | (simp at h; subst h; simp; done)
    | (simp at h; subst h; simp; omega)
    | (simp at h; subst h; decide)
    | (have h1 := simulateRule_hit _ _ _ _ _ _ h
       exact ⟨h1.1, Or.inl (by have := h1.2; omega)⟩)
    | (obtain ⟨h1, h2⟩ := oneSlice_hit _ _ _ _ _ h
       rw [h1, h2]; simp; done)
    | (obtain ⟨h1, h2⟩ := pushSliceResult_hit _ _ _ _ h
       rw [h1, h2]; simp; done)

theorem rule623_hit (w : Window) (res : Result) (h : rule623 w = some (some res)) :
    res.continue_ = true ∧ (1 ≤ res.remove_ ∨ res.commands_ = []) := by
  unfold rule623 at h
  simp only [hit, miss] at h
  repeat' split at h
  all_goals first
    | (simp at h <;> fail)
    | (simp at h; subst h; simp; done)
    | (simp at h; subst h; simp; omega)
    | (simp at h; subst h; decide)
    | (have h1 := simulateRule_hit _ _ _ _ _ _ h
       exact ⟨h1.1, Or.inl (by have := h1.2; omega)⟩)
    | (obtain ⟨h1, h2⟩ := oneSlice_hit _ _ _ _ _ h
       rw [h1, h2]; simp; done)
    | (obtain ⟨h1, h2⟩ := pushSliceResult_hit _ _ _ _ h
       rw [h1, h2]; simp; done)

theorem rule628_hit (w : Window) (res : Result) (h : rule628 w = some (some res)) :
    res.continue_ = true ∧ (1 ≤ res.remove_ ∨ res.commands_ = []) := by
  unfold rule628 at h
  simp only [hit, miss] at h
  repeat' split at h
  all_goals first
    | (simp at h <;> fail)
    | (simp at h; subst h; simp; done)
    | (simp at h; subst h; simp; omega)
    | (simp at h; subst h; decide)
    | (have h1 := simulateRule_hit _ _ _ _ _ _ h
       exact ⟨h1.1, Or.inl (by have := h1.2; omega)⟩)
    | (obtain ⟨h1, h2⟩ := oneSlice_hit _ _ _ _ _ h
       rw [h1, h2]; simp; done)
    | (obtain ⟨h1, h2⟩ := pushSliceResult_hit _ _ _ _ h
       rw [h1, h2]; simp; done)

theorem rule632_hit (w : Window) (res : Result) (h : rule632 w = some (some res)) :
    res.continue_ = true ∧ (1 ≤ res.remove_ ∨ res.commands_ = []) := by
  unfold rule632 at h
  simp only [hit, miss] at h
  repeat' split at h
  all_goals first
    | (simp at h <;> fail)
    | (simp at h; subst h; simp; done)
    | (simp at h; subst h; simp; omega)
    | (simp at h; subst h; decide)
    | (have h1 := simulateRule_hit _ _ _ _ _ _ h
       exact ⟨h1.1, Or.inl (by have := h1.2; omega)⟩)
    | (obtain ⟨h1, h2⟩ := oneSlice_hit _ _ _ _ _ h
       rw [h1, h2]; simp; done)
    | (obtain ⟨h1, h2⟩ := pushSliceResult_hit _ _ _ _ h
       rw [h1, h2]; simp; done)

theorem rule636_hit (w : Window) (res : Result) (h : rule636 w = some (some res)) :
    res.continue_ = true ∧ (1 ≤ res.remove_ ∨ res.commands_ = []) := by
  unfold rule636 at h
  simp only [hit, miss] at h
  repeat' split at h
  all_goals first
    | (simp at h <;> fail)
    | (simp at h; subst h; simp; done)
    | (simp at h; subst h; simp; omega)
    | (simp at h; subst h; decide)
    | (have h1 := simulateRule_hit _ _ _ _ _ _ h
       exact ⟨h1.1, Or.inl (by have := h1.2; omega)⟩)
    | (obtain ⟨h1, h2⟩ := oneSlice_hit _ _ _ _ _ h
       rw [h1, h2]; simp; done)
    | (obtain ⟨h1, h2⟩ := pushSliceResult_hit _ _ _ _ h
       rw [h1, h2]; simp; done)

theorem rule640_hit (w : Window) (res : Result) (h : rule640 w = some (some res)) :
    res.continue_ = true ∧ (1 ≤ res.remove_ ∨ res.commands_ = []) := by
  unfold rule640 at h
  simp only [hit, miss] at h
  repeat' split at h
  all_goals first
    | (simp at h <;> fail)
    | (simp at h; subst h; simp; done)
    | (simp at h; subst h; simp; omega)
    | (simp at h; subst h; decide)
    | (have h1 := simulateRule_hit _ _ _ _ _ _ h
       exact ⟨h1.1, Or.inl (by have := h1.2; omega)⟩)
    | (obtain ⟨h1, h2⟩ := oneSlice_hit _ _ _ _ _ h
       rw [h1, h2]; simp; done)
    | (obtain ⟨h1, h2⟩ := pushSliceResult_hit _ _ _ _ h
       rw [h1, h2]; simp; done)

theorem rule666_hit (w : Window) (res : Result) (h : rule666 w = some (some res)) :
    res.continue_ = true ∧ (1 ≤ res.remove_ ∨ res.commands_ = []) := by
  unfold rule666 at h
  simp only [hit, miss] at h
  repeat' split at h
  all_goals first
    | (simp at h <;> fail)
    | (simp at h; subst h; simp; done)
    | (simp at h; subst h; simp; omega)
    | (simp at h; subst h; decide)
    | (have h1 := simulateRule_hit _ _ _ _ _ _ h
       exact ⟨h1.1, Or.inl (by have := h1.2; omega)⟩)
    | (obtain ⟨h1, h2⟩ := oneSlice_hit _ _ _ _ _ h
       rw [h1, h2]; simp; done)
    | (obtain ⟨h1, h2⟩ := pushSliceResult_hit _ _ _ _ h
       rw [h1, h2]; simp; done)

theorem rule669_hit (w : Window) (res : Result) (h : rule669 w = some (some res)) :
    res.continue_ = true ∧ (1 ≤ res.remove_ ∨ res.commands_ = []) := by
  unfold rule669 at h
  simp only [hit, miss] at h
  repeat' split at h
  all_goals first
    | (simp at h <;> fail)
    | (simp at h; subst h; simp; done)
    | (simp at h; subst h; simp; omega)
    | (simp at h; subst h; decide)
    | (have h1 := simulateRule_hit _ _ _ _ _ _ h
       exact ⟨h1.1, Or.inl (by have := h1.2; omega)⟩)
    | (obtain ⟨h1, h2⟩ := oneSlice_hit _ _ _ _ _ h
       rw [h1, h2]; simp; done)
    | (obtain ⟨h1, h2⟩ := pushSliceResult_hit _ _ _ _ h
       rw [h1, h2]; simp; done)

theorem rule672_hit (w : Window) (res : Result) (h : rule672 w = some (some res)) :
    res.continue_ = true ∧ (1 ≤ res.remove_ ∨ res.commands_ = []) := by
  unfold rule672 at h
  simp only [hit, miss] at h
  repeat' split at h
  all_goals first
    | (simp at h <;> fail)
    | (simp at h; subst h; simp; done)
    | (simp at h; subst h; simp; omega)
    | (simp at h; subst h; decide)
    | (have h1 := simulateRule_hit _ _ _ _ _ _ h
       exact ⟨h1.1, Or.inl (by have := h1.2; omega)⟩)
    | (obtain ⟨h1, h2⟩ := oneSlice_hit _ _ _ _ _ h
       rw [h1, h2]; simp; done)
    | (obtain ⟨h1, h2⟩ := pushSliceResult_hit _ _ _ _ h
       rw [h1, h2]; simp; done)

theorem rule676_hit (tc : TvmConst) (w : Window) (res : Result) (h : rule676 tc w = some (some res)) :
    res.continue_ = true ∧ (1 ≤ res.remove_ ∨ res.commands_ = []) := by
  unfold rule676 at h
  simp only [hit, miss] at h
  repeat' split at h
  all_goals first
    | (simp at h <;> fail)
    | (simp at h; subst h; simp; done)
    | (simp at h; subst h; simp; omega)
    | (simp at h; subst h; decide)
    | (have h1 := simulateRule_hit _ _ _ _ _ _ h
       exact ⟨h1.1, Or.inl (by have := h1.2; omega)⟩)
    | (obtain ⟨h1, h2⟩ := oneSlice_hit _ _ _ _ _ h
       rw [h1, h2]; simp; done)
    | (obtain ⟨h1, h2⟩ := pushSliceResult_hit _ _ _ _ h
       rw [h1, h2]; simp; done)

theorem rule688_hit (tc : TvmConst) (w : Window) (res : Result) (h : rule688 tc w = some (some res)) :
    res.continue_ = true ∧ (1 ≤ res.remove_ ∨ res.commands_ = []) := by
  unfold rule688 at h
  simp only [hit, miss] at h
  repeat' split at h
  all_goals first
    | (simp at h <;> fail)
    | (simp at h; subst h; simp; done)
    | (simp at h; subst h; simp; omega)
    | (simp at h; subst h; decide)
    | (have h1 := simulateRule_hit _ _ _ _ _ _ h
       exact ⟨h1.1, Or.inl (by have := h1.2; omega)⟩)
    | (obtain ⟨h1, h2⟩ := oneSlice_hit _ _ _ _ _ h
       rw [h1, h2]; simp; done)
    | (obtain ⟨h1, h2⟩ := pushSliceResult_hit _ _ _ _ h
       rw [h1, h2]; simp; done)

theorem rule698_hit (tc : TvmConst) (w : Window) (res : Result) (h : rule698 tc w = some (some res)) :
    res.continue_ = true ∧ (1 ≤ res.remove_ ∨ res.commands_ = []) := by
  unfold rule698 at h
  simp only [hit, miss] at h
  repeat' split at h
  all_goals first
    | (simp at h <;> fail)
    | (simp at h; subst h; simp; done)
    | (simp at h; subst h; simp; omega)
    | (simp at h; subst h; decide)
    | (have h1 := simulateRule_hit _ _ _ _ _ _ h
       exact ⟨h1.1, Or.inl (by have := h1.2; omega)⟩)
    | (obtain ⟨h1, h2⟩ := oneSlice_hit _ _ _ _ _ h
       rw [h1, h2]; simp; done)
    | (obtain ⟨h1, h2⟩ := pushSliceResult_hit _ _ _ _ h
       rw [h1, h2]; simp; done)

theorem rule709_hit (tc : TvmConst) (w : Window) (res : Result) (h : rule709 tc w = some (some res)) :
    res.continue_ = true ∧ (1 ≤ res.remove_ ∨ res.commands_ = []) := by
  unfold rule709 at h
  simp only [hit, miss] at h
  repeat' split at h
  all_goals first
    | (simp at h <;> fail)
    | (simp at h; subst h; simp; done)
    | (simp at h; subst h; simp; omega)
    | (simp at h; subst h; decide)
    | (have h1 := simulateRule_hit _ _ _ _ _ _ h
       exact ⟨h1.1, Or.inl (by have := h1.2; omega)⟩)
    | (obtain ⟨h1, h2⟩ := oneSlice_hit _ _ _ _ _ h
       rw [h1, h2]; simp; done)
    | (obtain ⟨h1, h2⟩ := pushSliceResult_hit _ _ _ _ h
       rw [h1, h2]; simp; done)

theorem rule716_hit (tc : TvmConst) (w : Window) (res : Result) (h : rule716 tc w = some (some res)) :
    res.continue_ = true ∧ (1 ≤ res.remove_ ∨ res.commands_ = []) := by
  unfold rule716 at h
  simp only [hit, miss] at h
  repeat' split at h
  all_goals first
    | (simp at h <;> fail)
    | (simp at h; subst h; simp; done)
    | (simp at h; subst h; simp; omega)
    | (simp at h; subst h; decide)
    | (have h1 := simulateRule_hit _ _ _ _ _ _ h
       exact ⟨h1.1, Or.inl (by have := h1.2; omega)⟩)
    | (obtain ⟨h1, h2⟩ := oneSlice_hit _ _ _ _ _ h
       rw [h1, h2]; simp; done)
    | (obtain ⟨h1, h2⟩ := pushSliceResult_hit _ _ _ _ h
       rw [h1, h2]; simp; done)

theorem rule725_hit (tc : TvmConst) (w : Window) (res : Result) (h : rule725 tc w = some (some res)) :
    res.continue_ = true ∧ (1 ≤ res.remove_ ∨ res.commands_ = []) := by
  unfold rule725 at h
  simp only [hit, miss] at h
  repeat' split at h
  all_goals first
    | (simp at h <;> fail)
    | (simp at h; subst h; simp; done)
    | (simp at h; subst h; simp; omega)
    | (simp at h; subst h; decide)
    | (have h1 := simulateRule_hit _ _ _ _ _ _ h
       exact ⟨h1.1, Or.inl (by have := h1.2; omega)⟩)
    | (obtain ⟨h1, h2⟩ := oneSlice_hit _ _ _ _ _ h
       rw [h1, h2]; simp; done)
    | (obtain ⟨h1, h2⟩ := pushSliceResult_hit _ _ _ _ h
       rw [h1, h2]; simp; done)

theorem rule735_hit (w : Window) (res : Result) (h : rule735 w = some (some res)) :
    res.continue_ = true ∧ (1 ≤ res.remove_ ∨ res.commands_ = []) := by
  unfold rule735 at h
  simp only [hit, miss] at h
  repeat' split at h
  all_goals first
    | (simp at h <;> fail)
    | (simp at h; subst h; simp; done)
    | (simp at h; subst h; simp; omega)
    | (simp at h; subst h; decide)
    | (have h1 := simulateRule_hit _ _ _ _ _ _ h
       exact ⟨h1.1, Or.inl (by have := h1.2; omega)⟩)
    | (obtain ⟨h1, h2⟩ := oneSlice_hit _ _ _ _ _ h
       rw [h1, h2]; simp; done)
    | (obtain ⟨h1, h2⟩ := pushSliceResult_hit _ _ _ _ h
       rw [h1, h2]; simp; done)

theorem rule740_hit (w : Window) (res : Result) (h : rule740 w = some (some res)) :
    res.continue_ = true ∧ (1 ≤ res.remove_ ∨ res.commands_ = []) := by
  unfold rule740 at h
  simp only [hit, miss] at h
  repeat' split at h
  all_goals first
    | (simp at h <;> fail)
    | (simp at h; subst h; simp; done)
    | (simp at h; subst h; simp; omega)
    | (simp at h; subst h; decide)
    | (have h1 := simulateRule_hit _ _ _ _ _ _ h
       exact ⟨h1.1, Or.inl (by have := h1.2; omega)⟩)
    | (obtain ⟨h1, h2⟩ := oneSlice_hit _ _ _ _ _ h
       rw [h1, h2]; simp; done)
    | (obtain ⟨h1, h2⟩ := pushSliceResult_hit _ _ _ _ h
       rw [h1, h2]; simp; done)

theorem rule744_hit (w : Window) (res : Result) (h : rule744 w = some (some res)) :
    res.continue_ = true ∧ (1 ≤ res.remove_ ∨ res.commands_ = []) := by
  unfold rule744 at h
  simp only [hit, miss] at h
  repeat' split at h
  all_goals first
    | (simp at h <;> fail)
    | (simp at h; subst h; simp; done)
    | (simp at h; subst h; simp; omega)
    | (simp at h; subst h; decide)
    | (have h1 := simulateRule_hit _ _ _ _ _ _ h
       exact ⟨h1.1, Or.inl (by have := h1.2; omega)⟩)
    | (obtain ⟨h1, h2⟩ := oneSlice_hit _ _ _ _ _ h
       rw [h1, h2]; simp; done)
    | (obtain ⟨h1, h2⟩ := pushSliceResult_hit _ _ _ _ h
       rw [h1, h2]; simp; done)

theorem rule749_hit (w : Window) (res : Result) (h : rule749 w = some (some res)) :
    res.continue_ = true ∧ (1 ≤ res.remove_ ∨ res.commands_ = []) := by
  unfold rule749 at h
  simp only [hit, miss] at h
  repeat' split at h
  all_goals first
    | (simp at h <;> fail)
    | (simp at h; subst h; simp; done)
    | (simp at h; subst h; simp; omega)
    | (simp at h; subst h; decide)
    | (have h1 := simulateRule_hit _ _ _ _ _ _ h
       exact ⟨h1.1, Or.inl (by have := h1.2; omega)⟩)
    | (obtain ⟨h1, h2⟩ := oneSlice_hit _ _ _ _ _ h
       rw [h1, h2]; simp; done)
    | (obtain ⟨h1, h2⟩ := pushSliceResult_hit _ _ _ _ h
       rw [h1, h2]; simp; done)

theorem rule752_hit (w : Window) (res : Result) (h : rule752 w = some (some res)) :
    res.continue_ = true ∧ (1 ≤ res.remove_ ∨ res.commands_ = []) := by
  unfold rule752 at h
  simp only [hit, miss] at h
  repeat' split at h
  all_goals first
    | (simp at h <;> fail)
    | (simp at h; subst h; simp; done)
    | (simp at h; subst h; simp; omega)
    | (simp at h; subst h; decide)
    | (have h1 := simulateRule_hit _ _ _ _ _ _ h
       exact ⟨h1.1, Or.inl (by have := h1.2; omega)⟩)
    | (obtain ⟨h1, h2⟩ := oneSlice_hit _ _ _ _ _ h
       rw [h1, h2]; simp; done)
    | (obtain ⟨h1, h2⟩ := pushSliceResult_hit _ _ _ _ h
       rw [h1, h2]; simp; done)

theorem rule757_hit (w : Window) (res : Result) (h : rule757 w = some (some res)) :
    res.continue_ = true ∧ (1 ≤ res.remove_ ∨ res.commands_ = []) := by
  unfold rule757 at h
  simp only [hit, miss] at h
  repeat' split at h
  all_goals first
    | (simp at h <;> fail)
    | (simp at h; subst h; simp; done)
    | (simp at h; subst h; simp; omega)
    | (simp at h; subst h; decide)
    | (have h1 := simulateRule_hit _ _ _ _ _ _ h
       exact ⟨h1.1, Or.inl (by have := h1.2; omega)⟩)
    | (obtain ⟨h1, h2⟩ := oneSlice_hit _ _ _ _ _ h
       rw [h1, h2]; simp; done)
    | (obtain ⟨h1, h2⟩ := pushSliceResult_hit _ _ _ _ h
       rw [h1, h2]; simp; done)

theorem rule764_hit (w : Window) (res : Result) (h : rule764 w = some (some res)) :
    res.continue_ = true ∧ (1 ≤ res.remove_ ∨ res.commands_ = []) := by
  unfold rule764 at h
  simp only [hit, miss] at h
  repeat' split at h
  all_goals first
    | (simp at h <;> fail)
    | (simp at h; subst h; simp; done)
    | (simp at h; subst h; simp; omega)
    | (simp at h; subst h; decide)
    | (have h1 := simulateRule_hit _ _ _ _ _ _ h
       exact ⟨h1.1, Or.inl (by have := h1.2; omega)⟩)
    | (obtain ⟨h1, h2⟩ := oneSlice_hit _ _ _ _ _ h
       rw [h1, h2]; simp; done)
    | (obtain ⟨h1, h2⟩ := pushSliceResult_hit _ _ _ _ h
       rw [h1, h2]; simp; done)

theorem rule769_hit (w : Window) (res : Result) (h : rule769 w = some (some res)) :
    res.continue_ = true ∧ (1 ≤ res.remove_ ∨ res.commands_ = []) := by
  unfold rule769 at h
  simp only [hit, miss] at h
  repeat' split at h
  all_goals first
    | (simp at h <;> fail)
    | (simp at h; subst h; simp; done)
    | (simp at h; subst h; simp; omega)
    | (simp at h; subst h; decide)
    | (have h1 := simulateRule_hit _ _ _ _ _ _ h
       exact ⟨h1.1, Or.inl (by have := h1.2; omega)⟩)
    | (obtain ⟨h1, h2⟩ := oneSlice_hit _ _ _ _ _ h
       rw [h1, h2]; simp; done)
    | (obtain ⟨h1, h2⟩ := pushSliceResult_hit _ _ _ _ h
       rw [h1, h2]; simp; done)

theorem rule773_hit (w : Window) (res : Result) (h : rule773 w = some (some res)) :
    res.continue_ = true ∧ (1 ≤ res.remove_ ∨ res.commands_ = []) := by
  unfold rule773 at h
  simp only [hit, miss] at h
  repeat' split at h
  all_goals first
    | (simp at h <;> fail)
    | (simp at h; subst h; simp; done)
    | (simp at h; subst h; simp; omega)
    | (simp at h; subst h; decide)
    | (have h1 := simulateRule_hit _ _ _ _ _ _ h
       exact ⟨h1.1, Or.inl (by have := h1.2; omega)⟩)
    | (obtain ⟨h1, h2⟩ := oneSlice_hit _ _ _ _ _ h
       rw [h1, h2]; simp; done)
    | (obtain ⟨h1, h2⟩ := pushSliceResult_hit _ _ _ _ h
       rw [h1, h2]; simp; done)

theorem rule777_hit (w : Window) (res : Result) (h : rule777 w = some (some res)) :
    res.continue_ = true ∧ (1 ≤ res.remove_ ∨ res.commands_ = []) := by
  unfold rule777 at h
  simp only [hit, miss] at h
  repeat' split at h
  all_goals first
    | (simp at h <;> fail)
    | (simp at h; subst h; simp; done)
    | (simp at h; subst h; simp; omega)
    | (simp at h; subst h; decide)
    | (have h1 := simulateRule_hit _ _ _ _ _ _ h
       exact ⟨h1.1, Or.inl (by have := h1.2; omega)⟩)
    | (obtain ⟨h1, h2⟩ := oneSlice_hit _ _ _ _ _ h
       rw [h1, h2]; simp; done)
    | (obtain ⟨h1, h2⟩ := pushSliceResult_hit _ _ _ _ h
       rw [h1, h2]; simp; done)

theorem rule787_hit (w : Window) (res : Result) (h : rule787 w = some (some res)) :
    res.continue_ = true ∧ (1 ≤ res.remove_ ∨ res.commands_ = []) := by
  unfold rule787 at h
  simp only [hit, miss] at h
  repeat' split at h
  all_goals first
    | (simp at h <;> fail)
    | (simp at h; subst h; simp; done)
    | (simp at h; subst h; simp; omega)
    | (simp at h; subst h; decide)
    | (have h1 := simulateRule_hit _ _ _ _ _ _ h
       exact ⟨h1.1, Or.inl (by have := h1.2; omega)⟩)
    | (obtain ⟨h1, h2⟩ := oneSlice_hit _ _ _ _ _ h
       rw [h1, h2]; simp; done)
    | (obtain ⟨h1, h2⟩ := pushSliceResult_hit _ _ _ _ h
       rw [h1, h2]; simp; done)

theorem rule795_hit (w : Window) (res : Result) (h : rule795 w = some (some res)) :
    res.continue_ = true ∧ (1 ≤ res.remove_ ∨ res.commands_ = []) := by
  unfold rule795 at h
  simp only [hit, miss] at h
  repeat' split at h
  all_goals first
    | (simp at h <;> fail)
    | (simp at h; subst h; simp; done)
    | (simp at h; subst h; simp; omega)
    | (simp at h; subst h; decide)
    | (have h1 := simulateRule_hit _ _ _ _ _ _ h
       exact ⟨h1.1, Or.inl (by have := h1.2; omega)⟩)
    | (obtain ⟨h1, h2⟩ := oneSlice_hit _ _ _ _ _ h
       rw [h1, h2]; simp; done)
    | (obtain ⟨h1, h2⟩ := pushSliceResult_hit _ _ _ _ h
       rw [h1, h2]; simp; done)

theorem rule803_hit (w : Window) (res : Result) (h : rule803 w = some (some res)) :
    res.continue_ = true ∧ (1 ≤ res.remove_ ∨ res.commands_ = []) := by
  unfold rule803 at h
  simp only [hit, miss] at h
  repeat' split at h
  all_goals first
    | (simp at h <;> fail)
    | (simp at h; subst h; simp; done)
    | (simp at h; subst h; simp; omega)
    | (simp at h; subst h; decide)
    | (have h1 := simulateRule_hit _ _ _ _ _ _ h
       exact ⟨h1.1, Or.inl (by have := h1.2; omega)⟩)
    | (obtain ⟨h1, h2⟩ := oneSlice_hit _ _ _ _ _ h
       rw [h1, h2]; simp; done)
    | (obtain ⟨h1, h2⟩ := pushSliceResult_hit _ _ _ _ h
       rw [h1, h2]; simp; done)

theorem rule817_hit (w : Window) (res : Result) (h : rule817 w = some (some res)) :
    res.continue_ = true ∧ (1 ≤ res.remove_ ∨ res.commands_ = []) := by
  unfold rule817 at h
  simp only [hit, miss] at h
  repeat' split at h
  all_goals first
    | (simp at h <;> fail)
    | (simp at h; subst h; simp; done)
    | (simp at h; subst h; simp; omega)
    | (simp at h; subst h; decide)
    | (have h1 := simulateRule_hit _ _ _ _ _ _ h
       exact ⟨h1.1, Or.inl (by have := h1.2; omega)⟩)
    | (obtain ⟨h1, h2⟩ := oneSlice_hit _ _ _ _ _ h
       rw [h1, h2]; simp; done)
    | (obtain ⟨h1, h2⟩ := pushSliceResult_hit _ _ _ _ h
       rw [h1, h2]; simp; done)

theorem rule821_hit (w : Window) (res : Result) (h : rule821 w = some (some res)) :
    res.continue_ = true ∧ (1 ≤ res.remove_ ∨ res.commands_ = []) := by
  unfold rule821 at h
  simp only [hit, miss] at h
  repeat' split at h
  all_goals first
    | (simp at h <;> fail)
    | (simp at h; subst h; simp; done)
    | (simp at h; subst h; simp; omega)
    | (simp at h; subst h; decide)
    | (have h1 := simulateRule_hit _ _ _ _ _ _ h
       exact ⟨h1.1, Or.inl (by have := h1.2; omega)⟩)
    | (obtain ⟨h1, h2⟩ := oneSlice_hit _ _ _ _ _ h
       rw [h1, h2]; simp; done)
    | (obtain ⟨h1, h2⟩ := pushSliceResult_hit _ _ _ _ h
       rw [h1, h2]; simp; done)

theorem rule833_hit (w : Window) (res : Result) (h : rule833 w = some (some res)) :
    res.continue_ = true ∧ (1 ≤ res.remove_ ∨ res.commands_ = []) := by
  unfold rule833 at h
  simp only [hit, miss] at h
  repeat' split at h
  all_goals first
    | (simp at h <;> fail)
    | (simp at h; subst h; simp; done)
    | (simp at h; subst h; simp; omega)
    | (simp at h; subst h; decide)
    | (have h1 := simulateRule_hit _ _ _ _ _ _ h
       exact ⟨h1.1, Or.inl (by have := h1.2; omega)⟩)
    | (obtain ⟨h1, h2⟩ := oneSlice_hit _ _ _ _ _ h
       rw [h1, h2]; simp; done)
    | (obtain ⟨h1, h2⟩ := pushSliceResult_hit _ _ _ _ h
       rw [h1, h2]; simp; done)

theorem rule843_hit (w : Window) (res : Result) (h : rule843 w = some (some res)) :
    res.continue_ = true ∧ (1 ≤ res.remove_ ∨ res.commands_ = []) := by
  unfold rule843 at h
  simp only [hit, miss] at h
  repeat' split at h
  all_goals first
    | (simp at h <;> fail)
    | (simp at h; subst h; simp; done)
    | (simp at h; subst h; simp; omega)
    | (simp at h; subst h; decide)
    | (have h1 := simulateRule_hit _ _ _ _ _ _ h
       exact ⟨h1.1, Or.inl (by have := h1.2; omega)⟩)
    | (obtain ⟨h1, h2⟩ := oneSlice_hit _ _ _ _ _ h
       rw [h1, h2]; simp; done)
    | (obtain ⟨h1, h2⟩ := pushSliceResult_hit _ _ _ _ h
       rw [h1, h2]; simp; done)

theorem rule855_hit (w : Window) (res : Result) (h : rule855 w = some (some res)) :
    res.continue_ = true ∧ (1 ≤ res.remove_ ∨ res.commands_ = []) := by
  unfold rule855 at h
  simp only [hit, miss] at h
  repeat' split at h
  all_goals first
    | (simp at h <;> fail)
    | (simp at h; subst h; simp; done)
    | (simp at h; subst h; simp; omega)
    | (simp at h; subst h; decide)
    | (have h1 := simulateRule_hit _ _ _ _ _ _ h
       exact ⟨h1.1, Or.inl (by have := h1.2; omega)⟩)
    | (obtain ⟨h1, h2⟩ := oneSlice_hit _ _ _ _ _ h
       rw [h1, h2]; simp; done)
    | (obtain ⟨h1, h2⟩ := pushSliceResult_hit _ _ _ _ h
       rw [h1, h2]; simp; done)

theorem rule864_hit (w : Window) (res : Result) (h : rule864 w = some (some res)) :
    res.continue_ = true ∧ (1 ≤ res.remove_ ∨ res.commands_ = []) := by
  unfold rule864 at h
  simp only [hit, miss] at h
  repeat' split at h
  all_goals first
    | (simp at h <;> fail)
    | (simp at h; subst h; simp; done)
    | (simp at h; subst h; simp; omega)
    | (simp at h; subst h; decide)
    | (have h1 := simulateRule_hit _ _ _ _ _ _ h
       exact ⟨h1.1, Or.inl (by have := h1.2; omega)⟩)
    | (obtain ⟨h1, h2⟩ := oneSlice_hit _ _ _ _ _ h
       rw [h1, h2]; simp; done)
    | (obtain ⟨h1, h2⟩ := pushSliceResult_hit _ _ _ _ h
       rw [h1, h2]; simp; done)

theorem rule874_hit (w : Window) (res : Result) (h : rule874 w = some (some res)) :
    res.continue_ = true ∧ (1 ≤ res.remove_ ∨ res.commands_ = []) := by
  unfold rule874 at h
  simp only [hit, miss] at h
  repeat' split at h
  all_goals first
    | (simp at h <;> fail)
    | (simp at h; subst h; simp; done)
    | (simp at h; subst h; simp; omega)
    | (simp at h; subst h; decide)
    | (have h1 := simulateRule_hit _ _ _ _ _ _ h
       exact ⟨h1.1, Or.inl (by have := h1.2; omega)⟩)
    | (obtain ⟨h1, h2⟩ := oneSlice_hit _ _ _ _ _ h
       rw [h1, h2]; simp; done)
    | (obtain ⟨h1, h2⟩ := pushSliceResult_hit _ _ _ _ h
       rw [h1, h2]; simp; done)

theorem rule886_hit (w : Window) (res : Result) (h : rule886 w = some (some res)) :
    res.continue_ = true ∧ (1 ≤ res.remove_ ∨ res.commands_ = []) := by
  unfold rule886 at h
  simp only [hit, miss] at h
  repeat' split at h
  all_goals first
    | (simp at h <;> fail)
    | (simp at h; subst h; simp; done)
    | (simp at h; subst h; simp; omega)
    | (simp at h; subst h; decide)
    | (have h1 := simulateRule_hit _ _ _ _ _ _ h
       exact ⟨h1.1, Or.inl (by have := h1.2; omega)⟩)
    | (obtain ⟨h1, h2⟩ := oneSlice_hit _ _ _ _ _ h
       rw [h1, h2]; simp; done)
    | (obtain ⟨h1, h2⟩ := pushSliceResult_hit _ _ _ _ h
       rw [h1, h2]; simp; done)

theorem rule897_hit (w : Window) (res : Result) (h : rule897 w = some (some res)) :
    res.continue_ = true ∧ (1 ≤ res.remove_ ∨ res.commands_ = []) := by
  unfold rule897 at h
  simp only [hit, miss] at h
  repeat' split at h
  all_goals first
    | (simp at h <;> fail)
    | (simp at h; subst h; simp; done)
    | (simp at h; subst h; simp; omega)
    | (simp at h; subst h; decide)
    | (have h1 := simulateRule_hit _ _ _ _ _ _ h
       exact ⟨h1.1, Or.inl (by have := h1.2; omega)⟩)
    | (obtain ⟨h1, h2⟩ := oneSlice_hit _ _ _ _ _ h
       rw [h1, h2]; simp; done)
    | (obtain ⟨h1, h2⟩ := pushSliceResult_hit _ _ _ _ h
       rw [h1, h2]; simp; done)

theorem rule909_hit (w : Window) (res : Result) (h : rule909 w = some (some res)) :
    res.continue_ = true ∧ (1 ≤ res.remove_ ∨ res.commands_ = []) := by
  unfold rule909 at h
  simp only [hit, miss] at h
  repeat' split at h
  all_goals first
    | (simp at h <;> fail)
    | (simp at h; subst h; simp; done)
    | (simp at h; subst h; simp; omega)
    | (simp at h; subst h; decide)
    | (have h1 := simulateRule_hit _ _ _ _ _ _ h
       exact ⟨h1.1, Or.inl (by have := h1.2; omega)⟩)
    | (obtain ⟨h1, h2⟩ := oneSlice_hit _ _ _ _ _ h
       rw [h1, h2]; simp; done)
    | (obtain ⟨h1, h2⟩ := pushSliceResult_hit _ _ _ _ h
       rw [h1, h2]; simp; done)

theorem rule914_hit (w : Window) (res : Result) (h : rule914 w = some (some res)) :
    res.continue_ = true ∧ (1 ≤ res.remove_ ∨ res.commands_ = []) := by
  unfold rule914 at h
  simp only [hit, miss] at h
  repeat' split at h
  all_goals first
    | (simp at h <;> fail)
    | (simp at h; subst h; simp; done)
    | (simp at h; subst h; simp; omega)
    | (simp at h; subst h; decide)
    | (have h1 := simulateRule_hit _ _ _ _ _ _ h
       exact ⟨h1.1, Or.inl (by have := h1.2; omega)⟩)
    | (obtain ⟨h1, h2⟩ := oneSlice_hit _ _ _ _ _ h
       rw [h1, h2]; simp; done)
    | (obtain ⟨h1, h2⟩ := pushSliceResult_hit _ _ _ _ h
       rw [h1, h2]; simp; done)

theorem rule918_hit (w : Window) (res : Result) (h : rule918 w = some (some res)) :
    res.continue_ = true ∧ (1 ≤ res.remove_ ∨ res.commands_ = []) := by
  unfold rule918 at h
  simp only [hit, miss] at h
  repeat' split at h
  all_goals first
    | (simp at h <;> fail)
    | (simp at h; subst h; simp; done)
    | (simp at h; subst h; simp; omega)
    | (simp at h; subst h; decide)
    | (have h1 := simulateRule_hit _ _ _ _ _ _ h
       exact ⟨h1.1, Or.inl (by have := h1.2; omega)⟩)
    | (obtain ⟨h1, h2⟩ := oneSlice_hit _ _ _ _ _ h
       rw [h1, h2]; simp; done)
    | (obtain ⟨h1, h2⟩ := pushSliceResult_hit _ _ _ _ h
       rw [h1, h2]; simp; done)

theorem rule928_hit (w : Window) (res : Result) (h : rule928 w = some (some res)) :
    res.continue_ = true ∧ (1 ≤ res.remove_ ∨ res.commands_ = []) := by
  unfold rule928 at h
  simp only [hit, miss] at h
  repeat' split at h
  all_goals first
    | (simp at h <;> fail)
    | (simp at h; subst h; simp; done)
    | (simp at h; subst h; simp; omega)
    | (simp at h; subst h; decide)
    | (have h1 := simulateRule_hit _ _ _ _ _ _ h
       exact ⟨h1.1, Or.inl (by have := h1.2; omega)⟩)
    | (obtain ⟨h1, h2⟩ := oneSlice_hit _ _ _ _ _ h
       rw [h1, h2]; simp; done)
    | (obtain ⟨h1, h2⟩ := pushSliceResult_hit _ _ _ _ h
       rw [h1, h2]; simp; done)

theorem rule935_hit (w : Window) (res : Result) (h : rule935 w = some (some res)) :
    res.continue_ = true ∧ (1 ≤ res.remove_ ∨ res.commands_ = []) := by
  unfold rule935 at h
  simp only [hit, miss] at h
  repeat' split at h
  all_goals first
    | (simp at h <;> fail)
    | (simp at h; subst h; simp; done)
    | (simp at h; subst h; simp; omega)
    | (simp at h; subst h; decide)
    | (have h1 := simulateRule_hit _ _ _ _ _ _ h
       exact ⟨h1.1, Or.inl (by have := h1.2; omega)⟩)
    | (obtain ⟨h1, h2⟩ := oneSlice_hit _ _ _ _ _ h
       rw [h1, h2]; simp; done)
    | (obtain ⟨h1, h2⟩ := pushSliceResult_hit _ _ _ _ h
       rw [h1, h2]; simp; done)

theorem rule945_hit (w : Window) (res : Result) (h : rule945 w = some (some res)) :
    res.continue_ = true ∧ (1 ≤ res.remove_ ∨ res.commands_ = []) := by
  unfold rule945 at h
  simp only [hit, miss] at h
  repeat' split at h
  all_goals first
    | (simp at h <;> fail)
    | (simp at h; subst h; simp; done)
    | (simp at h; subst h; simp; omega)
    | (simp at h; subst h; decide)
    | (have h1 := simulateRule_hit _ _ _ _ _ _ h
       exact ⟨h1.1, Or.inl (by have := h1.2; omega)⟩)
    | (obtain ⟨h1, h2⟩ := oneSlice_hit _ _ _ _ _ h
       rw [h1, h2]; simp; done)
    | (obtain ⟨h1, h2⟩ := pushSliceResult_hit _ _ _ _ h
       rw [h1, h2]; simp; done)

theorem rule950_hit (tc : TvmConst) (w : Window) (res : Result) (h : rule950 tc w = some (some res)) :
    res.continue_ = true ∧ (1 ≤ res.remove_ ∨ res.commands_ = []) := by
  unfold rule950 at h
  simp only [hit, miss] at h
  repeat' split at h
  all_goals first
    | (simp at h <;> fail)
    | (simp at h; subst h; simp; done)
    | (simp at h; subst h; simp; omega)
    | (simp at h; subst h; decide)
    | (have h1 := simulateRule_hit _ _ _ _ _ _ h
       exact ⟨h1.1, Or.inl (by have := h1.2; omega)⟩)
    | (obtain ⟨h1, h2⟩ := oneSlice_hit _ _ _ _ _ h
       rw [h1, h2]; simp; done)
    | (obtain ⟨h1, h2⟩ := pushSliceResult_hit _ _ _ _ h
       rw [h1, h2]; simp; done)

theorem rule966_hit (tc : TvmConst) (w : Window) (res : Result) (h : rule966 tc w = some (some res)) :
    res.continue_ = true ∧ (1 ≤ res.remove_ ∨ res.commands_ = []) := by
  unfold rule966 at h
  simp only [hit, miss] at h
  repeat' split at h
  all_goals first
    | (simp at h <;> fail)
    | (simp at h; subst h; simp; done)
    | (simp at h; subst h; simp; omega)
    | (simp at h; subst h; decide)
    | (have h1 := simulateRule_hit _ _ _ _ _ _ h
       exact ⟨h1.1, Or.inl (by have := h1.2; omega)⟩)
    | (obtain ⟨h1, h2⟩ := oneSlice_hit _ _ _ _ _ h
       rw [h1, h2]; simp; done)
    | (obtain ⟨h1, h2⟩ := pushSliceResult_hit _ _ _ _ h
       rw [h1, h2]; simp; done)

theorem rule984_hit (tc : TvmConst) (w : Window) (res : Result) (h : rule984 tc w = some (some res)) :
    res.continue_ = true ∧ (1 ≤ res.remove_ ∨ res.commands_ = []) := by
  unfold rule984 at h
  simp only [hit, miss] at h
  repeat' split at h
  all_goals first
    | (simp at h <;> fail)
    | (simp at h; subst h; simp; done)
    | (simp at h; subst h; simp; omega)
    | (simp at h; subst h; decide)
    | (have h1 := simulateRule_hit _ _ _ _ _ _ h
       exact ⟨h1.1, Or.inl (by have := h1.2; omega)⟩)
    | (obtain ⟨h1, h2⟩ := oneSlice_hit _ _ _ _ _ h
       rw [h1, h2]; simp; done)
    | (obtain ⟨h1, h2⟩ := pushSliceResult_hit _ _ _ _ h
       rw [h1, h2]; simp; done)

theorem rule1001_hit (w : Window) (res : Result) (h : rule1001 w = some (some res)) :
    res.continue_ = true ∧ (1 ≤ res.remove_ ∨ res.commands_ = []) := by
  unfold rule1001 at h
  simp only [hit, miss] at h
  repeat' split at h
  all_goals first
    | (simp at h <;> fail)
    | (simp at h; subst h; simp; done)
    | (simp at h; subst h; simp; omega)
    | (simp at h; subst h; decide)
    | (have h1 := simulateRule_hit _ _ _ _ _ _ h
       exact ⟨h1.1, Or.inl (by have := h1.2; omega)⟩)
    | (obtain ⟨h1, h2⟩ := oneSlice_hit _ _ _ _ _ h
       rw [h1, h2]; simp; done)
    | (obtain ⟨h1, h2⟩ := pushSliceResult_hit _ _ _ _ h
       rw [h1, h2]; simp; done)

theorem rule1013_hit (w : Window) (res : Result) (h : rule1013 w = some (some res)) :
    res.continue_ = true ∧ (1 ≤ res.remove_ ∨ res.commands_ = []) := by
  unfold rule1013 at h
  simp only [hit, miss] at h
  repeat' split at h
  all_goals first
    | (simp at h <;> fail)
    | (simp at h; subst h; simp; done)
    | (simp at h; subst h; simp; omega)
    | (simp at h; subst h; decide)
    | (have h1 := simulateRule_hit _ _ _ _ _ _ h
       exact ⟨h1.1, Or.inl (by have := h1.2; omega)⟩)
    | (obtain ⟨h1, h2⟩ := oneSlice_hit _ _ _ _ _ h
       rw [h1, h2]; simp; done)
    | (obtain ⟨h1, h2⟩ := pushSliceResult_hit _ _ _ _ h
       rw [h1, h2]; simp; done)

theorem rule1031_hit (w : Window) (res : Result) (h : rule1031 w = some (some res)) :
    res.continue_ = true ∧ (1 ≤ res.remove_ ∨ res.commands_ = []) := by
  unfold rule1031 at h
  simp only [hit, miss] at h
  repeat' split at h
  all_goals first
    | (simp at h <;> fail)
    | (simp at h; subst h; simp; done)
    | (simp at h; subst h; simp; omega)
    | (simp at h; subst h; decide)
    | (have h1 := simulateRule_hit _ _ _ _ _ _ h
       exact ⟨h1.1, Or.inl (by have := h1.2; omega)⟩)
    | (obtain ⟨h1, h2⟩ := oneSlice_hit _ _ _ _ _ h
       rw [h1, h2]; simp; done)
    | (obtain ⟨h1, h2⟩ := pushSliceResult_hit _ _ _ _ h
       rw [h1, h2]; simp; done)

theorem rule1044_hit (w : Window) (res : Result) (h : rule1044 w = some (some res)) :
    res.continue_ = true ∧ (1 ≤ res.remove_ ∨ res.commands_ = []) := by
  unfold rule1044 at h
  simp only [hit, miss] at h
  repeat' split at h
  all_goals first
    | (simp at h <;> fail)
    | (simp at h; subst h; simp; done)
    | (simp at h; subst h; simp; omega)
    | (simp at h; subst h; decide)
    | (have h1 := simulateRule_hit _ _ _ _ _ _ h
       exact ⟨h1.1, Or.inl (by have := h1.2; omega)⟩)
    | (obtain ⟨h1, h2⟩ := oneSlice_hit _ _ _ _ _ h
       rw [h1, h2]; simp; done)
    | (obtain ⟨h1, h2⟩ := pushSliceResult_hit _ _ _ _ h
       rw [h1, h2]; simp; done)

theorem rule1052_hit (tc : TvmConst) (w : Window) (res : Result) (h : rule1052 tc w = some (some res)) :
    res.continue_ = true ∧ (1 ≤ res.remove_ ∨ res.commands_ = []) := by
  unfold rule1052 at h
  simp only [hit, miss] at h
  repeat' split at h
  all_goals first
    | (simp at h <;> fail)
    | (simp at h; subst h; simp; done)
    | (simp at h; subst h; simp; omega)
    | (simp at h; subst h; decide)
    | (have h1 := simulateRule_hit _ _ _ _ _ _ h
       exact ⟨h1.1, Or.inl (by have := h1.2; omega)⟩)
    | (obtain ⟨h1, h2⟩ := oneSlice_hit _ _ _ _ _ h
       rw [h1, h2]; simp; done)
    | (obtain ⟨h1, h2⟩ := pushSliceResult_hit _ _ _ _ h
       rw [h1, h2]; simp; done)

theorem rule1073_hit (tc : TvmConst) (w : Window) (res : Result) (h : rule1073 tc w = some (some res)) :
    res.continue_ = true ∧ (1 ≤ res.remove_ ∨ res.commands_ = []) := by
  unfold rule1073 at h
  simp only [hit, miss] at h
  repeat' split at h
  all_goals first
    | (simp at h <;> fail)
    | (simp at h; subst h; simp; done)
    | (simp at h; subst h; simp; omega)
    | (simp at h; subst h; decide)
    | (have h1 := simulateRule_hit _ _ _ _ _ _ h
       exact ⟨h1.1, Or.inl (by have := h1.2; omega)⟩)
    | (obtain ⟨h1, h2⟩ := oneSlice_hit _ _ _ _ _ h
       rw [h1, h2]; simp; done)
    | (obtain ⟨h1, h2⟩ := pushSliceResult_hit _ _ _ _ h
       rw [h1, h2]; simp; done)

theorem rule1093_hit (w : Window) (res : Result) (h : rule1093 w = some (some res)) :
    res.continue_ = true ∧ (1 ≤ res.remove_ ∨ res.commands_ = []) := by
  unfold rule1093 at h
  simp only [hit, miss] at h
  repeat' split at h
  all_goals first
    | (simp at h <;> fail)
    | (simp at h; subst h; simp; done)
    | (simp at h; subst h; simp; omega)
    | (simp at h; subst h; decide)
    | (have h1 := simulateRule_hit _ _ _ _ _ _ h
       exact ⟨h1.1, Or.inl (by have := h1.2; omega)⟩)
    | (obtain ⟨h1, h2⟩ := oneSlice_hit _ _ _ _ _ h
       rw [h1, h2]; simp; done)
    | (obtain ⟨h1, h2⟩ := pushSliceResult_hit _ _ _ _ h
       rw [h1, h2]; simp; done)

theorem rule1105_hit (w : Window) (res : Result) (h : rule1105 w = some (some res)) :
    res.continue_ = true ∧ (1 ≤ res.remove_ ∨ res.commands_ = []) := by
  unfold rule1105 at h
  simp only [hit, miss] at h
  repeat' split at h
  all_goals first
    | (simp at h <;> fail)
    | (simp at h; subst h; simp; done)
    | (simp at h; subst h; simp; omega)
    | (simp at h; subst h; decide)
    | (have h1 := simulateRule_hit _ _ _ _ _ _ h
       exact ⟨h1.1, Or.inl (by have := h1.2; omega)⟩)
    | (obtain ⟨h1, h2⟩ := oneSlice_hit _ _ _ _ _ h
       rw [h1, h2]; simp; done)
    | (obtain ⟨h1, h2⟩ := pushSliceResult_hit _ _ _ _ h
       rw [h1, h2]; simp; done)

theorem rule1120_hit (w : Window) (res : Result) (h : rule1120 w = some (some res)) :
    res.continue_ = true ∧ (1 ≤ res.remove_ ∨ res.commands_ = []) := by
  unfold rule1120 at h
  simp only [hit, miss] at h
  repeat' split at h
  all_goals first
    | (simp at h <;> fail)
    | (simp at h; subst h; simp; done)
    | (simp at h; subst h; simp; omega)
    | (simp at h; subst h; decide)
    | (have h1 := simulateRule_hit _ _ _ _ _ _ h
       exact ⟨h1.1, Or.inl (by have := h1.2; omega)⟩)
    | (obtain ⟨h1, h2⟩ := oneSlice_hit _ _ _ _ _ h
       rw [h1, h2]; simp; done)
    | (obtain ⟨h1, h2⟩ := pushSliceResult_hit _ _ _ _ h
       rw [h1, h2]; simp; done)

theorem rule1130_hit (w : Window) (res : Result) (h : rule1130 w = some (some res)) :
    res.continue_ = true ∧ (1 ≤ res.remove_ ∨ res.commands_ = []) := by
  unfold rule1130 at h
  simp only [hit, miss] at h
  repeat' split at h
  all_goals first
    | (simp at h <;> fail)
    | (simp at h; subst h; simp; done)
    | (simp at h; subst h; simp; omega)
    | (simp at h; subst h; decide)
    | (have h1 := simulateRule_hit _ _ _ _ _ _ h
       exact ⟨h1.1, Or.inl (by have := h1.2; omega)⟩)
    | (obtain ⟨h1, h2⟩ := oneSlice_hit _ _ _ _ _ h
       rw [h1, h2]; simp; done)
    | (obtain ⟨h1, h2⟩ := pushSliceResult_hit _ _ _ _ h
       rw [h1, h2]; simp; done)

theorem rule1137_hit (w : Window) (res : Result) (h : rule1137 w = some (some res)) :
    res.continue_ = true ∧ (1 ≤ res.remove_ ∨ res.commands_ = []) := by
  unfold rule1137 at h
  simp only [hit, miss] at h
  repeat' split at h
  all_goals first
    | (simp at h <;> fail)
    | (simp at h; subst h; simp; done)
    | (simp at h; subst h; simp; omega)
    | (simp at h; subst h; decide)
    | (have h1 := simulateRule_hit _ _ _ _ _ _ h
       exact ⟨h1.1, Or.inl (by have := h1.2; omega)⟩)
    | (obtain ⟨h1, h2⟩ := oneSlice_hit _ _ _ _ _ h
       rw [h1, h2]; simp; done)
    | (obtain ⟨h1, h2⟩ := pushSliceResult_hit _ _ _ _ h
       rw [h1, h2]; simp; done)

theorem firstRule_cases :
    ∀ (rs : List (Window → RuleResult)) (w : Window) (res : Result),
      firstRule rs w = some res → res = ⟨false, 0, []⟩ ∨ ∃ r ∈ rs, r w = some (some res) := by
  intro rs
  induction rs with
  | nil =>
    intro w res h
    simp only [firstRule, Option.some.injEq] at h
    exact Or.inl h.symm
  | cons r rest ih =>
    intro w res h
    unfold firstRule at h
    cases hr : r w with
    | none => rw [hr] at h; cases h
    | some o =>
      rw [hr] at h
      cases o with
      | none =>
        simp only at h
        rcases ih w res h with h1 | ⟨r2, hr2, h2⟩
        · exact Or.inl h1
        · exact Or.inr ⟨r2, List.mem_cons_of_mem _ hr2, h2⟩
      | some res2 =>
        simp only [Option.some.injEq] at h
        subst h
        exact Or.inr ⟨r, List.mem_cons_self _ _, hr⟩

/-- A result of `optimize_at` is `Result(false)` or a rewrite that continues and removes at
least one line, or removes none and has no commands. -/
theorem optimize_at_result (tc : TvmConst) (lines_ : List String) (idx1 : Int)
    (res : Result) (h : optimize_at tc lines_ idx1 = some res) :
    res = ⟨false, 0, []⟩ ∨
      (res.continue_ = true ∧ (1 ≤ res.remove_ ∨ res.commands_ = [])) := by
  unfold optimize_at at h
  cases hw : Window.at lines_ idx1 with
  | none => rw [hw] at h; cases h
  | some w =>
    rw [hw] at h
    simp only at h
    rcases firstRule_cases _ _ _ h with h0 | ⟨r, hr, hrw⟩
    · exact Or.inl h0
    right
    simp only [rules, List.mem_cons, List.mem_singleton, List.not_mem_nil, or_false] at hr
    rcases hr with rfl | rfl | rfl | rfl | rfl | rfl | rfl | rfl | rfl | rfl | rfl | rfl | rfl | rfl | rfl | rfl | rfl | rfl | rfl | rfl | rfl | rfl | rfl | rfl | rfl | rfl | rfl | rfl | rfl | rfl | rfl | rfl | rfl | rfl | rfl | rfl | rfl | rfl | rfl | rfl | rfl | rfl | rfl | rfl | rfl | rfl | rfl | rfl | rfl | rfl | rfl | rfl | rfl | rfl | rfl | rfl | rfl | rfl | rfl | rfl | rfl | rfl | rfl | rfl | rfl | rfl | rfl | rfl | rfl | rfl | rfl | rfl | rfl | rfl | rfl | rfl | rfl | rfl | rfl | rfl | rfl | rfl | rfl | rfl | rfl | rfl | rfl
    · exact rule396_hit w res hrw
    · exact rule403_hit w res hrw
    · exact rule412_hit w res hrw
    · exact rule426_hit w res hrw
    · exact rule431_hit w res hrw
    · exact rule434_hit w res hrw
    · exact rule443_hit w res lines_ idx1 hw hrw
    · exact rule452_hit w res hrw
    · exact rule459_hit w res hrw
    · exact rule476_hit w res hrw
    · exact rule479_hit w res hrw
    · exact rule490_hit w res hrw
    · exact rule501_hit w res hrw
    · exact rule508_hit w res hrw
    · exact rule517_hit w res hrw
    · exact rule523_hit w res hrw
    · exact rule528_hit w res hrw
    · exact rule531_hit w res hrw
    · exact rule537_hit w res lines_ idx1 hw hrw
    · exact rule548_hit w res hrw
    · exact rule555_hit w res hrw
    · exact rule562_hit w res hrw
    · exact rule569_hit w res hrw
    · exact rule576_hit w res hrw
    · exact rule590_hit w res hrw
    · exact rule597_hit w res hrw
    · exact rule600_hit w res hrw
    · exact rule603_hit w res hrw
    · exact rule606_hit w res hrw
    · exact rule612_hit w res hrw
    · exact rule618_hit w res hrw
    · exact rule623_hit w res hrw
    · exact rule628_hit w res hrw
    · exact rule632_hit w res hrw
    · exact rule636_hit w res hrw
    · exact rule640_hit w res hrw
    · exact rule666_hit w res hrw
    · exact rule669_hit w res hrw
    · exact rule672_hit w res hrw
    · exact rule676_hit tc w res hrw
    · exact rule688_hit tc w res hrw
    · exact rule698_hit tc w res hrw
    · exact rule709_hit tc w res hrw
    · exact rule716_hit tc w res hrw
    · exact rule725_hit tc w res hrw
    · exact rule735_hit w res hrw
    · exact rule740_hit w res hrw
    · exact rule744_hit w res hrw
    · exact rule749_hit w res hrw
    · exact rule752_hit w res hrw
    · exact rule757_hit w res hrw
    · exact rule764_hit w res hrw
    · exact rule769_hit w res hrw
    · exact rule773_hit w res hrw
    · exact rule777_hit w res hrw
    · exact rule787_hit w res hrw
    · exact rule795_hit w res hrw
    · exact rule803_hit w res hrw
    · exact rule817_hit w res hrw
    · exact rule821_hit w res hrw
    · exact rule833_hit w res hrw
    · exact rule843_hit w res hrw
    · exact rule855_hit w res hrw
    · exact rule864_hit w res hrw
    · exact rule874_hit w res hrw
    · exact rule886_hit w res hrw
    · exact rule897_hit w res hrw
    · exact rule909_hit w res hrw
    · exact rule914_hit w res hrw
    · exact rule918_hit w res hrw
    · exact rule928_hit w res hrw
    · exact rule935_hit w res hrw
    · exact rule945_hit w res hrw
    · exact rule950_hit tc w res hrw
    · exact rule966_hit tc w res hrw
    · exact rule984_hit tc w res hrw
    · exact rule1001_hit w res hrw
    · exact rule1013_hit w res hrw
    · exact rule1031_hit w res hrw
    · exact rule1044_hit w res hrw
    · exact rule1052_hit tc w res hrw
    · exact rule1073_hit tc w res hrw
    · exact rule1093_hit w res hrw
    · exact rule1105_hit w res hrw
    · exact rule1120_hit w res hrw
    · exact rule1130_hit w res hrw
    · exact rule1137_hit w res hrw


/-! ### The number of instruction lines after a rewrite -/

theorem comment_parse (s : String) (c : Cmd) (hs : is_comment_or_empty_line s = true)
    (hc : Cmd.ofString s = some c) : c.cmd_ = "" ∧ c.is_simple_command_ = false := by
  have hraw : String.mk ((s.data.dropWhile is_space).takeWhile
      fun ch => !is_space ch && ch ≠ ';') = "" := by
    unfold is_comment_or_empty_line at hs
    cases hd : s.data.dropWhile is_space with
    | nil => rfl
    | cons ch t =>
      rw [hd] at hs
      simp only [decide_eq_true_eq] at hs
      subst hs
      simp [List.takeWhile]
  unfold Cmd.ofString at hc
  simp only at hc
  rw [hraw] at hc
  have ha : ∀ pfx rest, Cmd.analyze ⟨pfx, "", rest, "", false, 0, 0⟩ =
      some ⟨pfx, "", rest, "", false, 0, 0⟩ := by
    intro pfx rest
    simp [Cmd.analyze, s01, s10, s11, s21, s32, Cmd.is]
  rw [ha] at hc
  simp only [Option.some.injEq] at hc
  rw [← hc]
  exact ⟨rfl, rfl⟩

theorem command_of_name (lines_ : List String) (i : Int) (c : Cmd)
    (hc : cmd lines_ i = some c) (hn : c.cmd_ ≠ "") :
    is_comment_or_empty_line (lineAt lines_ i) = false := by
  have hv := cmd_valid_of_name _ _ _ hc hn
  unfold cmd at hc
  rw [if_pos hv] at hc
  by_contra h
  exact hn (comment_parse _ _ (by simpa using h) hc).1

end TVMOptimizer

/-! ### The number of instruction lines along the passes -/

namespace TVMOptimizer

theorem instrCount_append (a b : List String) :
    instrCount (a ++ b) = instrCount a + instrCount b := by
  simp [instrCount]

theorem instrCount_comments (K : List String)
    (h : ∀ s ∈ K, is_comment_or_empty_line s = true) : instrCount K = 0 := by
  unfold instrCount
  rw [List.length_eq_zero, List.filter_eq_nil_iff]
  intro s hs
  simp [h s hs]

theorem instrCount_commands (R : List String)
    (h : ∀ s ∈ R, is_comment_or_empty_line s = false) : instrCount R = R.length := by
  unfold instrCount
  rw [List.filter_eq_self.mpr]
  intro s hs
  simp [h s hs]

theorem instrCount_perm (a b : List String) (h : a.Perm b) : instrCount a = instrCount b := by
  unfold instrCount
  exact (h.filter _).length_eq

theorem instrCount_le_length (a : List String) : instrCount a ≤ a.length := by
  unfold instrCount
  exact List.length_filter_le _ _

theorem lines_split (lines_ : List String) (i last : Nat) (h : i ≤ last) :
    lines_ = lines_.take i ++ ((lines_.take (last + 1)).drop i ++ lines_.drop (last + 1)) := by
  have h1 : lines_.take i = (lines_.take (last + 1)).take i := by
    rw [List.take_take, Nat.min_eq_left (by omega)]
  rw [h1, ← List.append_assoc, List.take_append_drop, List.take_append_drop]

theorem removed_commands (lines_ : List String) (i : Nat) (hi : i < lines_.length) (r : Nat)
    (hcmd : is_comment_or_empty_line (lineAt lines_ (i : Int)) = false)
    (hval : ∀ t ∈ linesToRemove lines_ (r + 1) (i : Int), valid lines_ t = true) :
    ∀ s ∈ (linesToRemove lines_ (r + 1) (i : Int)).map (lineAt lines_),
      is_comment_or_empty_line s = false := by
  intro s hs
  obtain ⟨t, ht, rfl⟩ := List.mem_map.mp hs
  have hT : linesToRemove lines_ (r + 1) (i : Int) =
      (i : Int) :: (linesToRemove lines_ (r + 1) (i : Int)).tail := rfl
  rw [hT] at ht
  rcases List.mem_cons.mp ht with rfl | ht
  · exact hcmd
  · exact linesToRemove_tail_commands lines_ r i hi t ht (hval t (List.mem_of_mem_tail ht))

/-- The number of instruction lines after a rewrite at a command line that removes at least
one line: the removed lines are gone and at most the replacement commands have come. -/
theorem updateLines_instrCount (lines_ : List String) (i : Nat) (hi : i < lines_.length)
    (res : Result) (hr : 1 ≤ res.remove_)
    (hcmd : is_comment_or_empty_line (lineAt lines_ (i : Int)) = false)
    (b : Bool) (i' : Int) (lines' : List String)
    (h : updateLines lines_ (i : Int) res = some (b, i', lines')) :
    instrCount lines' + res.remove_.toNat ≤ instrCount lines_ + res.commands_.length := by
  obtain ⟨last, K, pfx, hile, hlt, hK, hl', hperm, hval, _, _, _⟩ :=
    updateLines_spec lines_ i hi res hr b i' lines' h
  obtain ⟨r, hrr⟩ : ∃ r, res.remove_.toNat = r + 1 := ⟨res.remove_.toNat - 1, by omega⟩
  rw [hrr] at hperm hval
  have h1 := congrArg instrCount (lines_split lines_ i last hile)
  rw [instrCount_append, instrCount_append, instrCount_perm _ _ hperm, instrCount_append,
    instrCount_comments K hK,
    instrCount_commands _ (removed_commands lines_ i hi r hcmd hval)] at h1
  simp only [List.length_map, linesToRemove_length] at h1
  rw [hl', instrCount_append, instrCount_append, instrCount_append, instrCount_comments K hK]
  have h2 := instrCount_le_length
    ((res.commands_.filter fun c => decide (c ≠ "")).map fun c => pfx ++ c)
  have h3 : ((res.commands_.filter fun c => decide (c ≠ "")).map fun c => pfx ++ c).length
      ≤ res.commands_.length := by
    rw [List.length_map]
    exact List.length_filter_le _ _
  omega

theorem updateLines_nothing (lines_ : List String) (i : Int) (b : Bool) (i' : Int)
    (lines' : List String) (res : Result) (h0 : res.remove_ ≤ 0) (hc : res.commands_ = [])
    (h : updateLines lines_ i res = some (b, i', lines')) : lines' = lines_ := by
  unfold updateLines at h
  by_cases hneg : res.remove_ < 0
  · rw [if_pos hneg] at h; cases h
  rw [if_neg hneg] at h
  have e : res.remove_.toNat = 0 := by omega
  simp only [e, linesToRemove, hc] at h
  simp at h
  split_ifs at h <;> simp at h <;> exact h.2.2.symm


set_option linter.unusedTactic false
set_option linter.unreachableTactic false

theorem is_PUSH_name (c : Cmd) (h : c.is_PUSH = true) : c.cmd_ ≠ "" := by
  intro he
  simp [Cmd.is_PUSH, Cmd.is, he] at h

theorem squash3_hit (c1 c2 c3 : Cmd) (res : Result)
    (h : squash3 c1 c2 c3 = some (some res)) :
    c1.is_PUSH = true ∧ res.continue_ = true ∧ res.remove_ = 3 ∧
      ∃ x, res.commands_ = ["PUSH3 S" ++ x] := by
  unfold squash3 at h
  by_cases hp : (c1.is_PUSH && c2.is_PUSH && c3.is_PUSH) = true
  · rw [if_pos hp] at h
    simp only [Bool.and_eq_true] at hp
    cases h1 : c1.get_push_index with
    | none => rw [h1] at h; cases h
    | some p1 =>
      cases h2 : c2.get_push_index with
      | none => rw [h1, h2] at h; cases h
      | some p2 =>
        cases h3 : c3.get_push_index with
        | none => rw [h1, h2, h3] at h; cases h
        | some p3 =>
          rw [h1, h2, h3] at h
          simp only at h
          split_ifs at h
          all_goals first
            | (simp [miss] at h; done)
            | (simp only [hit, Option.some.injEq, String.append_assoc] at h
               subst h
               exact ⟨hp.1.1, rfl, rfl, _, rfl⟩)
  · rw [if_neg hp] at h
    simp [miss] at h

theorem squash2_hit (c1 c2 : Cmd) (res : Result) (h : squash2 c1 c2 = some (some res)) :
    c1.is_PUSH = true ∧ res.continue_ = true ∧ res.remove_ = 2 ∧
      (res.commands_ = ["DUP2"] ∨ ∃ x, res.commands_ = ["PUSH2 S" ++ x]) := by
  unfold squash2 at h
  by_cases hp : (c1.is_PUSH && c2.is_PUSH) = true
  · rw [if_pos hp] at h
    simp only [Bool.and_eq_true] at hp
    cases h1 : c1.get_push_index with
    | none => rw [h1] at h; cases h
    | some p1 =>
      cases h2 : c2.get_push_index with
      | none => rw [h1, h2] at h; cases h
      | some p2 =>
        rw [h1, h2] at h
        simp only at h
        by_cases e1 : p1 = 1 ∧ p2 = 1
        · rw [if_pos e1] at h
          simp only [hit, Option.some.injEq] at h
          subst h
          exact ⟨hp.1, rfl, rfl, Or.inl rfl⟩
        · rw [if_neg e1] at h
          split_ifs at h
          all_goals first
            | (simp [miss] at h; done)
            | (simp only [hit, Option.some.injEq, String.append_assoc] at h
               subst h
               exact ⟨hp.1, rfl, rfl, Or.inr ⟨_, rfl⟩⟩)
  · rw [if_neg hp] at h
    simp [miss] at h

theorem squashBlkpush_hit (c1 : Cmd) (res : Result) (h : squashBlkpush c1 = some (some res)) :
    c1.is "BLKPUSH" = true ∧ res.continue_ = true ∧ res.remove_ = 1 ∧
      (res.commands_ = ["DUP2"] ∨ res.commands_ = ["OVER2"]) := by
  unfold squashBlkpush at h
  by_cases hp : c1.is "BLKPUSH" = true
  · rw [if_pos hp] at h
    cases h1 : c1.fetch_first_int with
    | none => rw [h1] at h; cases h
    | some f =>
      rw [h1] at h
      simp only at h
      by_cases e1 : f = 2
      · rw [if_pos e1] at h
        cases h2 : c1.fetch_second_int with
        | none => rw [h2] at h; cases h
        | some s2 =>
          rw [h2] at h
          simp only at h
          by_cases e2 : s2 = 1
          · rw [if_pos e2] at h
            simp only [hit, Option.some.injEq] at h
            subst h
            exact ⟨hp, rfl, rfl, Or.inl rfl⟩
          · rw [if_neg e2] at h
            by_cases e3 : s2 = 3
            · rw [if_pos e3] at h
              simp only [hit, Option.some.injEq] at h
              subst h
              exact ⟨hp, rfl, rfl, Or.inr rfl⟩
            · rw [if_neg e3] at h
              simp [miss] at h
      · rw [if_neg e1] at h
        simp [miss] at h
  · rw [if_neg hp] at h
    simp [miss] at h

/-- A result of `squash_push` is `Result(false)` or replaces one to three commands, the
first of them a push, by one command. -/
theorem squash_push_result (lines_ : List String) (i : Int) (res : Result)
    (h : squash_push lines_ i = some res) :
    res = ⟨false, 0, []⟩ ∨
      ∃ c1 c, cmd lines_ i = some c1 ∧ c1.cmd_ ≠ "" ∧ res.continue_ = true ∧
        1 ≤ res.remove_ ∧ res.commands_ = [c] ∧
        ((∃ x, c = "PUSH3 S" ++ x) ∨ (∃ x, c = "PUSH2 S" ++ x) ∨ c = "DUP2" ∨ c = "OVER2") := by
  unfold squash_push at h
  simp only at h
  cases h1 : cmd lines_ i with
  | none => rw [h1] at h; simp at h
  | some c1 =>
    cases h2 : cmd lines_ (next_command_line lines_ i) with
    | none => rw [h1, h2] at h; simp at h
    | some c2 =>
      cases h3 : cmd lines_ (next_command_line lines_ (next_command_line lines_ i)) with
      | none => rw [h1, h2, h3] at h; simp at h
      | some c3 =>
        rw [h1, h2, h3] at h
        simp only at h
        cases hs3 : squash3 c1 c2 c3 with
        | none => rw [hs3] at h; cases h
        | some o3 =>
          rw [hs3] at h
          cases o3 with
          | some r3 =>
            simp only [Option.some.injEq] at h
            subst h
            right
            obtain ⟨a1, a2, a3, x, a4⟩ := squash3_hit _ _ _ _ hs3
            exact ⟨c1, _, rfl, is_PUSH_name _ a1, a2, by omega, a4, Or.inl ⟨x, rfl⟩⟩
          | none =>
            simp only at h
            cases hs2 : squash2 c1 c2 with
            | none => rw [hs2] at h; cases h
            | some o2 =>
              rw [hs2] at h
              cases o2 with
              | some r2 =>
                simp only [Option.some.injEq] at h
                subst h
                right
                obtain ⟨a1, a2, a3, a4 | ⟨x, a4⟩⟩ := squash2_hit _ _ _ hs2
                · exact ⟨c1, _, rfl, is_PUSH_name _ a1, a2, by omega, a4,
                    Or.inr (Or.inr (Or.inl rfl))⟩
                · exact ⟨c1, _, rfl, is_PUSH_name _ a1, a2, by omega, a4,
                    Or.inr (Or.inl ⟨x, rfl⟩)⟩
              | none =>
                simp only at h
                cases hsb : squashBlkpush c1 with
                | none => rw [hsb] at h; cases h
                | some ob =>
                  rw [hsb] at h
                  cases ob with
                  | none =>
                    simp only [Option.some.injEq] at h
                    exact Or.inl h.symm
                  | some rb =>
                    simp only [Option.some.injEq] at h
                    subst h
                    right
                    obtain ⟨a1, a2, a3, a4 | a4⟩ := squashBlkpush_hit _ _ hsb
                    · exact ⟨c1, _, rfl, by intro he; simp [Cmd.is, he] at a1, a2, by omega,
                        a4, Or.inr (Or.inr (Or.inl rfl))⟩
                    · exact ⟨c1, _, rfl, by intro he; simp [Cmd.is, he] at a1, a2, by omega,
                        a4, Or.inr (Or.inr (Or.inr rfl))⟩

theorem unsquash_push_result (lines_ : List String) (i : Int) (res : Result)
    (h : unsquash_push lines_ i = some res) :
    res = ⟨false, 0, []⟩ ∨
      ∃ c1 a b, cmd lines_ i = some c1 ∧ c1.cmd_ = "PUSH2" ∧ res = ⟨true, 1, [a, b]⟩ := by
  unfold unsquash_push at h
  cases h1 : cmd lines_ i with
  | none => rw [h1] at h; cases h
  | some c1 =>
    rw [h1] at h
    simp only at h
    by_cases hp : c1.is "PUSH2" = true
    · rw [if_pos hp] at h
      cases h2 : c1.get_push2_indexes with
      | none => rw [h2] at h; cases h
      | some p =>
        obtain ⟨si, sj⟩ := p
        rw [h2] at h
        simp only at h
        cases h3 : make_PUSH si with
        | none => rw [h3] at h; cases h
        | some a =>
          cases h4 : make_PUSH (sj + 1) with
          | none => rw [h3, h4] at h; cases h
          | some b =>
            rw [h3, h4] at h
            simp only [Option.some.injEq, Result.Replace] at h
            right
            exact ⟨c1, a, b, rfl, by simpa [Cmd.is] using hp, h.symm⟩
    · rw [if_neg hp] at h
      simp only [Option.some.injEq] at h
      exact Or.inl h.symm


/-- No rule of `optimize_at` applies at a comment or empty line. -/
theorem firstRule_comment (tc : TvmConst) (lines_ : List String) (idx1 : Int) (w : Window)
    (hw : Window.at lines_ idx1 = some w) (h1 : w.cmd1.cmd_ = "")
    (hs : w.cmd1.is_simple_command_ = false) :
    firstRule (rules tc) w = some ⟨false, 0, []⟩ := by
  obtain ⟨hl, hi1, hi2, hc1, hc2⟩ := Window.at_spec _ _ _ hw
  have hq : w.cmd1.is_PUSHINT = false := by simp [Cmd.is_PUSHINT, Cmd.is, h1]
  have m2 : simulateRule w w.idx1 1 0 ["DROP"] = miss := by
    unfold simulateRule try_simulate
    rw [hl, hi1]
    by_cases hv : valid lines_ idx1 = true
    · rw [if_neg (not_not.mpr hv)]
      unfold try_simulate_loop
      simp [hv, hc1, Cmd.is_PUSH, Cmd.is_POP, Cmd.is_NIP, Cmd.is, Cmd.get_drop_index,
        Cmd.is_DROP, h1, hs, miss]
    · rw [if_pos hv]
  simp only [rules, firstRule]
  simp [rule396, rule403, rule412, rule426, rule431, rule434, rule443, rule452, rule459, rule476, rule479, rule490, rule501, rule508, rule517, rule523, rule528, rule531, rule537, rule548, rule555, rule562, rule569, rule576, rule590, rule597, rule600, rule603, rule606, rule612, rule618, rule623, rule628, rule632, rule636, rule640, rule666, rule669, rule672, rule676, rule688, rule698, rule709, rule716, rule725, rule735, rule740, rule744, rule749, rule752, rule757, rule764, rule769, rule773, rule777, rule787, rule795, rule803, rule817, rule821, rule833, rule843, rule855, rule864, rule874, rule886, rule897, rule909, rule914, rule918, rule928, rule935, rule945, rule950, rule966, rule984, rule1001, rule1013, rule1031, rule1044, rule1052, rule1073, rule1093, rule1105, rule1120, rule1130, rule1137, miss, hit, Cmd.is, Cmd.is_SWAP, Cmd.is_PUSH, Cmd.is_POP, Cmd.is_DUP, Cmd.is_NIP, Cmd.is_DROP, Cmd.is_ADD, Cmd.is_SUB, Cmd.is_MUL, Cmd.is_DIV, Cmd.isBLKSWAP, Cmd.is_const_add, Cmd.is_commutative, Cmd.is_add_or_sub, Cmd.get_drop_index, Cmd.is_drop_kind, Cmd.is_simple_command, Cmd.get_push_index, Cmd.get_pop_index, Cmd.get_add_num, isPushintOf, isSmallIndex, oneSlice, h1, hq, hs, m2]

theorem optimize_at_hit_command (tc : TvmConst) (lines_ : List String) (idx1 : Int)
    (res : Result) (h : optimize_at tc lines_ idx1 = some res) (hc : res.continue_ = true)
    (hv : valid lines_ idx1 = true) :
    is_comment_or_empty_line (lineAt lines_ idx1) = false := by
  by_contra hcom
  unfold optimize_at at h
  cases hw : Window.at lines_ idx1 with
  | none => rw [hw] at h; cases h
  | some w =>
    rw [hw] at h
    simp only at h
    obtain ⟨hl, hi1, hi2, hc1, hc2⟩ := Window.at_spec _ _ _ hw
    have hc1b := hc1
    unfold cmd at hc1b
    rw [if_pos hv] at hc1b
    obtain ⟨e1, e2⟩ := comment_parse _ _ (by simpa using hcom) hc1b
    rw [firstRule_comment tc lines_ idx1 w hw e1 e2] at h
    simp only [Option.some.injEq] at h
    rw [← h] at hc
    cases hc

theorem valid_to_nat (lines_ : List String) (i : Int) (hv : valid lines_ i = true) :
    ∃ k : Nat, i = (k : Int) ∧ k < lines_.length := by
  simp only [valid, Bool.and_eq_true, decide_eq_true_eq] at hv
  exact ⟨i.toNat, by omega, by omega⟩

/-- A step of the `optimize_at` pass and the number of instruction lines. -/
theorem optimize_at_step_count (tc : TvmConst) (lines_ : List String) (idx1 : Int)
    (res : Result) (b : Bool) (i' : Int) (lines' : List String)
    (hv : valid lines_ idx1 = true) (h : optimize_at tc lines_ idx1 = some res)
    (hu : updateLines lines_ idx1 res = some (b, i', lines')) :
    instrCount lines' ≤ instrCount lines_ ∨
      (∃ (n : Int) (pre : List String), 15 < n ∧
        res.commands_ = pre ++ ["PUSHINT " ++ toString n, "DROPX"] ∧
        instrCount lines' ≤ instrCount lines_ + 2) ∨
      (∃ w, Window.at lines_ idx1 = some w ∧ rule576 w = some (some res) ∧
        instrCount lines' ≤ instrCount lines_ + 1) := by
  rcases optimize_at_result tc lines_ idx1 res h with h0 | ⟨hc, hrem⟩
  · left
    rw [h0, updateLines_false] at hu
    simp only [Option.some.injEq, Prod.mk.injEq] at hu
    rw [← hu.2.2]
  · by_cases hr : 1 ≤ res.remove_
    · obtain ⟨k, rfl, hk⟩ := valid_to_nat _ _ hv
      have hcmd := optimize_at_hit_command tc lines_ _ res h hc hv
      have hcount := updateLines_instrCount lines_ k hk res hr hcmd b i' lines' hu
      rcases optimize_at_rewrite_size tc lines_ _ res h hc with h1 | ⟨n, pre, hn, he, hp⟩ |
          ⟨w, hw, h576, kk, pre, d, _, _, _, he, hp⟩
      · left; omega
      · right; left
        refine ⟨n, pre, hn, he, ?_⟩
        rw [he] at hcount
        simp only [List.length_append, List.length_cons, List.length_nil] at hcount
        omega
      · right; right
        refine ⟨w, hw, h576, ?_⟩
        rw [he] at hcount
        simp only [List.length_append, List.length_cons, List.length_nil] at hcount
        omega
    · left
      rcases hrem with hrem | hrem
      · exact absurd hrem hr
      · rw [updateLines_nothing lines_ idx1 b i' lines' res (by omega) hrem hu]

theorem unsquash_push_step_count (lines_ : List String) (idx1 : Int)
    (res : Result) (b : Bool) (i' : Int) (lines' : List String)
    (hv : valid lines_ idx1 = true) (h : unsquash_push lines_ idx1 = some res)
    (hu : updateLines lines_ idx1 res = some (b, i', lines')) :
    instrCount lines' ≤ instrCount lines_ + 1 := by
  rcases unsquash_push_result lines_ idx1 res h with h0 | ⟨c1, a, b2, hc1, hn, hres⟩
  · rw [h0, updateLines_false] at hu
    simp only [Option.some.injEq, Prod.mk.injEq] at hu
    rw [← hu.2.2]
    omega
  · obtain ⟨k, rfl, hk⟩ := valid_to_nat _ _ hv
    have hcmd := command_of_name lines_ _ c1 hc1 (by rw [hn]; decide)
    have hcount := updateLines_instrCount lines_ k hk res (by rw [hres]) hcmd b i' lines' hu
    rw [hres] at hcount
    simp only [List.length_cons, List.length_nil] at hcount
    have : (1 : Int).toNat = 1 := rfl
    omega

theorem squash_push_step_count (lines_ : List String) (idx1 : Int)
    (res : Result) (b : Bool) (i' : Int) (lines' : List String)
    (hv : valid lines_ idx1 = true) (h : squash_push lines_ idx1 = some res)
    (hu : updateLines lines_ idx1 res = some (b, i', lines')) :
    instrCount lines' ≤ instrCount lines_ := by
  rcases squash_push_result lines_ idx1 res h with h0 | ⟨c1, c, hc1, hn, _, hr, hcs, _⟩
  · rw [h0, updateLines_false] at hu
    simp only [Option.some.injEq, Prod.mk.injEq] at hu
    rw [← hu.2.2]
  · obtain ⟨k, rfl, hk⟩ := valid_to_nat _ _ hv
    have hcmd := command_of_name lines_ _ c1 hc1 hn
    have hcount := updateLines_instrCount lines_ k hk res hr hcmd b i' lines' hu
    rw [hcs] at hcount
    simp only [List.length_cons, List.length_nil] at hcount
    omega

/-- A measure that no step of a pass increases is not increased by the pass. -/
theorem optimizeLoop_measure (f : List String → Int → Option Result) (μ : List String → Nat)
    (hstep : ∀ lines_ idx1 res b i' lines', valid lines_ idx1 = true →
      f lines_ idx1 = some res → updateLines lines_ idx1 res = some (b, i', lines') →
      μ lines' ≤ μ lines_) :
    ∀ (fuel : Nat) (lines_ : List String) (idx1 : Int) (out : List String),
      optimizeLoop f fuel lines_ idx1 = some out → μ out ≤ μ lines_ := by
  intro fuel
  induction fuel with
  | zero => intro lines_ idx1 out h; simp [optimizeLoop] at h
  | succ n ih =>
    intro lines_ idx1 out h
    unfold optimizeLoop at h
    by_cases hv : valid lines_ idx1 = true
    · rw [if_pos hv] at h
      cases hf : f lines_ idx1 with
      | none => rw [hf] at h; cases h
      | some res =>
        rw [hf] at h
        simp only at h
        cases hu : updateLines lines_ idx1 res with
        | none => rw [hu] at h; cases h
        | some p =>
          obtain ⟨b, i', lines'⟩ := p
          rw [hu] at h
          have hle := hstep lines_ idx1 res b i' lines' hv hf hu
          cases b with
          | true => exact le_trans (ih _ _ _ h) hle
          | false => exact le_trans (ih _ _ _ h) hle
    · rw [if_neg hv] at h
      simp only [Option.some.injEq] at h
      rw [← h]

end TVMOptimizer

/-- C7 (counterexample): `optimize_code` turns the three instructions `GETGLOB 1; UNPAIR;
BLKDROP 3` into four, none of them `DROPX`; and it turns the single instruction
`PUSH2 S0, S16` into two. -/
theorem C7_counterexample :
    TVMOptimizer.optimize_code sampleTvmConst 30 ["GETGLOB 1", "UNPAIR", "BLKDROP 3"]
        = some ["DROP", "GETGLOB 1", "UNPAIR", "DROP2"] ∧
      instrCount ["GETGLOB 1", "UNPAIR", "BLKDROP 3"] = 3 ∧
      instrCount ["DROP", "GETGLOB 1", "UNPAIR", "DROP2"] = 4 ∧
      "DROPX" ∉ ["DROP", "GETGLOB 1", "UNPAIR", "DROP2"] ∧
      TVMOptimizer.optimize_code sampleTvmConst 30 ["PUSH2 S0, S16"]
        = some ["DUP", "PUSH S17"] ∧
      instrCount ["PUSH2 S0, S16"] = 1 ∧ instrCount ["DUP", "PUSH S17"] = 2 := by
  decide

/-- C7 (amended): the number of instruction lines after each rewrite step of the passes of
`optimize_code`. A step of `optimize_at` does not increase it, except by at most two when
the replacement ends with `PUSHINT n; DROPX` for a drop of `n > 15` values, and by at most
one for the rewrite of lines 576-582. A step of `unsquash_push` increases it by at most one.
A step of `squash_push` does not increase it, and neither does a whole `squash_push` pass. -/
theorem C7_instruction_count (tc : TVMOptimizer.TvmConst) :
    (∀ (lines_ : List String) (idx1 : Int) (res : TVMOptimizer.Result) (b : Bool) (i' : Int)
        (lines' : List String), TVMOptimizer.valid lines_ idx1 = true →
        TVMOptimizer.optimize_at tc lines_ idx1 = some res →
        TVMOptimizer.updateLines lines_ idx1 res = some (b, i', lines') →
        instrCount lines' ≤ instrCount lines_ ∨
          (∃ (n : Int) (pre : List String), 15 < n ∧
            res.commands_ = pre ++ ["PUSHINT " ++ toString n, "DROPX"] ∧
            instrCount lines' ≤ instrCount lines_ + 2) ∨
          (∃ w, TVMOptimizer.Window.at lines_ idx1 = some w ∧
            TVMOptimizer.rule576 w = some (some res) ∧
            instrCount lines' ≤ instrCount lines_ + 1)) ∧
      (∀ (lines_ : List String) (idx1 : Int) (res : TVMOptimizer.Result) (b : Bool) (i' : Int)
        (lines' : List String), TVMOptimizer.valid lines_ idx1 = true →
        TVMOptimizer.unsquash_push lines_ idx1 = some res →
        TVMOptimizer.updateLines lines_ idx1 res = some (b, i', lines') →
        instrCount lines' ≤ instrCount lines_ + 1) ∧
      (∀ (lines_ : List String) (idx1 : Int) (res : TVMOptimizer.Result) (b : Bool) (i' : Int)
        (lines' : List String), TVMOptimizer.valid lines_ idx1 = true →
        TVMOptimizer.squash_push lines_ idx1 = some res →
        TVMOptimizer.updateLines lines_ idx1 res = some (b, i', lines') →
        instrCount lines' ≤ instrCount lines_) ∧
      (∀ (fuel : Nat) (lines_ out : List String),
        TVMOptimizer.optimize TVMOptimizer.squash_push fuel lines_ = some out →
        instrCount out ≤ instrCount lines_) :=
  ⟨fun lines_ idx1 res b i' lines' hv h hu =>
      TVMOptimizer.optimize_at_step_count tc lines_ idx1 res b i' lines' hv h hu,
    fun lines_ idx1 res b i' lines' hv h hu =>
      TVMOptimizer.unsquash_push_step_count lines_ idx1 res b i' lines' hv h hu,
    fun lines_ idx1 res b i' lines' hv h hu =>
      TVMOptimizer.squash_push_step_count lines_ idx1 res b i' lines' hv h hu,
    fun fuel lines_ out h =>
      TVMOptimizer.optimizeLoop_measure TVMOptimizer.squash_push instrCount
        (fun lines_ idx1 res b i' lines' hv h hu =>
          TVMOptimizer.squash_push_step_count lines_ idx1 res b i' lines' hv h hu)
        fuel lines_ 0 out h⟩

/-- C7 (amended) at the `squash_push` pass on `PUSH S1; PUSH S1; NOW`, which becomes
`DUP2; NOW`, and at the `optimize_at` step at index 0 of `SWAP; SUB`. -/
theorem C7_instruction_count_witness :
    instrCount ["DUP2", "NOW"] ≤ instrCount ["PUSH S1", "PUSH S1", "NOW"] ∧
      (instrCount ["SUBR"] ≤ instrCount ["SWAP", "SUB"] ∨
        (∃ (n : Int) (pre : List String), 15 < n ∧
          (⟨true, 2, ["SUBR"]⟩ : TVMOptimizer.Result).commands_
            = pre ++ ["PUSHINT " ++ toString n, "DROPX"] ∧
          instrCount ["SUBR"] ≤ instrCount ["SWAP", "SUB"] + 2) ∨
        (∃ w, TVMOptimizer.Window.at ["SWAP", "SUB"] 0 = some w ∧
          TVMOptimizer.rule576 w = some (some ⟨true, 2, ["SUBR"]⟩) ∧
          instrCount ["SUBR"] ≤ instrCount ["SWAP", "SUB"] + 1)) :=
  ⟨(C7_instruction_count sampleTvmConst).2.2.2 5 ["PUSH S1", "PUSH S1", "NOW"]
      ["DUP2", "NOW"] (by decide),
    (C7_instruction_count sampleTvmConst).1 ["SWAP", "SUB"] 0 ⟨true, 2, ["SUBR"]⟩ true 0
      ["SUBR"] (by decide) (by decide) (by decide)⟩

/-! ### The net declared stack effect along the passes -/

namespace TVMOptimizer

theorem prefix_spaces (s : String) (c : Cmd) (h : Cmd.ofString s = some c) :
    ∀ ch ∈ c.prefix_.data, is_space ch = true := by
  unfold Cmd.ofString at h
  simp only at h
  obtain ⟨e1, _, _, _⟩ := analyze_fields _ _ h
  rw [e1]
  intro ch hch
  exact List.mem_takeWhile_imp hch

end TVMOptimizer

namespace TVMOptimizer

theorem parse_raw (s : String) (c : Cmd) (h : Cmd.ofString s = some c) :
    c.prefix_ = linePrefix s ∧ c.cmd_ = lineCmd s := by
  unfold Cmd.ofString at h
  simp only at h
  obtain ⟨e1, e2, _, _⟩ := analyze_fields _ _ h
  exact ⟨e1, e2⟩

theorem lineCmd_command (s : String) (h : is_comment_or_empty_line s = false) :
    lineCmd s ≠ "" := by
  unfold is_comment_or_empty_line at h
  unfold lineCmd
  cases hd : s.data.dropWhile is_space with
  | nil => rw [hd] at h; simp at h
  | cons ch t =>
    rw [hd] at h
    simp only [decide_eq_false_iff_not] at h
    have hns : is_space ch = false := by
      have := List.head_dropWhile_not is_space s.data (by rw [hd]; simp)
      simp only [hd, List.head_cons] at this
      simpa using this
    intro he
    have := congrArg String.data he
    simp [List.takeWhile, hns, h] at this

theorem instrLines_append (a b : List String) :
    instrLines (a ++ b) = instrLines a ++ instrLines b := by
  simp [instrLines]

theorem instrLines_comments (K : List String)
    (h : ∀ s ∈ K, is_comment_or_empty_line s = true) : instrLines K = [] := by
  unfold instrLines
  rw [List.filter_eq_nil_iff]
  intro s hs
  simp [h s hs]

theorem instrLines_command (l : String) (h : is_comment_or_empty_line l = false) :
    instrLines [l] = [l] := by
  simp [instrLines, h]

/-- The instruction lines up to the next command line. -/
theorem instrLines_next (lines_ : List String) (i : Nat) (hi : i < lines_.length) :
    (next_command_line lines_ (i : Int) = -1 ∧
      instrLines lines_ = instrLines (lines_.take (i + 1))) ∨
    ∃ j : Nat, next_command_line lines_ (i : Int) = (j : Int) ∧ i < j ∧ j < lines_.length ∧
      is_comment_or_empty_line (lineAt lines_ (j : Int)) = false ∧
      instrLines (lines_.take (j + 1)) =
        instrLines (lines_.take (i + 1)) ++ [lineAt lines_ (j : Int)] := by
  rcases next_command_line_decomp lines_ i hi with ⟨h1, h2⟩ | ⟨C, l, rest, e, hC, hl, hj⟩
  · left
    refine ⟨h1, ?_⟩
    conv_lhs => rw [← List.take_append_drop (i + 1) lines_]
    rw [instrLines_append, instrLines_comments _ h2, List.append_nil]
  · right
    have hlen : i + 1 + C.length < lines_.length := by
      have h1 : (lines_.drop (i + 1)).length = (C ++ l :: rest).length := by rw [e]
      simp at h1
      omega
    have hline : lineAt lines_ ((i + 1 + C.length : Nat) : Int) = l := by
      rw [lineAt_nat _ _ hlen]
      have h2 : (lines_.drop (i + 1))[C.length]? = some l := by
        rw [e, List.getElem?_append_right (le_refl _)]
        simp
      rw [List.getElem?_drop, List.getElem?_eq_getElem (by omega)] at h2
      simpa using h2
    refine ⟨i + 1 + C.length, hj, by omega, hlen, by rw [hline]; exact hl, ?_⟩
    have htake : lines_.take (i + 1 + C.length + 1) = lines_.take (i + 1) ++ (C ++ [l]) := by
      have h1 : lines_.take (i + 1 + C.length + 1)
          = lines_.take (i + 1) ++ (lines_.drop (i + 1)).take (C.length + 1) := by
        rw [Nat.add_assoc, List.take_add]
      rw [h1, e]
      congr 1
      rw [List.take_append_eq_append_take]
      simp
    rw [htake, instrLines_append, instrLines_append, instrLines_comments C hC, hline,
      instrLines_command l hl, List.nil_append]

/-- The step back of `updateLines` ends at index 0 or at a command line before the index
it starts from. -/
theorem stepBack_spec (lines_ : List String) : ∀ (fuel : Nat) (cnt : Int) (i : Nat) (idx : Int),
    i ≤ fuel → i ≤ lines_.length → 0 < cnt →
    (stepBack lines_ fuel cnt (i : Int) idx = idx ∧ i = 0) ∨
      stepBack lines_ fuel cnt (i : Int) idx = 0 ∨
      ∃ r : Nat, stepBack lines_ fuel cnt (i : Int) idx = (r : Int) ∧ r < i ∧
        is_comment_or_empty_line (lineAt lines_ (r : Int)) = false := by
  intro fuel
  induction fuel with
  | zero =>
    intro cnt i idx hi _ _
    left
    exact ⟨rfl, by omega⟩
  | succ n ih =>
    intro cnt i idx hi hlen hcnt
    unfold stepBack
    rw [if_pos hcnt]
    by_cases hv : valid lines_ ((i : Int) - 1) = true
    · rw [if_neg (not_not.mpr hv)]
      obtain ⟨k, rfl⟩ : ∃ k, i = k + 1 := by
        simp only [valid, Bool.and_eq_true, decide_eq_true_eq] at hv
        exact ⟨i - 1, by omega⟩
      have e : (((k + 1 : Nat) : Int) - 1) = (k : Int) := by push_cast; ring
      rw [e]
      by_cases hcom : is_comment_or_empty_line (lineAt lines_ (k : Int)) = true
      · rw [if_neg (not_not.mpr hcom)]
        rcases ih cnt k (k : Int) (by omega) (by omega) hcnt with ⟨h1, h2⟩ | h1 | ⟨r, h1, h2, h3⟩
        · right; left
          rw [h1, h2]
          rfl
        · right; left; exact h1
        · right; right
          exact ⟨r, h1, by omega, h3⟩
      · rw [if_pos hcom]
        by_cases hc1 : 0 < cnt - 1
        · rcases ih (cnt - 1) k (k : Int) (by omega) (by omega) hc1 with
            ⟨h1, h2⟩ | h1 | ⟨r, h1, h2, h3⟩
          · right; left
            rw [h1, h2]
            rfl
          · right; left; exact h1
          · right; right
            exact ⟨r, h1, by omega, h3⟩
        · right; right
          refine ⟨k, ?_, by omega, by simpa using hcom⟩
          cases n with
          | zero => rfl
          | succ m =>
            unfold stepBack
            rw [if_neg hc1]
    · rw [if_pos hv]
      left
      refine ⟨rfl, ?_⟩
      simp only [valid, Bool.and_eq_true, decide_eq_true_eq, not_and, not_lt] at hv
      by_contra h0
      have := hv (by omega)
      omega


/-- When `optimize_at` returns no rewrite at a command line, the next command may stand
after it: the rule of lines 426-430 has not applied. -/
theorem optimize_at_miss_kept (tc : TvmConst) (lines_ : List String) (i j : Nat)
    (res : Result) (h : optimize_at tc lines_ (i : Int) = some res)
    (hc : res.continue_ = false) (hi : i < lines_.length)
    (hj : next_command_line lines_ (i : Int) = (j : Int)) (hjl : j < lines_.length)
    (hjc : is_comment_or_empty_line (lineAt lines_ (j : Int)) = false) :
    keptAfter (lineAt lines_ (i : Int)) (lineAt lines_ (j : Int)) := by
  intro hnr
  unfold optimize_at at h
  cases hw : Window.at lines_ (i : Int) with
  | none => rw [hw] at h; cases h
  | some w =>
    rw [hw] at h
    simp only at h
    obtain ⟨hl, hi1, hi2, hc1, hc2⟩ := Window.at_spec _ _ _ hw
    rw [hj] at hc2
    have hv1 : valid lines_ (i : Int) = true := by rw [valid_nat]; simpa using hi
    have hv2 : valid lines_ (j : Int) = true := by rw [valid_nat]; simpa using hjl
    have p1 : Cmd.ofString (lineAt lines_ (i : Int)) = some w.cmd1 := by
      unfold cmd at hc1
      rw [if_pos hv1] at hc1
      exact hc1
    have p2 : Cmd.ofString (lineAt lines_ (j : Int)) = some w.cmd2 := by
      unfold cmd at hc2
      rw [if_pos hv2] at hc2
      exact hc2
    obtain ⟨a1, a2⟩ := parse_raw _ _ p1
    obtain ⟨b1, b2⟩ := parse_raw _ _ p2
    have hname : w.cmd1.cmd_ = "RET" ∨ w.cmd1.cmd_ = "THROWANY" ∨ w.cmd1.cmd_ = "THROW" := by
      rw [a2]
      simp only [isNoreturnLine, Bool.or_eq_true, decide_eq_true_eq] at hnr
      rcases hnr with (e | e) | e
      · exact Or.inl e
      · exact Or.inr (Or.inl e)
      · exact Or.inr (Or.inr e)
    have hne2 : w.cmd2.cmd_ ≠ "" := by
      rw [b2]
      exact lineCmd_command _ hjc
    have hq : w.cmd1.is_PUSHINT = false := by
      rcases hname with e | e | e <;> simp [Cmd.is_PUSHINT, Cmd.is, e]
    have r1 : rule396 w = miss := by
      rcases hname with e | e | e <;> simp [rule396, Cmd.is_SWAP, Cmd.is, e]
    have r2 : rule403 w = miss := by simp [rule403, hq]
    have r3 : rule412 w = miss := by simp [rule412, hq]
    simp only [rules, firstRule, r1, r2, r3, miss] at h
    rw [← a1, ← b1]
    by_contra hlt
    have hcond : w.cmd2.prefix_.length ≥ w.cmd1.prefix_.length ∧ w.cmd2.cmd_ ≠ "" :=
      ⟨by omega, hne2⟩
    have r4 : rule426 w = hit 2 [w.cmd1.without_prefix] := by
      unfold rule426
      have : (w.cmd1.is "RET" || w.cmd1.is "THROWANY" || w.cmd1.is "THROW") = true := by
        rcases hname with e | e | e <;> simp [Cmd.is, e]
      rw [if_pos this, if_pos hcond]
    rw [r4] at h
    simp only [hit, Option.some.injEq] at h
    rw [← h] at hc
    cases hc

theorem updateLines_nothing_spec (lines_ : List String) (i : Int) (b : Bool) (i' : Int)
    (lines' : List String) (res : Result) (h0 : res.remove_ ≤ 0) (hc : res.commands_ = [])
    (h : updateLines lines_ i res = some (b, i', lines')) :
    lines' = lines_ ∧ b = res.continue_ ∧
      i' = (if res.continue_ then stepBack lines_ (i.toNat + 1) 10 i i else i) := by
  unfold updateLines at h
  by_cases hneg : res.remove_ < 0
  · rw [if_pos hneg] at h; cases h
  rw [if_neg hneg] at h
  have e : res.remove_.toNat = 0 := by omega
  simp only [e, linesToRemove, hc] at h
  simp at h
  by_cases hcont : res.continue_ = true
  · rw [if_pos hcont] at h ⊢
    simp only [Option.some.injEq, Prod.mk.injEq] at h
    exact ⟨h.2.2.symm, by rw [← h.1, hcont], h.2.1.symm⟩
  · rw [if_neg hcont] at h ⊢
    simp only [Option.some.injEq, Prod.mk.injEq] at h
    exact ⟨h.2.2.symm, by rw [← h.1]; simpa using hcont, h.2.1.symm⟩

/-- A rewrite leaves the lines before its index as they are, and steps back from there. -/
theorem updateLines_take (lines_ : List String) (i : Nat) (hi : i < lines_.length)
    (res : Result) (hc : res.continue_ = true) (hr : 1 ≤ res.remove_ ∨ res.commands_ = [])
    (b : Bool) (i' : Int) (lines' : List String)
    (h : updateLines lines_ (i : Int) res = some (b, i', lines')) :
    lines'.take i = lines_.take i ∧ b = true ∧
      i' = stepBack lines' (i + 1) 10 (i : Int) (i : Int) := by
  by_cases h1 : 1 ≤ res.remove_
  · obtain ⟨last, K, pfx, hile, hlt, hK, hl', _, _, hb, hi', _⟩ :=
      updateLines_spec lines_ i hi res h1 b i' lines' h
    refine ⟨?_, by rw [hb, hc], by rw [hi', if_pos hc]⟩
    rw [hl']
    simp only [List.append_assoc]
    rw [List.take_left' (by simp; omega)]
  · rcases hr with hr | hr
    · exact absurd hr h1
    · obtain ⟨e1, e2, e3⟩ := updateLines_nothing_spec lines_ _ b i' lines' res (by omega) hr h
      have : ((i : Int)).toNat = i := by omega
      rw [if_pos hc, this] at e3
      exact ⟨by rw [e1], by rw [e2, hc], by rw [e3, e1]⟩


theorem instrLines_take_succ (lines_ : List String) (i : Nat) (hi : i < lines_.length) :
    instrLines (lines_.take (i + 1)) = instrLines (lines_.take i) ++
      (if is_comment_or_empty_line (lineAt lines_ (i : Int)) = true then []
        else [lineAt lines_ (i : Int)]) := by
  rw [take_succ_eq _ _ hi, instrLines_append, lineAt_nat _ _ hi]
  congr 1
  by_cases h : is_comment_or_empty_line (lines_.get ⟨i, hi⟩) = true
  · rw [if_pos h]
    simp only [instrLines, List.filter_cons, h, Bool.not_true, Bool.false_eq_true, if_false,
      List.filter_nil]
  · rw [if_neg h]
    simp only [Bool.not_eq_true] at h
    simp only [instrLines, List.filter_cons, h, Bool.not_false, if_true, List.filter_nil]

theorem chain_take_one (lines_ : List String) :
    List.Chain' keptAfter (instrLines (lines_.take 1)) := by
  cases lines_ with
  | nil => simp [instrLines]
  | cons a t =>
    simp only [List.take_succ_cons, List.take_zero, instrLines]
    by_cases h : is_comment_or_empty_line a = true
    · simp [h]
    · simp [h]

/-- The invariant of the `optimize_at` pass: the instruction lines up to the current index
have no dead code after them. -/
theorem optimizeLoop_noDeadCode (tc : TvmConst) : ∀ (fuel : Nat) (lines_ : List String)
    (idx : Int) (out : List String),
    optimizeLoop (optimize_at tc) fuel lines_ idx = some out →
    (valid lines_ idx = true →
      (idx = 0 ∨ is_comment_or_empty_line (lineAt lines_ idx) = false) ∧
        List.Chain' keptAfter (instrLines (lines_.take (idx.toNat + 1)))) →
    (valid lines_ idx = false → noDeadCode lines_) → noDeadCode out := by
  intro fuel
  induction fuel with
  | zero => intro lines_ idx out h; simp [optimizeLoop] at h
  | succ n ih =>
    intro lines_ idx out h hinv hend
    unfold optimizeLoop at h
    by_cases hv : valid lines_ idx = true
    swap
    · rw [if_neg hv] at h
      simp only [Option.some.injEq] at h
      rw [← h]
      exact hend (by simpa using hv)
    rw [if_pos hv] at h
    obtain ⟨i, rfl, hi⟩ := valid_to_nat _ _ hv
    obtain ⟨hfirst, hchain⟩ := hinv hv
    have hiN : ((i : Int)).toNat = i := by omega
    rw [hiN] at hchain
    cases hf : optimize_at tc lines_ (i : Int) with
    | none => rw [hf] at h; cases h
    | some res =>
      rw [hf] at h
      simp only at h
      cases hu : updateLines lines_ (i : Int) res with
      | none => rw [hu] at h; cases h
      | some p =>
        obtain ⟨b, i', lines'⟩ := p
        rw [hu] at h
        rcases optimize_at_result tc lines_ _ res hf with h0 | ⟨hc, hrem⟩
        · subst h0
          rw [updateLines_false] at hu
          simp only [Option.some.injEq, Prod.mk.injEq] at hu
          obtain ⟨hb, hi2, hl2⟩ := hu
          subst hb hi2 hl2
          simp only at h
          apply ih _ _ _ h
          · intro hvn
            rcases instrLines_next lines_ i hi with ⟨hneg, _⟩ | ⟨j, hj, hij, hjl, hjc, htake⟩
            · rw [hneg, valid_neg_one] at hvn
              cases hvn
            · rw [hj]
              have hjN : ((j : Int)).toNat = j := by omega
              rw [hjN, htake]
              refine ⟨Or.inr hjc, ?_⟩
              rw [List.chain'_append]
              refine ⟨hchain, List.chain'_singleton _, ?_⟩
              intro x hx y hy
              simp only [List.head?_cons, Option.mem_def, Option.some.injEq] at hy
              subst hy
              rw [instrLines_take_succ _ _ hi] at hx
              by_cases hcom : is_comment_or_empty_line (lineAt lines_ (i : Int)) = true
              · exfalso
                rcases hfirst with h0 | h0
                · have hi0 : i = 0 := by omega
                  subst hi0
                  rw [if_pos hcom] at hx
                  simp [instrLines] at hx
                · rw [hcom] at h0
                  cases h0
              · rw [if_neg hcom, List.getLast?_append] at hx
                simp only [List.getLast?_singleton, Option.mem_def] at hx
                have hx2 : lineAt lines_ (i : Int) = x := by
                  simpa [Option.or] using hx
                subst hx2
                exact optimize_at_miss_kept tc lines_ i j _ hf rfl hi hj hjl hjc
          · intro hvn
            rcases instrLines_next lines_ i hi with ⟨_, heq⟩ | ⟨j, hj, hij, hjl, hjc, htake⟩
            · unfold noDeadCode
              rw [heq]
              exact hchain
            · rw [hj, valid_nat] at hvn
              simp [hjl] at hvn
        · obtain ⟨htake, hb, hi'⟩ := updateLines_take lines_ i hi res hc hrem b i' lines' hu
          subst hb
          simp only at h
          have hlen' : i ≤ lines'.length := by
            have := congrArg List.length htake
            simp only [List.length_take] at this
            omega
          have zero_case : ∀ out2, optimizeLoop (optimize_at tc) n lines' 0 = some out2 →
              noDeadCode out2 := by
            intro out2 h2
            apply ih _ _ _ h2
            · intro _
              exact ⟨Or.inl rfl, chain_take_one lines'⟩
            · intro hv0
              have : lines' = [] := by
                cases lines' with
                | nil => rfl
                | cons a t => simp [valid] at hv0
              rw [this]
              exact List.chain'_nil
          rcases stepBack_spec lines' (i + 1) 10 i (i : Int) (by omega) hlen' (by decide) with
            ⟨h1, h2⟩ | h1 | ⟨r, h1, h2, h3⟩
          · rw [hi', h1, h2] at h
            exact zero_case out h
          · rw [hi', h1] at h
            exact zero_case out h
          · rw [hi', h1] at h
            apply ih _ _ _ h
            · intro _
              have hrN : ((r : Int)).toNat = r := by omega
              rw [hrN]
              refine ⟨Or.inr h3, ?_⟩
              have e1 : lines'.take (r + 1) = lines_.take (r + 1) := by
                have a1 : lines'.take (r + 1) = (lines'.take i).take (r + 1) := by
                  rw [List.take_take, Nat.min_eq_left (by omega)]
                have a2 : lines_.take (r + 1) = (lines_.take i).take (r + 1) := by
                  rw [List.take_take, Nat.min_eq_left (by omega)]
                rw [a1, a2, htake]
              rw [e1]
              have e2 : lines_.take (r + 1) = (lines_.take (i + 1)).take (r + 1) := by
                rw [List.take_take, Nat.min_eq_left (by omega)]
              have hpre : instrLines (lines_.take (r + 1)) <+: instrLines (lines_.take (i + 1)) := by
                rw [e2]
                exact (List.take_prefix _ _).filter _
              exact hchain.prefix hpre
            · intro hvr
              rw [valid_nat] at hvr
              simp at hvr
              omega

/-- After a pass of `optimize_at` the log has no dead code. -/
theorem optimize_at_pass_noDeadCode (tc : TvmConst) (fuel : Nat) (lines_ out : List String)
    (h : optimize (optimize_at tc) fuel lines_ = some out) : noDeadCode out := by
  unfold optimize at h
  apply optimizeLoop_noDeadCode tc fuel lines_ 0 out h
  · intro _
    exact ⟨Or.inl rfl, chain_take_one lines_⟩
  · intro hv0
    have : lines_ = [] := by
      cases lines_ with
      | nil => rfl
      | cons a t => simp [valid] at hv0
    rw [this]
    exact List.chain'_nil


theorem chain_replace {R : String → String → Prop} (X Z Y : List String) (l1 n : String)
    (h : List.Chain' R (X ++ l1 :: (Z ++ Y))) (h1 : ∀ x, R x l1 → R x n)
    (h2 : ∀ y, R n y) : List.Chain' R (X ++ n :: Y) := by
  rw [List.chain'_split] at h ⊢
  obtain ⟨ha, hb⟩ := h
  constructor
  · rw [List.chain'_append] at ha ⊢
    obtain ⟨a1, _, a3⟩ := ha
    refine ⟨a1, List.chain'_singleton _, ?_⟩
    intro x hx y hy
    simp only [List.head?_cons, Option.mem_def, Option.some.injEq] at hy
    subst hy
    exact h1 x (a3 x hx l1 (by simp))
  · have hY : List.Chain' R Y := by
      have h3 : List.Chain' R ((l1 :: Z) ++ Y) := by simpa using hb
      exact (List.chain'_append.mp h3).2.1
    cases Y with
    | nil => exact List.chain'_singleton _
    | cons y t =>
      rw [List.chain'_cons]
      exact ⟨h2 y, hY⟩

theorem linePrefix_indent (p s : String) (hp : ∀ c ∈ p.data, is_space c = true) :
    linePrefix (p ++ s) = p ++ linePrefix s := by
  unfold linePrefix
  rw [String.data_append, takeWhile_is_space_append _ _ hp]
  apply String.ext
  simp

theorem lineCmd_indent (p s : String) (hp : ∀ c ∈ p.data, is_space c = true) :
    lineCmd (p ++ s) = lineCmd s := by
  unfold lineCmd
  rw [String.data_append, dropWhile_is_space_append _ _ hp]

theorem squash_cmd_facts (c : String)
    (h : (∃ x, c = "PUSH3 S" ++ x) ∨ (∃ x, c = "PUSH2 S" ++ x) ∨ c = "DUP2" ∨ c = "OVER2") :
    c ≠ "" ∧ is_comment_or_empty_line c = false ∧ linePrefix c = "" ∧
      isNoreturnLine c = false := by
  rcases h with ⟨x, rfl⟩ | ⟨x, rfl⟩ | rfl | rfl
  · refine ⟨?_, ?_, ?_, ?_⟩
    · intro he
      have := congrArg String.data he
      simp [String.data_append] at this
    · simp [is_comment_or_empty_line, String.data_append, List.dropWhile, is_space]
    · unfold linePrefix
      apply String.ext
      simp [String.data_append, List.takeWhile, is_space]
    · unfold isNoreturnLine lineCmd
      simp [String.data_append, List.dropWhile, List.takeWhile, is_space]
  · refine ⟨?_, ?_, ?_, ?_⟩
    · intro he
      have := congrArg String.data he
      simp [String.data_append] at this
    · simp [is_comment_or_empty_line, String.data_append, List.dropWhile, is_space]
    · unfold linePrefix
      apply String.ext
      simp [String.data_append, List.takeWhile, is_space]
    · unfold isNoreturnLine lineCmd
      simp [String.data_append, List.dropWhile, List.takeWhile, is_space]
  · decide
  · decide


/-- A step of `squash_push` keeps a log free of dead code. -/
theorem squash_push_step_noDeadCode (lines_ : List String) (idx1 : Int)
    (res : Result) (b : Bool) (i' : Int) (lines' : List String)
    (hv : valid lines_ idx1 = true) (h : squash_push lines_ idx1 = some res)
    (hu : updateLines lines_ idx1 res = some (b, i', lines')) (hn : noDeadCode lines_) :
    noDeadCode lines' := by
  rcases squash_push_result lines_ idx1 res h with h0 | ⟨c1, c, hc1, hname, _, hr, hcs, hform⟩
  · rw [h0, updateLines_false] at hu
    simp only [Option.some.injEq, Prod.mk.injEq] at hu
    rw [← hu.2.2]
    exact hn
  · obtain ⟨i, rfl, hi⟩ := valid_to_nat _ _ hv
    obtain ⟨hcne, hccom, hcpre, hcnr⟩ := squash_cmd_facts c hform
    have hcmd := command_of_name lines_ _ c1 hc1 hname
    obtain ⟨last, K, pfx, hile, hlt, hK, hl', _, _, _, _, hpfx⟩ :=
      updateLines_spec lines_ i hi res hr b i' lines' hu
    obtain ⟨c1b, hc1b, hplen, hpcase⟩ := hpfx (by rw [hcs]; simp)
    have hsp : ∀ ch ∈ pfx.data, is_space ch = true := by
      rcases hpcase with rfl | ⟨t, _, c2, hc2, rfl⟩
      · exact prefix_spaces _ _ hc1b
      · exact prefix_spaces _ _ hc2
    have hraw := (parse_raw _ _ hc1b).1
    have hN : ((res.commands_.filter fun c => decide (c ≠ "")).map fun c => pfx ++ c)
        = [pfx ++ c] := by
      rw [hcs]
      simp [hcne]
    rw [hN] at hl'
    have hM : (lines_.take (last + 1)).drop i =
        lineAt lines_ (i : Int) :: (lines_.take (last + 1)).drop (i + 1) := by
      have hlt2 : i < (lines_.take (last + 1)).length := by
        simp only [List.length_take]
        omega
      rw [List.drop_eq_getElem_cons hlt2, lineAt_nat _ _ hi]
      simp
    have hold := congrArg instrLines (lines_split lines_ i last hile)
    rw [instrLines_append, instrLines_append, hM] at hold
    have hhead : instrLines (lineAt lines_ (i : Int) :: (lines_.take (last + 1)).drop (i + 1))
        = lineAt lines_ (i : Int) :: instrLines ((lines_.take (last + 1)).drop (i + 1)) := by
      simp [instrLines, hcmd]
    rw [hhead] at hold
    unfold noDeadCode at hn ⊢
    rw [hold] at hn
    have hnew : instrLines lines' = instrLines (lines_.take i) ++
        (pfx ++ c) :: instrLines (lines_.drop (last + 1)) := by
      rw [hl', instrLines_append, instrLines_append, instrLines_append, instrLines_comments K hK]
      have : instrLines [pfx ++ c] = [pfx ++ c] := by
        apply instrLines_command
        rw [is_comment_or_empty_line_indent pfx c hsp]
        exact hccom
      rw [this]
      simp
    rw [hnew]
    apply chain_replace _ _ _ _ _ (by simpa using hn)
    · intro x hx hnr
      have := hx hnr
      rw [linePrefix_indent pfx c hsp, hcpre]
      rw [← hraw] at this
      have e : (pfx ++ "").length = pfx.length := by rw [string_append_empty]
      omega
    · intro y hnr
      unfold isNoreturnLine at hnr hcnr
      rw [lineCmd_indent pfx c hsp, hcnr] at hnr
      cases hnr

/-- A property that every step of a pass keeps is kept by the pass. -/
theorem optimizeLoop_invariant (f : List String → Int → Option Result)
    (P : List String → Prop)
    (hstep : ∀ lines_ idx1 res b i' lines', valid lines_ idx1 = true →
      f lines_ idx1 = some res → updateLines lines_ idx1 res = some (b, i', lines') →
      P lines_ → P lines') :
    ∀ (fuel : Nat) (lines_ : List String) (idx1 : Int) (out : List String),
      optimizeLoop f fuel lines_ idx1 = some out → P lines_ → P out := by
  intro fuel
  induction fuel with
  | zero => intro lines_ idx1 out h; simp [optimizeLoop] at h
  | succ n ih =>
    intro lines_ idx1 out h hP
    unfold optimizeLoop at h
    by_cases hv : valid lines_ idx1 = true
    · rw [if_pos hv] at h
      cases hf : f lines_ idx1 with
      | none => rw [hf] at h; cases h
      | some res =>
        rw [hf] at h
        simp only at h
        cases hu : updateLines lines_ idx1 res with
        | none => rw [hu] at h; cases h
        | some p =>
          obtain ⟨b, i', lines'⟩ := p
          rw [hu] at h
          have hP' := hstep lines_ idx1 res b i' lines' hv hf hu hP
          cases b with
          | true => exact ih _ _ _ h hP'
          | false => exact ih _ _ _ h hP'
    · rw [if_neg hv] at h
      simp only [Option.some.injEq] at h
      rw [← h]
      exact hP

/-- The log returned by `optimize_code` has no dead code. -/
theorem optimize_code_noDeadCode (tc : TvmConst) (fuel : Nat) (lines_ out : List String)
    (h : optimize_code tc fuel lines_ = some out) : noDeadCode out := by
  unfold optimize_code at h
  cases h1 : optimize unsquash_push fuel lines_ with
  | none => rw [h1] at h; cases h
  | some l1 =>
    rw [h1, Option.some_bind] at h
    cases h2 : optimize (optimize_at tc) fuel l1 with
    | none => rw [h2] at h; cases h
    | some l2 =>
      rw [h2, Option.some_bind] at h
      cases h3 : optimize (optimize_at tc) fuel l2 with
      | none => rw [h3] at h; cases h
      | some l3 =>
        rw [h3, Option.some_bind] at h
        have hn3 := optimize_at_pass_noDeadCode tc fuel l2 l3 h3
        unfold optimize at h
        exact optimizeLoop_invariant squash_push noDeadCode
          (fun lines_ idx1 res b i' lines' hv hf hu hP =>
            squash_push_step_noDeadCode lines_ idx1 res b i' lines' hv hf hu hP)
          fuel l3 0 out h hn3

end TVMOptimizer

/-- C28: the log returned by a pass of `optimize_at`, and the log returned by
`optimize_code`, has no dead code: no `RET`, `THROWANY` or `THROW` in it is directly
followed, blank and comment lines apart, by an instruction indented at least as far as
itself. And the rule that deletes such an instruction does not apply when the next
instruction is indented less. -/
theorem C28_no_dead_code (tc : TVMOptimizer.TvmConst) :
    (∀ (fuel : Nat) (lines_ out : List String),
        TVMOptimizer.optimize (TVMOptimizer.optimize_at tc) fuel lines_ = some out →
        noDeadCode out) ∧
      (∀ (fuel : Nat) (lines_ out : List String),
        TVMOptimizer.optimize_code tc fuel lines_ = some out → noDeadCode out) ∧
      (∀ w : TVMOptimizer.Window, w.cmd2.prefix_.length < w.cmd1.prefix_.length →
        TVMOptimizer.rule426 w = some none) :=
  ⟨fun fuel lines_ out h => TVMOptimizer.optimize_at_pass_noDeadCode tc fuel lines_ out h,
    fun fuel lines_ out h => TVMOptimizer.optimize_code_noDeadCode tc fuel lines_ out h,
    fun w hw => by
      unfold TVMOptimizer.rule426
      split_ifs with h1 h2
      · omega
      · rfl
      · rfl⟩

/-- C28 at the log `RET; comment; NOW; NOW; NOW` whose second and third instruction are
indented as far as the `RET` or further, and the last one less. -/
theorem C28_no_dead_code_witness :
    TVMOptimizer.optimize_code sampleTvmConst 30 ["\tRET", "; c", "\tNOW", "\t\tNOW", "NOW"]
        = some ["; c", "\tRET", "NOW"] ∧
      noDeadCode ["; c", "\tRET", "NOW"] :=
  ⟨by decide,
    (C28_no_dead_code sampleTvmConst).2.1 30 ["\tRET", "; c", "\tNOW", "\t\tNOW", "NOW"]
      ["; c", "\tRET", "NOW"] (by decide)⟩

/-! ### Encoding and decoding of values -/

theorem StackPusherHelper.push_balance (p : StackPusherHelper) (d : Int) (cmd : String)
    (ht : 0 ≤ p.m_code.tabQty) (hs : 0 ≤ p.m_stack.m_size + d) :
    ∃ p1, p.push d cmd = some p1 ∧ p1.m_code.tabQty = p.m_code.tabQty ∧
      p1.m_stack.m_size = p.m_stack.m_size + d := by
  unfold StackPusherHelper.push
  rw [TVMStack.change_of_nonneg _ _ hs]
  unfold CodeLines.push
  split_ifs with h1 h2 h3
  · exact ⟨_, rfl, rfl, rfl⟩
  · exact ⟨_, rfl, rfl, rfl⟩
  · exact absurd ht (not_le.mpr h3)
  · exact ⟨_, rfl, rfl, rfl⟩

theorem TVMStack.change_zero (s : TVMStack) : s.change 0 = some s := by
  simp [TVMStack.change]

theorem StackPusherHelper.startContinuation_balance (p : StackPusherHelper)
    (ht : 0 ≤ p.m_code.tabQty) :
    ∃ p1, p.startContinuation 0 = some p1 ∧ p1.m_code.tabQty = p.m_code.tabQty + 1 ∧
      p1.m_stack.m_size = p.m_stack.m_size := by
  unfold StackPusherHelper.startContinuation CodeLines.startContinuation
  rw [TVMStack.change_zero, CodeLines.push_of_keep _ _ (by decide) ht]
  exact ⟨_, rfl, rfl, rfl⟩

theorem StackPusherHelper.endContinuation_balance (p : StackPusherHelper)
    (ht : 1 ≤ p.m_code.tabQty) :
    ∃ p1, p.endContinuation 0 = some p1 ∧ p1.m_code.tabQty = p.m_code.tabQty - 1 ∧
      p1.m_stack.m_size = p.m_stack.m_size := by
  unfold StackPusherHelper.endContinuation CodeLines.endContinuation
  rw [TVMStack.change_zero, CodeLines.push_of_keep _ _ (by decide) (by simpa using ht)]
  simp only [Option.some_bind]
  rw [if_neg (by simpa using ht)]
  exact ⟨_, rfl, rfl, rfl⟩

theorem StackPusherHelper.exchange_top (p : StackPusherHelper) :
    p.exchange 0 1 = p.push 0 "SWAP" := by
  simp [StackPusherHelper.exchange, exchangeLoop]

theorem StackPusherHelper.preloadOptional_balance (env : CodecEnv)
    (h1 : env.startContinuationDefault = 0) (h2 : env.endContinuationDefault = 0)
    (h3 : env.dropDefault = 1) (valueType : SolType)
    (inner : StackPusherHelper → Option StackPusherHelper)
    (hinner : ∀ q : StackPusherHelper, 0 ≤ q.m_code.tabQty → 1 ≤ q.m_stack.m_size →
      ∃ q1, inner q = some q1 ∧ q1.m_code.tabQty = q.m_code.tabQty ∧
        q1.m_stack.m_size = q.m_stack.m_size)
    (p : StackPusherHelper) (ht : 0 ≤ p.m_code.tabQty) (hs : 1 ≤ p.m_stack.m_size) :
    ∃ p1, p.preloadOptional env valueType inner = some p1 ∧
      p1.m_code.tabQty = p.m_code.tabQty ∧ p1.m_stack.m_size = p.m_stack.m_size := by
  obtain ⟨p1, e1, t1, s1⟩ := p.push_balance 1 "DUP" ht (by omega)
  obtain ⟨p2, e2, t2, s2⟩ := p1.push_balance (-1 + 1) "PLDI 1" (by omega) (by omega)
  obtain ⟨p3, e3, t3, s3⟩ := p2.push_balance (-1) "" (by omega) (by omega)
  obtain ⟨p4, e4, t4, s4⟩ := p3.startContinuation_balance (by omega)
  obtain ⟨p5, e5, t5, s5⟩ := p4.push_balance (-1 + 1) "PLDREF" (by omega) (by omega)
  obtain ⟨p6, e6, t6, s6⟩ := p5.push_balance (-1 + 1) "CTOS" (by omega) (by omega)
  obtain ⟨p7, e7, t7, s7⟩ := hinner p6 (by omega) (by omega)
  obtain ⟨p8, e8, t8, s8⟩ : ∃ p8,
      (if valueType.category = .Mapping ∨ valueType.category = .Optional then p7.tuple 1
        else some p7) = some p8 ∧ p8.m_code.tabQty = p7.m_code.tabQty ∧
        p8.m_stack.m_size = p7.m_stack.m_size := by
    split_ifs
    · obtain ⟨q, e, t, s⟩ := p7.push_balance (-1 + 1) ("TUPLE " ++ toString (1 : Int))
        (by omega) (by omega)
      exact ⟨q, by simpa [StackPusherHelper.tuple] using e, t, by omega⟩
    · exact ⟨p7, rfl, rfl, rfl⟩
  obtain ⟨p9, e9, t9, s9⟩ := p8.endContinuation_balance (by omega)
  have c9 : p9.m_stack.ensureSize p3.m_stack.m_size = some () := by
    unfold TVMStack.ensureSize; rw [if_pos (by omega)]
  obtain ⟨p10, e10, t10, s10⟩ := p9.startContinuation_balance (by omega)
  obtain ⟨p11, e11, t11, s11⟩ := p10.push_balance (-1) "DROP" (by omega) (by omega)
  have e11' : p10.drop 1 = some p11 := by simpa [StackPusherHelper.drop] using e11
  obtain ⟨p12, e12, t12, s12⟩ := p11.push_balance 1 "NULL" (by omega) (by omega)
  obtain ⟨p13, e13, t13, s13⟩ := p12.endContinuation_balance (by omega)
  have c13 : p13.m_stack.ensureSize p9.m_stack.m_size = some () := by
    unfold TVMStack.ensureSize; rw [if_pos (by omega)]
  obtain ⟨p14, e14, t14, s14⟩ := p13.push_balance 0 "IFELSE" (by omega) (by omega)
  refine ⟨p14, ?_, by omega, by omega⟩
  have e0 : p.pushS 0 = some p1 := by simpa [StackPusherHelper.pushS] using e1
  simp only [StackPusherHelper.preloadOptional, h1, h2, h3, e0, e2, e3, e4, e5, e6, e7, e8, e9,
    c9, e10, e11', e12, e13, c13, e14, Option.some_bind]


theorem StackPusherHelper.ensure_finish (q : StackPusherHelper) (saved : Int)
    (r : Option StackPusherHelper) (h : r = some q) (hs : q.m_stack.m_size = saved) :
    (r.bind fun q => (q.m_stack.ensureSize saved).map fun _ => q) = some q := by
  subst h
  simp [TVMStack.ensureSize, hs]

theorem StackPusherHelper.preloadSwitch_balance (env : CodecEnv)
    (hnum : ∀ t : SolType, t.category = .Integer ∨ t.category = .Enum ∨ t.category = .Bool ∨
      t.category = .FixedPoint ∨ t.category = .FixedBytes → env.isNumeric t = true)
    (t : SolType) (ht : specCodecType t = true) (hopt : t.category ≠ .Optional)
    (p : StackPusherHelper) (htab : 0 ≤ p.m_code.tabQty) (hs : 1 ≤ p.m_stack.m_size) :
    ∃ p1, p.preloadSwitch env t = some p1 ∧ p1.m_code.tabQty = p.m_code.tabQty ∧
      p1.m_stack.m_size = p.m_stack.m_size := by
  have one : ∀ (d : Int) (cmd : String), d = 0 → ∃ p1, p.push d cmd = some p1 ∧
      p1.m_code.tabQty = p.m_code.tabQty ∧ p1.m_stack.m_size = p.m_stack.m_size := by
    intro d cmd hd
    obtain ⟨q, e, a, b⟩ := p.push_balance d cmd htab (by omega)
    exact ⟨q, e, a, by omega⟩
  cases t <;> simp only [specCodecType, SolType.category, ne_eq, not_true_eq_false] at ht hopt <;>
    simp only [StackPusherHelper.preloadSwitch, SolType.category]
  case Integer n sg =>
    rw [if_neg (by simp [hnum (.Integer n sg) (by simp [SolType.category])])]
    exact one _ _ (by norm_num)
  case FixedPoint n f sg =>
    rw [if_neg (by simp [hnum (.FixedPoint n f sg) (by simp [SolType.category])])]
    exact one _ _ (by norm_num)
  case FixedBytes n =>
    rw [if_neg (by simp [hnum (.FixedBytes n) (by simp [SolType.category])])]
    exact one _ _ (by norm_num)
  case Bool =>
    rw [if_neg (by simp [hnum .Bool (by simp [SolType.category])])]
    exact one _ _ (by norm_num)
  case Enum n =>
    rw [if_neg (by simp [hnum (.Enum n) (by simp [SolType.category])])]
    exact one _ _ (by norm_num)
  case Array b t =>
    cases b
    · obtain ⟨p1, e1, t1, s1⟩ := p.push_balance (-1 + 2) "LDU 32" htab (by omega)
      obtain ⟨p2, e2, t2, s2⟩ := p1.push_balance (-1 + 1) "PLDDICT" (by omega) (by omega)
      obtain ⟨p3, e3, t3, s3⟩ := p2.push_balance (-2 + 1) "PAIR" (by omega) (by omega)
      exact ⟨p3, by simp only [Bool.false_eq_true, if_false, e1, e2, e3, Option.some_bind],
        by omega, by omega⟩
    · simpa using one 0 "PLDREF" rfl
  case Address =>
    obtain ⟨p1, e1, t1, s1⟩ := p.push_balance (-1 + 2) "LDMSGADDR" htab (by omega)
    obtain ⟨p2, e2, t2, s2⟩ := p1.push_balance (-1) "DROP" (by omega) (by omega)
    have e2' : p1.drop 1 = some p2 := by simpa [StackPusherHelper.drop] using e2
    exact ⟨p2, by simp only [e1, e2', Option.some_bind], by omega, by omega⟩
  case Contract =>
    obtain ⟨p1, e1, t1, s1⟩ := p.push_balance (-1 + 2) "LDMSGADDR" htab (by omega)
    obtain ⟨p2, e2, t2, s2⟩ := p1.push_balance (-1) "DROP" (by omega) (by omega)
    have e2' : p1.drop 1 = some p2 := by simpa [StackPusherHelper.drop] using e2
    exact ⟨p2, by simp only [e1, e2', Option.some_bind], by omega, by omega⟩
  case VarInteger n =>
    obtain ⟨p1, e1, t1, s1⟩ := p.push_balance 0 "LDVARUINT32" htab (by omega)
    obtain ⟨p2, e2, t2, s2⟩ := p1.push_balance 0 "DROP" (by omega) (by omega)
    exact ⟨p2, by simp only [e1, e2, Option.some_bind], by omega, by omega⟩
  all_goals first | exact one _ _ (by norm_num) | exact absurd ht (by decide)


set_option linter.unusedTactic false in
set_option linter.unreachableTactic false in
theorem specCodecType_optional (t : SolType) (ht : specCodecType t = true)
    (hopt : t.category = .Optional) : ∃ v, t = .Optional v := by
  cases t <;> first | exact ⟨_, rfl⟩ | (simp [SolType.category] at hopt <;> fail) |
    (simp [specCodecType] at ht <;> fail)

theorem StackPusherHelper.preload_balance (env : CodecEnv)
    (h1 : env.startContinuationDefault = 0) (h2 : env.endContinuationDefault = 0)
    (h3 : env.dropDefault = 1)
    (hnum : ∀ t : SolType, t.category = .Integer ∨ t.category = .Enum ∨ t.category = .Bool ∨
      t.category = .FixedPoint ∨ t.category = .FixedBytes → env.isNumeric t = true)
    (t : SolType) (ht : specCodecType t = true)
    (p : StackPusherHelper) (htab : 0 ≤ p.m_code.tabQty) (hs : 1 ≤ p.m_stack.m_size) :
    ∃ p1, p.preload env t = some p1 ∧ p1.m_code.tabQty = p.m_code.tabQty ∧
      p1.m_stack.m_size = p.m_stack.m_size := by
  generalize hn : sizeOf t = n
  induction n using Nat.strong_induction_on generalizing t p with
  | _ n ih =>
    by_cases hopt : t.category = .Optional
    · obtain ⟨v, rfl⟩ := specCodecType_optional t ht hopt
      · simp only [specCodecType] at ht
        obtain ⟨q, e, a, b⟩ := StackPusherHelper.preloadOptional_balance env h1 h2 h3 v
          (StackPusherHelper.preload env v)
          (fun q hq1 hq2 => ih (sizeOf v) (by subst hn; simp) v ht q hq1 hq2 rfl) p htab hs
        exact ⟨q, by simp only [StackPusherHelper.preload]; exact
          StackPusherHelper.ensure_finish q _ _ e b, a, b⟩
    · obtain ⟨q, e, a, b⟩ := StackPusherHelper.preloadSwitch_balance env hnum t ht hopt p htab hs
      refine ⟨q, ?_, a, b⟩
      have := StackPusherHelper.ensure_finish q _ _ e b
      cases t <;> first | exact absurd rfl hopt | (simp only [StackPusherHelper.preload]; exact this)


theorem StackPusherHelper.fastLoad_plain (env : CodecEnv)
    (hnum : ∀ t : SolType, t.category = .Integer ∨ t.category = .Enum ∨ t.category = .Bool ∨
      t.category = .FixedPoint ∨ t.category = .FixedBytes → env.isNumeric t = true)
    (t : SolType) (ht : specCodecType t = true) (hvar : t.category ≠ .VarInteger) (hopt : t.category ≠ .Optional)
    (p : StackPusherHelper) (htab : 0 ≤ p.m_code.tabQty) (hs : 1 ≤ p.m_stack.m_size) :
    ∃ p1 b, p.fastLoad env t = some (p1, b) ∧ p1.m_code.tabQty = p.m_code.tabQty ∧
      p1.m_stack.m_size = p.m_stack.m_size + 1 := by
  have one : ∀ (d : Int) (cmd : String) (b : Bool), d = 1 →
      ∃ p1 b1, (p.push d cmd).map (fun q => (q, b)) = some (p1, b1) ∧
      p1.m_code.tabQty = p.m_code.tabQty ∧ p1.m_stack.m_size = p.m_stack.m_size + 1 := by
    intro d cmd b hd
    obtain ⟨q, e, a, c⟩ := p.push_balance d cmd htab (by omega)
    exact ⟨q, b, by rw [e]; rfl, a, by omega⟩
  cases t <;> simp only [specCodecType, SolType.category, ne_eq, not_true_eq_false]
    at ht hopt hvar <;> simp only [StackPusherHelper.fastLoad, SolType.category]
  case Integer n sg =>
    rw [if_neg (by simp [hnum (.Integer n sg) (by simp [SolType.category])])]
    exact one _ _ _ (by norm_num)
  case FixedPoint n f sg =>
    rw [if_neg (by simp [hnum (.FixedPoint n f sg) (by simp [SolType.category])])]
    exact one _ _ _ (by norm_num)
  case FixedBytes n =>
    rw [if_neg (by simp [hnum (.FixedBytes n) (by simp [SolType.category])])]
    exact one _ _ _ (by norm_num)
  case Bool =>
    rw [if_neg (by simp [hnum .Bool (by simp [SolType.category])])]
    exact one _ _ _ (by norm_num)
  case Enum n =>
    rw [if_neg (by simp [hnum (.Enum n) (by simp [SolType.category])])]
    exact one _ _ _ (by norm_num)
  case Array b t =>
    cases b
    · obtain ⟨p1, e1, t1, s1⟩ := p.push_balance (-1 + 2) "LDU 32" htab (by omega)
      obtain ⟨p2, e2, t2, s2⟩ := p1.push_balance (-1 + 2) "LDDICT" (by omega) (by omega)
      obtain ⟨p3, e3, t3, s3⟩ := p2.push_balance 0 "ROTREV" (by omega) (by omega)
      obtain ⟨p4, e4, t4, s4⟩ := p3.push_balance (-2 + 1) "PAIR" (by omega) (by omega)
      exact ⟨p4, false, by simp only [Bool.false_eq_true, if_false, e1, e2, e3, e4,
        Option.some_bind, Option.map_some'], by omega, by omega⟩
    · simpa using one 1 "LDREF" true rfl
  all_goals first | exact one _ _ _ (by norm_num) | exact absurd ht (by decide)

theorem StackPusherHelper.fastLoad_balance (env : CodecEnv)
    (h1 : env.startContinuationDefault = 0) (h2 : env.endContinuationDefault = 0)
    (h3 : env.dropDefault = 1)
    (hnum : ∀ t : SolType, t.category = .Integer ∨ t.category = .Enum ∨ t.category = .Bool ∨
      t.category = .FixedPoint ∨ t.category = .FixedBytes → env.isNumeric t = true)
    (t : SolType) (ht : specCodecType t = true) (hvar : t.category ≠ .VarInteger)
    (p : StackPusherHelper) (htab : 0 ≤ p.m_code.tabQty) (hs : 1 ≤ p.m_stack.m_size) :
    ∃ p1 b, p.fastLoad env t = some (p1, b) ∧ p1.m_code.tabQty = p.m_code.tabQty ∧
      p1.m_stack.m_size = p.m_stack.m_size + 1 := by
  by_cases hopt : t.category = .Optional
  · obtain ⟨v, rfl⟩ := specCodecType_optional t ht hopt
    simp only [specCodecType] at ht
    obtain ⟨p1, e1, t1, s1⟩ := p.push_balance 1 "LDOPTREF" htab (by omega)
    obtain ⟨p2, e2, t2, s2⟩ := p1.push_balance 0 "SWAP" (by omega) (by omega)
    rw [← StackPusherHelper.exchange_top] at e2
    obtain ⟨p3, e3, t3, s3⟩ := p2.push_balance 1 "DUP" (by omega) (by omega)
    have e3' : p2.pushS 0 = some p3 := by simpa [StackPusherHelper.pushS] using e3
    obtain ⟨p4, e4, t4, s4⟩ := p3.push_balance (-1 + 1) "ISNULL" (by omega) (by omega)
    obtain ⟨p5, e5, t5, s5⟩ := p4.push_balance (-1) "" (by omega) (by omega)
    obtain ⟨p6, e6, t6, s6⟩ := p5.startContinuation_balance (by omega)
    obtain ⟨p7, e7, t7, s7⟩ := p6.push_balance 0 "CTOS" (by omega) (by omega)
    obtain ⟨p8, e8, t8, s8⟩ := StackPusherHelper.preload_balance env h1 h2 h3 hnum v ht p7
      (by omega) (by omega)
    obtain ⟨p9, e9, t9, s9⟩ : ∃ p9,
        (if v.category = .Mapping ∨ v.category = .Optional then p8.tuple 1
          else some p8) = some p9 ∧ p9.m_code.tabQty = p8.m_code.tabQty ∧
          p9.m_stack.m_size = p8.m_stack.m_size := by
      split_ifs
      · obtain ⟨q, e, t, s⟩ := p8.push_balance (-1 + 1) ("TUPLE " ++ toString (1 : Int))
          (by omega) (by omega)
        exact ⟨q, by simpa [StackPusherHelper.tuple] using e, t, by omega⟩
      · exact ⟨p8, rfl, rfl, rfl⟩
    obtain ⟨p10, e10, t10, s10⟩ := p9.endContinuation_balance (by omega)
    obtain ⟨p11, e11, t11, s11⟩ := p10.push_balance 0 "IFNOT" (by omega) (by omega)
    refine ⟨p11, false, ?_, by omega, by omega⟩
    simp only [StackPusherHelper.fastLoad, hopt, h1, h2, e1, e2, e3', e4, e5, e6,
      e7, e8, e9, e10, e11, Option.some_bind]
    have hfin : p.m_stack.m_size + 1 = p11.m_stack.m_size := by omega
    simp only [hfin, not_true_eq_false, if_false]
  · exact StackPusherHelper.fastLoad_plain env hnum t ht hvar hopt p htab hs

theorem StackPusherHelper.load_balance (env : CodecEnv)
    (h1 : env.startContinuationDefault = 0) (h2 : env.endContinuationDefault = 0)
    (h3 : env.dropDefault = 1)
    (hnum : ∀ t : SolType, t.category = .Integer ∨ t.category = .Enum ∨ t.category = .Bool ∨
      t.category = .FixedPoint ∨ t.category = .FixedBytes → env.isNumeric t = true)
    (t : SolType) (ht : specCodecType t = true) (hvar : t.category ≠ .VarInteger)
    (reverseOrder : Bool)
    (p : StackPusherHelper) (htab : 0 ≤ p.m_code.tabQty) (hs : 1 ≤ p.m_stack.m_size) :
    ∃ p1, p.load env t reverseOrder = some p1 ∧ p1.m_code.tabQty = p.m_code.tabQty ∧
      p1.m_stack.m_size = p.m_stack.m_size + 1 := by
  obtain ⟨q, b, e, a, c⟩ := StackPusherHelper.fastLoad_balance env h1 h2 h3 hnum t ht hvar p
    htab hs
  unfold StackPusherHelper.load
  rw [e, Option.some_bind]
  dsimp only
  split_ifs
  · obtain ⟨q1, e1, a1, c1⟩ := q.push_balance 0 "SWAP" (by omega) (by omega)
    rw [← StackPusherHelper.exchange_top] at e1
    exact ⟨q1, e1, by omega, by omega⟩
  · exact ⟨q, rfl, a, c⟩


theorem specCodecType_not_struct (t : SolType) (ht : specCodecType t = true) :
    t.category ≠ .Struct := by
  cases t <;> first | (simp [SolType.category]; done) | (simp [specCodecType] at ht)

theorem StackPusherHelper.storeSwitch_balance (env : CodecEnv)
    (t : SolType) (ht : specCodecType t = true) (hopt : t.category ≠ .Optional)
    (reverse : Bool)
    (p : StackPusherHelper) (htab : 0 ≤ p.m_code.tabQty) (hs : 2 ≤ p.m_stack.m_size) :
    ∃ p1, p.storeSwitch env t reverse = some p1 ∧ p1.m_code.tabQty = p.m_code.tabQty ∧
      p1.m_stack.m_size = p.m_stack.m_size - 1 := by
  have one : ∀ (cmd : String), ∃ p1, p.push (-1) cmd = some p1 ∧
      p1.m_code.tabQty = p.m_code.tabQty ∧ p1.m_stack.m_size = p.m_stack.m_size - 1 := by
    intro cmd
    obtain ⟨q, e, a, b⟩ := p.push_balance (-1) cmd htab (by omega)
    exact ⟨q, e, a, by omega⟩
  have pre : ∀ (c : Prop) [Decidable c] (f : StackPusherHelper → Option StackPusherHelper),
      (f = fun q => q.push 0 "SWAP") ∨ (f = fun q => q.exchange 0 1) →
      ∃ p1, (if c then f p else some p) = some p1 ∧
      p1.m_code.tabQty = p.m_code.tabQty ∧ p1.m_stack.m_size = p.m_stack.m_size := by
    intro c _ f hf
    obtain ⟨q, e, a, b⟩ := p.push_balance 0 "SWAP" htab (by omega)
    by_cases hc : c
    · rw [if_pos hc]
      rcases hf with rfl | rfl
      · exact ⟨q, e, a, by omega⟩
      · exact ⟨q, by rw [← e]; exact StackPusherHelper.exchange_top p, a, by omega⟩
    · rw [if_neg hc]; exact ⟨p, rfl, rfl, rfl⟩
  cases t <;> simp only [specCodecType, SolType.category, ne_eq, not_true_eq_false] at ht hopt <;>
    simp only [StackPusherHelper.storeSwitch, SolType.category]
  case Array b t =>
    cases b
    · obtain ⟨p1, e1, t1, s1⟩ := pre (¬ reverse = true) (fun q => q.push 0 "SWAP") (Or.inl rfl)
      obtain ⟨p2, e2, t2, s2⟩ := p1.push_balance (-1 + 2) "UNPAIR" (by omega) (by omega)
      obtain ⟨p3, e3, t3, s3⟩ := p2.push_balance 0 "ROTREV" (by omega) (by omega)
      obtain ⟨p4, e4, t4, s4⟩ := p3.push_balance (-1) "STUR 32" (by omega) (by omega)
      obtain ⟨p5, e5, t5, s5⟩ := p4.push_balance (-1) "STDICT" (by omega) (by omega)
      exact ⟨p5, by simp only [Bool.false_eq_true, if_false, e1, e2, e3, e4, e5,
        Option.some_bind], by omega, by omega⟩
    · simpa using one _
  case Mapping k v =>
    obtain ⟨p1, e1, t1, s1⟩ := pre (reverse = true) (fun q => q.push 0 "SWAP") (Or.inl rfl)
    obtain ⟨p2, e2, t2, s2⟩ := p1.push_balance (-1) "STDICT" (by omega) (by omega)
    exact ⟨p2, by simp only [e1, e2, Option.some_bind], by omega, by omega⟩
  case VarInteger n =>
    obtain ⟨p1, e1, t1, s1⟩ := pre (¬ reverse = true) (fun q => q.exchange 0 1) (Or.inr rfl)
    obtain ⟨p2, e2, t2, s2⟩ := p1.push_balance (-1) "STVARUINT32" (by omega) (by omega)
    exact ⟨p2, by simp only [e1, e2, Option.some_bind], by omega, by omega⟩
  all_goals first | exact one _ | exact absurd ht (by decide)

theorem StackPusherHelper.storeOptional_balance (env : CodecEnv)
    (h1 : env.startContinuationDefault = 0) (h2 : env.endContinuationDefault = 0)
    (valueType : SolType) (hv : valueType.category ≠ .Struct) (reverse : Bool)
    (inner : StackPusherHelper → Option StackPusherHelper)
    (hinner : ∀ q : StackPusherHelper, 0 ≤ q.m_code.tabQty → 2 ≤ q.m_stack.m_size →
      ∃ q1, inner q = some q1 ∧ q1.m_code.tabQty = q.m_code.tabQty ∧
        q1.m_stack.m_size = q.m_stack.m_size - 1)
    (p : StackPusherHelper) (ht : 0 ≤ p.m_code.tabQty) (hs : 2 ≤ p.m_stack.m_size) :
    ∃ p1, p.storeOptional env valueType reverse inner = some p1 ∧
      p1.m_code.tabQty = p.m_code.tabQty ∧ p1.m_stack.m_size = p.m_stack.m_size - 1 := by
  obtain ⟨p1, e1, t1, s1⟩ : ∃ p1, (if ¬ reverse = true then p.exchange 0 1 else some p) = some p1 ∧
      p1.m_code.tabQty = p.m_code.tabQty ∧ p1.m_stack.m_size = p.m_stack.m_size := by
    cases reverse
    · obtain ⟨q, e, a, b⟩ := p.push_balance 0 "SWAP" ht (by omega)
      exact ⟨q, by rw [← e]; simpa using StackPusherHelper.exchange_top p, a, by omega⟩
    · exact ⟨p, by simp, rfl, rfl⟩
  obtain ⟨p2, e2, t2, s2⟩ := p1.push_balance 1 "DUP" (by omega) (by omega)
  have e2' : p1.pushS 0 = some p2 := by simpa [StackPusherHelper.pushS] using e2
  obtain ⟨p3, e3, t3, s3⟩ := p2.push_balance (-1 + 1) "ISNULL" (by omega) (by omega)
  obtain ⟨p4, e4, t4, s4⟩ := p3.push_balance (-1 + 1) "NOT" (by omega) (by omega)
  obtain ⟨p5, e5, t5, s5⟩ := p4.push_balance (-1) "" (by omega) (by omega)
  have c5 : p5.m_stack.ensureSize p.m_stack.m_size = some () := by
    unfold TVMStack.ensureSize; rw [if_pos (by omega)]
  -- the continuation for a present value
  obtain ⟨p6, e6, t6, s6⟩ := p5.startContinuation_balance (by omega)
  obtain ⟨p7, e7, t7, s7⟩ : ∃ p7,
      (if valueType.category = .Optional ∨ valueType.category = .Mapping then p6.untuple 1
        else some p6) = some p7 ∧ p7.m_code.tabQty = p6.m_code.tabQty ∧
        p7.m_stack.m_size = p6.m_stack.m_size := by
    split_ifs
    · obtain ⟨q, e, t, s⟩ := p6.push_balance (-1 + 1) ("UNTUPLE " ++ toString (1 : Int))
        (by omega) (by omega)
      exact ⟨q, by simpa [StackPusherHelper.untuple] using e, t, by omega⟩
    · exact ⟨p6, rfl, rfl, rfl⟩
  obtain ⟨p8, e8, t8, s8⟩ := p7.push_balance 1 "NEWC" (by omega) (by omega)
  obtain ⟨p9, e9, t9, s9⟩ := hinner p8 (by omega) (by omega)
  obtain ⟨p10, e10, t10, s10⟩ := p9.push_balance 0 "SWAP" (by omega) (by omega)
  rw [← StackPusherHelper.exchange_top] at e10
  obtain ⟨p11, e11, t11, s11⟩ := p10.push_balance 0 "STSLICECONST 1" (by omega) (by omega)
  have e11' : p10.stones 1 = some p11 := by simpa [StackPusherHelper.stones] using e11
  obtain ⟨p12, e12, t12, s12⟩ := p11.push_balance (-1) "STBREF" (by omega) (by omega)
  obtain ⟨p13, e13, t13, s13⟩ := p12.endContinuation_balance (by omega)
  have v13 : p5.storeOptionalValue env valueType inner = some p13 := by
    simp only [StackPusherHelper.storeOptionalValue, h1, h2, e6, e7, if_neg hv, e8, e9, e10,
      e11', e12, e13, Option.some_bind]
  obtain ⟨p14, e14, t14, s14⟩ := p13.push_balance 1 "" (by omega) (by omega)
  have c14 : p14.m_stack.ensureSize p.m_stack.m_size = some () := by
    unfold TVMStack.ensureSize; rw [if_pos (by omega)]
  -- the continuation for an absent value
  obtain ⟨p15, e15, t15, s15⟩ := p14.startContinuation_balance (by omega)
  obtain ⟨p16, e16, t16, s16⟩ := p15.push_balance (-1) "DROP" (by omega) (by omega)
  have e16' : p15.drop 1 = some p16 := by simpa [StackPusherHelper.drop] using e16
  obtain ⟨p17, e17, t17, s17⟩ := p16.push_balance 0 "STSLICECONST 0" (by omega) (by omega)
  have e17' : p16.stzeroes 1 = some p17 := by simpa [StackPusherHelper.stzeroes] using e17
  obtain ⟨p18, e18, t18, s18⟩ := p17.endContinuation_balance (by omega)
  have v18 : p14.storeOptionalNull env = some p18 := by
    simp only [StackPusherHelper.storeOptionalNull, h1, h2, e15, e16', e17', e18,
      Option.some_bind]
  obtain ⟨p19, e19, t19, s19⟩ := p18.push_balance 1 "" (by omega) (by omega)
  obtain ⟨p20, e20, t20, s20⟩ := p19.push_balance 0 "IFELSE" (by omega) (by omega)
  obtain ⟨p21, e21, t21, s21⟩ := p20.push_balance (-1) "" (by omega) (by omega)
  refine ⟨p21, ?_, by omega, by omega⟩
  simp only [StackPusherHelper.storeOptional, e1, e2', e3, e4, e5, c5, v13, e14, c14, v18, e19,
    e20, e21, Option.some_bind]

theorem StackPusherHelper.store_balance (env : CodecEnv)
    (h1 : env.startContinuationDefault = 0) (h2 : env.endContinuationDefault = 0)
    (t : SolType) (ht : specCodecType t = true) (reverse : Bool)
    (p : StackPusherHelper) (htab : 0 ≤ p.m_code.tabQty) (hs : 2 ≤ p.m_stack.m_size) :
    ∃ p1, p.store env t reverse = some p1 ∧ p1.m_code.tabQty = p.m_code.tabQty ∧
      p1.m_stack.m_size = p.m_stack.m_size - 1 := by
  generalize hn : sizeOf t = n
  induction n using Nat.strong_induction_on generalizing t p reverse with
  | _ n ih =>
    by_cases hopt : t.category = .Optional
    · obtain ⟨v, rfl⟩ := specCodecType_optional t ht hopt
      simp only [specCodecType] at ht
      obtain ⟨q, e, a, b⟩ := StackPusherHelper.storeOptional_balance env h1 h2 v
        (specCodecType_not_struct v ht) reverse (StackPusherHelper.store env v false)
        (fun q hq1 hq2 => ih (sizeOf v) (by subst hn; simp) v ht false q hq1 hq2 rfl) p htab hs
      exact ⟨q, by simp only [StackPusherHelper.store]; exact
        StackPusherHelper.ensure_finish q _ _ e b, a, b⟩
    · obtain ⟨q, e, a, b⟩ := StackPusherHelper.storeSwitch_balance env t ht hopt reverse p
        htab hs
      refine ⟨q, ?_, a, b⟩
      have := StackPusherHelper.ensure_finish q _ _ e b
      cases t <;> first | exact absurd rfl hopt | (simp [specCodecType] at ht; done) |
        (simp only [StackPusherHelper.store]; exact this)


/-- C14: with the default arguments `startContinuation(0)`, `endContinuation(0)`, `drop(1)`
and `TypeInfo` reporting the integer-like categories as numeric, on an emitter of nesting
depth at least 0 and for every listed value type: `preload` on a stack of at least one slot
completes with the model stack size unchanged; `store` on a stack of at least two slots
completes with it decreased by exactly 1, for both values of `reverse`; and `load` on a stack
of at least one slot completes with it increased by exactly 1, for both values of
`reverseOrder` and every listed type that `load` accepts (all but a variable-length integer
itself). A failed assertion is the result `none`, so none fails. -/
theorem C14_codec_balance (env : CodecEnv)
    (h1 : env.startContinuationDefault = 0) (h2 : env.endContinuationDefault = 0)
    (h3 : env.dropDefault = 1)
    (hnum : ∀ t : SolType, t.category = .Integer ∨ t.category = .Enum ∨ t.category = .Bool ∨
      t.category = .FixedPoint ∨ t.category = .FixedBytes → env.isNumeric t = true)
    (t : SolType) (ht : specCodecType t = true)
    (p : StackPusherHelper) (htab : 0 ≤ p.m_code.tabQty) :
    (1 ≤ p.m_stack.m_size →
      ∃ p1, p.preload env t = some p1 ∧ p1.m_stack.m_size = p.m_stack.m_size) ∧
    (2 ≤ p.m_stack.m_size → ∀ reverse : Bool,
      ∃ p1, p.store env t reverse = some p1 ∧ p1.m_stack.m_size = p.m_stack.m_size - 1) ∧
    (1 ≤ p.m_stack.m_size → t.category ≠ .VarInteger → ∀ reverseOrder : Bool,
      ∃ p1, p.load env t reverseOrder = some p1 ∧
        p1.m_stack.m_size = p.m_stack.m_size + 1) := by
  refine ⟨fun hs => ?_, fun hs reverse => ?_, fun hs hvar reverseOrder => ?_⟩
  · obtain ⟨q, e, _, b⟩ := StackPusherHelper.preload_balance env h1 h2 h3 hnum t ht p htab hs
    exact ⟨q, e, b⟩
  · obtain ⟨q, e, _, b⟩ := StackPusherHelper.store_balance env h1 h2 t ht reverse p htab hs
    exact ⟨q, e, b⟩
  · obtain ⟨q, e, _, b⟩ := StackPusherHelper.load_balance env h1 h2 h3 hnum t ht hvar
      reverseOrder p htab hs
    exact ⟨q, e, b⟩

/-- C14 at the type `optional(optional(int8))` on a stack of two slots. -/
theorem C14_codec_balance_witness :
    (∃ p1, (StackPusherHelper.mk ⟨[], 0⟩ ⟨2, []⟩).preload exampleCodecEnv
        (.Optional (.Optional (.Integer 8 true))) = some p1 ∧ p1.m_stack.m_size = 2) ∧
    (∀ reverse : Bool, ∃ p1, (StackPusherHelper.mk ⟨[], 0⟩ ⟨2, []⟩).store exampleCodecEnv
        (.Optional (.Optional (.Integer 8 true))) reverse = some p1 ∧
        p1.m_stack.m_size = 2 - 1) ∧
    (∀ reverseOrder : Bool, ∃ p1, (StackPusherHelper.mk ⟨[], 0⟩ ⟨2, []⟩).load exampleCodecEnv
        (.Optional (.Optional (.Integer 8 true))) reverseOrder = some p1 ∧
        p1.m_stack.m_size = 2 + 1) :=
  have h := C14_codec_balance exampleCodecEnv rfl rfl rfl (fun _ _ => rfl)
    (.Optional (.Optional (.Integer 8 true))) rfl ⟨⟨[], 0⟩, ⟨2, []⟩⟩ (by decide)
  ⟨h.1 (by decide), h.2.1 (by decide), h.2.2 (by decide) (by decide)⟩


/-! ### The store of a struct -/

theorem isLoggedCommand_of_length (cmd : String) (hlen : 2 ≤ cmd.length) :
    isLoggedCommand cmd := by
  refine ⟨?_, ?_⟩
  · rintro (h | h) <;> (rw [h] at hlen; revert hlen; decide)
  · intro h; rw [h] at hlen; revert hlen; decide

theorem StackPusherHelper.push_emits (p : StackPusherHelper) (d : Int) (cmd : String)
    (hc : isLoggedCommand cmd) (ht : 0 ≤ p.m_code.tabQty) (hs : 0 ≤ p.m_stack.m_size + d) :
    ∃ p1, p.push d cmd = some p1 ∧ p1.m_code.tabQty = p.m_code.tabQty ∧
      p1.m_stack.m_size = p.m_stack.m_size + d ∧
      p1.m_code.lines = p.m_code.lines ++ [tabs p.m_code.tabQty ++ cmd] := by
  unfold StackPusherHelper.push
  rw [CodeLines.push_of_keep _ _ hc.1 ht, Option.some_bind, TVMStack.change_of_nonneg _ _ hs]
  exact ⟨_, rfl, rfl, rfl, by simp [loggedLine, hc.2]⟩

theorem command_length (a b : String) (ha : 2 ≤ a.length) : 2 ≤ (a ++ b).length := by
  rw [String.length_append]; omega

theorem StackPusherHelper.untuple_emits (p : StackPusherHelper) (n : Int) (h0 : 0 ≤ n)
    (hn : n ≤ 255) (ht : 0 ≤ p.m_code.tabQty) (hs : 1 ≤ p.m_stack.m_size) :
    ∃ p1, p.untuple n = some p1 ∧ p1.m_code.tabQty = p.m_code.tabQty ∧
      p1.m_stack.m_size = p.m_stack.m_size - 1 + n ∧
      p1.m_code.lines = p.m_code.lines ++
        (specUntuple n).map (fun c => tabs p.m_code.tabQty ++ c) := by
  unfold StackPusherHelper.untuple specUntuple
  rw [if_neg (by omega)]
  by_cases h15 : n ≤ 15
  · rw [if_pos h15, if_pos h15]
    obtain ⟨q, e, a, b, c⟩ := p.push_emits (-1 + n) ("UNTUPLE " ++ toString n)
      (isLoggedCommand_of_length _ (command_length _ _ (by decide))) ht (by omega)
    exact ⟨q, e, a, by omega, by simpa using c⟩
  · rw [if_neg h15, if_neg h15, if_neg (by omega)]
    obtain ⟨q1, e1, a1, b1, c1⟩ := p.push_emits 1 ("PUSHINT " ++ toString n)
      (isLoggedCommand_of_length _ (command_length _ _ (by decide))) ht (by omega)
    obtain ⟨q2, e2, a2, b2, c2⟩ := q1.push_emits (-2 + n) "UNTUPLEVAR"
      (isLoggedCommand_of_length _ (by decide)) (by omega) (by omega)
    refine ⟨q2, ?_, by omega, by omega, ?_⟩
    · simp only [StackPusherHelper.pushInt, e1, Option.some_bind, e2]
    · rw [c2, c1, a1]; simp

theorem StackPusherHelper.reorder_emits (p : StackPusherHelper) (n : Int) (h2 : 2 ≤ n)
    (ht : 0 ≤ p.m_code.tabQty) (hs : 0 ≤ p.m_stack.m_size) :
    ∃ p1, (p.reverse n 0).bind (fun q => q.blockSwap 1 n) = some p1 ∧
      p1.m_code.tabQty = p.m_code.tabQty ∧ p1.m_stack.m_size = p.m_stack.m_size ∧
      p1.m_code.lines = p.m_code.lines ++
        (specReorder n).map (fun c => tabs p.m_code.tabQty ++ c) := by
  -- the reversal
  obtain ⟨q, e, a, b, c⟩ : ∃ q, p.reverse n 0 = some q ∧ q.m_code.tabQty = p.m_code.tabQty ∧
      q.m_stack.m_size = p.m_stack.m_size ∧
      q.m_code.lines = p.m_code.lines ++
        (if n = 2 then ["SWAP"]
          else if n = 3 then ["XCHG s2"]
          else if n ≤ 17 then ["REVERSE " ++ toString n ++ ", " ++ toString (0 : Int)]
          else ["PUSHINT " ++ toString n, "PUSHINT " ++ toString (0 : Int), "REVX"]).map
          (fun c => tabs p.m_code.tabQty ++ c) := by
    unfold StackPusherHelper.reverse
    rw [if_neg (by omega), if_neg (by omega)]
    by_cases e2 : n = 2
    · subst e2
      obtain ⟨q, e, a, b, c⟩ := p.push_emits 0 "SWAP" (isLoggedCommand_of_length _ (by decide))
        ht (by omega)
      exact ⟨q, by simpa using e, a, by omega, by simpa using c⟩
    by_cases e3 : n = 3
    · subst e3
      obtain ⟨q, e, a, b, c⟩ := p.push_emits 0 "XCHG s2"
        (isLoggedCommand_of_length _ (by decide)) ht (by omega)
      exact ⟨q, by simpa using e, a, by omega, by simpa using c⟩
    by_cases e17 : n ≤ 17
    · obtain ⟨q, e, a, b, c⟩ := p.push_emits 0
        ("REVERSE " ++ toString n ++ ", " ++ toString (0 : Int))
        (isLoggedCommand_of_length _ (by
          rw [String.append_assoc, String.append_assoc]
          exact command_length _ _ (by decide))) ht (by omega)
      refine ⟨q, ?_, a, by omega, ?_⟩
      · rw [if_neg (by omega), if_neg (by omega), if_pos (by omega)]; exact e
      · rw [c, if_neg e2, if_neg e3, if_pos e17]; simp
    · obtain ⟨q1, e1, a1, b1, c1⟩ := p.push_emits 1 ("PUSHINT " ++ toString n)
        (isLoggedCommand_of_length _ (command_length _ _ (by decide))) ht (by omega)
      obtain ⟨q2, e2', a2, b2, c2⟩ := q1.push_emits 1 ("PUSHINT " ++ toString (0 : Int))
        (isLoggedCommand_of_length _ (command_length _ _ (by decide))) (by omega) (by omega)
      obtain ⟨q3, e3', a3, b3, c3⟩ := q2.push_emits (-2) "REVX"
        (isLoggedCommand_of_length _ (by decide)) (by omega) (by omega)
      refine ⟨q3, ?_, by omega, by omega, ?_⟩
      · rw [if_neg (by omega), if_neg (by omega), if_neg (by omega)]
        simp only [StackPusherHelper.pushInt, e1, Option.some_bind, e2', e3']
      · rw [c3, c2, c1, a2, a1, if_neg e2, if_neg e3, if_neg e17]; simp
  -- the block swap
  obtain ⟨q', e', a', b', c'⟩ : ∃ q', q.blockSwap 1 n = some q' ∧
      q'.m_code.tabQty = q.m_code.tabQty ∧ q'.m_stack.m_size = q.m_stack.m_size ∧
      q'.m_code.lines = q.m_code.lines ++
        (if n = 2 then ["ROT"]
          else if n ≤ 16 then ["BLKSWAP " ++ toString (1 : Int) ++ ", " ++ toString n]
          else ["PUSHINT " ++ toString (1 : Int), "PUSHINT " ++ toString n, "BLKSWX"]).map
          (fun c => tabs q.m_code.tabQty ++ c) := by
    unfold StackPusherHelper.blockSwap
    rw [if_neg (by omega), if_neg (by omega), if_neg (by omega), if_neg (by omega)]
    by_cases e2 : n = 2
    · subst e2
      obtain ⟨q', e', a', b', c'⟩ := q.push_emits 0 "ROT"
        (isLoggedCommand_of_length _ (by decide)) (by omega) (by omega)
      exact ⟨q', by simpa using e', a', by omega, by simpa using c'⟩
    by_cases e16 : n ≤ 16
    · obtain ⟨q', e', a', b', c'⟩ := q.push_emits 0
        ("BLKSWAP " ++ toString (1 : Int) ++ ", " ++ toString n)
        (isLoggedCommand_of_length _ (by
          rw [String.append_assoc, String.append_assoc]
          exact command_length _ _ (by decide))) (by omega) (by omega)
      refine ⟨q', ?_, a', by omega, ?_⟩
      · rw [if_neg (by omega), if_neg (by omega), if_neg (by omega), if_pos (by omega)]
        exact e'
      · rw [c', if_neg e2, if_pos e16]; simp
    · obtain ⟨q1, e1, a1, b1, c1⟩ := q.push_emits 1 ("PUSHINT " ++ toString (1 : Int))
        (isLoggedCommand_of_length _ (command_length _ _ (by decide))) (by omega) (by omega)
      obtain ⟨q2, e2', a2, b2, c2⟩ := q1.push_emits 1 ("PUSHINT " ++ toString n)
        (isLoggedCommand_of_length _ (command_length _ _ (by decide))) (by omega) (by omega)
      obtain ⟨q3, e3', a3, b3, c3⟩ := q2.push_emits (-2) "BLKSWX"
        (isLoggedCommand_of_length _ (by decide)) (by omega) (by omega)
      refine ⟨q3, ?_, by omega, by omega, ?_⟩
      · rw [if_neg (by omega), if_neg (by omega), if_neg (by omega), if_neg (by omega)]
        simp only [StackPusherHelper.pushInt, e1, Option.some_bind, e2', e3']
      · rw [c3, c2, c1, a2, a1, if_neg e2, if_neg e16]; simp
  refine ⟨q', by rw [e, Option.some_bind, e'], by omega, by omega, ?_⟩
  rw [c', c, a]
  unfold specReorder
  simp only [List.map_append, List.append_assoc]


theorem SolTypeList.size_nonneg : ∀ ms : SolTypeList, 0 ≤ ms.size
  | .nil => by simp [SolTypeList.size]
  | .cons _ rest => by
    have := SolTypeList.size_nonneg rest
    simp only [SolTypeList.size]; omega

theorem SolTypeList.size_toList : ∀ ms : SolTypeList, ms.size = ms.toList.length
  | .nil => by simp [SolTypeList.size, SolTypeList.toList]
  | .cons _ rest => by
    have := SolTypeList.size_toList rest
    simp only [SolTypeList.size, SolTypeList.toList, List.length_cons]; omega

theorem StackPusherHelper.store_integer (env : CodecEnv) (numBits : Nat) (isSigned : Bool)
    (hc : isLoggedCommand (env.storeIntegralOrAddress (.Integer numBits isSigned) false))
    (p : StackPusherHelper) (ht : 0 ≤ p.m_code.tabQty) (hs : 1 ≤ p.m_stack.m_size) :
    ∃ p1, p.store env (.Integer numBits isSigned) false = some p1 ∧
      p1.m_code.tabQty = p.m_code.tabQty ∧ p1.m_stack.m_size = p.m_stack.m_size - 1 ∧
      p1.m_code.lines = p.m_code.lines ++
        [tabs p.m_code.tabQty ++ env.storeIntegralOrAddress (.Integer numBits isSigned) false]
    := by
  obtain ⟨q, e, a, b, c⟩ := p.push_emits (-1) _ hc ht (by omega)
  refine ⟨q, ?_, a, by omega, c⟩
  simp only [StackPusherHelper.store, StackPusherHelper.storeSwitch, SolType.category]
  exact StackPusherHelper.ensure_finish q _ _ e (by omega)

theorem StackPusherHelper.storeMembers_emits (env : CodecEnv) :
    ∀ (ms : SolTypeList), ms.allIntegers = true →
      (∀ m ∈ ms.toList, isLoggedCommand (env.storeIntegralOrAddress m false)) →
      ∀ (p : StackPusherHelper), 0 ≤ p.m_code.tabQty → ms.size ≤ p.m_stack.m_size →
      ∃ p1, StackPusherHelper.storeMembers env ms p = some p1 ∧
        p1.m_code.tabQty = p.m_code.tabQty ∧
        p1.m_stack.m_size = p.m_stack.m_size - ms.size ∧
        p1.m_code.lines = p.m_code.lines ++
          ms.toList.map (fun m => tabs p.m_code.tabQty ++ env.storeIntegralOrAddress m false)
  | .nil, _, _, p, _, _ => ⟨p, by simp [StackPusherHelper.storeMembers], rfl,
      by simp [SolTypeList.size], by simp [SolTypeList.toList]⟩
  | .cons m rest, hall, hcmd, p, ht, hs => by
    have hr := SolTypeList.size_nonneg rest
    simp only [SolTypeList.size] at hs
    cases m <;> simp only [SolTypeList.allIntegers] at hall <;>
      first | exact absurd hall (by decide) | skip
    case Integer nb sg =>
      obtain ⟨q, e, a, b, c⟩ := StackPusherHelper.store_integer env nb sg
        (hcmd _ (by simp [SolTypeList.toList])) p ht (by omega)
      obtain ⟨q1, e1, a1, b1, c1⟩ := StackPusherHelper.storeMembers_emits env rest hall
        (fun m hm => hcmd m (by simp [SolTypeList.toList, hm])) q (by omega) (by omega)
      refine ⟨q1, ?_, by omega, ?_, ?_⟩
      · simp only [StackPusherHelper.storeMembers, e, Option.some_bind, e1]
      · simp only [SolTypeList.size]; omega
      · rw [c1, c, a]; simp [SolTypeList.toList]

/-- C26 (amended): for a struct of `n` members with `2 ≤ n ≤ 255`, all of fixed-width integer
type and each with a store instruction that is logged as a line, on an emitter of nesting
depth at least 0 with the value and the builder on the model stack, and for both values of
`reverse`: `store` completes, leaves the model stack size decreased by exactly 1 and
appends, in this order, a `SWAP` when `reverse` is false, the unpacking of the tuple
(`UNTUPLE n` when `n ≤ 15`, otherwise `PUSHINT n` and `UNTUPLEVAR`), the reordering, and
exactly one store instruction per member in declaration order. -/
theorem C26_store_struct (env : CodecEnv) (members : SolTypeList) (reverse : Bool)
    (hall : members.allIntegers = true) (h2 : 2 ≤ members.size) (h255 : members.size ≤ 255)
    (hcmd : ∀ m ∈ members.toList, isLoggedCommand (env.storeIntegralOrAddress m false))
    (p : StackPusherHelper) (ht : 0 ≤ p.m_code.tabQty) (hs : 2 ≤ p.m_stack.m_size) :
    ∃ p1, p.store env (.Struct members) reverse = some p1 ∧
      p1.m_stack.m_size = p.m_stack.m_size - 1 ∧
      p1.m_code.lines = p.m_code.lines ++
        ((if reverse then [] else ["SWAP"]) ++ specUntuple members.size ++
          specReorder members.size ++
          members.toList.map (fun m => env.storeIntegralOrAddress m false)).map
          (fun c => tabs p.m_code.tabQty ++ c) ∧
      (members.toList.map (fun m => env.storeIntegralOrAddress m false)).length
        = members.size := by
  obtain ⟨p1, e1, a1, b1, c1⟩ : ∃ p1,
      (if ¬ reverse = true then p.push 0 "SWAP" else some p) = some p1 ∧
      p1.m_code.tabQty = p.m_code.tabQty ∧ p1.m_stack.m_size = p.m_stack.m_size ∧
      p1.m_code.lines = p.m_code.lines ++
        (if reverse = true then [] else ["SWAP"]).map (fun c => tabs p.m_code.tabQty ++ c) := by
    cases reverse
    · obtain ⟨q, e, a, b, c⟩ := p.push_emits 0 "SWAP"
        (isLoggedCommand_of_length _ (by decide)) ht (by omega)
      exact ⟨q, by simpa using e, a, by omega, by simpa using c⟩
    · exact ⟨p, by simp, rfl, rfl, by simp⟩
  obtain ⟨p2, e2, a2, b2, c2⟩ := p1.untuple_emits members.size (by omega) h255 (by omega)
    (by omega)
  obtain ⟨p4, e4, a4, b4, c4⟩ := p2.reorder_emits members.size h2 (by omega) (by omega)
  obtain ⟨p5, e5, a5, b5, c5⟩ := StackPusherHelper.storeMembers_emits env members hall hcmd p4
    (by omega) (by omega)
  refine ⟨p5, ?_, by omega, ?_, ?_⟩
  · simp only [StackPusherHelper.store, StackPusherHelper.storeStruct]
    refine StackPusherHelper.ensure_finish p5 _ _ ?_ (by omega)
    rw [e1, Option.some_bind, e2, Option.some_bind]
    cases hrev : p2.reverse members.size 0 with
    | none => rw [hrev] at e4; simp at e4
    | some p3 =>
      rw [hrev, Option.some_bind] at e4
      rw [Option.some_bind, e4, Option.some_bind, e5]
  · rw [c5, c4, c2, c1, a4, a2, a1]
    simp only [List.map_append, List.append_assoc, List.map_map, Function.comp_def]
  · rw [List.length_map, SolTypeList.size_toList]

/-- C26 (amended) at a struct of three `int8` members. -/
theorem C26_store_struct_witness :
    ∃ p1, (StackPusherHelper.mk ⟨[], 0⟩ ⟨2, []⟩).store exampleCodecEnv
        (.Struct (exampleIntMembers 3)) false = some p1 ∧
      p1.m_stack.m_size = 2 - 1 ∧
      p1.m_code.lines = [] ++
        ((if false then [] else ["SWAP"]) ++ specUntuple (exampleIntMembers 3).size ++
          specReorder (exampleIntMembers 3).size ++
          (exampleIntMembers 3).toList.map
            (fun m => exampleCodecEnv.storeIntegralOrAddress m false)).map
          (fun c => tabs 0 ++ c) ∧
      ((exampleIntMembers 3).toList.map
        (fun m => exampleCodecEnv.storeIntegralOrAddress m false)).length
        = (exampleIntMembers 3).size :=
  C26_store_struct exampleCodecEnv (exampleIntMembers 3) false rfl (by decide) (by decide)
    (fun m hm => isLoggedCommand_of_length _ (by
      simp only [exampleCodecEnv]; decide))
    ⟨⟨[], 0⟩, ⟨2, []⟩⟩ (by decide) (by decide)

/-- C26 fails as stated: for a struct of sixteen integer members `store` completes, and the
first two lines it emits are `PUSHINT 16` and `UNTUPLEVAR`, not `UNTUPLE 16`. -/
theorem C26_counterexample :
    ((StackPusherHelper.mk ⟨[], 0⟩ ⟨2, []⟩).store exampleCodecEnv
        (.Struct (exampleIntMembers 16)) true).map (fun q => q.m_code.lines.take 2)
      = some ["PUSHINT 16", "UNTUPLEVAR"] := by
  decide

/-- The store of a struct of a single member aborts, in `reverse(1, 0)`. -/
theorem store_struct_single :
    (StackPusherHelper.mk ⟨[], 0⟩ ⟨2, []⟩).store exampleCodecEnv
      (.Struct (exampleIntMembers 1)) true = none := by
  decide


/-- C38: for `0 ≤ k ≤ size`, `change(-k)` and then `change(+k)` complete and give back the
state they started from, so `getStackSize(d)`, `isParam(d)` and `getOffset(d)` return what
they returned before; and after `change(-k)` alone a declaration that is bound only to
popped slots (every slot bound to it has an index of at least `size - k`) is reported as
unbound: `getStackSize(d) = -1`, `isParam(d)` is false and `getOffset(d)` aborts. -/
theorem C38_bindings_survive_pop (s : TVMStack) (d : Nat) (k : Int) (h0 : 0 ≤ k)
    (hk : k ≤ s.m_size) :
    ∃ s1 s2, s.change (-k) = some s1 ∧ s1.change k = some s2 ∧
      s2.getStackSize d = s.getStackSize d ∧ s2.isParam d = s.isParam d ∧
      s2.getOffset d = s.getOffset d ∧
      ((∀ i, s.boundAt d i → s.m_size - k ≤ (i : Int)) →
        s1.getStackSize d = -1 ∧ s1.isParam d = false ∧ s1.getOffset d = none) := by
  have e1 : s.change (-k) = some { s with m_size := s.m_size + -k } :=
    TVMStack.change_of_nonneg s (-k) (by omega)
  have e2 : ({ s with m_size := s.m_size + -k } : TVMStack).change k = some s := by
    rw [TVMStack.change_of_nonneg _ _ (by simp only; omega)]
    cases s
    simp
  refine ⟨_, s, e1, e2, rfl, rfl, rfl, fun hall => ?_⟩
  have hgs : ({ s with m_size := s.m_size + -k } : TVMStack).getStackSize d = -1 := by
    unfold TVMStack.getStackSize
    rcases getStackSizeLoop_spec s.m_stackSize d (s.m_size + -k).toNat with
      ⟨e, _⟩ | ⟨i, hi, _, hb, _⟩
    · exact e
    · exfalso
      have hi' : (i : Int) < s.m_size + -k := (lt_toNat_iff i _).mp hi
      have := hall i ⟨by omega, hb⟩
      omega
  refine ⟨hgs, ?_, ?_⟩
  · simp [TVMStack.isParam, hgs]
  · simp [TVMStack.getOffset, TVMStack.isParam, hgs]

/-- C38 on a stack of three slots of which the top one is bound to declaration 9, popped by
one slot. -/
theorem C38_bindings_survive_pop_witness :
    ∃ s1 s2, (TVMStack.mk 3 [some 4, none, some 9]).change (-1) = some s1 ∧
      s1.change 1 = some s2 ∧
      s2.getOffset 9 = (TVMStack.mk 3 [some 4, none, some 9]).getOffset 9 ∧
      s1.getStackSize 9 = -1 ∧ s1.isParam 9 = false ∧ s1.getOffset 9 = none := by
  obtain ⟨s1, s2, e1, e2, _, _, c, h⟩ :=
    C38_bindings_survive_pop (TVMStack.mk 3 [some 4, none, some 9]) 9 1 (by decide) (by decide)
  refine ⟨s1, s2, e1, e2, c, h ?_⟩
  rintro i ⟨h1, h2⟩
  have h3 : i < 3 := by simpa using h1
  interval_cases i
  · simp at h2
  · simp at h2
  · decide


/-- C36 fails on the code: with a `STZEROES` count of 256, and with a `STUR` width of 256,
in the matched window, `optimize_at` rewrites to a `STUR` of width 257 (lines 1031-1042 test
`lenA <= 256` and emit `lenA + 1`; lines 1093-1103 emit `bitQty + 1` with no test), and
`optimize_code` keeps that instruction. -/
theorem C36_stur_width_exceeded :
    TVMOptimizer.optimize_at sampleTvmConst ["PUSHINT 256", "STZEROES", "STSLICECONST 1"] 0
        = some ⟨true, 3, ["PUSHINT 1", "STUR 257"]⟩ ∧
      TVMOptimizer.optimize_at sampleTvmConst ["STSLICECONST 0", "PUSHINT 0", "STUR 256"] 0
        = some ⟨true, 3, ["PUSHINT 0", "STUR 257"]⟩ ∧
      TVMOptimizer.optimize_code sampleTvmConst 30 ["PUSHINT 256", "STZEROES", "STSLICECONST 1"]
        = some ["PUSHINT 1", "STUR 257"] := by
  refine ⟨?_, ?_, ?_⟩ <;> decide

namespace TVMOptimizer

theorem takeWhile_append_stop {β : Type} (p : β → Bool) (a : List β) (y : β) (b : List β)
    (ha : ∀ x ∈ a, p x = true) (hy : p y = false) : (a ++ y :: b).takeWhile p = a := by
  induction a with
  | nil => simp [List.takeWhile, hy]
  | cons x t ih =>
    simp only [List.cons_append, List.takeWhile, ha x (List.mem_cons_self _ _)]
    exact congrArg (fun l => x :: l) (ih (fun z hz => ha z (List.mem_cons_of_mem _ hz)))

theorem dropWhile_append_stop {β : Type} (p : β → Bool) (a : List β) (y : β) (b : List β)
    (ha : ∀ x ∈ a, p x = true) (hy : p y = false) : (a ++ y :: b).dropWhile p = y :: b := by
  induction a with
  | nil => simp [List.dropWhile, hy]
  | cons x t ih =>
    simp only [List.cons_append, List.dropWhile, ha x (List.mem_cons_self _ _)]
    exact ih (fun z hz => ha z (List.mem_cons_of_mem _ hz))

theorem takeWhile_all {β : Type} (p : β → Bool) (a : List β) (ha : ∀ x ∈ a, p x = true) :
    a.takeWhile p = a := by
  induction a with
  | nil => rfl
  | cons x t ih =>
    simp only [List.takeWhile, ha x (List.mem_cons_self _ _)]
    exact congrArg (fun l => x :: l) (ih (fun z hz => ha z (List.mem_cons_of_mem _ hz)))

theorem dropWhile_all {β : Type} (p : β → Bool) (a : List β) (ha : ∀ x ∈ a, p x = true) :
    a.dropWhile p = [] := by
  induction a with
  | nil => rfl
  | cons x t ih =>
    simp only [List.dropWhile, ha x (List.mem_cons_self _ _)]
    exact ih (fun z hz => ha z (List.mem_cons_of_mem _ hz))

/-- The text of an integer from 0 to 16: decimal digits that `strToInt` reads back. -/
theorem digits_text (k : Nat) (hk : k ≤ 16) :
    (toString (k : Int)).data ≠ [] ∧
      (∀ ch ∈ (toString (k : Int)).data, isdigit ch = true) ∧
      strToInt (String.mk (toString (k : Int)).data) = some (k : Int) := by
  interval_cases k <;> decide

theorem digit_plain (ch : Char) (h : isdigit ch = true) :
    ch ≠ ';' ∧ is_space ch = false ∧ isspace ch = false ∧ ch ≠ ',' := by
  unfold isdigit at h
  simp only [Bool.and_eq_true, decide_eq_true_eq] at h
  have h1 : ('0' : Char).toNat = 48 := rfl
  have h2 : ('9' : Char).toNat = 57 := rfl
  rw [h1, h2] at h
  refine ⟨?_, ?_, ?_, ?_⟩
  · rintro rfl
    have : (';' : Char).toNat = 59 := rfl
    omega
  · unfold is_space
    have a1 : ch ≠ ' ' := by
      rintro rfl
      have : (' ' : Char).toNat = 32 := rfl
      omega
    have a2 : ch ≠ '\t' := by
      rintro rfl
      have : ('\t' : Char).toNat = 9 := rfl
      omega
    simp [a1, a2]
  · unfold isspace
    have a1 : ch ≠ ' ' := by
      rintro rfl
      have : (' ' : Char).toNat = 32 := rfl
      omega
    have a2 : ch ≠ '\t' := by
      rintro rfl
      have : ('\t' : Char).toNat = 9 := rfl
      omega
    have a3 : ch ≠ '\n' := by
      rintro rfl
      have : ('\n' : Char).toNat = 10 := rfl
      omega
    have a4 : ch ≠ '\x0b' := by
      rintro rfl
      have : ('\x0b' : Char).toNat = 11 := rfl
      omega
    have a5 : ch ≠ '\x0c' := by
      rintro rfl
      have : ('\x0c' : Char).toNat = 12 := rfl
      omega
    have a6 : ch ≠ '\r' := by
      rintro rfl
      have : ('\r' : Char).toNat = 13 := rfl
      omega
    simp [a1, a2, a3, a4, a5, a6]
  · rintro rfl
    have : (',' : Char).toNat = 44 := rfl
    omega

/-- A line made of a name, one blank and an operand is read as that name and operand. -/
theorem ofString_name_rest (N R : List Char) (x0 : Char) (t0 : List Char) (hx : N = x0 :: t0)
    (hN : ∀ ch ∈ N, (!is_space ch && decide (ch ≠ ';')) = true)
    (hR : ∀ ch ∈ R, decide (ch ≠ ';') = true)
    (y : Char) (t : List Char) (hy1 : R = y :: t) (hy2 : is_space y = false) :
    Cmd.ofString (String.mk (N ++ ' ' :: R))
      = Cmd.analyze ⟨"", String.mk N, String.mk R, "", false, 0, 0⟩ := by
  have hx0s : is_space x0 = false := by
    have := hN x0 (by rw [hx]; simp)
    simp only [Bool.and_eq_true, Bool.not_eq_true'] at this
    exact this.1
  have hsp : is_space ' ' = true := by decide
  have hnotEnd : (!is_space ' ' && decide (' ' ≠ ';')) = false := by decide
  unfold Cmd.ofString
  dsimp only
  have hd1 : (N ++ ' ' :: R).dropWhile is_space = N ++ ' ' :: R := by
    rw [hx]
    simp [List.dropWhile, hx0s]
  have ht1 : (N ++ ' ' :: R).takeWhile is_space = [] := by
    rw [hx]
    simp [List.takeWhile, hx0s]
  rw [hd1, ht1, takeWhile_append_stop _ _ _ _ hN hnotEnd,
    dropWhile_append_stop _ _ _ _ hN hnotEnd]
  have hd2 : (' ' :: R).dropWhile is_space = R := by
    rw [hy1]
    simp [List.dropWhile, hsp, hy2]
  rw [hd2, takeWhile_all _ _ hR]

theorem analyze_PUSH2 (pfx rest : String) :
    Cmd.analyze ⟨pfx, "PUSH2", rest, "", false, 0, 0⟩ =
      some ⟨pfx, "PUSH2", rest, "", false, 0, 0⟩ := by
  simp [Cmd.analyze, s01, s10, s11, s21, s32, Cmd.is]

/-- The operand `Si, Sj` of the line `specPush2 i j`. -/
theorem specPush2_data (i j : Int) :
    specPush2 i j
      = String.mk ("PUSH2".data ++ ' ' ::
          ('S' :: ((toString i).data ++ ',' :: ' ' :: 'S' :: (toString j).data))) := by
  apply String.ext
  simp [specPush2, String.data_append]

theorem searchPush2_operand (di dj : List Char) (hi0 : di ≠ []) (hj0 : dj ≠ [])
    (hi : ∀ ch ∈ di, isdigit ch = true) (hj : ∀ ch ∈ dj, isdigit ch = true) :
    searchPush2 ('S' :: (di ++ ',' :: ' ' :: 'S' :: dj)) = some (di, dj) := by
  have c1 : isdigit ',' = false := by decide
  have c2 : isspace ' ' = true := by decide
  have c3 : isspace 'S' = false := by decide
  have c4 : isStackLetter 'S' = true := by decide
  have t1 : (di ++ ',' :: ' ' :: 'S' :: dj).takeWhile isdigit = di :=
    takeWhile_append_stop _ _ _ _ hi c1
  have t2 : (di ++ ',' :: ' ' :: 'S' :: dj).dropWhile isdigit = ',' :: ' ' :: 'S' :: dj :=
    dropWhile_append_stop _ _ _ _ hi c1
  have t3 : (' ' :: 'S' :: dj).dropWhile isspace = 'S' :: dj := by
    simp [List.dropWhile, c2, c3]
  have t4 : dj.takeWhile isdigit = dj := takeWhile_all _ _ hj
  unfold searchPush2 matchPush2Here
  simp only [c4, t1, t2, t3, t4, hi0, hj0, ne_eq, not_false_eq_true, and_self, if_true]

/-- `unsquash_push` on the single line `PUSH2 Si, Sj`. -/
theorem unsquash_push_specPush2 (i j : Nat) (hi : i ≤ 16) (hj : j ≤ 16) (a b : String)
    (ha : make_PUSH (i : Int) = some a) (hb : make_PUSH ((j : Int) + 1) = some b) :
    unsquash_push [specPush2 i j] 0 = some (Result.Replace 1 [a, b]) := by
  obtain ⟨i0, i1, i2⟩ := digits_text i hi
  obtain ⟨j0, j1, j2⟩ := digits_text j hj
  have hparse : Cmd.ofString (specPush2 i j)
      = some ⟨"", "PUSH2",
          String.mk ('S' :: ((toString (i : Int)).data ++
            ',' :: ' ' :: 'S' :: (toString (j : Int)).data)), "", false, 0, 0⟩ := by
    rw [specPush2_data, ofString_name_rest "PUSH2".data _ 'P' ['U', 'S', 'H', '2'] rfl
      (by decide) ?_ 'S' _ rfl (by decide)]
    · exact analyze_PUSH2 _ _
    · intro ch hch
      simp only [List.mem_cons, List.mem_append] at hch
      rcases hch with rfl | h | rfl | rfl | rfl | h
      · decide
      · simpa using (digit_plain ch (i1 ch h)).1
      · decide
      · decide
      · decide
      · simpa using (digit_plain ch (j1 ch h)).1
  have hcmd : cmd [specPush2 i j] 0 = Cmd.ofString (specPush2 i j) := by
    have := cmd_nat [specPush2 i j] 0 (by simp)
    simpa using this
  unfold unsquash_push
  rw [hcmd, hparse]
  simp only [Cmd.is, decide_True, if_true, Cmd.get_push2_indexes, Cmd.rest, not_true_eq_false,
    if_false, searchPush2_operand _ _ i0 j0 i1 j1, i2, j2, ha, hb]

/-- The line that `make_PUSH` builds for an index from 0 to 16 is a push of that index. -/
theorem make_PUSH_line (k : Nat) (hk : k ≤ 16) :
    ∃ s c, make_PUSH (k : Int) = some s ∧ Cmd.ofString s = some c ∧
      is_comment_or_empty_line s = false ∧ c.is_PUSH = true ∧
      c.get_push_index = some (k : Int) := by
  interval_cases k <;> exact ⟨_, _, rfl, rfl, by decide, by decide, by decide⟩

/-- `squash_push` on two lines that are pushes. -/
theorem squash_push_pair (a b : String) (ca cb : Cmd) (p1 p2 : Int)
    (ha : Cmd.ofString a = some ca) (hb : Cmd.ofString b = some cb)
    (hcb : is_comment_or_empty_line b = false)
    (h1 : ca.is_PUSH = true) (h2 : cb.is_PUSH = true)
    (g1 : ca.get_push_index = some p1) (g2 : cb.get_push_index = some p2)
    (hp1 : p1 ≤ 15) (hp2 : 1 ≤ p2) (hp3 : p2 ≤ 16) :
    squash_push [a, b] 0
      = some (Result.Replace 2
          [if p1 = 1 ∧ p2 = 1 then "DUP2" else specPush2 p1 (p2 - 1)]) := by
  have n1 : next_command_line [a, b] 0 = 1 := by
    unfold next_command_line valid
    simp [firstCommandFrom, hcb]
  have n2 : next_command_line [a, b] 1 = -1 := by
    unfold next_command_line valid
    simp [firstCommandFrom]
  have c0 : cmd [a, b] 0 = some ca := by
    have := cmd_nat [a, b] 0 (by simp)
    simp only [Nat.cast_zero] at this
    rw [this]
    exact ha
  have c1 : cmd [a, b] 1 = some cb := by
    have := cmd_nat [a, b] 1 (by simp)
    simp only [Nat.cast_one] at this
    rw [this]
    exact hb
  have c2 : cmd [a, b] (-1) = some ⟨"", "", "", "", false, 0, 0⟩ :=
    cmd_invalid _ _ (valid_neg_one _)
  have e3 : (⟨"", "", "", "", false, 0, 0⟩ : Cmd).is_PUSH = false := by decide
  unfold squash_push
  simp only [n1, n2, c0, c1, c2]
  have s3 : squash3 ca cb ⟨"", "", "", "", false, 0, 0⟩ = miss := by
    unfold squash3
    simp [h1, h2, e3]
  rw [s3]
  simp only [miss]
  unfold squash2
  simp only [h1, h2, Bool.and_self, if_true, g1, g2]
  by_cases hd : p1 = 1 ∧ p2 = 1
  · simp only [hd, and_self, if_true, hit, Result.Replace]
  · have hne : ¬ (p2 - 1 = -1) := by omega
    simp only [hd, if_false, hne, hit, Result.Replace, specPush2]
    rw [if_pos ⟨hp1, by omega⟩]

theorem push2_round_trip (i j : Nat) (hi : i ≤ 15) (hj : j ≤ 15) :
    ∃ a b, make_PUSH (i : Int) = some a ∧ make_PUSH ((j : Int) + 1) = some b ∧
      unsquash_push [specPush2 i j] 0 = some (Result.Replace 1 [a, b]) ∧
      squash_push [a, b] 0
        = some (Result.Replace 2 [if i = 1 ∧ j = 0 then "DUP2" else specPush2 i j]) := by
  obtain ⟨a, ca, a1, a2, _, a4, a5⟩ := make_PUSH_line i (by omega)
  obtain ⟨b, cb, b1, b2, b3, b4, b5⟩ := make_PUSH_line (j + 1) (by omega)
  have b1x : make_PUSH ((j : Int) + 1) = some b := by
    simpa using b1
  refine ⟨a, b, a1, b1x, unsquash_push_specPush2 i j (by omega) (by omega) a b a1 b1x, ?_⟩
  rw [squash_push_pair a b ca cb (i : Int) ((j + 1 : Nat) : Int) a2 b2 b3 a4 b4 a5 b5
    (by omega) (by omega) (by omega)]
  have e1 : (((j + 1 : Nat) : Int) - 1) = (j : Int) := by
    push_cast
    ring
  have e2 : ((i : Int) = 1 ∧ ((j + 1 : Nat) : Int) = 1) ↔ (i = 1 ∧ j = 0) := by
    constructor
    · rintro ⟨x, y⟩
      exact ⟨by omega, by omega⟩
    · rintro ⟨x, y⟩
      exact ⟨by omega, by omega⟩
  rw [e1]
  simp only [e2]


theorem squash3_bound (c1 c2 c3 : Cmd) (res : Result)
    (h : squash3 c1 c2 c3 = some (some res)) :
    ∃ si sj sk : Int, si ≤ 15 ∧ sj ≤ 15 ∧ sk ≤ 15 ∧
      res = Result.Replace 3 [specPush3 si sj sk] := by
  unfold squash3 at h
  by_cases hp : (c1.is_PUSH && c2.is_PUSH && c3.is_PUSH) = true
  · rw [if_pos hp] at h
    cases h1 : c1.get_push_index with
    | none => rw [h1] at h; cases h
    | some p1 =>
      cases h2 : c2.get_push_index with
      | none => rw [h1, h2] at h; cases h
      | some p2 =>
        cases h3 : c3.get_push_index with
        | none => rw [h1, h2, h3] at h; cases h
        | some p3 =>
          rw [h1, h2, h3] at h
          simp only at h
          by_cases hb : p1 ≤ 15 ∧ (if p2 - 1 = -1 then p1 else p2 - 1) ≤ 15 ∧
              (if p3 - 2 = -1 then p1
                else if p3 - 2 = -2 then (if p2 - 1 = -1 then p1 else p2 - 1) else p3 - 2) ≤ 15
          · rw [if_pos hb] at h
            simp only [hit, Option.some.injEq] at h
            exact ⟨_, _, _, hb.1, hb.2.1, hb.2.2, h.symm⟩
          · rw [if_neg hb] at h
            simp [miss] at h
  · rw [if_neg hp] at h
    simp [miss] at h

theorem squash2_bound (c1 c2 : Cmd) (res : Result) (h : squash2 c1 c2 = some (some res)) :
    res = Result.Replace 2 ["DUP2"] ∨
      ∃ si sj : Int, si ≤ 15 ∧ sj ≤ 15 ∧ res = Result.Replace 2 [specPush2 si sj] := by
  unfold squash2 at h
  by_cases hp : (c1.is_PUSH && c2.is_PUSH) = true
  · rw [if_pos hp] at h
    cases h1 : c1.get_push_index with
    | none => rw [h1] at h; cases h
    | some p1 =>
      cases h2 : c2.get_push_index with
      | none => rw [h1, h2] at h; cases h
      | some p2 =>
        rw [h1, h2] at h
        simp only at h
        by_cases e1 : p1 = 1 ∧ p2 = 1
        · rw [if_pos e1] at h
          simp only [hit, Option.some.injEq] at h
          exact Or.inl h.symm
        · rw [if_neg e1] at h
          by_cases hb : p1 ≤ 15 ∧ (if p2 - 1 = -1 then p1 else p2 - 1) ≤ 15
          · rw [if_pos hb] at h
            simp only [hit, Option.some.injEq] at h
            exact Or.inr ⟨_, _, hb.1, hb.2, h.symm⟩
          · rw [if_neg hb] at h
            simp [miss] at h
  · rw [if_neg hp] at h
    simp [miss] at h

theorem squash_push_bound (lines_ : List String) (idx1 : Int) (res : Result)
    (h : squash_push lines_ idx1 = some res) (hc : res.continue_ = true) :
    (∃ si sj sk : Int, si ≤ 15 ∧ sj ≤ 15 ∧ sk ≤ 15 ∧
        res = Result.Replace 3 [specPush3 si sj sk]) ∨
      (∃ si sj : Int, si ≤ 15 ∧ sj ≤ 15 ∧ res = Result.Replace 2 [specPush2 si sj]) ∨
      res.commands_ = ["DUP2"] ∨ res.commands_ = ["OVER2"] := by
  unfold squash_push at h
  simp only at h
  cases h1 : cmd lines_ idx1 with
  | none => rw [h1] at h; simp at h
  | some c1 =>
    cases h2 : cmd lines_ (next_command_line lines_ idx1) with
    | none => rw [h1, h2] at h; simp at h
    | some c2 =>
      cases h3 : cmd lines_ (next_command_line lines_ (next_command_line lines_ idx1)) with
      | none => rw [h1, h2, h3] at h; simp at h
      | some c3 =>
        rw [h1, h2, h3] at h
        simp only at h
        cases s3 : squash3 c1 c2 c3 with
        | none => rw [s3] at h; cases h
        | some r3 =>
          cases r3 with
          | some r =>
            rw [s3] at h
            simp only [Option.some.injEq] at h
            subst h
            exact Or.inl (squash3_bound c1 c2 c3 r s3)
          | none =>
            rw [s3] at h
            simp only at h
            cases s2 : squash2 c1 c2 with
            | none => rw [s2] at h; cases h
            | some r2 =>
              cases r2 with
              | some r =>
                rw [s2] at h
                simp only [Option.some.injEq] at h
                subst h
                rcases squash2_bound c1 c2 r s2 with e | e
                · exact Or.inr (Or.inr (Or.inl (by rw [e]; rfl)))
                · exact Or.inr (Or.inl e)
              | none =>
                rw [s2] at h
                simp only at h
                cases s1 : squashBlkpush c1 with
                | none => rw [s1] at h; cases h
                | some r1 =>
                  cases r1 with
                  | some r =>
                    rw [s1] at h
                    simp only [Option.some.injEq] at h
                    subst h
                    rcases (squashBlkpush_hit c1 r s1).2.2.2 with e | e
                    · exact Or.inr (Or.inr (Or.inl e))
                    · exact Or.inr (Or.inr (Or.inr e))
                  | none =>
                    rw [s1] at h
                    simp only [Option.some.injEq] at h
                    subst h
                    cases hc

end TVMOptimizer

/-- C40: for `0 ≤ i, j ≤ 15`, `TVMOptimizer.unsquash_push` turns the single line `PUSH2 Si, Sj` into the
two single pushes of `Si` and `S(j+1)`, and `TVMOptimizer.squash_push` on these two lines gives back the
single line `PUSH2 Si, Sj`, except for `(i, j) = (1, 0)` where it gives `DUP2`. Whenever
`TVMOptimizer.squash_push` rewrites, the replacement is one line: a `PUSH3` or a `PUSH2` all of whose
indexes are at most 15, or `DUP2`, or `OVER2`. -/
theorem C40_push2_round_trip (i j : Nat) (hi : i ≤ 15) (hj : j ≤ 15) :
    (∃ a b, TVMOptimizer.make_PUSH (i : Int) = some a ∧ TVMOptimizer.make_PUSH ((j : Int) + 1) = some b ∧
      TVMOptimizer.unsquash_push [specPush2 i j] 0 = some (TVMOptimizer.Result.Replace 1 [a, b]) ∧
      TVMOptimizer.squash_push [a, b] 0
        = some (TVMOptimizer.Result.Replace 2 [if i = 1 ∧ j = 0 then "DUP2" else specPush2 i j])) ∧
    (∀ (lines_ : List String) (idx1 : Int) (res : TVMOptimizer.Result),
      TVMOptimizer.squash_push lines_ idx1 = some res → res.continue_ = true →
      (∃ si sj sk : Int, si ≤ 15 ∧ sj ≤ 15 ∧ sk ≤ 15 ∧
          res = TVMOptimizer.Result.Replace 3 [specPush3 si sj sk]) ∨
        (∃ si sj : Int, si ≤ 15 ∧ sj ≤ 15 ∧ res = TVMOptimizer.Result.Replace 2 [specPush2 si sj]) ∨
        res.commands_ = ["DUP2"] ∨ res.commands_ = ["OVER2"]) :=
  ⟨TVMOptimizer.push2_round_trip i j hi hj, TVMOptimizer.squash_push_bound⟩

/-- C40 at `PUSH2 S3, S15`. -/
theorem C40_push2_round_trip_witness :
    ∃ a b, TVMOptimizer.make_PUSH 3 = some a ∧ TVMOptimizer.make_PUSH (15 + 1) = some b ∧
      TVMOptimizer.unsquash_push [specPush2 3 15] 0 = some (TVMOptimizer.Result.Replace 1 [a, b]) ∧
      TVMOptimizer.squash_push [a, b] 0 = some (TVMOptimizer.Result.Replace 2 [specPush2 3 15]) :=
  (C40_push2_round_trip 3 15 (by decide) (by decide)).1

theorem StackPusherHelper.push_grows (p : StackPusherHelper) (d : Int) (cmd : String)
    (ht : 0 ≤ p.m_code.tabQty) (hs : 0 ≤ p.m_stack.m_size + d) :
    ∃ p1 suf, p.push d cmd = some p1 ∧ p1.m_code.tabQty = p.m_code.tabQty ∧
      p1.m_stack.m_size = p.m_stack.m_size + d ∧ p1.m_code.lines = p.m_code.lines ++ suf := by
  obtain ⟨p1, e, a, b⟩ := p.push_balance d cmd ht hs
  obtain ⟨_, suf, hsuf⟩ := StackPusherHelper.push_extends e
  exact ⟨p1, suf, e, a, b, hsuf⟩

theorem StackPusherHelper.pushDefaultValue_builder (env : DefaultEnv) (type : SolType)
    (h : specBuilderDefault type) (p : StackPusherHelper) (ht : 0 ≤ p.m_code.tabQty)
    (hs : 0 ≤ p.m_stack.m_size) :
    ∃ p1 pre post, p.pushDefaultValue env type true = some p1 ∧
      p1.m_stack.m_size = p.m_stack.m_size + 1 ∧
      p1.m_code.lines = p.m_code.lines ++ pre ++ [tabs p.m_code.tabQty ++ "NEWC"] ++ post := by
  have newc : ∀ q : StackPusherHelper, 0 ≤ q.m_code.tabQty → 0 ≤ q.m_stack.m_size →
      ∃ q1, q.push 1 "NEWC" = some q1 ∧ q1.m_code.tabQty = q.m_code.tabQty ∧
        q1.m_stack.m_size = q.m_stack.m_size + 1 ∧
        q1.m_code.lines = q.m_code.lines ++ [tabs q.m_code.tabQty ++ "NEWC"] := fun q h1 h2 =>
    q.push_emits 1 "NEWC" (isLoggedCommand_of_length _ (by decide)) h1 (by omega)
  -- the cases of a lone NEWC
  have lone : ∃ p1 pre post, p.push 1 "NEWC" = some p1 ∧
      p1.m_stack.m_size = p.m_stack.m_size + 1 ∧
      p1.m_code.lines = p.m_code.lines ++ pre ++ [tabs p.m_code.tabQty ++ "NEWC"] ++ post := by
    obtain ⟨q, e, a, b, c⟩ := newc p ht hs
    exact ⟨q, [], [], e, b, by simpa using c⟩
  -- an instruction, NEWC, and a store
  have three : ∀ (c1 c3 : String), ∃ p1 pre post,
      ((p.push 1 c1).bind fun p1 => (p1.push 1 "NEWC").bind fun p2 => p2.push (-1) c3)
        = some p1 ∧ p1.m_stack.m_size = p.m_stack.m_size + 1 ∧
      p1.m_code.lines = p.m_code.lines ++ pre ++ [tabs p.m_code.tabQty ++ "NEWC"] ++ post := by
    intro c1 c3
    obtain ⟨q1, s1, e1, a1, b1, l1⟩ := p.push_grows 1 c1 ht (by omega)
    obtain ⟨q2, e2, a2, b2, l2⟩ := newc q1 (by omega) (by omega)
    obtain ⟨q3, s3, e3, a3, b3, l3⟩ := q2.push_grows (-1) c3 (by omega) (by omega)
    refine ⟨q3, s1, s3, by simp only [e1, e2, e3, Option.some_bind], by omega, ?_⟩
    rw [l3, l2, l1, a1]
  rcases h with ⟨b, base, rfl⟩ | h
  · simp only [StackPusherHelper.pushDefaultValue, SolType.category]
    cases b
    · obtain ⟨q1, e1, a1, b1, l1⟩ := newc p ht hs
      obtain ⟨q2, s2, e2, a2, b2, l2⟩ := q1.push_grows 1 ("PUSHINT " ++ toString (33 : Int))
        (by omega) (by omega)
      obtain ⟨q3, s3, e3, a3, b3, l3⟩ := q2.push_grows (-1) "STZEROES" (by omega) (by omega)
      refine ⟨q3, [], s2 ++ s3, ?_, by omega, ?_⟩
      · simp only [Bool.false_eq_true, if_false, not_true_eq_false, e1, Option.some_bind,
          StackPusherHelper.pushInt, e2, e3]
      · rw [l3, l2, l1]; simp
    · simpa using lone
  · simp only [List.mem_cons, List.mem_singleton, List.not_mem_nil, or_false] at h
    rcases h with h | h | h | h | h | h | h | h | h | h | h | h <;>
      simp only [StackPusherHelper.pushDefaultValue, h, if_true,
        StackPusherHelper.pushZeroAddress]
    · exact three _ _
    · exact three _ _
    · exact three _ _
    · exact three _ _
    · exact three _ _
    · exact three _ _
    · exact three _ _
    · exact lone
    · obtain ⟨q1, e1, a1, b1, l1⟩ := newc p ht hs
      obtain ⟨q2, s2, e2, a2, b2, l2⟩ := q1.push_grows 0 "STSLICECONST 0" (by omega) (by omega)
      refine ⟨q2, [], s2, ?_, by omega, ?_⟩
      · simp only [e1, Option.some_bind, StackPusherHelper.stzeroes]
        simpa using e2
      · rw [l2, l1]; simp
    · obtain ⟨q1, e1, a1, b1, l1⟩ := newc p ht hs
      obtain ⟨q2, s2, e2, a2, b2, l2⟩ := q1.push_grows 0 "STSLICECONST 0" (by omega) (by omega)
      refine ⟨q2, [], s2, ?_, by omega, ?_⟩
      · simp only [e1, Option.some_bind, StackPusherHelper.stzeroes]
        simpa using e2
      · rw [l2, l1]; simp
    · exact lone
    · exact lone

/-- C39: on an emitter of nesting depth at least 0 and with `isResultBuilder = true`,
`pushDefaultValue` completes with the model stack size grown by exactly 1 and a `NEWC` among
the emitted lines for the categories address, contract, bool, fixed bytes, integer, enum,
variable-length integer, cell, array, mapping, extra currency collection, slice and
builder; but for an optional type it emits the single line `NULL` and for a fixed-point type
the single line `PUSHINT 0`, with no `NEWC`: the flag is ignored and no builder is left. -/
theorem C39_default_builder (env : DefaultEnv) (type : SolType) (p : StackPusherHelper)
    (ht : 0 ≤ p.m_code.tabQty) (hs : 0 ≤ p.m_stack.m_size) :
    (specBuilderDefault type →
      ∃ p1 pre post, p.pushDefaultValue env type true = some p1 ∧
        p1.m_stack.m_size = p.m_stack.m_size + 1 ∧
        p1.m_code.lines
          = p.m_code.lines ++ pre ++ [tabs p.m_code.tabQty ++ "NEWC"] ++ post) ∧
    (type.category = .Optional →
      p.pushDefaultValue env type true
        = some ⟨⟨p.m_code.lines ++ [tabs p.m_code.tabQty ++ "NULL"], p.m_code.tabQty⟩,
            ⟨p.m_stack.m_size + 1, p.m_stack.m_stackSize⟩⟩) ∧
    (type.category = .FixedPoint →
      p.pushDefaultValue env type true
        = some ⟨⟨p.m_code.lines ++ [tabs p.m_code.tabQty ++ "PUSHINT 0"], p.m_code.tabQty⟩,
            ⟨p.m_stack.m_size + 1, p.m_stack.m_stackSize⟩⟩) := by
  refine ⟨fun h => StackPusherHelper.pushDefaultValue_builder env type h p ht hs, ?_, ?_⟩
  · intro h
    simp only [StackPusherHelper.pushDefaultValue, h]
    exact StackPusherHelper.push_run p 1 "NULL" (by decide) ht (by omega)
  · intro h
    simp only [StackPusherHelper.pushDefaultValue, h, StackPusherHelper.pushInt]
    exact StackPusherHelper.push_run p 1 "PUSHINT 0" (by decide) ht (by omega)

/-- C39 at the type `optional(bool)`: the only emitted line is `NULL`. -/
theorem C39_default_builder_witness :
    (StackPusherHelper.mk ⟨[], 0⟩ ⟨0, []⟩).pushDefaultValue exampleDefaultEnv
        (.Optional .Bool) true
      = some ⟨⟨[] ++ [tabs 0 ++ "NULL"], 0⟩, ⟨0 + 1, []⟩⟩ :=
  (C39_default_builder exampleDefaultEnv (.Optional .Bool) ⟨⟨[], 0⟩, ⟨0, []⟩⟩ (by decide)
    (by decide)).2.1 rfl

set_option maxHeartbeats 20000000 in
theorem slotsOfXchg_top (j : Int) (h1 : 1 ≤ j) (h2 : j ≤ 255) :
    slotsOfXchg (specExchangeTop j) = some (0, j) := by
  interval_cases j <;> decide

set_option maxHeartbeats 20000000 in
theorem slotsOfXchg_pair (i j : Int) (h1 : 1 ≤ i) (h2 : i < j) (h3 : j ≤ 15) :
    slotsOfXchg ("XCHG s" ++ toString i ++ ",s" ++ toString j) = some (i, j) := by
  have h0 : 2 ≤ j := by omega
  interval_cases j <;> interval_cases i <;> decide


theorem swapSlots_conj {α : Type} (i j : Int) (hi : 1 ≤ i) (hij : i ≠ j) (hj : 1 ≤ j)
    (stack : Int → α) :
    swapSlots 0 i (swapSlots 0 j (swapSlots 0 i stack)) = swapSlots i j stack := by
  funext k
  simp only [swapSlots]
  split_ifs <;> first | rfl | omega | (subst_vars; rfl)

theorem swapSlots_cube {α : Type} (i : Int) (stack : Int → α) :
    swapSlots 0 i (swapSlots 0 i (swapSlots 0 i stack)) = swapSlots 0 i stack := by
  funext k
  simp only [swapSlots]
  split_ifs <;> first | rfl | omega

theorem runXchgs_exchange {α : Type} (i j : Int) (hi : 0 ≤ i) (hij : i ≤ j) (h1 : 1 ≤ j)
    (h255 : j ≤ 255) (stack : Int → α) :
    runXchgs (specExchange i j) stack
      = some (if i = j then swapSlots 0 i stack else swapSlots i j stack) := by
  unfold specExchange
  by_cases h0 : i = 0
  · subst h0
    rw [if_pos rfl, if_neg (by omega)]
    simp only [runXchgs, slotsOfXchg_top j h1 h255]
  · rw [if_neg h0]
    by_cases hp : i < j ∧ j ≤ 15
    · rw [if_pos hp, if_neg (by omega)]
      simp only [runXchgs, slotsOfXchg_pair i j (by omega) hp.1 hp.2]
    · rw [if_neg hp]
      simp only [runXchgs, slotsOfXchg_top j h1 h255,
        slotsOfXchg_top i (by omega) (by omega)]
      by_cases e : i = j
      · subst e
        rw [if_pos rfl, swapSlots_cube]
      · rw [if_neg e, swapSlots_conj i j (by omega) e h1]

theorem StackPusherHelper.exchange_emits (p : StackPusherHelper) (i j : Int) (hi : 0 ≤ i)
    (hij : i ≤ j) (hj : 1 ≤ j) (h : j ≤ 255) (ht : 0 ≤ p.m_code.tabQty) :
    p.exchange i j
      = some ⟨⟨p.m_code.lines ++ (specExchange i j).map (fun c => tabs p.m_code.tabQty ++ c),
          p.m_code.tabQty⟩, p.m_stack⟩ := by
  unfold StackPusherHelper.exchange
  by_cases h0 : i = 0
  · subst h0
    rw [exchangeLoop_top 1 p j hj h ht]
    simp [specExchange]
  by_cases h1 : i < j ∧ j ≤ 15
  · have hlen : 2 ≤ ("XCHG s" ++ toString i ++ ",s" ++ toString j).length := by
      have e : ("XCHG s").length = 6 := by decide
      simp only [String.length_append, e]; omega
    have key : exchangeLoop 2 p i j
        = p.push 0 ("XCHG s" ++ toString i ++ ",s" ++ toString j) := by
      unfold exchangeLoop
      rw [if_neg (by omega), if_neg (by omega), if_neg (by omega),
        if_neg (by omega)]
      by_cases e1 : i = 1
      · subst e1
        rw [if_pos ⟨rfl, by omega, h1.2⟩]
        rfl
      · rw [if_neg (by omega), if_pos ⟨by omega, h1.1, h1.2⟩]
    rw [key, push_zero_run p _ hlen ht]
    simp [specExchange, h0, h1]
  · have hi1 : 1 ≤ i := by omega
    have key : exchangeLoop 2 p i j
        = (exchangeLoop 1 p 0 i).bind fun p1 =>
            (exchangeLoop 1 p1 0 j).bind fun p2 => exchangeLoop 1 p2 0 i := by
      rw [exchangeLoop]
      rw [if_neg (by omega), if_neg (by omega), if_neg (by omega),
        if_neg (by omega), if_neg (by omega), if_neg (by omega), if_pos h]
    have e1 := exchangeLoop_top 0 p i hi1 (by omega) ht
    have e2 := exchangeLoop_top 0
      ⟨⟨p.m_code.lines ++ [tabs p.m_code.tabQty ++ specExchangeTop i], p.m_code.tabQty⟩,
        p.m_stack⟩ j hj h ht
    have e3 := exchangeLoop_top 0
      ⟨⟨p.m_code.lines ++ [tabs p.m_code.tabQty ++ specExchangeTop i] ++
          [tabs p.m_code.tabQty ++ specExchangeTop j], p.m_code.tabQty⟩,
        p.m_stack⟩ i hi1 (by omega) ht
    rw [key, e1, Option.some_bind, e2, Option.some_bind, e3]
    simp [specExchange, h0, h1]

/-- C32: on an emitter of nesting depth at least 0 and for `0 ≤ i ≤ j`, `1 ≤ j ≤ 255`,
`exchange(i, j)` emits the instructions `specExchange i j`; run in order, each as the
transposition of the two slots it names, they compose to the transposition of the slots `i`
and `j` when `i < j`, every other slot staying in place. When `i = j` they are three times
the exchange of the slots 0 and `i` and compose to the transposition of the slots 0 and
`i`, not to the identity. -/
theorem C32_exchange_transposition (p : StackPusherHelper) (i j : Int) (hi : 0 ≤ i)
    (hij : i ≤ j) (hj : 1 ≤ j) (h : j ≤ 255) (ht : 0 ≤ p.m_code.tabQty) :
    p.exchange i j
        = some ⟨⟨p.m_code.lines ++
            (specExchange i j).map (fun c => tabs p.m_code.tabQty ++ c),
            p.m_code.tabQty⟩, p.m_stack⟩ ∧
      ∀ (α : Type) (stack : Int → α),
        runXchgs (specExchange i j) stack
          = some (if i = j then swapSlots 0 i stack else swapSlots i j stack) :=
  ⟨p.exchange_emits i j hi hij hj h ht, fun _ stack => runXchgs_exchange i j hi hij hj h stack⟩

/-- C32 at `exchange(1, 1)`: the three emitted instructions are `SWAP`, and on the stack
that holds `k` in slot `k` they leave 1 in slot 0 and 0 in slot 1. -/
theorem C32_exchange_transposition_witness :
    (StackPusherHelper.mk ⟨[], 0⟩ ⟨2, []⟩).exchange 1 1
        = some ⟨⟨["SWAP", "SWAP", "SWAP"], 0⟩, ⟨2, []⟩⟩ ∧
      (runXchgs (specExchange 1 1) (fun k => k)).map (fun st => (st 0, st 1))
        = some (1, 0) := by
  have h := C32_exchange_transposition ⟨⟨[], 0⟩, ⟨2, []⟩⟩ 1 1 (by decide) (by decide)
    (by decide) (by decide) (by decide)
  refine ⟨h.1.trans (by decide), ?_⟩
  rw [h.2 Int (fun k => k)]
  rfl

/-! ### Slice literals -/

namespace TVMOptimizer

theorem hexGroup_full (a b c d : Char) (ha : a = '0' ∨ a = '1') (hb : b = '0' ∨ b = '1')
    (hc : c = '0' ∨ c = '1') (hd : d = '0' ∨ d = '1') :
    ∃ x, stoi2 0 [a, b, c, d] = some x ∧ x < 16 ∧ stoi16 (hexChar x) = some x ∧
      hexChar x ≠ '_' ∧ (lowBits 4 x).reverse = [a, b, c, d] := by
  rcases ha with rfl | rfl <;> rcases hb with rfl | rfl <;> rcases hc with rfl | rfl <;>
    rcases hd with rfl | rfl <;> exact ⟨_, rfl, by decide, by decide, by decide, by decide⟩

theorem isBits_take (s : List Char) (h : isBits s) (n : Nat) : isBits (s.take n) :=
  fun c hc => h c (List.mem_of_mem_take hc)

theorem isBits_drop (s : List Char) (h : isBits s) (n : Nat) : isBits (s.drop n) :=
  fun c hc => h c (List.mem_of_mem_drop hc)

theorem list_four (g : List Char) (h : g.length = 4) : ∃ a b c d, g = [a, b, c, d] := by
  rcases g with _ | ⟨a, _ | ⟨b, _ | ⟨c, _ | ⟨d, _ | ⟨e, t⟩⟩⟩⟩⟩
  · simp at h
  · simp at h
  · simp at h
  · simp at h
  · exact ⟨a, b, c, d, rfl⟩
  · simp at h

theorem hexGroups_nil (fuel : Nat) : hexGroups fuel [] = some [] := by
  cases fuel <;> simp [hexGroups]

theorem hexGroups_prefix : ∀ (n : Nat) (s : List Char), s.length = 4 * n → isBits s →
    ∃ H, H.length = n ∧ (∀ c ∈ H, c ≠ '_') ∧
      (∀ (rest : List Char) (fuel : Nat),
        hexGroups (n + fuel) (s ++ rest) = (hexGroups fuel rest).map fun r => H ++ r) ∧
      ∀ (size : Nat) (tail : List Char) (i : Nat) (acc : List Char),
        tail.head? ≠ some '_' →
        toBitStringLoop size (H ++ tail) i acc = toBitStringLoop size tail (i + n) (acc ++ s)
  | 0, s, hlen, _ => by
    have hs : s = [] := List.length_eq_zero.mp (by omega)
    subst hs
    exact ⟨[], rfl, by simp, by simp, by simp⟩
  | n + 1, s, hlen, hb => by
    have hne : s ≠ [] := by intro e; rw [e] at hlen; simp at hlen
    have htake : (s.take 4).length = 4 := by rw [List.length_take]; omega
    obtain ⟨a, b, c, d, hg⟩ := list_four _ htake
    have hbg := isBits_take s hb 4
    rw [hg] at hbg
    obtain ⟨x, hx, hx16, hx2, hx3, hx4⟩ := hexGroup_full a b c d (hbg a (by simp))
      (hbg b (by simp)) (hbg c (by simp)) (hbg d (by simp))
    obtain ⟨H, hHlen, hHne, hgroups, hloop⟩ := hexGroups_prefix n (s.drop 4)
      (by rw [List.length_drop]; omega) (isBits_drop s hb 4)
    refine ⟨hexChar x :: H, by simp [hHlen], ?_, ?_, ?_⟩
    · intro ch hch
      rcases List.mem_cons.mp hch with e | e
      · rw [e]; exact hx3
      · exact hHne ch e
    · intro rest fuel
      have e1 : n + 1 + fuel = (n + fuel) + 1 := by omega
      have hne2 : s ++ rest ≠ [] := by simp [hne]
      have ht : (s ++ rest).take 4 = [a, b, c, d] := by
        rw [List.take_append_of_le_length (by omega), hg]
      have hd : (s ++ rest).drop 4 = s.drop 4 ++ rest := by
        rw [List.drop_append_of_le_length (by omega)]
      rw [e1, hexGroups, if_neg hne2, ht, hd, hx, hgroups rest fuel]
      cases hexGroups fuel rest with
      | none => rfl
      | some r => simp [hx16]
    · intro size tail i acc htail
      have hhead : (H ++ tail).head? ≠ some '_' := by
        cases H with
        | nil => simpa using htail
        | cons h0 H0 =>
          simp only [List.cons_append, List.head?_cons, ne_eq, Option.some.injEq]
          exact hHne h0 (by simp)
      rw [List.cons_append, toBitStringLoop, if_neg (fun hcon => hhead hcon.2), hx2]
      simp only [addBinaryNumberToString]
      rw [if_neg (by simp), if_neg (by simp)]
      simp only [Int.toNat_ofNat, Int.toNat_ofNat]
      have e4 : (4 : Int).toNat = 4 := rfl
      rw [e4, hx4, hloop size tail (i + 1) _ htail, ← hg]
      rw [List.append_assoc, List.take_append_drop]
      congr 1
      omega

theorem hexGroup_tagged (t : List Char) (hb : isBits t) (h1 : 1 ≤ t.length)
    (h3 : t.length ≤ 3) :
    ∃ x v, stoi2 0 (t ++ '1' :: List.replicate (3 - t.length) '0') = some x ∧ x < 16 ∧
      stoi16 (hexChar x) = some x ∧ hexChar x ≠ '_' ∧
      stripCompletionTag 5 x 4 = some (v, (t.length : Int)) ∧
      (lowBits t.length v).reverse = t := by
  rcases t with _ | ⟨a, _ | ⟨b, _ | ⟨c, _ | ⟨d, t⟩⟩⟩⟩
  · simp at h1
  · rcases hb a (by simp) with rfl | rfl <;>
      exact ⟨_, _, rfl, by decide, by decide, by decide, rfl, by decide⟩
  · rcases hb a (by simp) with rfl | rfl <;> rcases hb b (by simp) with rfl | rfl <;>
      exact ⟨_, _, rfl, by decide, by decide, by decide, rfl, by decide⟩
  · rcases hb a (by simp) with rfl | rfl <;> rcases hb b (by simp) with rfl | rfl <;>
      rcases hb c (by simp) with rfl | rfl <;>
      exact ⟨_, _, rfl, by decide, by decide, by decide, rfl, by decide⟩
  · simp at h3

theorem binaryStringToSlice_split (n : Nat) (s0 t : List Char) (h0 : s0.length = 4 * n)
    (hb0 : isBits s0) (hbt : isBits t) (h3 : t.length ≤ 3) :
    ∃ h, binaryStringToSlice (s0 ++ t) = some h ∧
      toBitString (String.mk ('x' :: h)) = some (s0 ++ t) := by
  obtain ⟨H, hHlen, hHne, hgroups, hloop⟩ := hexGroups_prefix n s0 h0 hb0
  have hlen : (s0 ++ t).length = 4 * n + t.length := by rw [List.length_append, h0]
  by_cases hr : t.length = 0
  · -- no completion tag
    have ht : t = [] := List.length_eq_zero.mp hr
    subst ht
    refine ⟨H, ?_, ?_⟩
    · unfold binaryStringToSlice
      have hm : (s0 ++ []).length % 4 = 0 := by rw [hlen]; simp
      simp only [hm, ne_eq, not_true_eq_false, decide_False, Bool.false_eq_true, if_false]
      have e : (s0 ++ []).length + 1 = n + (3 * n + 1) := by rw [hlen]; simp; omega
      rw [e, hgroups, hexGroups_nil]
      simp
    · unfold toBitString
      simp only [if_true]
      have := hloop (H.length + 1) [] 1 [] (by simp)
      rw [List.append_nil] at this
      simp only [List.length_cons]
      rw [this]
      simp [toBitStringLoop]
  · -- completion tag
    obtain ⟨x, v, hx, hx16, hx2, hx3, hstrip, hlow⟩ := hexGroup_tagged t hbt (by omega) h3
    refine ⟨H ++ [hexChar x, '_'], ?_, ?_⟩
    · unfold binaryStringToSlice
      have hm : (s0 ++ t).length % 4 ≠ 0 := by rw [hlen]; omega
      have hpad : (4 - (s0 ++ t ++ ['1']).length % 4) % 4 = 3 - t.length := by
        rw [List.length_append, hlen, List.length_singleton]
        omega
      simp only [hm, ne_eq, not_false_eq_true, decide_True, if_true, hpad]
      have hs : s0 ++ t ++ ['1'] ++ List.replicate (3 - t.length) '0'
          = s0 ++ (t ++ '1' :: List.replicate (3 - t.length) '0') := by
        simp [List.append_assoc]
      have hl4 : (t ++ '1' :: List.replicate (3 - t.length) '0').length = 4 := by
        rw [List.length_append, List.length_cons, List.length_replicate]
        omega
      have hfuel : (s0 ++ (t ++ '1' :: List.replicate (3 - t.length) '0')).length + 1
          = n + (3 * n + 5) := by
        rw [List.length_append, hl4, h0]; omega
      have hone : hexGroups (3 * n + 5) (t ++ '1' :: List.replicate (3 - t.length) '0')
          = some [hexChar x] := by
        have hne : t ++ '1' :: List.replicate (3 - t.length) '0' ≠ [] := by simp
        rw [hexGroups, if_neg hne, List.take_of_length_le (by omega),
          List.drop_of_length_le (by omega), hx, hexGroups_nil]
        simp [hx16]
      rw [hs, hfuel, hgroups, hone]
      simp
    · unfold toBitString
      simp only [if_true]
      have := hloop (H.length + 3) [hexChar x, '_'] 1 [] (by
        simp only [List.head?_cons, ne_eq, Option.some.injEq]; exact hx3)
      simp only [List.length_cons, List.length_append, List.length_nil]
      rw [this, toBitStringLoop, if_pos ⟨by omega, rfl⟩, hx2]
      simp only [hstrip, addBinaryNumberToString]
      rw [if_neg (by simp), if_neg (by omega)]
      simp only [Int.toNat_ofNat, List.nil_append, hlow]

theorem binaryStringToSlice_round_trip (s : List Char) (hb : isBits s) :
    ∃ h, binaryStringToSlice s = some h ∧ toBitString (String.mk ('x' :: h)) = some s := by
  have h := binaryStringToSlice_split (s.length / 4) (s.take (4 * (s.length / 4)))
    (s.drop (4 * (s.length / 4))) (by rw [List.length_take]; omega) (isBits_take s hb _)
    (isBits_drop s hb _) (by rw [List.length_drop]; omega)
  rwa [List.take_append_drop] at h

theorem chunks_spec (step : Nat) (hstep : 0 < step) : ∀ (fuel : Nat) (s : List Char),
    s.length < fuel →
    (chunks step fuel s).flatten = s ∧
      (chunks step fuel s).length = (s.length + step - 1) / step ∧
      (∀ piece ∈ (chunks step fuel s).dropLast, piece.length = step) ∧
      (∀ piece ∈ chunks step fuel s, piece.length ≤ step) ∧
      (isBits s → ∀ piece ∈ chunks step fuel s, isBits piece)
  | 0, s, h => absurd h (Nat.not_lt_zero _)
  | fuel + 1, s, h => by
    by_cases hs : s = []
    · subst hs
      have e : (step - 1) / step = 0 := Nat.div_eq_of_lt (by omega)
      simp [chunks, e]
    · have hpos : 0 < s.length := List.length_pos.mpr hs
      obtain ⟨h1, h2, h3, h4, h5⟩ := chunks_spec step hstep fuel (s.drop step)
        (by rw [List.length_drop]; omega)
      rw [chunks, if_neg hs]
      refine ⟨?_, ?_, ?_, ?_, ?_⟩
      · rw [List.flatten_cons, h1, List.take_append_drop]
      · rw [List.length_cons, h2, List.length_drop]
        by_cases hle : s.length ≤ step
        · have e1 : s.length - step = 0 := by omega
          have e2 : (0 + step - 1) / step = 0 := Nat.div_eq_of_lt (by omega)
          have e3 : (s.length + step - 1) / step = 1 := by
            have : s.length + step - 1 = (s.length - 1) + step := by omega
            rw [this, Nat.add_div_right _ hstep, Nat.div_eq_of_lt (by omega)]
          rw [e1, e2, e3]
        · have e1 : s.length + step - 1 = (s.length - step + step - 1) + step := by omega
          rw [e1, Nat.add_div_right _ hstep]
      · intro piece hp
        cases hc : chunks step fuel (s.drop step) with
        | nil => rw [hc] at hp; simp at hp
        | cons c cs =>
          rw [hc, List.dropLast_cons₂] at hp
          rcases List.mem_cons.mp hp with e | e
          · rw [e, List.length_take]
            have hne : s.drop step ≠ [] := by
              intro e0
              rw [e0] at hc
              cases fuel <;> simp [chunks] at hc
            have : 0 < (s.drop step).length := List.length_pos.mpr hne
            rw [List.length_drop] at this
            omega
          · apply h3
            rw [hc]
            exact e
      · intro piece hp
        rcases List.mem_cons.mp hp with e | e
        · rw [e, List.length_take]; omega
        · exact h4 piece e
      · intro hb piece hp
        rcases List.mem_cons.mp hp with e | e
        · rw [e]; exact isBits_take s hb step
        · exact h5 (isBits_drop s hb step) piece e

theorem slicesOf_spec : ∀ (pieces : List (List Char)), (∀ piece ∈ pieces, isBits piece) →
    ∃ lits, slicesOf pieces = some lits ∧ lits.map toBitString = pieces.map some ∧
      ∀ l ∈ lits, ∃ h, l = String.mk ('x' :: h)
  | [], _ => ⟨[], rfl, rfl, by simp⟩
  | o :: rest, hb => by
    obtain ⟨h, e1, e2⟩ := binaryStringToSlice_round_trip o (hb o (by simp))
    obtain ⟨lits, f1, f2, f3⟩ := slicesOf_spec rest (fun piece hp => hb piece (by simp [hp]))
    refine ⟨String.mk ('x' :: h) :: lits, ?_, ?_, ?_⟩
    · rw [slicesOf, e1, f1]
    · rw [List.map_cons, List.map_cons, e2, f2]
    · intro l hl
      rcases List.mem_cons.mp hl with e | e
      · exact ⟨h, e⟩
      · exact f3 l e

theorem unitBitString_spec (tc : TvmConst) (hM : 0 < tc.MaxPushSliceBitLength)
    (a b : List Char) (ha : isBits a) (hb : isBits b) :
    ∃ (lits : List String) (pieces : List (List Char)), unitBitString tc a b = some lits ∧
      lits.length = (a.length + b.length + (4 * tc.MaxPushSliceBitLength).toNat - 1) /
        (4 * tc.MaxPushSliceBitLength).toNat ∧
      (∀ l ∈ lits, ∃ h, l = String.mk ('x' :: h)) ∧
      lits.map toBitString = pieces.map some ∧ pieces.flatten = a ++ b ∧
      (∀ piece ∈ pieces.dropLast, piece.length = (4 * tc.MaxPushSliceBitLength).toNat) ∧
      (lits.length = 1 ↔ 0 < a.length + b.length ∧
        a.length + b.length ≤ (4 * tc.MaxPushSliceBitLength).toNat) := by
  have hstep : 0 < (4 * tc.MaxPushSliceBitLength).toNat := by omega
  have hab : isBits (a ++ b) := by
    intro c hc
    rcases List.mem_append.mp hc with e | e
    · exact ha c e
    · exact hb c e
  obtain ⟨h1, h2, h3, _, h5⟩ := chunks_spec _ hstep ((a ++ b).length + 1) (a ++ b)
    (Nat.lt_succ_self _)
  obtain ⟨lits, f1, f2, f3⟩ := slicesOf_spec _ (h5 hab)
  have hlen : lits.length
      = (a.length + b.length + (4 * tc.MaxPushSliceBitLength).toNat - 1) /
        (4 * tc.MaxPushSliceBitLength).toNat := by
    have := congrArg List.length f2
    rw [List.length_map, List.length_map, h2, List.length_append] at this
    exact this
  refine ⟨lits, _, ?_, hlen, f3, f2, h1, h3, ?_⟩
  · unfold unitBitString
    simp only
    rw [if_neg (by omega)]
    exact f1
  · rw [hlen]
    generalize (4 * tc.MaxPushSliceBitLength).toNat = step at hstep
    generalize a.length + b.length = m
    constructor
    · intro h
      have hlt := Nat.div_lt_iff_lt_mul hstep |>.mp (by rw [h]; exact Nat.lt_succ_self 1)
      have hge := (Nat.le_div_iff_mul_le hstep).mp (le_of_eq h.symm)
      omega
    · rintro ⟨hm1, hm2⟩
      have e : m + step - 1 = (m - 1) + step := by omega
      rw [e, Nat.add_div_right _ hstep, Nat.div_eq_of_lt (by omega)]

end TVMOptimizer

/-- C35: for every string `s` of binary digits, `binaryStringToSlice(s)` returns a literal
and `toBitString("x" + binaryStringToSlice(s))` returns `s`. -/
theorem C35_slice_round_trip (s : List Char) (hb : TVMOptimizer.isBits s) :
    ∃ h, TVMOptimizer.binaryStringToSlice s = some h ∧
      TVMOptimizer.toBitString ("x" ++ String.mk h) = some s := by
  obtain ⟨h, e1, e2⟩ := TVMOptimizer.binaryStringToSlice_round_trip s hb
  exact ⟨h, e1, e2⟩

/-- C35 at the empty string and at the five digits `10110`. -/
theorem C35_slice_round_trip_witness :
    (∃ h, TVMOptimizer.binaryStringToSlice [] = some h ∧
      TVMOptimizer.toBitString ("x" ++ String.mk h) = some []) ∧
    (∃ h, TVMOptimizer.binaryStringToSlice ['1', '0', '1', '1', '0'] = some h ∧
      TVMOptimizer.toBitString ("x" ++ String.mk h) = some ['1', '0', '1', '1', '0']) :=
  ⟨C35_slice_round_trip [] (by intro c hc; simp at hc),
    C35_slice_round_trip ['1', '0', '1', '1', '0'] (by
      intro c hc
      simp only [List.mem_cons, List.mem_singleton, List.not_mem_nil, or_false] at hc
      rcases hc with rfl | rfl | rfl | rfl | rfl <;> simp)⟩


/-- C34: for a positive `MaxPushSliceBitLength` and bit strings `A` and `B`,
`unitBitString(A, B)` returns `ceil((|A| + |B|) / (4 * MaxPushSliceBitLength))` literals,
each of the form `x<hex>`; their `toBitString` decodings are pieces whose concatenation is
`A` followed by `B`, every piece except possibly the last of exactly
`4 * MaxPushSliceBitLength` bits; and the result is a single literal exactly when
`0 < |A| + |B| ≤ 4 * MaxPushSliceBitLength`. -/
theorem C34_slice_fusion (tc : TVMOptimizer.TvmConst) (hM : 0 < tc.MaxPushSliceBitLength)
    (a b : List Char) (ha : TVMOptimizer.isBits a) (hb : TVMOptimizer.isBits b) :
    ∃ (lits : List String) (pieces : List (List Char)),
      TVMOptimizer.unitBitString tc a b = some lits ∧
      lits.length = (a.length + b.length + (4 * tc.MaxPushSliceBitLength).toNat - 1) /
        (4 * tc.MaxPushSliceBitLength).toNat ∧
      (∀ l ∈ lits, ∃ h, l = String.mk ('x' :: h)) ∧
      lits.map TVMOptimizer.toBitString = pieces.map some ∧ pieces.flatten = a ++ b ∧
      (∀ piece ∈ pieces.dropLast, piece.length = (4 * tc.MaxPushSliceBitLength).toNat) ∧
      (lits.length = 1 ↔ 0 < a.length + b.length ∧
        a.length + b.length ≤ (4 * tc.MaxPushSliceBitLength).toNat) :=
  TVMOptimizer.unitBitString_spec tc hM a b ha hb

/-- C34 at the bit strings `101` and `1` with `MaxPushSliceBitLength = 248`. -/
theorem C34_slice_fusion_witness :
    ∃ (lits : List String) (pieces : List (List Char)),
      TVMOptimizer.unitBitString sampleTvmConst ['1', '0', '1'] ['1'] = some lits ∧
      lits.length = (3 + 1 + (4 * sampleTvmConst.MaxPushSliceBitLength).toNat - 1) /
        (4 * sampleTvmConst.MaxPushSliceBitLength).toNat ∧
      (∀ l ∈ lits, ∃ h, l = String.mk ('x' :: h)) ∧
      lits.map TVMOptimizer.toBitString = pieces.map some ∧
      pieces.flatten = ['1', '0', '1'] ++ ['1'] ∧
      (∀ piece ∈ pieces.dropLast,
        piece.length = (4 * sampleTvmConst.MaxPushSliceBitLength).toNat) ∧
      (lits.length = 1 ↔ 0 < 3 + 1 ∧
        3 + 1 ≤ (4 * sampleTvmConst.MaxPushSliceBitLength).toNat) :=
  C34_slice_fusion sampleTvmConst (by decide) ['1', '0', '1'] ['1']
    (by
      intro c hc
      simp only [List.mem_cons, List.mem_singleton, List.not_mem_nil, or_false] at hc
      rcases hc with rfl | rfl | rfl <;> simp)
    (by
      intro c hc
      simp only [List.mem_singleton] at hc
      rw [hc]; simp)

theorem StackPusherHelper.wrapInRef_ne (q r : StackPusherHelper) (h : q.wrapInRef = some r) :
    r ≠ q := by
  unfold StackPusherHelper.wrapInRef at h
  cases h1 : q.push 0 "NEWC" with
  | none => rw [h1] at h; cases h
  | some q1 =>
    rw [h1, Option.some_bind] at h
    have k1 := StackPusherHelper.push_keep (by decide) (by decide) h1
    have k2 := StackPusherHelper.push_keep (by decide) (by decide) h
    intro e
    have := congrArg (fun x => x.m_code.lines.length) e
    simp only [k2.2.2.1, k1.2.2.1, List.length_append, List.length_singleton] at this
    omega


theorem StackPusherHelper.prepareBuilderValue_boxed (denv : DictEnv) (cenv : CodecEnv)
    (keyType valueType : SolType) (isValueBuilder : Bool) (p : StackPusherHelper)
    (result : DataType × StackPusherHelper) (fit : Bool)
    (hs : denv.toDictValueType valueType.category ≠ some DictValueType.Struct)
    (h : p.prepareBuilderValue denv cenv keyType valueType isValueBuilder = some result)
    (hf : doesFitInOneCellAndHaveNoStruct denv keyType valueType = some fit) :
    specBoxed denv cenv valueType isValueBuilder p result ↔ (!fit) = true := by
  unfold StackPusherHelper.prepareBuilderValue at h
  cases hq : p.valueToBuilder cenv valueType isValueBuilder with
  | none => rw [hq] at h; cases h
  | some q =>
    rw [hq, Option.some_bind, hf] at h
    simp only at h
    cases fit
    · simp only [Bool.false_eq_true, not_false_eq_true, if_true] at h
      cases hw : q.wrapInRef with
      | none => rw [hw] at h; cases h
      | some r =>
        rw [hw] at h
        simp only [Option.map_some', Option.some.injEq] at h
        subst h
        simp only [Bool.not_false, iff_true]
        exact Or.inr ⟨rfl, hs, q, hq, hw⟩
    · simp only [not_true_eq_false, if_false, Option.some.injEq] at h
      subst h
      simp only [Bool.not_true, Bool.false_eq_true, iff_false]
      rintro (hc | ⟨_, _, q', hq', hw⟩)
      · cases hc
      · rw [hq, Option.some.injEq] at hq'
        subst hq'
        exact StackPusherHelper.wrapInRef_ne q q hw rfl

theorem specBoxed_cell (denv : DictEnv) (cenv : CodecEnv) (valueType : SolType)
    (isValueBuilder : Bool) (p : StackPusherHelper) (result : DataType × StackPusherHelper)
    (x : Option StackPusherHelper) (h : x.map (fun q => (DataType.Cell, q)) = some result) :
    specBoxed denv cenv valueType isValueBuilder p result := by
  cases x with
  | none => cases h
  | some q =>
    simp only [Option.map_some', Option.some.injEq] at h
    subst h
    exact Or.inl rfl

theorem specBoxed_unchanged (denv : DictEnv) (cenv : CodecEnv) (valueType : SolType)
    (isValueBuilder : Bool) (p : StackPusherHelper) (result : DataType × StackPusherHelper)
    (h : some (if isValueBuilder = true then DataType.Builder else DataType.Slice, p)
      = some result) :
    ¬ specBoxed denv cenv valueType isValueBuilder p result := by
  simp only [Option.some.injEq] at h
  subst h
  rintro (hc | ⟨hc, _, q, hq, hw⟩)
  · cases isValueBuilder <;> simp at hc
  · cases isValueBuilder
    · simp at hc
    · simp only [StackPusherHelper.valueToBuilder, not_true_eq_false, if_false,
        Option.some.injEq] at hq
      subst hq
      exact StackPusherHelper.wrapInRef_ne _ _ hw rfl

/-- C33: whenever `prepareValueForDictOperations(K, V, isValueBuilder)` and
`doesDictStoreValueInRef(K, V)` both return, the value is boxed by the first (it returns
`DataType::Cell`, or it wraps the value builder into a fresh builder with `NEWC; STBREF`)
if and only if the second returns true. -/
theorem C33_boxing_agrees (denv : DictEnv) (cenv : CodecEnv) (keyType valueType : SolType)
    (isValueBuilder : Bool) (p : StackPusherHelper) (result : DataType × StackPusherHelper)
    (b : Bool)
    (h : p.prepareValueForDictOperations denv cenv keyType valueType isValueBuilder
      = some result)
    (hb : doesDictStoreValueInRef denv keyType valueType = some b) :
    specBoxed denv cenv valueType isValueBuilder p result ↔ b = true := by
  unfold StackPusherHelper.prepareValueForDictOperations at h
  unfold doesDictStoreValueInRef at hb
  have general : ∀ fit, doesFitInOneCellAndHaveNoStruct denv keyType valueType = some fit →
      denv.toDictValueType valueType.category ≠ some DictValueType.Struct →
      p.prepareBuilderValue denv cenv keyType valueType isValueBuilder = some result →
      (specBoxed denv cenv valueType isValueBuilder p result ↔ (!fit) = true) :=
    fun fit hf hs hp =>
      StackPusherHelper.prepareBuilderValue_boxed denv cenv keyType valueType isValueBuilder
        p result fit hs hp hf
  have cell := specBoxed_cell denv cenv valueType isValueBuilder p result
  have same := specBoxed_unchanged denv cenv valueType isValueBuilder p result
  cases hc : denv.toDictValueType valueType.category with
  | none => rw [hc] at h; cases h
  | some c =>
    rw [hc] at h hb general
    cases hfit : doesFitInOneCellAndHaveNoStruct denv keyType valueType with
    | none =>
      rw [hfit] at hb
      cases c <;> simp only [Option.map_none', reduceCtorEq] at hb <;>
        simp only [hfit] at h
      case Array =>
        by_cases ha : denv.isByteArrayOrString valueType = true
        · rw [if_pos ha] at h hb
          cases hb
          exact ⟨fun _ => rfl, fun _ => cell _ h⟩
        · rw [if_neg ha] at hb; cases hb
      case TvmCell =>
        cases hb
        exact ⟨fun _ => rfl, fun _ => cell _ h⟩
      case TvmSlice =>
        cases hb
        exact ⟨fun hx => absurd hx (same h), fun hx => by cases hx⟩
    | some fit =>
      rw [hfit] at hb general
      have g := general fit rfl
      cases c <;> simp only [Option.map_some', Option.some.injEq, reduceCtorEq] at hb <;>
        simp only [hfit] at h
      case Address =>
        subst hb
        cases fit
        · simp only [Bool.false_eq_true, not_false_eq_true, if_true] at h
          cases isValueBuilder
          · simp only [Bool.false_eq_true, if_false] at h
            cases h1 : p.push 1 "NEWC" with
            | none => rw [h1] at h; cases h
            | some p1 =>
              rw [h1, Option.some_bind] at h
              cases h2 : p1.push (-1) "STSLICE" with
              | none => rw [h2] at h; cases h
              | some p2 =>
                rw [h2, Option.some_bind] at h
                exact ⟨fun _ => rfl, fun _ => cell _ h⟩
          · simp at h
        · simp only [not_true_eq_false, if_false] at h
          exact ⟨fun hx => absurd hx (same h), fun hx => by cases hx⟩
      case Contract =>
        subst hb
        cases fit
        · simp only [Bool.false_eq_true, not_false_eq_true, if_true] at h
          cases isValueBuilder
          · simp only [Bool.false_eq_true, if_false] at h
            cases h1 : p.push 1 "NEWC" with
            | none => rw [h1] at h; cases h
            | some p1 =>
              rw [h1, Option.some_bind] at h
              cases h2 : p1.push (-1) "STSLICE" with
              | none => rw [h2] at h; cases h
              | some p2 =>
                rw [h2, Option.some_bind] at h
                exact ⟨fun _ => rfl, fun _ => cell _ h⟩
          · simp at h
        · simp only [not_true_eq_false, if_false] at h
          exact ⟨fun hx => absurd hx (same h), fun hx => by cases hx⟩
      case Array =>
        by_cases ha : denv.isByteArrayOrString valueType = true
        · rw [if_pos ha] at h hb
          cases hb
          exact ⟨fun _ => rfl, fun _ => cell _ h⟩
        · rw [if_neg ha] at h hb
          simp only [Option.some.injEq] at hb
          subst hb
          exact g (by simp) h
      case Struct =>
        subst hb
        cases hq : (if ¬ isValueBuilder = true then cenv.tupleToBuilder valueType p
            else some p) with
        | none => rw [hq] at h; cases h
        | some q =>
          rw [hq, Option.some_bind] at h
          cases fit
          · simp only [Bool.false_eq_true, not_false_eq_true, if_true] at h
            exact ⟨fun _ => rfl, fun _ => cell _ h⟩
          · simp only [not_true_eq_false, if_false, Option.some.injEq] at h
            subst h
            refine ⟨?_, fun hx => by cases hx⟩
            rintro (hx | ⟨_, hx, _⟩)
            · cases hx
            · exact absurd hc hx
      case TvmCell =>
        cases hb
        exact ⟨fun _ => rfl, fun _ => cell _ h⟩
      case TvmSlice =>
        cases hb
        exact ⟨fun hx => absurd hx (same h), fun hx => by cases hx⟩
      all_goals (subst hb; exact g (by simp) h)

/-- C33 on the sample environment, for keys `uint256` and values `uint8` (stored inline) and
for the same keys and values of type cell (boxed). -/
theorem C33_boxing_agrees_witness :
    (specBoxed sampleDictEnv exampleCodecEnv (.Integer 8 false) true ⟨⟨[], 0⟩, ⟨1, []⟩⟩
        (DataType.Builder, ⟨⟨[], 0⟩, ⟨1, []⟩⟩) ↔ false = true) ∧
      (specBoxed sampleDictEnv exampleCodecEnv .TvmCell true ⟨⟨[], 0⟩, ⟨1, []⟩⟩
        (DataType.Cell, ⟨⟨["ENDC"], 0⟩, ⟨1, []⟩⟩) ↔ true = true) :=
  ⟨C33_boxing_agrees sampleDictEnv exampleCodecEnv (.Integer 256 false) (.Integer 8 false) true
      ⟨⟨[], 0⟩, ⟨1, []⟩⟩ (DataType.Builder, ⟨⟨[], 0⟩, ⟨1, []⟩⟩) false (by decide) (by decide),
    C33_boxing_agrees sampleDictEnv exampleCodecEnv (.Integer 256 false) .TvmCell true
      ⟨⟨[], 0⟩, ⟨1, []⟩⟩ (DataType.Cell, ⟨⟨["ENDC"], 0⟩, ⟨1, []⟩⟩) true (by decide)
      (by decide)⟩

theorem chunks_of_nil (step fuel : Nat) : TVMOptimizer.chunks step fuel [] = [] := by
  cases fuel <;> simp [TVMOptimizer.chunks]

theorem substr_take (s : String) (start q : Nat) (hq : 0 < q) (hs : start ≤ s.length) :
    substr s (start : Int) (min (q : Int) ((s.length : Int) - start))
      = some (String.mk ((s.data.drop start).take q)) := by
  unfold substr
  rw [if_neg (by omega), if_neg (by omega)]
  congr 2
  by_cases h : (q : Int) ≤ (s.length : Int) - start
  · rw [min_eq_left h]; simp
  · rw [min_eq_right (by omega)]
    have e : ((s.length : Int) - start).toNat = s.length - start := by omega
    rw [e, Int.toNat_ofNat]
    have hl : (s.data.drop start).length = s.length - start := by
      rw [List.length_drop]; rfl
    rw [List.take_of_length_le (by omega), List.take_of_length_le (by omega)]

theorem StackPusherHelper.startCell_spec (env : StringEnv)
    (h1 : env.codeLinesAddTabsDefault = 1) (p : StackPusherHelper) (ht : 0 ≤ p.m_code.tabQty) :
    p.startCell env = some ⟨⟨p.m_code.lines ++ [tabs p.m_code.tabQty ++ ".cell \x7b"],
      p.m_code.tabQty + 1⟩, p.m_stack⟩ := by
  unfold StackPusherHelper.startCell
  rw [CodeLines.push_of_keep _ _ (by decide) ht, h1]
  simp [loggedLine, CodeLines.addTabs]

theorem blob_run (p : StackPusherHelper) (payload : String) (ht : 0 ≤ p.m_code.tabQty) :
    p.push 0 (".blob x" ++ payload)
      = some ⟨⟨p.m_code.lines ++ [tabs p.m_code.tabQty ++ (".blob x" ++ payload)],
          p.m_code.tabQty⟩, p.m_stack⟩ :=
  push_zero_run p _ (command_length _ _ (by decide)) ht

theorem pushStringLoop_tail (env : StringEnv) (h1 : env.codeLinesAddTabsDefault = 1)
    (hexStr : String) (q : Nat) (hq : 0 < q) :
    ∀ (fuel : Nat) (start : Nat) (p : StackPusherHelper) (builderQty : Int),
      0 < start → start < hexStr.length → hexStr.length - start < fuel →
      0 ≤ p.m_code.tabQty →
      pushStringLoop env hexStr q hexStr.length fuel p start builderQty
        = some (⟨⟨p.m_code.lines ++
              specCellLines p.m_code.tabQty
                (TVMOptimizer.chunks q fuel (hexStr.data.drop start)),
            p.m_code.tabQty + (TVMOptimizer.chunks q fuel (hexStr.data.drop start)).length⟩,
            p.m_stack⟩,
          builderQty + (TVMOptimizer.chunks q fuel (hexStr.data.drop start)).length)
  | 0, _, _, _, _, _, hf, _ => absurd hf (Nat.not_lt_zero _)
  | fuel + 1, start, p, builderQty, h0, hlt, hf, ht => by
    have hne : hexStr.data.drop start ≠ [] := by
      intro e
      have := congrArg List.length e
      rw [List.length_drop] at this
      have hl : hexStr.data.length = hexStr.length := rfl
      simp only [List.length_nil] at this
      omega
    rw [pushStringLoop, substr_take hexStr start q hq (by omega)]
    simp only
    rw [if_pos (by omega), StackPusherHelper.startCell_spec env h1 p ht, Option.some_bind,
      blob_run _ _ (by simp only; omega), Option.some_bind, TVMOptimizer.chunks, if_neg hne]
    simp only
    by_cases hc : (start : Int) + q < hexStr.length
    · rw [if_pos hc]
      have ih := pushStringLoop_tail env h1 hexStr q hq fuel (start + q)
        ⟨⟨p.m_code.lines ++ [tabs p.m_code.tabQty ++ ".cell \x7b"] ++
            [tabs (p.m_code.tabQty + 1) ++
              (".blob x" ++ String.mk ((hexStr.data.drop start).take q))],
          p.m_code.tabQty + 1⟩, p.m_stack⟩ (builderQty + 1) (by omega) (by omega) (by omega)
        (by simp only; omega)
      simp only [Nat.cast_add, List.drop_drop] at ih ⊢
      rw [ih]
      simp only [specCellLines, List.length_cons, List.append_assoc, List.singleton_append,
        Nat.cast_add, Nat.cast_one, Option.some.injEq, Prod.mk.injEq,
        StackPusherHelper.mk.injEq, CodeLines.mk.injEq, List.cons_append, List.nil_append,
        true_and, and_true]
      constructor <;> omega
    · rw [if_neg hc]
      have hd : (hexStr.data.drop start).drop q = [] := by
        apply List.drop_of_length_le
        rw [List.length_drop]
        have hl : hexStr.data.length = hexStr.length := rfl
        omega
      rw [hd, chunks_of_nil]
      simp [specCellLines]


theorem pushStringLoop_first (env : StringEnv) (h1 : env.codeLinesAddTabsDefault = 1)
    (hexStr : String) (q : Nat) (hq : 0 < q) (fuel : Nat) (hf : hexStr.length ≤ fuel)
    (p : StackPusherHelper) (ht : 0 ≤ p.m_code.tabQty) :
    pushStringLoop env hexStr q hexStr.length (fuel + 1) p 0 0
      = some ((⟨⟨p.m_code.lines ++
            (tabs p.m_code.tabQty ++ (".blob x" ++ String.mk (hexStr.data.take q))) ::
              specCellLines p.m_code.tabQty
                (TVMOptimizer.chunks q fuel (hexStr.data.drop q)),
          p.m_code.tabQty + (TVMOptimizer.chunks q fuel (hexStr.data.drop q)).length⟩,
          p.m_stack⟩ : StackPusherHelper),
        1 + ((TVMOptimizer.chunks q fuel (hexStr.data.drop q)).length : Int)) := by
  have hsub := substr_take hexStr 0 q hq (Nat.zero_le _)
  simp only [Nat.cast_zero, List.drop_zero] at hsub
  rw [pushStringLoop, hsub]
  simp only
  rw [if_neg (by omega), Option.some_bind, blob_run _ _ ht, Option.some_bind]
  by_cases hc : (0 : Int) + q < hexStr.length
  · rw [if_pos hc]
    have ih := pushStringLoop_tail env h1 hexStr q hq fuel q
      ⟨⟨p.m_code.lines ++
          [tabs p.m_code.tabQty ++ (".blob x" ++ String.mk (hexStr.data.take q))],
        p.m_code.tabQty⟩, p.m_stack⟩ (0 + 1) hq (by omega) (by omega) ht
    simp only [zero_add] at ih ⊢
    rw [ih]
    simp
  · rw [if_neg hc]
    have hd : hexStr.data.drop q = [] := by
      apply List.drop_of_length_le
      have hl : hexStr.data.length = hexStr.length := rfl
      omega
    rw [hd, chunks_of_nil]
    simp [specCellLines]

theorem endContinuations_spec (env : StringEnv) (h2 : env.endContinuationDefault = 0) :
    ∀ (n : Nat) (p : StackPusherHelper), (n : Int) ≤ p.m_code.tabQty →
      endContinuations env n p
        = some ⟨⟨p.m_code.lines ++ specClosers p.m_code.tabQty n, p.m_code.tabQty - n⟩,
            p.m_stack⟩
  | 0, p, _ => by simp [endContinuations, specClosers]
  | n + 1, p, h => by
    have hh : (0 : Int) ≤ p.m_code.tabQty - 1 := by push_cast at h; omega
    have hn : (n : Int) ≤ p.m_code.tabQty - 1 := by push_cast at h; omega
    have e : p.endContinuation 0
        = some ⟨⟨p.m_code.lines ++ [tabs (p.m_code.tabQty - 1) ++ "\x7d"],
            p.m_code.tabQty - 1⟩, p.m_stack⟩ := by
      unfold StackPusherHelper.endContinuation CodeLines.endContinuation
      rw [TVMStack.change_zero, CodeLines.push_of_keep _ _ (by decide) hh]
      simp only [Option.some_bind]
      rw [if_neg (not_lt.mpr hh)]
      simp [loggedLine]
    rw [endContinuations, h2, e, Option.some_bind, endContinuations_spec env h2 n _ hn]
    simp only [specClosers, List.append_assoc, List.singleton_append, Nat.cast_add,
      Nat.cast_one, Option.some.injEq, StackPusherHelper.mk.injEq, CodeLines.mk.injEq,
      true_and, and_true]
    omega

theorem StackPusherHelper.pushString_boxed (env : StringEnv)
    (h0 : env.addTabsDefault = 1) (h1 : env.codeLinesAddTabsDefault = 1)
    (h2 : env.endContinuationDefault = 0) (q : Nat) (hq : 0 < q)
    (hsym : ((env.CellBitLength.tdiv 8) * 8).tdiv 4 = q)
    (str : String) (toSlice : Bool) (fuel : Nat)
    (hf : (env.stringToBytes str).length < fuel)
    (hbox : ¬ (4 * ((env.stringToBytes str).length : Int) ≤ env.MaxPushSliceBitLength ∧
      toSlice = true))
    (p : StackPusherHelper) (ht : 0 ≤ p.m_code.tabQty) (hs : 0 ≤ p.m_stack.m_size + 1) :
    p.pushString env fuel str toSlice
      = some ⟨⟨p.m_code.lines ++
          specBoxedString p.m_code.tabQty
            (if toSlice then "PUSHREFSLICE \x7b" else "PUSHREF \x7b")
            ((env.stringToBytes str).data.take q)
            (TVMOptimizer.chunks q (fuel - 1) ((env.stringToBytes str).data.drop q)),
          p.m_code.tabQty⟩, ⟨p.m_stack.m_size + 1, p.m_stack.m_stackSize⟩⟩ := by
  obtain ⟨f, rfl⟩ : ∃ f, fuel = f + 1 := ⟨fuel - 1, by omega⟩
  unfold StackPusherHelper.pushString
  simp only
  rw [if_neg hbox, hsym]
  have hopen : (if toSlice = true then p.push 1 "PUSHREFSLICE \x7b" else p.push 1 "PUSHREF \x7b")
      = some ⟨⟨p.m_code.lines ++ [tabs p.m_code.tabQty ++
          (if toSlice = true then "PUSHREFSLICE \x7b" else "PUSHREF \x7b")], p.m_code.tabQty⟩,
          ⟨p.m_stack.m_size + 1, p.m_stack.m_stackSize⟩⟩ := by
    cases toSlice
    · simpa using StackPusherHelper.push_run p 1 "PUSHREF \x7b" (by decide) ht hs
    · simpa using StackPusherHelper.push_run p 1 "PUSHREFSLICE \x7b" (by decide) ht hs
  rw [hopen, Option.some_bind]
  simp only [StackPusherHelper.addTabs, CodeLines.addTabs, h0]
  rw [pushStringLoop_first env h1 _ q hq f (by omega) _ (by simp only; omega), Option.some_bind]
  simp only
  have e : (1 + ((TVMOptimizer.chunks q f ((env.stringToBytes str).data.drop q)).length : Int)).toNat
      = (TVMOptimizer.chunks q f ((env.stringToBytes str).data.drop q)).length + 1 := by omega
  rw [e, endContinuations_spec env h2 _ _ (by simp only; push_cast; omega), Option.some_bind]
  simp only [TVMStack.ensureSize, if_true, Option.map_some', specBoxedString,
    Nat.add_sub_cancel, List.append_assoc, List.singleton_append, List.cons_append,
    Option.some.injEq, StackPusherHelper.mk.injEq, CodeLines.mk.injEq, and_true]
  constructor
  · rfl
  · push_cast; omega


/-! ### The block structure of a boxed string -/

theorem tabs_data (k : Int) (cmd : String) :
    (tabs k ++ cmd).data = List.replicate k.toNat '\t' ++ cmd.data := by
  simp [tabs, String.data_append]

theorem getLast_tabs (k : Int) (cmd : String) (h : cmd.data ≠ []) :
    (tabs k ++ cmd).data.getLast? = cmd.data.getLast? := by
  rw [tabs_data, List.getLast?_append_of_ne_nil _ h]

theorem blockStep_open (k : Int) (cmd : String) (depth : Nat)
    (h : cmd.data.getLast? = some '\x7b') :
    blockStep depth (tabs k ++ cmd) = some (depth + 1) := by
  have hne : cmd.data ≠ [] := by intro e; rw [e] at h; simp at h
  unfold blockStep
  rw [getLast_tabs k cmd hne, if_pos h]

theorem blockStep_close (k : Int) (depth : Nat) :
    blockStep (depth + 1) (tabs k ++ "\x7d") = some depth := by
  unfold blockStep
  rw [getLast_tabs k _ (by decide)]
  simp

theorem blockStep_blob (k : Int) (payload : List Char) (depth : Nat)
    (h : ∀ c ∈ payload, c ≠ '\x7b' ∧ c ≠ '\x7d') :
    blockStep depth (tabs k ++ (".blob x" ++ String.mk payload)) = some depth := by
  have hne : (".blob x" ++ String.mk payload).data ≠ [] := by simp [String.data_append]
  have hl : ∃ c, (".blob x" ++ String.mk payload).data.getLast? = some c ∧
      c ≠ '\x7b' ∧ c ≠ '\x7d' := by
    rcases List.eq_nil_or_concat payload with e | ⟨init, last, e⟩
    · subst e
      exact ⟨'x', by decide, by decide, by decide⟩
    · subst e
      refine ⟨last, ?_, h last (by simp)⟩
      simp only [String.data_append, List.concat_eq_append]
      rw [List.getLast?_append_of_ne_nil _ (by simp)]
      simp
  obtain ⟨c, hc, h1, h2⟩ := hl
  unfold blockStep
  rw [getLast_tabs k _ hne, hc]
  simp [h1, h2]

theorem blockWalk_append (l1 l2 : List String) (d d1 : Nat)
    (h : blockWalk l1 d = some d1) : blockWalk (l1 ++ l2) d = blockWalk l2 d1 := by
  induction l1 generalizing d with
  | nil => simp only [blockWalk, Option.some.injEq] at h; subst h; rfl
  | cons a l ih =>
    simp only [List.cons_append, blockWalk] at h ⊢
    cases hs : blockStep d a with
    | none => rw [hs] at h; cases h
    | some d2 => rw [hs] at h; exact ih d2 h

theorem blockWalk_cells : ∀ (more : List (List Char)) (k : Int) (depth : Nat),
    (∀ payload ∈ more, ∀ c ∈ payload, c ≠ '\x7b' ∧ c ≠ '\x7d') →
    blockWalk (specCellLines k more) depth = some (depth + more.length)
  | [], _, _, _ => rfl
  | payload :: rest, k, depth, h => by
    rw [specCellLines, blockWalk, blockStep_open k _ depth (by decide)]
    simp only
    rw [blockWalk, blockStep_blob (k + 1) payload (depth + 1) (h payload (by simp))]
    simp only
    rw [blockWalk_cells rest (k + 1) (depth + 1) (fun p hp => h p (by simp [hp]))]
    simp only [List.length_cons, Option.some.injEq]
    omega

theorem blockWalk_closers : ∀ (n : Nat) (k : Int) (depth : Nat),
    blockWalk (specClosers k n) (depth + n) = some depth
  | 0, _, _ => rfl
  | n + 1, k, depth => by
    rw [specClosers, blockWalk, show depth + (n + 1) = (depth + n) + 1 from rfl,
      blockStep_close]
    exact blockWalk_closers n (k - 1) depth

theorem blockWalk_boxed (k : Int) (opener : String) (first : List Char)
    (more : List (List Char)) (ho : opener.data.getLast? = some '\x7b')
    (h1 : ∀ c ∈ first, c ≠ '\x7b' ∧ c ≠ '\x7d')
    (h2 : ∀ payload ∈ more, ∀ c ∈ payload, c ≠ '\x7b' ∧ c ≠ '\x7d') :
    blockWalk (specBoxedString k opener first more) 0 = some 0 := by
  rw [specBoxedString, blockWalk, blockStep_open k opener 0 ho]
  simp only
  rw [blockWalk, blockStep_blob (k + 1) first _ h1]
  simp only
  rw [blockWalk_append _ _ _ _ (blockWalk_cells more (k + 1) _ h2)]
  have := blockWalk_closers (more.length + 1) (k + 1 + more.length) 0
  rw [show 0 + 1 + more.length = 0 + (more.length + 1) by omega]
  exact this

/-! ### The payloads of a boxed string -/

theorem dropWhile_tabs (k : Int) (cmd : String) (h : cmd.data.head? ≠ some '\t') :
    (tabs k ++ cmd).data.dropWhile (fun c => c == '\t') = cmd.data := by
  rw [tabs_data]
  induction k.toNat with
  | zero =>
    simp only [List.replicate_zero, List.nil_append]
    cases hd : cmd.data with
    | nil => rfl
    | cons a l =>
      rw [hd] at h
      simp only [List.head?_cons, ne_eq, Option.some.injEq] at h
      have hb : (a == '\t') = false := by simpa using h
      simp [List.dropWhile, hb]
  | succ n ih => simpa [List.replicate_succ, List.dropWhile] using ih

theorem blobPayload_blob (k : Int) (payload : List Char) :
    blobPayload (tabs k ++ (".blob x" ++ String.mk payload)) = some payload := by
  unfold blobPayload
  rw [dropWhile_tabs k _ (by simp [String.data_append])]
  simp [String.data_append]

theorem blobPayload_other (k : Int) (cmd : String) (h1 : cmd.data.head? ≠ some '\t')
    (h2 : cmd.data.head? ≠ some '.') : blobPayload (tabs k ++ cmd) = none := by
  unfold blobPayload
  rw [dropWhile_tabs k _ h1]
  cases hd : cmd.data with
  | nil => rfl
  | cons a l =>
    rw [hd] at h2
    simp only [List.head?_cons, ne_eq, Option.some.injEq] at h2
    split
    · rename_i heq
      simp only [List.cons.injEq] at heq
      exact absurd heq.1 h2
    · rfl

theorem blobPayload_cell (k : Int) : blobPayload (tabs k ++ ".cell \x7b") = none := by
  unfold blobPayload
  rw [dropWhile_tabs k _ (by decide)]
  rfl

theorem blobPayloads_cells : ∀ (more : List (List Char)) (k : Int),
    blobPayloads (specCellLines k more) = more
  | [], _ => rfl
  | payload :: rest, k => by
    have ih := blobPayloads_cells rest (k + 1)
    unfold blobPayloads at ih ⊢
    rw [specCellLines, List.filterMap_cons, blobPayload_cell, List.filterMap_cons,
      blobPayload_blob, ih]

theorem blobPayloads_closers : ∀ (n : Nat) (k : Int), blobPayloads (specClosers k n) = []
  | 0, _ => rfl
  | n + 1, k => by
    have ih := blobPayloads_closers n (k - 1)
    unfold blobPayloads at ih ⊢
    rw [specClosers, List.filterMap_cons,
      blobPayload_other (k - 1) "\x7d" (by decide) (by decide), ih]

theorem blobPayloads_boxed (k : Int) (opener : String) (first : List Char)
    (more : List (List Char)) (h1 : opener.data.head? ≠ some '\t')
    (h2 : opener.data.head? ≠ some '.') :
    blobPayloads (specBoxedString k opener first more) = first :: more := by
  have e1 := blobPayloads_cells more (k + 1)
  have e2 := blobPayloads_closers (more.length + 1) (k + 1 + more.length)
  unfold blobPayloads at e1 e2 ⊢
  rw [specBoxedString, List.filterMap_cons, blobPayload_other k opener h1 h2,
    List.filterMap_cons, blobPayload_blob, List.filterMap_append, e1, e2, List.append_nil]


theorem blockStep_pushslice (k : Int) (payload : List Char) (depth : Nat)
    (h : ∀ c ∈ payload, c ≠ '\x7b' ∧ c ≠ '\x7d') :
    blockStep depth (tabs k ++ ("PUSHSLICE x" ++ String.mk payload)) = some depth := by
  have hne : ("PUSHSLICE x" ++ String.mk payload).data ≠ [] := by simp [String.data_append]
  have hl : ∃ c, ("PUSHSLICE x" ++ String.mk payload).data.getLast? = some c ∧
      c ≠ '\x7b' ∧ c ≠ '\x7d' := by
    rcases List.eq_nil_or_concat payload with e | ⟨init, last, e⟩
    · subst e
      exact ⟨'x', by decide, by decide, by decide⟩
    · subst e
      refine ⟨last, ?_, h last (by simp)⟩
      simp only [String.data_append, List.concat_eq_append]
      rw [List.getLast?_append_of_ne_nil _ (by simp)]
      simp
  obtain ⟨c, hc, h1, h2⟩ := hl
  unfold blockStep
  rw [getLast_tabs k _ hne, hc]
  simp [h1, h2]

theorem payloads_spec (q : Nat) (hq : 0 < q) (h : List Char) (fuel : Nat)
    (hf : h.length < fuel) :
    (h.take q :: TVMOptimizer.chunks q (fuel - 1) (h.drop q)).length
        = max 1 ((h.length + q - 1) / q) ∧
      (∀ payload ∈ h.take q :: TVMOptimizer.chunks q (fuel - 1) (h.drop q),
        payload.length ≤ q) ∧
      (h.take q :: TVMOptimizer.chunks q (fuel - 1) (h.drop q)).flatten = h ∧
      ∀ payload ∈ TVMOptimizer.chunks q (fuel - 1) (h.drop q), ∀ c ∈ payload, c ∈ h := by
  by_cases hle : h.length ≤ q
  · have hd : h.drop q = [] := List.drop_of_length_le hle
    rw [hd, chunks_of_nil]
    refine ⟨?_, ?_, ?_, ?_⟩
    · have : (h.length + q - 1) / q ≤ 1 := by
        apply Nat.le_of_lt_succ
        apply (Nat.div_lt_iff_lt_mul hq).mpr
        omega
      simp only [List.length_singleton]
      omega
    · intro payload hp
      simp only [List.mem_singleton] at hp
      rw [hp, List.length_take]; omega
    · simp [List.take_of_length_le hle]
    · intro payload hp; simp at hp
  · obtain ⟨c1, c2, _, c4, _⟩ := TVMOptimizer.chunks_spec q hq (fuel - 1) (h.drop q)
      (by rw [List.length_drop]; omega)
    refine ⟨?_, ?_, ?_, ?_⟩
    · rw [List.length_cons, c2, List.length_drop]
      have e1 : h.length - q + q - 1 = h.length - 1 := by omega
      have e2 : h.length + q - 1 = (h.length - 1) + q := by omega
      rw [e1, e2, Nat.add_div_right _ hq]
      generalize (h.length - 1) / q = d
      omega
    · intro payload hp
      rcases List.mem_cons.mp hp with e | e
      · rw [e, List.length_take]; omega
      · exact c4 payload e
    · rw [List.flatten_cons, c1, List.take_append_drop]
    · intro payload hp c hc
      have : c ∈ (TVMOptimizer.chunks q (fuel - 1) (h.drop q)).flatten :=
        List.mem_flatten.mpr ⟨payload, hp, hc⟩
      rw [c1] at this
      exact List.mem_of_mem_drop this

/-- C31: with the default arguments `addTabs(1)` and `endContinuation(0)`, a cell of at
least 8 bits, an encoding `stringToBytes(str)` without braces and enough iterations for its
length, on an emitter of nesting depth at least 0: `pushString` completes, the model stack
size grows by exactly 1, the nesting depth is the one before the call, and in the emitted
lines the block-open and block-close lines are balanced and properly nested. In the boxed
form the number of `.blob` lines is `max(1, ceil(len / symbolQty))`, each payload has at
most `symbolQty` characters and the payloads concatenated in order are the encoding. -/
theorem C31_pushString (env : StringEnv) (h0 : env.addTabsDefault = 1)
    (h1 : env.codeLinesAddTabsDefault = 1) (h2 : env.endContinuationDefault = 0)
    (hcell : 8 ≤ env.CellBitLength) (str : String) (toSlice : Bool) (fuel : Nat)
    (hf : (env.stringToBytes str).length < fuel)
    (hhex : ∀ c ∈ (env.stringToBytes str).data, c ≠ '\x7b' ∧ c ≠ '\x7d')
    (p : StackPusherHelper) (ht : 0 ≤ p.m_code.tabQty) (hs : 0 ≤ p.m_stack.m_size + 1) :
    ∃ p1 emitted, p.pushString env fuel str toSlice = some p1 ∧
      p1.m_code.lines = p.m_code.lines ++ emitted ∧
      p1.m_code.tabQty = p.m_code.tabQty ∧
      p1.m_stack.m_size = p.m_stack.m_size + 1 ∧
      blockWalk emitted 0 = some 0 ∧
      (¬ (4 * ((env.stringToBytes str).length : Int) ≤ env.MaxPushSliceBitLength ∧
          toSlice = true) →
        (blobPayloads emitted).length
            = max 1 (((env.stringToBytes str).length +
                (((env.CellBitLength.tdiv 8) * 8).tdiv 4).toNat - 1) /
              (((env.CellBitLength.tdiv 8) * 8).tdiv 4).toNat) ∧
          (∀ payload ∈ blobPayloads emitted,
            payload.length ≤ (((env.CellBitLength.tdiv 8) * 8).tdiv 4).toNat) ∧
          (blobPayloads emitted).flatten = (env.stringToBytes str).data) := by
  have e1 : env.CellBitLength.tdiv 8 = env.CellBitLength / 8 :=
    Int.tdiv_eq_ediv (by omega) (by omega)
  have e2 : ((env.CellBitLength / 8) * 8).tdiv 4 = ((env.CellBitLength / 8) * 8) / 4 :=
    Int.tdiv_eq_ediv (by omega) (by omega)
  have hq : 0 < (((env.CellBitLength.tdiv 8) * 8).tdiv 4).toNat := by
    rw [e1, e2]; omega
  have hsym : ((env.CellBitLength.tdiv 8) * 8).tdiv 4
      = ((((env.CellBitLength.tdiv 8) * 8).tdiv 4).toNat : Int) := by
    rw [e1, e2]; omega
  generalize (((env.CellBitLength.tdiv 8) * 8).tdiv 4).toNat = q at hq hsym ⊢
  by_cases hbox : 4 * ((env.stringToBytes str).length : Int) ≤ env.MaxPushSliceBitLength ∧
      toSlice = true
  · refine ⟨⟨⟨p.m_code.lines ++ [tabs p.m_code.tabQty ++ ("PUSHSLICE x" ++ env.stringToBytes str)],
        p.m_code.tabQty⟩, ⟨p.m_stack.m_size + 1, p.m_stack.m_stackSize⟩⟩,
      [tabs p.m_code.tabQty ++ ("PUSHSLICE x" ++ env.stringToBytes str)], ?_, rfl, rfl,
      rfl, ?_, fun hn => absurd hbox hn⟩
    · unfold StackPusherHelper.pushString
      simp only
      rw [if_pos hbox]
      exact StackPusherHelper.push_run p 1 _ (command_length _ _ (by decide)) ht hs
    · rw [blockWalk, blockStep_pushslice p.m_code.tabQty (env.stringToBytes str).data 0 hhex]
      rfl
  · obtain ⟨c1, c2, c3, c4⟩ := payloads_spec q hq (env.stringToBytes str).data fuel hf
    have hopen : (if toSlice = true then "PUSHREFSLICE \x7b" else "PUSHREF \x7b").data.getLast?
        = some '\x7b' := by cases toSlice <;> decide
    have hopen1 : (if toSlice = true then "PUSHREFSLICE \x7b" else "PUSHREF \x7b").data.head?
        ≠ some '\t' := by cases toSlice <;> decide
    have hopen2 : (if toSlice = true then "PUSHREFSLICE \x7b" else "PUSHREF \x7b").data.head?
        ≠ some '.' := by cases toSlice <;> decide
    refine ⟨_, _, StackPusherHelper.pushString_boxed env h0 h1 h2 q hq hsym str toSlice fuel hf
      hbox p ht hs, rfl, rfl, rfl, ?_, fun _ => ?_⟩
    · exact blockWalk_boxed _ _ _ _ hopen
        (fun c hc => hhex c (List.mem_of_mem_take hc))
        (fun payload hp c hc => hhex c (c4 payload hp c hc))
    · rw [blobPayloads_boxed _ _ _ _ hopen1 hopen2]
      exact ⟨c1, c2, c3⟩

/-- C31 at the string `1234567890` of the example environment (payloads of 8 characters),
in boxed form: three `.blob` lines. -/
theorem C31_pushString_witness :
    ∃ p1 emitted, (StackPusherHelper.mk ⟨[], 0⟩ ⟨0, []⟩).pushString exampleStringEnv 30
        "1234567890" true = some p1 ∧
      p1.m_code.lines = [] ++ emitted ∧ p1.m_code.tabQty = 0 ∧ p1.m_stack.m_size = 0 + 1 ∧
      blockWalk emitted 0 = some 0 ∧ (blobPayloads emitted).length = 3 := by
  obtain ⟨p1, emitted, a, b, c, d, e, f⟩ := C31_pushString exampleStringEnv rfl rfl rfl
    (by decide) "1234567890" true 30 (by decide) (by decide) ⟨⟨[], 0⟩, ⟨0, []⟩⟩ (by decide)
    (by decide)
  exact ⟨p1, emitted, a, b, c, d, e, (f (by decide)).1.trans (by decide)⟩

theorem StackPusherHelper.startContinuationFromRef_balance (p : StackPusherHelper)
    (ht : 0 ≤ p.m_code.tabQty) :
    ∃ p1, p.startContinuationFromRef = some p1 ∧ p1.m_code.tabQty = p.m_code.tabQty + 1 ∧
      p1.m_stack.m_size = p.m_stack.m_size := by
  unfold StackPusherHelper.startContinuationFromRef CodeLines.startContinuationFromRef
  rw [CodeLines.push_of_keep _ _ (by decide) ht]
  exact ⟨_, rfl, rfl, rfl⟩

theorem StackPusherHelper.startCallRef_balance (p : StackPusherHelper)
    (ht : 0 ≤ p.m_code.tabQty) :
    ∃ p1, p.startCallRef 0 = some p1 ∧ p1.m_code.tabQty = p.m_code.tabQty + 1 ∧
      p1.m_stack.m_size = p.m_stack.m_size := by
  unfold StackPusherHelper.startCallRef CodeLines.startCallRef
  rw [TVMStack.change_zero, CodeLines.push_of_keep _ _ (by decide) ht]
  exact ⟨_, rfl, rfl, rfl⟩

theorem StackPusherHelper.endContinuation_change (p : StackPusherHelper) (d : Int)
    (ht : 1 ≤ p.m_code.tabQty) (hs : 0 ≤ p.m_stack.m_size + d) :
    ∃ p1, p.endContinuation d = some p1 ∧ p1.m_code.tabQty = p.m_code.tabQty - 1 ∧
      p1.m_stack.m_size = p.m_stack.m_size + d := by
  unfold StackPusherHelper.endContinuation CodeLines.endContinuation
  rw [TVMStack.change_of_nonneg _ _ hs, CodeLines.push_of_keep _ _ (by decide) (by simpa using ht)]
  simp only [Option.some_bind]
  rw [if_neg (by simpa using ht)]
  exact ⟨_, rfl, rfl, rfl⟩

theorem StackPusherHelper.pushDefaultValue_value (env : DefaultEnv) (type : SolType)
    (h : specCodecType type = true) (p : StackPusherHelper) (ht : 0 ≤ p.m_code.tabQty)
    (hs : 0 ≤ p.m_stack.m_size) :
    ∃ p1, p.pushDefaultValue env type false = some p1 ∧
      p1.m_code.tabQty = p.m_code.tabQty ∧ p1.m_stack.m_size = p.m_stack.m_size + 1 := by
  have one : ∀ c : String, ∃ p1, p.push 1 c = some p1 ∧
      p1.m_code.tabQty = p.m_code.tabQty ∧ p1.m_stack.m_size = p.m_stack.m_size + 1 :=
    fun c => p.push_balance 1 c ht (by omega)
  have two : ∀ c : String, ∃ p1, ((p.push 1 c).bind fun q => some q) = some p1 ∧
      p1.m_code.tabQty = p.m_code.tabQty ∧ p1.m_stack.m_size = p.m_stack.m_size + 1 := by
    intro c
    obtain ⟨q, e, a, b⟩ := one c
    exact ⟨q, by simp only [e, Option.some_bind], a, b⟩
  cases type <;> simp only [specCodecType, Bool.false_eq_true] at h <;>
    simp only [StackPusherHelper.pushDefaultValue, SolType.category,
      StackPusherHelper.pushZeroAddress, StackPusherHelper.pushInt, Bool.false_eq_true,
      if_false, not_false_eq_true, if_true]
  all_goals first
    | exact one _
    | exact two _
    | skip
  · rename_i isByteArray baseType
    cases isByteArray
    · obtain ⟨q1, e1, a1, b1⟩ := p.push_balance 1 ("PUSHINT " ++ toString (0 : Int)) ht
        (by omega)
      obtain ⟨q2, e2, a2, b2⟩ := q1.push_balance 1 "NEWDICT" (by omega) (by omega)
      obtain ⟨q3, e3, a3, b3⟩ := q2.push_balance (-2 + 1) "PAIR" (by omega) (by omega)
      exact ⟨q3, by simp only [Bool.false_eq_true, if_false, e1, e2, e3, Option.some_bind],
        by omega, by omega⟩
    · obtain ⟨q1, e1, a1, b1⟩ := p.push_balance 1 "PUSHREF \x7b" ht (by omega)
      obtain ⟨q2, e2, a2, b2⟩ := q1.push_balance 0 "\x7d" (by omega) (by omega)
      exact ⟨q2, by simp only [if_true, e1, e2, Option.some_bind], by omega, by omega⟩
  · obtain ⟨q1, e1, a1, b1⟩ := p.push_balance 1 "PUSHREF \x7b" ht (by omega)
    obtain ⟨q2, e2, a2, b2⟩ := q1.push_balance 0 "\x7d" (by omega) (by omega)
    exact ⟨q2, by simp only [e1, e2, Option.some_bind], by omega, by omega⟩

theorem StackPusherHelper.preload_struct (env : CodecEnv) (t : SolType)
    (hst : t.category = .Struct) (p q : StackPusherHelper)
    (h : env.convertSliceToTuple t p = some q) (hq : q.m_stack.m_size = p.m_stack.m_size) :
    p.preload env t = some q := by
  have hsw : p.preloadSwitch env t = some q := by
    unfold StackPusherHelper.preloadSwitch
    rw [hst]
    exact h
  cases t <;> simp only [SolType.category] at hst <;> try exact absurd hst (by decide)
  all_goals
    simp only [StackPusherHelper.preload, hsw, Option.some_bind, TVMStack.ensureSize, hq,
      if_true, Option.map_some']

theorem StackPusherHelper.preloadValueKey_balance (env : RecoverEnv) (keyType : SolType)
    (saveOrigKeyAndNoTuple : Bool)
    (hkey : keyType.category = .Struct → ∀ q : StackPusherHelper, 0 ≤ q.m_code.tabQty →
      1 ≤ q.m_stack.m_size → ∃ q1, env.codec.convertSliceToTuple keyType q = some q1 ∧
        q1.m_code.tabQty = q.m_code.tabQty ∧ q1.m_stack.m_size = q.m_stack.m_size)
    (p : StackPusherHelper) (ht : 0 ≤ p.m_code.tabQty) (hs : 1 ≤ p.m_stack.m_size) :
    ∃ p1, p.preloadValueKey env keyType saveOrigKeyAndNoTuple = some p1 ∧
      p1.m_code.tabQty = p.m_code.tabQty ∧
      p1.m_stack.m_size = p.m_stack.m_size + (if saveOrigKeyAndNoTuple then 1 else 0) := by
  have first : ∃ q, (if saveOrigKeyAndNoTuple then p.pushS 0 else some p) = some q ∧
      q.m_code.tabQty = p.m_code.tabQty ∧
      q.m_stack.m_size = p.m_stack.m_size + (if saveOrigKeyAndNoTuple then 1 else 0) := by
    cases saveOrigKeyAndNoTuple
    · exact ⟨p, by simp, rfl, by simp⟩
    · obtain ⟨q, e, a, b⟩ := p.push_balance 1 "DUP" ht (by omega)
      exact ⟨q, by simpa [StackPusherHelper.pushS] using e, a, by simpa using b⟩
  obtain ⟨q1, e1, a1, b1⟩ := first
  have hs1 : 1 ≤ q1.m_stack.m_size := by
    rw [b1]; split_ifs <;> omega
  have second : ∃ q, (if keyType.category = .Struct then
      env.codec.convertSliceToTuple keyType q1 else some q1) = some q ∧
      q.m_code.tabQty = q1.m_code.tabQty ∧ q.m_stack.m_size = q1.m_stack.m_size := by
    by_cases hk : keyType.category = .Struct
    · rw [if_pos hk]
      exact hkey hk q1 (by omega) hs1
    · rw [if_neg hk]
      exact ⟨q1, rfl, rfl, rfl⟩
  obtain ⟨q2, e2, a2, b2⟩ := second
  have third : ∃ q, (if saveOrigKeyAndNoTuple then q2.push 0 "ROT" else q2.exchange 0 1)
      = some q ∧ q.m_code.tabQty = q2.m_code.tabQty ∧ q.m_stack.m_size = q2.m_stack.m_size := by
    obtain ⟨q, e, a, b⟩ := q2.push_balance 0 (if saveOrigKeyAndNoTuple then "ROT" else "SWAP")
      (by omega) (by omega)
    refine ⟨q, ?_, a, by omega⟩
    cases saveOrigKeyAndNoTuple
    · simpa [StackPusherHelper.exchange_top] using e
    · simpa using e
  obtain ⟨q3, e3, a3, b3⟩ := third
  refine ⟨q3, ?_, by omega, by omega⟩
  unfold StackPusherHelper.preloadValueKey
  simp only [e1, e2, e3, Option.some_bind]

theorem StackPusherHelper.fetch_balance (p : StackPusherHelper) (ht : 0 ≤ p.m_code.tabQty)
    (hs : 0 ≤ p.m_stack.m_size) :
    ∃ q, ((p.push 0 "PLDREF").bind fun q => q.push 0 "CTOS") = some q ∧
      q.m_code.tabQty = p.m_code.tabQty ∧ q.m_stack.m_size = p.m_stack.m_size := by
  obtain ⟨q1, e1, a1, b1⟩ := p.push_balance 0 "PLDREF" ht (by omega)
  obtain ⟨q2, e2, a2, b2⟩ := q1.push_balance 0 "CTOS" (by omega) (by omega)
  exact ⟨q2, by simp only [e1, e2, Option.some_bind], by omega, by omega⟩

theorem StackPusherHelper.preloadValueGeneral_balance (env : RecoverEnv)
    (h2 : env.codec.endContinuationDefault = 0) (h4 : env.startCallRefDefault = 0)
    (keyType valueType : SolType) (didUseOpcodeWithRef : Bool)
    (hpre : ∀ q : StackPusherHelper, 0 ≤ q.m_code.tabQty → 1 ≤ q.m_stack.m_size →
      ∃ q1, q.preload env.codec valueType = some q1 ∧ q1.m_code.tabQty = q.m_code.tabQty ∧
        q1.m_stack.m_size = q.m_stack.m_size)
    (hd : ∃ b, doesDictStoreValueInRef env.dict keyType valueType = some b)
    (p : StackPusherHelper) (ht : 0 ≤ p.m_code.tabQty) (hs : 1 ≤ p.m_stack.m_size) :
    ∃ p1, p.preloadValueGeneral env keyType valueType didUseOpcodeWithRef = some p1 ∧
      p1.m_code.tabQty = p.m_code.tabQty ∧ p1.m_stack.m_size = p.m_stack.m_size := by
  obtain ⟨b, hb⟩ := hd
  have first : ∃ r : StackPusherHelper × Bool,
      (if didUseOpcodeWithRef then (p.push 0 "CTOS").map fun q => (q, true)
        else
          (doesDictStoreValueInRef env.dict keyType valueType).bind fun b =>
            if b then
              ((p.push 0 "PLDREF").bind fun q => q.push 0 "CTOS").map fun q => (q, true)
            else some (p, false)) = some r ∧
      r.1.m_code.tabQty = p.m_code.tabQty ∧ r.1.m_stack.m_size = p.m_stack.m_size := by
    cases didUseOpcodeWithRef
    · cases b
      · exact ⟨(p, false), by simp [hb], rfl, rfl⟩
      · obtain ⟨q, e, a, c⟩ := p.fetch_balance ht (by omega)
        exact ⟨(q, true), by simp only [Bool.false_eq_true, if_false, hb, Option.some_bind,
          if_true, e, Option.map_some'], a, c⟩
    · obtain ⟨q, e, a, c⟩ := p.push_balance 0 "CTOS" ht (by omega)
      exact ⟨(q, true), by simp only [if_true, e, Option.map_some'], a,
        by show q.m_stack.m_size = _; omega⟩
  obtain ⟨r, e1, a1, b1⟩ := first
  have second : ∀ flag : Bool, ∃ q,
      ((if flag then r.1.startCallRef env.startCallRefDefault else some r.1).bind fun p1 =>
        (p1.preload env.codec valueType).bind fun p2 =>
          if flag then p2.endContinuation env.codec.endContinuationDefault else some p2)
        = some q ∧ q.m_code.tabQty = r.1.m_code.tabQty ∧
      q.m_stack.m_size = r.1.m_stack.m_size := by
    intro flag
    cases flag
    · obtain ⟨q, e, a, c⟩ := hpre r.1 (by omega) (by omega)
      exact ⟨q, by simp only [Bool.false_eq_true, if_false, Option.some_bind, e], a, c⟩
    · obtain ⟨q1, e1, a1, c1⟩ := r.1.startCallRef_balance (by omega)
      obtain ⟨q2, e2, a2, c2⟩ := hpre q1 (by omega) (by omega)
      obtain ⟨q3, e3, a3, c3⟩ := q2.endContinuation_balance (by omega)
      exact ⟨q3, by simp only [if_true, h4, h2, e1, e2, e3, Option.some_bind],
        by omega, by omega⟩
  obtain ⟨q, e2, a2, b2⟩ := second (r.2 && decide (valueType.category = .Struct))
  refine ⟨q, ?_, by omega, by omega⟩
  unfold StackPusherHelper.preloadValueGeneral
  simp only [e1, Option.some_bind]
  exact e2

theorem StackPusherHelper.preloadValueSwitch_balance (env : RecoverEnv)
    (h2 : env.codec.endContinuationDefault = 0) (h4 : env.startCallRefDefault = 0)
    (keyType valueType : SolType) (didUseOpcodeWithRef : Bool)
    (hpre : ∀ q : StackPusherHelper, 0 ≤ q.m_code.tabQty → 1 ≤ q.m_stack.m_size →
      ∃ q1, q.preload env.codec valueType = some q1 ∧ q1.m_code.tabQty = q.m_code.tabQty ∧
        q1.m_stack.m_size = q.m_stack.m_size)
    (hd : ∃ b, doesDictStoreValueInRef env.dict keyType valueType = some b)
    (p : StackPusherHelper) (ht : 0 ≤ p.m_code.tabQty) (hs : 1 ≤ p.m_stack.m_size) :
    ∃ p1, p.preloadValueSwitch env keyType valueType didUseOpcodeWithRef = some p1 ∧
      p1.m_code.tabQty = p.m_code.tabQty ∧ p1.m_stack.m_size = p.m_stack.m_size := by
  have general := p.preloadValueGeneral_balance env h2 h4 keyType valueType
    didUseOpcodeWithRef hpre hd ht hs
  have slice : ∃ p1,
      (if didUseOpcodeWithRef then p.push 0 "CTOS"
        else
          (doesDictStoreValueInRef env.dict keyType valueType).bind fun b =>
            if b then (p.push 0 "PLDREF").bind fun q => q.push 0 "CTOS" else some p)
        = some p1 ∧
      p1.m_code.tabQty = p.m_code.tabQty ∧ p1.m_stack.m_size = p.m_stack.m_size := by
    obtain ⟨b, hb⟩ := hd
    cases didUseOpcodeWithRef
    · cases b
      · exact ⟨p, by simp [hb], rfl, rfl⟩
      · obtain ⟨q, e, a, c⟩ := p.fetch_balance ht (by omega)
        exact ⟨q, by simp only [Bool.false_eq_true, if_false, hb, Option.some_bind,
          if_true, e], a, c⟩
    · obtain ⟨q, e, a, c⟩ := p.push_balance 0 "CTOS" ht (by omega)
      exact ⟨q, by simp only [if_true, e], a, by omega⟩
  have cell : ∃ p1, (if ¬ didUseOpcodeWithRef = true then p.push 0 "PLDREF" else some p)
        = some p1 ∧
      p1.m_code.tabQty = p.m_code.tabQty ∧ p1.m_stack.m_size = p.m_stack.m_size := by
    cases didUseOpcodeWithRef
    · obtain ⟨q, e, a, c⟩ := p.push_balance 0 "PLDREF" ht (by omega)
      exact ⟨q, by simpa using e, a, by omega⟩
    · exact ⟨p, by simp, rfl, rfl⟩
  obtain ⟨b, hb⟩ := hd
  unfold StackPusherHelper.preloadValueSwitch
  unfold doesDictStoreValueInRef at hb
  cases hv : env.dict.toDictValueType valueType.category with
  | none => rw [hv] at hb; exact absurd hb (by simp)
  | some v =>
    cases v <;> simp only
    all_goals first
      | exact general
      | exact slice
      | exact cell
      | skip
    by_cases hba : env.dict.isByteArrayOrString valueType = true
    · rw [if_pos hba]; exact cell
    · rw [if_neg hba]; exact general


theorem StackPusherHelper.preloadValue_balance (env : RecoverEnv)
    (h2 : env.codec.endContinuationDefault = 0) (h4 : env.startCallRefDefault = 0)
    (keyType valueType : SolType) (haveKey didUseOpcodeWithRef saveOrigKeyAndNoTuple : Bool)
    (hkey : keyType.category = .Struct → ∀ q : StackPusherHelper, 0 ≤ q.m_code.tabQty →
      1 ≤ q.m_stack.m_size → ∃ q1, env.codec.convertSliceToTuple keyType q = some q1 ∧
        q1.m_code.tabQty = q.m_code.tabQty ∧ q1.m_stack.m_size = q.m_stack.m_size)
    (hpre : ∀ q : StackPusherHelper, 0 ≤ q.m_code.tabQty → 1 ≤ q.m_stack.m_size →
      ∃ q1, q.preload env.codec valueType = some q1 ∧ q1.m_code.tabQty = q.m_code.tabQty ∧
        q1.m_stack.m_size = q.m_stack.m_size)
    (hd : ∃ b, doesDictStoreValueInRef env.dict keyType valueType = some b)
    (p : StackPusherHelper) (ht : 0 ≤ p.m_code.tabQty) (hs : 1 ≤ p.m_stack.m_size) :
    ∃ p1, p.preloadValue env keyType valueType haveKey didUseOpcodeWithRef
        saveOrigKeyAndNoTuple = some p1 ∧
      p1.m_code.tabQty = p.m_code.tabQty ∧
      p1.m_stack.m_size = p.m_stack.m_size +
        (if haveKey = true ∧ saveOrigKeyAndNoTuple = true then 1 else 0) := by
  have first : ∃ q, (if haveKey then p.preloadValueKey env keyType saveOrigKeyAndNoTuple
        else some p) = some q ∧ q.m_code.tabQty = p.m_code.tabQty ∧
      q.m_stack.m_size = p.m_stack.m_size +
        (if haveKey = true ∧ saveOrigKeyAndNoTuple = true then 1 else 0) := by
    cases haveKey
    · exact ⟨p, by simp, rfl, by simp⟩
    · obtain ⟨q, e, a, b⟩ := p.preloadValueKey_balance env keyType saveOrigKeyAndNoTuple
        hkey ht hs
      exact ⟨q, by simpa using e, a, by simpa using b⟩
  obtain ⟨q1, e1, a1, b1⟩ := first
  have hs1 : 1 ≤ q1.m_stack.m_size := by
    rw [b1]; split_ifs <;> omega
  obtain ⟨q2, e2, a2, b2⟩ := q1.preloadValueSwitch_balance env h2 h4 keyType valueType
    didUseOpcodeWithRef hpre hd (by omega) hs1
  refine ⟨q2, ?_, by omega, by omega⟩
  unfold StackPusherHelper.preloadValue
  simp only [e1, e2, Option.some_bind]

theorem StackPusherHelper.start_balance (p : StackPusherHelper) (fromRef : Bool)
    (ht : 0 ≤ p.m_code.tabQty) :
    ∃ p1, (if fromRef then p.startContinuationFromRef else p.startContinuation 0) = some p1 ∧
      p1.m_code.tabQty = p.m_code.tabQty + 1 ∧ p1.m_stack.m_size = p.m_stack.m_size := by
  cases fromRef
  · simpa using p.startContinuation_balance ht
  · simpa using p.startContinuationFromRef_balance ht

theorem StackPusherHelper.valueOrDefaultFirst_balance (env : RecoverEnv)
    (h1 : env.codec.startContinuationDefault = 0)
    (h2 : env.codec.endContinuationDefault = 0) (h4 : env.startCallRefDefault = 0)
    (keyType valueType : SolType)
    (haveKey didUseOpcodeWithRef saveOrigKeyAndNoTuple pushRefCont : Bool)
    (hkey : keyType.category = .Struct → ∀ q : StackPusherHelper, 0 ≤ q.m_code.tabQty →
      1 ≤ q.m_stack.m_size → ∃ q1, env.codec.convertSliceToTuple keyType q = some q1 ∧
        q1.m_code.tabQty = q.m_code.tabQty ∧ q1.m_stack.m_size = q.m_stack.m_size)
    (hpre : ∀ q : StackPusherHelper, 0 ≤ q.m_code.tabQty → 1 ≤ q.m_stack.m_size →
      ∃ q1, q.preload env.codec valueType = some q1 ∧ q1.m_code.tabQty = q.m_code.tabQty ∧
        q1.m_stack.m_size = q.m_stack.m_size)
    (hd : ∃ b, doesDictStoreValueInRef env.dict keyType valueType = some b)
    (p : StackPusherHelper) (ht : 0 ≤ p.m_code.tabQty) (hs : 1 ≤ p.m_stack.m_size) :
    ∃ p1, p.valueOrDefaultFirst env keyType valueType haveKey didUseOpcodeWithRef
        saveOrigKeyAndNoTuple pushRefCont = some p1 ∧
      p1.m_code.tabQty = p.m_code.tabQty ∧
      p1.m_stack.m_size = p.m_stack.m_size +
        (if haveKey = true ∧ saveOrigKeyAndNoTuple = true then 1 else 0) := by
  obtain ⟨q1, e1, a1, b1⟩ := p.start_balance pushRefCont ht
  obtain ⟨q2, e2, a2, b2⟩ := q1.preloadValue_balance env h2 h4 keyType valueType haveKey
    didUseOpcodeWithRef saveOrigKeyAndNoTuple hkey hpre hd (by omega) (by omega)
  obtain ⟨q3, e3, a3, b3⟩ := q2.endContinuation_balance (by omega)
  refine ⟨q3, ?_, by omega, by omega⟩
  unfold StackPusherHelper.valueOrDefaultFirst
  simp only [h1, h2, e1, e2, e3, Option.some_bind]

theorem StackPusherHelper.valueOrDefaultSecond_balance (env : RecoverEnv)
    (h1 : env.codec.startContinuationDefault = 0) (valueType : SolType) (pushRefCont : Bool)
    (hdef : ∀ q : StackPusherHelper, 0 ≤ q.m_code.tabQty → 0 ≤ q.m_stack.m_size →
      ∃ q1, q.pushDefaultValue env.defaults valueType false = some q1 ∧
        q1.m_code.tabQty = q.m_code.tabQty ∧ q1.m_stack.m_size = q.m_stack.m_size + 1)
    (p : StackPusherHelper) (ht : 0 ≤ p.m_code.tabQty) (hs : 0 ≤ p.m_stack.m_size) :
    ∃ p1, p.valueOrDefaultSecond env valueType pushRefCont = some p1 ∧
      p1.m_code.tabQty = p.m_code.tabQty ∧ p1.m_stack.m_size = p.m_stack.m_size := by
  obtain ⟨q1, e1, a1, b1⟩ := p.start_balance pushRefCont ht
  obtain ⟨q2, e2, a2, b2⟩ := hdef q1 (by omega) (by omega)
  obtain ⟨q3, e3, a3, b3⟩ := q2.endContinuation_change (-1) (by omega) (by omega)
  refine ⟨q3, ?_, by omega, by omega⟩
  unfold StackPusherHelper.valueOrDefaultSecond
  simp only [h1, e1, e2, e3, Option.some_bind]

theorem StackPusherHelper.valueOrNullFirst_balance (env : RecoverEnv)
    (h1 : env.codec.startContinuationDefault = 0)
    (h2 : env.codec.endContinuationDefault = 0) (h4 : env.startCallRefDefault = 0)
    (keyType valueType : SolType) (haveKey didUseOpcodeWithRef : Bool)
    (hkey : keyType.category = .Struct → ∀ q : StackPusherHelper, 0 ≤ q.m_code.tabQty →
      1 ≤ q.m_stack.m_size → ∃ q1, env.codec.convertSliceToTuple keyType q = some q1 ∧
        q1.m_code.tabQty = q.m_code.tabQty ∧ q1.m_stack.m_size = q.m_stack.m_size)
    (hpre : ∀ q : StackPusherHelper, 0 ≤ q.m_code.tabQty → 1 ≤ q.m_stack.m_size →
      ∃ q1, q.preload env.codec valueType = some q1 ∧ q1.m_code.tabQty = q.m_code.tabQty ∧
        q1.m_stack.m_size = q.m_stack.m_size)
    (hd : ∃ b, doesDictStoreValueInRef env.dict keyType valueType = some b)
    (p : StackPusherHelper) (ht : 0 ≤ p.m_code.tabQty) (hs : 1 ≤ p.m_stack.m_size) :
    ∃ p1, p.valueOrNullFirst env keyType valueType haveKey didUseOpcodeWithRef true
        = some p1 ∧
      p1.m_code.tabQty = p.m_code.tabQty ∧
      p1.m_stack.m_size = p.m_stack.m_size + (if haveKey = true then 1 else 0) := by
  obtain ⟨q1, e1, a1, b1⟩ := p.start_balance (decide (valueType.category = .Struct)) ht
  obtain ⟨q2, e2, a2, b2⟩ := q1.preloadValue_balance env h2 h4 keyType valueType haveKey
    didUseOpcodeWithRef true hkey hpre hd (by omega) (by omega)
  have hs2 : 1 ≤ q2.m_stack.m_size := by
    rw [b2]; split_ifs <;> omega
  have third : ∃ q, (if haveKey = true then some q2
        else q2.checkOnMappingOrOptional valueType) = some q ∧
      q.m_code.tabQty = q2.m_code.tabQty ∧ q.m_stack.m_size = q2.m_stack.m_size := by
    cases haveKey
    · unfold StackPusherHelper.checkOnMappingOrOptional
      by_cases hm : valueType.category = .Mapping ∨ valueType.category = .Optional
      · obtain ⟨q, e, a, b⟩ := q2.push_balance (-1 + 1) ("TUPLE " ++ toString (1 : Int))
          (by omega) (by omega)
        exact ⟨q, by simpa [hm, StackPusherHelper.tuple] using e, a, by omega⟩
      · exact ⟨q2, by simp [hm], rfl, rfl⟩
    · exact ⟨q2, by simp, rfl, rfl⟩
  obtain ⟨q3, e3, a3, b3⟩ := third
  obtain ⟨q4, e4, a4, b4⟩ := q3.endContinuation_balance (by omega)
  refine ⟨q4, ?_, by omega, ?_⟩
  · unfold StackPusherHelper.valueOrNullFirst
    simp only [decide_eq_true_eq] at e1
    simp only [h1, h2, e1, e2, Option.some_bind, not_true_eq_false, if_false, e3, e4]
  · rw [b4, b3, b2, b1]
    cases haveKey <;> simp

theorem StackPusherHelper.valueOrNullSecond_balance (env : RecoverEnv)
    (h1 : env.codec.startContinuationDefault = 0)
    (h2 : env.codec.endContinuationDefault = 0)
    (p : StackPusherHelper) (ht : 0 ≤ p.m_code.tabQty) (hs : 0 ≤ p.m_stack.m_size) :
    ∃ p1, p.valueOrNullSecond env = some p1 ∧
      p1.m_code.tabQty = p.m_code.tabQty ∧ p1.m_stack.m_size = p.m_stack.m_size := by
  obtain ⟨q1, e1, a1, b1⟩ := p.startContinuation_balance ht
  obtain ⟨q2, e2, a2, b2⟩ := q1.push_balance 0 "NULL" (by omega) (by omega)
  obtain ⟨q3, e3, a3, b3⟩ := q2.push_balance 0 "NULL" (by omega) (by omega)
  obtain ⟨q4, e4, a4, b4⟩ := q3.push_balance 0 "NULL" (by omega) (by omega)
  obtain ⟨q5, e5, a5, b5⟩ := q4.endContinuation_balance (by omega)
  refine ⟨q5, ?_, by omega, by omega⟩
  unfold StackPusherHelper.valueOrNullSecond
  simp only [h1, h2, e1, e2, e3, e4, e5, Option.some_bind]

theorem StackPusherHelper.tryPollEmptyPushCont_stack (p : StackPusherHelper) :
    ∃ r, p.tryPollEmptyPushCont = some r ∧ r.1.m_code.tabQty = p.m_code.tabQty ∧
      r.1.m_stack = p.m_stack := by
  unfold StackPusherHelper.tryPollEmptyPushCont
  by_cases hn : ((p.m_code.lines.length : Nat) : Int) ≥ 2
  · have g1 : ∃ line, p.m_code.lines.get? (((p.m_code.lines.length : Int) - 1 - 1).toNat)
        = some line := by
      have : (((p.m_code.lines.length : Int) - 1 - 1).toNat) < p.m_code.lines.length := by omega
      exact ⟨_, List.get?_eq_get this⟩
    have g0 : ∃ line, p.m_code.lines.get? (((p.m_code.lines.length : Int) - 1 - 0).toNat)
        = some line := by
      have : (((p.m_code.lines.length : Int) - 1 - 0).toNat) < p.m_code.lines.length := by omega
      exact ⟨_, List.get?_eq_get this⟩
    obtain ⟨l1, hl1⟩ := g1
    obtain ⟨l0, hl0⟩ := g0
    have c1 : ∀ cmd, p.cmpLastCmd cmd 1
        = some (l1.data.dropWhile (fun c => c == '\t') == cmd.data) := by
      intro cmd
      unfold StackPusherHelper.cmpLastCmd
      simp only [hl1]
      rw [if_neg (by omega)]
    have c0 : ∀ cmd, p.cmpLastCmd cmd 0
        = some (l0.data.dropWhile (fun c => c == '\t') == cmd.data) := by
      intro cmd
      unfold StackPusherHelper.cmpLastCmd
      simp only [hl0]
      rw [if_neg (by omega)]
    simp only [c1, c0, Option.some_bind]
    rw [if_neg (by omega)]
    generalize (List.dropWhile (fun c => c == '\t') l1.data == "PUSHCONT \x7b".data) = x
    generalize (List.dropWhile (fun c => c == '\t') l1.data == "PUSHREFCONT \x7b".data) = y
    generalize (List.dropWhile (fun c => c == '\t') l0.data == "\x7d".data) = z
    cases x <;> cases y <;> cases z <;> exact ⟨_, rfl, rfl, rfl⟩
  · rw [if_pos hn]
    exact ⟨_, rfl, rfl, rfl⟩


theorem StackPusherHelper.preload_value (env : RecoverEnv)
    (h1 : env.codec.startContinuationDefault = 0)
    (h2 : env.codec.endContinuationDefault = 0) (h3 : env.codec.dropDefault = 1)
    (hnum : ∀ t : SolType, t.category = .Integer ∨ t.category = .Enum ∨ t.category = .Bool ∨
      t.category = .FixedPoint ∨ t.category = .FixedBytes → env.codec.isNumeric t = true)
    (valueType : SolType)
    (hval : specCodecType valueType = true ∨ valueType.category = .Struct)
    (hconv : valueType.category = .Struct → ∀ q : StackPusherHelper, 0 ≤ q.m_code.tabQty →
      1 ≤ q.m_stack.m_size → ∃ q1, env.codec.convertSliceToTuple valueType q = some q1 ∧
        q1.m_code.tabQty = q.m_code.tabQty ∧ q1.m_stack.m_size = q.m_stack.m_size)
    (q : StackPusherHelper) (ht : 0 ≤ q.m_code.tabQty) (hs : 1 ≤ q.m_stack.m_size) :
    ∃ q1, q.preload env.codec valueType = some q1 ∧ q1.m_code.tabQty = q.m_code.tabQty ∧
      q1.m_stack.m_size = q.m_stack.m_size := by
  rcases hval with hval | hval
  · exact q.preload_balance env.codec h1 h2 h3 hnum valueType hval ht hs
  · obtain ⟨q1, e, a, b⟩ := hconv hval q ht hs
    exact ⟨q1, q.preload_struct env.codec valueType hval q1 e b, a, b⟩

theorem StackPusherHelper.default_value (env : RecoverEnv) (valueType : SolType)
    (hval : specCodecType valueType = true ∨ valueType.category = .Struct)
    (hdef : valueType.category = .Struct → ∀ q : StackPusherHelper, 0 ≤ q.m_code.tabQty →
      0 ≤ q.m_stack.m_size → ∃ q1, env.defaults.createDefaultStruct valueType false q = some q1 ∧
        q1.m_code.tabQty = q.m_code.tabQty ∧ q1.m_stack.m_size = q.m_stack.m_size + 1)
    (q : StackPusherHelper) (ht : 0 ≤ q.m_code.tabQty) (hs : 0 ≤ q.m_stack.m_size) :
    ∃ q1, q.pushDefaultValue env.defaults valueType false = some q1 ∧
      q1.m_code.tabQty = q.m_code.tabQty ∧ q1.m_stack.m_size = q.m_stack.m_size + 1 := by
  rcases hval with hval | hval
  · exact q.pushDefaultValue_value env.defaults valueType hval ht hs
  · obtain ⟨q1, e, a, b⟩ := hdef hval q ht hs
    refine ⟨q1, ?_, a, b⟩
    unfold StackPusherHelper.pushDefaultValue
    rw [hval]
    exact e

/-- C15: with the default arguments `startContinuation(0)`, `endContinuation(0)`,
`startCallRef(0)` and `drop(1)`, a value type of the codec family or a struct, struct
sub-compilers that keep the model stack (`convertSliceToTuple`) or grow it by one
(`createDefaultStruct`), and types for which `doesDictStoreValueInRef` is defined, on an
emitter with at least one model stack entry: both continuations of value-or-default and of
value-or-null with `saveOrigKeyAndNoTuple` are emitted, for every combination of the flags.
The second continuation always accumulates the change 0. The first continuation accumulates
0 as well unless `haveKey` and `saveOrigKeyAndNoTuple` both hold, and then it accumulates
exactly 1 (the `DUP` of the key). -/
theorem C15_continuation_changes (env : RecoverEnv)
    (h1 : env.codec.startContinuationDefault = 0)
    (h2 : env.codec.endContinuationDefault = 0) (h3 : env.codec.dropDefault = 1)
    (h4 : env.startCallRefDefault = 0)
    (hnum : ∀ t : SolType, t.category = .Integer ∨ t.category = .Enum ∨ t.category = .Bool ∨
      t.category = .FixedPoint ∨ t.category = .FixedBytes → env.codec.isNumeric t = true)
    (keyType valueType : SolType)
    (hkey : keyType.category = .Struct → ∀ q : StackPusherHelper, 0 ≤ q.m_code.tabQty →
      1 ≤ q.m_stack.m_size → ∃ q1, env.codec.convertSliceToTuple keyType q = some q1 ∧
        q1.m_code.tabQty = q.m_code.tabQty ∧ q1.m_stack.m_size = q.m_stack.m_size)
    (hval : specCodecType valueType = true ∨ valueType.category = .Struct)
    (hconv : valueType.category = .Struct → ∀ q : StackPusherHelper, 0 ≤ q.m_code.tabQty →
      1 ≤ q.m_stack.m_size → ∃ q1, env.codec.convertSliceToTuple valueType q = some q1 ∧
        q1.m_code.tabQty = q.m_code.tabQty ∧ q1.m_stack.m_size = q.m_stack.m_size)
    (hdef : valueType.category = .Struct → ∀ q : StackPusherHelper, 0 ≤ q.m_code.tabQty →
      0 ≤ q.m_stack.m_size → ∃ q1, env.defaults.createDefaultStruct valueType false q = some q1 ∧
        q1.m_code.tabQty = q.m_code.tabQty ∧ q1.m_stack.m_size = q.m_stack.m_size + 1)
    (hd : ∃ b, doesDictStoreValueInRef env.dict keyType valueType = some b)
    (haveKey didUseOpcodeWithRef saveOrigKeyAndNoTuple pushRefCont : Bool)
    (p : StackPusherHelper) (ht : 0 ≤ p.m_code.tabQty) (hs : 1 ≤ p.m_stack.m_size) :
    (∃ p1 r p2,
      p.valueOrDefaultFirst env keyType valueType haveKey didUseOpcodeWithRef
        saveOrigKeyAndNoTuple pushRefCont = some p1 ∧
      p1.tryPollEmptyPushCont = some r ∧
      r.1.valueOrDefaultSecond env valueType pushRefCont = some p2 ∧
      p1.m_stack.m_size - p.m_stack.m_size
        = (if haveKey = true ∧ saveOrigKeyAndNoTuple = true then 1 else 0) ∧
      p2.m_stack.m_size - r.1.m_stack.m_size = 0) ∧
    (∃ p1 p2,
      p.valueOrNullFirst env keyType valueType haveKey didUseOpcodeWithRef true = some p1 ∧
      p1.valueOrNullSecond env = some p2 ∧
      p1.m_stack.m_size - p.m_stack.m_size = (if haveKey = true then 1 else 0) ∧
      p2.m_stack.m_size - p1.m_stack.m_size = 0) := by
  have hpre := StackPusherHelper.preload_value env h1 h2 h3 hnum valueType hval hconv
  have hdflt := StackPusherHelper.default_value env valueType hval hdef
  constructor
  · obtain ⟨p1, e1, a1, b1⟩ := p.valueOrDefaultFirst_balance env h1 h2 h4 keyType valueType
      haveKey didUseOpcodeWithRef saveOrigKeyAndNoTuple pushRefCont hkey hpre hd ht hs
    obtain ⟨r, e2, a2, b2⟩ := p1.tryPollEmptyPushCont_stack
    have hs1 : 0 ≤ p1.m_stack.m_size := by
      rw [b1]; split_ifs <;> omega
    obtain ⟨p2, e3, a3, b3⟩ := r.1.valueOrDefaultSecond_balance env h1 valueType pushRefCont
      hdflt (by omega) (by rw [b2]; exact hs1)
    exact ⟨p1, r, p2, e1, e2, e3, by omega, by omega⟩
  · obtain ⟨p1, e1, a1, b1⟩ := p.valueOrNullFirst_balance env h1 h2 h4 keyType valueType
      haveKey didUseOpcodeWithRef hkey hpre hd ht hs
    have hs1 : 0 ≤ p1.m_stack.m_size := by
      rw [b1]; split_ifs <;> omega
    obtain ⟨p2, e2, a2, b2⟩ := p1.valueOrNullSecond_balance env h1 h2 (by omega) hs1
    exact ⟨p1, p2, e1, e2, by omega, by omega⟩

/-- C15 at a key of 32 bits and a value of 8 bits, with the key on the stack and kept
(`haveKey`, `saveOrigKeyAndNoTuple`): the first continuations accumulate 1, the second 0. -/
theorem C15_continuation_changes_witness :
    (∃ p1 r p2,
      exampleRecoverStart.valueOrDefaultFirst exampleRecoverEnv (.Integer 32 false)
        (.Integer 8 true) true false true false = some p1 ∧
      p1.tryPollEmptyPushCont = some r ∧
      r.1.valueOrDefaultSecond exampleRecoverEnv (.Integer 8 true) false = some p2 ∧
      p1.m_stack.m_size - exampleRecoverStart.m_stack.m_size = 1 ∧
      p2.m_stack.m_size - r.1.m_stack.m_size = 0) ∧
    (∃ p1 p2,
      exampleRecoverStart.valueOrNullFirst exampleRecoverEnv (.Integer 32 false)
        (.Integer 8 true) true false true = some p1 ∧
      p1.valueOrNullSecond exampleRecoverEnv = some p2 ∧
      p1.m_stack.m_size - exampleRecoverStart.m_stack.m_size = 1 ∧
      p2.m_stack.m_size - p1.m_stack.m_size = 0) :=
  C15_continuation_changes exampleRecoverEnv rfl rfl rfl rfl (fun _ _ => rfl)
    (.Integer 32 false) (.Integer 8 true) (fun h => absurd h (by decide)) (Or.inl rfl)
    (fun h => absurd h (by decide)) (fun h => absurd h (by decide)) ⟨_, rfl⟩
    true false true false exampleRecoverStart (by decide) (by decide)

/-- C15 fails as stated: for value-or-null with `saveOrigKeyAndNoTuple` and `haveKey`, a key
of 32 bits and a value of 8 bits, the first continuation (`DUP`, `ROT`, `PLDI 8`) raises the
model stack size from 2 to 3 and the second (three `NULL`) leaves it at 3: the accumulated
changes are 1 and 0. -/
theorem C15_counterexample :
    ∃ p1 p2,
      exampleRecoverStart.valueOrNullFirst exampleRecoverEnv (.Integer 32 false)
        (.Integer 8 true) true false true = some p1 ∧
      p1.valueOrNullSecond exampleRecoverEnv = some p2 ∧
      exampleRecoverStart.m_stack.m_size = 2 ∧ p1.m_stack.m_size = 3 ∧
      p2.m_stack.m_size = 3 ∧
      p1.m_stack.m_size - exampleRecoverStart.m_stack.m_size
        ≠ p2.m_stack.m_size - p1.m_stack.m_size := by
  obtain ⟨p1, e1, a1, b1⟩ := exampleRecoverStart.valueOrNullFirst_balance exampleRecoverEnv
    rfl rfl rfl (.Integer 32 false) (.Integer 8 true) true false
    (fun h => absurd h (by decide))
    (fun q h5 h6 => q.preload_balance exampleCodecEnv rfl rfl rfl (fun _ _ => rfl)
      (.Integer 8 true) rfl h5 h6)
    ⟨_, rfl⟩ (by decide) (by decide)
  have hs1 : p1.m_stack.m_size = 3 := by
    rw [b1]; decide
  obtain ⟨p2, e2, a2, b2⟩ := p1.valueOrNullSecond_balance exampleRecoverEnv rfl rfl
    (by rw [a1]; decide) (by omega)
  exact ⟨p1, p2, e1, e2, rfl, hs1, by omega, by
    have h0 : exampleRecoverStart.m_stack.m_size = 2 := rfl
    omega⟩

theorem onStackCount_nonneg (isParamOnStack : List Int) :
    ∀ (zs : List Int) (param : Int), 0 ≤ onStackCount isParamOnStack zs param
  | [], _ => by simp [onStackCount]
  | _ :: rest, param => by
    have := onStackCount_nonneg isParamOnStack rest (param + 1)
    simp only [onStackCount]
    split_ifs <;> omega

theorem StackPusherHelper.stzeroes_balance (p : StackPusherHelper) (qty : Int)
    (ht : 0 ≤ p.m_code.tabQty) (hs : 0 ≤ p.m_stack.m_size) :
    ∃ q, p.stzeroes qty = some q ∧ q.m_code.tabQty = p.m_code.tabQty ∧
      q.m_stack.m_size = p.m_stack.m_size := by
  unfold StackPusherHelper.stzeroes
  by_cases h0 : qty > 0
  · rw [if_pos h0]
    by_cases h1 : qty = 1
    · rw [if_pos h1]
      obtain ⟨q, e, a, b⟩ := p.push_balance 0 "STSLICECONST 0" ht (by omega)
      exact ⟨q, e, a, by omega⟩
    · rw [if_neg h1]
      obtain ⟨q1, e1, a1, b1⟩ := p.push_balance 1 ("PUSHINT " ++ toString qty) ht (by omega)
      obtain ⟨q2, e2, a2, b2⟩ := q1.push_balance (-1) "STZEROES" (by omega) (by omega)
      exact ⟨q2, by simp only [StackPusherHelper.pushInt, e1, e2, Option.some_bind],
        by omega, by omega⟩
  · rw [if_neg h0]
    exact ⟨p, rfl, rfl, rfl⟩

theorem StackPusherHelper.appendToBuilder_balance (p : StackPusherHelper)
    (bitString : String) (hb : TVMOptimizer.isBits bitString.data)
    (ht : 0 ≤ p.m_code.tabQty) (hs : 0 ≤ p.m_stack.m_size) :
    ∃ q, p.appendToBuilder bitString = some q ∧ q.m_code.tabQty = p.m_code.tabQty ∧
      q.m_stack.m_size = p.m_stack.m_size := by
  unfold StackPusherHelper.appendToBuilder
  by_cases h0 : bitString.data = []
  · rw [if_pos h0]
    exact ⟨p, rfl, rfl, rfl⟩
  · rw [if_neg h0]
    simp only
    by_cases h1 : bitString.data.countP (fun c => c == '0') = bitString.length
    · rw [if_pos h1]
      exact p.stzeroes_balance _ ht hs
    · rw [if_neg h1]
      obtain ⟨hex, e, _⟩ := TVMOptimizer.binaryStringToSlice_round_trip bitString.data hb
      simp only [e, Option.some_bind]
      by_cases h2 : hex.length * 4 ≤ 8 * 7 + 1
      · rw [if_pos h2]
        obtain ⟨q, e1, a1, b1⟩ := p.push_balance 0 ("STSLICECONST x" ++ String.mk hex) ht
          (by omega)
        exact ⟨q, e1, a1, by omega⟩
      · rw [if_neg h2]
        obtain ⟨q1, e1, a1, b1⟩ := p.push_balance 1 ("PUSHSLICE x" ++ String.mk hex) ht
          (by omega)
        obtain ⟨q2, e2, a2, b2⟩ := q1.push_balance (-1) "STSLICER" (by omega) (by omega)
        exact ⟨q2, by simp only [e1, e2, Option.some_bind], by omega, by omega⟩

theorem StackPusherHelper.storeIntMsgParam_spec (env : MsgEnv) (isParamOnStack : List Int)
    (constParams : Int → Option String) (param zero : Int)
    (hc : constParams param = none) (hon : param ∈ isParamOnStack)
    (hfour : param = env.bounce ∨ param = env.dest ∨ param = env.tons ∨ param = env.currency)
    (p : StackPusherHelper) (ht : 0 ≤ p.m_code.tabQty) (hs : 1 ≤ p.m_stack.m_size) :
    ∃ q, p.storeIntMsgParam env param
        = some (q, specFieldWidth env isParamOnStack constParams param zero) ∧
      q.m_code.tabQty = p.m_code.tabQty ∧ q.m_stack.m_size = p.m_stack.m_size - 1 := by
  have one : ∀ c : String, ∃ q, p.push (-1) c = some q ∧
      q.m_code.tabQty = p.m_code.tabQty ∧ q.m_stack.m_size = p.m_stack.m_size - 1 := by
    intro c
    obtain ⟨q, e, a, b⟩ := p.push_balance (-1) c ht (by omega)
    exact ⟨q, e, a, by omega⟩
  unfold StackPusherHelper.storeIntMsgParam specFieldWidth
  simp only [hc, hon, if_true]
  by_cases h1 : param = env.bounce
  · obtain ⟨q, e, a, b⟩ := one "STI 1"
    exact ⟨q, by simp only [if_pos h1, e, Option.map_some'], a, b⟩
  · by_cases h2 : param = env.dest
    · obtain ⟨q, e, a, b⟩ := one "STSLICE"
      exact ⟨q, by simp only [if_neg h1, if_pos h2, e, Option.map_some'], a, b⟩
    · by_cases h3 : param = env.tons
      · obtain ⟨q1, e1, a1, b1⟩ := p.push_balance 0 "SWAP" ht (by omega)
        obtain ⟨q2, e2, a2, b2⟩ := q1.push_balance (-1) "STGRAMS" (by omega) (by omega)
        exact ⟨q2, by simp only [if_neg h1, if_neg h2, if_pos h3,
          StackPusherHelper.exchange_top, e1, e2, Option.some_bind, Option.map_some'],
          by omega, by omega⟩
      · have h4 : param = env.currency := by
          rcases hfour with h | h | h | h
          · exact absurd h h1
          · exact absurd h h2
          · exact absurd h h3
          · exact h
        obtain ⟨q, e, a, b⟩ := one "STDICT"
        exact ⟨q, by simp only [if_neg h1, if_neg h2, if_neg h3, if_pos h4, e,
          Option.map_some'], a, b⟩

theorem isBits_append_string (a b : String) (ha : TVMOptimizer.isBits a.data)
    (hb : TVMOptimizer.isBits b.data) : TVMOptimizer.isBits (a ++ b).data := by
  intro c hc
  rw [String.data_append] at hc
  rcases List.mem_append.mp hc with h | h
  · exact ha c h
  · exact hb c h

theorem isBits_zeros (n : Nat) : TVMOptimizer.isBits (String.mk (List.replicate n '0')).data := by
  intro c hc
  exact Or.inl (List.eq_of_mem_replicate hc)

theorem intMsgLoop_spec (env : MsgEnv) (isParamOnStack : List Int)
    (constParams : Int → Option String)
    (hconf : ∀ i s, 0 ≤ i → i < 11 → constParams i = some s → i ∉ isParamOnStack)
    (hdest : (constParams env.dest).isSome = true ∨ env.dest ∈ isParamOnStack)
    (hfour : ∀ i, 0 ≤ i → i < 11 → i ∈ isParamOnStack →
      i = env.bounce ∨ i = env.dest ∨ i = env.tons ∨ i = env.currency)
    (hbits : ∀ i s, 0 ≤ i → i < 11 → constParams i = some s → TVMOptimizer.isBits s.data) :
    ∀ (zs : List Int) (param : Int) (bitString : String) (maxBitStringSize : Int)
      (p : StackPusherHelper), (∀ z ∈ zs, 0 ≤ z) → 0 ≤ param → param + zs.length ≤ 11 →
      TVMOptimizer.isBits bitString.data → 0 ≤ p.m_code.tabQty →
      onStackCount isParamOnStack zs param ≤ p.m_stack.m_size →
      ∃ q bs m, intMsgLoop env isParamOnStack constParams zs param bitString
          maxBitStringSize p = some (q, bs, m) ∧
        TVMOptimizer.isBits bs.data ∧
        m + bs.length = maxBitStringSize + bitString.length +
          specFieldSum env isParamOnStack constParams zs param ∧
        q.m_code.tabQty = p.m_code.tabQty ∧
        q.m_stack.m_size = p.m_stack.m_size - onStackCount isParamOnStack zs param := by
  intro zs
  induction zs with
  | nil =>
    intro param bitString m p _ _ _ hb _ _
    exact ⟨p, bitString, m, rfl, hb, by simp [specFieldSum], rfl, by simp [onStackCount]⟩
  | cons zero rest ih =>
    intro param bitString m p hz h0 h11 hb ht hs
    have hz0 : 0 ≤ zero := hz zero (by simp)
    have hzr : ∀ z ∈ rest, 0 ≤ z := fun z h => hz z (by simp [h])
    have hlen : param + 1 + (rest.length : Int) ≤ 11 := by
      simp only [List.length_cons, Nat.cast_add, Nat.cast_one] at h11
      omega
    have hp11 : param < 11 := by
      simp only [List.length_cons, Nat.cast_add, Nat.cast_one] at h11
      omega
    unfold intMsgLoop
    simp only [specFieldSum, onStackCount] at hs ⊢
    cases hc : constParams param with
    | some s =>
      have hoff : param ∉ isParamOnStack := hconf param s h0 hp11 hc
      simp only [hoff, not_false_eq_true, or_true, not_true_eq_false, if_false, if_true] at hs ⊢
      obtain ⟨q, bs, m1, e, a, b, c, d⟩ := ih (param + 1) (bitString ++ s) m p hzr (by omega)
        hlen (isBits_append_string _ _ hb (hbits param s h0 hp11 hc)) ht (by omega)
      refine ⟨q, bs, m1, e, a, ?_, c, by omega⟩
      rw [b, String.length_append]
      simp only [specFieldWidth, hc]
      push_cast
      omega
    | none =>
      by_cases hon : param ∈ isParamOnStack
      · simp only [hon, if_true, not_true_eq_false, if_false, Option.isNone_none, true_or] at hs ⊢
        obtain ⟨p1, e1, a1, b1⟩ := p.appendToBuilder_balance bitString hb ht
          (by have := onStackCount_nonneg isParamOnStack rest (param + 1); omega)
        obtain ⟨p2, e2, a2, b2⟩ := p1.storeIntMsgParam_spec env isParamOnStack constParams
          param zero hc hon (hfour param h0 hp11 hon) (by omega)
          (by have := onStackCount_nonneg isParamOnStack rest (param + 1); omega)
        obtain ⟨q, bs, m1, e, a, b, c, d⟩ := ih (param + 1) ""
          (m + bitString.length + specFieldWidth env isParamOnStack constParams param zero)
          p2 hzr (by omega) hlen (by intro c hc; simp at hc) (by omega) (by omega)
        refine ⟨q, bs, m1, ?_, a, ?_, by omega, by omega⟩
        · simp only [e1, e2, Option.some_bind]
          exact e
        · rw [b]
          simp only [String.length_empty]
          push_cast
          omega
      · have hnd : param ≠ env.dest := by
          intro h
          rcases hdest with h1 | h1
          · rw [← h, hc] at h1
            exact absurd h1 (by simp)
          · exact hon (h ▸ h1)
        simp only [hon, not_false_eq_true, or_true, not_true_eq_false, if_false, if_true,
          hnd, ne_eq] at hs ⊢
        obtain ⟨q, bs, m1, e, a, b, c, d⟩ := ih (param + 1)
          (bitString ++ String.mk (List.replicate zero.toNat '0')) m p hzr (by omega)
          hlen (isBits_append_string _ _ hb (isBits_zeros _)) ht (by omega)
        refine ⟨q, bs, m1, e, a, ?_, c, by omega⟩
        rw [b, String.length_append]
        simp only [specFieldWidth, hc, hon, if_false, String.length_mk, List.length_replicate]
        push_cast
        omega


theorem StackPusherHelper.int_msg_info_spec (env : MsgEnv) (isParamOnStack : List Int)
    (constParams : Int → Option String)
    (hconf : ∀ i s, 0 ≤ i → i < 11 → constParams i = some s → i ∉ isParamOnStack)
    (hdest : (constParams env.dest).isSome = true ∨ env.dest ∈ isParamOnStack)
    (hfour : ∀ i, 0 ≤ i → i < 11 → i ∈ isParamOnStack →
      i = env.bounce ∨ i = env.dest ∨ i = env.tons ∨ i = env.currency)
    (hbits : ∀ i s, 0 ≤ i → i < 11 → constParams i = some s → TVMOptimizer.isBits s.data)
    (p : StackPusherHelper) (ht : 0 ≤ p.m_code.tabQty)
    (hs : onStackCount isParamOnStack intMsgZeroes 0 ≤ p.m_stack.m_size + 1) :
    ∃ p1, p.int_msg_info env isParamOnStack constParams
        = some (p1, specHeaderLength env isParamOnStack constParams) ∧
      p1.m_code.tabQty = p.m_code.tabQty ∧
      p1.m_stack.m_size
        = p.m_stack.m_size + 1 - onStackCount isParamOnStack intMsgZeroes 0 := by
  have hn := onStackCount_nonneg isParamOnStack intMsgZeroes 0
  obtain ⟨q1, e1, a1, b1⟩ := p.push_balance 1 "NEWC" ht (by omega)
  obtain ⟨q2, bs, m, e2, hb, hm, a2, b2⟩ := intMsgLoop_spec env isParamOnStack constParams
    hconf hdest hfour hbits intMsgZeroes 0 "0" 0 q1 (by decide) (by decide) (by decide)
    (by intro c hc; simp at hc; exact Or.inl hc) (by omega) (by omega)
  obtain ⟨q3, e3, a3, b3⟩ := q2.appendToBuilder_balance bs hb (by omega) (by omega)
  refine ⟨q3, ?_, by omega, by omega⟩
  unfold StackPusherHelper.int_msg_info
  simp only [e1, e2, e3, Option.some_bind, Option.map_some']
  have h1 : ("0" : String).length = 1 := by decide
  rw [h1] at hm
  have h2 : specHeaderLength env isParamOnStack constParams
      = 1 + specFieldSum env isParamOnStack constParams intMsgZeroes 0 := rfl
  have hm2 : m + (bs.length : Int)
      = 1 + specFieldSum env isParamOnStack constParams intMsgZeroes 0 := by
    push_cast at hm
    omega
  rw [h2, hm2]

theorem StackPusherHelper.appendToBuilder_zero (p : StackPusherHelper) :
    p.appendToBuilder "0" = p.push 0 "STSLICECONST 0" := by
  unfold StackPusherHelper.appendToBuilder StackPusherHelper.stzeroes
  rw [if_neg (by decide)]
  simp only
  rw [if_pos (by decide), if_pos (by decide), if_pos (by decide)]

theorem StackPusherHelper.appendToBuilder_one (p : StackPusherHelper) :
    p.appendToBuilder "1" = p.push 0 "STSLICECONST xc_" := by
  unfold StackPusherHelper.appendToBuilder
  rw [if_neg (by decide)]
  simp only
  rw [if_neg (by decide)]
  have h : TVMOptimizer.binaryStringToSlice ("1" : String).data = some ['c', '_'] := by decide
  rw [h]
  simp only [Option.some_bind]
  rw [if_pos (by decide)]
  rfl

/-- C19: for an internal message in which no header field is both constant and on the
stack, the destination is constant or on the stack, the fields taken from the stack are
among bounce, destination, value and extra currencies, the constants are strings of binary
digits, and the model stack holds the fields taken from the stack: `int_msg_info` returns
1 plus the sum of the widths of the eleven header fields. `prepareMsg` then writes
`STSLICECONST 0` for an absent state-init and calls the body appender with this length
plus 1, or writes the bit 1 (`STSLICECONST xc_`), runs the state-init appender and calls
the body appender with this length plus 2; for an absent body it writes
`STSLICECONST 0`. -/
theorem C19_msg_header (env : MsgEnv) (isParamOnStack : List Int)
    (constParams : Int → Option String)
    (hconf : ∀ i s, 0 ≤ i → i < 11 → constParams i = some s → i ∉ isParamOnStack)
    (hdest : (constParams env.dest).isSome = true ∨ env.dest ∈ isParamOnStack)
    (hfour : ∀ i, 0 ≤ i → i < 11 → i ∈ isParamOnStack →
      i = env.bounce ∨ i = env.dest ∨ i = env.tons ∨ i = env.currency)
    (hbits : ∀ i s, 0 ≤ i → i < 11 → constParams i = some s → TVMOptimizer.isBits s.data)
    (p : StackPusherHelper) (ht : 0 ≤ p.m_code.tabQty)
    (hs : onStackCount isParamOnStack intMsgZeroes 0 ≤ p.m_stack.m_size + 1) :
    ∃ p1, p.int_msg_info env isParamOnStack constParams
        = some (p1, specHeaderLength env isParamOnStack constParams) ∧
      (∀ body : Int → StackPusherHelper → Option StackPusherHelper,
        p.prepareMsg env isParamOnStack constParams (some body) none .Internal
          = ((p1.push 0 "STSLICECONST 0").bind
              (body (specHeaderLength env isParamOnStack constParams + 1))).bind
            fun q => q.push 0 "ENDC") ∧
      (∀ (body : Int → StackPusherHelper → Option StackPusherHelper)
          (stateInit : StackPusherHelper → Option StackPusherHelper),
        p.prepareMsg env isParamOnStack constParams (some body) (some stateInit) .Internal
          = (((p1.push 0 "STSLICECONST xc_").bind stateInit).bind
              (body (specHeaderLength env isParamOnStack constParams + 2))).bind
            fun q => q.push 0 "ENDC") ∧
      (p.prepareMsg env isParamOnStack constParams none none .Internal
          = ((p1.push 0 "STSLICECONST 0").bind fun q => q.push 0 "STSLICECONST 0").bind
            fun q => q.push 0 "ENDC") ∧
      (∀ stateInit : StackPusherHelper → Option StackPusherHelper,
        p.prepareMsg env isParamOnStack constParams none (some stateInit) .Internal
          = (((p1.push 0 "STSLICECONST xc_").bind stateInit).bind
              fun q => q.push 0 "STSLICECONST 0").bind
            fun q => q.push 0 "ENDC") := by
  obtain ⟨p1, e, _, _⟩ := p.int_msg_info_spec env isParamOnStack constParams hconf hdest
    hfour hbits ht hs
  refine ⟨p1, e, ?_, ?_, ?_, ?_⟩
  · intro body
    simp only [StackPusherHelper.prepareMsg, e, Option.some_bind,
      StackPusherHelper.appendToBuilder_zero]
    cases p1.push 0 "STSLICECONST 0" <;> rfl
  · intro body stateInit
    simp only [StackPusherHelper.prepareMsg, e, Option.some_bind,
      StackPusherHelper.appendToBuilder_one]
    cases h1 : p1.push 0 "STSLICECONST xc_" with
    | none => rfl
    | some q =>
      simp only [Option.some_bind]
      cases h2 : stateInit q with
      | none => rfl
      | some q1 =>
        simp only [Option.map_some', Option.some_bind, add_assoc]
        rfl
  · simp only [StackPusherHelper.prepareMsg, e, Option.some_bind,
      StackPusherHelper.appendToBuilder_zero]
    cases p1.push 0 "STSLICECONST 0" <;> rfl
  · intro stateInit
    simp only [StackPusherHelper.prepareMsg, e, Option.some_bind,
      StackPusherHelper.appendToBuilder_one, StackPusherHelper.appendToBuilder_zero]
    cases h1 : p1.push 0 "STSLICECONST xc_" with
    | none => rfl
    | some q =>
      simp only [Option.some_bind]
      cases h2 : stateInit q <;> rfl


/-- C19 for a message with the destination and the value on the stack and a constant bounce
bit: the header length is 834, and the body appender is called with 835 or 836. -/
theorem C19_msg_header_witness :
    specHeaderLength exampleMsgEnv [4, 5] exampleConstParams = 834 ∧
    ∃ p1, (StackPusherHelper.mk ⟨[], 0⟩ ⟨3, []⟩).int_msg_info exampleMsgEnv [4, 5]
        exampleConstParams = some (p1, specHeaderLength exampleMsgEnv [4, 5] exampleConstParams) ∧
      (∀ body : Int → StackPusherHelper → Option StackPusherHelper,
        (StackPusherHelper.mk ⟨[], 0⟩ ⟨3, []⟩).prepareMsg exampleMsgEnv [4, 5]
            exampleConstParams (some body) none .Internal
          = ((p1.push 0 "STSLICECONST 0").bind
              (body (specHeaderLength exampleMsgEnv [4, 5] exampleConstParams + 1))).bind
            fun q => q.push 0 "ENDC") := by
  have hc : ∀ i s, exampleConstParams i = some s → i = 1 ∧ s = "1" := by
    intro i s h
    unfold exampleConstParams at h
    split_ifs at h with h1
    exact ⟨h1, (Option.some.inj h).symm⟩
  obtain ⟨p1, e, b, _⟩ := C19_msg_header exampleMsgEnv [4, 5] exampleConstParams
    (fun i s _ _ h => by rw [(hc i s h).1]; decide)
    (Or.inr (by decide))
    (fun i _ _ h => by
      simp only [List.mem_cons, List.mem_singleton, List.not_mem_nil, or_false] at h
      rcases h with h | h
      · exact Or.inr (Or.inl h)
      · exact Or.inr (Or.inr (Or.inl h)))
    (fun i s _ _ h => by rw [(hc i s h).2]; intro c hc1; simp at hc1; exact Or.inr hc1)
    ⟨⟨[], 0⟩, ⟨3, []⟩⟩ (by decide) (by decide)
  exact ⟨by decide, p1, e, b⟩

namespace TVMOptimizer

theorem commentLines_append (a b : List String) :
    commentLines (a ++ b) = commentLines a ++ commentLines b := by
  unfold commentLines
  rw [List.filter_append]

theorem commentLines_comments (K : List String)
    (h : ∀ s ∈ K, is_comment_or_empty_line s = true) : commentLines K = K := by
  unfold commentLines
  rw [List.filter_eq_self]
  exact h

theorem commentLines_commands (R : List String)
    (h : ∀ s ∈ R, is_comment_or_empty_line s = false) : commentLines R = [] := by
  unfold commentLines
  rw [List.filter_eq_nil_iff]
  intro s hs
  simp [h s hs]

theorem startsCommand_line (pfx c : String) (hp : ∀ ch ∈ pfx.data, is_space ch = true)
    (h : startsCommand c = true) : is_comment_or_empty_line (pfx ++ c) = false := by
  rw [is_comment_or_empty_line_indent pfx c hp]
  unfold startsCommand at h
  unfold is_comment_or_empty_line
  cases hd : c.data with
  | nil => rw [hd] at h; cases h
  | cons ch t =>
    rw [hd] at h
    simp only [Bool.and_eq_true, Bool.not_eq_true', decide_eq_true_eq] at h
    simp only [List.dropWhile, h.1]
    simpa using h.2

/-- The removal loop of `updateLines` started at a command line: the lines left of the span
up to the last removed line are its comment lines, in order. -/
theorem foldl_remove_order (lines_ : List String) : ∀ (r i : Nat) (X : List String),
    i < lines_.length →
    (∀ t ∈ linesToRemove lines_ (r + 1) (i : Int), valid lines_ t = true) →
    is_comment_or_empty_line (lineAt lines_ (i : Int)) = false →
    ∃ (last : Nat),
      (linesToRemove lines_ (r + 1) (i : Int)).getLast? = some (last : Int) ∧
      i ≤ last ∧ last < lines_.length ∧
      (linesToRemove lines_ (r + 1) (i : Int)).reverse.foldl remove
          (lines_.take (last + 1) ++ X)
        = lines_.take i ++ commentLines ((lines_.take (last + 1)).drop i) ++ X := by
  intro r
  induction r with
  | zero =>
    intro i X hi _ hcmd
    refine ⟨i, rfl, le_refl _, hi, ?_⟩
    have hspan : (lines_.take (i + 1)).drop i = [lines_.get ⟨i, hi⟩] := by
      rw [take_succ_eq _ _ hi, List.drop_append_of_le_length (by simp; omega),
        List.drop_of_length_le (by simp)]
      simp
    rw [hspan]
    rw [lineAt_nat _ _ hi] at hcmd
    rw [commentLines_commands _ (by intro s hs; simp at hs; rw [hs]; exact hcmd)]
    simp only [linesToRemove, List.reverse_cons, List.reverse_nil, List.nil_append,
      List.foldl_cons, List.foldl_nil, List.append_nil]
    rw [take_succ_eq _ _ hi, List.append_assoc, List.singleton_append]
    have := remove_at_length (lines_.take i) (lines_.get ⟨i, hi⟩) X
    rw [List.length_take, Nat.min_eq_left (by omega)] at this
    exact this
  | succ r ih =>
    intro i X hi hval hcmd
    have hT : linesToRemove lines_ (r + 1 + 1) (i : Int) =
        (i : Int) :: linesToRemove lines_ (r + 1) (next_command_line lines_ (i : Int)) := rfl
    rw [hT] at hval ⊢
    have hjv : valid lines_ (next_command_line lines_ (i : Int)) = true := by
      apply hval
      apply List.mem_cons_of_mem
      exact List.mem_cons_self _ _
    rcases next_command_line_decomp lines_ i hi with ⟨h1, _⟩ | ⟨C, l, rest, e, hC, hl, hj⟩
    · rw [h1, valid_neg_one] at hjv
      cases hjv
    · rw [hj] at hjv hval ⊢
      have hjlt : i + 1 + C.length < lines_.length := by
        rw [valid_nat] at hjv
        simpa using hjv
      have hlj : lineAt lines_ ((i + 1 + C.length : Nat) : Int) = l := by
        rw [lineAt_nat _ _ hjlt]
        have h2 : lines_.get ⟨i + 1 + C.length, hjlt⟩
            = (lines_.drop (i + 1)).get ⟨C.length, by rw [List.length_drop]; omega⟩ := by
          simp only [List.get_eq_getElem, List.getElem_drop]
        rw [h2]
        simp only [List.get_eq_getElem, e]
        rw [List.getElem_append_right (by omega)]
        simp
      obtain ⟨last, hlast, hle, hlt, hfold⟩ :=
        ih (i + 1 + C.length) X hjlt (fun t ht => hval t (List.mem_cons_of_mem _ ht))
          (by rw [hlj]; exact hl)
      have hne : linesToRemove lines_ (r + 1) ((i + 1 + C.length : Nat) : Int) ≠ [] := by
        simp [linesToRemove]
      have htake : lines_.take (i + 1 + C.length) = lines_.take i ++ lines_.get ⟨i, hi⟩ :: C := by
        have h1 : lines_.take (i + 1 + C.length)
            = lines_.take (i + 1) ++ (lines_.drop (i + 1)).take C.length := by
          rw [List.take_add]
        rw [h1, e, take_succ_eq _ _ hi, List.take_left' rfl]
        simp only [List.append_assoc, List.singleton_append]
      have hsplit : (lines_.take (last + 1)).drop i =
          lines_.get ⟨i, hi⟩ :: C ++ (lines_.take (last + 1)).drop (i + 1 + C.length) := by
        have h2 : (lines_.take (last + 1)).take (i + 1 + C.length)
            = lines_.take (i + 1 + C.length) := by
          rw [List.take_take, Nat.min_eq_left (by omega)]
        have h3 : lines_.take (last + 1) = lines_.take i ++
            (lines_.get ⟨i, hi⟩ :: C ++ (lines_.take (last + 1)).drop (i + 1 + C.length)) := by
          have h4 := List.take_append_drop (i + 1 + C.length) (lines_.take (last + 1))
          rw [h2, htake] at h4
          rw [← List.append_assoc]
          exact h4.symm
        conv_lhs => rw [h3]
        rw [List.drop_left' (by simp; omega)]
      refine ⟨last, ?_, by omega, hlt, ?_⟩
      · cases hT' : linesToRemove lines_ (r + 1) ((i + 1 + C.length : Nat) : Int) with
        | nil => exact absurd hT' hne
        | cons a t =>
          rw [hT'] at hlast
          rw [List.getLast?_cons_cons]
          exact hlast
      · rw [List.reverse_cons, List.foldl_append, hfold]
        simp only [List.foldl_cons, List.foldl_nil]
        rw [htake, hsplit]
        have hc1 : commentLines (lines_.get ⟨i, hi⟩ :: C ++
            (lines_.take (last + 1)).drop (i + 1 + C.length))
            = C ++ commentLines ((lines_.take (last + 1)).drop (i + 1 + C.length)) := by
          have e1 : lines_.get ⟨i, hi⟩ :: C ++ (lines_.take (last + 1)).drop (i + 1 + C.length)
              = [lines_.get ⟨i, hi⟩] ++ (C ++ (lines_.take (last + 1)).drop (i + 1 + C.length)) := by
            simp
          rw [lineAt_nat _ _ hi] at hcmd
          rw [e1, commentLines_append, commentLines_append, commentLines_comments C hC,
            commentLines_commands _ (by intro s hs; simp at hs; rw [hs]; exact hcmd)]
          simp
        rw [hc1]
        have := remove_at_length (lines_.take i) (lines_.get ⟨i, hi⟩)
          (C ++ (commentLines ((lines_.take (last + 1)).drop (i + 1 + C.length)) ++ X))
        rw [List.length_take, Nat.min_eq_left (by omega)] at this
        simp only [List.append_assoc, List.cons_append] at this ⊢
        exact this


/-- A rewrite at a command line that removes at least one line and inserts only commands
keeps the blank and comment lines, in order. -/
theorem updateLines_comments (lines_ : List String) (i : Nat) (hi : i < lines_.length)
    (res : Result) (hr : 1 ≤ res.remove_)
    (hcmd : is_comment_or_empty_line (lineAt lines_ (i : Int)) = false)
    (hins : ∀ c ∈ res.commands_, isInsertable c = true)
    (b : Bool) (i' : Int) (lines' : List String)
    (h : updateLines lines_ (i : Int) res = some (b, i', lines')) :
    commentLines lines' = commentLines lines_ := by
  obtain ⟨r, hrr⟩ : ∃ r, res.remove_.toNat = r + 1 := ⟨res.remove_.toNat - 1, by omega⟩
  unfold updateLines at h
  rw [if_neg (by omega)] at h
  simp only at h
  by_cases hany : (linesToRemove lines_ res.remove_.toNat (i : Int)).any
      (fun t => !valid lines_ t) = true
  · rw [if_pos hany] at h; cases h
  rw [if_neg hany] at h
  have hval : ∀ t ∈ linesToRemove lines_ res.remove_.toNat (i : Int), valid lines_ t = true := by
    intro t ht
    by_contra hv
    apply hany
    rw [List.any_eq_true]
    exact ⟨t, ht, by simpa using hv⟩
  rw [hrr] at hval h
  obtain ⟨last, hlast, hile, hlt, _⟩ := foldl_remove_order lines_ r i [] hi hval hcmd
  have key : ∀ (N : List String) (lines1 : List String),
      (∀ s ∈ N, is_comment_or_empty_line s = false) →
      lines1 = lines_.take (last + 1) ++ (N ++ lines_.drop (last + 1)) →
      (match (some ((i : Int), lines1) : Option (Int × List String)) with
        | none => none
        | some (idx1a, lines1) =>
          if res.continue_ = true then
            some (true, stepBack ((linesToRemove lines_ (r + 1) (i : Int)).reverse.foldl remove lines1)
              (idx1a.toNat + 1) 10 idx1a idx1a,
              (linesToRemove lines_ (r + 1) (i : Int)).reverse.foldl remove lines1)
          else some (false, idx1a,
            (linesToRemove lines_ (r + 1) (i : Int)).reverse.foldl remove lines1))
        = some (b, i', lines') →
      commentLines lines' = commentLines lines_ := by
    intro N lines1 hN e1 hh
    obtain ⟨last2, hlast2, _, _, hfold⟩ :=
      foldl_remove_order lines_ r i (N ++ lines_.drop (last + 1)) hi hval hcmd
    have : last2 = last := by
      rw [hlast] at hlast2
      simp only [Option.some.injEq, Nat.cast_inj] at hlast2
      exact hlast2.symm
    subst this
    simp only at hh
    rw [e1, hfold] at hh
    have hl2 : lines' = lines_.take i ++ commentLines ((lines_.take (last2 + 1)).drop i) ++
        (N ++ lines_.drop (last2 + 1)) := by
      by_cases hc : res.continue_ = true
      · rw [if_pos hc] at hh
        simp only [Option.some.injEq, Prod.mk.injEq] at hh
        exact hh.2.2.symm
      · rw [if_neg hc] at hh
        simp only [Option.some.injEq, Prod.mk.injEq] at hh
        exact hh.2.2.symm
    have hsplit := congrArg commentLines (lines_split lines_ i last2 hile)
    rw [commentLines_append, commentLines_append] at hsplit
    rw [hl2, commentLines_append, commentLines_append, commentLines_append,
      commentLines_commands N hN, hsplit]
    have hidem : commentLines (commentLines ((lines_.take (last2 + 1)).drop i))
        = commentLines ((lines_.take (last2 + 1)).drop i) := by
      apply commentLines_comments
      intro s hs
      unfold commentLines at hs
      exact (List.mem_filter.mp hs).2
    rw [hidem]
    simp
  by_cases hne : res.commands_ = []
  · rw [if_neg (by simpa using hne)] at h
    exact key [] lines_ (by simp) (by simp) h
  · rw [if_pos hne] at h
    cases hc1 : Cmd.ofString (lineAt lines_ (i : Int)) with
    | none => rw [hc1] at h; cases h
    | some c1 =>
      rw [hc1] at h
      simp only at h
      cases hsp : shortestPrefix lines_ (linesToRemove lines_ (r + 1) (i : Int)) c1.prefix_ with
      | none => rw [hsp] at h; cases h
      | some pfx =>
        rw [hsp, hlast] at h
        simp only at h
        have hcast : ((last : Int) + 1) = ((last + 1 : Nat) : Int) := by push_cast; ring
        rw [hcast, insertCommands_spec pfx lines_ (last + 1) (by omega)] at h
        obtain ⟨_, p2⟩ := shortestPrefix_spec _ _ _ _ hsp
        have hspaces : ∀ ch ∈ pfx.data, is_space ch = true := by
          rcases p2 with rfl | ⟨t, _, c, hc, rfl⟩
          · exact prefix_spaces _ _ hc1
          · exact prefix_spaces _ _ hc
        refine key ((res.commands_.filter fun c => decide (c ≠ "")).map fun c => pfx ++ c) _
          ?_ (List.append_assoc _ _ _) h
        intro s hs
        obtain ⟨c, hcm, rfl⟩ := List.mem_map.mp hs
        obtain ⟨hc2, hc3⟩ := List.mem_filter.mp hcm
        have hok := hins c hc2
        unfold isInsertable at hok
        simp only [decide_eq_true_eq] at hc3
        simp only [Bool.or_eq_true, decide_eq_true_eq, hc3, false_or] at hok
        exact startsCommand_line pfx c hspaces hok


theorem startsCommand_append (a b : String) (h : startsCommand a = true) :
    startsCommand (a ++ b) = true := by
  unfold startsCommand at h ⊢
  rw [String.data_append]
  cases hd : a.data with
  | nil => rw [hd] at h; cases h
  | cons ch t => rw [hd] at h; simpa using h

theorem isInsertable_of_starts (c : String) (h : startsCommand c = true) :
    isInsertable c = true := by
  unfold isInsertable
  rw [h]
  simp

theorem parsed_fields (c : Cmd) (h : isParsed c) :
    (c.cmd_ = "" ∧ c.rest_ = "") ∨ startsCommand c.cmd_ = true := by
  obtain ⟨s, hs⟩ := h
  unfold Cmd.ofString at hs
  simp only at hs
  obtain ⟨_, e2, e3, _⟩ := analyze_fields _ _ hs
  simp only at e2 e3
  rw [e2, e3]
  cases hd : s.data.dropWhile is_space with
  | nil =>
    left
    simp
  | cons ch t =>
    have hns : is_space ch = false := by
      have := List.head_dropWhile_not is_space s.data (by rw [hd]; simp)
      simpa [hd] using this
    by_cases hsemi : ch = ';'
    · left
      subst hsemi
      simp [List.takeWhile, List.dropWhile, hns]
    · right
      unfold startsCommand
      simp [List.takeWhile, hns, hsemi]

theorem without_prefix_insertable (c : Cmd) (h : isParsed c) :
    isInsertable c.without_prefix = true := by
  unfold Cmd.without_prefix
  rcases parsed_fields c h with ⟨h1, h2⟩ | h1
  · rw [if_pos h2, h1]
    rfl
  · split_ifs
    · exact isInsertable_of_starts _ h1
    · exact isInsertable_of_starts _ (startsCommand_append _ _ (startsCommand_append _ _ h1))

theorem cmd_parsed (lines_ : List String) (i : Int) (c : Cmd) (h : cmd lines_ i = some c) :
    isParsed c := by
  unfold cmd at h
  split_ifs at h
  · exact ⟨_, h⟩
  · exact ⟨_, h⟩

theorem window_parsed (lines_ : List String) (idx1 : Int) (w : Window)
    (h : Window.at lines_ idx1 = some w) : windowParsed w := by
  unfold Window.at at h
  simp only at h
  split at h
  · rename_i c1 c2 c3 c4 c5 c6 h1 h2 h3 h4 h5 h6
    simp only [Option.some.injEq] at h
    subst h
    exact ⟨cmd_parsed _ _ _ h1, cmd_parsed _ _ _ h2, cmd_parsed _ _ _ h3, cmd_parsed _ _ _ h4,
      cmd_parsed _ _ _ h5, cmd_parsed _ _ _ h6⟩
  · cases h

theorem make_DROP_insertable (n : Int) (d : List String) (h : make_DROP n = some d) :
    ∀ c ∈ d, isInsertable c = true := by
  unfold make_DROP at h
  split_ifs at h <;> simp only [Option.some.injEq] at h <;> subst h <;> intro c hc <;>
    simp only [List.mem_cons, List.mem_singleton, List.not_mem_nil, or_false] at hc
  · subst hc; decide
  · subst hc; decide
  · subst hc; exact isInsertable_of_starts _ (startsCommand_append _ _ (by decide))
  · rcases hc with rfl | rfl
    · exact isInsertable_of_starts _ (startsCommand_append _ _ (by decide))
    · decide

theorem make_PUSH_insertable (n : Int) (s : String) (h : make_PUSH n = some s) :
    isInsertable s = true := by
  unfold make_PUSH at h
  split_ifs at h <;> simp only [Option.some.injEq] at h <;> subst h
  · decide
  · exact isInsertable_of_starts _ (startsCommand_append _ _ (by decide))

theorem make_POP_insertable (n : Int) (s : String) (h : make_POP n = some s) :
    isInsertable s = true := by
  unfold make_POP at h
  split_ifs at h <;> simp only [Option.some.injEq] at h <;> subst h
  · decide
  · decide
  · exact isInsertable_of_starts _ (startsCommand_append _ _ (by decide))

theorem make_BLKPUSH_insertable (n m : Int) (s : String) (h : make_BLKPUSH n m = some s) :
    isInsertable s = true := by
  unfold make_BLKPUSH at h
  split_ifs at h
  · exact make_PUSH_insertable _ _ h
  · simp only [Option.some.injEq] at h
    subst h
    exact isInsertable_of_starts _ (startsCommand_append _ _ (startsCommand_append _ _
      (startsCommand_append _ _ (by decide))))

theorem blkpushZeros_insertable : ∀ (fuel : Nat) (n : Int) (r : List String),
    blkpushZeros fuel n = some r → ∀ c ∈ r, isInsertable c = true
  | 0, _, _, h => by simp [blkpushZeros] at h
  | fuel + 1, n, r, h => by
    unfold blkpushZeros at h
    split_ifs at h
    · split at h
      · rename_i s r1 h1 h2
        simp only [Option.some.injEq] at h
        subst h
        intro c hc
        rcases List.mem_cons.mp hc with rfl | hc
        · exact make_BLKPUSH_insertable _ _ _ h1
        · exact blkpushZeros_insertable fuel _ _ h2 c hc
      · cases h
    · simp only [Option.some.injEq] at h
      subst h
      intro c hc
      cases hc

theorem insertable_append (a b : List String) (ha : ∀ c ∈ a, isInsertable c = true)
    (hb : ∀ c ∈ b, isInsertable c = true) : ∀ c ∈ a ++ b, isInsertable c = true := by
  intro c hc
  rcases List.mem_append.mp hc with h | h
  · exact ha c h
  · exact hb c h

theorem insertable_single (s : String) (h : isInsertable s = true) :
    ∀ c ∈ [s], isInsertable c = true := by
  intro c hc
  simp only [List.mem_singleton] at hc
  rw [hc]
  exact h

theorem try_simulate_loop_insertable (lines_ : List String) :
    ∀ (fuel : Nat) (first : Bool) (i ss rc : Int) (cmds : List String) (rc1 : Int)
      (cmds1 : List String),
      try_simulate_loop lines_ fuel first i ss rc cmds = some (some (rc1, cmds1)) →
      (∀ c ∈ cmds, isInsertable c = true) → ∀ c ∈ cmds1, isInsertable c = true := by
  intro fuel
  induction fuel with
  | zero => intro first i ss rc cmds rc1 cmds1 h; simp [try_simulate_loop] at h
  | succ k ih =>
    intro first i ss rc cmds rc1 cmds1 h hcmds
    unfold try_simulate_loop at h
    simp only at h
    generalize hi : (if first = true then i else next_command_line lines_ i) = i1 at h
    generalize hr : (if first = true then rc else rc + 1) = r1 at h
    have hwp : ∀ c0, cmd lines_ i1 = some c0 → isInsertable c0.without_prefix = true :=
      fun c0 h0 => without_prefix_insertable c0 (cmd_parsed _ _ _ h0)
    have recur : ∀ (ss1 : Int) (x : String), isInsertable x = true →
        try_simulate_loop lines_ k false i1 ss1 r1 (cmds ++ [x]) = some (some (rc1, cmds1)) →
        ∀ c ∈ cmds1, isInsertable c = true := by
      intro ss1 x hx hh
      exact ih _ _ _ _ _ _ _ hh (insertable_append _ _ hcmds (insertable_single _ hx))
    have final : ∀ tail : List String, (∀ c ∈ tail, isInsertable c = true) →
        some (some (r1 + 1, cmds ++ tail)) = some (some (rc1, cmds1)) →
        ∀ c ∈ cmds1, isInsertable c = true := by
      intro tail ht hh
      simp only [Option.some.injEq, Prod.mk.injEq] at hh
      obtain ⟨_, e2⟩ := hh
      rw [← e2]
      exact insertable_append _ _ hcmds ht
    by_cases hv : valid lines_ i1 = true
    swap
    · rw [if_pos hv] at h; cases h
    rw [if_neg (not_not.mpr hv)] at h
    cases hc : cmd lines_ i1 with
    | none => rw [hc] at h; cases h
    | some c =>
      rw [hc] at h
      simp only at h
      by_cases hpush : c.is_PUSH = true
      · rw [if_pos hpush] at h
        cases hpi : c.get_push_index with
        | none => rw [hpi] at h; cases h
        | some pi =>
          rw [hpi] at h
          simp only at h
          by_cases e1 : pi + 1 = ss
          · rw [if_pos e1] at h; cases h
          rw [if_neg e1] at h
          by_cases e2 : pi + 1 < ss
          · rw [if_pos e2] at h; exact recur _ _ (hwp _ hc) h
          rw [if_neg e2] at h
          by_cases e3 : pi = 0
          · rw [if_pos e3] at h; cases h
          rw [if_neg e3] at h
          cases hm : make_PUSH (pi - 1) with
          | none => rw [hm] at h; cases h
          | some s => rw [hm] at h; exact recur _ _ (make_PUSH_insertable _ _ hm) h
      rw [if_neg hpush] at h
      by_cases hpop : c.is_POP = true
      · rw [if_pos hpop] at h
        by_cases e0 : ss = 1
        · rw [if_pos e0] at h; cases h
        rw [if_neg e0] at h
        cases hpi : c.get_pop_index with
        | none => rw [hpi] at h; cases h
        | some pi =>
          rw [hpi] at h
          simp only at h
          by_cases e1 : pi + 1 = ss
          · rw [if_pos e1] at h; cases h
          rw [if_neg e1] at h
          by_cases e2 : pi + 1 < ss
          · rw [if_pos e2] at h; exact recur _ _ (hwp _ hc) h
          rw [if_neg e2] at h
          cases hm : make_POP (pi - 1) with
          | none => rw [hm] at h; cases h
          | some s => rw [hm] at h; exact recur _ _ (make_POP_insertable _ _ hm) h
      rw [if_neg hpop] at h
      by_cases hblk : c.is "BLKPUSH" = true
      · rw [if_pos hblk] at h
        cases hsec : c.fetch_second_int with
        | none => rw [hsec] at h; cases h
        | some sec =>
          rw [hsec] at h
          simp only at h
          by_cases e1 : sec + 1 < ss
          · rw [if_pos e1] at h
            cases hfst : c.fetch_first_int with
            | none => rw [hfst] at h; cases h
            | some fst => rw [hfst] at h; exact recur _ _ (hwp _ hc) h
          · rw [if_neg e1] at h; cases h
      rw [if_neg hblk] at h
      by_cases hnip : c.is_NIP = true
      · rw [if_pos hnip] at h
        by_cases e1 : ss = 2
        · rw [if_pos e1] at h
          exact final [] (by simp) (by simpa using h)
        rw [if_neg e1] at h
        by_cases e2 : ss > 2
        · rw [if_pos e2] at h; exact recur _ _ (hwp _ hc) h
        · rw [if_neg e2] at h; cases h
      rw [if_neg hnip] at h
      cases hd : c.get_drop_index with
      | none => rw [hd] at h; cases h
      | some n =>
        rw [hd] at h
        simp only at h
        by_cases e1 : n > 0
        · rw [if_pos e1] at h
          by_cases e2 : ss ≤ n
          · rw [if_pos e2] at h
            by_cases e3 : n > 1
            · rw [if_pos e3] at h
              cases hm : make_DROP (n - 1) with
              | none => rw [hm] at h; cases h
              | some dropOpcodes =>
                rw [hm] at h
                exact final dropOpcodes (make_DROP_insertable _ _ hm) h
            · rw [if_neg e3] at h
              exact final [] (by simp) (by simpa using h)
          · rw [if_neg e2] at h; exact recur _ _ (hwp _ hc) h
        rw [if_neg e1] at h
        by_cases hs : c.is_simple_command_ = true
        · rw [if_pos hs] at h
          by_cases e2 : ss ≤ c.inputs_count_
          · rw [if_pos e2] at h; cases h
          · rw [if_neg e2] at h; exact recur _ _ (hwp _ hc) h
        · rw [if_neg hs] at h; cases h



theorem parsed_starts (c : Cmd) (h : isParsed c) (hne : c.cmd_ ≠ "") :
    startsCommand c.cmd_ = true := by
  rcases parsed_fields c h with ⟨h1, _⟩ | h1
  · exact absurd h1 hne
  · exact h1

theorem stripLast_starts (c : String)
    (h : ["STUR", "STIR", "STBR", "STBREFR", "STSLICER", "STREFR"].contains c = true) :
    startsCommand (String.mk (c.data.take (c.length - 1))) = true := by
  simp only [List.contains, List.elem_eq_mem, List.mem_cons, List.mem_singleton,
    List.not_mem_nil, or_false, decide_eq_true_eq] at h
  rcases h with rfl | rfl | rfl | rfl | rfl | rfl <;> decide

theorem shifted_insertable (b : Prop) [Decidable b] (o : Option Int) (f : Int → Int)
    (c : Cmd) (s : String)
    (h : (if b then o.bind fun pi => make_PUSH (f pi) else some c.without_prefix) = some s)
    (hp : isParsed c) : isInsertable s = true := by
  split_ifs at h
  · cases o with
    | none => cases h
    | some pi => exact make_PUSH_insertable _ _ h
  · simp only [Option.some.injEq] at h
    rw [← h]
    exact without_prefix_insertable c hp

theorem simulateRule_insertable (w : Window) (i ss rc : Int) (cmds : List String)
    (res : Result) (h : simulateRule w i ss rc cmds = some (some res))
    (hc : ∀ c ∈ cmds, isInsertable c = true) : ∀ c ∈ res.commands_, isInsertable c = true := by
  unfold simulateRule at h
  cases ht : try_simulate w.lines_ i ss rc cmds with
  | none => rw [ht] at h; cases h
  | some o =>
    cases o with
    | none => rw [ht] at h; simp [miss] at h
    | some pr =>
      obtain ⟨n, cs⟩ := pr
      rw [ht] at h
      simp only [hit, Option.some.injEq] at h
      subst h
      unfold try_simulate at ht
      split_ifs at ht
      · exact try_simulate_loop_insertable _ _ _ _ _ _ _ _ _ ht hc
      · cases ht

theorem oneSlice_insertable (opcodes : Option (List String)) (remove : Int) (head : String)
    (tail : List String) (res : Result) (h : oneSlice opcodes remove head tail = some (some res))
    (hh : startsCommand head = true) (ht : ∀ c ∈ tail, isInsertable c = true) :
    ∀ c ∈ res.commands_, isInsertable c = true := by
  unfold oneSlice at h
  split at h
  · cases h
  · simp only [hit, Option.some.injEq] at h
    subst h
    intro c hc
    rcases List.mem_cons.mp hc with rfl | hc
    · exact isInsertable_of_starts _ (startsCommand_append _ _ hh)
    · exact ht c hc
  · simp [miss] at h

theorem pushSliceResult_insertable (tc : TvmConst) (bitStr : Option (List Char)) (remove : Int)
    (res : Result) (h : pushSliceResult tc bitStr remove = some (some res)) :
    ∀ c ∈ res.commands_, isInsertable c = true := by
  unfold pushSliceResult at h
  split at h
  · cases h
  · exact oneSlice_insertable _ _ _ _ _ h (by decide) (by decide)

set_option linter.unusedTactic false
set_option linter.unreachableTactic false
set_option linter.unusedVariables false

set_option maxHeartbeats 20000000 in
/-- The replacement commands of a result of a rule of `optimize_at` are empty or start
with a character that is neither blank nor `;`. -/
theorem rules_insertable (tc : TvmConst) (w : Window) (hw : windowParsed w) (res : Result)
    (r : Window → RuleResult) (hr : r ∈ rules tc) (h : r w = some (some res)) :
    ∀ c ∈ res.commands_, isInsertable c = true := by
  obtain ⟨p1, p2, p3, p4, p5, p6⟩ := hw
  have q1 := without_prefix_insertable _ p1
  have q2 := without_prefix_insertable _ p2
  have q3 := without_prefix_insertable _ p3
  have q4 := without_prefix_insertable _ p4
  have q5 := without_prefix_insertable _ p5
  have q6 := without_prefix_insertable _ p6
  simp only [rules, List.mem_cons, List.mem_singleton, List.not_mem_nil, or_false] at hr
  rcases hr with rfl | rfl | rfl | rfl | rfl | rfl | rfl | rfl | rfl | rfl | rfl | rfl | rfl | rfl
    | rfl | rfl | rfl | rfl | rfl | rfl | rfl | rfl | rfl | rfl | rfl | rfl | rfl | rfl | rfl
    | rfl | rfl | rfl | rfl | rfl | rfl | rfl | rfl | rfl | rfl | rfl | rfl | rfl | rfl | rfl
    | rfl | rfl | rfl | rfl | rfl | rfl | rfl | rfl | rfl | rfl | rfl | rfl | rfl | rfl | rfl
    | rfl | rfl | rfl | rfl | rfl | rfl | rfl | rfl | rfl | rfl | rfl | rfl | rfl | rfl | rfl
    | rfl | rfl | rfl | rfl | rfl | rfl | rfl | rfl | rfl | rfl | rfl | rfl | rfl
  all_goals
    (first
      | (unfold rule396 at h) | (unfold rule403 at h) | (unfold rule412 at h) | (unfold rule426 at h)
      | (unfold rule431 at h) | (unfold rule434 at h) | (unfold rule443 at h) | (unfold rule452 at h)
      | (unfold rule459 at h) | (unfold rule476 at h) | (unfold rule479 at h) | (unfold rule490 at h)
      | (unfold rule501 at h) | (unfold rule508 at h) | (unfold rule517 at h) | (unfold rule523 at h)
      | (unfold rule528 at h) | (unfold rule531 at h) | (unfold rule537 at h) | (unfold rule548 at h)
      | (unfold rule555 at h) | (unfold rule562 at h) | (unfold rule569 at h) | (unfold rule576 at h)
      | (unfold rule590 at h) | (unfold rule597 at h) | (unfold rule600 at h) | (unfold rule603 at h)
      | (unfold rule606 at h) | (unfold rule612 at h) | (unfold rule618 at h) | (unfold rule623 at h)
      | (unfold rule628 at h) | (unfold rule632 at h) | (unfold rule636 at h) | (unfold rule640 at h)
      | (unfold rule666 at h) | (unfold rule669 at h) | (unfold rule672 at h) | (unfold rule676 at h)
      | (unfold rule688 at h) | (unfold rule698 at h) | (unfold rule709 at h) | (unfold rule716 at h)
      | (unfold rule725 at h) | (unfold rule735 at h) | (unfold rule740 at h) | (unfold rule744 at h)
      | (unfold rule749 at h) | (unfold rule752 at h) | (unfold rule757 at h) | (unfold rule764 at h)
      | (unfold rule769 at h) | (unfold rule773 at h) | (unfold rule777 at h) | (unfold rule787 at h)
      | (unfold rule795 at h) | (unfold rule803 at h) | (unfold rule817 at h) | (unfold rule821 at h)
      | (unfold rule833 at h) | (unfold rule843 at h) | (unfold rule855 at h) | (unfold rule864 at h)
      | (unfold rule874 at h) | (unfold rule886 at h) | (unfold rule897 at h) | (unfold rule909 at h)
      | (unfold rule914 at h) | (unfold rule918 at h) | (unfold rule928 at h) | (unfold rule935 at h)
      | (unfold rule945 at h) | (unfold rule950 at h) | (unfold rule966 at h) | (unfold rule984 at h)
      | (unfold rule1001 at h) | (unfold rule1013 at h) | (unfold rule1031 at h) | (unfold rule1044 at h)
      | (unfold rule1052 at h) | (unfold rule1073 at h) | (unfold rule1093 at h) | (unfold rule1105 at h)
      | (unfold rule1120 at h) | (unfold rule1130 at h) | (unfold rule1137 at h))
    simp only [hit, miss] at h
    repeat' split at h
    all_goals first
      | (simp at h <;> fail)
      | exact simulateRule_insertable _ _ _ _ _ _ h (by decide)
      | exact oneSlice_insertable _ _ _ _ _ h (by decide) (by decide)
      | exact pushSliceResult_insertable _ _ _ _ h
      | (simp only [Option.some.injEq] at h
         subst h
         first
           | exact make_DROP_insertable _ _ (by assumption)
           | exact insertable_append _ _ (make_DROP_insertable _ _ (by assumption))
               (insertable_single _ (by assumption))
           | (simp only [List.forall_mem_cons, List.mem_cons, forall_eq_or_imp, forall_eq,
                List.not_mem_nil, IsEmpty.forall_iff, implies_true, and_true]
              repeat' apply And.intro
              all_goals first
                | decide
                | assumption
                | exact make_PUSH_insertable _ _ (by assumption)
                | exact make_POP_insertable _ _ (by assumption)
                | exact make_BLKPUSH_insertable _ _ _ (by assumption)
                | exact make_DROP_insertable _ _ (by assumption)
                | exact blkpushZeros_insertable _ _ _ (by assumption)
                | exact shifted_insertable _ _ _ _ _ (by assumption) (by assumption)
                | (apply isInsertable_of_starts
                   repeat (first | decide | apply startsCommand_append)
                   all_goals first
                     | (apply parsed_starts _ (by assumption)
                        intro he
                        simp [Cmd.is, he] at *
                        done)
                     | (apply stripLast_starts
                        simp only [Bool.and_eq_true] at *
                        tauto))))

/-- The replacement commands of a result of `optimize_at` are empty or start with a
character that is neither blank nor `;`. -/
theorem optimize_at_insertable (tc : TvmConst) (lines_ : List String) (idx1 : Int)
    (res : Result) (h : optimize_at tc lines_ idx1 = some res) :
    ∀ c ∈ res.commands_, isInsertable c = true := by
  unfold optimize_at at h
  cases hw : Window.at lines_ idx1 with
  | none => rw [hw] at h; cases h
  | some w =>
    rw [hw] at h
    simp only at h
    have hp := window_parsed _ _ _ hw
    rcases firstRule_cases _ _ _ h with h0 | ⟨r, hr, hrw⟩
    · rw [h0]
      intro c hc
      cases hc
    exact rules_insertable tc w hp res r hr hrw

theorem updateLines_unchanged (lines_ : List String) (idx1 : Int) (b : Bool) (i' : Int)
    (lines' : List String) (h : updateLines lines_ idx1 ⟨false, 0, []⟩ = some (b, i', lines')) :
    lines' = lines_ := by
  rw [updateLines_false] at h
  simp only [Option.some.injEq, Prod.mk.injEq] at h
  exact h.2.2.symm

/-- A step of the `optimize_at` pass keeps the blank and comment lines. -/
theorem optimize_at_step_comments (tc : TvmConst) (lines_ : List String) (idx1 : Int)
    (res : Result) (b : Bool) (i' : Int) (lines' : List String)
    (hv : valid lines_ idx1 = true) (h : optimize_at tc lines_ idx1 = some res)
    (hu : updateLines lines_ idx1 res = some (b, i', lines')) :
    commentLines lines' = commentLines lines_ := by
  rcases optimize_at_result tc lines_ idx1 res h with h0 | ⟨hc, hrem⟩
  · rw [h0] at hu
    rw [updateLines_unchanged _ _ _ _ _ hu]
  · by_cases hr : 1 ≤ res.remove_
    · obtain ⟨k, rfl, hk⟩ := valid_to_nat _ _ hv
      have hcmd := optimize_at_hit_command tc lines_ _ res h hc hv
      exact updateLines_comments lines_ k hk res hr hcmd
        (optimize_at_insertable tc lines_ _ res h) b i' lines' hu
    · rcases hrem with hrem | hrem
      · exact absurd hrem hr
      · rw [updateLines_nothing lines_ idx1 b i' lines' res (by omega) hrem hu]

/-- A step of the `unsquash_push` pass keeps the blank and comment lines. -/
theorem unsquash_push_step_comments (lines_ : List String) (idx1 : Int)
    (res : Result) (b : Bool) (i' : Int) (lines' : List String)
    (hv : valid lines_ idx1 = true) (h : unsquash_push lines_ idx1 = some res)
    (hu : updateLines lines_ idx1 res = some (b, i', lines')) :
    commentLines lines' = commentLines lines_ := by
  have hins : ∀ c ∈ res.commands_, isInsertable c = true := by
    unfold unsquash_push at h
    cases h1 : cmd lines_ idx1 with
    | none => rw [h1] at h; cases h
    | some c1 =>
      rw [h1] at h
      simp only at h
      split_ifs at h
      · cases h2 : c1.get_push2_indexes with
        | none => rw [h2] at h; cases h
        | some pr =>
          obtain ⟨si, sj⟩ := pr
          rw [h2] at h
          simp only at h
          cases h3 : make_PUSH si with
          | none => rw [h3] at h; cases h
          | some a =>
            cases h4 : make_PUSH (sj + 1) with
            | none => rw [h3, h4] at h; cases h
            | some b2 =>
              rw [h3, h4] at h
              simp only [Option.some.injEq] at h
              rw [← h]
              intro c hc
              simp only [Result.Replace, List.mem_cons, List.mem_singleton, List.not_mem_nil,
                or_false] at hc
              rcases hc with rfl | rfl
              · exact make_PUSH_insertable _ _ h3
              · exact make_PUSH_insertable _ _ h4
      · simp only [Option.some.injEq] at h
        rw [← h]
        intro c hc
        cases hc
  rcases unsquash_push_result lines_ idx1 res h with h0 | ⟨c1, a, b2, hc1, hn, hres⟩
  · rw [h0] at hu
    rw [updateLines_unchanged _ _ _ _ _ hu]
  · obtain ⟨k, rfl, hk⟩ := valid_to_nat _ _ hv
    have hcmd := command_of_name lines_ _ c1 hc1 (by rw [hn]; decide)
    exact updateLines_comments lines_ k hk res (by rw [hres]) hcmd hins b i' lines' hu

/-- A step of the `squash_push` pass keeps the blank and comment lines. -/
theorem squash_push_step_comments (lines_ : List String) (idx1 : Int)
    (res : Result) (b : Bool) (i' : Int) (lines' : List String)
    (hv : valid lines_ idx1 = true) (h : squash_push lines_ idx1 = some res)
    (hu : updateLines lines_ idx1 res = some (b, i', lines')) :
    commentLines lines' = commentLines lines_ := by
  rcases squash_push_result lines_ idx1 res h with h0 | ⟨c1, c, hc1, hn, _, hr, hcs, hform⟩
  · rw [h0] at hu
    rw [updateLines_unchanged _ _ _ _ _ hu]
  · obtain ⟨k, rfl, hk⟩ := valid_to_nat _ _ hv
    have hcmd := command_of_name lines_ _ c1 hc1 hn
    refine updateLines_comments lines_ k hk res hr hcmd ?_ b i' lines' hu
    rw [hcs]
    intro c0 hc0
    simp only [List.mem_singleton] at hc0
    subst hc0
    rcases hform with ⟨x, rfl⟩ | ⟨x, rfl⟩ | rfl | rfl
    · exact isInsertable_of_starts _ (startsCommand_append _ _ (by decide))
    · exact isInsertable_of_starts _ (startsCommand_append _ _ (by decide))
    · decide
    · decide

/-- A pass each of whose steps keeps the blank and comment lines keeps them. -/
theorem optimize_comments (f : List String → Int → Option Result)
    (hstep : ∀ lines_ idx1 res b i' lines', valid lines_ idx1 = true →
      f lines_ idx1 = some res → updateLines lines_ idx1 res = some (b, i', lines') →
      commentLines lines' = commentLines lines_)
    (fuel : Nat) (lines_ out : List String) (h : optimize f fuel lines_ = some out) :
    commentLines out = commentLines lines_ :=
  optimizeLoop_invariant f (fun l => commentLines l = commentLines lines_)
    (fun l idx1 res b i' l' hv hf hu hP => (hstep l idx1 res b i' l' hv hf hu).trans hP)
    fuel lines_ 0 out h rfl

end TVMOptimizer

/-- C37: when `optimize_code` returns, the blank and whole-line comment lines of its result
are those of its input, in the same order: the optimizer does not remove, insert, alter or
reorder such lines. -/
theorem C37_comment_lines (tc : TVMOptimizer.TvmConst) (fuel : Nat) (L out : List String)
    (h : TVMOptimizer.optimize_code tc fuel L = some out) :
    commentLines out = commentLines L := by
  unfold TVMOptimizer.optimize_code at h
  cases h1 : TVMOptimizer.optimize TVMOptimizer.unsquash_push fuel L with
  | none => rw [h1] at h; cases h
  | some l1 =>
    rw [h1] at h
    simp only [Option.some_bind] at h
    cases h2 : TVMOptimizer.optimize (TVMOptimizer.optimize_at tc) fuel l1 with
    | none => rw [h2] at h; cases h
    | some l2 =>
      rw [h2] at h
      simp only [Option.some_bind] at h
      cases h3 : TVMOptimizer.optimize (TVMOptimizer.optimize_at tc) fuel l2 with
      | none => rw [h3] at h; cases h
      | some l3 =>
        rw [h3] at h
        simp only [Option.some_bind] at h
        have e1 := TVMOptimizer.optimize_comments _
          TVMOptimizer.unsquash_push_step_comments fuel L l1 h1
        have e2 := TVMOptimizer.optimize_comments _
          (TVMOptimizer.optimize_at_step_comments tc) fuel l1 l2 h2
        have e3 := TVMOptimizer.optimize_comments _
          (TVMOptimizer.optimize_at_step_comments tc) fuel l2 l3 h3
        have e4 := TVMOptimizer.optimize_comments _
          TVMOptimizer.squash_push_step_comments fuel l3 out h
        rw [e4, e3, e2, e1]

/-- C37 on a log with three comment and blank lines around `PUSHINT 1; ADD`, which the
optimizer rewrites to `INC`. -/
theorem C37_comment_lines_witness :
    TVMOptimizer.optimize_code sampleTvmConst 30
        ["; first", "PUSHINT 1", "", "ADD", "  ; last"]
      = some ["; first", "", "INC", "  ; last"] ∧
    commentLines ["; first", "", "INC", "  ; last"]
      = commentLines ["; first", "PUSHINT 1", "", "ADD", "  ; last"] :=
  ⟨by decide, C37_comment_lines sampleTvmConst 30 _ _ (by decide)⟩

/-- C24: for an optional and for a fixed-point type `pushDefaultValue` does not read
`isResultBuilder`: with `true` it runs exactly as with `false` and emits the single line
`NULL`, respectively `PUSHINT 0`. What it leaves is the zero value itself and not a builder
that holds an encoding of it, so there is no encoding that `preload` could decode. -/
theorem C24_default_not_encoded (env : DefaultEnv) (p : StackPusherHelper) :
    (∀ valueType : SolType,
      p.pushDefaultValue env (.Optional valueType) true
          = p.pushDefaultValue env (.Optional valueType) false ∧
        p.pushDefaultValue env (.Optional valueType) true = p.push 1 "NULL") ∧
    (∀ (numBits fractionalDigits : Nat) (isSigned : Bool),
      p.pushDefaultValue env (.FixedPoint numBits fractionalDigits isSigned) true
          = p.pushDefaultValue env (.FixedPoint numBits fractionalDigits isSigned) false ∧
        p.pushDefaultValue env (.FixedPoint numBits fractionalDigits isSigned) true
          = p.push 1 "PUSHINT 0") :=
  ⟨fun _ => ⟨rfl, rfl⟩, fun _ _ _ => ⟨rfl, rfl⟩⟩

end TVM
